import Mathlib

/-! # ENet reliable-UDP engine: shallow embedding of `enet.c`

The definitions below follow `src/enet_sh/enet.c` function by function.  Intrusive
lists become `List`s (head of the list = `enet_list_begin`), pointers to packets held
by outgoing commands become handles (`Nat`), machine integers are `Nat` reduced with
`%` where the C type wraps.  A result of `none` stands for undefined behaviour of the
C code (out-of-bounds channel access, division by zero) or for a loop that does not end.

`enet.h` is not part of the sources: its constants and record shapes are taken from
section 6 of the specification and marked as such.
-/

namespace ENet

/-! ## Constants of `enet.h` -/

/-- Modelled from the spec: `MINIMUM_MTU=576` (section 6, constants of the missing `enet.h`). -/
def ENET_PROTOCOL_MINIMUM_MTU : Nat := 576
/-- Modelled from the spec: `MAXIMUM_MTU=4096` (section 6, constants of the missing `enet.h`). -/
def ENET_PROTOCOL_MAXIMUM_MTU : Nat := 4096
/-- Modelled from the spec: `MINIMUM_WINDOW_SIZE=4096` (section 6). -/
def ENET_PROTOCOL_MINIMUM_WINDOW_SIZE : Nat := 4096
/-- Modelled from the spec: `MAXIMUM_WINDOW_SIZE=65536` (section 6). -/
def ENET_PROTOCOL_MAXIMUM_WINDOW_SIZE : Nat := 65536
/-- Modelled from the spec: `MINIMUM_CHANNEL_COUNT=1` (section 6). -/
def ENET_PROTOCOL_MINIMUM_CHANNEL_COUNT : Nat := 1
/-- Modelled from the spec: `MAXIMUM_CHANNEL_COUNT=255` (section 6). -/
def ENET_PROTOCOL_MAXIMUM_CHANNEL_COUNT : Nat := 255
/-- Modelled from the spec: `MAXIMUM_PEER_ID=0xFFF` (section 6). -/
def ENET_PROTOCOL_MAXIMUM_PEER_ID : Nat := 0xFFF
/-- Modelled from the spec: `MAXIMUM_FRAGMENT_COUNT=1048576` (section 6). -/
def ENET_PROTOCOL_MAXIMUM_FRAGMENT_COUNT : Nat := 1048576
/-- Modelled from the spec: `RELIABLE_WINDOW_SIZE=4096` (section 6). -/
def ENET_PEER_RELIABLE_WINDOW_SIZE : Nat := 4096
/-- Modelled from the spec: `RELIABLE_WINDOWS=16` (section 6). -/
def ENET_PEER_RELIABLE_WINDOWS : Nat := 16
/-- Modelled from the spec: `FREE_RELIABLE_WINDOWS=8` (section 6). -/
def ENET_PEER_FREE_RELIABLE_WINDOWS : Nat := 8
/-- Modelled from the spec: `PACKET_THROTTLE_SCALE=32` (section 6). -/
def ENET_PEER_PACKET_THROTTLE_SCALE : Nat := 32
/-- Modelled from the spec: `THROTTLE_COUNTER=7` (section 6). -/
def ENET_PEER_PACKET_THROTTLE_COUNTER : Nat := 7

/-- Modelled from the spec: flag bit `ACKNOWLEDGE=0x80` of the command byte (section 4.1). -/
def ENET_PROTOCOL_COMMAND_FLAG_ACKNOWLEDGE : Nat := 0x80
/-- Modelled from the spec: flag bit `UNSEQUENCED=0x40` of the command byte (section 4.1). -/
def ENET_PROTOCOL_COMMAND_FLAG_UNSEQUENCED : Nat := 0x40
/-- Modelled from the spec: the command number sits in the low 4 bits of the command byte
(section 6, command header). -/
def ENET_PROTOCOL_COMMAND_MASK : Nat := 0x0F

/-- Modelled from the spec: command numbers of the table in section 6 (`enet.h` is missing). -/
def ENET_PROTOCOL_COMMAND_NONE : Nat := 0
/-- Modelled from the spec: command number 1 of the table in section 6. -/
def ENET_PROTOCOL_COMMAND_ACKNOWLEDGE : Nat := 1
/-- Modelled from the spec: command number 2 of the table in section 6. -/
def ENET_PROTOCOL_COMMAND_CONNECT : Nat := 2
/-- Modelled from the spec: command number 3 of the table in section 6. -/
def ENET_PROTOCOL_COMMAND_VERIFY_CONNECT : Nat := 3
/-- Modelled from the spec: command number 4 of the table in section 6. -/
def ENET_PROTOCOL_COMMAND_DISCONNECT : Nat := 4
/-- Modelled from the spec: command number 5 of the table in section 6. -/
def ENET_PROTOCOL_COMMAND_PING : Nat := 5
/-- Modelled from the spec: command number 6 of the table in section 6. -/
def ENET_PROTOCOL_COMMAND_SEND_RELIABLE : Nat := 6
/-- Modelled from the spec: command number 7 of the table in section 6. -/
def ENET_PROTOCOL_COMMAND_SEND_UNRELIABLE : Nat := 7
/-- Modelled from the spec: command number 8 of the table in section 6. -/
def ENET_PROTOCOL_COMMAND_SEND_FRAGMENT : Nat := 8
/-- Modelled from the spec: command number 9 of the table in section 6. -/
def ENET_PROTOCOL_COMMAND_SEND_UNSEQUENCED : Nat := 9
/-- Modelled from the spec: command number 10 of the table in section 6. -/
def ENET_PROTOCOL_COMMAND_BANDWIDTH_LIMIT : Nat := 10
/-- Modelled from the spec: command number 11 of the table in section 6. -/
def ENET_PROTOCOL_COMMAND_THROTTLE_CONFIGURE : Nat := 11
/-- Modelled from the spec: command number 12 of the table in section 6. -/
def ENET_PROTOCOL_COMMAND_SEND_UNRELIABLE_FRAGMENT : Nat := 12

/-- Modelled from the spec: size of the protocol header record, `peerID:uint16` followed by
`sentTime:uint16` (section 6); stands for `sizeof (ENetProtocolHeader)`. -/
def sizeof_ENetProtocolHeader : Nat := 4
/-- Modelled from the spec: size of the `SEND_FRAGMENT` record, the 4-byte command header and
`startSeq:u16, dataLength:u16, fragmentCount:u32, fragmentNumber:u32, totalLength:u32,
fragmentOffset:u32` (section 6); stands for `sizeof (ENetProtocolSendFragment)`. -/
def sizeof_ENetProtocolSendFragment : Nat := 24
/-- Modelled from the spec: `sizeof (enet_uint32)`, the checksum word of section 4.1. -/
def sizeof_enet_uint32 : Nat := 4

/-- Modelled from the spec: the record sizes behind the table `commandSizes`, computed from the
record shapes of section 6 (a 4-byte command header plus the trailing fields; `VERIFY_CONNECT`
"same shape as CONNECT").  Index = command number. -/
def commandSizes : List Nat :=
  [0, 8, 48, 48, 8, 4, 6, 8, 24, 8, 12, 16, 24]

/-! ## Machine integers -/

/-- Truncation to `enet_uint8`. -/
def u8 (x : Nat) : Nat := x % 256
/-- Truncation to `enet_uint16`. -/
def u16 (x : Nat) : Nat := x % 65536
/-- Truncation to `enet_uint32`. -/
def u32 (x : Nat) : Nat := x % 4294967296
/-- Truncation to `size_t` (64 bits). -/
def usize (x : Nat) : Nat := x % 18446744073709551616
/-- Subtraction of `size_t` values, wrapping below zero. -/
def usizeSub (a b : Nat) : Nat := (usize a + 18446744073709551616 - usize b) % 18446744073709551616

/-- `ENET_HOST_TO_NET_16`: a record field of the model holds the number that its big-endian
bytes encode, so the conversion only truncates to the width of the field. -/
def ENET_HOST_TO_NET_16 (x : Nat) : Nat := u16 x
/-- `ENET_NET_TO_HOST_16`, the inverse view of `ENET_HOST_TO_NET_16`. -/
def ENET_NET_TO_HOST_16 (x : Nat) : Nat := u16 x
/-- `ENET_HOST_TO_NET_32`, see `ENET_HOST_TO_NET_16`. -/
def ENET_HOST_TO_NET_32 (x : Nat) : Nat := u32 x
/-- `ENET_NET_TO_HOST_32`, see `ENET_HOST_TO_NET_16`. -/
def ENET_NET_TO_HOST_32 (x : Nat) : Nat := u32 x

/-! ## Data model -/

/-- Values of `ENetPeerState`, in the order of the specification (section 4.2). -/
inductive ENetPeerState
  | DISCONNECTED
  | CONNECTING
  | ACKNOWLEDGING_CONNECT
  | CONNECTION_PENDING
  | CONNECTION_SUCCEEDED
  | CONNECTED
  | DISCONNECT_LATER
  | DISCONNECTING
  | ACKNOWLEDGING_DISCONNECT
  | ZOMBIE
  deriving DecidableEq

/-- The flag set of a packet (`ENET_PACKET_FLAG_*`), one boolean per flag bit. -/
structure ENetPacketFlags where
  reliable : Bool
  unsequenced : Bool
  noAllocate : Bool
  unreliableFragment : Bool
  sent : Bool
  deriving DecidableEq

/-- An `ENetPacket`: reference count, flags, payload bytes and length. -/
structure ENetPacket where
  referenceCount : Nat
  flags : ENetPacketFlags
  data : List Nat
  dataLength : Nat
  deriving DecidableEq

/-- The fields shared by the `CONNECT` and `VERIFY_CONNECT` records. -/
structure ENetProtocolConnect where
  outgoingPeerID : Nat
  incomingSessionID : Nat
  outgoingSessionID : Nat
  mtu : Nat
  windowSize : Nat
  channelCount : Nat
  incomingBandwidth : Nat
  outgoingBandwidth : Nat
  packetThrottleInterval : Nat
  packetThrottleAcceleration : Nat
  packetThrottleDeceleration : Nat
  connectID : Nat
  data : Nat
  deriving DecidableEq

/-- The fields of the `SEND_FRAGMENT` record after the command header. -/
structure ENetProtocolSendFragment where
  startSequenceNumber : Nat
  dataLength : Nat
  fragmentCount : Nat
  fragmentNumber : Nat
  totalLength : Nat
  fragmentOffset : Nat
  deriving DecidableEq

/-- The members of the union `ENetProtocol` after the command header. -/
inductive ENetProtocolBody
  | unset
  | acknowledge (receivedReliableSequenceNumber receivedSentTime : Nat)
  | connect (c : ENetProtocolConnect)
  | verifyConnect (c : ENetProtocolConnect)
  | disconnect (data : Nat)
  | sendReliable (dataLength : Nat)
  | sendUnreliable (unreliableSequenceNumber dataLength : Nat)
  | sendUnsequenced (unsequencedGroup dataLength : Nat)
  | sendFragment (f : ENetProtocolSendFragment)
  | bandwidthLimit (incomingBandwidth outgoingBandwidth : Nat)
  | throttleConfigure (packetThrottleInterval packetThrottleAcceleration
      packetThrottleDeceleration : Nat)
  deriving DecidableEq

/-- The union `ENetProtocol`: the command header and the record that follows it. -/
structure ENetProtocol where
  command : Nat
  channelID : Nat
  reliableSequenceNumber : Nat
  body : ENetProtocolBody
  deriving DecidableEq

/-- An `ENetOutgoingCommand`; `packet` is the handle of the packet it points at. -/
structure ENetOutgoingCommand where
  reliableSequenceNumber : Nat
  unreliableSequenceNumber : Nat
  sentTime : Nat
  roundTripTimeout : Nat
  roundTripTimeoutLimit : Nat
  fragmentOffset : Nat
  fragmentLength : Nat
  sendAttempts : Nat
  command : ENetProtocol
  packet : Option Nat
  deriving DecidableEq

/-- An `ENetIncomingCommand`; it owns the packet created for it.  `fragments` is the bitmap
of received fragments, `none` for the NULL pointer. -/
structure ENetIncomingCommand where
  reliableSequenceNumber : Nat
  unreliableSequenceNumber : Nat
  command : ENetProtocol
  fragmentCount : Nat
  fragmentsRemaining : Nat
  fragments : Option (List Nat)
  packet : ENetPacket
  deriving DecidableEq

/-- An `ENetAcknowledgement`. -/
structure ENetAcknowledgement where
  sentTime : Nat
  command : ENetProtocol
  deriving DecidableEq

/-- An `ENetChannel`. -/
structure ENetChannel where
  outgoingReliableSequenceNumber : Nat
  outgoingUnreliableSequenceNumber : Nat
  usedReliableWindows : Nat
  reliableWindows : List Nat
  incomingReliableSequenceNumber : Nat
  incomingUnreliableSequenceNumber : Nat
  incomingReliableCommands : List ENetIncomingCommand
  incomingUnreliableCommands : List ENetIncomingCommand
  deriving DecidableEq

/-- An `ENetAddress`. -/
structure ENetAddress where
  host : Nat
  port : Nat
  deriving DecidableEq

/-- An `ENetPeer`.  `needsDispatch` is the flag `ENET_PEER_FLAG_NEEDS_DISPATCH` of `flags`;
`channels` is the allocated channel array (`[]` for NULL). -/
structure ENetPeer where
  outgoingPeerID : Nat
  incomingPeerID : Nat
  connectID : Nat
  outgoingSessionID : Nat
  incomingSessionID : Nat
  address : ENetAddress
  state : ENetPeerState
  channels : List ENetChannel
  channelCount : Nat
  incomingBandwidth : Nat
  outgoingBandwidth : Nat
  incomingBandwidthThrottleEpoch : Nat
  outgoingBandwidthThrottleEpoch : Nat
  incomingDataTotal : Nat
  outgoingDataTotal : Nat
  lastSendTime : Nat
  lastReceiveTime : Nat
  nextTimeout : Nat
  earliestTimeout : Nat
  packetLossEpoch : Nat
  packetsSent : Nat
  packetsLost : Nat
  packetLoss : Nat
  packetLossVariance : Nat
  packetThrottle : Nat
  packetThrottleLimit : Nat
  packetThrottleCounter : Nat
  packetThrottleEpoch : Nat
  packetThrottleAcceleration : Nat
  packetThrottleDeceleration : Nat
  packetThrottleInterval : Nat
  pingInterval : Nat
  timeoutLimit : Nat
  timeoutMinimum : Nat
  timeoutMaximum : Nat
  lastRoundTripTime : Nat
  lowestRoundTripTime : Nat
  lastRoundTripTimeVariance : Nat
  highestRoundTripTimeVariance : Nat
  roundTripTime : Nat
  roundTripTimeVariance : Nat
  mtu : Nat
  windowSize : Nat
  reliableDataInTransit : Nat
  outgoingReliableSequenceNumber : Nat
  acknowledgements : List ENetAcknowledgement
  sentReliableCommands : List ENetOutgoingCommand
  sentUnreliableCommands : List ENetOutgoingCommand
  outgoingCommands : List ENetOutgoingCommand
  dispatchedCommands : List ENetIncomingCommand
  needsDispatch : Bool
  incomingUnsequencedGroup : Nat
  outgoingUnsequencedGroup : Nat
  unsequencedWindow : List Nat
  eventData : Nat
  totalWaitingData : Nat
  deriving DecidableEq

/-- An `ENetBuffer` of the outgoing datagram: a command record of `host.commands`, a byte
range of a packet, the protocol header (`headerData`, with the checksum word when there is
one) or the compressed form of the datagram (`host -> packetData [1]`). -/
inductive ENetBuffer
  | command (index : Nat) (dataLength : Nat)
  | payload (packet : Nat) (offset : Nat) (dataLength : Nat)
  | header (dataLength : Nat)
  | compressed (dataLength : Nat)
  deriving DecidableEq

/-- An `ENetHost`, without its socket.  `checksum` tells whether a checksum callback is set,
`compressor` whether a compressor with a `compress` callback is set; `dispatchQueue` lists
the `incomingPeerID`s of the linked peers; `commands` and `buffers` are the used parts of the
scratch arrays. -/
structure ENetHost where
  incomingBandwidth : Nat
  outgoingBandwidth : Nat
  bandwidthThrottleEpoch : Nat
  mtu : Nat
  randomSeed : Nat
  recalculateBandwidthLimits : Nat
  peers : List ENetPeer
  peerCount : Nat
  channelLimit : Nat
  serviceTime : Nat
  dispatchQueue : List Nat
  continueSending : Nat
  packetSize : Nat
  headerFlags : Nat
  commands : List ENetProtocol
  commandCount : Nat
  buffers : List ENetBuffer
  bufferCount : Nat
  checksum : Bool
  receivedAddress : ENetAddress
  connectedPeers : Nat
  bandwidthLimitedPeers : Nat
  duplicatePeers : Nat
  maximumPacketSize : Nat
  maximumWaitingData : Nat
  compressor : Bool
  totalSentData : Nat
  totalSentPackets : Nat
  deriving DecidableEq

/-! ## callbacks.c -/

/-- `enet_malloc`: `mem` counts the allocations that will still succeed; `none` is the NULL
result (with a `no_memory` callback that returns). -/
def enet_malloc (mem : Nat) : Option Nat :=
  if mem = 0 then none else some (mem - 1)

/-! ## protocol.c: command sizes -/

/-- `enet_protocol_command_size`. -/
def enet_protocol_command_size (commandNumber : Nat) : Nat :=
  commandSizes.getD (commandNumber &&& ENET_PROTOCOL_COMMAND_MASK) 0

/-! ## peer.c: queueing outgoing commands -/

/-- Writing `command.header.reliableSequenceNumber` and, by command number, the sequence field
of the record, as the tail of `enet_peer_setup_outgoing_command` does. -/
def setupCommandRecord (peer : ENetPeer) (oc : ENetOutgoingCommand) : ENetProtocol :=
  let command := { oc.command with
    reliableSequenceNumber := ENET_HOST_TO_NET_16 oc.reliableSequenceNumber }
  if command.command &&& ENET_PROTOCOL_COMMAND_MASK = ENET_PROTOCOL_COMMAND_SEND_UNRELIABLE then
    match command.body with
    | .sendUnreliable _ dataLength =>
      { command with
        body := .sendUnreliable (ENET_HOST_TO_NET_16 oc.unreliableSequenceNumber) dataLength }
    | _ => command
  else if command.command &&& ENET_PROTOCOL_COMMAND_MASK
      = ENET_PROTOCOL_COMMAND_SEND_UNSEQUENCED then
    match command.body with
    | .sendUnsequenced _ dataLength =>
      { command with
        body := .sendUnsequenced (ENET_HOST_TO_NET_16 peer.outgoingUnsequencedGroup) dataLength }
    | _ => command
  else command

/-- The common tail of `enet_peer_setup_outgoing_command`, after the sequence numbers of the
command have been chosen: reset of the send bookkeeping, the header and record sequence
fields, and insertion at the end of `outgoingCommands`. -/
def enet_peer_setup_outgoing_command_tail (peer : ENetPeer) (oc : ENetOutgoingCommand) :
    ENetPeer :=
  let oc := { oc with sendAttempts := 0, sentTime := 0, roundTripTimeout := 0,
                      roundTripTimeoutLimit := 0 }
  let oc := { oc with command := setupCommandRecord peer oc }
  { peer with outgoingCommands := peer.outgoingCommands ++ [oc] }

/-- `enet_peer_setup_outgoing_command`. -/
def enet_peer_setup_outgoing_command (peer : ENetPeer) (outgoingCommand : ENetOutgoingCommand) :
    Option ENetPeer :=
  let peer := { peer with
    outgoingDataTotal := u32 (peer.outgoingDataTotal
      + enet_protocol_command_size outgoingCommand.command.command
      + outgoingCommand.fragmentLength) }
  if outgoingCommand.command.channelID = 0xFF then
    let peer := { peer with
      outgoingReliableSequenceNumber := u16 (peer.outgoingReliableSequenceNumber + 1) }
    some (enet_peer_setup_outgoing_command_tail peer { outgoingCommand with
      reliableSequenceNumber := peer.outgoingReliableSequenceNumber,
      unreliableSequenceNumber := 0 })
  else
    match peer.channels.get? outgoingCommand.command.channelID with
    | none => none
    | some channel =>
      if outgoingCommand.command.command &&& ENET_PROTOCOL_COMMAND_FLAG_ACKNOWLEDGE ≠ 0 then
        let channel := { channel with
          outgoingReliableSequenceNumber := u16 (channel.outgoingReliableSequenceNumber + 1),
          outgoingUnreliableSequenceNumber := 0 }
        let peer := { peer with
          channels := peer.channels.set outgoingCommand.command.channelID channel }
        some (enet_peer_setup_outgoing_command_tail peer { outgoingCommand with
          reliableSequenceNumber := channel.outgoingReliableSequenceNumber,
          unreliableSequenceNumber := 0 })
      else if outgoingCommand.command.command &&& ENET_PROTOCOL_COMMAND_FLAG_UNSEQUENCED ≠ 0 then
        let peer := { peer with
          outgoingUnsequencedGroup := u16 (peer.outgoingUnsequencedGroup + 1) }
        some (enet_peer_setup_outgoing_command_tail peer { outgoingCommand with
          reliableSequenceNumber := 0,
          unreliableSequenceNumber := 0 })
      else
        let channel :=
          if outgoingCommand.fragmentOffset = 0 then
            { channel with
              outgoingUnreliableSequenceNumber := u16 (channel.outgoingUnreliableSequenceNumber + 1) }
          else channel
        let peer := { peer with
          channels := peer.channels.set outgoingCommand.command.channelID channel }
        some (enet_peer_setup_outgoing_command_tail peer { outgoingCommand with
          reliableSequenceNumber := channel.outgoingReliableSequenceNumber,
          unreliableSequenceNumber := channel.outgoingUnreliableSequenceNumber })

/-- Result of `enet_peer_queue_outgoing_command`: `queued` tells whether a command was
returned (non-NULL); the packet and the allocation budget are handed back. -/
structure QueueOutgoingResult where
  queued : Bool
  peer : ENetPeer
  packet : Option ENetPacket
  mem : Nat
  deriving DecidableEq

/-- `enet_peer_queue_outgoing_command`; `pid` and `packet` are the packet pointer and the
object it points at (both `none` for NULL). -/
def enet_peer_queue_outgoing_command (peer : ENetPeer) (command : ENetProtocol)
    (pid : Option Nat) (packet : Option ENetPacket) (offset length : Nat) (mem : Nat) :
    Option QueueOutgoingResult :=
  match enet_malloc mem with
  | none => some { queued := false, peer := peer, packet := packet, mem := 0 }
  | some mem =>
    let outgoingCommand : ENetOutgoingCommand :=
      { reliableSequenceNumber := 0, unreliableSequenceNumber := 0, sentTime := 0,
        roundTripTimeout := 0, roundTripTimeoutLimit := 0,
        fragmentOffset := u32 offset, fragmentLength := u16 length, sendAttempts := 0,
        command := command, packet := pid }
    let packet := match pid with
      | none => packet
      | some _ => packet.map fun p => { p with referenceCount := usize (p.referenceCount + 1) }
    match enet_peer_setup_outgoing_command peer outgoingCommand with
    | none => none
    | some peer => some { queued := true, peer := peer, packet := packet, mem := mem }

/-! ## peer.c: `enet_peer_send` -/

/-- Outcome of the fragment-building loop of `enet_peer_send`. -/
structure FragmentLoopResult where
  fragments : Option (List ENetOutgoingCommand)
  fragmentNumber : Nat
  mem : Nat
  deriving DecidableEq

/-- The `for` loop of `enet_peer_send` that builds the list `fragments`.  `fragments = none`
in the result is the allocation failure branch (the list is freed, the send returns -1).
One unit of `fuel` is used per iteration. -/
def enet_peer_send_fragment_loop (dataLength : Nat) (pid : Nat)
    (commandNumber channelID startSequenceNumber fragmentCount : Nat) :
    (fuel : Nat) → (fragmentNumber fragmentOffset fragmentLength mem : Nat) →
    (fragments : List ENetOutgoingCommand) → Option FragmentLoopResult
  | fuel, fragmentNumber, fragmentOffset, fragmentLength, mem, fragments =>
    if ¬ fragmentOffset < dataLength then
      some { fragments := some fragments, fragmentNumber := fragmentNumber, mem := mem }
    else
      match fuel with
      | 0 => none
      | fuel + 1 =>
        let fragmentLength :=
          if usizeSub dataLength fragmentOffset < fragmentLength then
            usizeSub dataLength fragmentOffset
          else fragmentLength
        match enet_malloc mem with
        | none => some { fragments := none, fragmentNumber := fragmentNumber, mem := 0 }
        | some mem =>
          let fragment : ENetOutgoingCommand :=
            { reliableSequenceNumber := 0, unreliableSequenceNumber := 0, sentTime := 0,
              roundTripTimeout := 0, roundTripTimeoutLimit := 0,
              fragmentOffset := fragmentOffset, fragmentLength := u16 fragmentLength,
              sendAttempts := 0,
              command :=
                { command := commandNumber, channelID := channelID,
                  reliableSequenceNumber := 0,
                  body := .sendFragment
                    { startSequenceNumber := startSequenceNumber,
                      dataLength := ENET_HOST_TO_NET_16 fragmentLength,
                      fragmentCount := ENET_HOST_TO_NET_32 fragmentCount,
                      fragmentNumber := ENET_HOST_TO_NET_32 fragmentNumber,
                      totalLength := ENET_HOST_TO_NET_32 dataLength,
                      fragmentOffset := ENET_NET_TO_HOST_32 fragmentOffset } },
              packet := some pid }
          enet_peer_send_fragment_loop dataLength pid commandNumber channelID
            startSequenceNumber fragmentCount fuel
            (u32 (fragmentNumber + 1)) (u32 (fragmentOffset + fragmentLength)) fragmentLength mem
            (fragments ++ [fragment])

/-- The `while` loop of `enet_peer_send` that hands every built fragment to
`enet_peer_setup_outgoing_command`, front first. -/
def enet_peer_send_setup_fragments : ENetPeer → List ENetOutgoingCommand → Option ENetPeer
  | peer, [] => some peer
  | peer, fragment :: rest =>
    match enet_peer_setup_outgoing_command peer fragment with
    | none => none
    | some peer => enet_peer_send_setup_fragments peer rest

/-- Result of `enet_peer_send`: the returned status, the peer, the packet and the
allocation budget afterwards. -/
structure SendResult where
  status : Int
  peer : ENetPeer
  packet : ENetPacket
  mem : Nat
  deriving DecidableEq

/-- `enet_peer_send`; `pid` is the pointer value of `packet`. -/
def enet_peer_send (host : ENetHost) (peer : ENetPeer) (channelID : Nat) (pid : Nat)
    (packet : ENetPacket) (mem : Nat) : Option SendResult :=
  if peer.state ≠ ENetPeerState.CONNECTED ∨ channelID ≥ peer.channelCount ∨
      packet.dataLength > host.maximumPacketSize then
    some { status := -1, peer := peer, packet := packet, mem := mem }
  else
    match peer.channels.get? channelID with
    | none => none
    | some channel =>
      let fragmentLength :=
        usizeSub (usizeSub peer.mtu sizeof_ENetProtocolHeader) sizeof_ENetProtocolSendFragment
      let fragmentLength :=
        if host.checksum then usizeSub fragmentLength sizeof_enet_uint32 else fragmentLength
      if packet.dataLength > fragmentLength then
        if fragmentLength = 0 then none else
        let fragmentCount := u32 (usize (packet.dataLength + fragmentLength - 1) / fragmentLength)
        if fragmentCount > ENET_PROTOCOL_MAXIMUM_FRAGMENT_COUNT then
          some { status := -1, peer := peer, packet := packet, mem := mem }
        else
          let unreliable : Bool :=
            (!packet.flags.reliable && packet.flags.unreliableFragment) &&
              decide (channel.outgoingUnreliableSequenceNumber < 0xFFFF)
          let commandNumber :=
            if unreliable then ENET_PROTOCOL_COMMAND_SEND_UNRELIABLE_FRAGMENT
            else ENET_PROTOCOL_COMMAND_SEND_FRAGMENT ||| ENET_PROTOCOL_COMMAND_FLAG_ACKNOWLEDGE
          let startSequenceNumber :=
            if unreliable then ENET_HOST_TO_NET_16 (channel.outgoingUnreliableSequenceNumber + 1)
            else ENET_HOST_TO_NET_16 (channel.outgoingReliableSequenceNumber + 1)
          match enet_peer_send_fragment_loop packet.dataLength pid commandNumber channelID
              startSequenceNumber fragmentCount packet.dataLength 0 0 fragmentLength mem [] with
          | none => none
          | some r =>
            match r.fragments with
            | none => some { status := -1, peer := peer, packet := packet, mem := r.mem }
            | some fragments =>
              let packet := { packet with
                referenceCount := usize (packet.referenceCount + r.fragmentNumber) }
              match enet_peer_send_setup_fragments peer fragments with
              | none => none
              | some peer => some { status := 0, peer := peer, packet := packet, mem := r.mem }
      else
        let command : ENetProtocol :=
          if !packet.flags.reliable && packet.flags.unsequenced then
            { command := ENET_PROTOCOL_COMMAND_SEND_UNSEQUENCED
                ||| ENET_PROTOCOL_COMMAND_FLAG_UNSEQUENCED,
              channelID := channelID, reliableSequenceNumber := 0,
              body := .sendUnsequenced 0 (ENET_HOST_TO_NET_16 packet.dataLength) }
          else if packet.flags.reliable ∨ channel.outgoingUnreliableSequenceNumber ≥ 0xFFFF then
            { command := ENET_PROTOCOL_COMMAND_SEND_RELIABLE
                ||| ENET_PROTOCOL_COMMAND_FLAG_ACKNOWLEDGE,
              channelID := channelID, reliableSequenceNumber := 0,
              body := .sendReliable (ENET_HOST_TO_NET_16 packet.dataLength) }
          else
            { command := ENET_PROTOCOL_COMMAND_SEND_UNRELIABLE,
              channelID := channelID, reliableSequenceNumber := 0,
              body := .sendUnreliable 0 (ENET_HOST_TO_NET_16 packet.dataLength) }
        match enet_peer_queue_outgoing_command peer command (some pid) (some packet) 0
            packet.dataLength mem with
        | none => none
        | some r =>
          match r.packet with
          | none => none
          | some packet' =>
            if r.queued then some { status := 0, peer := r.peer, packet := packet', mem := r.mem }
            else some { status := -1, peer := r.peer, packet := packet', mem := r.mem }

/-! ## packet.c -/

/-- `enet_packet_create` for the calls of the engine (never `NO_ALLOCATE`): one allocation
for the packet, one for the bytes when `dataLength > 0`.  With `data = none` (NULL) the
bytes are left as allocated; the model fills them with zeros. -/
def enet_packet_create (data : Option (List Nat)) (dataLength : Nat) (flags : ENetPacketFlags)
    (mem : Nat) : Option ENetPacket × Nat :=
  match enet_malloc mem with
  | none => (none, 0)
  | some mem =>
    if dataLength ≤ 0 then
      (some { referenceCount := 0, flags := flags, data := [], dataLength := dataLength }, mem)
    else
      match enet_malloc mem with
      | none => (none, 0)
      | some mem =>
        let bytes := match data with
          | none => List.replicate dataLength 0
          | some d => d.take dataLength
        (some { referenceCount := 0, flags := flags, data := bytes, dataLength := dataLength },
          mem)

/-! ## peer.c: incoming commands -/

/-- The block `if (! (peer -> flags & ENET_PEER_FLAG_NEEDS_DISPATCH)) { enet_list_insert
(enet_list_end (& host -> dispatchQueue), & peer -> dispatchList); peer -> flags |=
ENET_PEER_FLAG_NEEDS_DISPATCH; }` that follows every move to `dispatchedCommands`. -/
def linkDispatch (host : ENetHost) (peer : ENetPeer) : ENetHost × ENetPeer :=
  if !peer.needsDispatch then
    ({ host with dispatchQueue := host.dispatchQueue ++ [peer.incomingPeerID] },
     { peer with needsDispatch := true })
  else (host, peer)

/-- The reliable window of a sequence number relative to the channel's current one, as
computed before every window test: `seq / ENET_PEER_RELIABLE_WINDOW_SIZE`, plus
`ENET_PEER_RELIABLE_WINDOWS` when `seq` is below `incomingReliableSequenceNumber`. -/
def reliableWindowOf (seq incomingReliableSequenceNumber : Nat) : Nat :=
  let reliableWindow := seq / ENET_PEER_RELIABLE_WINDOW_SIZE
  if seq < incomingReliableSequenceNumber then
    u16 (reliableWindow + ENET_PEER_RELIABLE_WINDOWS)
  else reliableWindow

/-- State of the loop of `enet_peer_dispatch_incoming_unreliable_commands`.  The list
`incomingUnreliableCommands` is, at every moment, `kept ++ pending ++ rest` where `kept`
are the nodes before `startCommand`, `pending` the nodes from `startCommand` up to
`currentCommand` and `rest` the nodes still to visit; every node carries its index in the
list at entry.  `dropped` is the number of nodes in front of `droppedCommand`, `moved` the
nodes moved to `dispatchedCommands` so far. -/
structure UnreliableDispatchState where
  host : ENetHost
  peer : ENetPeer
  incomingUnreliableSequenceNumber : Nat
  kept : List (Nat × ENetIncomingCommand)
  pending : List (Nat × ENetIncomingCommand)
  dropped : Nat
  moved : List (Nat × ENetIncomingCommand)

/-- `enet_list_move (enet_list_end (& peer -> dispatchedCommands), startCommand,
enet_list_previous (currentCommand))` followed by the dispatch link. -/
def UnreliableDispatchState.movePending (st : UnreliableDispatchState) :
    UnreliableDispatchState :=
  let peer := { st.peer with
    dispatchedCommands := st.peer.dispatchedCommands ++ st.pending.map Prod.snd }
  let (host, peer) := linkDispatch st.host peer
  { st with host := host, peer := peer, pending := [], moved := st.moved ++ st.pending }

/-- The `for` loop of `enet_peer_dispatch_incoming_unreliable_commands` over the nodes
still to visit; returns the state at loop exit and the nodes not visited (from
`currentCommand` on, non-empty after a `break`). -/
def enet_peer_dispatch_incoming_unreliable_loop (incomingReliableSequenceNumber : Nat) :
    UnreliableDispatchState → List (Nat × ENetIncomingCommand) →
    UnreliableDispatchState × List (Nat × ENetIncomingCommand)
  | st, [] => (st, [])
  | st, (i, incomingCommand) :: rest =>
    if incomingCommand.command.command &&& ENET_PROTOCOL_COMMAND_MASK
        = ENET_PROTOCOL_COMMAND_SEND_UNSEQUENCED then
      enet_peer_dispatch_incoming_unreliable_loop incomingReliableSequenceNumber
        { st with pending := st.pending ++ [(i, incomingCommand)] } rest
    else if incomingCommand.reliableSequenceNumber = incomingReliableSequenceNumber then
      if incomingCommand.fragmentsRemaining ≤ 0 then
        enet_peer_dispatch_incoming_unreliable_loop incomingReliableSequenceNumber
          { st with
            incomingUnreliableSequenceNumber := incomingCommand.unreliableSequenceNumber,
            pending := st.pending ++ [(i, incomingCommand)] } rest
      else
        let st :=
          if st.pending ≠ [] then
            let st := st.movePending
            { st with dropped := st.kept.length }
          else if st.dropped ≠ st.kept.length then
            { st with dropped := st.kept.length - 1 }
          else st
        enet_peer_dispatch_incoming_unreliable_loop incomingReliableSequenceNumber
          { st with kept := st.kept ++ [(i, incomingCommand)] } rest
    else
      let reliableWindow :=
        reliableWindowOf incomingCommand.reliableSequenceNumber incomingReliableSequenceNumber
      let currentWindow := incomingReliableSequenceNumber / ENET_PEER_RELIABLE_WINDOW_SIZE
      if reliableWindow ≥ currentWindow ∧
          reliableWindow < currentWindow + ENET_PEER_FREE_RELIABLE_WINDOWS - 1 then
        (st, (i, incomingCommand) :: rest)
      else
        let st := if st.pending ≠ [] then st.movePending else st
        let st := { st with dropped := st.kept.length + 1 }
        enet_peer_dispatch_incoming_unreliable_loop incomingReliableSequenceNumber
          { st with kept := st.kept ++ [(i, incomingCommand)] } rest

/-- Where the node returned by `enet_peer_queue_incoming_command` sits afterwards. -/
inductive IncomingLocation
  | inReliable (index : Nat)
  | inUnreliable (index : Nat)
  | inDispatched (index : Nat)
  deriving DecidableEq

/-- Result of the two dispatch functions: host, peer and channel afterwards (the channel is
the one the caller holds a pointer to; the caller stores it back into `peer.channels`). -/
structure DispatchResult where
  host : ENetHost
  peer : ENetPeer
  channel : ENetChannel
  deriving DecidableEq

/-- `enet_peer_remove_incoming_commands (queue, enet_list_begin (queue), droppedCommand,
excludeCommand)` on the list `kept ++ rest`: the first `dropped` nodes are removed and freed,
except the node whose entry index is `queuedCommand`. -/
def enet_peer_remove_incoming_commands (queue : List (Nat × ENetIncomingCommand))
    (dropped : Nat) (queuedCommand : Option Nat) : List (Nat × ENetIncomingCommand) :=
  (queue.take dropped).filter (fun node => decide (some node.1 = queuedCommand))
    ++ queue.drop dropped

/-- The body of `enet_peer_dispatch_incoming_unreliable_commands`: the state after the loop
and the trailing move, and the queue that is left, every node with its entry index. -/
def enet_peer_dispatch_incoming_unreliable_nodes (host : ENetHost) (peer : ENetPeer)
    (channel : ENetChannel) (queuedCommand : Option Nat) :
    UnreliableDispatchState × List (Nat × ENetIncomingCommand) :=
  let nodes := channel.incomingUnreliableCommands.enum
  let (st, rest) := enet_peer_dispatch_incoming_unreliable_loop
    channel.incomingReliableSequenceNumber
    { host := host, peer := peer,
      incomingUnreliableSequenceNumber := channel.incomingUnreliableSequenceNumber,
      kept := [], pending := [], dropped := 0, moved := [] } nodes
  let st :=
    if st.pending ≠ [] then
      let st := st.movePending
      { st with dropped := st.kept.length }
    else st
  (st, enet_peer_remove_incoming_commands (st.kept ++ rest) st.dropped queuedCommand)

/-- `enet_peer_dispatch_incoming_unreliable_commands`.  `queuedCommand` is the position in
`channel.incomingUnreliableCommands` of the node `queuedCommand` points at, `none` when the
pointer is NULL or points at a node of another list. -/
def enet_peer_dispatch_incoming_unreliable_commands (host : ENetHost) (peer : ENetPeer)
    (channel : ENetChannel) (queuedCommand : Option Nat) : DispatchResult :=
  let (st, queue) :=
    enet_peer_dispatch_incoming_unreliable_nodes host peer channel queuedCommand
  { host := st.host, peer := st.peer,
    channel := { channel with
      incomingUnreliableSequenceNumber := st.incomingUnreliableSequenceNumber,
      incomingUnreliableCommands := queue.map Prod.snd } }

/-- Where the node with entry index `index` sits after
`enet_peer_dispatch_incoming_unreliable_commands`; `dispatched` is the length of
`dispatchedCommands` before the call. -/
def locateUnreliable (st : UnreliableDispatchState) (queue : List (Nat × ENetIncomingCommand))
    (index dispatched : Nat) : IncomingLocation :=
  match st.moved.findIdx? (fun node => node.1 == index) with
  | some j => .inDispatched (dispatched + j)
  | none =>
    match queue.findIdx? (fun node => node.1 == index) with
    | some j => .inUnreliable j
    | none => .inUnreliable queue.length

/-- The `for` loop of `enet_peer_dispatch_incoming_reliable_commands`: the number of nodes
passed before the loop stops, and `incomingReliableSequenceNumber` at that point. -/
def enet_peer_dispatch_incoming_reliable_loop :
    List ENetIncomingCommand → Nat → Nat × Nat
  | [], incomingReliableSequenceNumber => (0, incomingReliableSequenceNumber)
  | incomingCommand :: rest, incomingReliableSequenceNumber =>
    if incomingCommand.fragmentsRemaining > 0 ∨
        incomingCommand.reliableSequenceNumber ≠ u16 (incomingReliableSequenceNumber + 1) then
      (0, incomingReliableSequenceNumber)
    else
      let seq := incomingCommand.reliableSequenceNumber
      let seq :=
        if incomingCommand.fragmentCount > 0 then u16 (seq + (incomingCommand.fragmentCount - 1))
        else seq
      let (count, seq) := enet_peer_dispatch_incoming_reliable_loop rest seq
      (count + 1, seq)

/-- `enet_peer_dispatch_incoming_reliable_commands`. -/
def enet_peer_dispatch_incoming_reliable_commands (host : ENetHost) (peer : ENetPeer)
    (channel : ENetChannel) (queuedCommand : Option Nat) : DispatchResult :=
  let (count, seq) := enet_peer_dispatch_incoming_reliable_loop
    channel.incomingReliableCommands channel.incomingReliableSequenceNumber
  let channel := { channel with incomingReliableSequenceNumber := seq }
  if count = 0 then
    { host := host, peer := peer, channel := channel }
  else
    let channel := { channel with incomingUnreliableSequenceNumber := 0 }
    let peer := { peer with
      dispatchedCommands :=
        peer.dispatchedCommands ++ channel.incomingReliableCommands.take count }
    let channel := { channel with
      incomingReliableCommands := channel.incomingReliableCommands.drop count }
    let (host, peer) := linkDispatch host peer
    if channel.incomingUnreliableCommands ≠ [] then
      enet_peer_dispatch_incoming_unreliable_commands host peer channel queuedCommand
    else
      { host := host, peer := peer, channel := channel }

/-- The 16-bit field that follows the command header, read through the view
`command -> sendUnreliable.unreliableSequenceNumber`; in the fragment record the same bytes
hold `startSequenceNumber`, in the unsequenced record `unsequencedGroup`. -/
def ENetProtocol.unreliableSequenceNumberView (command : ENetProtocol) : Nat :=
  match command.body with
  | .sendUnreliable unreliableSequenceNumber _ => unreliableSequenceNumber
  | .sendFragment f => f.startSequenceNumber
  | .sendUnsequenced unsequencedGroup _ => unsequencedGroup
  | _ => 0

/-- Outcome of a backwards search for the insertion point in an incoming queue. -/
inductive InsertScan
  | discard
  | after (skipped : Nat)
  deriving DecidableEq

/-- Counting one more node passed by `continue`. -/
def InsertScan.skip : InsertScan → InsertScan
  | .discard => .discard
  | .after skipped => .after (skipped + 1)

/-- The backwards search of `enet_peer_queue_incoming_command` for `SEND_FRAGMENT` and
`SEND_RELIABLE`, over the reversed queue (last node first).  `after k` means that the loop
stopped with `k` nodes behind `currentCommand`. -/
def reliableInsertScan (reliableSequenceNumber incomingReliableSequenceNumber : Nat) :
    List ENetIncomingCommand → InsertScan
  | [] => .after 0
  | incomingCommand :: before =>
    if reliableSequenceNumber ≥ incomingReliableSequenceNumber ∧
        incomingCommand.reliableSequenceNumber < incomingReliableSequenceNumber then
      (reliableInsertScan reliableSequenceNumber incomingReliableSequenceNumber before).skip
    else if ¬ reliableSequenceNumber ≥ incomingReliableSequenceNumber ∧
        incomingCommand.reliableSequenceNumber ≥ incomingReliableSequenceNumber then
      .after 0
    else if incomingCommand.reliableSequenceNumber ≤ reliableSequenceNumber then
      if incomingCommand.reliableSequenceNumber < reliableSequenceNumber then .after 0
      else .discard
    else
      (reliableInsertScan reliableSequenceNumber incomingReliableSequenceNumber before).skip

/-- The backwards search of `enet_peer_queue_incoming_command` for `SEND_UNRELIABLE` and
`SEND_UNRELIABLE_FRAGMENT`, over the reversed queue.  The test for `SEND_UNSEQUENCED` looks
at the new command, as in the source. -/
def unreliableInsertScan (command : ENetProtocol)
    (reliableSequenceNumber unreliableSequenceNumber incomingReliableSequenceNumber : Nat) :
    List ENetIncomingCommand → InsertScan
  | [] => .after 0
  | incomingCommand :: before =>
    let next := unreliableInsertScan command reliableSequenceNumber unreliableSequenceNumber
      incomingReliableSequenceNumber before
    if command.command &&& ENET_PROTOCOL_COMMAND_MASK
        = ENET_PROTOCOL_COMMAND_SEND_UNSEQUENCED then next.skip
    else if reliableSequenceNumber ≥ incomingReliableSequenceNumber ∧
        incomingCommand.reliableSequenceNumber < incomingReliableSequenceNumber then next.skip
    else if ¬ reliableSequenceNumber ≥ incomingReliableSequenceNumber ∧
        incomingCommand.reliableSequenceNumber ≥ incomingReliableSequenceNumber then
      .after 0
    else if incomingCommand.reliableSequenceNumber < reliableSequenceNumber then .after 0
    else if incomingCommand.reliableSequenceNumber > reliableSequenceNumber then next.skip
    else if incomingCommand.unreliableSequenceNumber ≤ unreliableSequenceNumber then
      if incomingCommand.unreliableSequenceNumber < unreliableSequenceNumber then .after 0
      else .discard
    else next.skip

/-- The pointer returned by `enet_peer_queue_incoming_command`: NULL, the address of the
static `dummyCommand`, or the queued command. -/
inductive QueueIncomingReturn
  | null
  | dummyCommand
  | queued (at_ : IncomingLocation)
  deriving DecidableEq

/-- Result of `enet_peer_queue_incoming_command`. -/
structure QueueIncomingResult where
  ret : QueueIncomingReturn
  host : ENetHost
  peer : ENetPeer
  mem : Nat
  deriving DecidableEq

/-- The label `discardCommand` of `enet_peer_queue_incoming_command` (no packet has been
created when it is reached). -/
def queueIncomingDiscard (host : ENetHost) (peer : ENetPeer) (fragmentCount mem : Nat) :
    QueueIncomingResult :=
  if fragmentCount > 0 then { ret := .null, host := host, peer := peer, mem := mem }
  else { ret := .dummyCommand, host := host, peer := peer, mem := mem }

/-- Position, after the dispatch that ends `enet_peer_queue_incoming_command`, of the node
that was inserted at index `index` of a queue of which the dispatch moved the first
nodes to `dispatchedCommands`: `before` and `after` are the lengths of that queue before and
after the dispatch, `dispatched` the length of `dispatchedCommands` before it. -/
def locateInserted (reliable : Bool) (index before after dispatched : Nat) :
    IncomingLocation :=
  if index < before - after then .inDispatched (dispatched + index)
  else if reliable then .inReliable (index - (before - after))
  else .inUnreliable (index - (before - after))

/-- The local `reliableSequenceNumber` of `enet_peer_queue_incoming_command`: the header
field, except for `SEND_UNSEQUENCED` where it stays 0. -/
def queueIncomingReliableSequenceNumber (command : ENetProtocol) : Nat :=
  if command.command &&& ENET_PROTOCOL_COMMAND_MASK ≠ ENET_PROTOCOL_COMMAND_SEND_UNSEQUENCED then
    command.reliableSequenceNumber
  else 0

/-- The local `unreliableSequenceNumber` of `enet_peer_queue_incoming_command`: read from
the record for `SEND_UNRELIABLE` and `SEND_UNRELIABLE_FRAGMENT`, otherwise 0. -/
def queueIncomingUnreliableSequenceNumber (command : ENetProtocol) : Nat :=
  if command.command &&& ENET_PROTOCOL_COMMAND_MASK = ENET_PROTOCOL_COMMAND_SEND_UNRELIABLE ∨
      command.command &&& ENET_PROTOCOL_COMMAND_MASK
        = ENET_PROTOCOL_COMMAND_SEND_UNRELIABLE_FRAGMENT then
    ENET_NET_TO_HOST_16 command.unreliableSequenceNumberView
  else 0

/-- The window test at the head of `enet_peer_queue_incoming_command` (skipped for
`SEND_UNSEQUENCED`): true when the command goes to `discardCommand`. -/
def queueIncomingWindowRejects (channel : ENetChannel) (command : ENetProtocol) : Prop :=
  command.command &&& ENET_PROTOCOL_COMMAND_MASK ≠ ENET_PROTOCOL_COMMAND_SEND_UNSEQUENCED ∧
    (reliableWindowOf (queueIncomingReliableSequenceNumber command)
        channel.incomingReliableSequenceNumber
      < channel.incomingReliableSequenceNumber / ENET_PEER_RELIABLE_WINDOW_SIZE ∨
     reliableWindowOf (queueIncomingReliableSequenceNumber command)
        channel.incomingReliableSequenceNumber
      ≥ channel.incomingReliableSequenceNumber / ENET_PEER_RELIABLE_WINDOW_SIZE
        + ENET_PEER_FREE_RELIABLE_WINDOWS - 1)

instance (channel : ENetChannel) (command : ENetProtocol) :
    Decidable (queueIncomingWindowRejects channel command) := by
  unfold queueIncomingWindowRejects; infer_instance

/-- Whether the command is queued on `incomingReliableCommands` (`SEND_FRAGMENT`,
`SEND_RELIABLE`) rather than on `incomingUnreliableCommands`. -/
def queueIncomingIsReliable (command : ENetProtocol) : Bool :=
  decide (command.command &&& ENET_PROTOCOL_COMMAND_MASK = ENET_PROTOCOL_COMMAND_SEND_FRAGMENT ∨
    command.command &&& ENET_PROTOCOL_COMMAND_MASK = ENET_PROTOCOL_COMMAND_SEND_RELIABLE)

/-- The first `switch` of `enet_peer_queue_incoming_command`: duplicate tests and the search
for the insertion point. -/
def queueIncomingScan (channel : ENetChannel) (command : ENetProtocol) : InsertScan :=
  if queueIncomingIsReliable command then
    if queueIncomingReliableSequenceNumber command = channel.incomingReliableSequenceNumber then
      .discard
    else reliableInsertScan (queueIncomingReliableSequenceNumber command)
      channel.incomingReliableSequenceNumber channel.incomingReliableCommands.reverse
  else if command.command &&& ENET_PROTOCOL_COMMAND_MASK
        = ENET_PROTOCOL_COMMAND_SEND_UNRELIABLE ∨
      command.command &&& ENET_PROTOCOL_COMMAND_MASK
        = ENET_PROTOCOL_COMMAND_SEND_UNRELIABLE_FRAGMENT then
    if queueIncomingReliableSequenceNumber command = channel.incomingReliableSequenceNumber ∧
        queueIncomingUnreliableSequenceNumber command
          ≤ channel.incomingUnreliableSequenceNumber then
      .discard
    else unreliableInsertScan command (queueIncomingReliableSequenceNumber command)
      (queueIncomingUnreliableSequenceNumber command)
      channel.incomingReliableSequenceNumber channel.incomingUnreliableCommands.reverse
  else if command.command &&& ENET_PROTOCOL_COMMAND_MASK
      = ENET_PROTOCOL_COMMAND_SEND_UNSEQUENCED then
    .after channel.incomingUnreliableCommands.length
  else .discard

/-- The allocation of the bitmap `fragments` in `enet_peer_queue_incoming_command`: the
outer `none` is the failure that leads to `notifyError`. -/
def queueIncomingFragments (fragmentCount mem : Nat) : Option (Option (List Nat) × Nat) :=
  if fragmentCount > 0 then
    if fragmentCount ≤ ENET_PROTOCOL_MAXIMUM_FRAGMENT_COUNT then
      match enet_malloc mem with
      | none => none
      | some mem => some (some (List.replicate ((fragmentCount + 31) / 32) 0), mem)
    else none
  else some (none, mem)

/-- The tail of `enet_peer_queue_incoming_command` once packet, command and bitmap are
allocated: reference count, waiting data, insertion behind `currentCommand` (which has
`skipped` nodes behind it) and the dispatch. -/
def queueIncomingLink (host : ENetHost) (peer : ENetPeer) (channel : ENetChannel)
    (command : ENetProtocol) (packet : ENetPacket) (fragments : Option (List Nat))
    (fragmentCount skipped mem : Nat) : QueueIncomingResult :=
  let packet := { packet with referenceCount := usize (packet.referenceCount + 1) }
  let incomingCommand : ENetIncomingCommand :=
    { reliableSequenceNumber := command.reliableSequenceNumber,
      unreliableSequenceNumber := queueIncomingUnreliableSequenceNumber command &&& 0xFFFF,
      command := command, fragmentCount := fragmentCount,
      fragmentsRemaining := fragmentCount, fragments := fragments,
      packet := packet }
  let peer := { peer with
    totalWaitingData := usize (peer.totalWaitingData + packet.dataLength) }
  if queueIncomingIsReliable command then
    let index := channel.incomingReliableCommands.length - skipped
    let queue := channel.incomingReliableCommands.take index
      ++ incomingCommand :: channel.incomingReliableCommands.drop index
    let r := enet_peer_dispatch_incoming_reliable_commands host peer
      { channel with incomingReliableCommands := queue } none
    { ret := .queued (locateInserted true index queue.length
              r.channel.incomingReliableCommands.length peer.dispatchedCommands.length),
      host := r.host,
      peer := { r.peer with channels := r.peer.channels.set command.channelID r.channel },
      mem := mem }
  else
    let index := channel.incomingUnreliableCommands.length - skipped
    let queue := channel.incomingUnreliableCommands.take index
      ++ incomingCommand :: channel.incomingUnreliableCommands.drop index
    let r := enet_peer_dispatch_incoming_unreliable_commands host peer
      { channel with incomingUnreliableCommands := queue } (some index)
    let nodes := enet_peer_dispatch_incoming_unreliable_nodes host peer
      { channel with incomingUnreliableCommands := queue } (some index)
    { ret := .queued (locateUnreliable nodes.1 nodes.2 index peer.dispatchedCommands.length),
      host := r.host,
      peer := { r.peer with channels := r.peer.channels.set command.channelID r.channel },
      mem := mem }

/-- The part of `enet_peer_queue_incoming_command` after the insertion point is known: the
waiting-data limit, the three allocations, and `queueIncomingLink`. -/
def queueIncomingInsert (host : ENetHost) (peer : ENetPeer) (channel : ENetChannel)
    (command : ENetProtocol) (data : Option (List Nat)) (dataLength : Nat)
    (flags : ENetPacketFlags) (fragmentCount skipped mem : Nat) : QueueIncomingResult :=
  if peer.totalWaitingData ≥ host.maximumWaitingData then
    { ret := .null, host := host, peer := peer, mem := mem }
  else
    match enet_packet_create data dataLength flags mem with
    | (none, mem) => { ret := .null, host := host, peer := peer, mem := mem }
    | (some packet, mem) =>
      match enet_malloc mem with
      | none => { ret := .null, host := host, peer := peer, mem := 0 }
      | some mem =>
        match queueIncomingFragments fragmentCount mem with
        | none =>
          { ret := .null, host := host, peer := peer,
            mem := if fragmentCount ≤ ENET_PROTOCOL_MAXIMUM_FRAGMENT_COUNT then 0 else mem }
        | some (fragments, mem) =>
          queueIncomingLink host peer channel command packet fragments fragmentCount skipped mem

/-- `enet_peer_queue_incoming_command`.  `data = none` is the NULL data pointer. -/
def enet_peer_queue_incoming_command (host : ENetHost) (peer : ENetPeer)
    (command : ENetProtocol) (data : Option (List Nat)) (dataLength : Nat)
    (flags : ENetPacketFlags) (fragmentCount : Nat) (mem : Nat) :
    Option QueueIncomingResult :=
  match peer.channels.get? command.channelID with
  | none => none
  | some channel =>
    if peer.state = ENetPeerState.DISCONNECT_LATER then
      some (queueIncomingDiscard host peer fragmentCount mem)
    else if queueIncomingWindowRejects channel command then
      some (queueIncomingDiscard host peer fragmentCount mem)
    else
      match queueIncomingScan channel command with
      | .discard => some (queueIncomingDiscard host peer fragmentCount mem)
      | .after skipped =>
        some (queueIncomingInsert host peer channel command data dataLength flags
          fragmentCount skipped mem)

/-! ## protocol.c: `enet_protocol_handle_send_fragment` -/

/-- The view `command -> sendFragment` of the union; a command that holds another record
reads as zeros (the handlers below are only entered with the record of their command). -/
def ENetProtocol.sendFragmentView (command : ENetProtocol) : ENetProtocolSendFragment :=
  match command.body with
  | .sendFragment f => f
  | _ => { startSequenceNumber := 0, dataLength := 0, fragmentCount := 0,
           fragmentNumber := 0, totalLength := 0, fragmentOffset := 0 }

/-- Outcome of the search of `enet_protocol_handle_send_fragment` for the start command. -/
inductive StartScan
  | error
  | notFound
  | found (skipped : Nat)
  deriving DecidableEq

/-- Counting one more node passed by `continue`. -/
def StartScan.skip : StartScan → StartScan
  | .found skipped => .found (skipped + 1)
  | other => other

/-- The backwards search of `enet_protocol_handle_send_fragment` over the reversed queue of
incoming reliable commands; `found k` is the node with `k` nodes behind it. -/
def fragmentStartScan (startSequenceNumber incomingReliableSequenceNumber totalLength
    fragmentCount : Nat) : List ENetIncomingCommand → StartScan
  | [] => .notFound
  | incomingCommand :: before =>
    if startSequenceNumber ≥ incomingReliableSequenceNumber ∧
        incomingCommand.reliableSequenceNumber < incomingReliableSequenceNumber then
      (fragmentStartScan startSequenceNumber incomingReliableSequenceNumber totalLength
        fragmentCount before).skip
    else if ¬ startSequenceNumber ≥ incomingReliableSequenceNumber ∧
        incomingCommand.reliableSequenceNumber ≥ incomingReliableSequenceNumber then
      .notFound
    else if incomingCommand.reliableSequenceNumber ≤ startSequenceNumber then
      if incomingCommand.reliableSequenceNumber < startSequenceNumber then .notFound
      else if incomingCommand.command.command &&& ENET_PROTOCOL_COMMAND_MASK
            ≠ ENET_PROTOCOL_COMMAND_SEND_FRAGMENT ∨
          totalLength ≠ incomingCommand.packet.dataLength ∨
          fragmentCount ≠ incomingCommand.fragmentCount then .error
      else .found 0
    else
      (fragmentStartScan startSequenceNumber incomingReliableSequenceNumber totalLength
        fragmentCount before).skip

/-- The incoming command at a location of a peer, for the channel `channelID`. -/
def ENetPeer.incomingAt (peer : ENetPeer) (channelID : Nat) :
    IncomingLocation → Option ENetIncomingCommand
  | .inReliable index =>
    (peer.channels.get? channelID).bind fun channel => channel.incomingReliableCommands.get? index
  | .inUnreliable index =>
    (peer.channels.get? channelID).bind fun channel =>
      channel.incomingUnreliableCommands.get? index
  | .inDispatched index => peer.dispatchedCommands.get? index

/-- Storing through a pointer to the incoming command at a location of a peer. -/
def ENetPeer.setIncomingAt (peer : ENetPeer) (channelID : Nat)
    (incomingCommand : ENetIncomingCommand) : IncomingLocation → ENetPeer
  | .inReliable index =>
    match peer.channels.get? channelID with
    | none => peer
    | some channel =>
      let channel := { channel with
        incomingReliableCommands := channel.incomingReliableCommands.set index incomingCommand }
      { peer with channels := peer.channels.set channelID channel }
  | .inUnreliable index =>
    match peer.channels.get? channelID with
    | none => peer
    | some channel =>
      let channel := { channel with
        incomingUnreliableCommands :=
          channel.incomingUnreliableCommands.set index incomingCommand }
      { peer with channels := peer.channels.set channelID channel }
  | .inDispatched index =>
    { peer with dispatchedCommands := peer.dispatchedCommands.set index incomingCommand }

/-- Result of a command handler of protocol.c: the returned status, host and peer
afterwards, the bytes of the datagram from `*currentData` on, the allocation budget. -/
structure HandleResult where
  status : Int
  host : ENetHost
  peer : ENetPeer
  currentData : List Nat
  mem : Nat
  deriving DecidableEq

/-- The second half of `enet_protocol_handle_send_fragment`: marking fragment
`fragmentNumber` in the start command at `location`, copying its bytes, and dispatching
when no fragment remains. -/
def enet_protocol_handle_send_fragment_store (host : ENetHost) (peer : ENetPeer)
    (channelID : Nat) (location : IncomingLocation)
    (fragmentNumber fragmentOffset fragmentLength : Nat) (payload : List Nat) :
    Option (ENetHost × ENetPeer) :=
  match peer.incomingAt channelID location with
  | none => none
  | some startCommand =>
    match startCommand.fragments with
    | none => none
    | some fragments =>
      match fragments.get? (fragmentNumber / 32) with
      | none => none
      | some word =>
        if word &&& (1 <<< (fragmentNumber % 32)) = 0 then
          let fragmentLength :=
            if u32 (fragmentOffset + fragmentLength) > startCommand.packet.dataLength then
              u32 (startCommand.packet.dataLength + 4294967296 - fragmentOffset)
            else fragmentLength
          let startCommand := { startCommand with
            fragmentsRemaining := startCommand.fragmentsRemaining - 1,
            fragments := some (fragments.set (fragmentNumber / 32)
              (word ||| (1 <<< (fragmentNumber % 32)))),
            packet := { startCommand.packet with
              data := startCommand.packet.data.take fragmentOffset
                ++ payload.take fragmentLength
                ++ startCommand.packet.data.drop (fragmentOffset + fragmentLength) } }
          let peer := peer.setIncomingAt channelID startCommand location
          if startCommand.fragmentsRemaining ≤ 0 then
            match peer.channels.get? channelID with
            | none => none
            | some channel =>
              let r := enet_peer_dispatch_incoming_reliable_commands host peer channel none
              some (r.host, { r.peer with channels := r.peer.channels.set channelID r.channel })
          else some (host, peer)
        else some (host, peer)

/-- The part of `enet_protocol_handle_send_fragment` after the checks of the record: the
search for the start command, its creation when there is none, and the storing of the
fragment.  `payload` are the bytes of the fragment, `data` the bytes of the datagram that
follow them. -/
def enet_protocol_handle_send_fragment_assemble (host : ENetHost) (peer : ENetPeer)
    (command : ENetProtocol) (channel : ENetChannel) (payload data : List Nat) (mem : Nat)
    (startSequenceNumber fragmentNumber fragmentCount fragmentOffset totalLength
      fragmentLength : Nat) : Option HandleResult :=
  match fragmentStartScan startSequenceNumber channel.incomingReliableSequenceNumber
      totalLength fragmentCount channel.incomingReliableCommands.reverse with
  | .error =>
    some { status := -1, host := host, peer := peer, currentData := data, mem := mem }
  | .found skipped =>
    match enet_protocol_handle_send_fragment_store host peer command.channelID
        (.inReliable (channel.incomingReliableCommands.length - 1 - skipped))
        fragmentNumber fragmentOffset fragmentLength payload with
    | none => none
    | some (host, peer) =>
      some { status := 0, host := host, peer := peer, currentData := data, mem := mem }
  | .notFound =>
    let hostCommand := { command with reliableSequenceNumber := startSequenceNumber }
    match enet_peer_queue_incoming_command host peer hostCommand none totalLength
        { reliable := true, unsequenced := false, noAllocate := false,
          unreliableFragment := false, sent := false } fragmentCount mem with
    | none => none
    | some q =>
      match q.ret with
      | .null =>
        some { status := -1, host := q.host, peer := q.peer, currentData := data,
               mem := q.mem }
      | .dummyCommand => none
      | .queued location =>
        match enet_protocol_handle_send_fragment_store q.host q.peer
            command.channelID location fragmentNumber fragmentOffset fragmentLength
            payload with
        | none => none
        | some (host, peer) =>
          some { status := 0, host := host, peer := peer, currentData := data,
                 mem := q.mem }

/-- `enet_protocol_handle_send_fragment`.  `currentData` holds the bytes of the datagram
that follow the command record. -/
def enet_protocol_handle_send_fragment (host : ENetHost) (peer : ENetPeer)
    (command : ENetProtocol) (currentData : List Nat) (mem : Nat) : Option HandleResult :=
  if command.channelID ≥ peer.channelCount ∨
      (peer.state ≠ ENetPeerState.CONNECTED ∧ peer.state ≠ ENetPeerState.DISCONNECT_LATER) then
    some { status := -1, host := host, peer := peer, currentData := currentData, mem := mem }
  else
    let fragmentLength := ENET_NET_TO_HOST_16 command.sendFragmentView.dataLength
    let payload := currentData.take fragmentLength
    let data := currentData.drop fragmentLength
    if fragmentLength > host.maximumPacketSize ∨ fragmentLength > currentData.length then
      some { status := -1, host := host, peer := peer, currentData := data, mem := mem }
    else
      match peer.channels.get? command.channelID with
      | none => none
      | some channel =>
        let startSequenceNumber :=
          ENET_NET_TO_HOST_16 command.sendFragmentView.startSequenceNumber
        let startWindow :=
          reliableWindowOf startSequenceNumber channel.incomingReliableSequenceNumber
        let currentWindow :=
          channel.incomingReliableSequenceNumber / ENET_PEER_RELIABLE_WINDOW_SIZE
        if startWindow < currentWindow ∨
            startWindow ≥ currentWindow + ENET_PEER_FREE_RELIABLE_WINDOWS - 1 then
          some { status := 0, host := host, peer := peer, currentData := data, mem := mem }
        else
          let fragmentNumber := ENET_NET_TO_HOST_32 command.sendFragmentView.fragmentNumber
          let fragmentCount := ENET_NET_TO_HOST_32 command.sendFragmentView.fragmentCount
          let fragmentOffset := ENET_NET_TO_HOST_32 command.sendFragmentView.fragmentOffset
          let totalLength := ENET_NET_TO_HOST_32 command.sendFragmentView.totalLength
          if fragmentCount > ENET_PROTOCOL_MAXIMUM_FRAGMENT_COUNT ∨
              fragmentNumber ≥ fragmentCount ∨
              totalLength > host.maximumPacketSize ∨
              fragmentOffset ≥ totalLength ∨
              fragmentLength > totalLength - fragmentOffset then
            some { status := -1, host := host, peer := peer, currentData := data, mem := mem }
          else
            enet_protocol_handle_send_fragment_assemble host peer command channel payload data
              mem startSequenceNumber fragmentNumber fragmentCount fragmentOffset totalLength
              fragmentLength

/-! ## Packet store, events, header constants -/

/-- The packets that outgoing commands point at, by handle. -/
abbrev PacketStore := List (Nat × ENetPacket)

/-- The packet a handle points at. -/
def PacketStore.find (store : PacketStore) (pid : Nat) : Option ENetPacket :=
  (List.find? (fun entry => entry.1 == pid) store).map Prod.snd

/-- `-- packet -> referenceCount; if (packet -> referenceCount == 0) enet_packet_destroy
(packet);`.  A destroyed packet leaves the store (the flag `ENET_PACKET_FLAG_SENT` that some
callers set just before the destruction is then gone with it). -/
def PacketStore.release (store : PacketStore) (pid : Nat) : PacketStore :=
  store.filterMap fun entry =>
    if entry.1 = pid then
      let referenceCount := usizeSub entry.2.referenceCount 1
      if referenceCount = 0 then none
      else some (entry.1, { entry.2 with referenceCount := referenceCount })
    else some entry

/-- `ENetEventType`. -/
inductive ENetEventType
  | NONE
  | CONNECT
  | DISCONNECT
  | RECEIVE
  deriving DecidableEq

/-- An `ENetEvent`; `peer` is the `incomingPeerID` of the peer it points at. -/
structure ENetEvent where
  type : ENetEventType
  peer : Option Nat
  channelID : Nat
  data : Nat
  packet : Option ENetPacket
  deriving DecidableEq

/-- Constants of the missing `enet.h` that the specification does not state; the functions
that use them take them as a parameter.  `ENET_PROTOCOL_MAXIMUM_PACKET_COMMANDS` and
`ENET_BUFFER_MAXIMUM` are the lengths of the arrays `host -> commands` and
`host -> buffers`. -/
structure ENetHeader where
  ENET_PEER_WINDOW_SIZE_SCALE : Nat
  ENET_PEER_DEFAULT_PACKET_THROTTLE : Nat
  ENET_PEER_PACKET_THROTTLE_ACCELERATION : Nat
  ENET_PEER_PACKET_THROTTLE_DECELERATION : Nat
  ENET_PEER_DEFAULT_ROUND_TRIP_TIME : Nat
  ENET_PEER_PACKET_THROTTLE_INTERVAL : Nat
  ENET_PEER_PING_INTERVAL : Nat
  ENET_PEER_TIMEOUT_LIMIT : Nat
  ENET_PEER_TIMEOUT_MINIMUM : Nat
  ENET_PEER_TIMEOUT_MAXIMUM : Nat
  ENET_PROTOCOL_MAXIMUM_PACKET_COMMANDS : Nat
  ENET_BUFFER_MAXIMUM : Nat
  deriving DecidableEq

/-- Modelled from the spec: the session id of the protocol header is a 2-bit field
(section 4.1); stands for `ENET_PROTOCOL_HEADER_SESSION_MASK >>
ENET_PROTOCOL_HEADER_SESSION_SHIFT`. -/
def sessionMask : Nat := 3

/-- Modelled from the spec: `SENT_TIME` is bit 15 of the header's `peerID` word
(section 6); stands for `ENET_PROTOCOL_HEADER_FLAG_SENT_TIME`. -/
def ENET_PROTOCOL_HEADER_FLAG_SENT_TIME : Nat := 0x8000

/-! ## List ends of peer.c / protocol.c: state changes -/

/-- `enet_peer_on_connect`. -/
def enet_peer_on_connect (host : ENetHost) (peer : ENetPeer) : ENetHost :=
  if peer.state ≠ ENetPeerState.CONNECTED ∧ peer.state ≠ ENetPeerState.DISCONNECT_LATER then
    let host :=
      if peer.incomingBandwidth ≠ 0 then
        { host with bandwidthLimitedPeers := usize (host.bandwidthLimitedPeers + 1) }
      else host
    { host with connectedPeers := usize (host.connectedPeers + 1) }
  else host

/-- `enet_peer_on_disconnect`. -/
def enet_peer_on_disconnect (host : ENetHost) (peer : ENetPeer) : ENetHost :=
  if peer.state = ENetPeerState.CONNECTED ∨ peer.state = ENetPeerState.DISCONNECT_LATER then
    let host :=
      if peer.incomingBandwidth ≠ 0 then
        { host with bandwidthLimitedPeers := usizeSub host.bandwidthLimitedPeers 1 }
      else host
    { host with connectedPeers := usizeSub host.connectedPeers 1 }
  else host

/-- `enet_protocol_change_state`. -/
def enet_protocol_change_state (host : ENetHost) (peer : ENetPeer) (state : ENetPeerState) :
    ENetHost × ENetPeer :=
  let host :=
    if state = ENetPeerState.CONNECTED ∨ state = ENetPeerState.DISCONNECT_LATER then
      enet_peer_on_connect host peer
    else enet_peer_on_disconnect host peer
  (host, { peer with state := state })

/-- `enet_protocol_dispatch_state`. -/
def enet_protocol_dispatch_state (host : ENetHost) (peer : ENetPeer) (state : ENetPeerState) :
    ENetHost × ENetPeer :=
  let (host, peer) := enet_protocol_change_state host peer state
  linkDispatch host peer

/-- `enet_protocol_notify_connect`; `event = none` is the NULL pointer. -/
def enet_protocol_notify_connect (host : ENetHost) (peer : ENetPeer) (event : Option ENetEvent) :
    ENetHost × ENetPeer × Option ENetEvent :=
  let host := { host with recalculateBandwidthLimits := 1 }
  match event with
  | some event =>
    let (host, peer) := enet_protocol_change_state host peer ENetPeerState.CONNECTED
    (host, peer, some { event with type := ENetEventType.CONNECT,
                                   peer := some peer.incomingPeerID,
                                   data := peer.eventData })
  | none =>
    let (host, peer) := enet_protocol_dispatch_state host peer
      (if peer.state = ENetPeerState.CONNECTING then ENetPeerState.CONNECTION_SUCCEEDED
       else ENetPeerState.CONNECTION_PENDING)
    (host, peer, none)

/-! ## protocol.c: `enet_protocol_remove_sent_reliable_command` -/

/-- Position of the first command with the given sequence number and channel (the first
loop of `enet_protocol_remove_sent_reliable_command`). -/
def findSentReliable (reliableSequenceNumber channelID : Nat) :
    List ENetOutgoingCommand → Option Nat
  | [] => none
  | outgoingCommand :: rest =>
    if outgoingCommand.reliableSequenceNumber = reliableSequenceNumber ∧
        outgoingCommand.command.channelID = channelID then some 0
    else (findSentReliable reliableSequenceNumber channelID rest).map (· + 1)

/-- The second loop of `enet_protocol_remove_sent_reliable_command`, over
`outgoingCommands`: `none` is the return of `ENET_PROTOCOL_COMMAND_NONE`. -/
def findOutgoingReliable (reliableSequenceNumber channelID : Nat) :
    List ENetOutgoingCommand → Option Nat
  | [] => none
  | outgoingCommand :: rest =>
    if outgoingCommand.command.command &&& ENET_PROTOCOL_COMMAND_FLAG_ACKNOWLEDGE = 0 then
      (findOutgoingReliable reliableSequenceNumber channelID rest).map (· + 1)
    else if outgoingCommand.sendAttempts < 1 then none
    else if outgoingCommand.reliableSequenceNumber = reliableSequenceNumber ∧
        outgoingCommand.command.channelID = channelID then some 0
    else (findOutgoingReliable reliableSequenceNumber channelID rest).map (· + 1)

/-- The update of the channel's reliable windows in
`enet_protocol_remove_sent_reliable_command`. -/
def releaseReliableWindow (channel : ENetChannel) (reliableSequenceNumber : Nat) :
    ENetChannel :=
  let reliableWindow := reliableSequenceNumber / ENET_PEER_RELIABLE_WINDOW_SIZE
  if channel.reliableWindows.getD reliableWindow 0 > 0 then
    let count := channel.reliableWindows.getD reliableWindow 0 - 1
    let channel := { channel with
      reliableWindows := channel.reliableWindows.set reliableWindow count }
    if count = 0 then
      { channel with
        usedReliableWindows :=
          channel.usedReliableWindows &&& (65535 ^^^ (1 <<< reliableWindow)) }
    else channel
  else channel

/-- Result of `enet_protocol_remove_sent_reliable_command`: the command number returned. -/
structure RemoveSentResult where
  commandNumber : Nat
  peer : ENetPeer
  store : PacketStore
  deriving DecidableEq

/-- `enet_protocol_remove_sent_reliable_command`. -/
def enet_protocol_remove_sent_reliable_command (peer : ENetPeer) (store : PacketStore)
    (reliableSequenceNumber channelID : Nat) : RemoveSentResult :=
  let found : Option (Bool × Nat) :=
    match findSentReliable reliableSequenceNumber channelID peer.sentReliableCommands with
    | some index => some (true, index)
    | none =>
      (findOutgoingReliable reliableSequenceNumber channelID peer.outgoingCommands).map
        fun index => (false, index)
  match found with
  | none => { commandNumber := ENET_PROTOCOL_COMMAND_NONE, peer := peer, store := store }
  | some (wasSent, index) =>
    match (if wasSent then peer.sentReliableCommands else peer.outgoingCommands).get? index with
    | none => { commandNumber := ENET_PROTOCOL_COMMAND_NONE, peer := peer, store := store }
    | some outgoingCommand =>
      let peer :=
        if channelID < peer.channelCount then
          match peer.channels.get? channelID with
          | none => peer
          | some channel =>
            let channel := releaseReliableWindow channel reliableSequenceNumber
            { peer with channels := peer.channels.set channelID channel }
        else peer
      let commandNumber := outgoingCommand.command.command &&& ENET_PROTOCOL_COMMAND_MASK
      let peer :=
        if wasSent then
          { peer with sentReliableCommands := peer.sentReliableCommands.eraseIdx index }
        else { peer with outgoingCommands := peer.outgoingCommands.eraseIdx index }
      let (peer, store) :=
        match outgoingCommand.packet with
        | none => (peer, store)
        | some pid =>
          let peer :=
            if wasSent then
              { peer with
                reliableDataInTransit := u32 (peer.reliableDataInTransit + 4294967296
                  - outgoingCommand.fragmentLength) }
            else peer
          (peer, store.release pid)
      match peer.sentReliableCommands with
      | [] => { commandNumber := commandNumber, peer := peer, store := store }
      | front :: _ =>
        { commandNumber := commandNumber,
          peer := { peer with nextTimeout := u32 (front.sentTime + front.roundTripTimeout) },
          store := store }

/-! ## host.c: `enet_host_connect` -/

/-- `enet_host_random` (Mulberry32): the new seed and the value returned. -/
def enet_host_random (randomSeed : Nat) : Nat × Nat :=
  let seed := u32 (randomSeed + 0x6D2B79F5)
  let n := seed
  let n := u32 ((n ^^^ (n >>> 15)) * (n ||| 1))
  let n := n ^^^ u32 (n + u32 ((n ^^^ (n >>> 7)) * (n ||| 61)))
  (seed, n ^^^ (n >>> 14))

/-- The window size derived from a bandwidth, clamped to the protocol bounds, as computed
in `enet_host_connect`. -/
def windowSizeOf (hdr : ENetHeader) (bandwidth : Nat) : Nat :=
  let windowSize :=
    if bandwidth = 0 then ENET_PROTOCOL_MAXIMUM_WINDOW_SIZE
    else u32 ((bandwidth / hdr.ENET_PEER_WINDOW_SIZE_SCALE) * ENET_PROTOCOL_MINIMUM_WINDOW_SIZE)
  if windowSize < ENET_PROTOCOL_MINIMUM_WINDOW_SIZE then ENET_PROTOCOL_MINIMUM_WINDOW_SIZE
  else if windowSize > ENET_PROTOCOL_MAXIMUM_WINDOW_SIZE then ENET_PROTOCOL_MAXIMUM_WINDOW_SIZE
  else windowSize

/-- A channel as the loops of `enet_host_connect` and `enet_protocol_handle_connect`
initialise it. -/
def freshChannel : ENetChannel :=
  { outgoingReliableSequenceNumber := 0, outgoingUnreliableSequenceNumber := 0,
    usedReliableWindows := 0, reliableWindows := List.replicate 16 0,
    incomingReliableSequenceNumber := 0, incomingUnreliableSequenceNumber := 0,
    incomingReliableCommands := [], incomingUnreliableCommands := [] }

/-- Result of `enet_host_connect`: the slot of the returned peer (`none` for NULL). -/
structure ConnectResult where
  peer : Option Nat
  host : ENetHost
  mem : Nat
  deriving DecidableEq

/-- The part of `enet_host_connect` that initialises the chosen slot `currentPeer` and
builds the `CONNECT` command; `connectID` is the value drawn from `enet_host_random`. -/
def hostConnectSetup (hdr : ENetHeader) (host : ENetHost) (currentPeer : ENetPeer)
    (address : ENetAddress) (channelCount connectID data : Nat) : ENetPeer × ENetProtocol :=
  let currentPeer := { currentPeer with
    channels := List.replicate channelCount freshChannel,
    channelCount := channelCount,
    state := ENetPeerState.CONNECTING,
    address := address,
    connectID := connectID,
    windowSize := windowSizeOf hdr host.outgoingBandwidth }
  let command : ENetProtocol :=
    { command := ENET_PROTOCOL_COMMAND_CONNECT ||| ENET_PROTOCOL_COMMAND_FLAG_ACKNOWLEDGE,
      channelID := 0xFF, reliableSequenceNumber := 0,
      body := .connect
        { outgoingPeerID := ENET_HOST_TO_NET_16 currentPeer.incomingPeerID,
          incomingSessionID := currentPeer.incomingSessionID,
          outgoingSessionID := currentPeer.outgoingSessionID,
          mtu := ENET_HOST_TO_NET_32 currentPeer.mtu,
          windowSize := ENET_HOST_TO_NET_32 currentPeer.windowSize,
          channelCount := ENET_HOST_TO_NET_32 channelCount,
          incomingBandwidth := ENET_HOST_TO_NET_32 host.incomingBandwidth,
          outgoingBandwidth := ENET_HOST_TO_NET_32 host.outgoingBandwidth,
          packetThrottleInterval := ENET_HOST_TO_NET_32 currentPeer.packetThrottleInterval,
          packetThrottleAcceleration :=
            ENET_HOST_TO_NET_32 currentPeer.packetThrottleAcceleration,
          packetThrottleDeceleration :=
            ENET_HOST_TO_NET_32 currentPeer.packetThrottleDeceleration,
          connectID := currentPeer.connectID,
          data := ENET_HOST_TO_NET_32 data } }
  (currentPeer, command)

/-- The channel count of `enet_host_connect` after its clamp to the protocol bounds. -/
def hostConnectChannelCount (channelCount : Nat) : Nat :=
  if channelCount < ENET_PROTOCOL_MINIMUM_CHANNEL_COUNT then ENET_PROTOCOL_MINIMUM_CHANNEL_COUNT
  else if channelCount > ENET_PROTOCOL_MAXIMUM_CHANNEL_COUNT then
    ENET_PROTOCOL_MAXIMUM_CHANNEL_COUNT
  else channelCount

/-- `enet_host_connect`. -/
def enet_host_connect (hdr : ENetHeader) (host : ENetHost) (address : ENetAddress)
    (channelCount data : Nat) (mem : Nat) : ConnectResult :=
  let channelCount := hostConnectChannelCount channelCount
  match (host.peers.take host.peerCount).findIdx?
      (fun p => decide (p.state = ENetPeerState.DISCONNECTED)) with
  | none => { peer := none, host := host, mem := mem }
  | some index =>
    match host.peers.get? index with
    | none => { peer := none, host := host, mem := mem }
    | some currentPeer =>
      match enet_malloc mem with
      | none => { peer := none, host := host, mem := 0 }
      | some mem =>
        let (seed, connectID) := enet_host_random host.randomSeed
        let host := { host with randomSeed := seed }
        let (currentPeer, command) :=
          hostConnectSetup hdr host currentPeer address channelCount connectID data
        let (currentPeer, mem) :=
          match enet_peer_queue_outgoing_command currentPeer command none none 0 0 mem with
          | some r => (r.peer, r.mem)
          | none => (currentPeer, mem)
        { peer := some index, host := { host with peers := host.peers.set index currentPeer },
          mem := mem }

/-! ## protocol.c: `enet_protocol_handle_connect` and `enet_protocol_handle_verify_connect` -/

/-- The view `command -> connect` / `command -> verifyConnect` of the union (the two records
have the same shape); a command that holds another record reads as zeros. -/
def ENetProtocol.connectView (command : ENetProtocol) : ENetProtocolConnect :=
  match command.body with
  | .connect c => c
  | .verifyConnect c => c
  | _ => { outgoingPeerID := 0, incomingSessionID := 0, outgoingSessionID := 0, mtu := 0,
           windowSize := 0, channelCount := 0, incomingBandwidth := 0, outgoingBandwidth := 0,
           packetThrottleInterval := 0, packetThrottleAcceleration := 0,
           packetThrottleDeceleration := 0, connectID := 0, data := 0 }

/-- Outcome of the slot scan of `enet_protocol_handle_connect`: the early `return NULL`
for a command that repeats an existing connection, or the first free slot and the number
of peers counted from the same host. -/
inductive SlotScan
  | repeated
  | scanned (peer : Option Nat) (duplicatePeers : Nat)
  deriving DecidableEq

/-- The `for` loop over `host -> peers` in `enet_protocol_handle_connect`; `index` is the
slot of the first peer of the list. -/
def handleConnectScan (receivedAddress : ENetAddress) (connectID : Nat) :
    List ENetPeer → (index : Nat) → (peer : Option Nat) → (duplicatePeers : Nat) → SlotScan
  | [], _, peer, duplicatePeers => .scanned peer duplicatePeers
  | currentPeer :: rest, index, peer, duplicatePeers =>
    if currentPeer.state = ENetPeerState.DISCONNECTED then
      handleConnectScan receivedAddress connectID rest (index + 1)
        (if peer = none then some index else peer) duplicatePeers
    else if currentPeer.state ≠ ENetPeerState.CONNECTING ∧
        currentPeer.address.host = receivedAddress.host then
      if currentPeer.address.port = receivedAddress.port ∧
          currentPeer.connectID = connectID then .repeated
      else handleConnectScan receivedAddress connectID rest (index + 1) peer
        (duplicatePeers + 1)
    else handleConnectScan receivedAddress connectID rest (index + 1) peer duplicatePeers

/-- The session id chosen in `enet_protocol_handle_connect` from the id the command
carries and the two ids of the slot. -/
def nextSessionID (carried fallback avoid : Nat) : Nat :=
  let sessionID := if carried = 0xFF then fallback else carried
  let sessionID := u8 (sessionID + 1) &&& sessionMask
  if sessionID = avoid then u8 (sessionID + 1) &&& sessionMask else sessionID

/-- Clamping of an MTU to the protocol bounds. -/
def clampMtu (mtu : Nat) : Nat :=
  if mtu < ENET_PROTOCOL_MINIMUM_MTU then ENET_PROTOCOL_MINIMUM_MTU
  else if mtu > ENET_PROTOCOL_MAXIMUM_MTU then ENET_PROTOCOL_MAXIMUM_MTU
  else mtu

/-- Result of `enet_protocol_handle_connect`: the slot of the returned peer (`none` for
NULL). -/
structure HandleConnectResult where
  peer : Option Nat
  host : ENetHost
  mem : Nat
  deriving DecidableEq

/-- The part of `enet_protocol_handle_connect` that sets up the chosen slot `peer` and
builds the `VERIFY_CONNECT` command. -/
def handleConnectAccept (hdr : ENetHeader) (host : ENetHost) (peer : ENetPeer)
    (connect : ENetProtocolConnect) (channelCount : Nat) : ENetPeer × ENetProtocol :=
  let incomingSessionID :=
    nextSessionID connect.incomingSessionID peer.outgoingSessionID peer.outgoingSessionID
  let outgoingSessionID :=
    nextSessionID connect.outgoingSessionID peer.incomingSessionID peer.incomingSessionID
  let peer := { peer with
    channels := List.replicate channelCount freshChannel,
    channelCount := channelCount,
    state := ENetPeerState.ACKNOWLEDGING_CONNECT,
    connectID := connect.connectID,
    address := host.receivedAddress,
    outgoingPeerID := ENET_NET_TO_HOST_16 connect.outgoingPeerID,
    incomingBandwidth := ENET_NET_TO_HOST_32 connect.incomingBandwidth,
    outgoingBandwidth := ENET_NET_TO_HOST_32 connect.outgoingBandwidth,
    packetThrottleInterval := ENET_NET_TO_HOST_32 connect.packetThrottleInterval,
    packetThrottleAcceleration := ENET_NET_TO_HOST_32 connect.packetThrottleAcceleration,
    packetThrottleDeceleration := ENET_NET_TO_HOST_32 connect.packetThrottleDeceleration,
    eventData := ENET_NET_TO_HOST_32 connect.data,
    outgoingSessionID := incomingSessionID,
    incomingSessionID := outgoingSessionID,
    mtu := clampMtu (ENET_NET_TO_HOST_32 connect.mtu) }
  let peerWindow :=
    if host.outgoingBandwidth = 0 ∧ peer.incomingBandwidth = 0 then
      ENET_PROTOCOL_MAXIMUM_WINDOW_SIZE
    else if host.outgoingBandwidth = 0 ∨ peer.incomingBandwidth = 0 then
      u32 ((max host.outgoingBandwidth peer.incomingBandwidth / hdr.ENET_PEER_WINDOW_SIZE_SCALE)
        * ENET_PROTOCOL_MINIMUM_WINDOW_SIZE)
    else
      u32 ((min host.outgoingBandwidth peer.incomingBandwidth / hdr.ENET_PEER_WINDOW_SIZE_SCALE)
        * ENET_PROTOCOL_MINIMUM_WINDOW_SIZE)
  let peerWindow :=
    if peerWindow < ENET_PROTOCOL_MINIMUM_WINDOW_SIZE then ENET_PROTOCOL_MINIMUM_WINDOW_SIZE
    else if peerWindow > ENET_PROTOCOL_MAXIMUM_WINDOW_SIZE then
      ENET_PROTOCOL_MAXIMUM_WINDOW_SIZE
    else peerWindow
  let peer := { peer with windowSize := peerWindow }
  let windowSize :=
    if host.incomingBandwidth = 0 then ENET_PROTOCOL_MAXIMUM_WINDOW_SIZE
    else u32 ((host.incomingBandwidth / hdr.ENET_PEER_WINDOW_SIZE_SCALE)
      * ENET_PROTOCOL_MINIMUM_WINDOW_SIZE)
  let windowSize :=
    if windowSize > ENET_NET_TO_HOST_32 connect.windowSize then
      ENET_NET_TO_HOST_32 connect.windowSize
    else windowSize
  let windowSize :=
    if windowSize < ENET_PROTOCOL_MINIMUM_WINDOW_SIZE then ENET_PROTOCOL_MINIMUM_WINDOW_SIZE
    else if windowSize > ENET_PROTOCOL_MAXIMUM_WINDOW_SIZE then
      ENET_PROTOCOL_MAXIMUM_WINDOW_SIZE
    else windowSize
  let verifyCommand : ENetProtocol :=
    { command := ENET_PROTOCOL_COMMAND_VERIFY_CONNECT ||| ENET_PROTOCOL_COMMAND_FLAG_ACKNOWLEDGE,
      channelID := 0xFF, reliableSequenceNumber := 0,
      body := .verifyConnect
        { outgoingPeerID := ENET_HOST_TO_NET_16 peer.incomingPeerID,
          incomingSessionID := incomingSessionID,
          outgoingSessionID := outgoingSessionID,
          mtu := ENET_HOST_TO_NET_32 peer.mtu,
          windowSize := ENET_HOST_TO_NET_32 windowSize,
          channelCount := ENET_HOST_TO_NET_32 channelCount,
          incomingBandwidth := ENET_HOST_TO_NET_32 host.incomingBandwidth,
          outgoingBandwidth := ENET_HOST_TO_NET_32 host.outgoingBandwidth,
          packetThrottleInterval := ENET_HOST_TO_NET_32 peer.packetThrottleInterval,
          packetThrottleAcceleration := ENET_HOST_TO_NET_32 peer.packetThrottleAcceleration,
          packetThrottleDeceleration := ENET_HOST_TO_NET_32 peer.packetThrottleDeceleration,
          connectID := peer.connectID,
          data := 0 } }
  (peer, verifyCommand)

/-- The channel count of `enet_protocol_handle_connect` after `if (channelCount > host ->
channelLimit) channelCount = host -> channelLimit;`. -/
def handleConnectChannelCount (host : ENetHost) (channelCount : Nat) : Nat :=
  if channelCount > host.channelLimit then host.channelLimit else channelCount

/-- `enet_protocol_handle_connect`. -/
def enet_protocol_handle_connect (hdr : ENetHeader) (host : ENetHost) (command : ENetProtocol)
    (mem : Nat) : HandleConnectResult :=
  let channelCount := ENET_NET_TO_HOST_32 command.connectView.channelCount
  if channelCount < ENET_PROTOCOL_MINIMUM_CHANNEL_COUNT ∨
      channelCount > ENET_PROTOCOL_MAXIMUM_CHANNEL_COUNT then
    { peer := none, host := host, mem := mem }
  else
    match handleConnectScan host.receivedAddress command.connectView.connectID
        (host.peers.take host.peerCount) 0 none 0 with
    | .repeated => { peer := none, host := host, mem := mem }
    | .scanned none _ => { peer := none, host := host, mem := mem }
    | .scanned (some index) duplicatePeers =>
      if duplicatePeers ≥ host.duplicatePeers then { peer := none, host := host, mem := mem }
      else
        match host.peers.get? index with
        | none => { peer := none, host := host, mem := mem }
        | some peer =>
          let channelCount := handleConnectChannelCount host channelCount
          match enet_malloc mem with
          | none => { peer := none, host := host, mem := 0 }
          | some mem =>
            let (peer, verifyCommand) :=
              handleConnectAccept hdr host peer command.connectView channelCount
            let (peer, mem) :=
              match enet_peer_queue_outgoing_command peer verifyCommand none none 0 0 mem with
              | some r => (r.peer, r.mem)
              | none => (peer, mem)
            { peer := some index, host := { host with peers := host.peers.set index peer },
              mem := mem }

/-- Result of `enet_protocol_handle_verify_connect`. -/
structure VerifyConnectResult where
  status : Int
  host : ENetHost
  peer : ENetPeer
  event : Option ENetEvent
  store : PacketStore
  deriving DecidableEq

/-- The part of `enet_protocol_handle_verify_connect` that adopts the parameters of the
remote host after the checks have passed and the `CONNECT` has been removed. -/
def verifyConnectAdopt (peer : ENetPeer) (command : ENetProtocol) : ENetPeer :=
  let channelCount := ENET_NET_TO_HOST_32 command.connectView.channelCount
  let peer :=
    if channelCount < peer.channelCount then { peer with channelCount := channelCount }
    else peer
  let peer := { peer with
    outgoingPeerID := ENET_NET_TO_HOST_16 command.connectView.outgoingPeerID,
    incomingSessionID := command.connectView.incomingSessionID,
    outgoingSessionID := command.connectView.outgoingSessionID }
  let mtu := clampMtu (ENET_NET_TO_HOST_32 command.connectView.mtu)
  let peer := if mtu < peer.mtu then { peer with mtu := mtu } else peer
  let windowSize := ENET_NET_TO_HOST_32 command.connectView.windowSize
  let windowSize :=
    if windowSize < ENET_PROTOCOL_MINIMUM_WINDOW_SIZE then ENET_PROTOCOL_MINIMUM_WINDOW_SIZE
    else windowSize
  let windowSize :=
    if windowSize > ENET_PROTOCOL_MAXIMUM_WINDOW_SIZE then ENET_PROTOCOL_MAXIMUM_WINDOW_SIZE
    else windowSize
  let peer := if windowSize < peer.windowSize then { peer with windowSize := windowSize }
    else peer
  { peer with
    incomingBandwidth := ENET_NET_TO_HOST_32 command.connectView.incomingBandwidth,
    outgoingBandwidth := ENET_NET_TO_HOST_32 command.connectView.outgoingBandwidth }

/-- `enet_protocol_handle_verify_connect`; `event = none` is the NULL pointer. -/
def enet_protocol_handle_verify_connect (host : ENetHost) (event : Option ENetEvent)
    (peer : ENetPeer) (command : ENetProtocol) (store : PacketStore) : VerifyConnectResult :=
  if peer.state ≠ ENetPeerState.CONNECTING then
    { status := 0, host := host, peer := peer, event := event, store := store }
  else
    let channelCount := ENET_NET_TO_HOST_32 command.connectView.channelCount
    if channelCount < ENET_PROTOCOL_MINIMUM_CHANNEL_COUNT ∨
        channelCount > ENET_PROTOCOL_MAXIMUM_CHANNEL_COUNT ∨
        ENET_NET_TO_HOST_32 command.connectView.packetThrottleInterval
          ≠ peer.packetThrottleInterval ∨
        ENET_NET_TO_HOST_32 command.connectView.packetThrottleAcceleration
          ≠ peer.packetThrottleAcceleration ∨
        ENET_NET_TO_HOST_32 command.connectView.packetThrottleDeceleration
          ≠ peer.packetThrottleDeceleration ∨
        command.connectView.connectID ≠ peer.connectID then
      let peer := { peer with eventData := 0 }
      let (host, peer) := enet_protocol_dispatch_state host peer ENetPeerState.ZOMBIE
      { status := -1, host := host, peer := peer, event := event, store := store }
    else
      let removed := enet_protocol_remove_sent_reliable_command peer store 1 0xFF
      let peer := verifyConnectAdopt removed.peer command
      let (host, peer, event) := enet_protocol_notify_connect host peer event
      { status := 0, host := host, peer := peer, event := event, store := removed.store }

/-! ## peer.c: resetting and disconnecting a peer -/

/-- `enet_peer_reset_outgoing_commands`: every command of the queue gives up its reference
to its packet. -/
def enet_peer_reset_outgoing_commands (store : PacketStore) :
    List ENetOutgoingCommand → PacketStore
  | [] => store
  | outgoingCommand :: rest =>
    let store :=
      match outgoingCommand.packet with
      | none => store
      | some pid => store.release pid
    enet_peer_reset_outgoing_commands store rest

/-- `enet_peer_reset_queues`.  The incoming commands own their packets, so emptying an
incoming queue destroys them with it. -/
def enet_peer_reset_queues (host : ENetHost) (peer : ENetPeer) (store : PacketStore) :
    ENetHost × ENetPeer × PacketStore :=
  let (host, peer) :=
    if peer.needsDispatch then
      ({ host with dispatchQueue := host.dispatchQueue.erase peer.incomingPeerID },
       { peer with needsDispatch := false })
    else (host, peer)
  let peer := { peer with acknowledgements := [] }
  let store := enet_peer_reset_outgoing_commands store peer.sentReliableCommands
  let peer := { peer with sentReliableCommands := [] }
  let store := enet_peer_reset_outgoing_commands store peer.sentUnreliableCommands
  let peer := { peer with sentUnreliableCommands := [] }
  let store := enet_peer_reset_outgoing_commands store peer.outgoingCommands
  let peer := { peer with outgoingCommands := [] }
  let peer := { peer with dispatchedCommands := [] }
  (host, { peer with channels := [], channelCount := 0 }, store)

/-- `enet_peer_reset`. -/
def enet_peer_reset (hdr : ENetHeader) (host : ENetHost) (peer : ENetPeer)
    (store : PacketStore) : ENetHost × ENetPeer × PacketStore :=
  let host := enet_peer_on_disconnect host peer
  let peer := { peer with
    outgoingPeerID := ENET_PROTOCOL_MAXIMUM_PEER_ID, connectID := 0,
    state := ENetPeerState.DISCONNECTED,
    incomingBandwidth := 0, outgoingBandwidth := 0,
    incomingBandwidthThrottleEpoch := 0, outgoingBandwidthThrottleEpoch := 0,
    incomingDataTotal := 0, outgoingDataTotal := 0, lastSendTime := 0, lastReceiveTime := 0,
    nextTimeout := 0, earliestTimeout := 0, packetLossEpoch := 0, packetsSent := 0,
    packetsLost := 0, packetLoss := 0, packetLossVariance := 0,
    packetThrottle := hdr.ENET_PEER_DEFAULT_PACKET_THROTTLE,
    packetThrottleLimit := ENET_PEER_PACKET_THROTTLE_SCALE,
    packetThrottleCounter := 0, packetThrottleEpoch := 0,
    packetThrottleAcceleration := hdr.ENET_PEER_PACKET_THROTTLE_ACCELERATION,
    packetThrottleDeceleration := hdr.ENET_PEER_PACKET_THROTTLE_DECELERATION,
    packetThrottleInterval := hdr.ENET_PEER_PACKET_THROTTLE_INTERVAL,
    pingInterval := hdr.ENET_PEER_PING_INTERVAL,
    timeoutLimit := hdr.ENET_PEER_TIMEOUT_LIMIT,
    timeoutMinimum := hdr.ENET_PEER_TIMEOUT_MINIMUM,
    timeoutMaximum := hdr.ENET_PEER_TIMEOUT_MAXIMUM,
    lastRoundTripTime := hdr.ENET_PEER_DEFAULT_ROUND_TRIP_TIME,
    lowestRoundTripTime := hdr.ENET_PEER_DEFAULT_ROUND_TRIP_TIME,
    lastRoundTripTimeVariance := 0, highestRoundTripTimeVariance := 0,
    roundTripTime := hdr.ENET_PEER_DEFAULT_ROUND_TRIP_TIME, roundTripTimeVariance := 0,
    mtu := host.mtu, reliableDataInTransit := 0, outgoingReliableSequenceNumber := 0,
    windowSize := ENET_PROTOCOL_MAXIMUM_WINDOW_SIZE,
    incomingUnsequencedGroup := 0, outgoingUnsequencedGroup := 0,
    eventData := 0, totalWaitingData := 0, needsDispatch := false,
    unsequencedWindow := List.replicate peer.unsequencedWindow.length 0 }
  enet_peer_reset_queues host peer store

/-- Result of `enet_peer_disconnect`. -/
structure DisconnectResult where
  host : ENetHost
  peer : ENetPeer
  store : PacketStore
  mem : Nat
  deriving DecidableEq

/-- `enet_peer_disconnect`.  `flush` stands for `enet_host_flush (peer -> host)`, which
sends the queued commands through the socket. -/
def enet_peer_disconnect (hdr : ENetHeader)
    (flush : ENetHost × ENetPeer × PacketStore → ENetHost × ENetPeer × PacketStore)
    (host : ENetHost) (peer : ENetPeer) (store : PacketStore) (data : Nat) (mem : Nat) :
    DisconnectResult :=
  if peer.state = ENetPeerState.DISCONNECTING ∨ peer.state = ENetPeerState.DISCONNECTED ∨
      peer.state = ENetPeerState.ACKNOWLEDGING_DISCONNECT ∨
      peer.state = ENetPeerState.ZOMBIE then
    { host := host, peer := peer, store := store, mem := mem }
  else
    let (host, peer, store) := enet_peer_reset_queues host peer store
    let connected :=
      decide (peer.state = ENetPeerState.CONNECTED ∨
        peer.state = ENetPeerState.DISCONNECT_LATER)
    let command : ENetProtocol :=
      { command := ENET_PROTOCOL_COMMAND_DISCONNECT |||
          (if connected then ENET_PROTOCOL_COMMAND_FLAG_ACKNOWLEDGE
           else ENET_PROTOCOL_COMMAND_FLAG_UNSEQUENCED),
        channelID := 0xFF, reliableSequenceNumber := 0,
        body := .disconnect (ENET_HOST_TO_NET_32 data) }
    let (peer, mem) :=
      match enet_peer_queue_outgoing_command peer command none none 0 0 mem with
      | some r => (r.peer, r.mem)
      | none => (peer, mem)
    if connected then
      let host := enet_peer_on_disconnect host peer
      { host := host, peer := { peer with state := ENetPeerState.DISCONNECTING },
        store := store, mem := mem }
    else
      let (host, peer, store) := flush (host, peer, store)
      let (host, peer, store) := enet_peer_reset hdr host peer store
      { host := host, peer := peer, store := store, mem := mem }

/-! ## protocol.c: `enet_protocol_check_outgoing_commands` -/

/-- The locals of `enet_protocol_check_outgoing_commands` together with the objects it
writes.  `kept` holds the commands that were passed over and stay in `outgoingCommands`;
`command` and `buffer` are the indices of the two cursors into `host -> commands` and
`host -> buffers`; `dropping` is set while the loop that frees a throttled packet is
running, to the sequence number pair it compares with. -/
structure CheckOutgoingState where
  host : ENetHost
  peer : ENetPeer
  store : PacketStore
  kept : List ENetOutgoingCommand
  command : Nat
  buffer : Nat
  windowExceeded : Bool
  windowWrap : Bool
  canPing : Bool
  dropping : Option (Nat × Nat)
  deriving DecidableEq

/-- The test that sets `windowWrap` for a reliable command on a channel. -/
def windowWrapTest (windowWrap : Bool) (outgoingCommand : ENetOutgoingCommand)
    (channel : ENetChannel) (reliableWindow : Nat) : Bool :=
  decide (windowWrap = false ∧ outgoingCommand.sendAttempts < 1 ∧
    outgoingCommand.reliableSequenceNumber % ENET_PEER_RELIABLE_WINDOW_SIZE = 0 ∧
    (channel.reliableWindows.getD
        ((reliableWindow + ENET_PEER_RELIABLE_WINDOWS - 1) % ENET_PEER_RELIABLE_WINDOWS) 0
        ≥ ENET_PEER_RELIABLE_WINDOW_SIZE ∨
      channel.usedReliableWindows &&&
        ((((1 <<< (ENET_PEER_FREE_RELIABLE_WINDOWS + 2)) - 1) <<< reliableWindow) |||
          (((1 <<< (ENET_PEER_FREE_RELIABLE_WINDOWS + 2)) - 1) >>>
            (ENET_PEER_RELIABLE_WINDOWS - reliableWindow))) ≠ 0))

/-- The test that sets `windowExceeded` for a reliable command with a packet. -/
def windowExceededTest (peer : ENetPeer) (outgoingCommand : ENetOutgoingCommand) : Bool :=
  let windowSize := u32 (peer.packetThrottle * peer.windowSize) / ENET_PEER_PACKET_THROTTLE_SCALE
  decide (u32 (peer.reliableDataInTransit + outgoingCommand.fragmentLength)
    > max windowSize peer.mtu)

/-- The test that ends the loop with `host -> continueSending = 1`: no room for the command
in the arrays or in the datagram. -/
def datagramFull (hdr : ENetHeader) (st : CheckOutgoingState)
    (outgoingCommand : ENetOutgoingCommand) (commandSize : Nat) : Bool :=
  decide (st.command ≥ hdr.ENET_PROTOCOL_MAXIMUM_PACKET_COMMANDS ∨
    st.buffer + 1 ≥ hdr.ENET_BUFFER_MAXIMUM ∨
    usizeSub st.peer.mtu st.host.packetSize < commandSize ∨
    (outgoingCommand.packet ≠ none ∧
      u16 (usizeSub st.peer.mtu st.host.packetSize)
        < u16 (commandSize + outgoingCommand.fragmentLength)))

/-- The bookkeeping for a reliable command that is sent: the reliable window of its channel,
the send attempts and timeouts, the move to `sentReliableCommands`. -/
def sendReliableCommand (st : CheckOutgoingState) (outgoingCommand : ENetOutgoingCommand)
    (channel : Option ENetChannel) (reliableWindow : Nat) :
    CheckOutgoingState × ENetOutgoingCommand :=
  let peer := st.peer
  let peer :=
    match channel with
    | some channel =>
      if outgoingCommand.sendAttempts < 1 then
        let channel := { channel with
          usedReliableWindows := u16 (channel.usedReliableWindows ||| (1 <<< reliableWindow)),
          reliableWindows := channel.reliableWindows.set reliableWindow
            (u16 (channel.reliableWindows.getD reliableWindow 0 + 1)) }
        { peer with channels := peer.channels.set outgoingCommand.command.channelID channel }
      else peer
    | none => peer
  let outgoingCommand := { outgoingCommand with
    sendAttempts := u16 (outgoingCommand.sendAttempts + 1) }
  let outgoingCommand :=
    if outgoingCommand.roundTripTimeout = 0 then
      let roundTripTimeout := u32 (peer.roundTripTime + 4 * peer.roundTripTimeVariance)
      { outgoingCommand with
        roundTripTimeout := roundTripTimeout,
        roundTripTimeoutLimit := u32 (peer.timeoutLimit * roundTripTimeout) }
    else outgoingCommand
  let peer :=
    if peer.sentReliableCommands = [] then
      { peer with nextTimeout := u32 (st.host.serviceTime + outgoingCommand.roundTripTimeout) }
    else peer
  let outgoingCommand := { outgoingCommand with sentTime := st.host.serviceTime }
  let peer := { peer with
    sentReliableCommands := peer.sentReliableCommands ++ [outgoingCommand] }
  let host := { st.host with
    headerFlags := u16 (st.host.headerFlags ||| ENET_PROTOCOL_HEADER_FLAG_SENT_TIME) }
  let peer := { peer with
    reliableDataInTransit := u32 (peer.reliableDataInTransit + outgoingCommand.fragmentLength) }
  ({ st with host := host, peer := peer }, outgoingCommand)

/-- The end of the loop body: the command record and, for a command with a packet, its
payload range are put into the datagram. -/
def emitCommand (st : CheckOutgoingState) (outgoingCommand : ENetOutgoingCommand)
    (commandSize : Nat) : CheckOutgoingState :=
  let host := { st.host with
    buffers := st.host.buffers ++ [ENetBuffer.command st.command commandSize],
    packetSize := usize (st.host.packetSize + commandSize),
    commands := st.host.commands ++ [outgoingCommand.command] }
  let (host, buffer) :=
    match outgoingCommand.packet with
    | some pid =>
      ({ host with
          buffers := host.buffers ++ [ENetBuffer.payload pid outgoingCommand.fragmentOffset
            outgoingCommand.fragmentLength],
          packetSize := usize (host.packetSize + outgoingCommand.fragmentLength) },
       st.buffer + 1)
    | none => (host, st.buffer)
  { st with
    host := host,
    peer := { st.peer with packetsSent := u32 (st.peer.packetsSent + 1) },
    command := st.command + 1, buffer := buffer + 1 }

/-- The `while` loop of `enet_protocol_check_outgoing_commands` over the commands of
`outgoingCommands` from `currentCommand` on.  The result holds the commands that were not
reached because of a `break`; `none` is undefined behaviour (a channel index beyond the
array, or the packet of a command without one being dereferenced). -/
def enet_protocol_check_outgoing_commands_loop (hdr : ENetHeader) :
    CheckOutgoingState → List ENetOutgoingCommand →
      Option (CheckOutgoingState × List ENetOutgoingCommand)
  | st, [] => some ({ st with dropping := none }, [])
  | st, outgoingCommand :: rest =>
    let sameGroup :=
      match st.dropping with
      | some (reliableSequenceNumber, unreliableSequenceNumber) =>
        decide (outgoingCommand.reliableSequenceNumber = reliableSequenceNumber ∧
          outgoingCommand.unreliableSequenceNumber = unreliableSequenceNumber)
      | none => false
    if sameGroup then
      match outgoingCommand.packet with
      | none => none
      | some pid =>
        enet_protocol_check_outgoing_commands_loop hdr
          { st with store := st.store.release pid } rest
    else
      let st := { st with dropping := none }
      let acknowledge :=
        decide (outgoingCommand.command.command &&& ENET_PROTOCOL_COMMAND_FLAG_ACKNOWLEDGE ≠ 0)
      let reliableWindow :=
        u16 (outgoingCommand.reliableSequenceNumber / ENET_PEER_RELIABLE_WINDOW_SIZE)
      let channelInRange := decide (outgoingCommand.command.channelID < st.peer.channelCount)
      let channel :=
        if channelInRange then st.peer.channels.get? outgoingCommand.command.channelID
        else none
      if acknowledge ∧ channelInRange ∧ channel = none then none
      else
        let windowWrap :=
          match acknowledge, channel with
          | true, some channel =>
            st.windowWrap || windowWrapTest st.windowWrap outgoingCommand channel reliableWindow
          | _, _ => st.windowWrap
        let st := { st with windowWrap := windowWrap }
        if acknowledge ∧ channel ≠ none ∧ windowWrap then
          enet_protocol_check_outgoing_commands_loop hdr
            { st with kept := st.kept ++ [outgoingCommand] } rest
        else
          let windowExceeded :=
            if acknowledge ∧ outgoingCommand.packet ≠ none then
              st.windowExceeded || windowExceededTest st.peer outgoingCommand
            else st.windowExceeded
          let st := { st with windowExceeded := windowExceeded }
          if acknowledge ∧ outgoingCommand.packet ≠ none ∧ windowExceeded then
            enet_protocol_check_outgoing_commands_loop hdr
              { st with kept := st.kept ++ [outgoingCommand] } rest
          else
            let st := if acknowledge then { st with canPing := false } else st
            let commandSize :=
              commandSizes.getD (outgoingCommand.command.command &&& ENET_PROTOCOL_COMMAND_MASK) 0
            if datagramFull hdr st outgoingCommand commandSize then
              some ({ st with host := { st.host with continueSending := 1 } },
                outgoingCommand :: rest)
            else if acknowledge then
              let (st, outgoingCommand) :=
                sendReliableCommand st outgoingCommand channel reliableWindow
              enet_protocol_check_outgoing_commands_loop hdr
                (emitCommand st outgoingCommand commandSize) rest
            else
              let throttled :=
                decide (outgoingCommand.packet ≠ none ∧ outgoingCommand.fragmentOffset = 0)
              let st :=
                if throttled then
                  { st with peer := { st.peer with
                      packetThrottleCounter :=
                        u32 (st.peer.packetThrottleCounter + ENET_PEER_PACKET_THROTTLE_COUNTER)
                          % ENET_PEER_PACKET_THROTTLE_SCALE } }
                else st
              if throttled ∧ st.peer.packetThrottleCounter > st.peer.packetThrottle then
                match outgoingCommand.packet with
                | none => none
                | some pid =>
                  enet_protocol_check_outgoing_commands_loop hdr
                    { st with
                      store := st.store.release pid,
                      dropping := some (outgoingCommand.reliableSequenceNumber,
                        outgoingCommand.unreliableSequenceNumber) } rest
              else
                let st :=
                  if outgoingCommand.packet ≠ none then
                    { st with peer := { st.peer with
                        sentUnreliableCommands :=
                          st.peer.sentUnreliableCommands ++ [outgoingCommand] } }
                  else st
                enet_protocol_check_outgoing_commands_loop hdr
                  (emitCommand st outgoingCommand commandSize) rest

/-- Result of `enet_protocol_check_outgoing_commands`: `canPing` is the value returned. -/
structure CheckOutgoingResult where
  canPing : Bool
  host : ENetHost
  peer : ENetPeer
  store : PacketStore
  mem : Nat
  deriving DecidableEq

/-- `enet_protocol_check_outgoing_commands`. -/
def enet_protocol_check_outgoing_commands (hdr : ENetHeader)
    (flush : ENetHost × ENetPeer × PacketStore → ENetHost × ENetPeer × PacketStore)
    (host : ENetHost) (peer : ENetPeer) (store : PacketStore) (mem : Nat) :
    Option CheckOutgoingResult :=
  let host := { host with
    commands := host.commands.take host.commandCount,
    buffers := host.buffers.take host.bufferCount }
  match enet_protocol_check_outgoing_commands_loop hdr
      { host := host, peer := peer, store := store, kept := [],
        command := host.commandCount, buffer := host.bufferCount,
        windowExceeded := false, windowWrap := false, canPing := true, dropping := none }
      peer.outgoingCommands with
  | none => none
  | some (st, rest) =>
    let peer := { st.peer with outgoingCommands := st.kept ++ rest }
    let host := { st.host with commandCount := st.command, bufferCount := st.buffer }
    if peer.state = ENetPeerState.DISCONNECT_LATER ∧ peer.outgoingCommands = [] ∧
        peer.sentReliableCommands = [] ∧ peer.sentUnreliableCommands = [] then
      let r := enet_peer_disconnect hdr flush host peer st.store peer.eventData mem
      some { canPing := st.canPing, host := r.host, peer := r.peer, store := r.store,
             mem := r.mem }
    else
      some { canPing := st.canPing, host := host, peer := peer, store := st.store, mem := mem }

/-! ## peer.c: `enet_peer_disconnect_now`, `enet_peer_disconnect_later`, `enet_peer_receive` -/

/-- `enet_peer_disconnect_now`.  `flush` stands for `enet_host_flush (peer -> host)`. -/
def enet_peer_disconnect_now (hdr : ENetHeader)
    (flush : ENetHost × ENetPeer × PacketStore → ENetHost × ENetPeer × PacketStore)
    (host : ENetHost) (peer : ENetPeer) (store : PacketStore) (data : Nat) (mem : Nat) :
    DisconnectResult :=
  if peer.state = ENetPeerState.DISCONNECTED then
    { host := host, peer := peer, store := store, mem := mem }
  else
    let (host, peer, store, mem) :=
      if peer.state ≠ ENetPeerState.ZOMBIE ∧ peer.state ≠ ENetPeerState.DISCONNECTING then
        let (host, peer, store) := enet_peer_reset_queues host peer store
        let command : ENetProtocol :=
          { command := ENET_PROTOCOL_COMMAND_DISCONNECT ||| ENET_PROTOCOL_COMMAND_FLAG_UNSEQUENCED,
            channelID := 0xFF, reliableSequenceNumber := 0,
            body := .disconnect (ENET_HOST_TO_NET_32 data) }
        let (peer, mem) :=
          match enet_peer_queue_outgoing_command peer command none none 0 0 mem with
          | some r => (r.peer, r.mem)
          | none => (peer, mem)
        let (host, peer, store) := flush (host, peer, store)
        (host, peer, store, mem)
      else (host, peer, store, mem)
    let (host, peer, store) := enet_peer_reset hdr host peer store
    { host := host, peer := peer, store := store, mem := mem }

/-- `enet_peer_disconnect_later`. -/
def enet_peer_disconnect_later (hdr : ENetHeader)
    (flush : ENetHost × ENetPeer × PacketStore → ENetHost × ENetPeer × PacketStore)
    (host : ENetHost) (peer : ENetPeer) (store : PacketStore) (data : Nat) (mem : Nat) :
    DisconnectResult :=
  if (peer.state = ENetPeerState.CONNECTED ∨ peer.state = ENetPeerState.DISCONNECT_LATER) ∧
      ¬ (peer.outgoingCommands = [] ∧ peer.sentReliableCommands = []) then
    { host := host,
      peer := { peer with state := ENetPeerState.DISCONNECT_LATER, eventData := data },
      store := store, mem := mem }
  else enet_peer_disconnect hdr flush host peer store data mem

/-- `enet_peer_receive`: the packet returned and the channel written through `channelID`
(`none` for the NULL result). -/
def enet_peer_receive (peer : ENetPeer) : Option (ENetPacket × Nat) × ENetPeer :=
  match peer.dispatchedCommands with
  | [] => (none, peer)
  | incomingCommand :: rest =>
    let packet := { incomingCommand.packet with
      referenceCount := usizeSub incomingCommand.packet.referenceCount 1 }
    (some (packet, incomingCommand.command.channelID),
     { peer with
       dispatchedCommands := rest,
       totalWaitingData := usizeSub peer.totalWaitingData packet.dataLength })

/-! ## protocol.c: `enet_protocol_notify_disconnect`, dispatch of events -/

/-- Position of a state in the enumeration `ENetPeerState`, for the comparisons of states
with `<` and `>=` in protocol.c. -/
def ENetPeerState.toNat : ENetPeerState → Nat
  | .DISCONNECTED => 0
  | .CONNECTING => 1
  | .ACKNOWLEDGING_CONNECT => 2
  | .CONNECTION_PENDING => 3
  | .CONNECTION_SUCCEEDED => 4
  | .CONNECTED => 5
  | .DISCONNECT_LATER => 6
  | .DISCONNECTING => 7
  | .ACKNOWLEDGING_DISCONNECT => 8
  | .ZOMBIE => 9

/-- `enet_protocol_notify_disconnect`; `event = none` is the NULL pointer. -/
def enet_protocol_notify_disconnect (hdr : ENetHeader) (host : ENetHost) (peer : ENetPeer)
    (event : Option ENetEvent) (store : PacketStore) :
    ENetHost × ENetPeer × Option ENetEvent × PacketStore :=
  let host :=
    if peer.state.toNat ≥ ENetPeerState.CONNECTION_PENDING.toNat then
      { host with recalculateBandwidthLimits := 1 }
    else host
  if peer.state ≠ ENetPeerState.CONNECTING ∧
      peer.state.toNat < ENetPeerState.CONNECTION_SUCCEEDED.toNat then
    let (host, peer, store) := enet_peer_reset hdr host peer store
    (host, peer, event, store)
  else
    match event with
    | some event =>
      let event := { event with type := ENetEventType.DISCONNECT,
                                peer := some peer.incomingPeerID, data := 0 }
      let (host, peer, store) := enet_peer_reset hdr host peer store
      (host, peer, some event, store)
    | none =>
      let peer := { peer with eventData := 0 }
      let (host, peer) := enet_protocol_dispatch_state host peer ENetPeerState.ZOMBIE
      (host, peer, none, store)

/-- Result of `enet_protocol_dispatch_incoming_commands`. -/
structure DispatchEventResult where
  status : Int
  host : ENetHost
  event : ENetEvent
  store : PacketStore
  deriving DecidableEq

/-- The `while` loop of `enet_protocol_dispatch_incoming_commands` over the dispatch queue,
whose nodes are the `incomingPeerID`s (slot indices) of the linked peers.  `none` is a
node that is no slot of the host. -/
def enet_protocol_dispatch_incoming_commands_loop (hdr : ENetHeader) :
    List Nat → ENetHost → ENetEvent → PacketStore → Option DispatchEventResult
  | [], host, event, store =>
    some { status := 0, host := { host with dispatchQueue := [] }, event := event,
           store := store }
  | slot :: rest, host, event, store =>
    match host.peers.get? slot with
    | none => none
    | some peer =>
      let host := { host with dispatchQueue := rest }
      let peer := { peer with needsDispatch := false }
      if peer.state = ENetPeerState.CONNECTION_PENDING ∨
          peer.state = ENetPeerState.CONNECTION_SUCCEEDED then
        let (host, peer) := enet_protocol_change_state host peer ENetPeerState.CONNECTED
        let event := { event with type := ENetEventType.CONNECT,
                                  peer := some peer.incomingPeerID, data := peer.eventData }
        some { status := 1, host := { host with peers := host.peers.set slot peer },
               event := event, store := store }
      else if peer.state = ENetPeerState.ZOMBIE then
        let host := { host with recalculateBandwidthLimits := 1 }
        let event := { event with type := ENetEventType.DISCONNECT,
                                  peer := some peer.incomingPeerID, data := peer.eventData }
        let (host, peer, store) := enet_peer_reset hdr host peer store
        some { status := 1, host := { host with peers := host.peers.set slot peer },
               event := event, store := store }
      else if peer.state = ENetPeerState.CONNECTED then
        match enet_peer_receive peer with
        | (none, peer) =>
          enet_protocol_dispatch_incoming_commands_loop hdr rest
            { host with peers := host.peers.set slot peer } event store
        | (some (packet, channelID), peer) =>
          let event := { event with packet := some packet, channelID := channelID,
                                    type := ENetEventType.RECEIVE,
                                    peer := some peer.incomingPeerID }
          let (host, peer) :=
            if peer.dispatchedCommands ≠ [] then
              ({ host with dispatchQueue := host.dispatchQueue ++ [slot] },
               { peer with needsDispatch := true })
            else (host, peer)
          some { status := 1, host := { host with peers := host.peers.set slot peer },
                 event := event, store := store }
      else
        enet_protocol_dispatch_incoming_commands_loop hdr rest
          { host with peers := host.peers.set slot peer } event store

/-- `enet_protocol_dispatch_incoming_commands`. -/
def enet_protocol_dispatch_incoming_commands (hdr : ENetHeader) (host : ENetHost)
    (event : ENetEvent) (store : PacketStore) : Option DispatchEventResult :=
  enet_protocol_dispatch_incoming_commands_loop hdr host.dispatchQueue host event store

/-- `enet_host_check_events`; `event = none` is the NULL pointer, `-1` the failure. -/
def enet_host_check_events (hdr : ENetHeader) (host : ENetHost) (event : Option ENetEvent)
    (store : PacketStore) : Option (Int × ENetHost × Option ENetEvent × PacketStore) :=
  match event with
  | none => some (-1, host, none, store)
  | some event =>
    let event := { event with type := ENetEventType.NONE, peer := none, packet := none }
    (enet_protocol_dispatch_incoming_commands hdr host event store).map fun r =>
      (r.status, r.host, some r.event, r.store)

/-! ## peer.c: `enet_peer_throttle` -/

/-- `enet_peer_throttle`: the value returned and the peer. -/
def enet_peer_throttle (peer : ENetPeer) (rtt : Nat) : Int × ENetPeer :=
  if peer.lastRoundTripTime ≤ peer.lastRoundTripTimeVariance then
    (0, { peer with packetThrottle := peer.packetThrottleLimit })
  else if rtt ≤ peer.lastRoundTripTime then
    let packetThrottle := u32 (peer.packetThrottle + peer.packetThrottleAcceleration)
    (1, { peer with
          packetThrottle :=
            if packetThrottle > peer.packetThrottleLimit then peer.packetThrottleLimit
            else packetThrottle })
  else if rtt > u32 (peer.lastRoundTripTime + u32 (2 * peer.lastRoundTripTimeVariance)) then
    (-1, { peer with
           packetThrottle :=
             if peer.packetThrottle > peer.packetThrottleDeceleration then
               peer.packetThrottle - peer.packetThrottleDeceleration
             else 0 })
  else (0, peer)

/-! ## protocol.c: `enet_protocol_handle_acknowledge` -/

/-- The macros `ENET_TIME_LESS` and `ENET_TIME_DIFFERENCE` of the missing `enet.h`; the
functions that use them take them as a parameter. -/
structure ENetTime where
  ENET_TIME_LESS : Nat → Nat → Bool
  ENET_TIME_DIFFERENCE : Nat → Nat → Nat

/-- The view `command -> acknowledge` of the union: `receivedReliableSequenceNumber` and
`receivedSentTime`; a command that holds another record reads as zeros. -/
def ENetProtocol.acknowledgeView (command : ENetProtocol) : Nat × Nat :=
  match command.body with
  | .acknowledge receivedReliableSequenceNumber receivedSentTime =>
    (receivedReliableSequenceNumber, receivedSentTime)
  | _ => (0, 0)

/-- The 32-bit `receivedSentTime` that `enet_protocol_handle_acknowledge` rebuilds from the
16 bits of the command and the service time. -/
def acknowledgeSentTime (host : ENetHost) (command : ENetProtocol) : Nat :=
  let receivedSentTime := ENET_NET_TO_HOST_16 command.acknowledgeView.2
  let receivedSentTime := receivedSentTime ||| (host.serviceTime &&& 0xFFFF0000)
  if (receivedSentTime &&& 0x8000) > (host.serviceTime &&& 0x8000) then
    u32 (receivedSentTime + 4294967296 - 0x10000)
  else receivedSentTime

/-- The smoothing of `roundTripTime` and `roundTripTimeVariance` with the measured round
trip time, for a peer that has received before. -/
def acknowledgeSmooth (peer : ENetPeer) (roundTripTime : Nat) : ENetPeer :=
  let peer := (enet_peer_throttle peer roundTripTime).2
  let peer := { peer with
    roundTripTimeVariance := peer.roundTripTimeVariance - peer.roundTripTimeVariance / 4 }
  if roundTripTime ≥ peer.roundTripTime then
    let diff := roundTripTime - peer.roundTripTime
    { peer with
      roundTripTimeVariance := u32 (peer.roundTripTimeVariance + diff / 4),
      roundTripTime := u32 (peer.roundTripTime + diff / 8) }
  else
    let diff := peer.roundTripTime - roundTripTime
    { peer with
      roundTripTimeVariance := u32 (peer.roundTripTimeVariance + diff / 4),
      roundTripTime := peer.roundTripTime - diff / 8 }

/-- The two tests that keep the lowest round trip time and the highest variance of the
throttle interval. -/
def acknowledgeExtremes (peer : ENetPeer) : ENetPeer :=
  let peer :=
    if peer.roundTripTime < peer.lowestRoundTripTime then
      { peer with lowestRoundTripTime := peer.roundTripTime }
    else peer
  if peer.roundTripTimeVariance > peer.highestRoundTripTimeVariance then
    { peer with highestRoundTripTimeVariance := peer.roundTripTimeVariance }
  else peer

/-- The start of a new throttle interval in `enet_protocol_handle_acknowledge`. -/
def acknowledgeEpoch (time : ENetTime) (host : ENetHost) (peer : ENetPeer) : ENetPeer :=
  if peer.packetThrottleEpoch = 0 ∨
      u32 (time.ENET_TIME_DIFFERENCE host.serviceTime peer.packetThrottleEpoch)
        ≥ peer.packetThrottleInterval then
    { peer with
      lastRoundTripTime := peer.lowestRoundTripTime,
      lastRoundTripTimeVariance := max peer.highestRoundTripTimeVariance 1,
      lowestRoundTripTime := peer.roundTripTime,
      highestRoundTripTimeVariance := peer.roundTripTimeVariance,
      packetThrottleEpoch := host.serviceTime }
  else peer

/-- The update of the round trip time estimator and of the throttle in
`enet_protocol_handle_acknowledge`, up to `peer -> earliestTimeout = 0`. -/
def acknowledgeRoundTrip (time : ENetTime) (host : ENetHost) (peer : ENetPeer)
    (roundTripTime : Nat) : ENetPeer :=
  let peer :=
    if peer.lastReceiveTime > 0 then acknowledgeSmooth peer roundTripTime
    else
      { peer with
        roundTripTime := roundTripTime,
        roundTripTimeVariance := u32 (roundTripTime + 1) / 2 }
  let peer := acknowledgeExtremes peer
  let peer := acknowledgeEpoch time host peer
  { peer with lastReceiveTime := max host.serviceTime 1, earliestTimeout := 0 }

/-- Result of `enet_protocol_handle_acknowledge`. -/
structure AcknowledgeResult where
  status : Int
  host : ENetHost
  peer : ENetPeer
  event : Option ENetEvent
  store : PacketStore
  mem : Nat
  deriving DecidableEq

/-- The `switch (peer -> state)` at the end of `enet_protocol_handle_acknowledge`;
`commandNumber` is what `enet_protocol_remove_sent_reliable_command` returned. -/
def acknowledgeFinish (hdr : ENetHeader)
    (flush : ENetHost × ENetPeer × PacketStore → ENetHost × ENetPeer × PacketStore)
    (host : ENetHost) (event : Option ENetEvent) (peer : ENetPeer) (store : PacketStore)
    (mem : Nat) (commandNumber : Nat) : AcknowledgeResult :=
  if peer.state = ENetPeerState.ACKNOWLEDGING_CONNECT then
    if commandNumber ≠ ENET_PROTOCOL_COMMAND_VERIFY_CONNECT then
      { status := -1, host := host, peer := peer, event := event, store := store, mem := mem }
    else
      let (host, peer, event) := enet_protocol_notify_connect host peer event
      { status := 0, host := host, peer := peer, event := event, store := store, mem := mem }
  else if peer.state = ENetPeerState.DISCONNECTING then
    if commandNumber ≠ ENET_PROTOCOL_COMMAND_DISCONNECT then
      { status := -1, host := host, peer := peer, event := event, store := store, mem := mem }
    else
      let (host, peer, event, store) := enet_protocol_notify_disconnect hdr host peer event store
      { status := 0, host := host, peer := peer, event := event, store := store, mem := mem }
  else if peer.state = ENetPeerState.DISCONNECT_LATER then
    if peer.outgoingCommands = [] ∧ peer.sentReliableCommands = [] then
      let r := enet_peer_disconnect hdr flush host peer store peer.eventData mem
      { status := 0, host := r.host, peer := r.peer, event := event, store := r.store,
        mem := r.mem }
    else
      { status := 0, host := host, peer := peer, event := event, store := store, mem := mem }
  else
    { status := 0, host := host, peer := peer, event := event, store := store, mem := mem }

/-- `enet_protocol_handle_acknowledge`; `event = none` is the NULL pointer. -/
def enet_protocol_handle_acknowledge (hdr : ENetHeader) (time : ENetTime)
    (flush : ENetHost × ENetPeer × PacketStore → ENetHost × ENetPeer × PacketStore)
    (host : ENetHost) (event : Option ENetEvent) (peer : ENetPeer) (command : ENetProtocol)
    (store : PacketStore) (mem : Nat) : AcknowledgeResult :=
  if peer.state = ENetPeerState.DISCONNECTED ∨ peer.state = ENetPeerState.ZOMBIE then
    { status := 0, host := host, peer := peer, event := event, store := store, mem := mem }
  else
    let receivedSentTime := acknowledgeSentTime host command
    if time.ENET_TIME_LESS host.serviceTime receivedSentTime then
      { status := 0, host := host, peer := peer, event := event, store := store, mem := mem }
    else
      let roundTripTime := u32 (time.ENET_TIME_DIFFERENCE host.serviceTime receivedSentTime)
      let roundTripTime := max roundTripTime 1
      let peer := acknowledgeRoundTrip time host peer roundTripTime
      let receivedReliableSequenceNumber := ENET_NET_TO_HOST_16 command.acknowledgeView.1
      let removed := enet_protocol_remove_sent_reliable_command peer store
        receivedReliableSequenceNumber command.channelID
      acknowledgeFinish hdr flush host event removed.peer removed.store mem
        removed.commandNumber

/-! ## protocol.c: `enet_protocol_handle_disconnect`, `enet_protocol_handle_bandwidth_limit` -/

/-- The view `command -> disconnect.data` of the union; a command that holds another record
reads as zero. -/
def ENetProtocol.disconnectView (command : ENetProtocol) : Nat :=
  match command.body with
  | .disconnect data => data
  | _ => 0

/-- Result of a command handler that touches the host, the peer and the packets. -/
structure PeerResult where
  status : Int
  host : ENetHost
  peer : ENetPeer
  store : PacketStore
  deriving DecidableEq

/-- The state change of `enet_protocol_handle_disconnect` after the queues have been
reset. -/
def handleDisconnectState (hdr : ENetHeader) (host : ENetHost) (peer : ENetPeer)
    (command : ENetProtocol) (store : PacketStore) : ENetHost × ENetPeer × PacketStore :=
  if peer.state = ENetPeerState.CONNECTION_SUCCEEDED ∨
      peer.state = ENetPeerState.DISCONNECTING ∨ peer.state = ENetPeerState.CONNECTING then
    let (host, peer) := enet_protocol_dispatch_state host peer ENetPeerState.ZOMBIE
    (host, peer, store)
  else if peer.state ≠ ENetPeerState.CONNECTED ∧
      peer.state ≠ ENetPeerState.DISCONNECT_LATER then
    let host :=
      if peer.state = ENetPeerState.CONNECTION_PENDING then
        { host with recalculateBandwidthLimits := 1 }
      else host
    enet_peer_reset hdr host peer store
  else if command.command &&& ENET_PROTOCOL_COMMAND_FLAG_ACKNOWLEDGE ≠ 0 then
    let (host, peer) :=
      enet_protocol_change_state host peer ENetPeerState.ACKNOWLEDGING_DISCONNECT
    (host, peer, store)
  else
    let (host, peer) := enet_protocol_dispatch_state host peer ENetPeerState.ZOMBIE
    (host, peer, store)

/-- `enet_protocol_handle_disconnect`. -/
def enet_protocol_handle_disconnect (hdr : ENetHeader) (host : ENetHost) (peer : ENetPeer)
    (command : ENetProtocol) (store : PacketStore) : PeerResult :=
  if peer.state = ENetPeerState.DISCONNECTED ∨ peer.state = ENetPeerState.ZOMBIE ∨
      peer.state = ENetPeerState.ACKNOWLEDGING_DISCONNECT then
    { status := 0, host := host, peer := peer, store := store }
  else
    let (host, peer, store) := enet_peer_reset_queues host peer store
    let (host, peer, store) := handleDisconnectState hdr host peer command store
    let peer :=
      if peer.state ≠ ENetPeerState.DISCONNECTED then
        { peer with eventData := ENET_NET_TO_HOST_32 command.disconnectView }
      else peer
    { status := 0, host := host, peer := peer, store := store }

/-- The view `command -> bandwidthLimit` of the union: `incomingBandwidth` and
`outgoingBandwidth`; a command that holds another record reads as zeros. -/
def ENetProtocol.bandwidthLimitView (command : ENetProtocol) : Nat × Nat :=
  match command.body with
  | .bandwidthLimit incomingBandwidth outgoingBandwidth => (incomingBandwidth, outgoingBandwidth)
  | _ => (0, 0)

/-- The window size that `enet_protocol_handle_bandwidth_limit` derives from the incoming
bandwidth of the peer and the outgoing bandwidth of the host. -/
def bandwidthLimitWindowSize (hdr : ENetHeader) (host : ENetHost) (peer : ENetPeer) : Nat :=
  let windowSize :=
    if peer.incomingBandwidth = 0 ∧ host.outgoingBandwidth = 0 then
      ENET_PROTOCOL_MAXIMUM_WINDOW_SIZE
    else if peer.incomingBandwidth = 0 ∨ host.outgoingBandwidth = 0 then
      u32 ((max peer.incomingBandwidth host.outgoingBandwidth / hdr.ENET_PEER_WINDOW_SIZE_SCALE)
        * ENET_PROTOCOL_MINIMUM_WINDOW_SIZE)
    else
      u32 ((min peer.incomingBandwidth host.outgoingBandwidth / hdr.ENET_PEER_WINDOW_SIZE_SCALE)
        * ENET_PROTOCOL_MINIMUM_WINDOW_SIZE)
  if windowSize < ENET_PROTOCOL_MINIMUM_WINDOW_SIZE then ENET_PROTOCOL_MINIMUM_WINDOW_SIZE
  else if windowSize > ENET_PROTOCOL_MAXIMUM_WINDOW_SIZE then ENET_PROTOCOL_MAXIMUM_WINDOW_SIZE
  else windowSize

/-- `enet_protocol_handle_bandwidth_limit`: the value returned, the host and the peer. -/
def enet_protocol_handle_bandwidth_limit (hdr : ENetHeader) (host : ENetHost)
    (peer : ENetPeer) (command : ENetProtocol) : Int × ENetHost × ENetPeer :=
  if peer.state ≠ ENetPeerState.CONNECTED ∧ peer.state ≠ ENetPeerState.DISCONNECT_LATER then
    (-1, host, peer)
  else
    let host :=
      if peer.incomingBandwidth ≠ 0 then
        { host with bandwidthLimitedPeers := usizeSub host.bandwidthLimitedPeers 1 }
      else host
    let peer := { peer with
      incomingBandwidth := ENET_NET_TO_HOST_32 command.bandwidthLimitView.1,
      outgoingBandwidth := ENET_NET_TO_HOST_32 command.bandwidthLimitView.2 }
    let host :=
      if peer.incomingBandwidth ≠ 0 then
        { host with bandwidthLimitedPeers := usize (host.bandwidthLimitedPeers + 1) }
      else host
    (0, host, { peer with windowSize := bandwidthLimitWindowSize hdr host peer })

/-! ## protocol.c: `enet_protocol_check_timeouts` -/

/-- Result of `enet_protocol_check_timeouts`. -/
structure CheckTimeoutsResult where
  status : Int
  host : ENetHost
  peer : ENetPeer
  event : Option ENetEvent
  store : PacketStore
  deriving DecidableEq

/-- The test of `enet_protocol_check_timeouts` that gives the peer up. -/
def timeoutExceeded (time : ENetTime) (host : ENetHost) (peer : ENetPeer)
    (outgoingCommand : ENetOutgoingCommand) : Bool :=
  decide (peer.earliestTimeout ≠ 0 ∧
    (u32 (time.ENET_TIME_DIFFERENCE host.serviceTime peer.earliestTimeout)
        ≥ peer.timeoutMaximum ∨
      (outgoingCommand.roundTripTimeout ≥ outgoingCommand.roundTripTimeoutLimit ∧
        u32 (time.ENET_TIME_DIFFERENCE host.serviceTime peer.earliestTimeout)
          ≥ peer.timeoutMinimum)))

/-- The `while` loop of `enet_protocol_check_timeouts` over `sentReliableCommands` from
`currentCommand` on.  `kept` holds the commands before `currentCommand` that stay in
`sentReliableCommands`, `moved` the commands that were put in front of `insertPosition` (the
first command `outgoingCommands` had at the start); the two lists of the peer are written
when the loop is left. -/
def enet_protocol_check_timeouts_loop (hdr : ENetHeader) (time : ENetTime) (host : ENetHost)
    (event : Option ENetEvent) (store : PacketStore) :
    ENetPeer → (kept moved : List ENetOutgoingCommand) → List ENetOutgoingCommand →
      CheckTimeoutsResult
  | peer, kept, moved, [] =>
    { status := 0, host := host,
      peer := { peer with
        sentReliableCommands := kept, outgoingCommands := moved ++ peer.outgoingCommands },
      event := event, store := store }
  | peer, kept, moved, outgoingCommand :: rest =>
    if u32 (time.ENET_TIME_DIFFERENCE host.serviceTime outgoingCommand.sentTime)
        < outgoingCommand.roundTripTimeout then
      enet_protocol_check_timeouts_loop hdr time host event store peer
        (kept ++ [outgoingCommand]) moved rest
    else
      let peer :=
        if peer.earliestTimeout = 0 ∨
            time.ENET_TIME_LESS outgoingCommand.sentTime peer.earliestTimeout then
          { peer with earliestTimeout := outgoingCommand.sentTime }
        else peer
      if timeoutExceeded time host peer outgoingCommand then
        let peer := { peer with
          sentReliableCommands := kept ++ outgoingCommand :: rest,
          outgoingCommands := moved ++ peer.outgoingCommands }
        let (host, peer, event, store) :=
          enet_protocol_notify_disconnect hdr host peer event store
        { status := 1, host := host, peer := peer, event := event, store := store }
      else
        let peer :=
          if outgoingCommand.packet ≠ none then
            { peer with
              reliableDataInTransit :=
                u32 (peer.reliableDataInTransit + 4294967296 - outgoingCommand.fragmentLength) }
          else peer
        let peer := { peer with packetsLost := u32 (peer.packetsLost + 1) }
        let outgoingCommand := { outgoingCommand with
          roundTripTimeout := u32 (outgoingCommand.roundTripTimeout * 2) }
        let peer :=
          match kept, rest with
          | [], next :: _ =>
            { peer with nextTimeout := u32 (next.sentTime + next.roundTripTimeout) }
          | _, _ => peer
        enet_protocol_check_timeouts_loop hdr time host event store peer kept
          (moved ++ [outgoingCommand]) rest

/-- `enet_protocol_check_timeouts`; `event = none` is the NULL pointer. -/
def enet_protocol_check_timeouts (hdr : ENetHeader) (time : ENetTime) (host : ENetHost)
    (peer : ENetPeer) (event : Option ENetEvent) (store : PacketStore) :
    CheckTimeoutsResult :=
  enet_protocol_check_timeouts_loop hdr time host event store peer [] []
    peer.sentReliableCommands

/-! ## host.c: `enet_host_create` -/

/-- Modelled from the spec: `DEFAULT_MTU=1400` (section 6). -/
def ENET_HOST_DEFAULT_MTU : Nat := 1400

/-- Modelled from the spec: `UNSEQUENCED_WINDOW_SIZE=1024` (section 6). -/
def ENET_PEER_UNSEQUENCED_WINDOW_SIZE : Nat := 1024

/-- What `enet_host_create` takes from outside the engine: the constants of the missing
`enet.h` that the specification does not state, whether the socket could be created and
bound, and the value `(enet_uint32) (size_t) host + enet_host_random_seed ()`. -/
structure ENetHostSetup where
  ENET_HOST_DEFAULT_MAXIMUM_PACKET_SIZE : Nat
  ENET_HOST_DEFAULT_MAXIMUM_WAITING_DATA : Nat
  ENET_HOST_ANY : Nat
  socket : Bool
  randomSeed : Nat
  deriving DecidableEq

/-- A peer slot after `memset (host -> peers, 0, ...)` and the assignments of the loop of
`enet_host_create` that come before `enet_peer_reset`. -/
def clearedPeer (incomingPeerID : Nat) : ENetPeer :=
  { outgoingPeerID := 0, incomingPeerID := incomingPeerID, connectID := 0,
    outgoingSessionID := 0xFF, incomingSessionID := 0xFF,
    address := { host := 0, port := 0 }, state := ENetPeerState.DISCONNECTED,
    channels := [], channelCount := 0,
    incomingBandwidth := 0, outgoingBandwidth := 0,
    incomingBandwidthThrottleEpoch := 0, outgoingBandwidthThrottleEpoch := 0,
    incomingDataTotal := 0, outgoingDataTotal := 0, lastSendTime := 0, lastReceiveTime := 0,
    nextTimeout := 0, earliestTimeout := 0, packetLossEpoch := 0, packetsSent := 0,
    packetsLost := 0, packetLoss := 0, packetLossVariance := 0,
    packetThrottle := 0, packetThrottleLimit := 0, packetThrottleCounter := 0,
    packetThrottleEpoch := 0, packetThrottleAcceleration := 0,
    packetThrottleDeceleration := 0, packetThrottleInterval := 0,
    pingInterval := 0, timeoutLimit := 0, timeoutMinimum := 0, timeoutMaximum := 0,
    lastRoundTripTime := 0, lowestRoundTripTime := 0, lastRoundTripTimeVariance := 0,
    highestRoundTripTimeVariance := 0, roundTripTime := 0, roundTripTimeVariance := 0,
    mtu := 0, windowSize := 0, reliableDataInTransit := 0,
    outgoingReliableSequenceNumber := 0, acknowledgements := [], sentReliableCommands := [],
    sentUnreliableCommands := [], outgoingCommands := [], dispatchedCommands := [],
    needsDispatch := false, incomingUnsequencedGroup := 0, outgoingUnsequencedGroup := 0,
    unsequencedWindow := List.replicate (ENET_PEER_UNSEQUENCED_WINDOW_SIZE / 32) 0,
    eventData := 0, totalWaitingData := 0 }

/-- The `for` loop of `enet_host_create` over the slots `incomingPeerID`, ... of the host:
the slots it has initialised are appended to `host.peers`. -/
def enet_host_create_peers (hdr : ENetHeader) :
    (count : Nat) → (incomingPeerID : Nat) → ENetHost → ENetHost
  | 0, _, host => host
  | count + 1, incomingPeerID, host =>
    let (host, currentPeer, _) := enet_peer_reset hdr host (clearedPeer incomingPeerID) []
    enet_host_create_peers hdr count (incomingPeerID + 1)
      { host with peers := host.peers ++ [currentPeer] }

/-- `enet_host_create`: the host (`none` for NULL) and the allocation budget that is left.
The address is used for binding the socket only (`setup.socket`). -/
def enet_host_create (hdr : ENetHeader) (setup : ENetHostSetup)
    (peerCount channelLimit incomingBandwidth outgoingBandwidth : Nat) (mem : Nat) :
    Option ENetHost × Nat :=
  if peerCount > ENET_PROTOCOL_MAXIMUM_PEER_ID then (none, mem)
  else
    match enet_malloc mem with
    | none => (none, 0)
    | some mem =>
      match enet_malloc mem with
      | none => (none, 0)
      | some mem =>
        if setup.socket = false then (none, mem)
        else
          let channelLimit :=
            if channelLimit = 0 ∨ channelLimit > ENET_PROTOCOL_MAXIMUM_CHANNEL_COUNT then
              ENET_PROTOCOL_MAXIMUM_CHANNEL_COUNT
            else if channelLimit < ENET_PROTOCOL_MINIMUM_CHANNEL_COUNT then
              ENET_PROTOCOL_MINIMUM_CHANNEL_COUNT
            else channelLimit
          let randomSeed := u32 setup.randomSeed
          let randomSeed := u32 (randomSeed <<< 16) ||| (randomSeed >>> 16)
          let host : ENetHost :=
            { incomingBandwidth := incomingBandwidth, outgoingBandwidth := outgoingBandwidth,
              bandwidthThrottleEpoch := 0, mtu := ENET_HOST_DEFAULT_MTU,
              randomSeed := randomSeed, recalculateBandwidthLimits := 0,
              peers := [], peerCount := peerCount, channelLimit := channelLimit,
              serviceTime := 0, dispatchQueue := [], continueSending := 0, packetSize := 0,
              headerFlags := 0, commands := [], commandCount := 0, buffers := [],
              bufferCount := 0, checksum := false,
              receivedAddress := { host := setup.ENET_HOST_ANY, port := 0 }, connectedPeers := 0,
              bandwidthLimitedPeers := 0, duplicatePeers := ENET_PROTOCOL_MAXIMUM_PEER_ID,
              maximumPacketSize := setup.ENET_HOST_DEFAULT_MAXIMUM_PACKET_SIZE,
              maximumWaitingData := setup.ENET_HOST_DEFAULT_MAXIMUM_WAITING_DATA,
              compressor := false, totalSentData := 0, totalSentPackets := 0 }
          (some (enet_host_create_peers hdr peerCount 0 host), mem)

/-! ## packet.c: `enet_crc32` -/

/-- The array `crcTable`. -/
def crcTable : List Nat :=
  [0, 0x77073096, 0xEE0E612C, 0x990951BA, 0x076DC419, 0x706AF48F, 0xE963A535, 0x9E6495A3,
   0x0EDB8832, 0x79DCB8A4, 0xE0D5E91E, 0x97D2D988, 0x09B64C2B, 0x7EB17CBD, 0xE7B82D07, 0x90BF1D91,
   0x1DB71064, 0x6AB020F2, 0xF3B97148, 0x84BE41DE, 0x1ADAD47D, 0x6DDDE4EB, 0xF4D4B551, 0x83D385C7,
   0x136C9856, 0x646BA8C0, 0xFD62F97A, 0x8A65C9EC, 0x14015C4F, 0x63066CD9, 0xFA0F3D63, 0x8D080DF5,
   0x3B6E20C8, 0x4C69105E, 0xD56041E4, 0xA2677172, 0x3C03E4D1, 0x4B04D447, 0xD20D85FD, 0xA50AB56B,
   0x35B5A8FA, 0x42B2986C, 0xDBBBC9D6, 0xACBCF940, 0x32D86CE3, 0x45DF5C75, 0xDCD60DCF, 0xABD13D59,
   0x26D930AC, 0x51DE003A, 0xC8D75180, 0xBFD06116, 0x21B4F4B5, 0x56B3C423, 0xCFBA9599, 0xB8BDA50F,
   0x2802B89E, 0x5F058808, 0xC60CD9B2, 0xB10BE924, 0x2F6F7C87, 0x58684C11, 0xC1611DAB, 0xB6662D3D,
   0x76DC4190, 0x01DB7106, 0x98D220BC, 0xEFD5102A, 0x71B18589, 0x06B6B51F, 0x9FBFE4A5, 0xE8B8D433,
   0x7807C9A2, 0x0F00F934, 0x9609A88E, 0xE10E9818, 0x7F6A0DBB, 0x086D3D2D, 0x91646C97, 0xE6635C01,
   0x6B6B51F4, 0x1C6C6162, 0x856530D8, 0xF262004E, 0x6C0695ED, 0x1B01A57B, 0x8208F4C1, 0xF50FC457,
   0x65B0D9C6, 0x12B7E950, 0x8BBEB8EA, 0xFCB9887C, 0x62DD1DDF, 0x15DA2D49, 0x8CD37CF3, 0xFBD44C65,
   0x4DB26158, 0x3AB551CE, 0xA3BC0074, 0xD4BB30E2, 0x4ADFA541, 0x3DD895D7, 0xA4D1C46D, 0xD3D6F4FB,
   0x4369E96A, 0x346ED9FC, 0xAD678846, 0xDA60B8D0, 0x44042D73, 0x33031DE5, 0xAA0A4C5F, 0xDD0D7CC9,
   0x5005713C, 0x270241AA, 0xBE0B1010, 0xC90C2086, 0x5768B525, 0x206F85B3, 0xB966D409, 0xCE61E49F,
   0x5EDEF90E, 0x29D9C998, 0xB0D09822, 0xC7D7A8B4, 0x59B33D17, 0x2EB40D81, 0xB7BD5C3B, 0xC0BA6CAD,
   0xEDB88320, 0x9ABFB3B6, 0x03B6E20C, 0x74B1D29A, 0xEAD54739, 0x9DD277AF, 0x04DB2615, 0x73DC1683,
   0xE3630B12, 0x94643B84, 0x0D6D6A3E, 0x7A6A5AA8, 0xE40ECF0B, 0x9309FF9D, 0x0A00AE27, 0x7D079EB1,
   0xF00F9344, 0x8708A3D2, 0x1E01F268, 0x6906C2FE, 0xF762575D, 0x806567CB, 0x196C3671, 0x6E6B06E7,
   0xFED41B76, 0x89D32BE0, 0x10DA7A5A, 0x67DD4ACC, 0xF9B9DF6F, 0x8EBEEFF9, 0x17B7BE43, 0x60B08ED5,
   0xD6D6A3E8, 0xA1D1937E, 0x38D8C2C4, 0x4FDFF252, 0xD1BB67F1, 0xA6BC5767, 0x3FB506DD, 0x48B2364B,
   0xD80D2BDA, 0xAF0A1B4C, 0x36034AF6, 0x41047A60, 0xDF60EFC3, 0xA867DF55, 0x316E8EEF, 0x4669BE79,
   0xCB61B38C, 0xBC66831A, 0x256FD2A0, 0x5268E236, 0xCC0C7795, 0xBB0B4703, 0x220216B9, 0x5505262F,
   0xC5BA3BBE, 0xB2BD0B28, 0x2BB45A92, 0x5CB36A04, 0xC2D7FFA7, 0xB5D0CF31, 0x2CD99E8B, 0x5BDEAE1D,
   0x9B64C2B0, 0xEC63F226, 0x756AA39C, 0x026D930A, 0x9C0906A9, 0xEB0E363F, 0x72076785, 0x5005713,
   0x95BF4A82, 0xE2B87A14, 0x7BB12BAE, 0x0CB61B38, 0x92D28E9B, 0xE5D5BE0D, 0x7CDCEFB7, 0xBDBDF21,
   0x86D3D2D4, 0xF1D4E242, 0x68DDB3F8, 0x1FDA836E, 0x81BE16CD, 0xF6B9265B, 0x6FB077E1, 0x18B74777,
   0x88085AE6, 0xFF0F6A70, 0x66063BCA, 0x11010B5C, 0x8F659EFF, 0xF862AE69, 0x616BFFD3, 0x166CCF45,
   0xA00AE278, 0xD70DD2EE, 0x4E048354, 0x3903B3C2, 0xA7672661, 0xD06016F7, 0x4969474D, 0x3E6E77DB,
   0xAED16A4A, 0xD9D65ADC, 0x40DF0B66, 0x37D83BF0, 0xA9BCAE53, 0xDEBB9EC5, 0x47B2CF7F, 0x30B5FFE9,
   0xBDBDF21C, 0xCABAC28A, 0x53B39330, 0x24B4A3A6, 0xBAD03605, 0xCDD70693, 0x54DE5729, 0x23D967BF,
   0xB3667A2E, 0xC4614AB8, 0x5D681B02, 0x2A6F2B94, 0xB40BBE37, 0xC30C8EA1, 0x5A05DF1B, 0x2D02EF8D]

/-- The inner `while` loop of `enet_crc32` over the bytes of one buffer. -/
def enet_crc32_buffer (crc : Nat) : List Nat → Nat
  | [] => crc
  | byte :: data =>
    enet_crc32_buffer ((crc >>> 8) ^^^ crcTable.getD ((crc &&& 0xFF) ^^^ byte) 0) data

/-- The outer `while` loop of `enet_crc32` over the buffers. -/
def enet_crc32_buffers (crc : Nat) : List (List Nat) → Nat
  | [] => crc
  | buffer :: buffers => enet_crc32_buffers (enet_crc32_buffer crc buffer) buffers

/-- `enet_crc32`; a buffer is the list of its bytes. -/
def enet_crc32 (buffers : List (List Nat)) : Nat :=
  ENET_HOST_TO_NET_32 (0xFFFFFFFF ^^^ enet_crc32_buffers 0xFFFFFFFF buffers)

/-! ## peer.c: `enet_peer_queue_acknowledgement` -/

/-- `enet_peer_queue_acknowledgement`: the peer and the allocation budget afterwards (the
pointer returned is not used by the caller).  `none` is a channel index beyond the array. -/
def enet_peer_queue_acknowledgement (peer : ENetPeer) (command : ENetProtocol)
    (sentTime : Nat) (mem : Nat) : Option (ENetPeer × Nat) :=
  let queue : Option (ENetPeer × Nat) :=
    match enet_malloc mem with
    | none => some (peer, 0)
    | some mem =>
      some ({ peer with
          outgoingDataTotal := u32 (peer.outgoingDataTotal
            + commandSizes.getD ENET_PROTOCOL_COMMAND_ACKNOWLEDGE 0),
          acknowledgements := peer.acknowledgements
            ++ [{ sentTime := sentTime, command := command }] }, mem)
  if command.channelID < peer.channelCount then
    match peer.channels.get? command.channelID with
    | none => none
    | some channel =>
      let reliableWindow :=
        reliableWindowOf command.reliableSequenceNumber channel.incomingReliableSequenceNumber
      let currentWindow :=
        channel.incomingReliableSequenceNumber / ENET_PEER_RELIABLE_WINDOW_SIZE
      if reliableWindow ≥ currentWindow + ENET_PEER_FREE_RELIABLE_WINDOWS - 1 ∧
          reliableWindow ≤ currentWindow + ENET_PEER_FREE_RELIABLE_WINDOWS then
        some (peer, mem)
      else queue
  else queue

/-! ## protocol.c: the handlers of `PING`, `THROTTLE_CONFIGURE` and the unfragmented sends -/

/-- `enet_protocol_handle_ping`: the value returned. -/
def enet_protocol_handle_ping (peer : ENetPeer) : Int :=
  if peer.state ≠ ENetPeerState.CONNECTED ∧ peer.state ≠ ENetPeerState.DISCONNECT_LATER then -1
  else 0

/-- The view `command -> throttleConfigure` of the union: interval, acceleration and
deceleration; a command that holds another record reads as zeros. -/
def ENetProtocol.throttleConfigureView (command : ENetProtocol) : Nat × Nat × Nat :=
  match command.body with
  | .throttleConfigure packetThrottleInterval packetThrottleAcceleration
      packetThrottleDeceleration =>
    (packetThrottleInterval, packetThrottleAcceleration, packetThrottleDeceleration)
  | _ => (0, 0, 0)

/-- `enet_protocol_handle_throttle_configure`: the value returned and the peer. -/
def enet_protocol_handle_throttle_configure (peer : ENetPeer) (command : ENetProtocol) :
    Int × ENetPeer :=
  if peer.state ≠ ENetPeerState.CONNECTED ∧ peer.state ≠ ENetPeerState.DISCONNECT_LATER then
    (-1, peer)
  else
    (0, { peer with
      packetThrottleInterval := ENET_NET_TO_HOST_32 command.throttleConfigureView.1,
      packetThrottleAcceleration := ENET_NET_TO_HOST_32 command.throttleConfigureView.2.1,
      packetThrottleDeceleration := ENET_NET_TO_HOST_32 command.throttleConfigureView.2.2 })

/-- The field `dataLength` of the record of a send command, read through the view of its
command; a command that holds another record reads as zero. -/
def ENetProtocol.dataLengthView (command : ENetProtocol) : Nat :=
  match command.body with
  | .sendReliable dataLength => dataLength
  | .sendUnreliable _ dataLength => dataLength
  | .sendUnsequenced _ dataLength => dataLength
  | .sendFragment f => f.dataLength
  | _ => 0

/-- The end of the three handlers of unfragmented sends: the value returned for the pointer
that `enet_peer_queue_incoming_command` gave. -/
def handleSendQueued (q : QueueIncomingResult) (data : List Nat) : HandleResult :=
  match q.ret with
  | .null => { status := -1, host := q.host, peer := q.peer, currentData := data, mem := q.mem }
  | _ => { status := 0, host := q.host, peer := q.peer, currentData := data, mem := q.mem }

/-- `enet_protocol_handle_send_reliable`.  `currentData` holds the bytes of the datagram
that follow the command record. -/
def enet_protocol_handle_send_reliable (host : ENetHost) (peer : ENetPeer)
    (command : ENetProtocol) (currentData : List Nat) (mem : Nat) : Option HandleResult :=
  if command.channelID ≥ peer.channelCount ∨
      (peer.state ≠ ENetPeerState.CONNECTED ∧ peer.state ≠ ENetPeerState.DISCONNECT_LATER) then
    some { status := -1, host := host, peer := peer, currentData := currentData, mem := mem }
  else
    let dataLength := ENET_NET_TO_HOST_16 command.dataLengthView
    let payload := currentData.take dataLength
    let data := currentData.drop dataLength
    if dataLength > host.maximumPacketSize ∨ dataLength > currentData.length then
      some { status := -1, host := host, peer := peer, currentData := data, mem := mem }
    else
      match enet_peer_queue_incoming_command host peer command (some payload) dataLength
          { reliable := true, unsequenced := false, noAllocate := false,
            unreliableFragment := false, sent := false } 0 mem with
      | none => none
      | some q => some (handleSendQueued q data)

/-- `enet_protocol_handle_send_unreliable`. -/
def enet_protocol_handle_send_unreliable (host : ENetHost) (peer : ENetPeer)
    (command : ENetProtocol) (currentData : List Nat) (mem : Nat) : Option HandleResult :=
  if command.channelID ≥ peer.channelCount ∨
      (peer.state ≠ ENetPeerState.CONNECTED ∧ peer.state ≠ ENetPeerState.DISCONNECT_LATER) then
    some { status := -1, host := host, peer := peer, currentData := currentData, mem := mem }
  else
    let dataLength := ENET_NET_TO_HOST_16 command.dataLengthView
    let payload := currentData.take dataLength
    let data := currentData.drop dataLength
    if dataLength > host.maximumPacketSize ∨ dataLength > currentData.length then
      some { status := -1, host := host, peer := peer, currentData := data, mem := mem }
    else
      match enet_peer_queue_incoming_command host peer command (some payload) dataLength
          { reliable := false, unsequenced := false, noAllocate := false,
            unreliableFragment := false, sent := false } 0 mem with
      | none => none
      | some q => some (handleSendQueued q data)

/-- Modelled from the spec: `FREE_UNSEQUENCED_WINDOWS=32` (section 6). -/
def ENET_PEER_FREE_UNSEQUENCED_WINDOWS : Nat := 32

/-- The part of `enet_protocol_handle_send_unsequenced` after the window of the group has
been found open: the move of the window, the test of the bit of the group, the queueing of
the command and the setting of the bit.  `unsequencedGroup` is the group after
`unsequencedGroup &= 0xFFFF`. -/
def handleSendUnsequencedQueue (host : ENetHost) (peer : ENetPeer) (command : ENetProtocol)
    (payload data : List Nat) (dataLength unsequencedGroup index : Nat) (mem : Nat) :
    Option HandleResult :=
  let moved := decide (u32 (unsequencedGroup + 4294967296 - index)
    ≠ peer.incomingUnsequencedGroup)
  if ¬ moved ∧ peer.unsequencedWindow.getD (index / 32) 0 &&& (1 <<< (index % 32)) ≠ 0 then
    some { status := 0, host := host, peer := peer, currentData := data, mem := mem }
  else
    let peer :=
      if moved then
        { peer with
          incomingUnsequencedGroup := u16 (u32 (unsequencedGroup + 4294967296 - index)),
          unsequencedWindow := List.replicate peer.unsequencedWindow.length 0 }
      else peer
    match enet_peer_queue_incoming_command host peer command (some payload) dataLength
        { reliable := false, unsequenced := true, noAllocate := false,
          unreliableFragment := false, sent := false } 0 mem with
    | none => none
    | some q =>
      match q.ret with
      | .null =>
        some { status := -1, host := q.host, peer := q.peer, currentData := data,
               mem := q.mem }
      | _ =>
        some { status := 0, host := q.host,
               peer := { q.peer with
                 unsequencedWindow := q.peer.unsequencedWindow.set (index / 32)
                   (u32 (q.peer.unsequencedWindow.getD (index / 32) 0
                     ||| (1 <<< (index % 32)))) },
               currentData := data, mem := q.mem }

/-- `enet_protocol_handle_send_unsequenced`. -/
def enet_protocol_handle_send_unsequenced (host : ENetHost) (peer : ENetPeer)
    (command : ENetProtocol) (currentData : List Nat) (mem : Nat) : Option HandleResult :=
  if command.channelID ≥ peer.channelCount ∨
      (peer.state ≠ ENetPeerState.CONNECTED ∧ peer.state ≠ ENetPeerState.DISCONNECT_LATER) then
    some { status := -1, host := host, peer := peer, currentData := currentData, mem := mem }
  else
    let dataLength := ENET_NET_TO_HOST_16 command.dataLengthView
    let payload := currentData.take dataLength
    let data := currentData.drop dataLength
    if dataLength > host.maximumPacketSize ∨ dataLength > currentData.length then
      some { status := -1, host := host, peer := peer, currentData := data, mem := mem }
    else
      let unsequencedGroup := ENET_NET_TO_HOST_16 command.unreliableSequenceNumberView
      let index := unsequencedGroup % ENET_PEER_UNSEQUENCED_WINDOW_SIZE
      let unsequencedGroup :=
        if unsequencedGroup < peer.incomingUnsequencedGroup then
          u32 (unsequencedGroup + 0x10000)
        else unsequencedGroup
      if unsequencedGroup ≥ u32 (peer.incomingUnsequencedGroup
          + ENET_PEER_FREE_UNSEQUENCED_WINDOWS * ENET_PEER_UNSEQUENCED_WINDOW_SIZE) then
        some { status := 0, host := host, peer := peer, currentData := data, mem := mem }
      else
        handleSendUnsequencedQueue host peer command payload data dataLength
          (unsequencedGroup &&& 0xFFFF) index mem

/-! ## protocol.c: `enet_protocol_handle_send_unreliable_fragment` -/

/-- The backwards search of `enet_protocol_handle_send_unreliable_fragment` over the
reversed queue of incoming unreliable commands; `found k` is the node with `k` nodes behind
it. -/
def unreliableFragmentStartScan (reliableSequenceNumber startSequenceNumber
    incomingReliableSequenceNumber totalLength fragmentCount : Nat) :
    List ENetIncomingCommand → StartScan
  | [] => .notFound
  | incomingCommand :: before =>
    if reliableSequenceNumber ≥ incomingReliableSequenceNumber ∧
        incomingCommand.reliableSequenceNumber < incomingReliableSequenceNumber then
      (unreliableFragmentStartScan reliableSequenceNumber startSequenceNumber
        incomingReliableSequenceNumber totalLength fragmentCount before).skip
    else if ¬ reliableSequenceNumber ≥ incomingReliableSequenceNumber ∧
        incomingCommand.reliableSequenceNumber ≥ incomingReliableSequenceNumber then
      .notFound
    else if incomingCommand.reliableSequenceNumber < reliableSequenceNumber then .notFound
    else if incomingCommand.reliableSequenceNumber > reliableSequenceNumber then
      (unreliableFragmentStartScan reliableSequenceNumber startSequenceNumber
        incomingReliableSequenceNumber totalLength fragmentCount before).skip
    else if incomingCommand.unreliableSequenceNumber ≤ startSequenceNumber then
      if incomingCommand.unreliableSequenceNumber < startSequenceNumber then .notFound
      else if incomingCommand.command.command &&& ENET_PROTOCOL_COMMAND_MASK
            ≠ ENET_PROTOCOL_COMMAND_SEND_UNRELIABLE_FRAGMENT ∨
          totalLength ≠ incomingCommand.packet.dataLength ∨
          fragmentCount ≠ incomingCommand.fragmentCount then .error
      else .found 0
    else
      (unreliableFragmentStartScan reliableSequenceNumber startSequenceNumber
        incomingReliableSequenceNumber totalLength fragmentCount before).skip

/-- The second half of `enet_protocol_handle_send_unreliable_fragment`: marking fragment
`fragmentNumber` in the start command at `location`, copying its bytes, and dispatching
when no fragment remains. -/
def enet_protocol_handle_send_unreliable_fragment_store (host : ENetHost) (peer : ENetPeer)
    (channelID : Nat) (location : IncomingLocation)
    (fragmentNumber fragmentOffset fragmentLength : Nat) (payload : List Nat) :
    Option (ENetHost × ENetPeer) :=
  match peer.incomingAt channelID location with
  | none => none
  | some startCommand =>
    match startCommand.fragments with
    | none => none
    | some fragments =>
      match fragments.get? (fragmentNumber / 32) with
      | none => none
      | some word =>
        if word &&& (1 <<< (fragmentNumber % 32)) = 0 then
          let fragmentLength :=
            if u32 (fragmentOffset + fragmentLength) > startCommand.packet.dataLength then
              u32 (startCommand.packet.dataLength + 4294967296 - fragmentOffset)
            else fragmentLength
          let startCommand := { startCommand with
            fragmentsRemaining := u32 (startCommand.fragmentsRemaining + 4294967296 - 1),
            fragments := some (fragments.set (fragmentNumber / 32)
              (u32 (word ||| (1 <<< (fragmentNumber % 32))))),
            packet := { startCommand.packet with
              data := startCommand.packet.data.take fragmentOffset
                ++ payload.take fragmentLength
                ++ startCommand.packet.data.drop (fragmentOffset + fragmentLength) } }
          let peer := peer.setIncomingAt channelID startCommand location
          if startCommand.fragmentsRemaining ≤ 0 then
            match peer.channels.get? channelID with
            | none => none
            | some channel =>
              let r := enet_peer_dispatch_incoming_unreliable_commands host peer channel none
              some (r.host, { r.peer with channels := r.peer.channels.set channelID r.channel })
          else some (host, peer)
        else some (host, peer)

/-- The part of `enet_protocol_handle_send_unreliable_fragment` after the checks of the
record: the search for the start command, its creation when there is none, and the storing
of the fragment. -/
def enet_protocol_handle_send_unreliable_fragment_assemble (host : ENetHost) (peer : ENetPeer)
    (command : ENetProtocol) (channel : ENetChannel) (payload data : List Nat) (mem : Nat)
    (startSequenceNumber fragmentNumber fragmentCount fragmentOffset totalLength
      fragmentLength : Nat) : Option HandleResult :=
  match unreliableFragmentStartScan command.reliableSequenceNumber startSequenceNumber
      channel.incomingReliableSequenceNumber totalLength fragmentCount
      channel.incomingUnreliableCommands.reverse with
  | .error =>
    some { status := -1, host := host, peer := peer, currentData := data, mem := mem }
  | .found skipped =>
    match enet_protocol_handle_send_unreliable_fragment_store host peer command.channelID
        (.inUnreliable (channel.incomingUnreliableCommands.length - 1 - skipped))
        fragmentNumber fragmentOffset fragmentLength payload with
    | none => none
    | some (host, peer) =>
      some { status := 0, host := host, peer := peer, currentData := data, mem := mem }
  | .notFound =>
    match enet_peer_queue_incoming_command host peer command none totalLength
        { reliable := false, unsequenced := false, noAllocate := false,
          unreliableFragment := true, sent := false } fragmentCount mem with
    | none => none
    | some q =>
      match q.ret with
      | .null =>
        some { status := -1, host := q.host, peer := q.peer, currentData := data,
               mem := q.mem }
      | .dummyCommand => none
      | .queued location =>
        match enet_protocol_handle_send_unreliable_fragment_store q.host q.peer
            command.channelID location fragmentNumber fragmentOffset fragmentLength
            payload with
        | none => none
        | some (host, peer) =>
          some { status := 0, host := host, peer := peer, currentData := data,
                 mem := q.mem }

/-- `enet_protocol_handle_send_unreliable_fragment`. -/
def enet_protocol_handle_send_unreliable_fragment (host : ENetHost) (peer : ENetPeer)
    (command : ENetProtocol) (currentData : List Nat) (mem : Nat) : Option HandleResult :=
  if command.channelID ≥ peer.channelCount ∨
      (peer.state ≠ ENetPeerState.CONNECTED ∧ peer.state ≠ ENetPeerState.DISCONNECT_LATER) then
    some { status := -1, host := host, peer := peer, currentData := currentData, mem := mem }
  else
    let fragmentLength := ENET_NET_TO_HOST_16 command.sendFragmentView.dataLength
    let payload := currentData.take fragmentLength
    let data := currentData.drop fragmentLength
    if fragmentLength > host.maximumPacketSize ∨ fragmentLength > currentData.length then
      some { status := -1, host := host, peer := peer, currentData := data, mem := mem }
    else
      match peer.channels.get? command.channelID with
      | none => none
      | some channel =>
        let startSequenceNumber :=
          ENET_NET_TO_HOST_16 command.sendFragmentView.startSequenceNumber
        let reliableWindow :=
          reliableWindowOf command.reliableSequenceNumber channel.incomingReliableSequenceNumber
        let currentWindow :=
          channel.incomingReliableSequenceNumber / ENET_PEER_RELIABLE_WINDOW_SIZE
        if reliableWindow < currentWindow ∨
            reliableWindow ≥ currentWindow + ENET_PEER_FREE_RELIABLE_WINDOWS - 1 then
          some { status := 0, host := host, peer := peer, currentData := data, mem := mem }
        else if command.reliableSequenceNumber = channel.incomingReliableSequenceNumber ∧
            startSequenceNumber ≤ channel.incomingUnreliableSequenceNumber then
          some { status := 0, host := host, peer := peer, currentData := data, mem := mem }
        else
          let fragmentNumber := ENET_NET_TO_HOST_32 command.sendFragmentView.fragmentNumber
          let fragmentCount := ENET_NET_TO_HOST_32 command.sendFragmentView.fragmentCount
          let fragmentOffset := ENET_NET_TO_HOST_32 command.sendFragmentView.fragmentOffset
          let totalLength := ENET_NET_TO_HOST_32 command.sendFragmentView.totalLength
          if fragmentCount > ENET_PROTOCOL_MAXIMUM_FRAGMENT_COUNT ∨
              fragmentNumber ≥ fragmentCount ∨
              totalLength > host.maximumPacketSize ∨
              fragmentOffset ≥ totalLength ∨
              fragmentLength > totalLength - fragmentOffset then
            some { status := -1, host := host, peer := peer, currentData := data, mem := mem }
          else
            enet_protocol_handle_send_unreliable_fragment_assemble host peer command channel
              payload data mem startSequenceNumber fragmentNumber fragmentCount fragmentOffset
              totalLength fragmentLength

/-! ## protocol.c: `enet_protocol_handle_incoming_commands` -/

/-- Modelled from the spec: `COMPRESSED` is bit 14 of the header's `peerID` word
(section 6); stands for `ENET_PROTOCOL_HEADER_FLAG_COMPRESSED`. -/
def ENET_PROTOCOL_HEADER_FLAG_COMPRESSED : Nat := 0x4000

/-- Modelled from the spec: the two flag bits of the header's `peerID` word (section 6);
stands for `ENET_PROTOCOL_HEADER_FLAG_MASK`. -/
def ENET_PROTOCOL_HEADER_FLAG_MASK : Nat := 0xC000

/-- Modelled from the spec: the 2-bit session id sits above the 12-bit peer id in the
header's `peerID` word (section 4.1); stands for `ENET_PROTOCOL_HEADER_SESSION_SHIFT`. -/
def ENET_PROTOCOL_HEADER_SESSION_SHIFT : Nat := 12

/-- Modelled from the spec: the 2-bit session id sits above the 12-bit peer id in the
header's `peerID` word (section 4.1); stands for `ENET_PROTOCOL_HEADER_SESSION_MASK`. -/
def ENET_PROTOCOL_HEADER_SESSION_MASK : Nat := 0x3000

/-- Modelled from the spec: the command numbers run from 0 (none) to 12 (section 6); stands
for `ENET_PROTOCOL_COMMAND_COUNT`. -/
def ENET_PROTOCOL_COMMAND_COUNT : Nat := 13

/-- Modelled from the spec: the command header is `command:uint8`, `channelID:uint8`,
`reliableSequenceNumber:uint16` (section 6); stands for
`sizeof (ENetProtocolCommandHeader)`. -/
def sizeof_ENetProtocolCommandHeader : Nat := 4

/-- Modelled from the spec: `sentTime` follows the 16-bit `peerID` in the protocol header
(section 6); stands for `(size_t) & ((ENetProtocolHeader *) 0) -> sentTime`. -/
def offsetof_sentTime : Nat := 2

/-- The byte at an offset of a byte sequence. -/
def byteAt (bytes : List Nat) (offset : Nat) : Nat := u8 (bytes.getD offset 0)

/-- Modelled from the spec: a 16-bit field of the wire, big-endian (section 4.1), as the value
that `ENET_NET_TO_HOST_16` gives for it. -/
def be16 (bytes : List Nat) (offset : Nat) : Nat :=
  byteAt bytes offset * 256 + byteAt bytes (offset + 1)

/-- Modelled from the spec: a 32-bit field of the wire, big-endian (section 4.1), as the value
that `ENET_NET_TO_HOST_32` gives for it. -/
def be32 (bytes : List Nat) (offset : Nat) : Nat :=
  be16 bytes offset * 65536 + be16 bytes (offset + 2)

/-- Modelled from the spec: the bytes of a 32-bit value on the wire, big-endian
(section 4.1). -/
def be32Bytes (value : Nat) : List Nat :=
  [u8 (value / 16777216), u8 (value / 65536), u8 (value / 256), u8 value]

/-- Modelled from the spec: the `CONNECT` and `VERIFY_CONNECT` records on the wire
(section 6). -/
def decodeConnect (bytes : List Nat) : ENetProtocolConnect :=
  { outgoingPeerID := be16 bytes 4, incomingSessionID := byteAt bytes 6,
    outgoingSessionID := byteAt bytes 7, mtu := be32 bytes 8, windowSize := be32 bytes 12,
    channelCount := be32 bytes 16, incomingBandwidth := be32 bytes 20,
    outgoingBandwidth := be32 bytes 24, packetThrottleInterval := be32 bytes 28,
    packetThrottleAcceleration := be32 bytes 32, packetThrottleDeceleration := be32 bytes 36,
    connectID := be32 bytes 40, data := be32 bytes 44 }

/-- Modelled from the spec: the `SEND_FRAGMENT` and `SEND_UNRELIABLE_FRAGMENT` records on
the wire (section 6). -/
def decodeSendFragment (bytes : List Nat) : ENetProtocolSendFragment :=
  { startSequenceNumber := be16 bytes 4, dataLength := be16 bytes 6,
    fragmentCount := be32 bytes 8, fragmentNumber := be32 bytes 12,
    totalLength := be32 bytes 16, fragmentOffset := be32 bytes 20 }

/-- Modelled from the spec: the record of command `commandNumber` on the wire (section 6),
read through the member of the union `ENetProtocol` that the handler of the command
uses. -/
def decodeBody (commandNumber : Nat) (bytes : List Nat) : ENetProtocolBody :=
  if commandNumber = ENET_PROTOCOL_COMMAND_ACKNOWLEDGE then
    .acknowledge (be16 bytes 4) (be16 bytes 6)
  else if commandNumber = ENET_PROTOCOL_COMMAND_CONNECT then .connect (decodeConnect bytes)
  else if commandNumber = ENET_PROTOCOL_COMMAND_VERIFY_CONNECT then
    .verifyConnect (decodeConnect bytes)
  else if commandNumber = ENET_PROTOCOL_COMMAND_DISCONNECT then .disconnect (be32 bytes 4)
  else if commandNumber = ENET_PROTOCOL_COMMAND_SEND_RELIABLE then
    .sendReliable (be16 bytes 4)
  else if commandNumber = ENET_PROTOCOL_COMMAND_SEND_UNRELIABLE then
    .sendUnreliable (be16 bytes 4) (be16 bytes 6)
  else if commandNumber = ENET_PROTOCOL_COMMAND_SEND_FRAGMENT ∨
      commandNumber = ENET_PROTOCOL_COMMAND_SEND_UNRELIABLE_FRAGMENT then
    .sendFragment (decodeSendFragment bytes)
  else if commandNumber = ENET_PROTOCOL_COMMAND_SEND_UNSEQUENCED then
    .sendUnsequenced (be16 bytes 4) (be16 bytes 6)
  else if commandNumber = ENET_PROTOCOL_COMMAND_BANDWIDTH_LIMIT then
    .bandwidthLimit (be32 bytes 4) (be32 bytes 8)
  else if commandNumber = ENET_PROTOCOL_COMMAND_THROTTLE_CONFIGURE then
    .throttleConfigure (be32 bytes 4) (be32 bytes 8) (be32 bytes 12)
  else .unset

/-- The command that `command = (ENetProtocol *) currentData` points at, after
`command -> header.reliableSequenceNumber` has been converted to host order. -/
def decodeCommand (currentData : List Nat) : ENetProtocol :=
  { command := byteAt currentData 0, channelID := byteAt currentData 1,
    reliableSequenceNumber := ENET_NET_TO_HOST_16 (be16 currentData 2),
    body := decodeBody (byteAt currentData 0 &&& ENET_PROTOCOL_COMMAND_MASK) currentData }

/-- What `enet_protocol_handle_incoming_commands` takes from outside the engine:
`ENET_HOST_BROADCAST` and the size of a packet buffer `sizeof (host -> packetData [1])` of
the missing `enet.h`, the callback `host -> compressor.decompress` (`none` when it or the
compressor context is NULL; it is given the bytes to read, `inLimit` and `outLimit`, and the
bytes it returns are those it has written, their number being the value it returns), and
the callback `host -> checksum` on a single buffer. -/
structure ENetReceive where
  ENET_HOST_BROADCAST : Nat
  sizeof_packetData : Nat
  decompress : Option (List Nat → Nat → Nat → List Nat)
  checksum : List Nat → Nat

/-- The locals of `enet_protocol_handle_incoming_commands` together with the objects it
writes.  `peer` is the slot of the peer that `peer` points at and the peer itself (`none`
for NULL), whose entry in `host.peers` is written when the function returns;
`currentData` holds the bytes of the datagram from `currentData` on. -/
structure IncomingState where
  host : ENetHost
  peer : Option (Nat × ENetPeer)
  event : Option ENetEvent
  store : PacketStore
  mem : Nat
  currentData : List Nat
  deriving DecidableEq

/-- The state after a handler that returns a `HandleResult`. -/
def IncomingState.handled (st : IncomingState) (slot : Nat) (r : HandleResult) :
    Int × IncomingState :=
  (r.status, { st with host := r.host, peer := some (slot, r.peer),
                       currentData := r.currentData, mem := r.mem })

/-- The cases of the `switch` of `enet_protocol_handle_incoming_commands` for the commands
that carry data: the value that the handler returns and the state afterwards. -/
def handleSendCommand (st : IncomingState) (slot : Nat) (peer : ENetPeer)
    (commandNumber : Nat) (command : ENetProtocol) : Option (Int × IncomingState) :=
  if commandNumber = ENET_PROTOCOL_COMMAND_SEND_RELIABLE then
    (enet_protocol_handle_send_reliable st.host peer command st.currentData st.mem).map
      (st.handled slot)
  else if commandNumber = ENET_PROTOCOL_COMMAND_SEND_UNRELIABLE then
    (enet_protocol_handle_send_unreliable st.host peer command st.currentData st.mem).map
      (st.handled slot)
  else if commandNumber = ENET_PROTOCOL_COMMAND_SEND_UNSEQUENCED then
    (enet_protocol_handle_send_unsequenced st.host peer command st.currentData st.mem).map
      (st.handled slot)
  else if commandNumber = ENET_PROTOCOL_COMMAND_SEND_FRAGMENT then
    (enet_protocol_handle_send_fragment st.host peer command st.currentData st.mem).map
      (st.handled slot)
  else
    (enet_protocol_handle_send_unreliable_fragment st.host peer command st.currentData
      st.mem).map (st.handled slot)

/-- The cases of the `switch` of `enet_protocol_handle_incoming_commands` for a datagram
that is addressed to a peer: the value that the handler returns (-1 for the `goto
commandError` of `CONNECT` and of `default`) and the state afterwards.  `none` is undefined
behaviour in a handler. -/
def handleCommand (hdr : ENetHeader) (time : ENetTime)
    (flush : ENetHost × ENetPeer × PacketStore → ENetHost × ENetPeer × PacketStore)
    (st : IncomingState) (slot : Nat) (peer : ENetPeer) (commandNumber : Nat)
    (command : ENetProtocol) : Option (Int × IncomingState) :=
  if commandNumber = ENET_PROTOCOL_COMMAND_ACKNOWLEDGE then
    let r := enet_protocol_handle_acknowledge hdr time flush st.host st.event peer command
      st.store st.mem
    some (r.status, { st with host := r.host, peer := some (slot, r.peer), event := r.event,
                              store := r.store, mem := r.mem })
  else if commandNumber = ENET_PROTOCOL_COMMAND_VERIFY_CONNECT then
    let r := enet_protocol_handle_verify_connect st.host st.event peer command st.store
    some (r.status, { st with host := r.host, peer := some (slot, r.peer), event := r.event,
                              store := r.store })
  else if commandNumber = ENET_PROTOCOL_COMMAND_DISCONNECT then
    let r := enet_protocol_handle_disconnect hdr st.host peer command st.store
    some (r.status, { st with host := r.host, peer := some (slot, r.peer), store := r.store })
  else if commandNumber = ENET_PROTOCOL_COMMAND_PING then
    some (enet_protocol_handle_ping peer, st)
  else if commandNumber = ENET_PROTOCOL_COMMAND_BANDWIDTH_LIMIT then
    let r := enet_protocol_handle_bandwidth_limit hdr st.host peer command
    some (r.1, { st with host := r.2.1, peer := some (slot, r.2.2) })
  else if commandNumber = ENET_PROTOCOL_COMMAND_THROTTLE_CONFIGURE then
    let r := enet_protocol_handle_throttle_configure peer command
    some (r.1, { st with peer := some (slot, r.2) })
  else if commandNumber = ENET_PROTOCOL_COMMAND_SEND_RELIABLE ∨
      commandNumber = ENET_PROTOCOL_COMMAND_SEND_UNRELIABLE ∨
      commandNumber = ENET_PROTOCOL_COMMAND_SEND_UNSEQUENCED ∨
      commandNumber = ENET_PROTOCOL_COMMAND_SEND_FRAGMENT ∨
      commandNumber = ENET_PROTOCOL_COMMAND_SEND_UNRELIABLE_FRAGMENT then
    handleSendCommand st slot peer commandNumber command
  else some (-1, st)

/-- The case `ENET_PROTOCOL_COMMAND_CONNECT` of the `switch` for a datagram that is addressed
to no peer: the peer that `enet_protocol_handle_connect` returns becomes the peer of the
datagram. -/
def handleConnectCommand (hdr : ENetHeader) (st : IncomingState) (command : ENetProtocol) :
    Int × IncomingState :=
  let r := enet_protocol_handle_connect hdr st.host command st.mem
  match r.peer with
  | none => (-1, { st with host := r.host, mem := r.mem })
  | some slot =>
    match r.host.peers.get? slot with
    | none => (-1, { st with host := r.host, mem := r.mem })
    | some peer => (0, { st with host := r.host, peer := some (slot, peer), mem := r.mem })

/-- The end of the loop body of `enet_protocol_handle_incoming_commands` for a command with
the `ACKNOWLEDGE` flag in a datagram that carries the sent time: the `switch` over the state
of the peer that queues the acknowledgement. -/
def queueCommandAcknowledgement (st : IncomingState) (slot : Nat) (peer : ENetPeer)
    (command : ENetProtocol) (sentTime : Nat) : Option IncomingState :=
  if peer.state = ENetPeerState.DISCONNECTING ∨
      peer.state = ENetPeerState.ACKNOWLEDGING_CONNECT ∨
      peer.state = ENetPeerState.DISCONNECTED ∨ peer.state = ENetPeerState.ZOMBIE then
    some st
  else if peer.state = ENetPeerState.ACKNOWLEDGING_DISCONNECT ∧
      command.command &&& ENET_PROTOCOL_COMMAND_MASK ≠ ENET_PROTOCOL_COMMAND_DISCONNECT then
    some st
  else
    (enet_peer_queue_acknowledgement peer command sentTime st.mem).map fun r =>
      { st with peer := some (slot, r.1), mem := r.2 }

/-- The end of the loop body of `enet_protocol_handle_incoming_commands`, after the
`switch` over the command number: `status` is the value that the handler returned.  The
result tells whether the loop goes on (`false` after a `break` or a `goto
commandError`). -/
def acknowledgeIncomingCommand (flags sentTime : Nat) (command : ENetProtocol) (status : Int)
    (st : IncomingState) : Option (Bool × IncomingState) :=
  if status ≠ 0 then some (false, st)
  else
    match st.peer with
    | none => some (true, st)
    | some (slot, peer) =>
      if command.command &&& ENET_PROTOCOL_COMMAND_FLAG_ACKNOWLEDGE = 0 then some (true, st)
      else if flags &&& ENET_PROTOCOL_HEADER_FLAG_SENT_TIME = 0 then some (false, st)
      else
        (queueCommandAcknowledgement st slot peer command sentTime).map fun st => (true, st)

/-- One turn of the loop of `enet_protocol_handle_incoming_commands`, from the test of the
command header on: the state afterwards, and whether the loop goes on (`false` after a
`break` or a `goto commandError`).  `none` is undefined behaviour in a handler. -/
def handleIncomingCommand (hdr : ENetHeader) (time : ENetTime)
    (flush : ENetHost × ENetPeer × PacketStore → ENetHost × ENetPeer × PacketStore)
    (flags sentTime : Nat) (st : IncomingState) : Option (Bool × IncomingState) :=
  let commandNumber := byteAt st.currentData 0 &&& ENET_PROTOCOL_COMMAND_MASK
  let commandSize := commandSizes.getD commandNumber 0
  if st.currentData.length < sizeof_ENetProtocolCommandHeader then some (false, st)
  else if commandNumber ≥ ENET_PROTOCOL_COMMAND_COUNT then some (false, st)
  else if commandSize = 0 ∨ st.currentData.length < commandSize then some (false, st)
  else
    let command := decodeCommand st.currentData
    let st := { st with currentData := st.currentData.drop commandSize }
    match st.peer with
    | none =>
      if commandNumber ≠ ENET_PROTOCOL_COMMAND_CONNECT then some (false, st)
      else
        let r := handleConnectCommand hdr st command
        acknowledgeIncomingCommand flags sentTime command r.1 r.2
    | some (slot, peer) =>
      match handleCommand hdr time flush st slot peer commandNumber command with
      | none => none
      | some r => acknowledgeIncomingCommand flags sentTime command r.1 r.2

/-- The `while` loop of `enet_protocol_handle_incoming_commands`.  Every turn but the last
takes the bytes of a command record from `currentData`; `fuel` bounds the number of turns
(`none` when it is used up, and for undefined behaviour in a handler). -/
def enet_protocol_handle_incoming_commands_loop (hdr : ENetHeader) (time : ENetTime)
    (flush : ENetHost × ENetPeer × PacketStore → ENetHost × ENetPeer × PacketStore)
    (flags sentTime : Nat) : Nat → IncomingState → Option IncomingState
  | 0, st => if st.currentData = [] then some st else none
  | fuel + 1, st =>
    if st.currentData = [] then some st
    else
      match handleIncomingCommand hdr time flush flags sentTime st with
      | none => none
      | some (false, st) => some st
      | some (true, st) =>
        enet_protocol_handle_incoming_commands_loop hdr time flush flags sentTime fuel st

/-- Result of `enet_protocol_handle_incoming_commands`. -/
structure IncomingResult where
  status : Int
  host : ENetHost
  event : Option ENetEvent
  store : PacketStore
  mem : Nat
  deriving DecidableEq

/-- The tests of `enet_protocol_handle_incoming_commands` on the peer that the datagram is
addressed to. -/
def incomingPeerRejected (env : ENetReceive) (host : ENetHost) (peer : ENetPeer)
    (sessionID : Nat) : Bool :=
  decide (peer.state = ENetPeerState.DISCONNECTED ∨ peer.state = ENetPeerState.ZOMBIE ∨
    ((host.receivedAddress.host ≠ peer.address.host ∨
        host.receivedAddress.port ≠ peer.address.port) ∧
      peer.address.host ≠ env.ENET_HOST_BROADCAST) ∨
    (peer.outgoingPeerID < ENET_PROTOCOL_MAXIMUM_PEER_ID ∧
      sessionID ≠ peer.incomingSessionID))

/-- The size of the header of a datagram with the given flags. -/
def incomingHeaderSize (host : ENetHost) (flags : Nat) : Nat :=
  let headerSize :=
    if flags &&& ENET_PROTOCOL_HEADER_FLAG_SENT_TIME ≠ 0 then sizeof_ENetProtocolHeader
    else offsetof_sentTime
  if host.checksum then headerSize + sizeof_enet_uint32 else headerSize

/-- The datagram after the decompression step of `enet_protocol_handle_incoming_commands`:
the outer `none` is the `return 0` of the step, the inner one a read of bytes of the
receive buffer beyond the datagram. -/
def incomingDecompress (env : ENetReceive) (receivedData : List Nat) (flags headerSize : Nat) :
    Option (Option (List Nat)) :=
  if flags &&& ENET_PROTOCOL_HEADER_FLAG_COMPRESSED = 0 then some (some receivedData)
  else
    match env.decompress with
    | none => none
    | some decompress =>
      if receivedData.length < headerSize then some none
      else
        let original := decompress (receivedData.drop headerSize)
          (receivedData.length - headerSize) (usizeSub env.sizeof_packetData headerSize)
        if original.length = 0 ∨
            original.length > usizeSub env.sizeof_packetData headerSize then none
        else some (some (receivedData.take headerSize ++ original))

/-- The checksum step of `enet_protocol_handle_incoming_commands`: whether the checksum of
the datagram with `connectID` in the checksum slot is the value that the slot held. -/
def incomingChecksumMatches (env : ENetReceive) (receivedData : List Nat)
    (headerSize connectID : Nat) : Bool :=
  decide (env.checksum (receivedData.take (headerSize - sizeof_enet_uint32)
      ++ be32Bytes connectID ++ receivedData.drop headerSize)
    = be32 receivedData (headerSize - sizeof_enet_uint32))

/-- The value that `enet_protocol_handle_incoming_commands` returns at the label
`commandError`: 1 when the event slot has been filled. -/
def incomingStatus (event : Option ENetEvent) : Int :=
  match event with
  | some event => if event.type ≠ ENetEventType.NONE then 1 else 0
  | none => 0

/-- The value `peer != NULL ? peer -> connectID : 0` that goes into the checksum slot of a
datagram. -/
def checksumConnectID (peer : Option (Nat × ENetPeer)) : Nat :=
  match peer with
  | some (_, peer) => peer.connectID
  | none => 0

/-- The end of `enet_protocol_handle_incoming_commands`, from the label `commandError` on,
with the peer of the datagram written to its slot. -/
def incomingFinish (st : IncomingState) : IncomingResult :=
  let host :=
    match st.peer with
    | none => st.host
    | some (slot, peer) => { st.host with peers := st.host.peers.set slot peer }
  { status := incomingStatus st.event, host := host, event := st.event, store := st.store,
    mem := st.mem }

/-- The part of `enet_protocol_handle_incoming_commands` after the peer of the datagram has
been found and accepted: decompression, checksum, the update of the address and of
`incomingDataTotal`, and the loop over the commands. -/
def incomingAccepted (hdr : ENetHeader) (time : ENetTime)
    (flush : ENetHost × ENetPeer × PacketStore → ENetHost × ENetPeer × PacketStore)
    (env : ENetReceive) (host : ENetHost) (event : Option ENetEvent)
    (receivedData : List Nat) (store : PacketStore) (mem : Nat) (flags : Nat)
    (peer : Option (Nat × ENetPeer)) : Option IncomingResult :=
  let unchanged : IncomingResult :=
    { status := 0, host := host, event := event, store := store, mem := mem }
  let headerSize := incomingHeaderSize host flags
  match incomingDecompress env receivedData flags headerSize with
  | none => some unchanged
  | some none => none
  | some (some data) =>
    if host.checksum ∧ data.length < headerSize then none
    else if host.checksum ∧
        ¬ incomingChecksumMatches env data headerSize (checksumConnectID peer) then
      some unchanged
    else
      let peer := peer.map fun (slot, peer) =>
        (slot, { peer with
          address := host.receivedAddress,
          incomingDataTotal := u32 (peer.incomingDataTotal + data.length) })
      (enet_protocol_handle_incoming_commands_loop hdr time flush flags
        (ENET_NET_TO_HOST_16 (be16 receivedData offsetof_sentTime)) data.length
        { host := host, peer := peer, event := event, store := store, mem := mem,
          currentData := data.drop headerSize }).map incomingFinish

/-- The word `header -> peerID` of a datagram in host order. -/
def headerWord (receivedData : List Nat) : Nat := ENET_NET_TO_HOST_16 (be16 receivedData 0)

/-- The session id in the header of a datagram. -/
def headerSessionID (receivedData : List Nat) : Nat :=
  (headerWord receivedData &&& ENET_PROTOCOL_HEADER_SESSION_MASK)
    >>> ENET_PROTOCOL_HEADER_SESSION_SHIFT

/-- The flags in the header of a datagram. -/
def headerFlags (receivedData : List Nat) : Nat :=
  headerWord receivedData &&& ENET_PROTOCOL_HEADER_FLAG_MASK

/-- The peer id in the header of a datagram. -/
def headerPeerID (receivedData : List Nat) : Nat :=
  headerWord receivedData &&& (65535 ^^^
    (ENET_PROTOCOL_HEADER_FLAG_MASK ||| ENET_PROTOCOL_HEADER_SESSION_MASK))

/-- `enet_protocol_handle_incoming_commands` on the datagram `receivedData` (its length is
`host -> receivedDataLength`); `event = none` is the NULL pointer.  `none` is undefined
behaviour in a handler or a read of bytes of the receive buffer beyond the datagram. -/
def enet_protocol_handle_incoming_commands (hdr : ENetHeader) (time : ENetTime)
    (flush : ENetHost × ENetPeer × PacketStore → ENetHost × ENetPeer × PacketStore)
    (env : ENetReceive) (host : ENetHost) (event : Option ENetEvent)
    (receivedData : List Nat) (store : PacketStore) (mem : Nat) : Option IncomingResult :=
  let unchanged : IncomingResult :=
    { status := 0, host := host, event := event, store := store, mem := mem }
  if receivedData.length < offsetof_sentTime then some unchanged
  else if headerPeerID receivedData = ENET_PROTOCOL_MAXIMUM_PEER_ID then
    incomingAccepted hdr time flush env host event receivedData store mem
      (headerFlags receivedData) none
  else if headerPeerID receivedData ≥ host.peerCount then some unchanged
  else
    match host.peers.get? (headerPeerID receivedData) with
    | none => none
    | some peer =>
      if incomingPeerRejected env host peer (headerSessionID receivedData) then some unchanged
      else
        incomingAccepted hdr time flush env host event receivedData store mem
          (headerFlags receivedData) (some (headerPeerID receivedData, peer))

/-! ## compress.c: the range coder -/

/-- An `ENetSymbol`: a node of the binary indexed tree of a context (`value`, `count`,
`under`, `left`, `right`; `left` and `right` are offsets in the table) and the context that
the symbol defines (`symbols` is the offset of the root of its tree, `parent` the index of
the symbol of the next shorter context). -/
structure ENetSymbol where
  value : Nat
  count : Nat
  under : Nat
  left : Nat
  right : Nat
  symbols : Nat
  escapes : Nat
  total : Nat
  parent : Nat
  deriving DecidableEq

/-- `ENET_RANGE_CODER_TOP = 1<<24`. -/
def ENET_RANGE_CODER_TOP : Nat := 16777216
/-- `ENET_RANGE_CODER_BOTTOM = 1<<16`. -/
def ENET_RANGE_CODER_BOTTOM : Nat := 65536
/-- `ENET_CONTEXT_SYMBOL_DELTA = 3`. -/
def ENET_CONTEXT_SYMBOL_DELTA : Nat := 3
/-- `ENET_CONTEXT_SYMBOL_MINIMUM = 1`. -/
def ENET_CONTEXT_SYMBOL_MINIMUM : Nat := 1
/-- `ENET_CONTEXT_ESCAPE_MINIMUM = 1`. -/
def ENET_CONTEXT_ESCAPE_MINIMUM : Nat := 1
/-- `ENET_SUBCONTEXT_ORDER = 2`. -/
def ENET_SUBCONTEXT_ORDER : Nat := 2
/-- `ENET_SUBCONTEXT_SYMBOL_DELTA = 2`. -/
def ENET_SUBCONTEXT_SYMBOL_DELTA : Nat := 2
/-- `ENET_SUBCONTEXT_ESCAPE_DELTA = 5`. -/
def ENET_SUBCONTEXT_ESCAPE_DELTA : Nat := 5
/-- The number of cells of `rangeCoder -> symbols`:
`sizeof (rangeCoder -> symbols) / sizeof (ENetSymbol)`. -/
def rangeCoderSymbols : Nat := 4096

/-- The ways in which a run of the range coder ends without reaching its last statement:
`returnZero` is a `return 0` of the C code (the bytes that it wrote to `outData` before are
not kept); `readBeyondInput`, `symbolOutOfRange` and `divisionByZero` are undefined
behaviour of the C code (a read of `* inData` at or beyond `inEnd`, an access outside
`rangeCoder -> symbols`, a division by a zero `total`); `outOfFuel` is the end of the fuel
of a loop of the model and stands for no behaviour of the C code. -/
inductive RangeCoderExit
  | returnZero
  | readBeyondInput
  | symbolOutOfRange
  | divisionByZero
  | outOfFuel
  deriving DecidableEq

/-- Equality of two results of the range coder is decidable. -/
instance instDecidableEqExcept {ε α : Type} [DecidableEq ε] [DecidableEq α] :
    DecidableEq (Except ε α)
  | Except.ok a, Except.ok b =>
    if h : a = b then isTrue (by rw [h]) else isFalse (fun e => h (Except.ok.inj e))
  | Except.error a, Except.error b =>
    if h : a = b then isTrue (by rw [h]) else isFalse (fun e => h (Except.error.inj e))
  | Except.ok _, Except.error _ => isFalse (fun e => Except.noConfusion e)
  | Except.error _, Except.ok _ => isFalse (fun e => Except.noConfusion e)

/-- The cell `rangeCoder -> symbols [index]`.  The table is the list of its cells (4096 of
them in an `ENetRangeCoder`); `enet_range_coder_create` leaves their contents arbitrary. -/
def readSymbol (symbols : List ENetSymbol) (index : Nat) : Except RangeCoderExit ENetSymbol :=
  match symbols[index]? with
  | some symbol => Except.ok symbol
  | none => Except.error RangeCoderExit.symbolOutOfRange

/-- A store to the cell `rangeCoder -> symbols [index]`, for an `index` inside the table. -/
def writeSymbol (symbols : List ENetSymbol) (index : Nat) (symbol : ENetSymbol) :
    List ENetSymbol :=
  symbols.set index symbol

/-- The difference `symbol - node` of two pointers into the table, stored in an
`enet_uint16`. -/
def symbolOffset (symbol node : Nat) : Nat := u16 (symbol + 65536 - node)

/-- `ENET_SYMBOL_CREATE`: the new table, the new `nextSymbol` and the index of the symbol. -/
def ENET_SYMBOL_CREATE (symbols : List ENetSymbol) (nextSymbol value count : Nat) :
    Except RangeCoderExit (List ENetSymbol × Nat × Nat) :=
  match symbols[nextSymbol]? with
  | some _ =>
    Except.ok (writeSymbol symbols nextSymbol
        { value := u8 value, count := u8 count, under := u16 count, left := 0, right := 0,
          symbols := 0, escapes := 0, total := 0, parent := 0 },
      nextSymbol + 1, nextSymbol)
  | none => Except.error RangeCoderExit.symbolOutOfRange

/-- `ENET_CONTEXT_CREATE`: the new table, the new `nextSymbol` and the index of the
context. -/
def ENET_CONTEXT_CREATE (symbols : List ENetSymbol) (nextSymbol escapes minimum : Nat) :
    Except RangeCoderExit (List ENetSymbol × Nat × Nat) := do
  let (symbols1, nextSymbol1, context) ← ENET_SYMBOL_CREATE symbols nextSymbol 0 0
  let created ← readSymbol symbols1 context
  Except.ok (writeSymbol symbols1 context
      { created with escapes := u16 escapes, total := u16 (escapes + 256 * minimum),
                     symbols := 0 },
    nextSymbol1, context)

/-- `enet_symbol_rescale` at the node `symbol` with the running `total`: the `for` loop
follows the `right` offsets and the recursive call descends into the `left` subtree.  The
fuel bounds the length of a path of the tree; offsets are positive, so a path has at most
`rangeCoderSymbols` nodes. -/
def enet_symbol_rescale : Nat → List ENetSymbol → Nat → Nat →
    Except RangeCoderExit (List ENetSymbol × Nat)
  | 0, _, _, _ => Except.error RangeCoderExit.outOfFuel
  | fuel + 1, symbols, symbol, total => do
    let node ← readSymbol symbols symbol
    let count := u8 (node.count - (node.count >>> 1))
    let symbols1 := writeSymbol symbols symbol { node with count := count, under := count }
    let symbols2 ←
      if node.left ≠ 0 then do
        let (symbols2, below) ← enet_symbol_rescale fuel symbols1 (symbol + node.left) 0
        let node2 ← readSymbol symbols2 symbol
        Except.ok (writeSymbol symbols2 symbol { node2 with under := u16 (node2.under + below) })
      else Except.ok symbols1
    let node3 ← readSymbol symbols2 symbol
    let total1 := u16 (total + node3.under)
    if node3.right = 0 then Except.ok (symbols2, total1)
    else enet_symbol_rescale fuel symbols2 (symbol + node3.right) total1

/-- `ENET_CONTEXT_RESCALE`. -/
def ENET_CONTEXT_RESCALE (symbols : List ENetSymbol) (context minimum : Nat) :
    Except RangeCoderExit (List ENetSymbol) := do
  let record ← readSymbol symbols context
  let (symbols1, total) ←
    if record.symbols ≠ 0 then
      enet_symbol_rescale rangeCoderSymbols symbols (context + record.symbols) 0
    else Except.ok (symbols, 0)
  let record1 ← readSymbol symbols1 context
  let escapes := u16 (record1.escapes - (record1.escapes >>> 1))
  Except.ok (writeSymbol symbols1 context
    { record1 with escapes := escapes, total := u16 (total + (escapes + 256 * minimum)) })

/-- `ENET_RANGE_CODER_OUTPUT` with `outData - outStart = outData.length`: the bytes written
so far with `value` appended, or the `return 0` when `outData >= outEnd`. -/
def ENET_RANGE_CODER_OUTPUT (outLimit : Nat) (outData : List Nat) (value : Nat) :
    Except RangeCoderExit (List Nat) :=
  if outData.length ≥ outLimit then Except.error RangeCoderExit.returnZero
  else Except.ok (outData ++ [u8 value])

/-- The `for (;;)` loop of `ENET_RANGE_CODER_ENCODE` on `encodeLow`, `encodeRange` and the
output.  Every turn that does not leave the loop writes a byte or returns 0, so that
`outLimit + 1` turns are enough. -/
def rangeCoderEncodeLoop (outLimit : Nat) : Nat → Nat → Nat → List Nat →
    Except RangeCoderExit (Nat × Nat × List Nat)
  | 0, _, _, _ => Except.error RangeCoderExit.outOfFuel
  | fuel + 1, encodeLow, encodeRange, outData =>
    if (encodeLow ^^^ u32 (encodeLow + encodeRange)) ≥ ENET_RANGE_CODER_TOP then
      if encodeRange ≥ ENET_RANGE_CODER_BOTTOM then Except.ok (encodeLow, encodeRange, outData)
      else do
        let encodeRange1 := u32 (4294967296 - encodeLow) &&& (ENET_RANGE_CODER_BOTTOM - 1)
        let outData1 ← ENET_RANGE_CODER_OUTPUT outLimit outData (encodeLow >>> 24)
        rangeCoderEncodeLoop outLimit fuel (u32 (encodeLow <<< 8)) (u32 (encodeRange1 <<< 8))
          outData1
    else do
      let outData1 ← ENET_RANGE_CODER_OUTPUT outLimit outData (encodeLow >>> 24)
      rangeCoderEncodeLoop outLimit fuel (u32 (encodeLow <<< 8)) (u32 (encodeRange <<< 8))
        outData1

/-- `ENET_RANGE_CODER_ENCODE (under, count, total)`. -/
def ENET_RANGE_CODER_ENCODE (outLimit encodeLow encodeRange : Nat) (outData : List Nat)
    (under count total : Nat) : Except RangeCoderExit (Nat × Nat × List Nat) :=
  if total = 0 then Except.error RangeCoderExit.divisionByZero
  else
    let encodeRange1 := encodeRange / total
    let encodeLow1 := u32 (encodeLow + under * encodeRange1)
    let encodeRange2 := u32 (encodeRange1 * count)
    rangeCoderEncodeLoop outLimit (outLimit + 1) encodeLow1 encodeRange2 outData

/-- `ENET_RANGE_CODER_FLUSH`: `encodeLow` is zero after four shifts. -/
def ENET_RANGE_CODER_FLUSH (outLimit : Nat) : Nat → Nat → List Nat →
    Except RangeCoderExit (List Nat)
  | 0, _, _ => Except.error RangeCoderExit.outOfFuel
  | fuel + 1, encodeLow, outData =>
    if encodeLow ≠ 0 then do
      let outData1 ← ENET_RANGE_CODER_OUTPUT outLimit outData (encodeLow >>> 24)
      ENET_RANGE_CODER_FLUSH outLimit fuel (u32 (encodeLow <<< 8)) outData1
    else Except.ok outData

/-- What `ENET_CONTEXT_ENCODE` and `ENET_CONTEXT_DECODE` leave: the table, `nextSymbol`, and
the variables `symbol`, `value`, `under` and `count`. -/
structure ContextCoded where
  symbols : List ENetSymbol
  nextSymbol : Nat
  symbol : Nat
  value : Nat
  under : Nat
  count : Nat

/-- The `for (;;)` loop of `ENET_CONTEXT_ENCODE` at `node`. -/
def contextEncodeLoop (value update : Nat) : Nat → List ENetSymbol → Nat → Nat → Nat →
    Nat → Except RangeCoderExit ContextCoded
  | 0, _, _, _, _, _ => Except.error RangeCoderExit.outOfFuel
  | fuel + 1, symbols, nextSymbol, node, under, count => do
    let record ← readSymbol symbols node
    if value < record.value then
      let symbols1 := writeSymbol symbols node { record with under := u16 (record.under + update) }
      if record.left ≠ 0 then
        contextEncodeLoop value update fuel symbols1 nextSymbol (node + record.left) under count
      else do
        let (symbols2, nextSymbol2, symbol) ← ENET_SYMBOL_CREATE symbols1 nextSymbol value update
        let record2 ← readSymbol symbols2 node
        Except.ok
          { symbols := writeSymbol symbols2 node { record2 with left := symbolOffset symbol node },
            nextSymbol := nextSymbol2, symbol := symbol, value := value, under := under,
            count := count }
    else if value > record.value then
      let under1 := u16 (under + record.under)
      if record.right ≠ 0 then
        contextEncodeLoop value update fuel symbols nextSymbol (node + record.right) under1 count
      else do
        let (symbols2, nextSymbol2, symbol) ← ENET_SYMBOL_CREATE symbols nextSymbol value update
        let record2 ← readSymbol symbols2 node
        Except.ok
          { symbols := writeSymbol symbols2 node { record2 with right := symbolOffset symbol node },
            nextSymbol := nextSymbol2, symbol := symbol, value := value, under := under1,
            count := count }
    else
      Except.ok
        { symbols := writeSymbol symbols node
            { record with under := u16 (record.under + update),
                          count := u8 (record.count + update) },
          nextSymbol := nextSymbol, symbol := node, value := value,
          under := u16 (under + (record.under + 65536 - record.count)),
          count := u16 (count + record.count) }

/-- `ENET_CONTEXT_ENCODE (context, symbol, value, under, count, update, minimum)`. -/
def ENET_CONTEXT_ENCODE (symbols : List ENetSymbol) (nextSymbol context value update
    minimum : Nat) : Except RangeCoderExit ContextCoded := do
  let under := u16 (value * minimum)
  let count := minimum
  let record ← readSymbol symbols context
  if record.symbols = 0 then do
    let (symbols1, nextSymbol1, symbol) ← ENET_SYMBOL_CREATE symbols nextSymbol value update
    let record1 ← readSymbol symbols1 context
    Except.ok
      { symbols := writeSymbol symbols1 context
          { record1 with symbols := symbolOffset symbol context },
        nextSymbol := nextSymbol1, symbol := symbol, value := value, under := under,
        count := count }
  else
    contextEncodeLoop value update rangeCoderSymbols symbols nextSymbol
      (context + record.symbols) under count

/-- The store `* parent = index`, where `parent` is `& predicted` (`none`) or
`& symbol -> parent` of the symbol `some symbol`: the new table and the new `predicted`. -/
def writeParent (symbols : List ENetSymbol) (predicted : Nat) (parent : Option Nat)
    (index : Nat) : Except RangeCoderExit (List ENetSymbol × Nat) :=
  match parent with
  | none => Except.ok (symbols, u16 index)
  | some symbol => do
    let record ← readSymbol symbols symbol
    Except.ok (writeSymbol symbols symbol { record with parent := u16 index }, predicted)

/-- The local variables of `enet_range_coder_compress` between two input bytes: the table
`rangeCoder -> symbols`, `nextSymbol`, `root`, `predicted`, `order`, the coder registers and
the bytes written to `outData`. -/
structure RangeEncoder where
  symbols : List ENetSymbol
  nextSymbol : Nat
  root : Nat
  predicted : Nat
  order : Nat
  encodeLow : Nat
  encodeRange : Nat
  outData : List Nat

/-- The test `count > 0xFF - 2*delta + minimum || total > ENET_RANGE_CODER_BOTTOM - 0x100`
and the `ENET_CONTEXT_RESCALE` that it guards. -/
def rescaleIfDue (symbols : List ENetSymbol) (context count delta minimum : Nat) :
    Except RangeCoderExit (List ENetSymbol) := do
  let record ← readSymbol symbols context
  if count > 0xFF - 2 * delta + minimum ∨ record.total > ENET_RANGE_CODER_BOTTOM - 0x100 then
    ENET_CONTEXT_RESCALE symbols context minimum
  else Except.ok symbols

/-- The body of the `for` loop over the subcontexts in `enet_range_coder_compress` for the
input byte `value`: the encoder, the pointer `parent`, and whether `goto nextInput` is
taken. -/
def compressSubcontext (outLimit value : Nat) (st : RangeEncoder) (subcontext : Nat)
    (parent : Option Nat) : Except RangeCoderExit (RangeEncoder × Option Nat × Bool) := do
  let coded ← ENET_CONTEXT_ENCODE st.symbols st.nextSymbol subcontext value
    ENET_SUBCONTEXT_SYMBOL_DELTA 0
  let (symbols1, predicted1) ← writeParent coded.symbols st.predicted parent coded.symbol
  let parent1 := some coded.symbol
  let record ← readSymbol symbols1 subcontext
  let total := record.total
  let (encodeLow1, encodeRange1, outData1, symbols2) ←
    if coded.count > 0 then do
      let (encodeLow1, encodeRange1, outData1) ← ENET_RANGE_CODER_ENCODE outLimit
        st.encodeLow st.encodeRange st.outData (record.escapes + coded.under) coded.count total
      Except.ok (encodeLow1, encodeRange1, outData1, symbols1)
    else do
      let (encodeLow1, encodeRange1, outData1) ←
        if record.escapes > 0 ∧ record.escapes < total then
          ENET_RANGE_CODER_ENCODE outLimit st.encodeLow st.encodeRange st.outData 0
            record.escapes total
        else Except.ok (st.encodeLow, st.encodeRange, st.outData)
      Except.ok (encodeLow1, encodeRange1, outData1,
        writeSymbol symbols1 subcontext
          { record with escapes := u16 (record.escapes + ENET_SUBCONTEXT_ESCAPE_DELTA),
                        total := u16 (record.total + ENET_SUBCONTEXT_ESCAPE_DELTA) })
  let record2 ← readSymbol symbols2 subcontext
  let symbols3 := writeSymbol symbols2 subcontext
    { record2 with total := u16 (record2.total + ENET_SUBCONTEXT_SYMBOL_DELTA) }
  let symbols4 ← rescaleIfDue symbols3 subcontext coded.count ENET_SUBCONTEXT_SYMBOL_DELTA 0
  Except.ok
    ({ st with symbols := symbols4, nextSymbol := coded.nextSymbol, predicted := predicted1,
               encodeLow := encodeLow1, encodeRange := encodeRange1, outData := outData1 },
     parent1, decide (coded.count > 0))

/-- The `for` loop over the subcontexts in `enet_range_coder_compress`, from `subcontext`
to `root` along the `parent` indices. -/
def compressSubcontexts (outLimit value : Nat) : Nat → RangeEncoder → Nat → Option Nat →
    Except RangeCoderExit (RangeEncoder × Option Nat × Bool)
  | 0, _, _, _ => Except.error RangeCoderExit.outOfFuel
  | fuel + 1, st, subcontext, parent =>
    if subcontext = st.root then Except.ok (st, parent, false)
    else do
      let (st1, parent1, found) ← compressSubcontext outLimit value st subcontext parent
      if found then Except.ok (st1, parent1, true)
      else do
        let record ← readSymbol st1.symbols subcontext
        compressSubcontexts outLimit value fuel st1 record.parent parent1

/-- The statements of `enet_range_coder_compress` that encode `value` in the `root`
context. -/
def compressRoot (outLimit value : Nat) (st : RangeEncoder) (parent : Option Nat) :
    Except RangeCoderExit RangeEncoder := do
  let coded ← ENET_CONTEXT_ENCODE st.symbols st.nextSymbol st.root value
    ENET_CONTEXT_SYMBOL_DELTA ENET_CONTEXT_SYMBOL_MINIMUM
  let (symbols1, predicted1) ← writeParent coded.symbols st.predicted parent coded.symbol
  let record ← readSymbol symbols1 st.root
  let (encodeLow1, encodeRange1, outData1) ← ENET_RANGE_CODER_ENCODE outLimit
    st.encodeLow st.encodeRange st.outData (record.escapes + coded.under) coded.count
    record.total
  let symbols2 := writeSymbol symbols1 st.root
    { record with total := u16 (record.total + ENET_CONTEXT_SYMBOL_DELTA) }
  let symbols3 ← rescaleIfDue symbols2 st.root coded.count ENET_CONTEXT_SYMBOL_DELTA
    ENET_CONTEXT_SYMBOL_MINIMUM
  Except.ok
    { st with symbols := symbols3, nextSymbol := coded.nextSymbol, predicted := predicted1,
              encodeLow := encodeLow1, encodeRange := encodeRange1, outData := outData1 }

/-- The statements after the label `nextInput` (and after `ENET_RANGE_CODER_OUTPUT (value)`
in the decoder): the step of `predicted` and `ENET_RANGE_CODER_FREE_SYMBOLS`, on the table,
`nextSymbol`, `root`, `predicted` and `order`. -/
def rangeCoderNextInput (symbols : List ENetSymbol) (nextSymbol root predicted order : Nat) :
    Except RangeCoderExit (List ENetSymbol × Nat × Nat × Nat × Nat) := do
  let (predicted1, order1) ←
    if order ≥ ENET_SUBCONTEXT_ORDER then do
      let record ← readSymbol symbols predicted
      Except.ok (record.parent, order)
    else Except.ok (predicted, order + 1)
  if nextSymbol ≥ rangeCoderSymbols - ENET_SUBCONTEXT_ORDER then do
    let (symbols1, nextSymbol1, root1) ← ENET_CONTEXT_CREATE symbols 0
      ENET_CONTEXT_ESCAPE_MINIMUM ENET_CONTEXT_SYMBOL_MINIMUM
    Except.ok (symbols1, nextSymbol1, root1, 0, 0)
  else Except.ok (symbols, nextSymbol, root, predicted1, order1)

/-- One input byte of `enet_range_coder_compress`, from the loop over the subcontexts to
`ENET_RANGE_CODER_FREE_SYMBOLS`. -/
def compressValue (outLimit value : Nat) (st : RangeEncoder) :
    Except RangeCoderExit RangeEncoder := do
  let (st1, parent, found) ← compressSubcontexts outLimit value rangeCoderSymbols st
    st.predicted none
  let st2 ← if found then Except.ok st1 else compressRoot outLimit value st1 parent
  let (symbols, nextSymbol, root, predicted, order) ←
    rangeCoderNextInput st2.symbols st2.nextSymbol st2.root st2.predicted st2.order
  Except.ok { st2 with symbols := symbols, nextSymbol := nextSymbol, root := root,
                       predicted := predicted, order := order }

/-- The main loop of `enet_range_coder_compress`.  `inData` holds the bytes from `inData` to
`inEnd` and `inBuffers` the buffers that were not entered yet.  When `inData >= inEnd` the
loop moves to the next buffer once and then reads `* inData`: in an empty buffer that byte
lies at `inEnd`, beyond the buffer.  Every turn reads a byte or leaves, so that the number
of input bytes plus one is enough fuel. -/
def compressLoop (outLimit : Nat) : Nat → List Nat → List (List Nat) → RangeEncoder →
    Except RangeCoderExit RangeEncoder
  | 0, _, _, _ => Except.error RangeCoderExit.outOfFuel
  | fuel + 1, inData, inBuffers, st =>
    match inData with
    | value :: inData1 => do
      let st1 ← compressValue outLimit value st
      compressLoop outLimit fuel inData1 inBuffers st1
    | [] =>
      match inBuffers with
      | [] => Except.ok st
      | [] :: _ => Except.error RangeCoderExit.readBeyondInput
      | (value :: inData1) :: inBuffers1 => do
        let st1 ← compressValue outLimit value st
        compressLoop outLimit fuel inData1 inBuffers1 st1

/-- `enet_range_coder_compress`: the return value and, when it is not 0, the bytes written
to `outData`.  `rangeCoder` is the table of the context (`none` for a NULL context); a buffer of
`inBuffers` is the list of its bytes. -/
def enet_range_coder_compress (rangeCoder : Option (List ENetSymbol))
    (inBuffers : List (List Nat)) (inLimit outLimit : Nat) :
    Except RangeCoderExit (Nat × List Nat) :=
  match rangeCoder, inBuffers with
  | none, _ => Except.ok (0, [])
  | some _, [] => Except.ok (0, [])
  | some symbols, inData :: inBuffers1 =>
    if inLimit = 0 then Except.ok (0, [])
    else
      match (do
        let (symbols1, nextSymbol1, root) ← ENET_CONTEXT_CREATE symbols 0
          ENET_CONTEXT_ESCAPE_MINIMUM ENET_CONTEXT_SYMBOL_MINIMUM
        let st ← compressLoop outLimit (inBuffers.flatten.length + 1) inData inBuffers1
          { symbols := symbols1, nextSymbol := nextSymbol1, root := root, predicted := 0,
            order := 0, encodeLow := 0, encodeRange := 4294967295, outData := [] }
        ENET_RANGE_CODER_FLUSH outLimit 5 st.encodeLow st.outData) with
      | Except.ok outData => Except.ok (outData.length, outData)
      | Except.error RangeCoderExit.returnZero => Except.ok (0, [])
      | Except.error exit => Except.error exit


/-- `ENET_RANGE_CODER_SEED`: up to four bytes of the input, from the high byte down. -/
def ENET_RANGE_CODER_SEED (inData : List Nat) : Nat × List Nat :=
  match inData with
  | [] => (0, [])
  | [a] => (a <<< 24, [])
  | [a, b] => (a <<< 24 ||| b <<< 16, [])
  | [a, b, c] => (a <<< 24 ||| b <<< 16 ||| c <<< 8, [])
  | a :: b :: c :: d :: rest => (a <<< 24 ||| b <<< 16 ||| c <<< 8 ||| d, rest)

/-- `ENET_RANGE_CODER_READ (total)`: the value of the expression and the new `decodeRange`. -/
def ENET_RANGE_CODER_READ (decodeLow decodeCode decodeRange total : Nat) :
    Except RangeCoderExit (Nat × Nat) :=
  if total = 0 then Except.error RangeCoderExit.divisionByZero
  else if decodeRange / total = 0 then Except.error RangeCoderExit.divisionByZero
  else Except.ok (u32 (decodeCode + 4294967296 - decodeLow) / (decodeRange / total),
    decodeRange / total)

/-- The registers of the decoder and the input that is left: `decodeLow`, `decodeCode`,
`decodeRange` and the bytes from `inData` to `inEnd`. -/
structure RangeRegisters where
  decodeLow : Nat
  decodeCode : Nat
  decodeRange : Nat
  inData : List Nat

/-- The `for (;;)` loop of `ENET_RANGE_CODER_DECODE`. -/
def rangeCoderDecodeLoop : Nat → RangeRegisters → Except RangeCoderExit RangeRegisters
  | 0, _ => Except.error RangeCoderExit.outOfFuel
  | fuel + 1, r =>
    let shift (decodeRange : Nat) : RangeRegisters :=
      match r.inData with
      | [] => { decodeLow := u32 (r.decodeLow <<< 8), decodeCode := u32 (r.decodeCode <<< 8),
                decodeRange := u32 (decodeRange <<< 8), inData := [] }
      | byte :: inData1 =>
        { decodeLow := u32 (r.decodeLow <<< 8), decodeCode := u32 (r.decodeCode <<< 8) ||| byte,
          decodeRange := u32 (decodeRange <<< 8), inData := inData1 }
    if (r.decodeLow ^^^ u32 (r.decodeLow + r.decodeRange)) ≥ ENET_RANGE_CODER_TOP then
      if r.decodeRange ≥ ENET_RANGE_CODER_BOTTOM then Except.ok r
      else rangeCoderDecodeLoop fuel
        (shift (u32 (4294967296 - r.decodeLow) &&& (ENET_RANGE_CODER_BOTTOM - 1)))
    else rangeCoderDecodeLoop fuel (shift r.decodeRange)

/-- The fuel of `rangeCoderDecodeLoop`: a turn multiplies a non-zero `decodeRange` by 256 or
replaces it first by a non-zero value below `ENET_RANGE_CODER_BOTTOM`. -/
def rangeCoderDecodeFuel : Nat := 16

/-- `ENET_RANGE_CODER_DECODE (under, count, total)`, after the `ENET_RANGE_CODER_READ` that
divided `decodeRange` by `total`. -/
def ENET_RANGE_CODER_DECODE (r : RangeRegisters) (under count : Nat) :
    Except RangeCoderExit RangeRegisters :=
  rangeCoderDecodeLoop rangeCoderDecodeFuel
    { r with decodeLow := u32 (r.decodeLow + under * r.decodeRange),
             decodeRange := u32 (r.decodeRange * count) }

/-- Truncation of a C `int` to `enet_uint8`. -/
def u8OfInt (x : Int) : Nat := (x % 256).toNat

/-- Truncation of a C `int` to `enet_uint16`. -/
def u16OfInt (x : Int) : Nat := (x % 65536).toNat

/-- The `for (;;)` loop of `ENET_CONTEXT_DECODE` at `node`.  With `create` the three
`create` arguments are those of `ENET_CONTEXT_ROOT_DECODE`, without it they are the
`return 0` of `ENET_CONTEXT_TRY_DECODE`; `visitNode` is `ENET_CONTEXT_NOT_EXCLUDED`, which
is empty. -/
def contextDecodeLoop (create : Bool) (code update minimum : Nat) : Nat → List ENetSymbol →
    Nat → Nat → Nat → Except RangeCoderExit ContextCoded
  | 0, _, _, _, _ => Except.error RangeCoderExit.outOfFuel
  | fuel + 1, symbols, nextSymbol, node, under => do
    let record ← readSymbol symbols node
    let after := u16 (under + record.under + (record.value + 1) * minimum)
    let before := u16 (record.count + minimum)
    if code ≥ after then
      let under1 := u16 (under + record.under)
      if record.right ≠ 0 then
        contextDecodeLoop create code update minimum fuel symbols nextSymbol
          (node + record.right) under1
      else if create then
        if minimum = 0 then Except.error RangeCoderExit.divisionByZero
        else do
          let value := u8 (record.value + 1 + (code - after) / minimum)
          let under2 := u16 (code - (code - after) % minimum)
          let (symbols2, nextSymbol2, symbol) ← ENET_SYMBOL_CREATE symbols nextSymbol value update
          let record2 ← readSymbol symbols2 node
          Except.ok
            { symbols := writeSymbol symbols2 node
                { record2 with right := symbolOffset symbol node },
              nextSymbol := nextSymbol2, symbol := symbol, value := value, under := under2,
              count := minimum }
      else Except.error RangeCoderExit.returnZero
    else if (code : Int) < (after : Int) - (before : Int) then
      let symbols1 := writeSymbol symbols node { record with under := u16 (record.under + update) }
      if record.left ≠ 0 then
        contextDecodeLoop create code update minimum fuel symbols1 nextSymbol
          (node + record.left) under
      else if create then
        if minimum = 0 then Except.error RangeCoderExit.divisionByZero
        else do
          let gap : Int := (after : Int) - (before : Int) - (code : Int) - 1
          let value := u8OfInt ((record.value : Int) - 1 - gap / (minimum : Int))
          let under2 := u16OfInt ((code : Int) - gap % (minimum : Int))
          let (symbols2, nextSymbol2, symbol) ← ENET_SYMBOL_CREATE symbols1 nextSymbol value update
          let record2 ← readSymbol symbols2 node
          Except.ok
            { symbols := writeSymbol symbols2 node
                { record2 with left := symbolOffset symbol node },
              nextSymbol := nextSymbol2, symbol := symbol, value := value, under := under2,
              count := minimum }
      else Except.error RangeCoderExit.returnZero
    else
      Except.ok
        { symbols := writeSymbol symbols node
            { record with under := u16 (record.under + update),
                          count := u8 (record.count + update) },
          nextSymbol := nextSymbol, symbol := node, value := record.value,
          under := u16OfInt ((after : Int) - (before : Int)),
          count := u16 (minimum + record.count) }

/-- `ENET_CONTEXT_DECODE` with the arguments of `ENET_CONTEXT_ROOT_DECODE` (`create`) or of
`ENET_CONTEXT_TRY_DECODE`. -/
def ENET_CONTEXT_DECODE (create : Bool) (symbols : List ENetSymbol) (nextSymbol context code
    update minimum : Nat) : Except RangeCoderExit ContextCoded := do
  let record ← readSymbol symbols context
  if record.symbols = 0 then
    if create then
      if minimum = 0 then Except.error RangeCoderExit.divisionByZero
      else do
        let value := u8 (code / minimum)
        let under := u16 (code - code % minimum)
        let (symbols1, nextSymbol1, symbol) ← ENET_SYMBOL_CREATE symbols nextSymbol value update
        let record1 ← readSymbol symbols1 context
        Except.ok
          { symbols := writeSymbol symbols1 context
              { record1 with symbols := symbolOffset symbol context },
            nextSymbol := nextSymbol1, symbol := symbol, value := value, under := under,
            count := minimum }
    else Except.error RangeCoderExit.returnZero
  else
    contextDecodeLoop create code update minimum rangeCoderSymbols symbols nextSymbol
      (context + record.symbols) 0

/-- The local variables of `enet_range_coder_decompress` between two output bytes. -/
structure RangeDecoder where
  symbols : List ENetSymbol
  nextSymbol : Nat
  root : Nat
  predicted : Nat
  order : Nat
  registers : RangeRegisters
  outData : List Nat

/-- What the loop over the subcontexts of `enet_range_coder_decompress` leaves when it
decodes a symbol (`goto patchContexts`) or reaches `root`: the decoder, the pointer
`subcontext`, and, when a symbol was decoded, `value` and `bottom`. -/
structure SubcontextDecoded where
  decoder : RangeDecoder
  subcontext : Nat
  decoded : Option (Nat × Nat)

/-- The `for` loop over the subcontexts in `enet_range_coder_decompress`. -/
def decompressSubcontexts : Nat → RangeDecoder → Nat → Except RangeCoderExit SubcontextDecoded
  | 0, _, _ => Except.error RangeCoderExit.outOfFuel
  | fuel + 1, st, subcontext =>
    if subcontext = st.root then
      Except.ok { decoder := st, subcontext := subcontext, decoded := none }
    else do
      let record ← readSymbol st.symbols subcontext
      if record.escapes = 0 then decompressSubcontexts fuel st record.parent
      else if record.escapes ≥ record.total then decompressSubcontexts fuel st record.parent
      else do
        let (read, decodeRange1) ← ENET_RANGE_CODER_READ st.registers.decodeLow
          st.registers.decodeCode st.registers.decodeRange record.total
        let registers1 := { st.registers with decodeRange := decodeRange1 }
        let code := u16 read
        if code < record.escapes then do
          let registers2 ← ENET_RANGE_CODER_DECODE registers1 0 record.escapes
          decompressSubcontexts fuel { st with registers := registers2 } record.parent
        else do
          let code1 := u16 (code - record.escapes)
          let coded ← ENET_CONTEXT_DECODE false st.symbols st.nextSymbol subcontext code1
            ENET_SUBCONTEXT_SYMBOL_DELTA 0
          let bottom := u16 coded.symbol
          let record1 ← readSymbol coded.symbols subcontext
          let registers2 ← ENET_RANGE_CODER_DECODE registers1 (record1.escapes + coded.under)
            coded.count
          let symbols1 := writeSymbol coded.symbols subcontext
            { record1 with total := u16 (record1.total + ENET_SUBCONTEXT_SYMBOL_DELTA) }
          let symbols2 ← rescaleIfDue symbols1 subcontext coded.count
            ENET_SUBCONTEXT_SYMBOL_DELTA 0
          Except.ok
            { decoder := { st with symbols := symbols2, nextSymbol := coded.nextSymbol,
                                   registers := registers2 },
              subcontext := subcontext, decoded := some (coded.value, bottom) }

/-- The statements of `enet_range_coder_decompress` that decode in the `root` context:
`none` when the escape of the root is read (`break`), else the decoder, `value` and
`bottom`. -/
def decompressRoot (st : RangeDecoder) :
    Except RangeCoderExit (Option (RangeDecoder × Nat × Nat)) := do
  let record ← readSymbol st.symbols st.root
  let (read, decodeRange1) ← ENET_RANGE_CODER_READ st.registers.decodeLow
    st.registers.decodeCode st.registers.decodeRange record.total
  let registers1 := { st.registers with decodeRange := decodeRange1 }
  let code := u16 read
  if code < record.escapes then do
    let _ ← ENET_RANGE_CODER_DECODE registers1 0 record.escapes
    Except.ok none
  else do
    let code1 := u16 (code - record.escapes)
    let coded ← ENET_CONTEXT_DECODE true st.symbols st.nextSymbol st.root code1
      ENET_CONTEXT_SYMBOL_DELTA ENET_CONTEXT_SYMBOL_MINIMUM
    let bottom := u16 coded.symbol
    let record1 ← readSymbol coded.symbols st.root
    let registers2 ← ENET_RANGE_CODER_DECODE registers1 (record1.escapes + coded.under)
      coded.count
    let symbols1 := writeSymbol coded.symbols st.root
      { record1 with total := u16 (record1.total + ENET_CONTEXT_SYMBOL_DELTA) }
    let symbols2 ← rescaleIfDue symbols1 st.root coded.count ENET_CONTEXT_SYMBOL_DELTA
      ENET_CONTEXT_SYMBOL_MINIMUM
    Except.ok (some ({ st with symbols := symbols2, nextSymbol := coded.nextSymbol,
                               registers := registers2 }, coded.value, bottom))

/-- The `for` loop after the label `patchContexts`, from `patch` to `subcontext`: the table,
`nextSymbol`, `predicted` and the pointer `parent`. -/
def decompressPatch (value subcontext : Nat) : Nat → List ENetSymbol → Nat → Nat → Nat →
    Option Nat → Except RangeCoderExit (List ENetSymbol × Nat × Nat × Option Nat)
  | 0, _, _, _, _, _ => Except.error RangeCoderExit.outOfFuel
  | fuel + 1, symbols, nextSymbol, predicted, patch, parent =>
    if patch = subcontext then Except.ok (symbols, nextSymbol, predicted, parent)
    else do
      let coded ← ENET_CONTEXT_ENCODE symbols nextSymbol patch value
        ENET_SUBCONTEXT_SYMBOL_DELTA 0
      let (symbols1, predicted1) ← writeParent coded.symbols predicted parent coded.symbol
      let record ← readSymbol symbols1 patch
      let record1 :=
        if coded.count = 0 then
          { record with escapes := u16 (record.escapes + ENET_SUBCONTEXT_ESCAPE_DELTA),
                        total := u16 (record.total + ENET_SUBCONTEXT_ESCAPE_DELTA) }
        else record
      let symbols2 := writeSymbol symbols1 patch
        { record1 with total := u16 (record1.total + ENET_SUBCONTEXT_SYMBOL_DELTA) }
      let symbols3 ← rescaleIfDue symbols2 patch coded.count ENET_SUBCONTEXT_SYMBOL_DELTA 0
      let record3 ← readSymbol symbols3 patch
      decompressPatch value subcontext fuel symbols3 coded.nextSymbol predicted1 record3.parent
        (some coded.symbol)

/-- The main loop of `enet_range_coder_decompress`.  Every turn writes a byte or leaves, so
that `outLimit + 1` turns are enough. -/
def decompressLoop (outLimit : Nat) : Nat → RangeDecoder → Except RangeCoderExit RangeDecoder
  | 0, _ => Except.error RangeCoderExit.outOfFuel
  | fuel + 1, st => do
    let found ← decompressSubcontexts rangeCoderSymbols st st.predicted
    let decoded ←
      match found.decoded with
      | some (value, bottom) => Except.ok (some (found.decoder, value, bottom))
      | none => decompressRoot found.decoder
    match decoded with
    | none => Except.ok found.decoder
    | some (st1, value, bottom) => do
      let (symbols1, nextSymbol1, predicted1, parent) ← decompressPatch value found.subcontext
        rangeCoderSymbols st1.symbols st1.nextSymbol st1.predicted st1.predicted none
      let (symbols2, predicted2) ← writeParent symbols1 predicted1 parent bottom
      let outData1 ← ENET_RANGE_CODER_OUTPUT outLimit st1.outData value
      let (symbols3, nextSymbol3, root3, predicted3, order3) ←
        rangeCoderNextInput symbols2 nextSymbol1 st1.root predicted2 st1.order
      decompressLoop outLimit fuel
        { st1 with symbols := symbols3, nextSymbol := nextSymbol3, root := root3,
                   predicted := predicted3, order := order3, outData := outData1 }

/-- `enet_range_coder_decompress` on the `inLimit` bytes `inData`: the return value and,
when it is not 0, the bytes written to `outData`. -/
def enet_range_coder_decompress (rangeCoder : Option (List ENetSymbol)) (inData : List Nat)
    (outLimit : Nat) : Except RangeCoderExit (Nat × List Nat) :=
  match rangeCoder with
  | none => Except.ok (0, [])
  | some symbols =>
    if inData.length = 0 then Except.ok (0, [])
    else
      match (do
        let (symbols1, nextSymbol1, root) ← ENET_CONTEXT_CREATE symbols 0
          ENET_CONTEXT_ESCAPE_MINIMUM ENET_CONTEXT_SYMBOL_MINIMUM
        let (decodeCode, inData1) := ENET_RANGE_CODER_SEED inData
        decompressLoop outLimit (outLimit + 1)
          { symbols := symbols1, nextSymbol := nextSymbol1, root := root, predicted := 0,
            order := 0,
            registers := { decodeLow := 0, decodeCode := decodeCode,
                           decodeRange := 4294967295, inData := inData1 },
            outData := [] }) with
      | Except.ok st => Except.ok (st.outData.length, st.outData)
      | Except.error RangeCoderExit.returnZero => Except.ok (0, [])
      | Except.error exit => Except.error exit

/-! ## protocol.c: `enet_protocol_send_acknowledgements` -/

/-- The `while` loop of `enet_protocol_send_acknowledgements` over the records of
`peer -> acknowledgements` from `currentAcknowledgement` on; `command` and `buffer` are the
indices of the two cursors into `host -> commands` and `host -> buffers`.  Returns host and
peer with the two cursors at the exit of the loop. -/
def enet_protocol_send_acknowledgements_loop (hdr : ENetHeader) :
    ENetHost → ENetPeer → (command buffer : Nat) → List ENetAcknowledgement →
      ENetHost × ENetPeer × Nat × Nat
  | host, peer, command, buffer, [] => (host, peer, command, buffer)
  | host, peer, command, buffer, acknowledgement :: rest =>
    if command ≥ hdr.ENET_PROTOCOL_MAXIMUM_PACKET_COMMANDS ∨
        buffer ≥ hdr.ENET_BUFFER_MAXIMUM ∨
        usizeSub peer.mtu host.packetSize
          < commandSizes.getD ENET_PROTOCOL_COMMAND_ACKNOWLEDGE 0 then
      ({ host with continueSending := 1 }, peer, command, buffer)
    else
      let host := { host with
        buffers := host.buffers
          ++ [ENetBuffer.command command (commandSizes.getD ENET_PROTOCOL_COMMAND_ACKNOWLEDGE 0)],
        packetSize :=
          usize (host.packetSize + commandSizes.getD ENET_PROTOCOL_COMMAND_ACKNOWLEDGE 0) }
      let reliableSequenceNumber :=
        ENET_HOST_TO_NET_16 acknowledgement.command.reliableSequenceNumber
      let host := { host with
        commands := host.commands ++
          [{ command := ENET_PROTOCOL_COMMAND_ACKNOWLEDGE,
             channelID := acknowledgement.command.channelID,
             reliableSequenceNumber := reliableSequenceNumber,
             body := .acknowledge reliableSequenceNumber
               (ENET_HOST_TO_NET_16 acknowledgement.sentTime) }] }
      let (host, peer) :=
        if acknowledgement.command.command &&& ENET_PROTOCOL_COMMAND_MASK
            = ENET_PROTOCOL_COMMAND_DISCONNECT then
          enet_protocol_dispatch_state host peer ENetPeerState.ZOMBIE
        else (host, peer)
      enet_protocol_send_acknowledgements_loop hdr host { peer with acknowledgements := rest }
        (command + 1) (buffer + 1) rest

/-- `enet_protocol_send_acknowledgements`. -/
def enet_protocol_send_acknowledgements (hdr : ENetHeader) (host : ENetHost)
    (peer : ENetPeer) : ENetHost × ENetPeer :=
  let host := { host with
    commands := host.commands.take host.commandCount,
    buffers := host.buffers.take host.bufferCount }
  let (host, peer, command, buffer) :=
    enet_protocol_send_acknowledgements_loop hdr host peer host.commandCount host.bufferCount
      peer.acknowledgements
  ({ host with commandCount := command, bufferCount := buffer }, peer)

/-! ## host.c: `enet_host_bandwidth_throttle` -/

/-- Modelled from the spec: `BANDWIDTH_THROTTLE_INTERVAL=1000` ms (section 6). -/
def ENET_HOST_BANDWIDTH_THROTTLE_INTERVAL : Nat := 1000

/-- The ways in which the model of `enet_host_bandwidth_throttle` ends without a result: a
division by zero or another undefined behaviour of the C code, or the end of the fuel of a
`while` loop of the model. -/
inductive ThrottleExit
  | divisionByZero
  | undefinedBehaviour
  | outOfFuel
  deriving DecidableEq

/-- The unsigned division `a / b` of the C code: undefined for a zero divisor. -/
def checkedDiv (a b : Nat) : Except ThrottleExit Nat :=
  if b = 0 then .error .divisionByZero else .ok (a / b)

/-- The `for` loop of `enet_host_bandwidth_throttle` that adds up `outgoingDataTotal` over
the connected peers. -/
def throttleDataTotal : List ENetPeer → Nat → Nat
  | [], dataTotal => dataTotal
  | peer :: rest, dataTotal =>
    if peer.state ≠ ENetPeerState.CONNECTED ∧ peer.state ≠ ENetPeerState.DISCONNECT_LATER then
      throttleDataTotal rest dataTotal
    else throttleDataTotal rest (u32 (dataTotal + peer.outgoingDataTotal))

/-- The statement `if (dataTotal <= bandwidth) throttle = ENET_PEER_PACKET_THROTTLE_SCALE;
else throttle = (bandwidth * ENET_PEER_PACKET_THROTTLE_SCALE) / dataTotal;`, which
`enet_host_bandwidth_throttle` executes in two places. -/
def throttleOf (dataTotal bandwidth : Nat) : Except ThrottleExit Nat :=
  if dataTotal ≤ bandwidth then .ok ENET_PEER_PACKET_THROTTLE_SCALE
  else checkedDiv (u32 (bandwidth * ENET_PEER_PACKET_THROTTLE_SCALE)) dataTotal

/-- The locals `peersRemaining`, `dataTotal`, `bandwidth` and `needsAdjustment` of
`enet_host_bandwidth_throttle`. -/
structure ThrottleLocals where
  peersRemaining : Nat
  dataTotal : Nat
  bandwidth : Nat
  needsAdjustment : Int
  deriving DecidableEq

/-- The `for` loop inside the first `while` loop of `enet_host_bandwidth_throttle`: the
peers whose share exceeds their own bandwidth get their own limit. -/
def throttleLimitPeers (timeCurrent elapsedTime throttle : Nat) :
    List ENetPeer → ThrottleLocals → Except ThrottleExit (List ENetPeer × ThrottleLocals)
  | [], locals => .ok ([], locals)
  | peer :: rest, locals =>
    if (peer.state ≠ ENetPeerState.CONNECTED ∧ peer.state ≠ ENetPeerState.DISCONNECT_LATER) ∨
        peer.incomingBandwidth = 0 ∨ peer.outgoingBandwidthThrottleEpoch = timeCurrent then
      match throttleLimitPeers timeCurrent elapsedTime throttle rest locals with
      | .error e => .error e
      | .ok (peers, locals) => .ok (peer :: peers, locals)
    else
      let peerBandwidth := u32 (peer.incomingBandwidth * elapsedTime) / 1000
      if u32 (throttle * peer.outgoingDataTotal) / ENET_PEER_PACKET_THROTTLE_SCALE
          ≤ peerBandwidth then
        match throttleLimitPeers timeCurrent elapsedTime throttle rest locals with
        | .error e => .error e
        | .ok (peers, locals) => .ok (peer :: peers, locals)
      else
        match checkedDiv (u32 (peerBandwidth * ENET_PEER_PACKET_THROTTLE_SCALE))
            peer.outgoingDataTotal with
        | .error e => .error e
        | .ok packetThrottleLimit =>
          let peer := { peer with packetThrottleLimit := packetThrottleLimit }
          let peer :=
            if peer.packetThrottleLimit = 0 then { peer with packetThrottleLimit := 1 }
            else peer
          let peer :=
            if peer.packetThrottle > peer.packetThrottleLimit then
              { peer with packetThrottle := peer.packetThrottleLimit }
            else peer
          let peer := { peer with
            outgoingBandwidthThrottleEpoch := timeCurrent,
            incomingDataTotal := 0, outgoingDataTotal := 0 }
          match throttleLimitPeers timeCurrent elapsedTime throttle rest
              { peersRemaining := u32 (locals.peersRemaining + 4294967296 - 1),
                dataTotal := u32 (locals.dataTotal + 4294967296 - peerBandwidth),
                bandwidth := u32 (locals.bandwidth + 4294967296 - peerBandwidth),
                needsAdjustment := 1 } with
          | .error e => .error e
          | .ok (peers, locals) => .ok (peer :: peers, locals)

/-- The first `while` loop of `enet_host_bandwidth_throttle`; one unit of `fuel` is used
per iteration. -/
def throttleLimitLoop (timeCurrent elapsedTime : Nat) :
    Nat → List ENetPeer → ThrottleLocals → Except ThrottleExit (List ENetPeer × ThrottleLocals)
  | 0, peers, locals =>
    if locals.peersRemaining > 0 ∧ locals.needsAdjustment ≠ 0 then .error .outOfFuel
    else .ok (peers, locals)
  | fuel + 1, peers, locals =>
    if locals.peersRemaining > 0 ∧ locals.needsAdjustment ≠ 0 then
      match throttleOf locals.dataTotal locals.bandwidth with
      | .error e => .error e
      | .ok throttle =>
        match throttleLimitPeers timeCurrent elapsedTime throttle peers
            { locals with needsAdjustment := 0 } with
        | .error e => .error e
        | .ok (peers, locals) => throttleLimitLoop timeCurrent elapsedTime fuel peers locals
    else .ok (peers, locals)

/-- The `for` loop of `enet_host_bandwidth_throttle` that gives the common throttle to the
peers that have no limit of their own. -/
def throttleRemainingPeers (timeCurrent throttle : Nat) : List ENetPeer → List ENetPeer
  | [] => []
  | peer :: rest =>
    if (peer.state ≠ ENetPeerState.CONNECTED ∧ peer.state ≠ ENetPeerState.DISCONNECT_LATER) ∨
        peer.outgoingBandwidthThrottleEpoch = timeCurrent then
      peer :: throttleRemainingPeers timeCurrent throttle rest
    else
      let peer := { peer with packetThrottleLimit := throttle }
      let peer :=
        if peer.packetThrottle > peer.packetThrottleLimit then
          { peer with packetThrottle := peer.packetThrottleLimit }
        else peer
      { peer with incomingDataTotal := 0, outgoingDataTotal := 0 }
        :: throttleRemainingPeers timeCurrent throttle rest

/-- The `for` loop inside the second `while` loop of `enet_host_bandwidth_throttle`: the
peers that ask for less than the common limit keep what they ask for.  `dataTotal` of the
locals is not used. -/
def bandwidthLimitPeers (timeCurrent bandwidthLimit : Nat) :
    List ENetPeer → ThrottleLocals → List ENetPeer × ThrottleLocals
  | [], locals => ([], locals)
  | peer :: rest, locals =>
    if (peer.state ≠ ENetPeerState.CONNECTED ∧ peer.state ≠ ENetPeerState.DISCONNECT_LATER) ∨
        peer.incomingBandwidthThrottleEpoch = timeCurrent then
      ((peer :: (bandwidthLimitPeers timeCurrent bandwidthLimit rest locals).1),
       (bandwidthLimitPeers timeCurrent bandwidthLimit rest locals).2)
    else if peer.outgoingBandwidth > 0 ∧ peer.outgoingBandwidth ≥ bandwidthLimit then
      ((peer :: (bandwidthLimitPeers timeCurrent bandwidthLimit rest locals).1),
       (bandwidthLimitPeers timeCurrent bandwidthLimit rest locals).2)
    else
      (({ peer with incomingBandwidthThrottleEpoch := timeCurrent }
          :: (bandwidthLimitPeers timeCurrent bandwidthLimit rest
            { locals with
              peersRemaining := u32 (locals.peersRemaining + 4294967296 - 1),
              bandwidth := u32 (locals.bandwidth + 4294967296 - peer.outgoingBandwidth),
              needsAdjustment := 1 }).1),
       (bandwidthLimitPeers timeCurrent bandwidthLimit rest
          { locals with
            peersRemaining := u32 (locals.peersRemaining + 4294967296 - 1),
            bandwidth := u32 (locals.bandwidth + 4294967296 - peer.outgoingBandwidth),
            needsAdjustment := 1 }).2)

/-- The second `while` loop of `enet_host_bandwidth_throttle`, with the local
`bandwidthLimit`; one unit of `fuel` is used per iteration. -/
def bandwidthLimitLoop (timeCurrent : Nat) :
    Nat → List ENetPeer → ThrottleLocals → (bandwidthLimit : Nat) →
      Except ThrottleExit (List ENetPeer × Nat)
  | 0, peers, locals, bandwidthLimit =>
    if locals.peersRemaining > 0 ∧ locals.needsAdjustment ≠ 0 then .error .outOfFuel
    else .ok (peers, bandwidthLimit)
  | fuel + 1, peers, locals, bandwidthLimit =>
    if locals.peersRemaining > 0 ∧ locals.needsAdjustment ≠ 0 then
      match checkedDiv locals.bandwidth locals.peersRemaining with
      | .error e => .error e
      | .ok bandwidthLimit =>
        bandwidthLimitLoop timeCurrent fuel
          (bandwidthLimitPeers timeCurrent bandwidthLimit peers
            { locals with needsAdjustment := 0 }).1
          (bandwidthLimitPeers timeCurrent bandwidthLimit peers
            { locals with needsAdjustment := 0 }).2
          bandwidthLimit
    else .ok (peers, bandwidthLimit)

/-- The last `for` loop of `enet_host_bandwidth_throttle`: a `BANDWIDTH_LIMIT` command is
queued for every connected peer.  `none` is undefined behaviour inside
`enet_peer_queue_outgoing_command`. -/
def bandwidthLimitCommands (host : ENetHost) (timeCurrent bandwidthLimit : Nat) :
    List ENetPeer → Nat → Option (List ENetPeer × Nat)
  | [], mem => some ([], mem)
  | peer :: rest, mem =>
    if peer.state ≠ ENetPeerState.CONNECTED ∧ peer.state ≠ ENetPeerState.DISCONNECT_LATER then
      match bandwidthLimitCommands host timeCurrent bandwidthLimit rest mem with
      | none => none
      | some (peers, mem) => some (peer :: peers, mem)
    else
      let command : ENetProtocol :=
        { command := ENET_PROTOCOL_COMMAND_BANDWIDTH_LIMIT ||| ENET_PROTOCOL_COMMAND_FLAG_ACKNOWLEDGE,
          channelID := 0xFF, reliableSequenceNumber := 0,
          body := .bandwidthLimit
            (if peer.incomingBandwidthThrottleEpoch = timeCurrent then
              ENET_HOST_TO_NET_32 peer.outgoingBandwidth
             else ENET_HOST_TO_NET_32 bandwidthLimit)
            (ENET_HOST_TO_NET_32 host.outgoingBandwidth) }
      match enet_peer_queue_outgoing_command peer command none none 0 0 mem with
      | none => none
      | some r =>
        match bandwidthLimitCommands host timeCurrent bandwidthLimit rest r.mem with
        | none => none
        | some (peers, mem) => some (r.peer :: peers, mem)

/-- The block `if (host -> recalculateBandwidthLimits)` of `enet_host_bandwidth_throttle`,
on the peers as the first part of the function has left them. -/
def bandwidthLimitRecalculate (timeCurrent : Nat) (host : ENetHost) (peers : List ENetPeer)
    (mem : Nat) : Except ThrottleExit (ENetHost × List ENetPeer × Nat) :=
  if host.recalculateBandwidthLimits ≠ 0 then
    let host := { host with recalculateBandwidthLimits := 0 }
    let limited : Except ThrottleExit (List ENetPeer × Nat) :=
      if host.incomingBandwidth = 0 then .ok (peers, 0)
      else
        bandwidthLimitLoop timeCurrent (peers.length + 1) peers
          { peersRemaining := u32 host.connectedPeers, dataTotal := 0,
            bandwidth := host.incomingBandwidth, needsAdjustment := 1 } 0
    match limited with
    | .error e => .error e
    | .ok (peers, bandwidthLimit) =>
      match bandwidthLimitCommands host timeCurrent bandwidthLimit peers mem with
      | none => .error .undefinedBehaviour
      | some (peers, mem) => .ok (host, peers, mem)
  else .ok (host, peers, mem)

/-- `enet_host_bandwidth_throttle`.  `timeCurrent` is the value of `enet_time_get ()`; every
division by a variable is a `checkedDiv`.  The peers visited are the `peerCount` first
slots. -/
def enet_host_bandwidth_throttle (timeCurrent : Nat) (host : ENetHost) (mem : Nat) :
    Except ThrottleExit (ENetHost × Nat) :=
  let elapsedTime := u32 (timeCurrent + 4294967296 - host.bandwidthThrottleEpoch)
  let peersRemaining := u32 host.connectedPeers
  let needsAdjustment : Int := if host.bandwidthLimitedPeers > 0 then 1 else 0
  if elapsedTime < ENET_HOST_BANDWIDTH_THROTTLE_INTERVAL then .ok (host, mem)
  else
    let host := { host with bandwidthThrottleEpoch := timeCurrent }
    if peersRemaining = 0 then .ok (host, mem)
    else
      let peers := host.peers.take host.peerCount
      let locals : ThrottleLocals :=
        if host.outgoingBandwidth ≠ 0 then
          { peersRemaining := peersRemaining, dataTotal := throttleDataTotal peers 0,
            bandwidth := u32 (host.outgoingBandwidth * elapsedTime) / 1000,
            needsAdjustment := needsAdjustment }
        else
          { peersRemaining := peersRemaining, dataTotal := 4294967295,
            bandwidth := 4294967295, needsAdjustment := needsAdjustment }
      match throttleLimitLoop timeCurrent elapsedTime (peers.length + 1) peers locals with
      | .error e => .error e
      | .ok (peers, locals) =>
        let remaining : Except ThrottleExit (List ENetPeer) :=
          if locals.peersRemaining > 0 then
            match throttleOf locals.dataTotal locals.bandwidth with
            | .error e => .error e
            | .ok throttle => .ok (throttleRemainingPeers timeCurrent throttle peers)
          else .ok peers
        match remaining with
        | .error e => .error e
        | .ok peers =>
          match bandwidthLimitRecalculate timeCurrent host peers mem with
          | .error e => .error e
          | .ok (host, peers, mem) =>
            .ok ({ host with peers := peers ++ host.peers.drop host.peerCount }, mem)

/-! ## peer.c: `enet_peer_ping` -/

/-- Modelled from the spec: the `PING` record is the bare 4-byte command header (section 6);
stands for `sizeof (ENetProtocolPing)`. -/
def sizeof_ENetProtocolPing : Nat := 4

/-- `enet_peer_ping`.  The local `command` is written in its command byte and its channel
only; the sequence number of its header is written when the command is set up. -/
def enet_peer_ping (peer : ENetPeer) (mem : Nat) : ENetPeer × Nat :=
  if peer.state ≠ ENetPeerState.CONNECTED then (peer, mem)
  else
    let command : ENetProtocol :=
      { command := ENET_PROTOCOL_COMMAND_PING ||| ENET_PROTOCOL_COMMAND_FLAG_ACKNOWLEDGE,
        channelID := 0xFF, reliableSequenceNumber := 0, body := .unset }
    match enet_peer_queue_outgoing_command peer command none none 0 0 mem with
    | some r => (r.peer, r.mem)
    | none => (peer, mem)

/-! ## protocol.c: `enet_protocol_remove_sent_unreliable_commands` -/

/-- The `do ... while` loop of `enet_protocol_remove_sent_unreliable_commands`: every command
of `sentUnreliableCommands` is removed and gives up its reference to its packet. -/
def enet_protocol_remove_sent_unreliable_commands_loop (store : PacketStore) :
    List ENetOutgoingCommand → PacketStore
  | [] => store
  | outgoingCommand :: rest =>
    let store :=
      match outgoingCommand.packet with
      | none => store
      | some pid => store.release pid
    enet_protocol_remove_sent_unreliable_commands_loop store rest

/-- `enet_protocol_remove_sent_unreliable_commands`.  `flush` stands for `enet_host_flush`
in the call of `enet_peer_disconnect`. -/
def enet_protocol_remove_sent_unreliable_commands (hdr : ENetHeader)
    (flush : ENetHost × ENetPeer × PacketStore → ENetHost × ENetPeer × PacketStore)
    (host : ENetHost) (peer : ENetPeer) (store : PacketStore) (mem : Nat) :
    DisconnectResult :=
  if peer.sentUnreliableCommands = [] then
    { host := host, peer := peer, store := store, mem := mem }
  else
    let store :=
      enet_protocol_remove_sent_unreliable_commands_loop store peer.sentUnreliableCommands
    let peer := { peer with sentUnreliableCommands := [] }
    if peer.state = ENetPeerState.DISCONNECT_LATER ∧ peer.outgoingCommands = [] ∧
        peer.sentReliableCommands = [] then
      enet_peer_disconnect hdr flush host peer store peer.eventData mem
    else
      { host := host, peer := peer, store := store, mem := mem }

/-! ## protocol.c: `enet_protocol_send_outgoing_commands`; host.c: `enet_host_flush` -/

/-- What `enet_protocol_send_outgoing_commands` and `enet_host_flush` take from outside the
model: two macros and two constants of the missing `enet.h` that the specification does not
state, the `compress` callback of the compressor, the socket and the clock.  `compress n` is
the size that the callback returns for the `n`-th datagram of a call and `enet_socket_send n`
the value that the socket returns for it, `n` counting from 0. -/
structure ENetSendEnvironment where
  ENET_TIME_GREATER_EQUAL : Nat → Nat → Bool
  ENET_DIFFERENCE : Nat → Nat → Nat
  ENET_PEER_PACKET_LOSS_INTERVAL : Nat
  ENET_PEER_PACKET_LOSS_SCALE : Nat
  compress : Nat → Nat
  enet_socket_send : Nat → Int
  enet_time_get : Nat

/-- The objects that `enet_protocol_send_outgoing_commands` works on, apart from the peer of
the current slot: host, event (`none` for NULL), packets, allocation budget, and the number
of datagrams handed to the socket so far. -/
structure SendOutgoingState where
  host : ENetHost
  event : Option ENetEvent
  store : PacketStore
  mem : Nat
  datagrams : Nat
  deriving DecidableEq

/-- How the body of the `for` loop of `enet_protocol_send_outgoing_commands` is left: at its
end or by `continue` (`next`), by a `return`, or by undefined behaviour. -/
inductive SendStep
  | next
  | returned (status : Int)
  | undefined
  deriving DecidableEq

/-- The head of the loop body: the scratch counters of the host are reset and the
acknowledgements of the peer, if it has any, are put into the datagram.  Slot 0 of
`host -> buffers` is kept for the protocol header, which is written when the datagram is
complete; until then it holds what it held before (an empty header, in a list that had no
slot 0). -/
def sendOutgoingAcknowledgements (hdr : ENetHeader) (host : ENetHost) (peer : ENetPeer) :
    ENetHost × ENetPeer :=
  let host := { host with
    headerFlags := 0, commandCount := 0, bufferCount := 1,
    packetSize := sizeof_ENetProtocolHeader,
    buffers := [host.buffers.headD (ENetBuffer.header 0)] }
  if peer.acknowledgements ≠ [] then enet_protocol_send_acknowledgements hdr host peer
  else (host, peer)

/-- The test `checkForTimeouts != 0 && ! enet_list_empty (& currentPeer ->
sentReliableCommands) && ENET_TIME_GREATER_EQUAL (host -> serviceTime, currentPeer ->
nextTimeout) && enet_protocol_check_timeouts (host, currentPeer, event) == 1`: the status of
the result is 1 exactly when the test holds; `enet_protocol_check_timeouts` is called, and
leaves its marks, only when the three tests before it hold. -/
def sendOutgoingTimeouts (hdr : ENetHeader) (time : ENetTime) (env : ENetSendEnvironment)
    (checkForTimeouts : Int) (host : ENetHost) (peer : ENetPeer) (event : Option ENetEvent)
    (store : PacketStore) : CheckTimeoutsResult :=
  if checkForTimeouts ≠ 0 ∧ peer.sentReliableCommands ≠ [] ∧
      env.ENET_TIME_GREATER_EQUAL host.serviceTime peer.nextTimeout = true then
    enet_protocol_check_timeouts hdr time host peer event store
  else
    { status := 0, host := host, peer := peer, event := event, store := store }

/-- The statement `if ((enet_list_empty (& currentPeer -> outgoingCommands) ||
enet_protocol_check_outgoing_commands (host, currentPeer)) && ...) { enet_peer_ping
(currentPeer); enet_protocol_check_outgoing_commands (host, currentPeer); }`.  `none` is the
undefined behaviour of `enet_protocol_check_outgoing_commands`. -/
def sendOutgoingCommands (hdr : ENetHeader) (time : ENetTime)
    (flush : ENetHost × ENetPeer × PacketStore → ENetHost × ENetPeer × PacketStore)
    (host : ENetHost) (peer : ENetPeer) (store : PacketStore) (mem : Nat) :
    Option CheckOutgoingResult :=
  let first : Option CheckOutgoingResult :=
    if peer.outgoingCommands = [] then
      some { canPing := true, host := host, peer := peer, store := store, mem := mem }
    else enet_protocol_check_outgoing_commands hdr flush host peer store mem
  match first with
  | none => none
  | some r =>
    if r.canPing = true ∧ r.peer.sentReliableCommands = [] ∧
        u32 (time.ENET_TIME_DIFFERENCE r.host.serviceTime r.peer.lastReceiveTime)
          ≥ r.peer.pingInterval ∧
        usizeSub r.peer.mtu r.host.packetSize ≥ sizeof_ENetProtocolPing then
      let (peer, mem) := enet_peer_ping r.peer r.mem
      enet_protocol_check_outgoing_commands hdr flush r.host peer r.store mem
    else some r

/-- The packet loss statistics of the peer, brought up to date before a datagram is sent. -/
def sendOutgoingPacketLoss (time : ENetTime) (env : ENetSendEnvironment) (host : ENetHost)
    (peer : ENetPeer) : ENetPeer :=
  if peer.packetLossEpoch = 0 then { peer with packetLossEpoch := host.serviceTime }
  else if u32 (time.ENET_TIME_DIFFERENCE host.serviceTime peer.packetLossEpoch)
        ≥ env.ENET_PEER_PACKET_LOSS_INTERVAL ∧ peer.packetsSent > 0 then
    let packetLoss :=
      u32 (peer.packetsLost * env.ENET_PEER_PACKET_LOSS_SCALE) / peer.packetsSent
    { peer with
      packetLossVariance :=
        u32 (peer.packetLossVariance * 3 + env.ENET_DIFFERENCE packetLoss peer.packetLoss) / 4,
      packetLoss := u32 (peer.packetLoss * 7 + packetLoss) / 8,
      packetLossEpoch := host.serviceTime, packetsSent := 0, packetsLost := 0 }
  else peer

/-- The protocol header of the datagram: its buffer in slot 0, the compression of the
buffers behind it, the session id in the header flags and the checksum word.  The bytes of
the header (`headerData`: `peerID`, `sentTime`, checksum) leave through the socket and are
not part of the state; `datagrams` is the number of the datagram for the compressor. -/
def sendOutgoingHeader (env : ENetSendEnvironment) (host : ENetHost) (peer : ENetPeer)
    (datagrams : Nat) : ENetHost :=
  let headerLength :=
    if host.headerFlags &&& ENET_PROTOCOL_HEADER_FLAG_SENT_TIME ≠ 0 then
      sizeof_ENetProtocolHeader
    else offsetof_sentTime
  let host := { host with buffers := ENetBuffer.header headerLength :: host.buffers.drop 1 }
  let originalSize := usizeSub host.packetSize sizeof_ENetProtocolHeader
  let compressedSize := usize (env.compress datagrams)
  let shouldCompress :=
    if host.compressor = true ∧ compressedSize > 0 ∧ compressedSize < originalSize then
      compressedSize
    else 0
  let host :=
    if shouldCompress > 0 then
      { host with
        headerFlags := u16 (host.headerFlags ||| ENET_PROTOCOL_HEADER_FLAG_COMPRESSED) }
    else host
  let host :=
    if peer.outgoingPeerID < ENET_PROTOCOL_MAXIMUM_PEER_ID then
      { host with
        headerFlags := u16 (host.headerFlags
          ||| (peer.outgoingSessionID <<< ENET_PROTOCOL_HEADER_SESSION_SHIFT)) }
    else host
  let host :=
    if host.checksum then
      { host with
        buffers :=
          ENetBuffer.header (usize (headerLength + sizeof_enet_uint32)) :: host.buffers.drop 1 }
    else host
  if shouldCompress > 0 then
    { host with
      buffers := host.buffers.take 1 ++ [ENetBuffer.compressed shouldCompress],
      bufferCount := 2 }
  else host

/-- The end of the loop body: the datagram is handed to the socket, the unreliable commands
that were sent are removed, and the totals of the host are counted up; a negative value from
the socket is the `return -1`. -/
def sendOutgoingDatagram (hdr : ENetHeader) (env : ENetSendEnvironment)
    (flush : ENetHost × ENetPeer × PacketStore → ENetHost × ENetPeer × PacketStore)
    (st : SendOutgoingState) (peer : ENetPeer) : SendStep × SendOutgoingState × ENetPeer :=
  let peer := { peer with lastSendTime := st.host.serviceTime }
  let sentLength := env.enet_socket_send st.datagrams
  let r := enet_protocol_remove_sent_unreliable_commands hdr flush st.host peer st.store st.mem
  if sentLength < 0 then
    (.returned (-1),
     { st with host := r.host, store := r.store, mem := r.mem, datagrams := st.datagrams + 1 },
     r.peer)
  else
    (.next,
     { st with
       host := { r.host with
         totalSentData := u32 (r.host.totalSentData + sentLength.toNat),
         totalSentPackets := u32 (r.host.totalSentPackets + 1) },
       store := r.store, mem := r.mem, datagrams := st.datagrams + 1 },
     r.peer)

/-- The body of the `for` loop of `enet_protocol_send_outgoing_commands` for the peer of one
slot, handed over by value and returned with the state. -/
def sendOutgoingPeer (hdr : ENetHeader) (time : ENetTime) (env : ENetSendEnvironment)
    (flush : ENetHost × ENetPeer × PacketStore → ENetHost × ENetPeer × PacketStore)
    (checkForTimeouts : Int) (st : SendOutgoingState) (peer : ENetPeer) :
    SendStep × SendOutgoingState × ENetPeer :=
  if peer.state = ENetPeerState.DISCONNECTED ∨ peer.state = ENetPeerState.ZOMBIE then
    (.next, st, peer)
  else
    let (host, peer) := sendOutgoingAcknowledgements hdr st.host peer
    let t := sendOutgoingTimeouts hdr time env checkForTimeouts host peer st.event st.store
    let st := { st with host := t.host, event := t.event, store := t.store }
    if t.status = 1 then
      match t.event with
      | some event =>
        if event.type ≠ ENetEventType.NONE then (.returned 1, st, t.peer)
        else (.next, st, t.peer)
      | none => (.next, st, t.peer)
    else
      match sendOutgoingCommands hdr time flush t.host t.peer t.store st.mem with
      | none => (.undefined, st, t.peer)
      | some c =>
        let st := { st with host := c.host, store := c.store, mem := c.mem }
        if c.host.commandCount = 0 then (.next, st, c.peer)
        else
          let peer := sendOutgoingPacketLoss time env c.host c.peer
          let host := sendOutgoingHeader env c.host peer st.datagrams
          sendOutgoingDatagram hdr env flush { st with host := host } peer

/-- The `for` loop of `enet_protocol_send_outgoing_commands` over the slots `index`, ... of
the host, `count` of them; the peer of a slot is written back when its body is left.  A slot
beyond the array is undefined behaviour. -/
def sendOutgoingPass (hdr : ENetHeader) (time : ENetTime) (env : ENetSendEnvironment)
    (flush : ENetHost × ENetPeer × PacketStore → ENetHost × ENetPeer × PacketStore)
    (checkForTimeouts : Int) :
    (count : Nat) → (index : Nat) → SendOutgoingState → SendStep × SendOutgoingState
  | 0, _, st => (.next, st)
  | count + 1, index, st =>
    match st.host.peers.get? index with
    | none => (.undefined, st)
    | some currentPeer =>
      match sendOutgoingPeer hdr time env flush checkForTimeouts st currentPeer with
      | (step, st, currentPeer) =>
        let st := { st with host := { st.host with peers := st.host.peers.set index currentPeer } }
        match step with
        | .next => sendOutgoingPass hdr time env flush checkForTimeouts count (index + 1) st
        | _ => (step, st)

/-- How `enet_protocol_send_outgoing_commands` ends: it returns a value, it runs into
undefined behaviour, or it is still in its `while` loop when the fuel is used up. -/
inductive SendExit
  | returned (status : Int)
  | undefinedBehaviour
  | outOfFuel
  deriving DecidableEq

/-- The loop `while (host -> continueSending)` of `enet_protocol_send_outgoing_commands`; one
unit of fuel is used per pass over the slots.  The state is the one reached at the exit. -/
def sendOutgoingLoop (hdr : ENetHeader) (time : ENetTime) (env : ENetSendEnvironment)
    (flush : ENetHost × ENetPeer × PacketStore → ENetHost × ENetPeer × PacketStore)
    (checkForTimeouts : Int) : (fuel : Nat) → SendOutgoingState → SendExit × SendOutgoingState
  | 0, st =>
    if st.host.continueSending = 0 then (.returned 0, st) else (.outOfFuel, st)
  | fuel + 1, st =>
    if st.host.continueSending = 0 then (.returned 0, st)
    else
      match sendOutgoingPass hdr time env flush checkForTimeouts st.host.peerCount 0
          { st with host := { st.host with continueSending := 0 } } with
      | (.next, st) => sendOutgoingLoop hdr time env flush checkForTimeouts fuel st
      | (.returned status, st) => (.returned status, st)
      | (.undefined, st) => (.undefinedBehaviour, st)

/-- `enet_protocol_send_outgoing_commands`; `event = none` is the NULL pointer.  `flush`
stands for `enet_host_flush` in the calls of `enet_peer_disconnect` that the function makes
for peers in `DISCONNECT_LATER`. -/
def enet_protocol_send_outgoing_commands (hdr : ENetHeader) (time : ENetTime)
    (env : ENetSendEnvironment)
    (flush : ENetHost × ENetPeer × PacketStore → ENetHost × ENetPeer × PacketStore)
    (fuel : Nat) (host : ENetHost) (event : Option ENetEvent) (checkForTimeouts : Int)
    (store : PacketStore) (mem : Nat) : SendExit × SendOutgoingState :=
  sendOutgoingLoop hdr time env flush checkForTimeouts fuel
    { host := { host with continueSending := 1 }, event := event, store := store, mem := mem,
      datagrams := 0 }

/-- `enet_host_flush`, in the form in which `enet_peer_disconnect` and
`enet_peer_disconnect_now` take it: the peer that the caller works on is slot `slot` of the
host and is handed over by value, so it is written to its slot before the sending and read
back after it.  The function returns nothing; what is handed back is the state in which
`enet_protocol_send_outgoing_commands` ended.  `mem` is the allocation budget of the
sending and `fuel` the number of passes over the slots it may make; a sending that ends
before the fuel is used up is the same for every larger `fuel`
(`enet_protocol_send_outgoing_commands_fuel`).  The calls of `enet_peer_disconnect` inside the
sending are made for peers in `DISCONNECT_LATER` and do not reach `enet_host_flush` again
(`enet_protocol_send_outgoing_commands_flush`), so that the identity can stand for it
there. -/
def enet_host_flush (hdr : ENetHeader) (time : ENetTime) (env : ENetSendEnvironment)
    (fuel mem slot : Nat) :
    ENetHost × ENetPeer × PacketStore → ENetHost × ENetPeer × PacketStore
  | (host, peer, store) =>
    let host := { host with peers := host.peers.set slot peer, serviceTime := env.enet_time_get }
    let r := enet_protocol_send_outgoing_commands hdr time env (fun state => state) fuel host
      none 0 store mem
    (r.2.host, r.2.host.peers.getD slot peer, r.2.store)

/-! ## A command on the wire -/

/-- The command record that the handler of the receiving side is given for an outgoing
command of the sender: `enet_protocol_check_outgoing_commands` copies
`outgoingCommand -> command` into the datagram, and `enet_protocol_handle_incoming_commands`
converts `header.reliableSequenceNumber` to host order before it calls the handler. -/
def receivedCommand (outgoingCommand : ENetOutgoingCommand) : ENetProtocol :=
  { outgoingCommand.command with
    reliableSequenceNumber :=
      ENET_NET_TO_HOST_16 outgoingCommand.command.reliableSequenceNumber }

/-- The received command together with the bytes that follow it in the datagram: the
`fragmentLength` bytes of the packet at `fragmentOffset`. -/
def receivedForm (packet : ENetPacket) (outgoingCommand : ENetOutgoingCommand) :
    ENetProtocol × List Nat :=
  (receivedCommand outgoingCommand,
   (packet.data.drop outgoingCommand.fragmentOffset).take outgoingCommand.fragmentLength)

/-- Feeding a list of received commands, each alone in its datagram, to
`enet_protocol_handle_send_fragment` one after the other; stops at the first call that
does not return 0. -/
def handleSendFragments : ENetHost → ENetPeer → Nat → List (ENetProtocol × List Nat) →
    Option HandleResult
  | host, peer, mem, [] =>
    some { status := 0, host := host, peer := peer, currentData := [], mem := mem }
  | host, peer, mem, (command, payload) :: rest =>
    match enet_protocol_handle_send_fragment host peer command payload mem with
    | none => none
    | some r =>
      if r.status = 0 then handleSendFragments r.host r.peer r.mem rest
      else some r

/-! ## Proof-side definitions -/

/-- The fragment record that the loop of `enet_peer_send` builds for index `i` when no
counter wraps: offset `i * L`, length `min L (D - i * L)`.  Used to describe the loop. -/
def builtFragment (dataLength L pid commandNumber channelID startSequenceNumber
    fragmentCount i : Nat) : ENetOutgoingCommand :=
  { reliableSequenceNumber := 0, unreliableSequenceNumber := 0, sentTime := 0,
    roundTripTimeout := 0, roundTripTimeoutLimit := 0,
    fragmentOffset := i * L, fragmentLength := min L (dataLength - i * L),
    sendAttempts := 0,
    command :=
      { command := commandNumber, channelID := channelID,
        reliableSequenceNumber := 0,
        body := .sendFragment
          { startSequenceNumber := startSequenceNumber,
            dataLength := min L (dataLength - i * L),
            fragmentCount := fragmentCount,
            fragmentNumber := i,
            totalLength := dataLength,
            fragmentOffset := i * L } },
    packet := some pid }

/-- What `enet_peer_setup_outgoing_command` keeps of a command when it finishes it: the packet,
the byte range, the command byte, the channel and (for every command other than
`SEND_UNRELIABLE` and `SEND_UNSEQUENCED`) the record after the header. -/
def SetupKeeps (oc oc' : ENetOutgoingCommand) : Prop :=
  oc'.packet = oc.packet ∧ oc'.fragmentOffset = oc.fragmentOffset ∧
  oc'.fragmentLength = oc.fragmentLength ∧ oc'.command.command = oc.command.command ∧
  oc'.command.channelID = oc.command.channelID ∧
  (oc.command.command &&& ENET_PROTOCOL_COMMAND_MASK ≠ ENET_PROTOCOL_COMMAND_SEND_UNRELIABLE →
   oc.command.command &&& ENET_PROTOCOL_COMMAND_MASK ≠ ENET_PROTOCOL_COMMAND_SEND_UNSEQUENCED →
   oc'.command.body = oc.command.body)

/-- The per-fragment capacity that `enet_peer_send` computes for a peer whose MTU is at least
the header and fragment record sizes: `mtu - sizeof (ENetProtocolHeader) -
sizeof (ENetProtocolSendFragment)`, minus `sizeof (enet_uint32)` when a checksum is set. -/
def fragmentCapacity (host : ENetHost) (peer : ENetPeer) : Nat :=
  peer.mtu - sizeof_ENetProtocolHeader - sizeof_ENetProtocolSendFragment
    - (if host.checksum then sizeof_enet_uint32 else 0)

/-! ## Statement-side definitions for the dispatch of reliable commands -/

/-- Following the claim on reliable dispatch: the number of sequence numbers a delivered
command uses up, 1 for a plain command and `fragmentCount` for a fragmented message. -/
def sequenceAdvance (c : ENetIncomingCommand) : Nat :=
  if c.fragmentCount > 0 then c.fragmentCount else 1

/-- Following the claim on reliable dispatch: every entry of the list has
`fragmentsRemaining = 0` and its reliable sequence number is, in turn, the sequence number
reached so far plus 1 (mod 65536), starting from `seq`. -/
def ReadyInTurn : Nat → List ENetIncomingCommand → Prop
  | _, [] => True
  | seq, c :: cs =>
    c.fragmentsRemaining = 0 ∧ c.reliableSequenceNumber = u16 (seq + 1) ∧
      ReadyInTurn (u16 (seq + sequenceAdvance c)) cs

/-! ## Statement-side definitions for the incoming reliable queue -/

/-- Following the data-model invariant of the specification (section 3): the position of a
reliable sequence number relative to the channel's current one, numbers below the current
one counting as wrapped (plus 65536). -/
def windowKey (incomingReliableSequenceNumber reliableSequenceNumber : Nat) : Nat :=
  if reliableSequenceNumber < incomingReliableSequenceNumber then reliableSequenceNumber + 65536
  else reliableSequenceNumber

/-- Following the data-model invariant of the specification (section 3): the queue holds
16-bit reliable sequence numbers in non-decreasing order modulo the current window. -/
def ReliableOrdered (incomingReliableSequenceNumber : Nat)
    (cmds : List ENetIncomingCommand) : Prop :=
  (∀ c ∈ cmds, c.reliableSequenceNumber < 65536) ∧
  cmds.Pairwise (fun a b =>
    windowKey incomingReliableSequenceNumber a.reliableSequenceNumber
      ≤ windowKey incomingReliableSequenceNumber b.reliableSequenceNumber)

/-- Invariant of the loop of the unreliable dispatch: `dispatchedCommands` has grown by the
nodes in `moved`, and every node in `moved` or `pending` is a node of the queue at entry. -/
def UnreliableDispatchInv (dispatched : List ENetIncomingCommand)
    (nodes : List (Nat × ENetIncomingCommand)) (st : UnreliableDispatchState) : Prop :=
  st.peer.dispatchedCommands = dispatched ++ st.moved.map Prod.snd ∧
  ∀ node ∈ st.moved ++ st.pending, node ∈ nodes

/-! ## Statement-side definitions for the reassembly of fragments -/

/-- The sizes of a message of `D` bytes cut into `count` fragments of capacity `L`: what
`enet_peer_send` produces, within the ranges of the 16- and 32-bit fields that carry them. -/
def FragmentGeometry (D L count : Nat) : Prop :=
  0 < L ∧ L < 65536 ∧ 0 < count ∧ count ≤ ENET_PROTOCOL_MAXIMUM_FRAGMENT_COUNT ∧
  (count - 1) * L < D ∧ D ≤ count * L ∧ D < 4294967296

/-- A received command and its payload are fragment `i` of the message `data`: a
`SEND_FRAGMENT` for the channel whose record names the start sequence number `s`, the
fragment count, the total length, and the byte range `[i * L, i * L + L)` of `data`. -/
def IsFragmentOf (data : List Nat) (L count s channelID i : Nat)
    (received : ENetProtocol × List Nat) : Prop :=
  received.1.command &&& ENET_PROTOCOL_COMMAND_MASK = ENET_PROTOCOL_COMMAND_SEND_FRAGMENT ∧
  received.1.channelID = channelID ∧
  received.1.body = .sendFragment
    { startSequenceNumber := s,
      dataLength := min L (data.length - i * L),
      fragmentCount := count,
      fragmentNumber := i,
      totalLength := data.length,
      fragmentOffset := i * L } ∧
  received.2 = (data.drop (i * L)).take (min L (data.length - i * L))

/-- A start command in the middle of reassembly: of the message `data`, the fragments whose
numbers are in `done` have been stored. -/
def StartCommandHolds (data : List Nat) (L count start : Nat) (done : List Nat)
    (startCommand : ENetIncomingCommand) : Prop :=
  startCommand.reliableSequenceNumber = start ∧
  startCommand.command.command &&& ENET_PROTOCOL_COMMAND_MASK
    = ENET_PROTOCOL_COMMAND_SEND_FRAGMENT ∧
  startCommand.fragmentCount = count ∧
  startCommand.fragmentsRemaining + done.length = count ∧
  (∃ bitmap : List Nat, startCommand.fragments = some bitmap ∧
    bitmap.length = (count + 31) / 32 ∧
    ∀ n, n < count → ((bitmap.getD (n / 32) 0).testBit (n % 32) = true ↔ n ∈ done)) ∧
  startCommand.packet.dataLength = data.length ∧
  startCommand.packet.data.length = data.length ∧
  ∀ n ∈ done, ∀ k, n * L ≤ k → k < n * L + L → startCommand.packet.data[k]? = data[k]?

/-- A receiving peer in the middle of the reassembly of the message `data` on channel
`channelID`: connected, nothing dispatched beyond `dispatched`, and the channel holds the
start command, with sequence number `start` next in turn, and nothing else. -/
def Assembling (data : List Nat) (L count start channelID : Nat)
    (dispatched : List ENetIncomingCommand) (done : List Nat) (peer : ENetPeer) : Prop :=
  peer.state = ENetPeerState.CONNECTED ∧ channelID < peer.channelCount ∧
  peer.dispatchedCommands = dispatched ∧
  ∃ (channel : ENetChannel) (startCommand : ENetIncomingCommand),
    peer.channels.get? channelID = some channel ∧
    channel.incomingReliableCommands = [startCommand] ∧
    channel.incomingUnreliableCommands = [] ∧
    channel.incomingReliableSequenceNumber < 65536 ∧
    u16 (channel.incomingReliableSequenceNumber + 1) = start ∧
    StartCommandHolds data L count start done startCommand

/-- A receiving peer before the first fragment of a message arrives on channel `channelID`:
connected, both incoming queues of the channel empty, `start` next in turn. -/
def Expecting (start channelID : Nat) (peer : ENetPeer) : Prop :=
  peer.state = ENetPeerState.CONNECTED ∧ channelID < peer.channelCount ∧
  ∃ channel : ENetChannel,
    peer.channels.get? channelID = some channel ∧
    channel.incomingReliableCommands = [] ∧
    channel.incomingUnreliableCommands = [] ∧
    channel.incomingReliableSequenceNumber < 65536 ∧
    u16 (channel.incomingReliableSequenceNumber + 1) = start

/-- A receiving peer after reassembly: one command more than `dispatched` is dispatched,
with a packet that holds `bytes`. -/
def Assembled (bytes : List Nat) (dispatched : List ENetIncomingCommand) (peer : ENetPeer) :
    Prop :=
  ∃ incomingCommand : ENetIncomingCommand,
    peer.dispatchedCommands = dispatched ++ [incomingCommand] ∧
    incomingCommand.packet.dataLength = bytes.length ∧
    incomingCommand.packet.data = bytes

/-! ## Proof-side definitions for the handlers -/

/-- The fields of a peer that the round trip time estimator and the throttle leave alone. -/
def ENetPeer.frame (peer : ENetPeer) :=
  (peer.state, peer.incomingPeerID, peer.needsDispatch, peer.incomingBandwidth,
   peer.sentReliableCommands, peer.outgoingCommands, peer.sentUnreliableCommands,
   peer.channels, peer.channelCount, peer.reliableDataInTransit, peer.eventData,
   peer.dispatchedCommands, peer.acknowledgements, peer.address, peer.incomingDataTotal,
   peer.connectID, peer.outgoingReliableSequenceNumber)

/-! ## Statement-side definitions for the checksum -/

/-- One bit of the CRC-32 of IEEE 802.3 in its reflected form: the register is shifted
right, and the polynomial `0xEDB88320` is xored in when the bit shifted out was set. -/
def ieeeCrc32Bit (crc : Nat) : Nat :=
  if crc &&& 1 = 1 then (crc >>> 1) ^^^ 0xEDB88320 else crc >>> 1

/-- The bitwise-computed table value for an index: eight steps on the index. -/
def ieeeCrc32TableEntry (index : Nat) : Nat :=
  ieeeCrc32Bit^[8] index

/-- One byte of the bitwise CRC-32: the byte is xored into the low end of the register,
which then makes eight steps. -/
def ieeeCrc32Byte (crc byte : Nat) : Nat :=
  ieeeCrc32Bit^[8] (crc ^^^ byte)

/-- The CRC-32 of IEEE 802.3 of a byte sequence: initial value `0xFFFFFFFF`, the bytes in
order, final complement. -/
def ieeeCrc32 (bytes : List Nat) : Nat :=
  (bytes.foldl ieeeCrc32Byte 0xFFFFFFFF) ^^^ 0xFFFFFFFF

/-! ## Statement-side definitions for the counters of the host -/

/-- A peer that counts as connected: its state is `CONNECTED` or `DISCONNECT_LATER`. -/
def ENetPeer.connected (peer : ENetPeer) : Bool :=
  decide (peer.state = ENetPeerState.CONNECTED ∨ peer.state = ENetPeerState.DISCONNECT_LATER)

/-- A peer that counts as bandwidth limited: connected, with a non-zero
`incomingBandwidth`. -/
def ENetPeer.bandwidthLimited (peer : ENetPeer) : Bool :=
  peer.connected && decide (peer.incomingBandwidth ≠ 0)

/-- The invariant of `host.connectedPeers`: it is the number of slots that are `CONNECTED`
or `DISCONNECT_LATER`. -/
def ConnectedPeersInv (host : ENetHost) : Prop :=
  host.connectedPeers = host.peers.countP ENetPeer.connected

/-- The invariant of `host.bandwidthLimitedPeers`: it is the number of slots that are
`CONNECTED` or `DISCONNECT_LATER` and have a non-zero `incomingBandwidth`. -/
def BandwidthLimitedPeersInv (host : ENetHost) : Prop :=
  host.bandwidthLimitedPeers = host.peers.countP ENetPeer.bandwidthLimited

/-- The host with `peer` stored in slot `slot`: the functions of the engine work on a peer
through a pointer into `host -> peers`, the model hands the peer over by value. -/
def ENetHost.withPeer (host : ENetHost) (slot : Nat) (peer : ENetPeer) : ENetHost :=
  { host with peers := host.peers.set slot peer }

/-- The invariant of `host.connectedPeers` for a host and the current value of its slot
`slot`; the number of slots fits a `size_t`. -/
def ConnectedPeersAt (slot : Nat) (host : ENetHost) (peer : ENetPeer) : Prop :=
  slot < host.peers.length ∧ host.peers.length < 18446744073709551616 ∧
    ConnectedPeersInv (host.withPeer slot peer)

/-- The invariant of `host.bandwidthLimitedPeers` for a host and the current value of its
slot `slot`; the number of slots fits a `size_t`. -/
def BandwidthLimitedPeersAt (slot : Nat) (host : ENetHost) (peer : ENetPeer) : Prop :=
  slot < host.peers.length ∧ host.peers.length < 18446744073709551616 ∧
    BandwidthLimitedPeersInv (host.withPeer slot peer)

/-- A property of a host and the current value of one of its slots that the four kinds of
step keep from which the state changes of the engine are made: `enet_peer_on_disconnect`
followed by a change to a state that is not connected, `enet_peer_on_connect` followed by a
change to a connected state, a change of the peer that keeps its connectedness (and its
incoming bandwidth while it is connected), and a change of the host that keeps the slots and
the two counters. -/
structure CounterInvariant (I : ENetHost → ENetPeer → Prop) : Prop where
  onDisconnect : ∀ (host : ENetHost) (peer peer1 : ENetPeer), I host peer →
    peer1.connected = false → I (enet_peer_on_disconnect host peer) peer1
  onConnect : ∀ (host : ENetHost) (peer peer1 : ENetPeer), I host peer →
    peer1.connected = true → peer1.incomingBandwidth = peer.incomingBandwidth →
    I (enet_peer_on_connect host peer) peer1
  peerChange : ∀ (host : ENetHost) (peer peer1 : ENetPeer), I host peer →
    peer1.connected = peer.connected →
    (peer.connected = true → peer1.incomingBandwidth = peer.incomingBandwidth) → I host peer1
  hostChange : ∀ (host host1 : ENetHost) (peer : ENetPeer), I host peer →
    host1.peers = host.peers → host1.connectedPeers = host.connectedPeers →
    host1.bandwidthLimitedPeers = host.bandwidthLimitedPeers → I host1 peer

/-! ## Proof-side definitions for `enet_protocol_check_outgoing_commands` -/

/-- A peer without the three fields that `enet_protocol_check_outgoing_commands` writes for
every command it sends or drops: the counter of packets sent, the throttle counter and the
queue of sent unreliable commands. -/
def ENetPeer.sendFrame (peer : ENetPeer) : ENetPeer :=
  { peer with packetsSent := 0, packetThrottleCounter := 0, sentUnreliableCommands := [] }

/-- The channel that `enet_protocol_check_outgoing_commands` looks up for a command (`none`
for NULL). -/
def channelFor (peer : ENetPeer) (outgoingCommand : ENetOutgoingCommand) : Option ENetChannel :=
  if decide (outgoingCommand.command.channelID < peer.channelCount) then
    peer.channels.get? outgoingCommand.command.channelID
  else none

/-- Whether a command has the sequence numbers of the packet that is being dropped. -/
def sameGroup (st : CheckOutgoingState) (outgoingCommand : ENetOutgoingCommand) : Bool :=
  match st.dropping with
  | some (reliableSequenceNumber, unreliableSequenceNumber) =>
    decide (outgoingCommand.reliableSequenceNumber = reliableSequenceNumber ∧
      outgoingCommand.unreliableSequenceNumber = unreliableSequenceNumber)
  | none => false

/-- The locals after the test of the reliable window of a command. -/
def wrapState (st : CheckOutgoingState) (outgoingCommand : ENetOutgoingCommand) :
    CheckOutgoingState :=
  { st with
    dropping := none,
    windowWrap :=
      match decide (outgoingCommand.command.command &&& ENET_PROTOCOL_COMMAND_FLAG_ACKNOWLEDGE
          ≠ 0), channelFor st.peer outgoingCommand with
      | true, some channel =>
        st.windowWrap || windowWrapTest st.windowWrap outgoingCommand channel
          (u16 (outgoingCommand.reliableSequenceNumber / ENET_PEER_RELIABLE_WINDOW_SIZE))
      | _, _ => st.windowWrap }

/-- The locals after the test of the data in transit for a command. -/
def exceededState (st : CheckOutgoingState) (outgoingCommand : ENetOutgoingCommand) :
    CheckOutgoingState :=
  { wrapState st outgoingCommand with
    windowExceeded :=
      if decide (outgoingCommand.command.command &&& ENET_PROTOCOL_COMMAND_FLAG_ACKNOWLEDGE
          ≠ 0) ∧ outgoingCommand.packet ≠ none then
        st.windowExceeded || windowExceededTest st.peer outgoingCommand
      else st.windowExceeded }

/-- The locals when a command has passed the window tests. -/
def readyState (st : CheckOutgoingState) (outgoingCommand : ENetOutgoingCommand) :
    CheckOutgoingState :=
  if decide (outgoingCommand.command.command &&& ENET_PROTOCOL_COMMAND_FLAG_ACKNOWLEDGE ≠ 0) then
    { exceededState st outgoingCommand with canPing := false }
  else exceededState st outgoingCommand

/-- The locals and the peer after the throttle counter has been advanced for an unreliable
command. -/
def throttleState (st : CheckOutgoingState) (outgoingCommand : ENetOutgoingCommand) :
    CheckOutgoingState :=
  if decide (outgoingCommand.packet ≠ none ∧ outgoingCommand.fragmentOffset = 0) then
    { readyState st outgoingCommand with peer := { (readyState st outgoingCommand).peer with
        packetThrottleCounter :=
          u32 ((readyState st outgoingCommand).peer.packetThrottleCounter
            + ENET_PEER_PACKET_THROTTLE_COUNTER) % ENET_PEER_PACKET_THROTTLE_SCALE } }
  else readyState st outgoingCommand

/-! ## Statement-side definitions for the reliable data in transit -/

/-- The sum of `fragmentLength` over the commands of a list that carry a packet. -/
def dataInTransit : List ENetOutgoingCommand → Nat
  | [] => 0
  | outgoingCommand :: rest =>
    (if outgoingCommand.packet ≠ none then outgoingCommand.fragmentLength else 0)
      + dataInTransit rest

/-- The invariant of `peer.reliableDataInTransit`: it is the sum of `fragmentLength` over
the commands of `sentReliableCommands` that carry a packet. -/
def ReliableDataInv (peer : ENetPeer) : Prop :=
  peer.reliableDataInTransit = dataInTransit peer.sentReliableCommands

/-- The queued commands are as `enet_peer_queue_outgoing_command` makes them: the fragment
length is a 16-bit value, and it is 0 for a command without a packet. -/
def FragmentLengthsSound (commands : List ENetOutgoingCommand) : Prop :=
  ∀ outgoingCommand ∈ commands,
    outgoingCommand.fragmentLength ≤ 65535 ∧
    (outgoingCommand.packet = none → outgoingCommand.fragmentLength = 0)

/-! ## The reliable windows of a channel -/

/-- Whether a command has the `ACKNOWLEDGE` flag and is on channel `channelID`. -/
def reliableOnChannel (channelID : Nat) (outgoingCommand : ENetOutgoingCommand) : Bool :=
  decide (outgoingCommand.command.command &&& ENET_PROTOCOL_COMMAND_FLAG_ACKNOWLEDGE ≠ 0 ∧
    outgoingCommand.command.channelID = channelID)

/-- Whether a command has the `ACKNOWLEDGE` flag, is on channel `channelID` and has been sent
at least once. -/
def sentOnChannel (channelID : Nat) (outgoingCommand : ENetOutgoingCommand) : Bool :=
  decide (outgoingCommand.command.command &&& ENET_PROTOCOL_COMMAND_FLAG_ACKNOWLEDGE ≠ 0 ∧
    outgoingCommand.command.channelID = channelID ∧ 1 ≤ outgoingCommand.sendAttempts)

/-- Whether a command counts in reliable window `reliableWindow` of channel `channelID`: it
has the `ACKNOWLEDGE` flag, is on the channel, has been sent at least once, and its reliable
sequence number lies in the window. -/
def inReliableWindow (channelID reliableWindow : Nat) (outgoingCommand : ENetOutgoingCommand) :
    Bool :=
  decide (outgoingCommand.command.command &&& ENET_PROTOCOL_COMMAND_FLAG_ACKNOWLEDGE ≠ 0 ∧
    outgoingCommand.command.channelID = channelID ∧ 1 ≤ outgoingCommand.sendAttempts ∧
    outgoingCommand.reliableSequenceNumber / ENET_PEER_RELIABLE_WINDOW_SIZE = reliableWindow)

/-- The sum over `w` of `reliableWindows[w]`. -/
def reliableWindowsSum (channel : ENetChannel) : Nat :=
  ((List.range ENET_PEER_RELIABLE_WINDOWS).map fun reliableWindow =>
    channel.reliableWindows.getD reliableWindow 0).sum

/-- The equation of the specification: for every channel, the sum of its reliable windows is
the number of commands with the `ACKNOWLEDGE` flag on that channel in
`sentReliableCommands` or `outgoingCommands`. -/
def ReliableWindowsQueued (peer : ENetPeer) : Prop :=
  ∀ (channelID : Nat) (channel : ENetChannel), channelID < peer.channelCount →
    peer.channels.get? channelID = some channel →
    reliableWindowsSum channel
      = (peer.sentReliableCommands ++ peer.outgoingCommands).countP (reliableOnChannel channelID)

/-- The equation that the code keeps: for every channel, the sum of its reliable windows is
the number of commands with the `ACKNOWLEDGE` flag on that channel in
`sentReliableCommands` or `outgoingCommands` that have been sent at least once. -/
def ReliableWindowsSent (peer : ENetPeer) : Prop :=
  ∀ (channelID : Nat) (channel : ENetChannel), channelID < peer.channelCount →
    peer.channels.get? channelID = some channel →
    reliableWindowsSum channel
      = (peer.sentReliableCommands ++ peer.outgoingCommands).countP (sentOnChannel channelID)

/-- Every channel has its 16 reliable windows, and each window counts the commands of the
list that lie in it. -/
def WindowsCount (channels : List ENetChannel) (channelCount : Nat)
    (commands : List ENetOutgoingCommand) : Prop :=
  ∀ (channelID : Nat) (channel : ENetChannel), channelID < channelCount →
    channels.get? channelID = some channel →
    channel.reliableWindows.length = ENET_PEER_RELIABLE_WINDOWS ∧
    ∀ reliableWindow, reliableWindow < ENET_PEER_RELIABLE_WINDOWS →
      channel.reliableWindows.getD reliableWindow 0
        = commands.countP (inReliableWindow channelID reliableWindow)

/-- The commands of `sentReliableCommands` have the `ACKNOWLEDGE` flag and have been sent. -/
def SentCommandsSound (commands : List ENetOutgoingCommand) : Prop :=
  ∀ c ∈ commands,
    c.command.command &&& ENET_PROTOCOL_COMMAND_FLAG_ACKNOWLEDGE ≠ 0 ∧ 1 ≤ c.sendAttempts

/-- The reliable sequence numbers of the commands with the `ACKNOWLEDGE` flag are 16-bit
values. -/
def SequenceNumbersSound (commands : List ENetOutgoingCommand) : Prop :=
  ∀ c ∈ commands,
    c.command.command &&& ENET_PROTOCOL_COMMAND_FLAG_ACKNOWLEDGE ≠ 0 →
      c.reliableSequenceNumber < 65536

/-- The invariant of the reliable windows: window by window, `reliableWindows[w]` of a channel
is the number of commands in `sentReliableCommands` or `outgoingCommands` that have the
`ACKNOWLEDGE` flag, are on the channel, have been sent at least once and have their sequence
number in window `w`. -/
def ReliableWindowsInv (peer : ENetPeer) : Prop :=
  SentCommandsSound peer.sentReliableCommands ∧
  SequenceNumbersSound (peer.sentReliableCommands ++ peer.outgoingCommands) ∧
  WindowsCount peer.channels peer.channelCount
    (peer.sentReliableCommands ++ peer.outgoingCommands)

/-- No command with the `ACKNOWLEDGE` flag that has been sent before shares its pair of
sequence numbers with a command without the flag. -/
def NoSequenceClash (commands : List ENetOutgoingCommand) : Prop :=
  ∀ c ∈ commands, c.command.command &&& ENET_PROTOCOL_COMMAND_FLAG_ACKNOWLEDGE ≠ 0 →
    1 ≤ c.sendAttempts →
    ∀ d ∈ commands, d.command.command &&& ENET_PROTOCOL_COMMAND_FLAG_ACKNOWLEDGE = 0 →
      (d.reliableSequenceNumber, d.unreliableSequenceNumber)
        ≠ (c.reliableSequenceNumber, c.unreliableSequenceNumber)

/-- The send attempts of the commands with the `ACKNOWLEDGE` flag are below the wrap of the
16-bit counter. -/
def SendAttemptsSound (commands : List ENetOutgoingCommand) : Prop :=
  ∀ c ∈ commands,
    c.command.command &&& ENET_PROTOCOL_COMMAND_FLAG_ACKNOWLEDGE ≠ 0 → c.sendAttempts < 65535

/-- The invariant of the loop of `enet_protocol_check_outgoing_commands` for the reliable
windows: `kept` are the commands passed over, `rest` the commands to come, `dropping` the
sequence numbers of the packet that is being dropped. -/
def SendingInv (peer : ENetPeer) (kept : List ENetOutgoingCommand)
    (dropping : Option (Nat × Nat)) (rest : List ENetOutgoingCommand) : Prop :=
  SentCommandsSound peer.sentReliableCommands ∧
  SequenceNumbersSound (peer.sentReliableCommands ++ (kept ++ rest)) ∧
  SendAttemptsSound rest ∧
  NoSequenceClash rest ∧
  (∀ pair, dropping = some pair → ∀ c ∈ rest,
    c.command.command &&& ENET_PROTOCOL_COMMAND_FLAG_ACKNOWLEDGE ≠ 0 → 1 ≤ c.sendAttempts →
      (c.reliableSequenceNumber, c.unreliableSequenceNumber) ≠ pair) ∧
  (peer.sentReliableCommands ++ (kept ++ rest)).length < 65535 ∧
  WindowsCount peer.channels peer.channelCount (peer.sentReliableCommands ++ (kept ++ rest))

/-- The channels after `enet_protocol_remove_sent_reliable_command` has released the reliable
window of the command it removes. -/
def releasedChannels (peer : ENetPeer) (reliableSequenceNumber channelID : Nat) :
    List ENetChannel :=
  if channelID < peer.channelCount then
    match peer.channels.get? channelID with
    | none => peer.channels
    | some channel =>
      peer.channels.set channelID (releaseReliableWindow channel reliableSequenceNumber)
  else peer.channels

/-! ## Datagrams that `enet_protocol_handle_incoming_commands` refuses -/

/-- The peer that a datagram is addressed to when the tests of the header let it pass: `none`
for the peer id `0xFFF`, or a slot of the host and the peer in it. -/
def IncomingPeer (env : ENetReceive) (host : ENetHost) (receivedData : List Nat)
    (peer : Option (Nat × ENetPeer)) : Prop :=
  offsetof_sentTime ≤ receivedData.length ∧
  ((headerPeerID receivedData = ENET_PROTOCOL_MAXIMUM_PEER_ID ∧ peer = none) ∨
    (headerPeerID receivedData ≠ ENET_PROTOCOL_MAXIMUM_PEER_ID ∧
      headerPeerID receivedData < host.peerCount ∧
      ∃ p, host.peers.get? (headerPeerID receivedData) = some p ∧
        incomingPeerRejected env host p (headerSessionID receivedData) = false ∧
        peer = some (headerPeerID receivedData, p)))

/-- A datagram that is refused before its commands are read: it is shorter than the peer id,
its peer id is no slot of the host, the peer in the slot does not take it (the peer is
`DISCONNECTED` or `ZOMBIE`, or the datagram has another source address or another session
id), it is compressed and cannot be decompressed, or its checksum is wrong. -/
def IncomingDropped (env : ENetReceive) (host : ENetHost) (receivedData : List Nat) : Prop :=
  receivedData.length < offsetof_sentTime ∨
  (offsetof_sentTime ≤ receivedData.length ∧
    headerPeerID receivedData ≠ ENET_PROTOCOL_MAXIMUM_PEER_ID ∧
    (headerPeerID receivedData ≥ host.peerCount ∨
      ∃ p, host.peers.get? (headerPeerID receivedData) = some p ∧
        incomingPeerRejected env host p (headerSessionID receivedData) = true)) ∨
  (∃ peer, IncomingPeer env host receivedData peer ∧
    (incomingDecompress env receivedData (headerFlags receivedData)
        (incomingHeaderSize host (headerFlags receivedData)) = none ∨
      ∃ data, incomingDecompress env receivedData (headerFlags receivedData)
          (incomingHeaderSize host (headerFlags receivedData)) = some (some data) ∧
        host.checksum = true ∧
        incomingHeaderSize host (headerFlags receivedData) ≤ data.length ∧
        incomingChecksumMatches env data (incomingHeaderSize host (headerFlags receivedData))
          (checksumConnectID peer) = false))

/-- The state of a peer does not allow the commands that need a connection. -/
def NotConnected (peer : ENetPeer) : Prop :=
  peer.state ≠ ENetPeerState.CONNECTED ∧ peer.state ≠ ENetPeerState.DISCONNECT_LATER

/-- Whether a command number is that of one of the five send commands. -/
def IsSendCommand (commandNumber : Nat) : Prop :=
  commandNumber = ENET_PROTOCOL_COMMAND_SEND_RELIABLE ∨
  commandNumber = ENET_PROTOCOL_COMMAND_SEND_UNRELIABLE ∨
  commandNumber = ENET_PROTOCOL_COMMAND_SEND_UNSEQUENCED ∨
  commandNumber = ENET_PROTOCOL_COMMAND_SEND_FRAGMENT ∨
  commandNumber = ENET_PROTOCOL_COMMAND_SEND_UNRELIABLE_FRAGMENT

/-- The command at the head of `currentData` is refused for a peer: its header or its record
reaches beyond the datagram, its command number is 0 or above 12, it is a `CONNECT`, it is a
`PING`, `BANDWIDTH_LIMIT`, `THROTTLE_CONFIGURE` or send command for a peer that is not
connected, or it is a send command for a channel that the peer does not have or with a data
length above `maximumPacketSize` or above the number of bytes that follow the record. -/
def FirstCommandRefused (host : ENetHost) (peer : ENetPeer) (currentData : List Nat) : Prop :=
  currentData ≠ [] ∧
  (currentData.length < sizeof_ENetProtocolCommandHeader ∨
    byteAt currentData 0 &&& ENET_PROTOCOL_COMMAND_MASK ≥ ENET_PROTOCOL_COMMAND_COUNT ∨
    commandSizes.getD (byteAt currentData 0 &&& ENET_PROTOCOL_COMMAND_MASK) 0 = 0 ∨
    currentData.length
      < commandSizes.getD (byteAt currentData 0 &&& ENET_PROTOCOL_COMMAND_MASK) 0 ∨
    byteAt currentData 0 &&& ENET_PROTOCOL_COMMAND_MASK = ENET_PROTOCOL_COMMAND_CONNECT ∨
    ((byteAt currentData 0 &&& ENET_PROTOCOL_COMMAND_MASK = ENET_PROTOCOL_COMMAND_PING ∨
        byteAt currentData 0 &&& ENET_PROTOCOL_COMMAND_MASK
          = ENET_PROTOCOL_COMMAND_BANDWIDTH_LIMIT ∨
        byteAt currentData 0 &&& ENET_PROTOCOL_COMMAND_MASK
          = ENET_PROTOCOL_COMMAND_THROTTLE_CONFIGURE ∨
        IsSendCommand (byteAt currentData 0 &&& ENET_PROTOCOL_COMMAND_MASK)) ∧
      NotConnected peer) ∨
    (IsSendCommand (byteAt currentData 0 &&& ENET_PROTOCOL_COMMAND_MASK) ∧
      ((decodeCommand currentData).channelID ≥ peer.channelCount ∨
        ENET_NET_TO_HOST_16 (decodeCommand currentData).dataLengthView
          > host.maximumPacketSize ∨
        ENET_NET_TO_HOST_16 (decodeCommand currentData).dataLengthView
          > currentData.length
            - commandSizes.getD (byteAt currentData 0 &&& ENET_PROTOCOL_COMMAND_MASK) 0)))

/-- The command at the head of `currentData` is refused in a datagram that is addressed to no
peer: its header or its record reaches beyond the datagram, its command number is 0 or
above 12, or it is not a `CONNECT`. -/
def FirstCommandRefusedNoPeer (currentData : List Nat) : Prop :=
  currentData ≠ [] ∧
  (currentData.length < sizeof_ENetProtocolCommandHeader ∨
    byteAt currentData 0 &&& ENET_PROTOCOL_COMMAND_MASK ≥ ENET_PROTOCOL_COMMAND_COUNT ∨
    commandSizes.getD (byteAt currentData 0 &&& ENET_PROTOCOL_COMMAND_MASK) 0 = 0 ∨
    currentData.length
      < commandSizes.getD (byteAt currentData 0 &&& ENET_PROTOCOL_COMMAND_MASK) 0 ∨
    byteAt currentData 0 &&& ENET_PROTOCOL_COMMAND_MASK ≠ ENET_PROTOCOL_COMMAND_CONNECT)

/-- The peer of an accepted datagram after its address and `incomingDataTotal` have been
written. -/
def ENetPeer.received (peer : ENetPeer) (host : ENetHost) (receivedDataLength : Nat) :
    ENetPeer :=
  { peer with
    address := host.receivedAddress,
    incomingDataTotal := u32 (peer.incomingDataTotal + receivedDataLength) }

/-! ## The reliable window of an incoming command -/

/-- The reliable window of an incoming command as the specification gives it: the sequence
number divided by the window size, plus the number of windows when the sequence number is
below `incomingReliableSequenceNumber`. -/
def incomingWindow (reliableSequenceNumber incomingReliableSequenceNumber : Nat) : Nat :=
  reliableSequenceNumber / ENET_PEER_RELIABLE_WINDOW_SIZE
    + (if reliableSequenceNumber < incomingReliableSequenceNumber then ENET_PEER_RELIABLE_WINDOWS
       else 0)

/-- The current reliable window of a channel. -/
def currentWindow (channel : ENetChannel) : Nat :=
  channel.incomingReliableSequenceNumber / ENET_PEER_RELIABLE_WINDOW_SIZE

/-- The four commands that carry a sequenced payload. -/
def IsSequencedSend (command : ENetProtocol) : Prop :=
  command.command &&& ENET_PROTOCOL_COMMAND_MASK = ENET_PROTOCOL_COMMAND_SEND_RELIABLE ∨
  command.command &&& ENET_PROTOCOL_COMMAND_MASK = ENET_PROTOCOL_COMMAND_SEND_UNRELIABLE ∨
  command.command &&& ENET_PROTOCOL_COMMAND_MASK = ENET_PROTOCOL_COMMAND_SEND_FRAGMENT ∨
  command.command &&& ENET_PROTOCOL_COMMAND_MASK
    = ENET_PROTOCOL_COMMAND_SEND_UNRELIABLE_FRAGMENT

instance (command : ENetProtocol) : Decidable (IsSequencedSend command) := by
  unfold IsSequencedSend; infer_instance

/-- The result of `enet_peer_queue_incoming_command` when the command is discarded: host,
peer and allocation budget are as before, and the pointer returned is NULL or the address of
the dummy command. -/
def QueueIncomingDiscarded (host : ENetHost) (peer : ENetPeer) (mem : Nat)
    (result : Option QueueIncomingResult) : Prop :=
  ∃ r : QueueIncomingResult, result = some r ∧ r.host = host ∧ r.peer = peer ∧ r.mem = mem ∧
    (r.ret = QueueIncomingReturn.null ∨ r.ret = QueueIncomingReturn.dummyCommand)

/-- A sequence number that is behind the current one of the channel: between 1 and 32768
steps back in the 16-bit sequence space. -/
def SequenceBehind (reliableSequenceNumber incomingReliableSequenceNumber : Nat) : Prop :=
  1 ≤ (incomingReliableSequenceNumber + 65536 - reliableSequenceNumber) % 65536 ∧
  (incomingReliableSequenceNumber + 65536 - reliableSequenceNumber) % 65536 ≤ 32768

instance (reliableSequenceNumber incomingReliableSequenceNumber : Nat) :
    Decidable (SequenceBehind reliableSequenceNumber incomingReliableSequenceNumber) := by
  unfold SequenceBehind; infer_instance

/-! ## Statement-side definitions for the timeouts -/

/-- Whether a sent reliable command has timed out at the service time of the host: its age
`ENET_TIME_DIFFERENCE (serviceTime, sentTime)` is at least its `roundTripTimeout`. -/
def timedOut (time : ENetTime) (host : ENetHost) (outgoingCommand : ENetOutgoingCommand) :
    Bool :=
  decide (u32 (time.ENET_TIME_DIFFERENCE host.serviceTime outgoingCommand.sentTime)
    ≥ outgoingCommand.roundTripTimeout)

/-- A command with its `roundTripTimeout` doubled (in 32 bits). -/
def retransmitted (outgoingCommand : ENetOutgoingCommand) : ENetOutgoingCommand :=
  { outgoingCommand with roundTripTimeout := u32 (outgoingCommand.roundTripTimeout * 2) }

/-- The peer after the test of `enet_protocol_check_timeouts` that records the earliest
timeout. -/
def timeoutEarliest (time : ENetTime) (peer : ENetPeer) (outgoingCommand : ENetOutgoingCommand) :
    ENetPeer :=
  if peer.earliestTimeout = 0 ∨
      time.ENET_TIME_LESS outgoingCommand.sentTime peer.earliestTimeout then
    { peer with earliestTimeout := outgoingCommand.sentTime }
  else peer

/-- The peer after `enet_protocol_check_timeouts` has counted a command as lost; `kept` and
`rest` are the commands before and after it that are still in `sentReliableCommands`. -/
def timeoutLost (peer : ENetPeer) (outgoingCommand : ENetOutgoingCommand)
    (kept rest : List ENetOutgoingCommand) : ENetPeer :=
  let peer :=
    if outgoingCommand.packet ≠ none then
      { peer with
        reliableDataInTransit :=
          u32 (peer.reliableDataInTransit + 4294967296 - outgoingCommand.fragmentLength) }
    else peer
  let peer := { peer with packetsLost := u32 (peer.packetsLost + 1) }
  match kept, rest with
  | [], next :: _ =>
    { peer with nextTimeout := u32 (next.sentTime + next.roundTripTimeout) }
  | _, _ => peer

/-! ## Statement-side definitions for the first transmission -/

/-- A reliable command as `enet_protocol_check_outgoing_commands` leaves it in
`sentReliableCommands` when it was sent at `serviceTime` by a peer with the given
`roundTripTime`, `roundTripTimeVariance` and `timeoutLimit`: one more send attempt, the send
time, and, on the first transmission only (`roundTripTimeout = 0`), the timeout
`roundTripTime + 4 * roundTripTimeVariance` and the limit `timeoutLimit * roundTripTimeout`,
both in 32 bits. -/
def transmitted (roundTripTime roundTripTimeVariance timeoutLimit serviceTime : Nat)
    (outgoingCommand : ENetOutgoingCommand) : ENetOutgoingCommand :=
  { outgoingCommand with
    sendAttempts := (outgoingCommand.sendAttempts + 1) % 65536,
    sentTime := serviceTime,
    roundTripTimeout :=
      (if outgoingCommand.roundTripTimeout = 0 then
        (roundTripTime + 4 * roundTripTimeVariance) % 4294967296
       else outgoingCommand.roundTripTimeout),
    roundTripTimeoutLimit :=
      (if outgoingCommand.roundTripTimeout = 0 then
        (timeoutLimit * ((roundTripTime + 4 * roundTripTimeVariance) % 4294967296))
          % 4294967296
       else outgoingCommand.roundTripTimeoutLimit) }

/-- The commands that a run of `enet_protocol_check_outgoing_commands` has put behind the
commands `sent` of `sentReliableCommands`: each of them is a command with the `ACKNOWLEDGE`
flag of the `outgoing` commands, as `transmitted` leaves it. -/
def TransmittedFrom (peer : ENetPeer) (sent outgoing now : List ENetOutgoingCommand) : Prop :=
  ∃ sentNow : List ENetOutgoingCommand,
    now = sent ++ sentNow ∧
    ∀ c1 ∈ sentNow, ∃ c ∈ outgoing,
      c.command.command &&& ENET_PROTOCOL_COMMAND_FLAG_ACKNOWLEDGE ≠ 0 ∧
      c1 = transmitted peer.roundTripTime peer.roundTripTimeVariance peer.timeoutLimit
        c1.sentTime c

/-! ## Statement-side definitions for the dispatch queue -/

/-- Following the data-model invariant of the specification: the peer is linked on
`host.dispatchQueue` exactly when its `NEEDS_DISPATCH` flag is set, and at most once. -/
def DispatchLinked (host : ENetHost) (peer : ENetPeer) : Prop :=
  (peer.incomingPeerID ∈ host.dispatchQueue ↔ peer.needsDispatch = true) ∧
  host.dispatchQueue.count peer.incomingPeerID ≤ 1

instance (host : ENetHost) (peer : ENetPeer) : Decidable (DispatchLinked host peer) := by
  unfold DispatchLinked; infer_instance

/-! ## Statement-side definitions for the order of the incoming reliable queue -/

/-- Following the specification: the queue is ordered by strictly increasing reliable
sequence number relative to the channel's current one (`windowKey`), and no two entries
share a sequence number. -/
def ReliableIncreasing (incomingReliableSequenceNumber : Nat)
    (cmds : List ENetIncomingCommand) : Prop :=
  cmds.Pairwise (fun a b =>
    windowKey incomingReliableSequenceNumber a.reliableSequenceNumber
      < windowKey incomingReliableSequenceNumber b.reliableSequenceNumber) ∧
  (cmds.map (fun c => c.reliableSequenceNumber)).Nodup

instance (incomingReliableSequenceNumber : Nat) (cmds : List ENetIncomingCommand) :
    Decidable (ReliableIncreasing incomingReliableSequenceNumber cmds) := by
  unfold ReliableIncreasing; infer_instance

/-- The sequence numbers of a command with number `seqA` and `fragmentCountA` fragments
(one number for each fragment, one for a command that is not fragmented) all lie before the
number `seqB`, relative to the channel's current number. -/
def rangeBefore (incomingReliableSequenceNumber seqA fragmentCountA seqB : Nat) : Prop :=
  windowKey incomingReliableSequenceNumber seqA + (fragmentCountA - 1)
    < windowKey incomingReliableSequenceNumber seqB

instance (incomingReliableSequenceNumber seqA fragmentCountA seqB : Nat) :
    Decidable (rangeBefore incomingReliableSequenceNumber seqA fragmentCountA seqB) := by
  unfold rangeBefore; infer_instance

/-- The queue holds 16-bit sequence numbers, and the sequence numbers of every entry, those
of its fragments included, lie before the number of every later entry. -/
def ReliableRanges (incomingReliableSequenceNumber : Nat)
    (cmds : List ENetIncomingCommand) : Prop :=
  (∀ c ∈ cmds, c.reliableSequenceNumber < 65536) ∧
  cmds.Pairwise (fun a b =>
    rangeBefore incomingReliableSequenceNumber a.reliableSequenceNumber a.fragmentCount
      b.reliableSequenceNumber)

instance (incomingReliableSequenceNumber : Nat) (cmds : List ENetIncomingCommand) :
    Decidable (ReliableRanges incomingReliableSequenceNumber cmds) := by
  unfold ReliableRanges; infer_instance

/-! ## Statement-side definitions for `enet_protocol_handle_disconnect` -/

/-- A peer with every queue emptied and the channels freed, in the given state and with the
given dispatch flag and event data: what `enet_protocol_handle_disconnect` leaves of a peer
that it does not reset. -/
def disconnectedBy (peer : ENetPeer) (state : ENetPeerState) (needsDispatch : Bool)
    (eventData : Nat) : ENetPeer :=
  { peer with
    state := state, needsDispatch := needsDispatch, eventData := eventData,
    acknowledgements := [], sentReliableCommands := [], sentUnreliableCommands := [],
    outgoingCommands := [], dispatchedCommands := [], channels := [], channelCount := 0 }

/-- The dispatch queue without the node of the peer, when the peer is flagged as linked. -/
def unlinked (host : ENetHost) (peer : ENetPeer) : List Nat :=
  if peer.needsDispatch then host.dispatchQueue.erase peer.incomingPeerID
  else host.dispatchQueue

/-! ## Statement-side definitions for giving a peer up -/

/-- The value of `earliestTimeout` after it has been updated with the `sentTime` of an
expired command: the `sentTime` when no earliest timeout was recorded or the `sentTime` is
the earlier one. -/
def earliestUpdated (time : ENetTime) (earliestTimeout : Nat)
    (outgoingCommand : ENetOutgoingCommand) : Nat :=
  if earliestTimeout = 0 ∨ time.ENET_TIME_LESS outgoingCommand.sentTime earliestTimeout then
    outgoingCommand.sentTime
  else earliestTimeout

/-- The value of `earliestTimeout` after the expired commands of `before` have each updated
it in turn. -/
def earliestReached (time : ENetTime) (host : ENetHost) :
    Nat → List ENetOutgoingCommand → Nat
  | earliestTimeout, [] => earliestTimeout
  | earliestTimeout, outgoingCommand :: before =>
    earliestReached time host
      (if timedOut time host outgoingCommand then
        earliestUpdated time earliestTimeout outgoingCommand
       else earliestTimeout) before

/-- The condition of the specification under which a peer is given up at a command: the
command has expired, `earliestTimeout` updated with its `sentTime` is not zero, and either
the age of `earliestTimeout` has reached `timeoutMaximum`, or the command has reached its
`roundTripTimeoutLimit` and the age of `earliestTimeout` has reached `timeoutMinimum`. -/
def GivesUp (time : ENetTime) (host : ENetHost) (peer : ENetPeer) (earliestTimeout : Nat)
    (outgoingCommand : ENetOutgoingCommand) : Prop :=
  timedOut time host outgoingCommand = true ∧
  earliestUpdated time earliestTimeout outgoingCommand ≠ 0 ∧
  (u32 (time.ENET_TIME_DIFFERENCE host.serviceTime
        (earliestUpdated time earliestTimeout outgoingCommand)) ≥ peer.timeoutMaximum ∨
    (outgoingCommand.roundTripTimeout ≥ outgoingCommand.roundTripTimeoutLimit ∧
      u32 (time.ENET_TIME_DIFFERENCE host.serviceTime
        (earliestUpdated time earliestTimeout outgoingCommand)) ≥ peer.timeoutMinimum))

instance (time : ENetTime) (host : ENetHost) (peer : ENetPeer) (earliestTimeout : Nat)
    (outgoingCommand : ENetOutgoingCommand) :
    Decidable (GivesUp time host peer earliestTimeout outgoingCommand) := by
  unfold GivesUp; infer_instance

/-- The commands `before` are all passed by the loop of `enet_protocol_check_timeouts`
that starts with the given `earliestTimeout`: the peer is given up at none of them. -/
def PassedBy (time : ENetTime) (host : ENetHost) (peer : ENetPeer) (earliestTimeout : Nat)
    (before : List ENetOutgoingCommand) : Prop :=
  ∀ (pre : List ENetOutgoingCommand) (c : ENetOutgoingCommand)
    (post : List ENetOutgoingCommand), before = pre ++ c :: post →
    ¬ GivesUp time host peer (earliestReached time host earliestTimeout pre) c

/-- The host that `enet_protocol_notify_disconnect` works on: its bandwidth limits are to
be recalculated when the peer had reached `CONNECTION_PENDING`. -/
def notifiedHost (host : ENetHost) (peer : ENetPeer) : ENetHost :=
  if peer.state.toNat ≥ ENetPeerState.CONNECTION_PENDING.toNat then
    { host with recalculateBandwidthLimits := 1 }
  else host

/-! ## Statement-side definitions for the window wrap -/

/-- One of the reliable windows `reliableWindow`, ..., `reliableWindow +
ENET_PEER_FREE_RELIABLE_WINDOWS + 1` (taken modulo `ENET_PEER_RELIABLE_WINDOWS`) is marked in
`usedReliableWindows`. -/
def WindowInUse (channel : ENetChannel) (reliableWindow : Nat) : Prop :=
  ∃ i, i < ENET_PEER_FREE_RELIABLE_WINDOWS + 2 ∧
    channel.usedReliableWindows.testBit
      ((reliableWindow + i) % ENET_PEER_RELIABLE_WINDOWS) = true

instance (channel : ENetChannel) (reliableWindow : Nat) :
    Decidable (WindowInUse channel reliableWindow) := by
  unfold WindowInUse; infer_instance

/-- The condition under which a command that starts the reliable window `reliableWindow`
is held back: the window before it holds `ENET_PEER_RELIABLE_WINDOW_SIZE` commands in flight
or more, or one of the windows ahead is in use. -/
def WindowBlocked (channel : ENetChannel) (reliableWindow : Nat) : Prop :=
  channel.reliableWindows.getD
      ((reliableWindow + ENET_PEER_RELIABLE_WINDOWS - 1) % ENET_PEER_RELIABLE_WINDOWS) 0
    ≥ ENET_PEER_RELIABLE_WINDOW_SIZE ∨
  WindowInUse channel reliableWindow

instance (channel : ENetChannel) (reliableWindow : Nat) :
    Decidable (WindowBlocked channel reliableWindow) := by
  unfold WindowBlocked; infer_instance

/-! ## Statement-side definitions for the congestion window -/

/-- The bound of the congestion window of the specification,
`max (windowSize * packetThrottle / ENET_PEER_PACKET_THROTTLE_SCALE, mtu)`, the product taken
in 32 bits. -/
def congestionWindow (peer : ENetPeer) : Nat :=
  max (u32 (peer.packetThrottle * peer.windowSize) / ENET_PEER_PACKET_THROTTLE_SCALE) peer.mtu

/-- Starting with `inTransit` bytes of reliable data in transit, each command of the list
that carries a packet fits into the window `limit` at the moment it is sent:
`reliableDataInTransit + fragmentLength <= limit` (the sum in 32 bits), where
`reliableDataInTransit` has grown by the `fragmentLength` of the commands sent before. -/
def WithinWindow (limit : Nat) : Nat → List ENetOutgoingCommand → Prop
  | _, [] => True
  | inTransit, outgoingCommand :: rest =>
    (outgoingCommand.packet ≠ none →
      u32 (inTransit + outgoingCommand.fragmentLength) ≤ limit) ∧
    WithinWindow limit (u32 (inTransit + outgoingCommand.fragmentLength)) rest

/-- The reliable data in transit after the commands of a list have been sent. -/
def transitAfter : Nat → List ENetOutgoingCommand → Nat
  | inTransit, [] => inTransit
  | inTransit, outgoingCommand :: rest =>
    transitAfter (u32 (inTransit + outgoingCommand.fragmentLength)) rest

/-! ## Statement-side definitions for the unsequenced window -/

/-- The unsequenced group that a `SEND_UNSEQUENCED` command carries. -/
def unsequencedGroupOf (command : ENetProtocol) : Nat :=
  ENET_NET_TO_HOST_16 command.unreliableSequenceNumberView

/-- The bit of the unsequenced window of the peer that stands for the group of a command is
set. -/
def UnsequencedSeen (peer : ENetPeer) (command : ENetProtocol) : Prop :=
  (peer.unsequencedWindow.getD
      (unsequencedGroupOf command % ENET_PEER_UNSEQUENCED_WINDOW_SIZE / 32) 0).testBit
    (unsequencedGroupOf command % ENET_PEER_UNSEQUENCED_WINDOW_SIZE % 32) = true

instance (peer : ENetPeer) (command : ENetProtocol) :
    Decidable (UnsequencedSeen peer command) := by
  unfold UnsequencedSeen; infer_instance

/-- A peer and a host without the fields that the queueing of an incoming command and the
dispatch that follows it write: the incoming queues of the channels, `dispatchedCommands`,
the dispatch flag, the waiting data, and the dispatch queue of the host. -/
def ENetPeer.incomingFrame (peer : ENetPeer) : ENetPeer :=
  { peer with dispatchedCommands := [], needsDispatch := false, channels := [],
              totalWaitingData := 0 }

/-- See `ENetPeer.incomingFrame`. -/
def ENetHost.incomingFrame (host : ENetHost) : ENetHost :=
  { host with dispatchQueue := [] }

/-! ## Statement-side definitions for the acknowledgements -/

/-- The `ACKNOWLEDGE` command that the specification has emitted for an acknowledgement
record: on the channel of the acknowledged command, with its reliable sequence number as
`receivedReliableSequenceNumber` (and in the header) and the sent time of the record as
`receivedSentTime`, both as 16-bit numbers in network byte order. -/
def acknowledgeCommand (acknowledgement : ENetAcknowledgement) : ENetProtocol :=
  { command := ENET_PROTOCOL_COMMAND_ACKNOWLEDGE,
    channelID := acknowledgement.command.channelID,
    reliableSequenceNumber :=
      ENET_HOST_TO_NET_16 acknowledgement.command.reliableSequenceNumber,
    body := .acknowledge (ENET_HOST_TO_NET_16 acknowledgement.command.reliableSequenceNumber)
      (ENET_HOST_TO_NET_16 acknowledgement.sentTime) }

/-! ## Statement-side definitions for the waiting data -/

/-- The sum of the `dataLength` of the packets of a list of incoming commands. -/
def incomingDataLength (queue : List ENetIncomingCommand) : Nat :=
  (queue.map fun incomingCommand => incomingCommand.packet.dataLength).sum

/-- The sum of the packet `dataLength` over all incoming commands that a peer holds: in
`dispatchedCommands` and in the two incoming queues of every channel. -/
def waitingData (peer : ENetPeer) : Nat :=
  incomingDataLength peer.dispatchedCommands
    + (peer.channels.map fun channel =>
        incomingDataLength channel.incomingReliableCommands
          + incomingDataLength channel.incomingUnreliableCommands).sum

/-- The invariant of the specification: `totalWaitingData` is the sum of the packet
`dataLength` over the incoming commands the peer holds. -/
def WaitingDataInvariant (peer : ENetPeer) : Prop :=
  peer.totalWaitingData = waitingData peer

instance (peer : ENetPeer) : Decidable (WaitingDataInvariant peer) := by
  unfold WaitingDataInvariant; infer_instance

/-! ## Statement-side definitions for the bandwidth throttle -/

/-- The number of peers that the first `while` loop of `enet_host_bandwidth_throttle` has
not given a limit at `timeCurrent`. -/
def unmarkedOutgoing (timeCurrent : Nat) (peers : List ENetPeer) : Nat :=
  peers.countP fun peer => decide (peer.outgoingBandwidthThrottleEpoch ≠ timeCurrent)

/-- The number of peers that the second `while` loop of `enet_host_bandwidth_throttle` has
not marked at `timeCurrent`. -/
def unmarkedIncoming (timeCurrent : Nat) (peers : List ENetPeer) : Nat :=
  peers.countP fun peer => decide (peer.incomingBandwidthThrottleEpoch ≠ timeCurrent)

/-! ## Statement-side definitions for the round trip time estimator -/

/-- The estimator of `after` is that of `peer` updated with the measured round trip time `m`:
for a peer that has received before, `roundTripTimeVariance` is `var - var / 4 + |m - rtt| / 4`
and `roundTripTime` is `rtt + (m - rtt) / 8` for `m >= rtt` and `rtt - (rtt - m) / 8`
otherwise, all in natural numbers (no subtraction goes below zero, no sum reaches 2^32); on
the first sample `roundTripTime` is `m` and `roundTripTimeVariance` is `(m + 1) / 2` (for `m`
below 2^32 - 1). -/
def EstimatorUpdated (peer : ENetPeer) (m : Nat) (after : ENetPeer) : Prop :=
  (0 < peer.lastReceiveTime →
    after.roundTripTimeVariance
      = peer.roundTripTimeVariance - peer.roundTripTimeVariance / 4
        + (if m ≥ peer.roundTripTime then m - peer.roundTripTime
           else peer.roundTripTime - m) / 4 ∧
    after.roundTripTime
      = (if m ≥ peer.roundTripTime then peer.roundTripTime + (m - peer.roundTripTime) / 8
         else peer.roundTripTime - (peer.roundTripTime - m) / 8) ∧
    peer.roundTripTimeVariance / 4 ≤ peer.roundTripTimeVariance ∧
    (peer.roundTripTime - m) / 8 ≤ peer.roundTripTime ∧
    peer.roundTripTimeVariance - peer.roundTripTimeVariance / 4
        + (if m ≥ peer.roundTripTime then m - peer.roundTripTime
           else peer.roundTripTime - m) / 4 < 4294967296 ∧
    (if m ≥ peer.roundTripTime then peer.roundTripTime + (m - peer.roundTripTime) / 8
     else peer.roundTripTime - (peer.roundTripTime - m) / 8) < 4294967296) ∧
  (peer.lastReceiveTime = 0 → m < 4294967295 →
    after.roundTripTime = m ∧ after.roundTripTimeVariance = (m + 1) / 2)

/-! ## Statement-side definitions for the dispatch of events -/

/-- A peer that the loop of `enet_protocol_dispatch_incoming_commands` passes without an
event: it is in none of `CONNECTION_PENDING`, `CONNECTION_SUCCEEDED` and `ZOMBIE`, and when
it is `CONNECTED` it has no dispatched command. -/
def ENetPeer.silent (peer : ENetPeer) : Bool :=
  decide (peer.state ≠ ENetPeerState.CONNECTION_PENDING ∧
    peer.state ≠ ENetPeerState.CONNECTION_SUCCEEDED ∧
    peer.state ≠ ENetPeerState.ZOMBIE ∧
    (peer.state = ENetPeerState.CONNECTED → peer.dispatchedCommands = []))

/-- The slots of a host after the flag `ENET_PEER_FLAG_NEEDS_DISPATCH` has been cleared in
the slots named by `passed`. -/
def unflagged : List ENetPeer → List Nat → List ENetPeer
  | peers, [] => peers
  | peers, slot :: passed =>
    unflagged
      (match peers.get? slot with
       | some peer => peers.set slot { peer with needsDispatch := false }
       | none => peers)
      passed

/-! ## Proof-side definitions for the sending of the queued commands -/

/-- What the two counters of the host are made of, in the locals of
`enet_protocol_check_outgoing_commands`: state and incoming bandwidth of the peer, slots and
counters of the host. -/
def CheckOutgoingState.counters (st : CheckOutgoingState) :=
  (st.peer.state, st.peer.incomingBandwidth, st.host.peers, st.host.connectedPeers,
   st.host.bandwidthLimitedPeers)

/-! ## Sample values -/

/-- A freshly initialised channel, as `enet_host_connect` and `enet_protocol_handle_connect`
set it up. -/
def sampleChannel : ENetChannel :=
  { outgoingReliableSequenceNumber := 0, outgoingUnreliableSequenceNumber := 0,
    usedReliableWindows := 0, reliableWindows := List.replicate 16 0,
    incomingReliableSequenceNumber := 0, incomingUnreliableSequenceNumber := 0,
    incomingReliableCommands := [], incomingUnreliableCommands := [] }

/-- A connected peer in slot 0 with one channel and the minimum MTU of 576. -/
def samplePeer : ENetPeer :=
  { outgoingPeerID := 0, incomingPeerID := 0, connectID := 77,
    outgoingSessionID := 1, incomingSessionID := 1,
    address := { host := 1, port := 1 }, state := ENetPeerState.CONNECTED,
    channels := [sampleChannel], channelCount := 1,
    incomingBandwidth := 0, outgoingBandwidth := 0,
    incomingBandwidthThrottleEpoch := 0, outgoingBandwidthThrottleEpoch := 0,
    incomingDataTotal := 0, outgoingDataTotal := 0, lastSendTime := 0, lastReceiveTime := 0,
    nextTimeout := 0, earliestTimeout := 0, packetLossEpoch := 0, packetsSent := 0,
    packetsLost := 0, packetLoss := 0, packetLossVariance := 0,
    packetThrottle := 32, packetThrottleLimit := 32, packetThrottleCounter := 0,
    packetThrottleEpoch := 0, packetThrottleAcceleration := 2,
    packetThrottleDeceleration := 2, packetThrottleInterval := 5000,
    pingInterval := 500, timeoutLimit := 32, timeoutMinimum := 5000, timeoutMaximum := 30000,
    lastRoundTripTime := 500, lowestRoundTripTime := 500, lastRoundTripTimeVariance := 0,
    highestRoundTripTimeVariance := 0, roundTripTime := 500, roundTripTimeVariance := 0,
    mtu := 576, windowSize := 65536, reliableDataInTransit := 0,
    outgoingReliableSequenceNumber := 0, acknowledgements := [], sentReliableCommands := [],
    sentUnreliableCommands := [], outgoingCommands := [], dispatchedCommands := [],
    needsDispatch := false, incomingUnsequencedGroup := 0, outgoingUnsequencedGroup := 0,
    unsequencedWindow := List.replicate 32 0, eventData := 0, totalWaitingData := 0 }

/-- A host with the single peer slot `samplePeer`, no checksum callback and the limits of
32 MiB for packets and waiting data. -/
def sampleHost : ENetHost :=
  { incomingBandwidth := 0, outgoingBandwidth := 0, bandwidthThrottleEpoch := 0,
    mtu := 1400, randomSeed := 1, recalculateBandwidthLimits := 0,
    peers := [samplePeer], peerCount := 1, channelLimit := 255, serviceTime := 1000,
    dispatchQueue := [], continueSending := 0, packetSize := 0, headerFlags := 0,
    commands := [], commandCount := 0, buffers := [], bufferCount := 0, checksum := false,
    receivedAddress := { host := 1, port := 1 }, connectedPeers := 1,
    bandwidthLimitedPeers := 0, duplicatePeers := 4095,
    maximumPacketSize := 33554432, maximumWaitingData := 33554432,
    compressor := false, totalSentData := 0, totalSentPackets := 0 }

/-- A reliable packet of `n` bytes, byte `i` holding `i % 256`, not yet referenced. -/
def samplePacket (n : Nat) : ENetPacket :=
  { referenceCount := 0,
    flags := { reliable := true, unsequenced := false, noAllocate := false,
               unreliableFragment := false, sent := false },
    data := (List.range n).map (· % 256), dataLength := n }

/-- An incoming command without fragments that holds a packet of `n` bytes: command byte
`commandByte`, reliable and unreliable sequence numbers `rsn` and `usn`, channel 0. -/
def sampleIncoming (commandByte rsn usn n : Nat) : ENetIncomingCommand :=
  { reliableSequenceNumber := rsn, unreliableSequenceNumber := usn,
    command := { command := commandByte, channelID := 0, reliableSequenceNumber := rsn,
                 body := .unset },
    fragmentCount := 0, fragmentsRemaining := 0, fragments := none,
    packet := { samplePacket n with referenceCount := 1 } }

/-- Values for the constants of `enet.h` that the specification leaves out, those of the
ENet 1.3 header. -/
def sampleHeader : ENetHeader :=
  { ENET_PEER_WINDOW_SIZE_SCALE := 65536, ENET_PEER_DEFAULT_PACKET_THROTTLE := 32,
    ENET_PEER_PACKET_THROTTLE_ACCELERATION := 2, ENET_PEER_PACKET_THROTTLE_DECELERATION := 2,
    ENET_PEER_DEFAULT_ROUND_TRIP_TIME := 500, ENET_PEER_PACKET_THROTTLE_INTERVAL := 5000,
    ENET_PEER_PING_INTERVAL := 500, ENET_PEER_TIMEOUT_LIMIT := 32,
    ENET_PEER_TIMEOUT_MINIMUM := 5000, ENET_PEER_TIMEOUT_MAXIMUM := 30000,
    ENET_PROTOCOL_MAXIMUM_PACKET_COMMANDS := 32, ENET_BUFFER_MAXIMUM := 65 }

/-- A `VERIFY_CONNECT` command that echoes the throttle settings and `connectID` of
`samplePeer`, with the given channel count. -/
def sampleVerifyConnect (channelCount connectID : Nat) : ENetProtocol :=
  { command := 131, channelID := 255, reliableSequenceNumber := 1,
    body := .verifyConnect
      { outgoingPeerID := 3, incomingSessionID := 2, outgoingSessionID := 2, mtu := 1000,
        windowSize := 8192, channelCount := channelCount, incomingBandwidth := 0,
        outgoingBandwidth := 0, packetThrottleInterval := 5000,
        packetThrottleAcceleration := 2, packetThrottleDeceleration := 2,
        connectID := connectID, data := 0 } }

/-- An event slot as `enet_host_service` clears it before handling datagrams. -/
def sampleEvent : ENetEvent :=
  { type := ENetEventType.NONE, peer := none, channelID := 0, data := 0, packet := none }

/-- A `CONNECT` command as an initiator with default settings sends it. -/
def sampleConnect (channelCount connectID : Nat) : ENetProtocol :=
  { command := 130, channelID := 255, reliableSequenceNumber := 1,
    body := .connect
      { outgoingPeerID := 0, incomingSessionID := 255, outgoingSessionID := 255, mtu := 1400,
        windowSize := 65536, channelCount := channelCount, incomingBandwidth := 0,
        outgoingBandwidth := 0, packetThrottleInterval := 5000,
        packetThrottleAcceleration := 2, packetThrottleDeceleration := 2,
        connectID := connectID, data := 0 } }

/-- The sample host with its single slot free, as after `enet_peer_reset`. -/
def sampleIdleHost : ENetHost :=
  { sampleHost with
    peers := [{ samplePeer with state := ENetPeerState.DISCONNECTED, connectID := 0,
                                channels := [], channelCount := 0 }],
    connectedPeers := 0 }

/-- The peer that `enet_host_connect` sets up in the free slot of `sampleIdleHost` for two
channels. -/
def sampleInitiator : ENetPeer :=
  (enet_host_connect sampleHeader sampleIdleHost { host := 2, port := 7777 } 2 0
    4).host.peers.getD 0 samplePeer

/-- The `CONNECT` command that `sampleInitiator` has queued. -/
def sampleInitiatorCommand : ENetOutgoingCommand :=
  sampleInitiator.outgoingCommands.getLastD
    { reliableSequenceNumber := 0, unreliableSequenceNumber := 0, sentTime := 0,
      roundTripTimeout := 0, roundTripTimeoutLimit := 0, fragmentOffset := 0,
      fragmentLength := 0, sendAttempts := 0, command := sampleConnect 2 0, packet := none }

/-- The peer that `enet_protocol_handle_connect` sets up in the free slot of
`sampleIdleHost` when it receives `sampleInitiatorCommand`. -/
def sampleAcceptor : ENetPeer :=
  (enet_protocol_handle_connect sampleHeader sampleIdleHost
    (receivedCommand sampleInitiatorCommand) 4).host.peers.getD 0 samplePeer

/-- The `VERIFY_CONNECT` command that `sampleAcceptor` has queued. -/
def sampleAcceptorCommand : ENetOutgoingCommand :=
  sampleAcceptor.outgoingCommands.getLastD
    { reliableSequenceNumber := 0, unreliableSequenceNumber := 0, sentTime := 0,
      roundTripTimeout := 0, roundTripTimeoutLimit := 0, fragmentOffset := 0,
      fragmentLength := 0, sendAttempts := 0, command := sampleVerifyConnect 2 0,
      packet := none }

/-- An unreliable command for channel 0 that carries the whole of packet `pid`, 4 bytes
long, with unreliable sequence number `usn`. -/
def sampleUnreliableCommand (pid usn : Nat) : ENetOutgoingCommand :=
  { reliableSequenceNumber := 0, unreliableSequenceNumber := usn, sentTime := 0,
    roundTripTimeout := 0, roundTripTimeoutLimit := 0, fragmentOffset := 0,
    fragmentLength := 4, sendAttempts := 0,
    command := { command := 7, channelID := 0, reliableSequenceNumber := 0,
                 body := .sendUnreliable usn 4 },
    packet := some pid }

/-- The connected sample peer with `packetThrottle = 0`, the throttle counter at 25 (where
31 unreliable packets after a reset leave it) and one unreliable packet queued. -/
def sampleThrottledPeer : ENetPeer :=
  { samplePeer with
    packetThrottle := 0, packetThrottleCounter := 25,
    outgoingCommands := [sampleUnreliableCommand 0 32] }

/-- The packet store that goes with `sampleThrottledPeer`: the queued packet, referenced
once. -/
def sampleThrottledStore : PacketStore :=
  [(0, { samplePacket 4 with
          referenceCount := 1,
          flags := { reliable := false, unsequenced := false, noAllocate := false,
                     unreliableFragment := false, sent := false } })]

/-- What `enet_peer_send` returns when the sample peer sends a packet of 1200 bytes on
channel 0: three fragments are queued. -/
def sampleSent : SendResult :=
  (enet_peer_send sampleHost samplePeer 0 0 (samplePacket 1200) 8).getD
    { status := -1, peer := samplePeer, packet := samplePacket 1200, mem := 0 }

/-- The sample peer with as much data waiting for the application as the host allows. -/
def sampleFullPeer : ENetPeer :=
  { samplePeer with totalWaitingData := 33554432 }

/-- The sample host with a packet of 4 bytes waiting for the application in its slot, which
is linked into the dispatch queue. -/
def sampleReceivingHost : ENetHost :=
  { sampleHost with
    peers := [{ samplePeer with
                dispatchedCommands := [sampleIncoming 134 1 0 4],
                needsDispatch := true, totalWaitingData := 4 }],
    dispatchQueue := [0] }

/-- The usual definitions of the two time macros: a time is less than another when their
32-bit difference is a day or more, and the difference is taken the way round that keeps it
below a day. -/
def sampleTime : ENetTime :=
  { ENET_TIME_LESS := fun a b => decide (u32 (a + 4294967296 - b) ≥ 86400000),
    ENET_TIME_DIFFERENCE := fun a b =>
      if u32 (a + 4294967296 - b) ≥ 86400000 then u32 (b + 4294967296 - a)
      else u32 (a + 4294967296 - b) }

/-- What `enet_peer_disconnect` with data 7 leaves of the sample peer. -/
def sampleDisconnecting : DisconnectResult :=
  enet_peer_disconnect sampleHeader id sampleHost samplePeer [] 7 4

/-- The sample peer after `enet_peer_disconnect` and the sending of its `DISCONNECT`
command. -/
def sampleDisconnectSent : CheckOutgoingResult :=
  (enet_protocol_check_outgoing_commands sampleHeader id sampleDisconnecting.host
    sampleDisconnecting.peer sampleDisconnecting.store sampleDisconnecting.mem).getD
    { canPing := true, host := sampleHost, peer := samplePeer, store := [], mem := 0 }

/-- The acknowledgement of the command with reliable sequence number 1 on channel `0xFF`
that was sent at time 1000. -/
def sampleDisconnectAck : ENetProtocol :=
  { command := 1, channelID := 255, reliableSequenceNumber := 1,
    body := .acknowledge 1 1000 }

/-- The sample peer with an incoming bandwidth of 1000 bytes per second. -/
def sampleLimitedPeer : ENetPeer :=
  { samplePeer with incomingBandwidth := 1000 }

/-- The sample host with `sampleLimitedPeer` in its slot, counted as bandwidth limited. -/
def sampleLimitedHost : ENetHost :=
  { sampleHost with peers := [sampleLimitedPeer], bandwidthLimitedPeers := 1 }

/-- A `BANDWIDTH_LIMIT` command that lifts both limits. -/
def sampleBandwidthLimit : ENetProtocol :=
  { command := 138, channelID := 255, reliableSequenceNumber := 2,
    body := .bandwidthLimit 0 0 }

/-- What `enet_peer_send` returns when the sample peer sends a packet of 4 bytes on channel
0: one `SEND_RELIABLE` command is queued. -/
def sampleSmallSent : SendResult :=
  (enet_peer_send sampleHost samplePeer 0 0 (samplePacket 4) 8).getD
    { status := -1, peer := samplePeer, packet := samplePacket 4, mem := 0 }

/-- The sample peer after `enet_peer_send` of a packet of 4 bytes and the sending of its
command: the command waits in `sentReliableCommands` for its acknowledgement. -/
def sampleInTransit : CheckOutgoingResult :=
  (enet_protocol_check_outgoing_commands sampleHeader id sampleHost sampleSmallSent.peer
    [(0, sampleSmallSent.packet)] sampleSmallSent.mem).getD
    { canPing := true, host := sampleHost, peer := samplePeer, store := [], mem := 0 }

/-- A `SEND_RELIABLE` command for channel 0 that carries the whole of packet 0, 4 bytes long,
as `enet_peer_send` hands it to `enet_peer_setup_outgoing_command`. -/
def sampleReliableCommand : ENetOutgoingCommand :=
  { reliableSequenceNumber := 0, unreliableSequenceNumber := 0, sentTime := 0,
    roundTripTimeout := 0, roundTripTimeoutLimit := 0, fragmentOffset := 0,
    fragmentLength := 4, sendAttempts := 0,
    command := { command := 134, channelID := 0, reliableSequenceNumber := 0,
                 body := .sendReliable 4 },
    packet := some 0 }

/-- The sample peer after `enet_peer_setup_outgoing_command` has queued
`sampleReliableCommand`. -/
def sampleQueued : ENetPeer :=
  (enet_peer_setup_outgoing_command samplePeer sampleReliableCommand).getD samplePeer

/-- What the receiving function takes from outside for the sample host: the broadcast
address of ENet 1.3, packet buffers of 4096 bytes, no compressor, and a checksum callback
that is not used. -/
def sampleReceive : ENetReceive :=
  { ENET_HOST_BROADCAST := 4294967295, sizeof_packetData := 4096, decompress := none,
    checksum := fun _ => 0 }

/-- A datagram for the peer in slot 0 with session id 1, without sent time, whose single
command record has the command number 0. -/
def sampleBadDatagram : List Nat := [16, 0, 0, 0, 0, 0]

/-- A datagram for the peer in slot 0 with session id 1, without sent time, that holds a
`SEND_RELIABLE` command for channel 0 announcing 9 bytes of data and carries 2. -/
def sampleShortDatagram : List Nat := [16, 0, 6, 0, 0, 1, 0, 9, 1, 2]

/-- A table of the range coder, every one of its 4096 cells zero. -/
def sampleSymbols : List ENetSymbol :=
  List.replicate rangeCoderSymbols
    { value := 0, count := 0, under := 0, left := 0, right := 0, symbols := 0,
      escapes := 0, total := 0, parent := 0 }

/-- Twelve zero bytes. -/
def sampleRun : List Nat := [0, 0, 0, 0, 0, 0, 0, 0, 0, 0, 0, 0]

/-- The six bytes that `enet_range_coder_compress` makes of `sampleRun`. -/
def sampleRunCompressed : List Nat := [1, 3, 229, 218, 160, 110]

/-- The sample peer in the middle of a throttle interval whose round trip time varied more
than it lasted: `lastRoundTripTime = 10`, `lastRoundTripTimeVariance = 20`, throttle 5 of
32. -/
def sampleJitterPeer : ENetPeer :=
  { samplePeer with lastRoundTripTime := 10, lastRoundTripTimeVariance := 20,
                    packetThrottle := 5 }

/-- An `ACKNOWLEDGE` command for the reliable sequence number 1 of channel 0 that echoes the
low 16 bits of the send time `sentTime`. -/
def sampleAcknowledge (sentTime : Nat) : ENetProtocol :=
  { command := ENET_PROTOCOL_COMMAND_ACKNOWLEDGE, channelID := 0, reliableSequenceNumber := 1,
    body := .acknowledge 1 (sentTime % 65536) }

/-- The sample peer with an acknowledgement received at time 900, a smoothed round trip time
of 500 and a variance of 40. -/
def sampleMeasuredPeer : ENetPeer :=
  { samplePeer with lastReceiveTime := 900, roundTripTimeVariance := 40 }

/-- A `SEND_RELIABLE` command with the `ACKNOWLEDGE` flag for channel 0 with the reliable
sequence number `rsn`. -/
def sampleSendReliable (rsn : Nat) : ENetProtocol :=
  { command := ENET_PROTOCOL_COMMAND_SEND_RELIABLE ||| ENET_PROTOCOL_COMMAND_FLAG_ACKNOWLEDGE,
    channelID := 0, reliableSequenceNumber := rsn, body := .sendReliable 4 }

/-- A `SEND_UNRELIABLE` command for channel 0 with the sequence numbers `rsn` and `usn`. -/
def sampleSendUnreliable (rsn usn : Nat) : ENetProtocol :=
  { command := ENET_PROTOCOL_COMMAND_SEND_UNRELIABLE, channelID := 0,
    reliableSequenceNumber := rsn, body := .sendUnreliable usn 4 }

/-- The sample peer with `incomingReliableSequenceNumber = 5` and
`incomingUnreliableSequenceNumber = 3` on its channel. -/
def sampleAdvancedPeer : ENetPeer :=
  { samplePeer with
    channels := [{ sampleChannel with incomingReliableSequenceNumber := 5,
                                      incomingUnreliableSequenceNumber := 3 }] }

/-- The sample host with `sampleAdvancedPeer` in its slot. -/
def sampleAdvancedHost : ENetHost :=
  { sampleHost with peers := [sampleAdvancedPeer] }

/-- A datagram for the peer in slot 0 with session id 1 and the sent time 100 that holds a
`SEND_RELIABLE` command with the `ACKNOWLEDGE` flag for channel 0, reliable sequence number
3 and 4 bytes of data. -/
def sampleDuplicateDatagram : List Nat := [144, 0, 0, 100, 134, 0, 0, 3, 0, 4, 1, 2, 3, 4]

/-- The peer of `sampleInTransit` (one reliable command with a packet of 4 bytes in
`sentReliableCommands`, sent at the service time 1000) with a `PING` waiting in
`outgoingCommands`. -/
def sampleWaiting : ENetPeer :=
  { sampleInTransit.peer with
    outgoingCommands :=
      [{ reliableSequenceNumber := 2, unreliableSequenceNumber := 0, sentTime := 0,
         roundTripTimeout := 0, roundTripTimeoutLimit := 0, fragmentOffset := 0,
         fragmentLength := 0, sendAttempts := 0,
         command := { command := 133, channelID := 255, reliableSequenceNumber := 2,
                      body := .unset },
         packet := none }] }

/-- The peer in the slot of `sampleReceivingHost`: it holds a dispatched packet and is
linked on the dispatch queue with its flag set. -/
def sampleReceivingPeer : ENetPeer :=
  { samplePeer with
    dispatchedCommands := [sampleIncoming 134 1 0 4],
    needsDispatch := true, totalWaitingData := 4 }

/-- Fragment `fragmentNumber` of a packet of 6 bytes sent in 3 `SEND_FRAGMENT` commands with
the reliable sequence numbers 2 to 4 on channel 0, with its 2 bytes of data. -/
def sampleOverlapFragment (fragmentNumber : Nat) : ENetProtocol × List Nat :=
  ({ command := ENET_PROTOCOL_COMMAND_SEND_FRAGMENT ||| ENET_PROTOCOL_COMMAND_FLAG_ACKNOWLEDGE,
     channelID := 0, reliableSequenceNumber := 2 + fragmentNumber,
     body := .sendFragment
       { startSequenceNumber := 2, dataLength := 2, fragmentCount := 3,
         fragmentNumber := fragmentNumber, totalLength := 6,
         fragmentOffset := 2 * fragmentNumber } },
   [10 + fragmentNumber, 20 + fragmentNumber])

/-- What the sample peer, its channel at sequence number 0, makes of the three fragments
numbered 2 to 4 followed by a `SEND_RELIABLE` command numbered 3, a number of the fragments,
and a `SEND_RELIABLE` command numbered 6. -/
def sampleOverlapReceived : Option HandleResult :=
  (handleSendFragments sampleHost samplePeer 64
    [sampleOverlapFragment 0, sampleOverlapFragment 1, sampleOverlapFragment 2]).bind fun r =>
  (enet_protocol_handle_send_reliable r.host r.peer (sampleSendReliable 3) [1, 2, 3, 4]
    r.mem).bind fun r =>
  enet_protocol_handle_send_reliable r.host r.peer (sampleSendReliable 6) [1, 2, 3, 4] r.mem

/-- The peer of `sampleOverlapReceived`. -/
def sampleOverlapPeer : ENetPeer :=
  match sampleOverlapReceived with
  | some r => r.peer
  | none => samplePeer

/-- A queue on a channel at sequence number 0 whose entries have disjoint numbers: a
fragmented command of 3 fragments with the numbers 2 to 4, complete, and a command
numbered 6. -/
def sampleDisjointQueue : List ENetIncomingCommand :=
  [{ sampleIncoming 136 2 0 4 with fragmentCount := 3, fragmentsRemaining := 0,
                                   fragments := some [7] },
   sampleIncoming 134 6 0 4]

/-- The sample peer with `sampleDisjointQueue` on its channel. -/
def sampleDisjointPeer : ENetPeer :=
  { samplePeer with
    channels := [{ sampleChannel with incomingReliableCommands := sampleDisjointQueue }],
    totalWaitingData := 8 }

/-- A `DISCONNECT` command with the `ACKNOWLEDGE` flag and the data 7. -/
def sampleDisconnect : ENetProtocol :=
  { command := ENET_PROTOCOL_COMMAND_DISCONNECT ||| ENET_PROTOCOL_COMMAND_FLAG_ACKNOWLEDGE,
    channelID := 0xFF, reliableSequenceNumber := 1, body := .disconnect 7 }

/-- The sample peer with one reliable command in flight that was sent at time 5000 with a
timeout of 500. -/
def sampleExpiredPeer : ENetPeer :=
  { samplePeer with
    sentReliableCommands :=
      [{ sampleReliableCommand with
          sentTime := 5000, roundTripTimeout := 500, roundTripTimeoutLimit := 16000 }],
    reliableDataInTransit := 4 }

/-- The sample host at the service time 40000. -/
def sampleLateHost : ENetHost :=
  { sampleHost with serviceTime := 40000 }

/-- A channel with one command of the reliable window 0 still in flight. -/
def sampleWrapChannel : ENetChannel :=
  { sampleChannel with
    outgoingReliableSequenceNumber := 4096, usedReliableWindows := 1,
    reliableWindows := 1 :: List.replicate 15 0 }

/-- The first command of the reliable window 1 on channel 0, not yet sent. -/
def sampleWrapCommand : ENetOutgoingCommand :=
  { sampleReliableCommand with
    reliableSequenceNumber := 4096,
    command := { sampleReliableCommand.command with reliableSequenceNumber := 4096 } }

/-- The sample peer on `sampleWrapChannel` with `sampleWrapCommand` queued. -/
def sampleWrapPeer : ENetPeer :=
  { samplePeer with channels := [sampleWrapChannel], outgoingCommands := [sampleWrapCommand] }

/-- A channel with all 4096 commands of the reliable window 0 still in flight. -/
def sampleBlockedChannel : ENetChannel :=
  { sampleWrapChannel with reliableWindows := 4096 :: List.replicate 15 0 }

/-- The locals of `enet_protocol_check_outgoing_commands` at the start of its loop, for the
sample peer on `sampleBlockedChannel`. -/
def sampleBlockedStart : CheckOutgoingState :=
  { host := sampleHost, peer := { sampleWrapPeer with channels := [sampleBlockedChannel] },
    store := [(0, samplePacket 4)], kept := [], command := 0, buffer := 0,
    windowExceeded := false, windowWrap := false, canPing := true, dropping := none }

/-- A `PING` command as `enet_peer_ping` queues it: reliable, on no channel, without a
packet. -/
def samplePingCommand : ENetOutgoingCommand :=
  { sampleReliableCommand with
    reliableSequenceNumber := 1, fragmentLength := 0, packet := none,
    command := { command := ENET_PROTOCOL_COMMAND_PING ||| ENET_PROTOCOL_COMMAND_FLAG_ACKNOWLEDGE,
                 channelID := 0xFF, reliableSequenceNumber := 1, body := .unset } }

/-- The sample peer with a full congestion window (65536 bytes in transit at a window of
65536) and three commands queued: a `SEND_RELIABLE` with a packet, a `PING`, and a second
`SEND_RELIABLE` with a packet. -/
def sampleCongestedPeer : ENetPeer :=
  { samplePeer with
    reliableDataInTransit := 65536,
    outgoingCommands :=
      [{ sampleReliableCommand with reliableSequenceNumber := 1 }, samplePingCommand,
       { sampleReliableCommand with reliableSequenceNumber := 2 }] }

/-- The first command of `sampleCongestedPeer`. -/
def sampleCongestedCommand : ENetOutgoingCommand :=
  { sampleReliableCommand with reliableSequenceNumber := 1 }

/-- The locals of `enet_protocol_check_outgoing_commands` at the start of its loop, for
`sampleCongestedPeer`. -/
def sampleCongestedStart : CheckOutgoingState :=
  { host := sampleHost, peer := sampleCongestedPeer,
    store := [(0, samplePacket 4)], kept := [], command := 0, buffer := 0,
    windowExceeded := false, windowWrap := false, canPing := true, dropping := none }

/-- A `SEND_UNSEQUENCED` command for channel 0 with the given group and 4 bytes of data. -/
def sampleSendUnsequenced (unsequencedGroup : Nat) : ENetProtocol :=
  { command := ENET_PROTOCOL_COMMAND_SEND_UNSEQUENCED ||| ENET_PROTOCOL_COMMAND_FLAG_UNSEQUENCED,
    channelID := 0, reliableSequenceNumber := 0,
    body := .sendUnsequenced unsequencedGroup 4 }

/-- What `enet_protocol_handle_send_unsequenced` returns when the sample peer handles the
`SEND_UNSEQUENCED` command with group 5 and the data 1, 2, 3, 4. -/
def sampleUnsequencedHandled : HandleResult :=
  (enet_protocol_handle_send_unsequenced sampleHost samplePeer (sampleSendUnsequenced 5) [1, 2, 3, 4] 8).getD
    { status := -1, host := sampleHost, peer := samplePeer, currentData := [], mem := 0 }

/-- The sample peer after two reliable commands have been acknowledged: sequence number 1
on channel 0 received with the sent time 700, and sequence number 2 with the sent time
705. -/
def sampleAcknowledgingPeer : ENetPeer :=
  (((enet_peer_queue_acknowledgement samplePeer (sampleSendReliable 1) 700 4).bind
      fun r => enet_peer_queue_acknowledgement r.1 (sampleSendReliable 2) 705 r.2).map
    Prod.fst).getD samplePeer

/-- The flags of a packet created for an incoming `SEND_UNRELIABLE` command. -/
def sampleNoFlags : ENetPacketFlags :=
  { reliable := false, unsequenced := false, noAllocate := false,
    unreliableFragment := false, sent := false }

/-- The flags of a packet created for an incoming `SEND_RELIABLE` command. -/
def sampleReliableFlags : ENetPacketFlags :=
  { reliable := true, unsequenced := false, noAllocate := false,
    unreliableFragment := false, sent := false }

/-- The sample peer after an unreliable command that follows the reliable command 1 has
been queued, before any reliable command has arrived: the command waits in
`incomingUnreliableCommands`. -/
def sampleEarlyUnreliable : Option QueueIncomingResult :=
  enet_peer_queue_incoming_command sampleHost samplePeer (sampleSendUnreliable 1 1)
    (some [1, 2, 3, 4]) 4 sampleNoFlags 0 16

/-- The peer of `sampleEarlyUnreliable` after the reliable command 2 has been queued ahead
of the reliable command 1: it waits in `incomingReliableCommands`. -/
def sampleEarlyReliable : Option QueueIncomingResult :=
  sampleEarlyUnreliable.bind fun q =>
    enet_peer_queue_incoming_command q.host q.peer (sampleSendReliable 2)
      (some [5, 6, 7, 8]) 4 sampleReliableFlags 0 q.mem

/-- The peer of `sampleEarlyReliable` after the reliable command 1 has been queued: the
reliable commands 1 and 2 are dispatched, and the unreliable command, now behind the
reliable sequence number of the channel, is dropped. -/
def sampleLateReliable : Option QueueIncomingResult :=
  sampleEarlyReliable.bind fun q =>
    enet_peer_queue_incoming_command q.host q.peer (sampleSendReliable 1)
      (some [9, 10, 11, 12]) 4 sampleReliableFlags 0 q.mem

/-- A summary of a peer: `totalWaitingData`, the sum it is compared with, and the lengths of
`dispatchedCommands` and of the two incoming queues of channel 0. -/
def waitingSummary (peer : ENetPeer) : Nat × Nat × Nat × Nat × Nat :=
  (peer.totalWaitingData, waitingData peer, peer.dispatchedCommands.length,
    (peer.channels.map fun channel => channel.incomingReliableCommands.length).sum,
    (peer.channels.map fun channel => channel.incomingUnreliableCommands.length).sum)

/-- The sample peer with a limit of 1000 bytes per second on what it receives, and 8000
bytes sent to it since the last throttle. -/
def sampleSlowPeer : ENetPeer :=
  { samplePeer with incomingBandwidth := 1000, outgoingDataTotal := 8000 }

/-- A host that sends at most 4000 bytes per second, with `sampleSlowPeer` in its slot and
its bandwidth limits to be recalculated. -/
def sampleThrottlingHost : ENetHost :=
  { sampleHost with
    peers := [sampleSlowPeer], outgoingBandwidth := 4000, incomingBandwidth := 6000,
    bandwidthLimitedPeers := 1, recalculateBandwidthLimits := 1 }

/-- The sample peer of `sampleMeasuredPeer` while it waits for the acknowledgement of its
`DISCONNECT` command, which is numbered 1 and was sent at time 400. -/
def sampleDisconnectingPeer : ENetPeer :=
  { sampleMeasuredPeer with
    state := ENetPeerState.DISCONNECTING,
    sentReliableCommands :=
      [{ reliableSequenceNumber := 1, unreliableSequenceNumber := 0, sentTime := 400,
         roundTripTimeout := 660, roundTripTimeoutLimit := 21120, fragmentOffset := 0,
         fragmentLength := 0, sendAttempts := 1,
         command := { command := 132, channelID := 255, reliableSequenceNumber := 1,
                      body := .disconnect 0 },
         packet := none }] }

/-- The acknowledgement of the command numbered 1 on channel `0xFF` that was sent at time
`sentTime`. -/
def sampleAcknowledgeControl (sentTime : Nat) : ENetProtocol :=
  { command := ENET_PROTOCOL_COMMAND_ACKNOWLEDGE, channelID := 255, reliableSequenceNumber := 1,
    body := .acknowledge 1 (sentTime % 65536) }

/-- The sample host with a second slot: slot 0 holds the sample peer, connected and linked on
the dispatch queue without a dispatched command; slot 1 holds a peer in
`CONNECTION_PENDING`, linked behind it. -/
def sampleQueuedHost : ENetHost :=
  { sampleHost with
    peers := [{ samplePeer with needsDispatch := true },
              { samplePeer with incomingPeerID := 1, eventData := 5, needsDispatch := true,
                                state := ENetPeerState.CONNECTION_PENDING }],
    peerCount := 2, dispatchQueue := [0, 1] }

/-- A socket that takes every datagram whole (it returns 12), a clock at 1000, no compressor
output, and the macros of the packet loss statistics as the usual wrapping comparison and
absolute difference, with an interval of 10000 and a scale of 65536. -/
def sampleSendEnvironment : ENetSendEnvironment :=
  { ENET_TIME_GREATER_EQUAL := fun a b => !decide (u32 (a + 4294967296 - b) ≥ 86400000),
    ENET_DIFFERENCE := fun a b => if a < b then b - a else a - b,
    ENET_PEER_PACKET_LOSS_INTERVAL := 10000, ENET_PEER_PACKET_LOSS_SCALE := 65536,
    compress := fun _ => 0, enet_socket_send := fun _ => 12, enet_time_get := 1000 }

/-- What `enet_peer_disconnect_now` with data 7 leaves of the sample peer, with
`enet_host_flush` sending the `DISCONNECT` command in at most two passes. -/
def sampleDisconnectedNow : DisconnectResult :=
  enet_peer_disconnect_now sampleHeader
    (enet_host_flush sampleHeader sampleTime sampleSendEnvironment 2 4 0) sampleHost samplePeer
    [] 7 4

/-- What `enet_peer_disconnect_now` with data 7 leaves of the bandwidth limited sample peer,
with `enet_host_flush` sending the `DISCONNECT` command in at most two passes. -/
def sampleLimitedDisconnectedNow : DisconnectResult :=
  enet_peer_disconnect_now sampleHeader
    (enet_host_flush sampleHeader sampleTime sampleSendEnvironment 2 4 0) sampleLimitedHost
    sampleLimitedPeer [] 7 4

/-- A `SEND_RELIABLE` command numbered `rsn` with 4 bytes of data as
`enet_peer_queue_incoming_command` queues it on channel 0. -/
def sampleStaleEntry (rsn : Nat) : ENetIncomingCommand :=
  { reliableSequenceNumber := rsn, unreliableSequenceNumber := 0,
    command := sampleSendReliable rsn, fragmentCount := 0, fragmentsRemaining := 0,
    fragments := none,
    packet := { referenceCount := 1,
                flags := { reliable := true, unsequenced := false, noAllocate := false,
                           unreliableFragment := false, sent := false },
                data := [1, 2, 3, 4], dataLength := 4 } }

/-- The sample channel at the reliable sequence number `current` with the commands numbered
5 and 2 queued, in this order. -/
def sampleStaleChannel (current : Nat) : ENetChannel :=
  { sampleChannel with
    incomingReliableSequenceNumber := current,
    incomingReliableCommands := [sampleStaleEntry 5, sampleStaleEntry 2] }

/-- The sample peer with `sampleStaleChannel current` as its channel: it is flagged for
dispatch, holds nothing in its dispatched queue, and the 8 bytes of the two queued commands
are waiting. -/
def sampleStalePeer (current : Nat) : ENetPeer :=
  { samplePeer with
    needsDispatch := true, totalWaitingData := 8,
    channels := [sampleStaleChannel current] }

/-- The sample host with slot 0 on its dispatch queue. -/
def sampleStaleHost : ENetHost := { sampleHost with dispatchQueue := [0] }

/-- Fragment `fragmentNumber` of a packet of 6 bytes sent in 3 `SEND_FRAGMENT` commands with
the reliable sequence numbers `start` to `start + 2` on channel 0, with its 2 bytes of
data. -/
def sampleStaleFragment (start fragmentNumber : Nat) : ENetProtocol × List Nat :=
  ({ command := ENET_PROTOCOL_COMMAND_SEND_FRAGMENT ||| ENET_PROTOCOL_COMMAND_FLAG_ACKNOWLEDGE,
     channelID := 0, reliableSequenceNumber := start + fragmentNumber,
     body := .sendFragment
       { startSequenceNumber := start, dataLength := 2, fragmentCount := 3,
         fragmentNumber := fragmentNumber, totalLength := 6,
         fragmentOffset := 2 * fragmentNumber } },
   [10 + fragmentNumber, 20 + fragmentNumber])

/-- What the sample peer, its channel at sequence number 0, makes of: the first two of three
fragments numbered 1 to 3, a `SEND_RELIABLE` command numbered 2 (a number of the fragments),
the third fragment, a `SEND_RELIABLE` command numbered 5, and the three fragments of a
second packet numbered 4 to 6. -/
def sampleStaleReceived : Option HandleResult :=
  (handleSendFragments sampleHost samplePeer 64
    [sampleStaleFragment 1 0, sampleStaleFragment 1 1]).bind fun r =>
  (enet_protocol_handle_send_reliable r.host r.peer (sampleSendReliable 2) [1, 2, 3, 4]
    r.mem).bind fun r =>
  (handleSendFragments r.host r.peer r.mem [sampleStaleFragment 1 2]).bind fun r =>
  (enet_protocol_handle_send_reliable r.host r.peer (sampleSendReliable 5) [1, 2, 3, 4]
    r.mem).bind fun r =>
  handleSendFragments r.host r.peer r.mem
    [sampleStaleFragment 4 0, sampleStaleFragment 4 1, sampleStaleFragment 4 2]

/-- Host and peer of `sampleStaleReceived` after the application has taken the two
delivered packets with `enet_peer_receive`. -/
def sampleStaleStart : Option (ENetHost × ENetPeer) :=
  sampleStaleReceived.map fun r =>
    (r.host, (enet_peer_receive (enet_peer_receive r.peer).2).2)

/-- Feeding `count` `SEND_RELIABLE` commands for channel 0 to
`enet_protocol_handle_send_reliable`, each with 4 bytes of data and numbered one above the
current number of the channel, the application taking the delivered packet with
`enet_peer_receive` after every command; `none` when a call does not return 0. -/
def handleSendReliableInOrder : Nat → ENetHost → ENetPeer → Option (ENetHost × ENetPeer)
  | 0, host, peer => some (host, peer)
  | count + 1, host, peer =>
    match peer.channels.get? 0 with
    | none => none
    | some channel =>
      match enet_protocol_handle_send_reliable host peer
          (sampleSendReliable (channel.incomingReliableSequenceNumber + 1)) [1, 2, 3, 4] 8 with
      | none => none
      | some r =>
        if r.status = 0 then
          handleSendReliableInOrder count r.host (enet_peer_receive r.peer).2
        else none

/-! # Theorems -/

theorem u16_of_lt {x : Nat} (h : x < 65536) : u16 x = x := Nat.mod_eq_of_lt h

theorem u32_of_lt {x : Nat} (h : x < 4294967296) : u32 x = x := Nat.mod_eq_of_lt h

theorem usize_of_lt {x : Nat} (h : x < 18446744073709551616) : usize x = x :=
  Nat.mod_eq_of_lt h

theorem usizeSub_of_le {a b : Nat} (hb : b ≤ a) (ha : a < 18446744073709551616) :
    usizeSub a b = a - b := by
  unfold usizeSub usize
  rw [Nat.mod_eq_of_lt ha, Nat.mod_eq_of_lt (lt_of_le_of_lt hb ha)]
  omega

/-- The fragment loop, started at index `k` with `len` fragments still to build, builds
exactly the records `builtFragment k .. builtFragment (k + len - 1)` when the budget `mem`
allows, and otherwise stops with the allocation failure after `mem` more records. -/
theorem enet_peer_send_fragment_loop_spec (D L pid cn ch s fc : Nat)
    (hL : 0 < L) (hL16 : L < 65536) (hD : D < 4294967296) (hfc : fc < 4294967296) :
    ∀ (len k fuel mem : Nat) (acc : List ENetOutgoingCommand),
      len ≤ fuel → (k + len) * L < D + L → D ≤ (k + len) * L → (len = 0 → k * L = D) →
      k + len < 4294967296 →
      enet_peer_send_fragment_loop D pid cn ch s fc fuel k (k * L) L mem acc
        = some (if len ≤ mem then
            { fragments := some (acc ++ (List.range' k len).map
                (builtFragment D L pid cn ch s fc)),
              fragmentNumber := k + len, mem := mem - len }
          else { fragments := none, fragmentNumber := k + mem, mem := 0 }) := by
  intro len
  induction len with
  | zero =>
    intro k fuel mem acc _ _ h2 h3 _
    have hk : k * L = D := h3 rfl
    unfold enet_peer_send_fragment_loop
    simp [hk]
  | succ len ih =>
    intro k fuel mem acc hfuel h1 h2 _ hk
    have hlt : k * L < D := by
      have : (k + (len + 1)) * L = k * L + len * L + L := by ring
      omega
    obtain ⟨fuel, rfl⟩ : ∃ f, fuel = f + 1 := ⟨fuel - 1, by omega⟩
    unfold enet_peer_send_fragment_loop
    simp only [hlt, not_true_eq_false, if_false]
    rw [usizeSub_of_le (le_of_lt hlt) (by omega)]
    cases mem with
    | zero => simp [enet_malloc]
    | succ mem =>
      simp only [enet_malloc, Nat.succ_ne_zero, if_false, Nat.add_sub_cancel]
      by_cases hlast : D - k * L < L
      · -- last, shorter fragment
        have hlen : len = 0 := by
          by_contra hne
          have h5 : (k + (len + 1)) * L = k * L + L + len * L := by ring
          have h6 : L ≤ len * L := Nat.le_mul_of_pos_left L (Nat.pos_of_ne_zero hne)
          omega
        subst hlen
        simp only [hlast, if_true]
        have hoff : u32 (k * L + (D - k * L)) = D := by
          rw [u32_of_lt (by omega)]; omega
        rw [hoff, u32_of_lt (by omega : k + 1 < 4294967296)]
        unfold enet_peer_send_fragment_loop
        simp [builtFragment, ENET_HOST_TO_NET_16, ENET_HOST_TO_NET_32, ENET_NET_TO_HOST_32,
          u16_of_lt (by omega : D - k * L < 65536), u32_of_lt hD, u32_of_lt hfc,
          u32_of_lt (by omega : k < 4294967296), u32_of_lt (by omega : k * L < 4294967296),
          Nat.min_eq_right (le_of_lt hlast), List.range'_one]
      · simp only [hlast, if_false]
        have hmul : (k + 1) * L = k * L + L := by ring
        rw [u32_of_lt (by omega : k * L + L < 4294967296),
          u32_of_lt (by omega : k + 1 < 4294967296), ← hmul]
        have h1' : (k + 1 + len) * L < D + L := by
          have : k + 1 + len = k + (len + 1) := by omega
          rw [this]; exact h1
        have h2' : D ≤ (k + 1 + len) * L := by
          have : k + 1 + len = k + (len + 1) := by omega
          rw [this]; exact h2
        have h3' : len = 0 → (k + 1) * L = D := by
          intro h0; subst h0; simp at h2' h1'; omega
        rw [ih (k + 1) fuel mem _ (by omega) h1' h2' h3' (by omega)]
        have hmin : min L (D - k * L) = L := Nat.min_eq_left (by omega)
        simp [builtFragment, ENET_HOST_TO_NET_16, ENET_HOST_TO_NET_32, ENET_NET_TO_HOST_32,
          u16_of_lt hL16, u32_of_lt hD, u32_of_lt hfc,
          u32_of_lt (by omega : k < 4294967296), u32_of_lt (by omega : k * L < 4294967296),
          hmin, List.range'_succ]
        split <;> simp_all <;> omega

theorem setupCommandRecord_keeps (peer : ENetPeer) (oc : ENetOutgoingCommand) :
    (setupCommandRecord peer oc).command = oc.command.command ∧
    (setupCommandRecord peer oc).channelID = oc.command.channelID ∧
    (oc.command.command &&& ENET_PROTOCOL_COMMAND_MASK ≠ ENET_PROTOCOL_COMMAND_SEND_UNRELIABLE →
     oc.command.command &&& ENET_PROTOCOL_COMMAND_MASK ≠ ENET_PROTOCOL_COMMAND_SEND_UNSEQUENCED →
     (setupCommandRecord peer oc).body = oc.command.body) := by
  unfold setupCommandRecord
  refine ⟨?_, ?_, ?_⟩
  · dsimp only; split_ifs <;> [split; split; skip] <;> rfl
  · dsimp only; split_ifs <;> [split; split; skip] <;> rfl
  · intro h1 h2
    dsimp only
    rw [if_neg h1, if_neg h2]

theorem enet_peer_setup_outgoing_command_tail_spec (peer : ENetPeer)
    (oc : ENetOutgoingCommand) :
    ∃ oc', (enet_peer_setup_outgoing_command_tail peer oc).outgoingCommands
          = peer.outgoingCommands ++ [oc'] ∧ SetupKeeps oc oc' ∧
      (enet_peer_setup_outgoing_command_tail peer oc).channels = peer.channels ∧
      (enet_peer_setup_outgoing_command_tail peer oc).state = peer.state ∧
      (enet_peer_setup_outgoing_command_tail peer oc).channelCount = peer.channelCount ∧
      (enet_peer_setup_outgoing_command_tail peer oc).mtu = peer.mtu :=
  ⟨_, rfl, ⟨rfl, rfl, rfl, (setupCommandRecord_keeps peer _).1,
    (setupCommandRecord_keeps peer _).2.1, (setupCommandRecord_keeps peer _).2.2⟩,
    rfl, rfl, rfl, rfl⟩

/-- `enet_peer_setup_outgoing_command` appends exactly one command to `outgoingCommands`,
keeps the size of the channel array, the state, the channel count and the MTU, and keeps of
the command what `SetupKeeps` lists. -/
theorem enet_peer_setup_outgoing_command_spec (peer peer' : ENetPeer)
    (oc : ENetOutgoingCommand) (h : enet_peer_setup_outgoing_command peer oc = some peer') :
    ∃ oc', peer'.outgoingCommands = peer.outgoingCommands ++ [oc'] ∧ SetupKeeps oc oc' ∧
      peer'.channels.length = peer.channels.length ∧ peer'.state = peer.state ∧
      peer'.channelCount = peer.channelCount ∧ peer'.mtu = peer.mtu := by
  unfold enet_peer_setup_outgoing_command at h
  dsimp only at h
  repeat' split at h
  all_goals cases h
  all_goals
    exact (enet_peer_setup_outgoing_command_tail_spec _ _).imp fun oc' hh =>
      ⟨hh.1, hh.2.1, by rw [hh.2.2.1] <;> simp, hh.2.2.2.1, hh.2.2.2.2.1,
        hh.2.2.2.2.2⟩

/-- `enet_peer_setup_outgoing_command` returns when the command is a control command
(channel 0xFF) or its channel exists. -/
theorem enet_peer_setup_outgoing_command_isSome (peer : ENetPeer) (oc : ENetOutgoingCommand)
    (h : oc.command.channelID = 0xFF ∨ oc.command.channelID < peer.channels.length) :
    ∃ peer', enet_peer_setup_outgoing_command peer oc = some peer' := by
  unfold enet_peer_setup_outgoing_command
  dsimp only
  by_cases h1 : oc.command.channelID = 0xFF
  · rw [if_pos h1]; exact ⟨_, rfl⟩
  · rw [if_neg h1]
    have h2 : oc.command.channelID < peer.channels.length := h.resolve_left h1
    rw [List.get?_eq_get h2]
    dsimp only
    split_ifs <;> exact ⟨_, rfl⟩

/-- The setup loop of `enet_peer_send` appends the finished fragments in order. -/
theorem enet_peer_send_setup_fragments_spec :
    ∀ (l : List ENetOutgoingCommand) (peer peer' : ENetPeer),
      enet_peer_send_setup_fragments peer l = some peer' →
      ∃ l', peer'.outgoingCommands = peer.outgoingCommands ++ l' ∧
        List.Forall₂ SetupKeeps l l' ∧
        peer'.channels.length = peer.channels.length ∧ peer'.state = peer.state ∧
        peer'.channelCount = peer.channelCount ∧ peer'.mtu = peer.mtu := by
  intro l
  induction l with
  | nil =>
    intro peer peer' h
    simp only [enet_peer_send_setup_fragments, Option.some.injEq] at h
    subst h
    exact ⟨[], by simp, List.Forall₂.nil, rfl, rfl, rfl, rfl⟩
  | cons oc rest ih =>
    intro peer peer' h
    simp only [enet_peer_send_setup_fragments] at h
    split at h
    · cases h
    · rename_i peer1 h1
      obtain ⟨oc', ho, hk, hc, hs, hn, hm⟩ := enet_peer_setup_outgoing_command_spec _ _ _ h1
      obtain ⟨l', hl, hf, hc', hs', hn', hm'⟩ := ih _ _ h
      refine ⟨oc' :: l', ?_, List.Forall₂.cons hk hf, by omega, by rw [hs', hs],
        by rw [hn', hn], by rw [hm', hm]⟩
      rw [hl, ho]; simp

/-- The setup loop of `enet_peer_send` returns when every fragment is on an existing channel. -/
theorem enet_peer_send_setup_fragments_isSome :
    ∀ (l : List ENetOutgoingCommand) (peer : ENetPeer),
      (∀ oc ∈ l, oc.command.channelID < peer.channels.length) →
      ∃ peer', enet_peer_send_setup_fragments peer l = some peer' := by
  intro l
  induction l with
  | nil => intro peer _; exact ⟨peer, rfl⟩
  | cons oc rest ih =>
    intro peer h
    obtain ⟨peer1, h1⟩ := enet_peer_setup_outgoing_command_isSome peer oc
      (Or.inr (h oc (List.mem_cons_self _ _)))
    obtain ⟨_, _, _, hc, _, _, _⟩ := enet_peer_setup_outgoing_command_spec _ _ _ h1
    obtain ⟨peer2, h2⟩ := ih peer1 (fun o ho => by
      rw [hc]; exact h o (List.mem_cons_of_mem _ ho))
    exact ⟨peer2, by simp only [enet_peer_send_setup_fragments, h1, h2]⟩

/-- On the fragmented path (`dataLength` above the capacity, at most
`ENET_PROTOCOL_MAXIMUM_FRAGMENT_COUNT` fragments) `enet_peer_send` builds the `n =
ceil (dataLength / L)` records `builtFragment 0 .. n-1` and hands them to the setup loop,
or fails on the allocation budget without touching the peer or the packet. -/
theorem enet_peer_send_fragmented (host : ENetHost) (peer : ENetPeer) (channelID pid : Nat)
    (packet : ENetPacket) (mem : Nat)
    (hst : peer.state = ENetPeerState.CONNECTED) (hch : channelID < peer.channelCount)
    (hchan : channelID < peer.channels.length)
    (hmax : packet.dataLength ≤ host.maximumPacketSize)
    (hmtu : ENET_PROTOCOL_MINIMUM_MTU ≤ peer.mtu ∧ peer.mtu ≤ ENET_PROTOCOL_MAXIMUM_MTU)
    (hD : fragmentCapacity host peer < packet.dataLength)
    (hcount : (packet.dataLength + fragmentCapacity host peer - 1) / fragmentCapacity host peer
      ≤ ENET_PROTOCOL_MAXIMUM_FRAGMENT_COUNT) :
    ∃ cn s, (cn = ENET_PROTOCOL_COMMAND_SEND_UNRELIABLE_FRAGMENT ∨
        cn = ENET_PROTOCOL_COMMAND_SEND_FRAGMENT ||| ENET_PROTOCOL_COMMAND_FLAG_ACKNOWLEDGE) ∧
      enet_peer_send host peer channelID pid packet mem
        = if (packet.dataLength + fragmentCapacity host peer - 1) / fragmentCapacity host peer
              ≤ mem then
            (enet_peer_send_setup_fragments peer
              ((List.range' 0 ((packet.dataLength + fragmentCapacity host peer - 1)
                  / fragmentCapacity host peer)).map
                (builtFragment packet.dataLength (fragmentCapacity host peer) pid cn channelID s
                  ((packet.dataLength + fragmentCapacity host peer - 1)
                    / fragmentCapacity host peer)))).map
              (fun peer' => { status := 0, peer := peer',
                              packet := { packet with
                                referenceCount := usize (packet.referenceCount
                                  + (packet.dataLength + fragmentCapacity host peer - 1)
                                    / fragmentCapacity host peer) },
                              mem := (mem - (packet.dataLength + fragmentCapacity host peer - 1)
                                  / fragmentCapacity host peer) })
          else some { status := -1, peer := peer, packet := packet, mem := 0 } := by
  obtain ⟨hmin, hmaxm⟩ := hmtu
  simp only [ENET_PROTOCOL_MINIMUM_MTU, ENET_PROTOCOL_MAXIMUM_MTU,
    ENET_PROTOCOL_MAXIMUM_FRAGMENT_COUNT] at hmin hmaxm hcount
  set D := packet.dataLength with hDdef
  set L := fragmentCapacity host peer with hLdef
  have hLval : L = peer.mtu - 28 - (if host.checksum then 4 else 0) := by
    simp only [hLdef, fragmentCapacity, sizeof_ENetProtocolHeader,
      sizeof_ENetProtocolSendFragment, sizeof_enet_uint32]; omega
  have hLpos : 0 < L := by rw [hLval]; split <;> omega
  have hL16 : L < 65536 := by rw [hLval]; split <;> omega
  have hLle : L ≤ 4068 := by rw [hLval]; split <;> omega
  set n := (D + L - 1) / L with hn
  have hn1 : D ≤ n * L := by
    have h1 := Nat.div_add_mod (D + L - 1) L
    have h2 := Nat.mod_lt (D + L - 1) hLpos
    rw [← hn] at h1
    have : n * L = L * n := Nat.mul_comm _ _
    omega
  have hn2 : n * L < D + L := by
    have h1 := Nat.div_mul_le_self (D + L - 1) L
    rw [← hn] at h1
    omega
  have hDlt : D < 4294967296 := by
    have : n * L ≤ 1048576 * 4068 := Nat.mul_le_mul hcount hLle
    omega
  have hnD : n ≤ D := by
    have h1 : D * 1 ≤ D * L := Nat.mul_le_mul_left D hLpos
    have h3 : n * L < (D + 1) * L := by
      have : (D + 1) * L = D * L + L := by ring
      omega
    have := Nat.lt_of_mul_lt_mul_right h3
    omega
  have hcap : (if host.checksum = true then
        usizeSub (usizeSub (usizeSub peer.mtu sizeof_ENetProtocolHeader)
          sizeof_ENetProtocolSendFragment) sizeof_enet_uint32
      else usizeSub (usizeSub peer.mtu sizeof_ENetProtocolHeader)
          sizeof_ENetProtocolSendFragment) = L := by
    simp only [sizeof_ENetProtocolHeader, sizeof_ENetProtocolSendFragment, sizeof_enet_uint32]
    rw [usizeSub_of_le (by omega : 4 ≤ peer.mtu) (by omega),
      usizeSub_of_le (by omega : 24 ≤ peer.mtu - 4) (by omega), hLval]
    split
    · rw [usizeSub_of_le (by omega) (by omega)]; omega
    · omega
  have hfc : u32 (usize (D + L - 1) / L) = n := by
    rw [usize_of_lt (by omega), u32_of_lt (by omega)]
  unfold enet_peer_send
  have hrej : ¬ (peer.state ≠ ENetPeerState.CONNECTED ∨ channelID ≥ peer.channelCount ∨
      packet.dataLength > host.maximumPacketSize) := by
    rw [hst]; push_neg; exact ⟨rfl, hch, hmax⟩
  rw [if_neg hrej, List.get?_eq_get hchan]
  simp only [hcap, ← hDdef]
  rw [if_pos hD, if_neg (by omega : ¬ L = 0), hfc,
    if_neg (by simp only [ENET_PROTOCOL_MAXIMUM_FRAGMENT_COUNT]; omega)]
  have hloop := fun cn s => enet_peer_send_fragment_loop_spec D L pid cn channelID s n hLpos
    hL16 hDlt (by omega : n < 4294967296) n 0 D mem [] hnD (by simpa using hn2)
    (by simpa using hn1) (by intro h0; rw [h0] at hn1; omega) (by omega)
  simp only [Nat.zero_mul, Nat.zero_add, List.nil_append] at hloop
  refine ⟨if ((!packet.flags.reliable && packet.flags.unreliableFragment) &&
        decide ((peer.channels.get ⟨channelID, hchan⟩).outgoingUnreliableSequenceNumber
          < 0xFFFF)) = true
      then ENET_PROTOCOL_COMMAND_SEND_UNRELIABLE_FRAGMENT
      else ENET_PROTOCOL_COMMAND_SEND_FRAGMENT ||| ENET_PROTOCOL_COMMAND_FLAG_ACKNOWLEDGE,
    if ((!packet.flags.reliable && packet.flags.unreliableFragment) &&
        decide ((peer.channels.get ⟨channelID, hchan⟩).outgoingUnreliableSequenceNumber
          < 0xFFFF)) = true
      then ENET_HOST_TO_NET_16
        ((peer.channels.get ⟨channelID, hchan⟩).outgoingUnreliableSequenceNumber + 1)
      else ENET_HOST_TO_NET_16
        ((peer.channels.get ⟨channelID, hchan⟩).outgoingReliableSequenceNumber + 1), ?_, ?_⟩
  · split
    · left; rfl
    · right; rfl
  · rw [hloop]
    by_cases hm : n ≤ mem
    · simp only [hm, if_true]
      cases enet_peer_send_setup_fragments peer _ <;> rfl
    · simp only [hm, if_false]

/-- A successful fragmented send appends `n = ceil (dataLength / L)` commands, the `i`-th of
which kept packet, byte range and record of `builtFragment i`, and adds `n` to the
reference count. -/
theorem enet_peer_send_fragmented_queue (host : ENetHost) (peer : ENetPeer)
    (channelID pid : Nat) (packet : ENetPacket) (mem : Nat)
    (hst : peer.state = ENetPeerState.CONNECTED) (hch : channelID < peer.channelCount)
    (hchan : channelID < peer.channels.length)
    (hmax : packet.dataLength ≤ host.maximumPacketSize)
    (hmtu : ENET_PROTOCOL_MINIMUM_MTU ≤ peer.mtu ∧ peer.mtu ≤ ENET_PROTOCOL_MAXIMUM_MTU)
    (hD : fragmentCapacity host peer < packet.dataLength)
    (hcount : (packet.dataLength + fragmentCapacity host peer - 1) / fragmentCapacity host peer
      ≤ ENET_PROTOCOL_MAXIMUM_FRAGMENT_COUNT)
    (hmem : (packet.dataLength + fragmentCapacity host peer - 1) / fragmentCapacity host peer
      ≤ mem) :
    ∃ r cmds cn s, enet_peer_send host peer channelID pid packet mem = some r ∧
      r.status = 0 ∧
      r.packet = { packet with referenceCount := usize (packet.referenceCount
        + (packet.dataLength + fragmentCapacity host peer - 1) / fragmentCapacity host peer) } ∧
      r.peer.outgoingCommands = peer.outgoingCommands ++ cmds ∧
      cmds.length
        = (packet.dataLength + fragmentCapacity host peer - 1) / fragmentCapacity host peer ∧
      ∀ i c, cmds[i]? = some c →
        c.packet = some pid ∧ c.fragmentOffset = i * fragmentCapacity host peer ∧
        c.fragmentLength
          = min (fragmentCapacity host peer) (packet.dataLength - i * fragmentCapacity host peer) ∧
        c.command.command = cn ∧ c.command.channelID = channelID ∧
        c.command.body = .sendFragment
          { startSequenceNumber := s,
            dataLength := min (fragmentCapacity host peer)
              (packet.dataLength - i * fragmentCapacity host peer),
            fragmentCount := (packet.dataLength + fragmentCapacity host peer - 1)
              / fragmentCapacity host peer,
            fragmentNumber := i,
            totalLength := packet.dataLength,
            fragmentOffset := i * fragmentCapacity host peer } := by
  obtain ⟨cn, s, hcn, heq⟩ := enet_peer_send_fragmented host peer channelID pid packet mem
    hst hch hchan hmax hmtu hD hcount
  rw [if_pos hmem] at heq
  set n := (packet.dataLength + fragmentCapacity host peer - 1) / fragmentCapacity host peer
  set built := (List.range' 0 n).map
    (builtFragment packet.dataLength (fragmentCapacity host peer) pid cn channelID s n)
    with hbuilt
  obtain ⟨peer', hsetup⟩ := enet_peer_send_setup_fragments_isSome built peer (by
    intro oc hoc
    rw [hbuilt, List.mem_map] at hoc
    obtain ⟨i, _, rfl⟩ := hoc
    exact hchan)
  obtain ⟨cmds, hq, hf, -⟩ := enet_peer_send_setup_fragments_spec built peer peer' hsetup
  rw [hsetup] at heq
  refine ⟨_, cmds, cn, s, heq, rfl, rfl, hq, ?_, ?_⟩
  · rw [← hf.length_eq, hbuilt]; simp
  · intro i c hc
    have hlen : built.length = n := by rw [hbuilt]; simp
    have hi : i < cmds.length := by
      by_contra hge
      rw [List.getElem?_eq_none (by omega)] at hc
      cases hc
    have hib : i < built.length := by rw [hf.length_eq]; exact hi
    have hk := (List.forall₂_iff_get.mp hf).2 i hib hi
    have hci : cmds.get ⟨i, hi⟩ = c := by
      rw [List.getElem?_eq_getElem hi] at hc
      exact Option.some.inj hc
    rw [hci] at hk
    have hbi : built.get ⟨i, hib⟩
        = builtFragment packet.dataLength (fragmentCapacity host peer) pid cn channelID s n i := by
      simp [hbuilt]
    rw [hbi] at hk
    obtain ⟨k1, k2, k3, k4, k5, k6⟩ := hk
    refine ⟨k1, k2, k3, k4, k5, ?_⟩
    rw [k6]
    · rfl
    · rcases hcn with h | h <;> rw [show (builtFragment packet.dataLength
        (fragmentCapacity host peer) pid cn channelID s n i).command.command = cn from rfl, h] <;>
        decide
    · rcases hcn with h | h <;> rw [show (builtFragment packet.dataLength
        (fragmentCapacity host peer) pid cn channelID s n i).command.command = cn from rfl, h] <;>
        decide

/-- For an MTU within the protocol bounds the wrapping `size_t` computation of the fragment
length in `enet_peer_send` is the plain difference `fragmentCapacity`. -/
theorem fragmentLength_eq_capacity (host : ENetHost) (peer : ENetPeer)
    (hmtu : ENET_PROTOCOL_MINIMUM_MTU ≤ peer.mtu ∧ peer.mtu ≤ ENET_PROTOCOL_MAXIMUM_MTU) :
    (if host.checksum = true then
        usizeSub (usizeSub (usizeSub peer.mtu sizeof_ENetProtocolHeader)
          sizeof_ENetProtocolSendFragment) sizeof_enet_uint32
      else usizeSub (usizeSub peer.mtu sizeof_ENetProtocolHeader)
          sizeof_ENetProtocolSendFragment) = fragmentCapacity host peer ∧
    544 ≤ fragmentCapacity host peer ∧ fragmentCapacity host peer ≤ 4068 := by
  obtain ⟨hmin, hmaxm⟩ := hmtu
  simp only [ENET_PROTOCOL_MINIMUM_MTU, ENET_PROTOCOL_MAXIMUM_MTU] at hmin hmaxm
  simp only [sizeof_ENetProtocolHeader, sizeof_ENetProtocolSendFragment, sizeof_enet_uint32,
    fragmentCapacity]
  rw [usizeSub_of_le (by omega : 4 ≤ peer.mtu) (by omega),
    usizeSub_of_le (by omega : 24 ≤ peer.mtu - 4) (by omega)]
  split
  · rw [usizeSub_of_le (by omega) (by omega)]; omega
  · omega

/-- When the packet is 4 GiB or longer the 32-bit `fragmentOffset` never reaches
`dataLength`: the fragment loop can only end on an allocation failure. -/
theorem enet_peer_send_fragment_loop_no_exit (D pid cn ch s fc : Nat)
    (hD : 4294967296 ≤ D) :
    ∀ (fuel k off fl mem : Nat) (acc : List ENetOutgoingCommand) (r : FragmentLoopResult),
      off < 4294967296 →
      enet_peer_send_fragment_loop D pid cn ch s fc fuel k off fl mem acc = some r →
      r.fragments = none := by
  intro fuel
  induction fuel with
  | zero =>
    intro k off fl mem acc r hoff h
    unfold enet_peer_send_fragment_loop at h
    rw [if_neg (by omega)] at h
    cases h
  | succ fuel ih =>
    intro k off fl mem acc r hoff h
    unfold enet_peer_send_fragment_loop at h
    rw [if_neg (by omega)] at h
    dsimp only at h
    cases mem with
    | zero =>
      simp only [enet_malloc, if_true] at h
      cases h; rfl
    | succ mem =>
      simp only [enet_malloc, Nat.succ_ne_zero, if_false] at h
      exact ih _ _ _ _ _ r (Nat.mod_lt _ (by decide)) h

/-- C2: for every successful `enet_peer_send` (status 0) the commands appended to
`outgoingCommands` all point at the packet and the packet's `referenceCount` has grown by
exactly their number: 1 on the non-fragmented path, `fragmentCount = ceil (dataLength / L)`
on the fragmented path; after a failed send (status not 0) packet and peer are unchanged.
The field is a `size_t`: its new value is the sum truncated to 64 bits, which is the plain
sum whenever that is below `2^64`. -/
theorem enet_peer_send_referenceCount (host : ENetHost) (peer : ENetPeer)
    (channelID pid : Nat) (packet : ENetPacket) (mem : Nat) (r : SendResult)
    (hmtu : ENET_PROTOCOL_MINIMUM_MTU ≤ peer.mtu ∧ peer.mtu ≤ ENET_PROTOCOL_MAXIMUM_MTU)
    (h : enet_peer_send host peer channelID pid packet mem = some r) :
    (r.status = 0 →
      ∃ cmds, r.peer.outgoingCommands = peer.outgoingCommands ++ cmds ∧
        (∀ c ∈ cmds, c.packet = some pid) ∧
        r.packet.referenceCount = usize (packet.referenceCount + cmds.length) ∧
        (packet.referenceCount + cmds.length < 18446744073709551616 →
          r.packet.referenceCount = packet.referenceCount + cmds.length) ∧
        (packet.dataLength ≤ fragmentCapacity host peer → cmds.length = 1) ∧
        (fragmentCapacity host peer < packet.dataLength →
          cmds.length = (packet.dataLength + fragmentCapacity host peer - 1)
            / fragmentCapacity host peer)) ∧
    (r.status ≠ 0 → r.packet = packet ∧ r.peer = peer) := by
  obtain ⟨hcap, hLlo, hLhi⟩ := fragmentLength_eq_capacity host peer hmtu
  by_cases hrej : peer.state ≠ ENetPeerState.CONNECTED ∨ channelID ≥ peer.channelCount ∨
      packet.dataLength > host.maximumPacketSize
  · unfold enet_peer_send at h
    rw [if_pos hrej] at h
    cases h
    exact ⟨fun h0 => by simp at h0, fun _ => ⟨rfl, rfl⟩⟩
  have hrej' := hrej
  push_neg at hrej'
  obtain ⟨hst, hch, hmax⟩ := hrej'
  by_cases hchan : channelID < peer.channels.length
  swap
  · unfold enet_peer_send at h
    rw [if_neg hrej, List.get?_eq_none.mpr (by omega)] at h
    cases h
  by_cases hD : fragmentCapacity host peer < packet.dataLength
  · by_cases hbig : 4294967296 ≤ packet.dataLength
    · -- the loop cannot end normally
      unfold enet_peer_send at h
      rw [if_neg hrej, List.get?_eq_get hchan] at h
      simp only [hcap] at h
      rw [if_pos hD, if_neg (by omega)] at h
      split at h
      · cases h; exact ⟨fun h0 => by simp at h0, fun _ => ⟨rfl, rfl⟩⟩
      · split at h
        · cases h
        · rename_i r' hloop
          have hnone := enet_peer_send_fragment_loop_no_exit _ _ _ _ _ _ hbig _ _ _ _ _ _ r'
            (by decide) hloop
          rw [hnone] at h
          cases h; exact ⟨fun h0 => by simp at h0, fun _ => ⟨rfl, rfl⟩⟩
    · by_cases hcount : (packet.dataLength + fragmentCapacity host peer - 1)
          / fragmentCapacity host peer ≤ ENET_PROTOCOL_MAXIMUM_FRAGMENT_COUNT
      · obtain ⟨cn, s, -, heq⟩ := enet_peer_send_fragmented host peer channelID pid packet mem
          hst hch hchan hmax hmtu hD hcount
        by_cases hmem : (packet.dataLength + fragmentCapacity host peer - 1)
            / fragmentCapacity host peer ≤ mem
        · obtain ⟨r', cmds, cn', s', hr, hs0, hpk, hq, hlen, hall⟩ :=
            enet_peer_send_fragmented_queue host peer channelID pid packet mem
              hst hch hchan hmax hmtu hD hcount hmem
          rw [h] at hr
          cases hr
          have hrc : r.packet.referenceCount
              = usize (packet.referenceCount + cmds.length) := by rw [hpk, hlen]
          refine ⟨fun _ => ⟨cmds, hq, ?_, hrc, fun hlt => hrc.trans (usize_of_lt hlt), ?_,
            fun _ => hlen⟩, fun hne => absurd hs0 hne⟩
          · intro c hc
            obtain ⟨i, hi, hci⟩ := List.getElem_of_mem hc
            exact (hall i c (by rw [List.getElem?_eq_getElem hi, hci])).1
          · intro hle; omega
        · rw [if_neg hmem, h] at heq
          cases heq
          exact ⟨fun h0 => by simp at h0, fun _ => ⟨rfl, rfl⟩⟩
      · unfold enet_peer_send at h
        rw [if_neg hrej, List.get?_eq_get hchan] at h
        simp only [hcap] at h
        rw [if_pos hD, if_neg (by omega), usize_of_lt (by omega),
          u32_of_lt (Nat.div_lt_of_lt_mul (by omega)),
          if_pos (by omega)] at h
        cases h
        exact ⟨fun h0 => by simp at h0, fun _ => ⟨rfl, rfl⟩⟩
  · -- non-fragmented path
    unfold enet_peer_send at h
    rw [if_neg hrej, List.get?_eq_get hchan] at h
    simp only [hcap] at h
    rw [if_neg (by omega)] at h
    unfold enet_peer_queue_outgoing_command at h
    cases mem with
    | zero =>
      simp only [enet_malloc, if_true] at h
      cases h
      exact ⟨fun h0 => by simp at h0, fun _ => ⟨rfl, rfl⟩⟩
    | succ mem =>
      simp only [enet_malloc, Nat.succ_ne_zero, if_false] at h
      split at h
      · cases h
      · rename_i r' hq
        split at hq
        · cases hq
        · rename_i peer' hsetup
          cases hq
          simp only [Option.map_some', if_true] at h
          cases h
          obtain ⟨oc', ho, hk, -⟩ := enet_peer_setup_outgoing_command_spec _ _ _ hsetup
          refine ⟨fun _ => ⟨[oc'], ho, ?_, rfl, fun hlt => usize_of_lt hlt, fun _ => rfl,
            fun hlt => absurd hlt hD⟩, fun hne => absurd rfl hne⟩
          intro c hc
          rw [List.mem_singleton] at hc
          rw [hc]; exact hk.1

/-- C1: `enet_peer_send` returns -1 and leaves the peer (queues, sequence counters,
`outgoingDataTotal`) and the packet (its `referenceCount`) unchanged whenever the peer is not
`CONNECTED`, or `channelID >= peer.channelCount`, or the packet is longer than
`host.maximumPacketSize`. -/
theorem enet_peer_send_rejects (host : ENetHost) (peer : ENetPeer) (channelID pid : Nat)
    (packet : ENetPacket) (mem : Nat)
    (h : peer.state ≠ ENetPeerState.CONNECTED ∨ channelID ≥ peer.channelCount ∨
      packet.dataLength > host.maximumPacketSize) :
    enet_peer_send host peer channelID pid packet mem
      = some { status := -1, peer := peer, packet := packet, mem := mem } := by
  unfold enet_peer_send
  rw [if_pos h]

/-- Witness of C1: a send on a peer that is not connected. -/
theorem enet_peer_send_rejects_witness :
    enet_peer_send sampleHost { samplePeer with state := ENetPeerState.DISCONNECTED } 0 1
        (samplePacket 32) 4
      = some { status := -1, peer := { samplePeer with state := ENetPeerState.DISCONNECTED },
               packet := samplePacket 32, mem := 4 } :=
  enet_peer_send_rejects sampleHost { samplePeer with state := ENetPeerState.DISCONNECTED } 0 1
    (samplePacket 32) 4 (Or.inl (by decide))

/-- Witness of C2: a 32-byte reliable packet sent on the sample peer is queued once. -/
theorem enet_peer_send_referenceCount_witness :
    ∃ r, enet_peer_send sampleHost samplePeer 0 1 (samplePacket 32) 4 = some r ∧
      r.status = 0 ∧ r.packet.referenceCount = 1 ∧
      ((r.status = 0 →
        ∃ cmds, r.peer.outgoingCommands = samplePeer.outgoingCommands ++ cmds ∧
          (∀ c ∈ cmds, c.packet = some 1) ∧
          r.packet.referenceCount = usize ((samplePacket 32).referenceCount + cmds.length) ∧
          ((samplePacket 32).referenceCount + cmds.length < 18446744073709551616 →
            r.packet.referenceCount = (samplePacket 32).referenceCount + cmds.length) ∧
          ((samplePacket 32).dataLength ≤ fragmentCapacity sampleHost samplePeer →
            cmds.length = 1) ∧
          (fragmentCapacity sampleHost samplePeer < (samplePacket 32).dataLength →
            cmds.length = ((samplePacket 32).dataLength
              + fragmentCapacity sampleHost samplePeer - 1)
              / fragmentCapacity sampleHost samplePeer)) ∧
       (r.status ≠ 0 → r.packet = samplePacket 32 ∧ r.peer = samplePeer)) := by
  have hs : (enet_peer_send sampleHost samplePeer 0 1 (samplePacket 32) 4).isSome = true := by
    decide
  obtain ⟨r, hr⟩ := Option.isSome_iff_exists.mp hs
  have h1 : (enet_peer_send sampleHost samplePeer 0 1 (samplePacket 32) 4).map
      (fun r => (r.status, r.packet.referenceCount)) = some (0, 1) := by decide
  rw [hr] at h1
  simp only [Option.map_some', Option.some.injEq, Prod.mk.injEq] at h1
  exact ⟨r, hr, h1.1, h1.2,
    enet_peer_send_referenceCount sampleHost samplePeer 0 1 (samplePacket 32) 4 r
      (by decide) hr⟩

/-- C3: on a connected peer, for a packet longer than the per-fragment capacity
`L = mtu - header size - fragment record size` (minus 4 with a checksum) that needs at most
`ENET_PROTOCOL_MAXIMUM_FRAGMENT_COUNT` fragments, `enet_peer_send` (with enough allocations)
returns 0 and appends exactly `ceil (dataLength / L)` commands; all carry the same
`startSequenceNumber`, `fragmentCount` = their number and `totalLength = dataLength`; the
`i`-th in queue order has `fragmentNumber = i`; the byte ranges start at 0, each begins where
the previous one ends, none is empty, and the last one ends at `dataLength`. -/
theorem enet_peer_send_fragments_cover (host : ENetHost) (peer : ENetPeer)
    (channelID pid : Nat) (packet : ENetPacket) (mem : Nat)
    (hst : peer.state = ENetPeerState.CONNECTED) (hch : channelID < peer.channelCount)
    (hchan : channelID < peer.channels.length)
    (hmax : packet.dataLength ≤ host.maximumPacketSize)
    (hmtu : ENET_PROTOCOL_MINIMUM_MTU ≤ peer.mtu ∧ peer.mtu ≤ ENET_PROTOCOL_MAXIMUM_MTU)
    (hD : fragmentCapacity host peer < packet.dataLength)
    (hcount : (packet.dataLength + fragmentCapacity host peer - 1) / fragmentCapacity host peer
      ≤ ENET_PROTOCOL_MAXIMUM_FRAGMENT_COUNT)
    (hmem : (packet.dataLength + fragmentCapacity host peer - 1) / fragmentCapacity host peer
      ≤ mem) :
    ∃ (r : SendResult) (cmds : List ENetOutgoingCommand) (s : Nat),
      enet_peer_send host peer channelID pid packet mem = some r ∧
      r.status = 0 ∧
      r.peer.outgoingCommands = peer.outgoingCommands ++ cmds ∧
      cmds.length
        = (packet.dataLength + fragmentCapacity host peer - 1) / fragmentCapacity host peer ∧
      (cmds.length - 1) * fragmentCapacity host peer < packet.dataLength ∧
      packet.dataLength ≤ cmds.length * fragmentCapacity host peer ∧
      (∀ (i : Nat) (c : ENetOutgoingCommand), cmds[i]? = some c →
        ∃ f : ENetProtocolSendFragment, c.command.body = .sendFragment f ∧ f.startSequenceNumber = s ∧
          f.fragmentCount = cmds.length ∧ f.totalLength = packet.dataLength ∧
          f.fragmentNumber = i ∧ f.fragmentOffset = c.fragmentOffset ∧
          f.dataLength = c.fragmentLength ∧ 0 < c.fragmentLength ∧
          c.fragmentLength ≤ fragmentCapacity host peer ∧ c.packet = some pid) ∧
      (∀ c : ENetOutgoingCommand, cmds[0]? = some c → c.fragmentOffset = 0) ∧
      (∀ (i : Nat) (c c' : ENetOutgoingCommand), cmds[i]? = some c → cmds[i + 1]? = some c' →
        c'.fragmentOffset = c.fragmentOffset + c.fragmentLength) ∧
      (∀ c : ENetOutgoingCommand, cmds[cmds.length - 1]? = some c →
        c.fragmentOffset + c.fragmentLength = packet.dataLength) := by
  obtain ⟨r, cmds, cn, s, hr, hs0, -, hq, hlen, hall⟩ :=
    enet_peer_send_fragmented_queue host peer channelID pid packet mem
      hst hch hchan hmax hmtu hD hcount hmem
  obtain ⟨-, hLlo, hLhi⟩ := fragmentLength_eq_capacity host peer hmtu
  set D := packet.dataLength
  set L := fragmentCapacity host peer
  set n := (D + L - 1) / L with hn
  have hLpos : 0 < L := by omega
  have hn1 : D ≤ n * L := by
    have h1 := Nat.div_add_mod (D + L - 1) L
    have h2 := Nat.mod_lt (D + L - 1) hLpos
    rw [← hn] at h1
    have : n * L = L * n := Nat.mul_comm _ _
    omega
  have hn2 : n * L < D + L := by
    have h1 := Nat.div_mul_le_self (D + L - 1) L
    rw [← hn] at h1
    omega
  have hnpos : 0 < n := by
    rcases Nat.eq_zero_or_pos n with h0 | h0
    · rw [h0] at hn1; omega
    · exact h0
  have hn3 : (n - 1) * L < D := by
    have : (n - 1) * L + L = n * L := by
      have : n = (n - 1) + 1 := by omega
      conv_rhs => rw [this]
      ring
    omega
  have hidx : ∀ i c, cmds[i]? = some c → i < n := by
    intro i c hc
    by_contra hge
    rw [List.getElem?_eq_none (by omega)] at hc
    cases hc
  have hoff : ∀ i, i < n → i * L < D := by
    intro i hi
    have : i * L ≤ (n - 1) * L := Nat.mul_le_mul_right L (by omega)
    omega
  refine ⟨r, cmds, s, hr, hs0, hq, hlen, by rw [hlen]; exact hn3, by rw [hlen]; exact hn1,
    ?_, ?_, ?_, ?_⟩
  · intro i c hc
    obtain ⟨k1, k2, k3, -, -, k6⟩ := hall i c hc
    have hi := hoff i (hidx i c hc)
    refine ⟨_, k6, rfl, hlen.symm, rfl, rfl, k2.symm, k3.symm, ?_, ?_, k1⟩
    · rw [k3]; exact Nat.lt_min.mpr ⟨hLpos, by omega⟩
    · rw [k3]; exact Nat.min_le_left _ _
  · intro c hc
    have := (hall 0 c hc).2.1
    simpa using this
  · intro i c c' hc hc'
    obtain ⟨-, k2, k3, -⟩ := hall i c hc
    obtain ⟨-, k2', -⟩ := hall (i + 1) c' hc'
    have hi1 := hoff (i + 1) (hidx (i + 1) c' hc')
    have hmul : (i + 1) * L = i * L + L := by ring
    rw [k2', k2, k3, Nat.min_eq_left (by omega), hmul]
  · intro c hc
    rw [hlen] at hc
    obtain ⟨-, k2, k3, -⟩ := hall (n - 1) c hc
    have hle : D - (n - 1) * L ≤ L := by
      have : (n - 1) * L + L = n * L := by
        have : n = (n - 1) + 1 := by omega
        conv_rhs => rw [this]
        ring
      omega
    rw [k2, k3, Nat.min_eq_right hle]
    omega

/-- Witness of C3: the scenario of the specification, a 4000-byte reliable packet on a peer
with MTU 576 (capacity 548), is cut into 8 fragments. -/
theorem enet_peer_send_fragments_cover_witness :
    ∃ r cmds, enet_peer_send sampleHost samplePeer 0 1 (samplePacket 4000) 8 = some r ∧
      r.status = 0 ∧ r.peer.outgoingCommands = samplePeer.outgoingCommands ++ cmds ∧
      cmds.length = 8 := by
  obtain ⟨r, cmds, s, h1, h2, h3, h4, -⟩ :=
    enet_peer_send_fragments_cover sampleHost samplePeer 0 1 (samplePacket 4000) 8
      (by decide) (by decide) (by decide) (by decide) (by decide) (by decide) (by decide)
      (by decide)
  exact ⟨r, cmds, h1, h2, h3, by rw [h4]; decide⟩

/-! ## Dispatch of incoming commands -/

theorem u16_add_u16 (a b : Nat) : u16 (u16 a + b) = u16 (a + b) := by
  unfold u16; omega

theorem linkDispatch_dispatchedCommands (host : ENetHost) (peer : ENetPeer) :
    (linkDispatch host peer).2.dispatchedCommands = peer.dispatchedCommands := by
  unfold linkDispatch; split <;> rfl

/-- The loop of the reliable dispatch passes exactly the longest prefix that is ready in
turn, and leaves the sequence number advanced by the sum of `sequenceAdvance` over it. -/
theorem enet_peer_dispatch_incoming_reliable_loop_spec :
    ∀ (cmds : List ENetIncomingCommand) (seq : Nat),
      (enet_peer_dispatch_incoming_reliable_loop cmds seq).1 ≤ cmds.length ∧
      ReadyInTurn seq (cmds.take (enet_peer_dispatch_incoming_reliable_loop cmds seq).1) ∧
      (∀ k, (enet_peer_dispatch_incoming_reliable_loop cmds seq).1 < k → k ≤ cmds.length →
        ¬ ReadyInTurn seq (cmds.take k)) ∧
      (enet_peer_dispatch_incoming_reliable_loop cmds seq).2
        = (if (enet_peer_dispatch_incoming_reliable_loop cmds seq).1 = 0 then seq
           else u16 (seq + ((cmds.take
              (enet_peer_dispatch_incoming_reliable_loop cmds seq).1).map sequenceAdvance).sum))
  := by
  intro cmds
  induction cmds with
  | nil =>
    intro seq
    refine ⟨by simp [enet_peer_dispatch_incoming_reliable_loop],
      by simp [enet_peer_dispatch_incoming_reliable_loop, ReadyInTurn], ?_,
      by simp [enet_peer_dispatch_incoming_reliable_loop]⟩
    intro k hk hle
    simp only [List.length_nil] at hle
    simp only [enet_peer_dispatch_incoming_reliable_loop] at hk
    omega
  | cons c rest ih =>
    intro seq
    unfold enet_peer_dispatch_incoming_reliable_loop
    by_cases hstop : c.fragmentsRemaining > 0 ∨ c.reliableSequenceNumber ≠ u16 (seq + 1)
    · rw [if_pos hstop]
      refine ⟨Nat.zero_le _, by simp [ReadyInTurn], ?_, by simp⟩
      intro k hk _ hready
      obtain ⟨k, rfl⟩ : ∃ j, k = j + 1 := ⟨k - 1, by omega⟩
      rw [List.take_succ_cons] at hready
      obtain ⟨h1, h2, -⟩ := hready
      rcases hstop with h | h
      · omega
      · exact h h2
    · rw [if_neg hstop]
      push_neg at hstop
      obtain ⟨hrem, hseq⟩ := hstop
      have hrem0 : c.fragmentsRemaining = 0 := by omega
      have hmid : (if c.fragmentCount > 0
            then u16 (c.reliableSequenceNumber + (c.fragmentCount - 1))
            else c.reliableSequenceNumber) = u16 (seq + sequenceAdvance c) := by
        unfold sequenceAdvance
        split
        · rw [hseq, u16_add_u16]; congr 1; omega
        · rw [hseq]
      dsimp only
      rw [hmid]
      obtain ⟨i1, i2, i3, i4⟩ := ih (u16 (seq + sequenceAdvance c))
      refine ⟨by simp only [List.length_cons]; omega, ?_, ?_, ?_⟩
      · rw [List.take_succ_cons]
        exact ⟨hrem0, hseq, i2⟩
      · intro k hk hle hready
        obtain ⟨k, rfl⟩ : ∃ j, k = j + 1 := ⟨k - 1, by omega⟩
        rw [List.take_succ_cons] at hready
        simp only [List.length_cons] at hle
        exact i3 k (by omega) (by omega) hready.2.2
      · rw [if_neg (by omega), i4, List.take_succ_cons, List.map_cons, List.sum_cons]
        split
        · rename_i h0
          rw [h0]; simp
        · rw [u16_add_u16]; congr 1; omega

theorem UnreliableDispatchInv_movePending {dispatched : List ENetIncomingCommand}
    {nodes : List (Nat × ENetIncomingCommand)} {st : UnreliableDispatchState}
    (h : UnreliableDispatchInv dispatched nodes st) :
    UnreliableDispatchInv dispatched nodes st.movePending := by
  obtain ⟨h1, h2⟩ := h
  unfold UnreliableDispatchState.movePending
  refine ⟨?_, ?_⟩
  · show (linkDispatch _ _).2.dispatchedCommands = _
    rw [linkDispatch_dispatchedCommands]
    simp [h1]
  · intro node hn
    apply h2
    simpa using hn

theorem enet_peer_dispatch_incoming_unreliable_loop_inv (dispatched : List ENetIncomingCommand)
    (nodes : List (Nat × ENetIncomingCommand)) (seq : Nat) :
    ∀ (rest : List (Nat × ENetIncomingCommand)) (st : UnreliableDispatchState),
      UnreliableDispatchInv dispatched nodes st → (∀ node ∈ rest, node ∈ nodes) →
      UnreliableDispatchInv dispatched nodes
        (enet_peer_dispatch_incoming_unreliable_loop seq st rest).1 := by
  intro rest
  induction rest with
  | nil => intro st h _; exact h
  | cons node rest ih =>
    intro st h hrest
    obtain ⟨i, c⟩ := node
    have hnode : (i, c) ∈ nodes := hrest _ (List.mem_cons_self _ _)
    have hrest' : ∀ node ∈ rest, node ∈ nodes := fun n hn => hrest n (List.mem_cons_of_mem _ hn)
    have happ : ∀ st' : UnreliableDispatchState, UnreliableDispatchInv dispatched nodes st' →
        UnreliableDispatchInv dispatched nodes
          { st' with pending := st'.pending ++ [(i, c)] } := by
      intro st' h'
      refine ⟨h'.1, ?_⟩
      intro n hn
      simp only [List.mem_append, List.mem_singleton] at hn
      rcases hn with hn | hn | hn
      · exact h'.2 n (List.mem_append_left _ hn)
      · exact h'.2 n (List.mem_append_right _ hn)
      · rw [hn]; exact hnode
    unfold enet_peer_dispatch_incoming_unreliable_loop
    dsimp only
    split_ifs
    all_goals
      first
      | exact h
      | (refine ih _ ?_ hrest'
         first
         | exact happ st h
         | exact ⟨(happ st h).1, (happ st h).2⟩
         | exact ⟨h.1, h.2⟩
         | exact ⟨(UnreliableDispatchInv_movePending h).1,
             (UnreliableDispatchInv_movePending h).2⟩)

/-- `enet_peer_dispatch_incoming_unreliable_commands` leaves the reliable side of the
channel alone and appends to `dispatchedCommands` only commands of
`incomingUnreliableCommands`. -/
theorem enet_peer_dispatch_incoming_unreliable_commands_spec (host : ENetHost)
    (peer : ENetPeer) (channel : ENetChannel) (queuedCommand : Option Nat) :
    (enet_peer_dispatch_incoming_unreliable_commands host peer channel
        queuedCommand).channel.incomingReliableCommands = channel.incomingReliableCommands ∧
    (enet_peer_dispatch_incoming_unreliable_commands host peer channel
        queuedCommand).channel.incomingReliableSequenceNumber
      = channel.incomingReliableSequenceNumber ∧
    ∃ extra, (enet_peer_dispatch_incoming_unreliable_commands host peer channel
        queuedCommand).peer.dispatchedCommands = peer.dispatchedCommands ++ extra ∧
      ∀ c ∈ extra, c ∈ channel.incomingUnreliableCommands := by
  refine ⟨rfl, rfl, ?_⟩
  have hinv := enet_peer_dispatch_incoming_unreliable_loop_inv peer.dispatchedCommands
    channel.incomingUnreliableCommands.enum channel.incomingReliableSequenceNumber
    channel.incomingUnreliableCommands.enum
    { host := host, peer := peer,
      incomingUnreliableSequenceNumber := channel.incomingUnreliableSequenceNumber,
      kept := [], pending := [], dropped := 0, moved := [] }
    ⟨by simp, by simp⟩ (fun _ h => h)
  unfold enet_peer_dispatch_incoming_unreliable_commands
    enet_peer_dispatch_incoming_unreliable_nodes
  dsimp only
  generalize enet_peer_dispatch_incoming_unreliable_loop _ _ _ = lr at hinv
  obtain ⟨st, rest⟩ := lr
  dsimp only at hinv ⊢
  by_cases hp : st.pending ≠ []
  · rw [if_pos hp]
    have hm := UnreliableDispatchInv_movePending hinv
    refine ⟨st.movePending.moved.map Prod.snd, hm.1, ?_⟩
    intro c hc
    rw [List.mem_map] at hc
    obtain ⟨node, hn, rfl⟩ := hc
    exact List.snd_mem_of_mem_enum (hm.2 node (List.mem_append_left _ hn))
  · rw [if_neg hp]
    refine ⟨st.moved.map Prod.snd, hinv.1, ?_⟩
    intro c hc
    rw [List.mem_map] at hc
    obtain ⟨node, hn, rfl⟩ := hc
    exact List.snd_mem_of_mem_enum (hinv.2 node (List.mem_append_left _ hn))

/-- C5 (amended): `enet_peer_dispatch_incoming_reliable_commands` removes from
`incomingReliableCommands` exactly the longest prefix (its first `k` entries) whose entries
have `fragmentsRemaining = 0` and are in turn at `incomingReliableSequenceNumber + 1`
(mod 65536), and appends it in order to `dispatchedCommands`, followed by the commands
`extra` that `enet_peer_dispatch_incoming_unreliable_commands` releases from
`incomingUnreliableCommands` (none when the prefix or that queue is empty); the sequence
number advances by 1 per plain command and by `fragmentCount` per fragmented message of the
prefix (mod 65536); with an empty prefix host, peer and channel are unchanged. -/
theorem enet_peer_dispatch_incoming_reliable_commands_moves (host : ENetHost)
    (peer : ENetPeer) (channel : ENetChannel) (queuedCommand : Option Nat) :
    ∃ (k : Nat) (extra : List ENetIncomingCommand),
      k ≤ channel.incomingReliableCommands.length ∧
      ReadyInTurn channel.incomingReliableSequenceNumber
        (channel.incomingReliableCommands.take k) ∧
      (∀ j, k < j → j ≤ channel.incomingReliableCommands.length →
        ¬ ReadyInTurn channel.incomingReliableSequenceNumber
          (channel.incomingReliableCommands.take j)) ∧
      (enet_peer_dispatch_incoming_reliable_commands host peer channel
          queuedCommand).channel.incomingReliableCommands
        = channel.incomingReliableCommands.drop k ∧
      (enet_peer_dispatch_incoming_reliable_commands host peer channel
          queuedCommand).peer.dispatchedCommands
        = peer.dispatchedCommands ++ channel.incomingReliableCommands.take k ++ extra ∧
      (∀ c ∈ extra, c ∈ channel.incomingUnreliableCommands) ∧
      (k = 0 ∨ channel.incomingUnreliableCommands = [] → extra = []) ∧
      (enet_peer_dispatch_incoming_reliable_commands host peer channel
          queuedCommand).channel.incomingReliableSequenceNumber
        = (if k = 0 then channel.incomingReliableSequenceNumber
           else u16 (channel.incomingReliableSequenceNumber
              + ((channel.incomingReliableCommands.take k).map sequenceAdvance).sum)) ∧
      (k = 0 → enet_peer_dispatch_incoming_reliable_commands host peer channel queuedCommand
        = { host := host, peer := peer, channel := channel }) := by
  obtain ⟨l1, l2, l3, l4⟩ := enet_peer_dispatch_incoming_reliable_loop_spec
    channel.incomingReliableCommands channel.incomingReliableSequenceNumber
  unfold enet_peer_dispatch_incoming_reliable_commands
  generalize enet_peer_dispatch_incoming_reliable_loop channel.incomingReliableCommands
    channel.incomingReliableSequenceNumber = lr at l1 l2 l3 l4
  obtain ⟨k, seq⟩ := lr
  dsimp only at l1 l2 l3 l4 ⊢
  by_cases hk : k = 0
  · subst hk
    rw [if_pos rfl] at l4
    subst l4
    rw [if_pos rfl]
    exact ⟨0, [], l1, l2, l3, by simp, by simp, by simp, fun _ => rfl, by simp,
      fun _ => rfl⟩
  · rw [if_neg hk] at l4
    rw [if_neg hk]
    by_cases hu : channel.incomingUnreliableCommands ≠ []
    · rw [if_pos hu]
      obtain ⟨u1, u2, extra, u3, u4⟩ := enet_peer_dispatch_incoming_unreliable_commands_spec
        (linkDispatch host { peer with
          dispatchedCommands :=
            peer.dispatchedCommands ++ channel.incomingReliableCommands.take k }).1
        (linkDispatch host { peer with
          dispatchedCommands :=
            peer.dispatchedCommands ++ channel.incomingReliableCommands.take k }).2
        { channel with
          incomingReliableSequenceNumber := seq, incomingUnreliableSequenceNumber := 0,
          incomingReliableCommands := channel.incomingReliableCommands.drop k }
        queuedCommand
      rw [linkDispatch_dispatchedCommands] at u3
      refine ⟨k, extra, l1, l2, l3, u1, u3, u4, ?_, ?_, fun h0 => absurd h0 hk⟩
      · rintro (h0 | h0)
        · exact absurd h0 hk
        · exact absurd h0 hu
      · rw [if_neg hk, ← l4]; exact u2
    · rw [if_neg hu]
      refine ⟨k, [], l1, l2, l3, rfl, ?_, by simp, fun _ => rfl, ?_, fun h0 => absurd h0 hk⟩
      · show (linkDispatch _ _).2.dispatchedCommands = _
        rw [linkDispatch_dispatchedCommands]; simp
      · rw [if_neg hk, ← l4]

/-- Counterexample to C5 as stated: with one ready reliable command and one unreliable
command of the same reliable sequence number queued, the dispatched queue receives both,
not only the prefix of `incomingReliableCommands`. -/
theorem enet_peer_dispatch_incoming_reliable_commands_also_unreliable :
    (enet_peer_dispatch_incoming_reliable_commands sampleHost samplePeer
        { sampleChannel with
          incomingReliableCommands := [sampleIncoming 134 1 0 4],
          incomingUnreliableCommands := [sampleIncoming 7 1 1 4] } none).peer.dispatchedCommands
      = [sampleIncoming 134 1 0 4, sampleIncoming 7 1 1 4] ∧
    (enet_peer_dispatch_incoming_reliable_commands sampleHost samplePeer
        { sampleChannel with
          incomingReliableCommands := [sampleIncoming 134 1 0 4],
          incomingUnreliableCommands := [sampleIncoming 7 1 1 4] } none).peer.dispatchedCommands
      ≠ samplePeer.dispatchedCommands ++ [sampleIncoming 134 1 0 4] := by
  decide

/-! ## Duplicates of reliable commands -/

/-- On an ordered queue the backwards search finds every sequence number that is queued. -/
theorem reliableInsertScan_discard (rsn inc : Nat) :
    ∀ (rev : List ENetIncomingCommand),
      (∀ c ∈ rev, c.reliableSequenceNumber < 65536) →
      rev.Pairwise (fun a b =>
        windowKey inc b.reliableSequenceNumber ≤ windowKey inc a.reliableSequenceNumber) →
      (∃ c ∈ rev, c.reliableSequenceNumber = rsn) →
      reliableInsertScan rsn inc rev = .discard := by
  intro rev
  induction rev with
  | nil => intro _ _ h; obtain ⟨c, hc, -⟩ := h; cases hc
  | cons ic before ih =>
    intro hb hp hex
    rw [List.pairwise_cons] at hp
    obtain ⟨hhead, htail⟩ := hp
    have hb' : ∀ c ∈ before, c.reliableSequenceNumber < 65536 :=
      fun c hc => hb c (List.mem_cons_of_mem _ hc)
    obtain ⟨c, hc, hcr⟩ := hex
    have hicb := hb ic (List.mem_cons_self _ _)
    -- the witness, when it is not the head, sits in `before` and is ordered before the head
    have hrest : ic.reliableSequenceNumber ≠ rsn →
        (∃ c ∈ before, c.reliableSequenceNumber = rsn) ∧
        windowKey inc rsn ≤ windowKey inc ic.reliableSequenceNumber := by
      intro hne
      rcases List.mem_cons.mp hc with h | h
      · rw [h] at hcr; exact absurd hcr hne
      · exact ⟨⟨c, h, hcr⟩, by rw [← hcr]; exact hhead c h⟩
    unfold reliableInsertScan
    by_cases h1 : rsn ≥ inc ∧ ic.reliableSequenceNumber < inc
    · rw [if_pos h1]
      obtain ⟨hex', -⟩ := hrest (by omega)
      rw [ih hb' htail hex']; rfl
    · rw [if_neg h1]
      by_cases h2 : ¬ rsn ≥ inc ∧ ic.reliableSequenceNumber ≥ inc
      · rw [if_pos h2]
        obtain ⟨-, hle⟩ := hrest (by omega)
        unfold windowKey at hle
        rw [if_pos (by omega), if_neg (by omega)] at hle
        omega
      · rw [if_neg h2]
        by_cases h3 : ic.reliableSequenceNumber ≤ rsn
        · rw [if_pos h3]
          by_cases h4 : ic.reliableSequenceNumber < rsn
          · obtain ⟨-, hle⟩ := hrest (by omega)
            unfold windowKey at hle
            split at hle <;> split at hle <;> omega
          · rw [if_neg h4]
        · rw [if_neg h3]
          obtain ⟨hex', -⟩ := hrest (by omega)
          rw [ih hb' htail hex']; rfl

/-- C6 (amended): at-most-once reliable delivery.  For every state of the channel,
`enet_peer_queue_incoming_command` given a `SEND_RELIABLE` command whose reliable sequence
number equals `incomingReliableSequenceNumber` takes the discard exit; given one whose
number equals that of a command already queued it takes the discard exit when
`incomingReliableCommands` holds 16-bit numbers in order relative to
`incomingReliableSequenceNumber` (`ReliableOrdered`: numbers below the current one count as
wrapped).  At the discard exit host and peer (all queues, the dispatched queue included) are
unchanged, and the static dummy command is returned when `fragmentCount = 0`. -/
theorem enet_peer_queue_incoming_command_duplicate (host : ENetHost) (peer : ENetPeer)
    (command : ENetProtocol) (data : Option (List Nat)) (dataLength : Nat)
    (flags : ENetPacketFlags) (fragmentCount mem : Nat) (channel : ENetChannel)
    (hchan : peer.channels.get? command.channelID = some channel)
    (hcmd : command.command &&& ENET_PROTOCOL_COMMAND_MASK = ENET_PROTOCOL_COMMAND_SEND_RELIABLE)
    (hdup : command.reliableSequenceNumber = channel.incomingReliableSequenceNumber ∨
      (ReliableOrdered channel.incomingReliableSequenceNumber
          channel.incomingReliableCommands ∧
        ∃ c ∈ channel.incomingReliableCommands,
          c.reliableSequenceNumber = command.reliableSequenceNumber)) :
    ∃ r, enet_peer_queue_incoming_command host peer command data dataLength flags
        fragmentCount mem = some r ∧
      r.host = host ∧ r.peer = peer ∧ r.mem = mem ∧
      (fragmentCount = 0 → r.ret = .dummyCommand) := by
  have hdiscard : ∀ h p, (queueIncomingDiscard h p fragmentCount mem).host = h ∧
      (queueIncomingDiscard h p fragmentCount mem).peer = p ∧
      (queueIncomingDiscard h p fragmentCount mem).mem = mem ∧
      (fragmentCount = 0 → (queueIncomingDiscard h p fragmentCount mem).ret
        = .dummyCommand) := by
    intro h p
    unfold queueIncomingDiscard
    split
    · exact ⟨rfl, rfl, rfl, fun h0 => by omega⟩
    · exact ⟨rfl, rfl, rfl, fun _ => rfl⟩
  refine ⟨queueIncomingDiscard host peer fragmentCount mem, ?_, hdiscard host peer⟩
  unfold enet_peer_queue_incoming_command
  rw [hchan]
  dsimp only
  split
  · rfl
  split
  · rfl
  have hscan : queueIncomingScan channel command = InsertScan.discard := by
    have hrsn : queueIncomingReliableSequenceNumber command = command.reliableSequenceNumber := by
      unfold queueIncomingReliableSequenceNumber
      rw [hcmd, if_pos (by decide)]
    unfold queueIncomingScan queueIncomingIsReliable
    rw [hrsn, hcmd, if_pos (by decide)]
    split
    · rfl
    · rename_i hneq
      obtain ⟨hord, hex⟩ := hdup.resolve_left hneq
      apply reliableInsertScan_discard
      · intro c hc; exact hord.1 c (List.mem_reverse.mp hc)
      · rw [List.pairwise_reverse]; exact hord.2
      · obtain ⟨c, hc, hcr⟩ := hex
        exact ⟨c, List.mem_reverse.mpr hc, hcr⟩
  rw [hscan]

/-- Witness of C6 (amended): a second `SEND_RELIABLE` with sequence number 2 while number 2
is queued on the channel, alone and so in order. -/
theorem enet_peer_queue_incoming_command_duplicate_witness :
    ∃ r, enet_peer_queue_incoming_command sampleHost
        { samplePeer with channels :=
            [{ sampleChannel with incomingReliableCommands := [sampleIncoming 134 2 0 4] }] }
        { command := 134, channelID := 0, reliableSequenceNumber := 2,
          body := .sendReliable 4 } (some [1, 2, 3, 4]) 4
        { reliable := true, unsequenced := false, noAllocate := false,
          unreliableFragment := false, sent := false } 0 8 = some r ∧
      r.host = sampleHost ∧
      r.peer = { samplePeer with channels :=
            [{ sampleChannel with incomingReliableCommands := [sampleIncoming 134 2 0 4] }] } ∧
      r.mem = 8 ∧ ((0 : Nat) = 0 → r.ret = .dummyCommand) :=
  enet_peer_queue_incoming_command_duplicate sampleHost
    { samplePeer with channels :=
        [{ sampleChannel with incomingReliableCommands := [sampleIncoming 134 2 0 4] }] }
    { command := 134, channelID := 0, reliableSequenceNumber := 2, body := .sendReliable 4 }
    (some [1, 2, 3, 4]) 4
    { reliable := true, unsequenced := false, noAllocate := false,
      unreliableFragment := false, sent := false } 0 8
    { sampleChannel with incomingReliableCommands := [sampleIncoming 134 2 0 4] }
    rfl (by decide)
    (Or.inr ⟨⟨by decide, by simp [sampleChannel]⟩,
      sampleIncoming 134 2 0 4, by simp [sampleChannel], rfl⟩)

/-! ## Connection handshake -/

/-- `enet_protocol_dispatch_state` to a state other than `CONNECTED` and
`DISCONNECT_LATER`, on a peer that is in neither of the two: the host counters stay, the
peer is flagged and, when it was not flagged, linked at the end of the dispatch queue. -/
theorem enet_protocol_dispatch_state_idle (host : ENetHost) (peer : ENetPeer)
    (state : ENetPeerState)
    (hstate : ¬ (state = ENetPeerState.CONNECTED ∨ state = ENetPeerState.DISCONNECT_LATER))
    (hpeer : ¬ (peer.state = ENetPeerState.CONNECTED ∨
      peer.state = ENetPeerState.DISCONNECT_LATER)) :
    enet_protocol_dispatch_state host peer state
      = ({ host with dispatchQueue :=
            if peer.needsDispatch then host.dispatchQueue
            else host.dispatchQueue ++ [peer.incomingPeerID] },
         { peer with state := state, needsDispatch := true }) := by
  unfold enet_protocol_dispatch_state enet_protocol_change_state enet_peer_on_disconnect
    linkDispatch
  simp only [hstate, hpeer, if_false]
  cases peer
  rename_i needsDispatch _ _ _ _ _
  cases needsDispatch <;> simp

/-- C9: `enet_protocol_handle_verify_connect` changes nothing (and returns 0) when the peer
is not in `CONNECTING`; when it is, and the channel count is outside [1,255] or the throttle
interval, acceleration, deceleration or `connectID` differs from the peer's, the handler
returns -1, the peer is `ZOMBIE` with `eventData` 0 and flagged and linked on the dispatch
queue, and MTU, window size, outgoing peer id and session ids (and the packet store and
event) are as before.  `hlink` is the invariant that a flagged peer is on the queue. -/
theorem enet_protocol_handle_verify_connect_rejects (host : ENetHost)
    (event : Option ENetEvent) (peer : ENetPeer) (command : ENetProtocol) (store : PacketStore)
    (hlink : peer.needsDispatch = true → peer.incomingPeerID ∈ host.dispatchQueue) :
    (peer.state ≠ ENetPeerState.CONNECTING →
      enet_protocol_handle_verify_connect host event peer command store
        = { status := 0, host := host, peer := peer, event := event, store := store }) ∧
    (peer.state = ENetPeerState.CONNECTING →
      (ENET_NET_TO_HOST_32 command.connectView.channelCount < 1 ∨
        ENET_NET_TO_HOST_32 command.connectView.channelCount > 255 ∨
        ENET_NET_TO_HOST_32 command.connectView.packetThrottleInterval
          ≠ peer.packetThrottleInterval ∨
        ENET_NET_TO_HOST_32 command.connectView.packetThrottleAcceleration
          ≠ peer.packetThrottleAcceleration ∨
        ENET_NET_TO_HOST_32 command.connectView.packetThrottleDeceleration
          ≠ peer.packetThrottleDeceleration ∨
        command.connectView.connectID ≠ peer.connectID) →
      (enet_protocol_handle_verify_connect host event peer command store).status = -1 ∧
      (enet_protocol_handle_verify_connect host event peer command store).peer
        = { peer with state := ENetPeerState.ZOMBIE, eventData := 0, needsDispatch := true } ∧
      peer.incomingPeerID
        ∈ (enet_protocol_handle_verify_connect host event peer command store).host.dispatchQueue ∧
      (enet_protocol_handle_verify_connect host event peer command store).host
        = { host with dispatchQueue :=
              if peer.needsDispatch then host.dispatchQueue
              else host.dispatchQueue ++ [peer.incomingPeerID] } ∧
      (enet_protocol_handle_verify_connect host event peer command store).event = event ∧
      (enet_protocol_handle_verify_connect host event peer command store).store = store) := by
  refine ⟨fun hne => ?_, fun hst hbad => ?_⟩
  · unfold enet_protocol_handle_verify_connect
    rw [if_pos hne]
  · have hbad' : ENET_NET_TO_HOST_32 command.connectView.channelCount
          < ENET_PROTOCOL_MINIMUM_CHANNEL_COUNT ∨
        ENET_NET_TO_HOST_32 command.connectView.channelCount
          > ENET_PROTOCOL_MAXIMUM_CHANNEL_COUNT ∨
        ENET_NET_TO_HOST_32 command.connectView.packetThrottleInterval
          ≠ peer.packetThrottleInterval ∨
        ENET_NET_TO_HOST_32 command.connectView.packetThrottleAcceleration
          ≠ peer.packetThrottleAcceleration ∨
        ENET_NET_TO_HOST_32 command.connectView.packetThrottleDeceleration
          ≠ peer.packetThrottleDeceleration ∨
        command.connectView.connectID ≠ peer.connectID := hbad
    have hstate : ¬ (peer.state = ENetPeerState.CONNECTED ∨
        peer.state = ENetPeerState.DISCONNECT_LATER) := by rw [hst]; decide
    have hres : enet_protocol_handle_verify_connect host event peer command store
        = { status := -1,
            host := { host with dispatchQueue :=
              if peer.needsDispatch then host.dispatchQueue
              else host.dispatchQueue ++ [peer.incomingPeerID] },
            peer := { peer with state := ENetPeerState.ZOMBIE, eventData := 0,
                                needsDispatch := true },
            event := event, store := store } := by
      unfold enet_protocol_handle_verify_connect
      rw [if_neg (by rw [hst]; decide)]
      dsimp only
      rw [if_pos hbad', enet_protocol_dispatch_state_idle host { peer with eventData := 0 }
        ENetPeerState.ZOMBIE (by decide) hstate]
    rw [hres]
    refine ⟨rfl, rfl, ?_, rfl, rfl, rfl⟩
    dsimp only
    cases hnd : peer.needsDispatch
    · simp
    · simp only [if_true]; exact hlink hnd

/-- Witness of C9: a `VERIFY_CONNECT` with a wrong `connectID` for a connecting peer. -/
theorem enet_protocol_handle_verify_connect_rejects_witness :
    (enet_protocol_handle_verify_connect sampleHost (some sampleEvent)
        { samplePeer with state := ENetPeerState.CONNECTING }
        (sampleVerifyConnect 1 78) []).status = -1 ∧
    (enet_protocol_handle_verify_connect sampleHost (some sampleEvent)
        { samplePeer with state := ENetPeerState.CONNECTING }
        (sampleVerifyConnect 1 78) []).peer
      = { samplePeer with state := ENetPeerState.ZOMBIE, eventData := 0,
                          needsDispatch := true } ∧
    (0 : Nat) ∈ (enet_protocol_handle_verify_connect sampleHost (some sampleEvent)
        { samplePeer with state := ENetPeerState.CONNECTING }
        (sampleVerifyConnect 1 78) []).host.dispatchQueue := by
  have h := (enet_protocol_handle_verify_connect_rejects sampleHost (some sampleEvent)
    { samplePeer with state := ENetPeerState.CONNECTING } (sampleVerifyConnect 1 78) []
    (by decide)).2 rfl (by decide)
  exact ⟨h.1, h.2.1, h.2.2.1⟩

/-- The slot scan of `enet_protocol_handle_connect`: it stops with `repeated` when a slot
from the same host has the port and `connectID` of the command; otherwise it counts the
slots from the same host that are neither `DISCONNECTED` nor `CONNECTING`, and keeps the
free slot it started with when no slot is `DISCONNECTED`. -/
theorem handleConnectScan_spec (receivedAddress : ENetAddress) (connectID : Nat) :
    ∀ (l : List ENetPeer) (index : Nat) (peer : Option Nat) (duplicatePeers : Nat),
      ((∃ q ∈ l, q.state ≠ ENetPeerState.DISCONNECTED ∧ q.state ≠ ENetPeerState.CONNECTING ∧
          q.address.host = receivedAddress.host ∧ q.address.port = receivedAddress.port ∧
          q.connectID = connectID) →
        handleConnectScan receivedAddress connectID l index peer duplicatePeers = .repeated) ∧
      (handleConnectScan receivedAddress connectID l index peer duplicatePeers = .repeated ∨
        ∃ found, handleConnectScan receivedAddress connectID l index peer duplicatePeers
            = .scanned found (duplicatePeers + l.countP (fun q =>
                decide (q.state ≠ ENetPeerState.DISCONNECTED ∧
                  q.state ≠ ENetPeerState.CONNECTING ∧
                  q.address.host = receivedAddress.host))) ∧
          ((∀ q ∈ l, q.state ≠ ENetPeerState.DISCONNECTED) → found = peer)) := by
  intro l
  induction l with
  | nil =>
    intro index peer d
    refine ⟨fun h => ?_, Or.inr ⟨peer, by simp [handleConnectScan], fun _ => rfl⟩⟩
    obtain ⟨q, hq, -⟩ := h
    cases hq
  | cons c rest ih =>
    intro index peer d
    unfold handleConnectScan
    by_cases h1 : c.state = ENetPeerState.DISCONNECTED
    · rw [if_pos h1]
      obtain ⟨i1, i2⟩ := ih (index + 1) (if peer = none then some index else peer) d
      refine ⟨fun h => i1 ?_, ?_⟩
      · obtain ⟨q, hq, hq1, hrest⟩ := h
        rcases List.mem_cons.mp hq with rfl | hq'
        · exact absurd h1 hq1
        · exact ⟨q, hq', hq1, hrest⟩
      · rcases i2 with i2 | ⟨found, hf, -⟩
        · exact Or.inl i2
        · refine Or.inr ⟨found, ?_, fun hall => absurd h1 (hall c (List.mem_cons_self _ _))⟩
          rw [hf, List.countP_cons_of_neg]
          simp [h1]
    · rw [if_neg h1]
      by_cases h2 : c.state ≠ ENetPeerState.CONNECTING ∧ c.address.host = receivedAddress.host
      · rw [if_pos h2]
        by_cases h3 : c.address.port = receivedAddress.port ∧ c.connectID = connectID
        · rw [if_pos h3]
          exact ⟨fun _ => rfl, Or.inl rfl⟩
        · rw [if_neg h3]
          obtain ⟨i1, i2⟩ := ih (index + 1) peer (d + 1)
          refine ⟨fun h => i1 ?_, ?_⟩
          · obtain ⟨q, hq, hq1, hq2, hq3, hq4, hq5⟩ := h
            rcases List.mem_cons.mp hq with rfl | hq'
            · exact absurd ⟨hq4, hq5⟩ h3
            · exact ⟨q, hq', hq1, hq2, hq3, hq4, hq5⟩
          · rcases i2 with i2 | ⟨found, hf, hkeep⟩
            · exact Or.inl i2
            · refine Or.inr ⟨found, ?_, fun hall =>
                hkeep (fun q hq => hall q (List.mem_cons_of_mem _ hq))⟩
              rw [hf, List.countP_cons_of_pos]
              · congr 1; omega
              · simp [h1, h2.1, h2.2]
      · rw [if_neg h2]
        obtain ⟨i1, i2⟩ := ih (index + 1) peer d
        refine ⟨fun h => i1 ?_, ?_⟩
        · obtain ⟨q, hq, hq1, hq2, hq3, hrest⟩ := h
          rcases List.mem_cons.mp hq with rfl | hq'
          · exact absurd ⟨hq2, hq3⟩ h2
          · exact ⟨q, hq', hq1, hq2, hq3, hrest⟩
        · rcases i2 with i2 | ⟨found, hf, hkeep⟩
          · exact Or.inl i2
          · refine Or.inr ⟨found, ?_, fun hall =>
              hkeep (fun q hq => hall q (List.mem_cons_of_mem _ hq))⟩
            rw [hf, List.countP_cons_of_neg]
            simp only [decide_eq_true_eq]
            intro hc
            exact h2 ⟨hc.2.1, hc.2.2⟩

/-- C10: `enet_protocol_handle_connect` returns NULL and leaves the host with all its peer
slots (and the allocation budget) unchanged when no slot is `DISCONNECTED`, when the slots
that are neither `DISCONNECTED` nor `CONNECTING` and have the source host of the datagram
number at least `host.duplicatePeers`, or when such a slot also has the port of the
datagram and the `connectID` of the command. -/
theorem enet_protocol_handle_connect_refuses (hdr : ENetHeader) (host : ENetHost)
    (command : ENetProtocol) (mem : Nat)
    (h : (∀ p ∈ host.peers.take host.peerCount, p.state ≠ ENetPeerState.DISCONNECTED) ∨
      (host.peers.take host.peerCount).countP (fun p =>
          decide (p.state ≠ ENetPeerState.DISCONNECTED ∧ p.state ≠ ENetPeerState.CONNECTING ∧
            p.address.host = host.receivedAddress.host)) ≥ host.duplicatePeers ∨
      (∃ p ∈ host.peers.take host.peerCount,
        p.state ≠ ENetPeerState.DISCONNECTED ∧ p.state ≠ ENetPeerState.CONNECTING ∧
        p.address.host = host.receivedAddress.host ∧
        p.address.port = host.receivedAddress.port ∧
        p.connectID = command.connectView.connectID)) :
    enet_protocol_handle_connect hdr host command mem
      = { peer := none, host := host, mem := mem } := by
  obtain ⟨s1, s2⟩ := handleConnectScan_spec host.receivedAddress command.connectView.connectID
    (host.peers.take host.peerCount) 0 none 0
  unfold enet_protocol_handle_connect
  dsimp only
  split
  · rfl
  rcases s2 with s2 | ⟨found, hf, hkeep⟩
  · rw [s2]
  · rw [hf]
    rcases h with h | h | h
    · rw [hkeep h]
    · cases found with
      | none => rfl
      | some index =>
        dsimp only
        rw [if_pos (by simpa using h)]
    · rw [s1 h] at hf
      cases hf

/-- Witness of C10: the sample host has a single slot and it is connected, so a `CONNECT`
finds no `DISCONNECTED` slot. -/
theorem enet_protocol_handle_connect_refuses_witness :
    enet_protocol_handle_connect sampleHeader sampleHost (sampleConnect 2 99) 4
      = { peer := none, host := sampleHost, mem := 4 } :=
  enet_protocol_handle_connect_refuses sampleHeader sampleHost (sampleConnect 2 99) 4
    (Or.inl (by decide))

/-! ## Handshake round trip -/

/-- A 32-bit value survives the conversion to network order and back. -/
theorem net_to_host_32_of_lt {x : Nat} (h : x < 4294967296) :
    ENET_NET_TO_HOST_32 (ENET_HOST_TO_NET_32 x) = x := by
  unfold ENET_NET_TO_HOST_32 ENET_HOST_TO_NET_32 u32
  omega

/-- Queueing a control command (channel `0xFF`, neither `SEND_UNRELIABLE` nor
`SEND_UNSEQUENCED`) with memory available: the command is appended with its record body as
given, and the connection parameters of the peer are untouched. -/
theorem enet_peer_queue_outgoing_command_control (peer : ENetPeer) (command : ENetProtocol)
    (mem : Nat) (hch : command.channelID = 0xFF) (hmem : 0 < mem)
    (h1 : command.command &&& ENET_PROTOCOL_COMMAND_MASK
      ≠ ENET_PROTOCOL_COMMAND_SEND_UNRELIABLE)
    (h2 : command.command &&& ENET_PROTOCOL_COMMAND_MASK
      ≠ ENET_PROTOCOL_COMMAND_SEND_UNSEQUENCED) :
    ∃ (r : QueueOutgoingResult) (oc : ENetOutgoingCommand),
      enet_peer_queue_outgoing_command peer command none none 0 0 mem = some r ∧
      r.peer.outgoingCommands = peer.outgoingCommands ++ [oc] ∧
      oc.command.body = command.body ∧
      r.peer.state = peer.state ∧ r.peer.connectID = peer.connectID ∧
      r.peer.packetThrottleInterval = peer.packetThrottleInterval ∧
      r.peer.packetThrottleAcceleration = peer.packetThrottleAcceleration ∧
      r.peer.packetThrottleDeceleration = peer.packetThrottleDeceleration := by
  unfold enet_peer_queue_outgoing_command enet_malloc
  rw [if_neg (by omega)]
  dsimp only
  unfold enet_peer_setup_outgoing_command
  dsimp only
  rw [if_pos hch]
  refine ⟨_, _, rfl, rfl, ?_, rfl, rfl, rfl, rfl, rfl⟩
  unfold setupCommandRecord
  dsimp only
  rw [if_neg h1, if_neg h2]

/-- The peer that `enet_host_connect` returns, when the two allocations succeed: it is
`CONNECTING` and the last command of its queue is the `CONNECT` carrying its `connectID`,
its throttle parameters and a channel count in [1,255]. -/
theorem enet_host_connect_queues (hdr : ENetHeader) (host : ENetHost) (address : ENetAddress)
    (channelCount data mem i : Nat) (P : ENetPeer) (hmem : 2 ≤ mem)
    (hpeer : (enet_host_connect hdr host address channelCount data mem).peer = some i)
    (hP : (enet_host_connect hdr host address channelCount data mem).host.peers.get? i
      = some P) :
    P.state = ENetPeerState.CONNECTING ∧
    ∃ oc : ENetOutgoingCommand, P.outgoingCommands.getLast? = some oc ∧
      oc.command.connectView.connectID = P.connectID ∧
      oc.command.connectView.packetThrottleInterval
        = ENET_HOST_TO_NET_32 P.packetThrottleInterval ∧
      oc.command.connectView.packetThrottleAcceleration
        = ENET_HOST_TO_NET_32 P.packetThrottleAcceleration ∧
      oc.command.connectView.packetThrottleDeceleration
        = ENET_HOST_TO_NET_32 P.packetThrottleDeceleration ∧
      oc.command.connectView.channelCount
        = ENET_HOST_TO_NET_32 (hostConnectChannelCount channelCount) := by
  unfold enet_host_connect at hpeer hP
  dsimp only at hpeer hP
  split at hpeer
  · cases hpeer
  rename_i index hfind
  rw [hfind] at hP
  dsimp only at hP
  split at hpeer
  · cases hpeer
  rename_i slot hslot
  rw [hslot] at hP
  dsimp only at hP
  have hm : enet_malloc mem = some (mem - 1) := by
    unfold enet_malloc; rw [if_neg (by omega)]
  rw [hm] at hpeer hP
  dsimp only at hpeer hP
  obtain ⟨r, oc, hr, hq, hbody, hst, hcid, hi, ha, hd⟩ :=
    enet_peer_queue_outgoing_command_control
      (hostConnectSetup hdr { host with randomSeed := (enet_host_random host.randomSeed).1 }
        slot address (hostConnectChannelCount channelCount)
        (enet_host_random host.randomSeed).2 data).1
      (hostConnectSetup hdr { host with randomSeed := (enet_host_random host.randomSeed).1 }
        slot address (hostConnectChannelCount channelCount)
        (enet_host_random host.randomSeed).2 data).2
      (mem - 1) rfl (by omega) (by show (2 ||| 128) &&& 15 ≠ 7; decide)
      (by show (2 ||| 128) &&& 15 ≠ 9; decide)
  rw [hr] at hP
  dsimp only at hP
  have hidx : index = i := Option.some.inj hpeer
  subst hidx
  have hlt : index < host.peers.length := by
    rcases Nat.lt_or_ge index host.peers.length with h | h
    · exact h
    · rw [List.get?_eq_none.mpr h] at hslot; cases hslot
  rw [List.get?_eq_getElem?, List.getElem?_set_self hlt] at hP
  cases hP
  refine ⟨hst, oc, ?_, ?_, ?_, ?_, ?_, ?_⟩
  · rw [hq]; simp
  · unfold ENetProtocol.connectView; rw [hbody, hcid]; rfl
  · unfold ENetProtocol.connectView; rw [hbody, hi]; rfl
  · unfold ENetProtocol.connectView; rw [hbody, ha]; rfl
  · unfold ENetProtocol.connectView; rw [hbody, hd]; rfl
  · unfold ENetProtocol.connectView; rw [hbody]; rfl

/-- The peer that `enet_protocol_handle_connect` returns, when the two allocations
succeed on a host whose channel limit is at least 1: it has the `connectID` of the command
and the last command of its queue is the `VERIFY_CONNECT` that echoes the `connectID` and
the throttle parameters of the command, with a channel count in [1,255]. -/
theorem enet_protocol_handle_connect_queues (hdr : ENetHeader) (host : ENetHost)
    (command : ENetProtocol) (mem j : Nat) (Q : ENetPeer) (hmem : 2 ≤ mem)
    (hlimit : 1 ≤ host.channelLimit)
    (hpeer : (enet_protocol_handle_connect hdr host command mem).peer = some j)
    (hQ : (enet_protocol_handle_connect hdr host command mem).host.peers.get? j = some Q) :
    Q.connectID = command.connectView.connectID ∧
    ∃ ov : ENetOutgoingCommand, Q.outgoingCommands.getLast? = some ov ∧
      ov.command.connectView.connectID = command.connectView.connectID ∧
      ov.command.connectView.packetThrottleInterval
        = ENET_HOST_TO_NET_32 (ENET_NET_TO_HOST_32 command.connectView.packetThrottleInterval) ∧
      ov.command.connectView.packetThrottleAcceleration
        = ENET_HOST_TO_NET_32
            (ENET_NET_TO_HOST_32 command.connectView.packetThrottleAcceleration) ∧
      ov.command.connectView.packetThrottleDeceleration
        = ENET_HOST_TO_NET_32
            (ENET_NET_TO_HOST_32 command.connectView.packetThrottleDeceleration) ∧
      1 ≤ ENET_NET_TO_HOST_32 ov.command.connectView.channelCount ∧
      ENET_NET_TO_HOST_32 ov.command.connectView.channelCount ≤ 255 := by
  unfold enet_protocol_handle_connect at hpeer hQ
  dsimp only at hpeer hQ
  split at hpeer
  · cases hpeer
  rename_i hrange
  rw [if_neg hrange] at hQ
  split at hpeer
  · cases hpeer
  · cases hpeer
  rename_i index duplicatePeers hscan
  rw [hscan] at hQ
  dsimp only at hQ
  split at hpeer
  · cases hpeer
  rename_i hdup
  rw [if_neg hdup] at hQ
  split at hpeer
  · cases hpeer
  rename_i slot hslot
  rw [hslot] at hQ
  dsimp only at hQ
  have hm : enet_malloc mem = some (mem - 1) := by
    unfold enet_malloc; rw [if_neg (by omega)]
  rw [hm] at hpeer hQ
  dsimp only at hpeer hQ
  obtain ⟨r, ov, hr, hq, hbody, -, hcid, -, -, -⟩ :=
    enet_peer_queue_outgoing_command_control
      (handleConnectAccept hdr host slot command.connectView
        (handleConnectChannelCount host
          (ENET_NET_TO_HOST_32 command.connectView.channelCount))).1
      (handleConnectAccept hdr host slot command.connectView
        (handleConnectChannelCount host
          (ENET_NET_TO_HOST_32 command.connectView.channelCount))).2
      (mem - 1) rfl (by omega) (by show (3 ||| 128) &&& 15 ≠ 7; decide)
      (by show (3 ||| 128) &&& 15 ≠ 9; decide)
  rw [hr] at hQ
  dsimp only at hQ
  have hidx : index = j := Option.some.inj hpeer
  subst hidx
  have hlt : index < host.peers.length := by
    rcases Nat.lt_or_ge index host.peers.length with h | h
    · exact h
    · rw [List.get?_eq_none.mpr h] at hslot; cases hslot
  rw [List.get?_eq_getElem?, List.getElem?_set_self hlt] at hQ
  cases hQ
  have hcc : ov.command.connectView.channelCount
      = ENET_HOST_TO_NET_32 (handleConnectChannelCount host
          (ENET_NET_TO_HOST_32 command.connectView.channelCount)) := by
    unfold ENetProtocol.connectView; rw [hbody]; rfl
  have hbound : 1 ≤ handleConnectChannelCount host
        (ENET_NET_TO_HOST_32 command.connectView.channelCount) ∧
      handleConnectChannelCount host
        (ENET_NET_TO_HOST_32 command.connectView.channelCount) ≤ 255 := by
    unfold handleConnectChannelCount
    unfold ENET_PROTOCOL_MINIMUM_CHANNEL_COUNT ENET_PROTOCOL_MAXIMUM_CHANNEL_COUNT at hrange
    split <;> omega
  refine ⟨hcid, ov, ?_, ?_, ?_, ?_, ?_, ?_, ?_⟩
  · rw [hq]; simp
  · unfold ENetProtocol.connectView; rw [hbody]; rfl
  · unfold ENetProtocol.connectView; rw [hbody]; rfl
  · unfold ENetProtocol.connectView; rw [hbody]; rfl
  · unfold ENetProtocol.connectView; rw [hbody]; rfl
  · rw [hcc, net_to_host_32_of_lt (by omega)]; exact hbound.1
  · rw [hcc, net_to_host_32_of_lt (by omega)]; exact hbound.2

/-- The removal of an acknowledged command leaves the state and the `connectID` of the
peer as they are. -/
theorem enet_protocol_remove_sent_reliable_command_keeps (peer : ENetPeer)
    (store : PacketStore) (reliableSequenceNumber channelID : Nat) :
    (enet_protocol_remove_sent_reliable_command peer store reliableSequenceNumber
        channelID).peer.state = peer.state ∧
    (enet_protocol_remove_sent_reliable_command peer store reliableSequenceNumber
        channelID).peer.connectID = peer.connectID ∧
    (enet_protocol_remove_sent_reliable_command peer store reliableSequenceNumber
        channelID).peer.needsDispatch = peer.needsDispatch := by
  unfold enet_protocol_remove_sent_reliable_command
  dsimp only
  repeat' split
  all_goals exact ⟨rfl, rfl, rfl⟩

/-- Linking a peer on the dispatch queue leaves its state and `connectID`. -/
theorem linkDispatch_keeps (host : ENetHost) (peer : ENetPeer) :
    (linkDispatch host peer).2.state = peer.state ∧
    (linkDispatch host peer).2.connectID = peer.connectID := by
  unfold linkDispatch
  split <;> exact ⟨rfl, rfl⟩

/-- Adopting the parameters of the remote host leaves the state and the `connectID`. -/
theorem verifyConnectAdopt_keeps (peer : ENetPeer) (command : ENetProtocol) :
    (verifyConnectAdopt peer command).state = peer.state ∧
    (verifyConnectAdopt peer command).connectID = peer.connectID := by
  unfold verifyConnectAdopt
  dsimp only
  split_ifs <;> exact ⟨rfl, rfl⟩

/-- A `VERIFY_CONNECT` that passes the checks of `enet_protocol_handle_verify_connect` on a
`CONNECTING` peer: the handler returns 0 and the peer, with its `connectID`, becomes
`CONNECTED` when an event slot is given and `CONNECTION_SUCCEEDED` otherwise. -/
theorem enet_protocol_handle_verify_connect_accepts (host : ENetHost)
    (event : Option ENetEvent) (peer : ENetPeer) (command : ENetProtocol) (store : PacketStore)
    (hst : peer.state = ENetPeerState.CONNECTING)
    (hok : ¬ (ENET_NET_TO_HOST_32 command.connectView.channelCount
          < ENET_PROTOCOL_MINIMUM_CHANNEL_COUNT ∨
        ENET_NET_TO_HOST_32 command.connectView.channelCount
          > ENET_PROTOCOL_MAXIMUM_CHANNEL_COUNT ∨
        ENET_NET_TO_HOST_32 command.connectView.packetThrottleInterval
          ≠ peer.packetThrottleInterval ∨
        ENET_NET_TO_HOST_32 command.connectView.packetThrottleAcceleration
          ≠ peer.packetThrottleAcceleration ∨
        ENET_NET_TO_HOST_32 command.connectView.packetThrottleDeceleration
          ≠ peer.packetThrottleDeceleration ∨
        command.connectView.connectID ≠ peer.connectID)) :
    (enet_protocol_handle_verify_connect host event peer command store).status = 0 ∧
    (enet_protocol_handle_verify_connect host event peer command store).peer.state
      = (if event.isSome then ENetPeerState.CONNECTED
         else ENetPeerState.CONNECTION_SUCCEEDED) ∧
    (enet_protocol_handle_verify_connect host event peer command store).peer.connectID
      = peer.connectID := by
  obtain ⟨k1, k2, -⟩ := enet_protocol_remove_sent_reliable_command_keeps peer store 1 0xFF
  obtain ⟨a1, a2⟩ := verifyConnectAdopt_keeps
    (enet_protocol_remove_sent_reliable_command peer store 1 0xFF).peer command
  rw [k1, hst] at a1
  rw [k2] at a2
  unfold enet_protocol_handle_verify_connect
  rw [if_neg (not_not.mpr hst)]
  dsimp only
  rw [if_neg hok]
  cases event with
  | some e =>
    unfold enet_protocol_notify_connect enet_protocol_change_state
    exact ⟨rfl, rfl, a2⟩
  | none =>
    unfold enet_protocol_notify_connect enet_protocol_dispatch_state
      enet_protocol_change_state
    dsimp only
    rw [a1, if_pos rfl]
    refine ⟨rfl, ?_, ?_⟩
    · exact (linkDispatch_keeps _ _).1
    · exact (linkDispatch_keeps _ _).2.trans a2

/-- C8: handshake round trip.  Let `P` be the peer that `enet_host_connect` returns (slot
`i`) and `oc` the `CONNECT` command it queued; let an acceptor host accept the received
form of `oc` in `enet_protocol_handle_connect`, giving peer `Q` (slot `j`) with queued
`VERIFY_CONNECT` command `ov`.  Then `enet_protocol_handle_verify_connect`, given the
received form of `ov` for the initiator peer (`P'`: `P`, or `P` as later bookkeeping left
it, with state, `connectID` and throttle parameters untouched), returns 0 and takes the
peer from `CONNECTING` to `CONNECTED` (to `CONNECTION_SUCCEEDED` without an event slot),
and the peer and `Q` hold the same `connectID`.  Both sides have memory for the channel
array and the command, the acceptor's channel limit is at least 1 and the throttle
parameters are 32-bit values. -/
theorem enet_protocol_handle_verify_connect_round_trip (hdr : ENetHeader)
    (hostA hostB hostA' : ENetHost) (address : ENetAddress)
    (channelCount data memA memB i j : Nat) (P P' Q : ENetPeer)
    (oc ov : ENetOutgoingCommand) (event : Option ENetEvent) (store : PacketStore)
    (hmemA : 2 ≤ memA)
    (hi : (enet_host_connect hdr hostA address channelCount data memA).peer = some i)
    (hP : (enet_host_connect hdr hostA address channelCount data memA).host.peers.get? i
      = some P)
    (hoc : P.outgoingCommands.getLast? = some oc)
    (hwidth : P.packetThrottleInterval < 4294967296 ∧
      P.packetThrottleAcceleration < 4294967296 ∧
      P.packetThrottleDeceleration < 4294967296)
    (hmemB : 2 ≤ memB) (hlimit : 1 ≤ hostB.channelLimit)
    (hj : (enet_protocol_handle_connect hdr hostB (receivedCommand oc) memB).peer = some j)
    (hQ : (enet_protocol_handle_connect hdr hostB (receivedCommand oc) memB).host.peers.get? j
      = some Q)
    (hov : Q.outgoingCommands.getLast? = some ov)
    (hlater : P'.state = P.state ∧ P'.connectID = P.connectID ∧
      P'.packetThrottleInterval = P.packetThrottleInterval ∧
      P'.packetThrottleAcceleration = P.packetThrottleAcceleration ∧
      P'.packetThrottleDeceleration = P.packetThrottleDeceleration) :
    P'.state = ENetPeerState.CONNECTING ∧
    (enet_protocol_handle_verify_connect hostA' event P' (receivedCommand ov) store).status
      = 0 ∧
    (enet_protocol_handle_verify_connect hostA' event P' (receivedCommand ov)
        store).peer.state
      = (if event.isSome then ENetPeerState.CONNECTED
         else ENetPeerState.CONNECTION_SUCCEEDED) ∧
    (enet_protocol_handle_verify_connect hostA' event P' (receivedCommand ov)
        store).peer.connectID = Q.connectID ∧
    Q.connectID = P.connectID := by
  obtain ⟨hstate, oc', hoc', c1, c2, c3, c4, -⟩ :=
    enet_host_connect_queues hdr hostA address channelCount data memA i P hmemA hi hP
  rw [hoc] at hoc'
  cases hoc'
  obtain ⟨hqid, ov', hov', v1, v2, v3, v4, v5, v6⟩ :=
    enet_protocol_handle_connect_queues hdr hostB (receivedCommand oc) memB j Q hmemB hlimit
      hj hQ
  rw [hov] at hov'
  cases hov'
  have hview : (receivedCommand oc).connectView = oc.command.connectView := rfl
  have hview' : (receivedCommand ov).connectView = ov.command.connectView := rfl
  rw [hview] at hqid v1 v2 v3 v4
  obtain ⟨l1, l2, l3, l4, l5⟩ := hlater
  have hst : P'.state = ENetPeerState.CONNECTING := l1.trans hstate
  have hqp : Q.connectID = P.connectID := hqid.trans c1
  have hacc := enet_protocol_handle_verify_connect_accepts hostA' event P'
    (receivedCommand ov) store hst (by
      rw [hview', v1, v2, v3, v4, c1, c2, c3, c4, l2, l3, l4, l5,
        net_to_host_32_of_lt hwidth.1, net_to_host_32_of_lt hwidth.2.1,
        net_to_host_32_of_lt hwidth.2.2, net_to_host_32_of_lt hwidth.1,
        net_to_host_32_of_lt hwidth.2.1, net_to_host_32_of_lt hwidth.2.2]
      unfold ENET_PROTOCOL_MINIMUM_CHANNEL_COUNT ENET_PROTOCOL_MAXIMUM_CHANNEL_COUNT
      intro hbad
      rcases hbad with h | h | h | h | h | h
      · omega
      · omega
      · exact h rfl
      · exact h rfl
      · exact h rfl
      · exact h rfl)
  exact ⟨hst, hacc.1, hacc.2.1, hacc.2.2.trans (l2.trans hqp.symm), hqp⟩

/-- Witness of C8: `sampleIdleHost` connects with two channels, a host of the same shape
accepts, and the `VERIFY_CONNECT` brings the initiator to `CONNECTED`. -/
theorem enet_protocol_handle_verify_connect_round_trip_witness :
    sampleInitiator.state = ENetPeerState.CONNECTING ∧
    (enet_protocol_handle_verify_connect sampleIdleHost (some sampleEvent) sampleInitiator
        (receivedCommand sampleAcceptorCommand) []).status = 0 ∧
    (enet_protocol_handle_verify_connect sampleIdleHost (some sampleEvent) sampleInitiator
        (receivedCommand sampleAcceptorCommand) []).peer.state
      = (if (some sampleEvent).isSome then ENetPeerState.CONNECTED
         else ENetPeerState.CONNECTION_SUCCEEDED) ∧
    (enet_protocol_handle_verify_connect sampleIdleHost (some sampleEvent) sampleInitiator
        (receivedCommand sampleAcceptorCommand) []).peer.connectID = sampleAcceptor.connectID ∧
    sampleAcceptor.connectID = sampleInitiator.connectID :=
  enet_protocol_handle_verify_connect_round_trip sampleHeader sampleIdleHost sampleIdleHost
    sampleIdleHost { host := 2, port := 7777 } 2 0 4 4 0 0 sampleInitiator sampleInitiator
    sampleAcceptor sampleInitiatorCommand sampleAcceptorCommand (some sampleEvent) []
    (by decide) (by decide) (by decide) (by decide) (by decide) (by decide) (by decide)
    (by decide) (by decide) (by decide) ⟨rfl, rfl, rfl, rfl, rfl⟩

/-! ## Throttle -/

/-- C7 (the code at the failing input): with `packetThrottle = 0` and the throttle counter
at 25, `enet_protocol_check_outgoing_commands` does not drop the queued unreliable packet:
the counter becomes `(25 + 7) % 32 = 0`, the test `0 > 0` fails, and the command is put into
the datagram and moved to `sentUnreliableCommands`, its packet still referenced. -/
theorem enet_protocol_check_outgoing_commands_throttle_zero_sends :
    ∃ r : CheckOutgoingResult,
      enet_protocol_check_outgoing_commands sampleHeader id sampleHost sampleThrottledPeer
        sampleThrottledStore 4 = some r ∧
      r.peer.packetThrottle = 0 ∧ r.peer.packetThrottleCounter = 0 ∧
      r.peer.sentUnreliableCommands = [sampleUnreliableCommand 0 32] ∧
      r.peer.outgoingCommands = [] ∧
      r.host.commands = [(sampleUnreliableCommand 0 32).command] ∧
      r.host.buffers = [ENetBuffer.command 0 8, ENetBuffer.payload 0 0 4] ∧
      r.store = sampleThrottledStore :=
  ⟨_, rfl, by decide⟩

/-! ## Reassembly of fragments -/

/-- Writing `len` bytes of `b` at offset `off` into `a`, as the `memcpy` of
`enet_protocol_handle_send_fragment` does: the length stays and the bytes of the range
are those of `b`. -/
theorem splice_getElem? (a b : List Nat) (D off len : Nat) (ha : a.length = D)
    (hb : b.length = D) (h : off + len ≤ D) :
    (a.take off ++ (b.drop off).take len ++ a.drop (off + len)).length = D ∧
    ∀ k, (a.take off ++ (b.drop off).take len ++ a.drop (off + len))[k]?
      = if off ≤ k ∧ k < off + len then b[k]? else a[k]? := by
  have h1 : (a.take off).length = off := by rw [List.length_take]; omega
  have h2 : ((b.drop off).take len).length = len := by
    rw [List.length_take, List.length_drop]; omega
  refine ⟨by simp only [List.length_append, h1, h2, List.length_drop]; omega, fun k => ?_⟩
  by_cases hk1 : k < off
  · rw [if_neg (by omega), List.append_assoc, List.getElem?_append_left (by omega),
      List.getElem?_take_of_lt hk1]
  · by_cases hk2 : k < off + len
    · rw [if_pos ⟨by omega, hk2⟩, List.append_assoc, List.getElem?_append_right (by omega),
        List.getElem?_append_left (by omega), h1, List.getElem?_take_of_lt (by omega),
        List.getElem?_drop]
      congr 1; omega
    · rw [if_neg (by omega), List.getElem?_append_right (by
        simp only [List.length_append, h1, h2]; omega)]
      simp only [List.length_append, h1, h2, List.getElem?_drop]
      congr 1; omega

/-- The test of a bit of the fragment bitmap. -/
theorem bit_test_iff (word k : Nat) : word &&& (1 <<< k) = 0 ↔ word.testBit k = false := by
  rw [Nat.one_shiftLeft, Nat.and_two_pow]
  cases word.testBit k <;> simp

/-- Setting a bit of the fragment bitmap. -/
theorem bit_set_testBit (word k j : Nat) :
    (word ||| (1 <<< k)).testBit j = (word.testBit j || decide (k = j)) := by
  rw [Nat.testBit_or, Nat.one_shiftLeft, Nat.testBit_two_pow]

/-- The byte range of fragment `i` lies inside the message. -/
theorem FragmentGeometry.range_le {D L count i : Nat} (hg : FragmentGeometry D L count)
    (hi : i < count) :
    i * L < D ∧ i * L + min L (D - i * L) ≤ D ∧ 0 < min L (D - i * L) ∧
    min L (D - i * L) < 65536 := by
  obtain ⟨h1, h2, h3, h4, h5, h6, h7⟩ := hg
  have hle : i * L ≤ (count - 1) * L := Nat.mul_le_mul_right L (by omega)
  refine ⟨by omega, by omega, ?_, ?_⟩
  · rw [Nat.lt_min]; omega
  · exact lt_of_le_of_lt (Nat.min_le_left _ _) h2

/-- The dispatch of a channel whose only incoming command is complete and next in turn
moves it to the dispatched queue. -/
theorem enet_peer_dispatch_incoming_reliable_commands_single (host : ENetHost)
    (peer : ENetPeer) (channel : ENetChannel) (startCommand : ENetIncomingCommand)
    (hq : channel.incomingReliableCommands = [startCommand])
    (hu : channel.incomingUnreliableCommands = [])
    (hrem : startCommand.fragmentsRemaining = 0)
    (hseq : startCommand.reliableSequenceNumber
      = u16 (channel.incomingReliableSequenceNumber + 1)) :
    (enet_peer_dispatch_incoming_reliable_commands host peer channel none).peer.dispatchedCommands
      = peer.dispatchedCommands ++ [startCommand] := by
  unfold enet_peer_dispatch_incoming_reliable_commands
  rw [hq]
  unfold enet_peer_dispatch_incoming_reliable_loop
  rw [if_neg (by rw [hrem, hseq]; simp)]
  unfold enet_peer_dispatch_incoming_reliable_loop
  dsimp only
  rw [if_neg (by omega)]
  rw [if_neg (by simp [hu])]
  rw [linkDispatch_dispatchedCommands]
  simp

/-- Storing fragment `i`, not stored before, into the start command of a peer that is
assembling: either the peer keeps assembling with `i` stored as well, or, when `i` was the
last fragment missing, the start command is dispatched with all stored ranges in place. -/
theorem enet_protocol_handle_send_fragment_store_step (data : List Nat)
    (L count start channelID : Nat) (dispatched : List ENetIncomingCommand) (done : List Nat)
    (host : ENetHost) (peer : ENetPeer) (i : Nat)
    (hg : FragmentGeometry data.length L count)
    (hA : Assembling data L count start channelID dispatched done peer)
    (hi : i < count) (hnot : i ∉ done) (hroom : done.length < count) :
    ∃ (host' : ENetHost) (peer' : ENetPeer),
      enet_protocol_handle_send_fragment_store host peer channelID (.inReliable 0) i (i * L)
        (min L (data.length - i * L))
        ((data.drop (i * L)).take (min L (data.length - i * L))) = some (host', peer') ∧
      (done.length + 1 < count →
        host' = host ∧ Assembling data L count start channelID dispatched (i :: done) peer') ∧
      (done.length + 1 = count →
        ∃ c : ENetIncomingCommand, peer'.dispatchedCommands = dispatched ++ [c] ∧
          c.packet.dataLength = data.length ∧ c.packet.data.length = data.length ∧
          ∀ n ∈ i :: done, ∀ k, n * L ≤ k → k < n * L + L →
            c.packet.data[k]? = data[k]?) := by
  obtain ⟨hst, hch, hdisp, channel, sc, hget, hq, hu, hinc, hstart, hrsn, hcmd, hfc, hrem,
    ⟨bitmap, hbm, hlen, hbits⟩, hdl, hlen2, hbytes⟩ := hA
  obtain ⟨r1, r2, r3, r4⟩ := hg.range_le hi
  have hidx : i / 32 < bitmap.length := by rw [hlen]; omega
  have hword : bitmap.get? (i / 32) = some (bitmap.getD (i / 32) 0) := by
    rw [List.get?_eq_getElem?, List.getD_eq_getElem?_getD, List.getElem?_eq_getElem hidx]
    rfl
  have hclear : bitmap.getD (i / 32) 0 &&& (1 <<< (i % 32)) = 0 := by
    rw [bit_test_iff]
    have := hbits i hi
    cases hb : (bitmap.getD (i / 32) 0).testBit (i % 32)
    · rfl
    · exact absurd (this.mp hb) hnot
  have hat : peer.incomingAt channelID (.inReliable 0) = some sc := by
    unfold ENetPeer.incomingAt
    rw [hget]
    simp [hq]
  unfold enet_protocol_handle_send_fragment_store
  rw [hat]
  dsimp only
  rw [hbm]
  dsimp only
  rw [hword]
  dsimp only
  rw [if_pos hclear]
  have hfit : ¬ u32 (i * L + min L (data.length - i * L)) > sc.packet.dataLength := by
    rw [hdl, u32_of_lt (by have := hg.2.2.2.2.2.2; omega)]
    omega
  rw [if_neg hfit]
  -- the start command after the fragment has been stored
  generalize hsc' : ({ sc with
      fragmentsRemaining := sc.fragmentsRemaining - 1,
      fragments := some (bitmap.set (i / 32) (bitmap.getD (i / 32) 0 ||| 1 <<< (i % 32))),
      packet := { sc.packet with
        data := sc.packet.data.take (i * L)
          ++ ((data.drop (i * L)).take (min L (data.length - i * L))).take
              (min L (data.length - i * L))
          ++ sc.packet.data.drop (i * L + min L (data.length - i * L)) } } :
        ENetIncomingCommand) = sc'
  have hholds : StartCommandHolds data L count start (i :: done) sc' := by
    subst hsc'
    obtain ⟨s1, s2⟩ := splice_getElem? sc.packet.data data data.length (i * L)
      (min L (data.length - i * L)) hlen2 rfl r2
    refine ⟨hrsn, hcmd, hfc, ?_, ⟨_, rfl, ?_, ?_⟩, hdl, ?_, ?_⟩
    · simp only [List.length_cons]; omega
    · rw [List.length_set]; exact hlen
    · intro n hn
      rw [List.mem_cons]
      by_cases hsame : n / 32 = i / 32
      · rw [hsame, List.getD_eq_getElem?_getD, List.getElem?_set_self hidx, Option.getD_some,
          bit_set_testBit, Bool.or_eq_true, decide_eq_true_eq]
        have := hbits n hn
        rw [hsame] at this
        rw [this]
        constructor
        · rintro (h | h)
          · exact Or.inr h
          · left; omega
        · rintro (h | h)
          · right; subst h; rfl
          · exact Or.inl h
      · rw [List.getD_eq_getElem?_getD, List.getElem?_set_ne (fun h => hsame h.symm),
          ← List.getD_eq_getElem?_getD, hbits n hn]
        constructor
        · exact Or.inr
        · rintro (h | h)
          · subst h; exact absurd rfl hsame
          · exact h
    · show (_ ++ _ ++ _ : List Nat).length = _
      rw [List.take_take, Nat.min_self]
      exact s1
    · intro n hn k hk1 hk2
      show (_ ++ _ ++ _ : List Nat)[k]? = _
      rw [List.take_take, Nat.min_self, s2 k]
      split
      · rfl
      · rename_i hout
        rcases List.mem_cons.mp hn with h | h
        · subst h
          have hkD : data.length ≤ k := by
            by_contra hlt
            apply hout
            exact ⟨hk1, by omega⟩
          rw [List.getElem?_eq_none (by omega), List.getElem?_eq_none hkD]
        · exact hbytes n h k hk1 hk2
  have hlt : channelID < peer.channels.length := by
    rcases Nat.lt_or_ge channelID peer.channels.length with h | h
    · exact h
    · rw [List.get?_eq_none.mpr h] at hget; cases hget
  have hset : peer.setIncomingAt channelID sc' (.inReliable 0)
      = { peer with channels := (peer.channels.set channelID
            { channel with incomingReliableCommands := [sc'] }) } := by
    unfold ENetPeer.setIncomingAt
    rw [hget]
    simp [hq]
  have hget' : (peer.setIncomingAt channelID sc' (.inReliable 0)).channels.get? channelID
      = some { channel with incomingReliableCommands := [sc'] } := by
    rw [hset, List.get?_eq_getElem?]
    exact List.getElem?_set_self hlt
  have hstate : (peer.setIncomingAt channelID sc' (.inReliable 0)).state = peer.state ∧
      (peer.setIncomingAt channelID sc' (.inReliable 0)).channelCount = peer.channelCount ∧
      (peer.setIncomingAt channelID sc' (.inReliable 0)).dispatchedCommands
        = peer.dispatchedCommands := by
    rw [hset]; exact ⟨rfl, rfl, rfl⟩
  generalize peer.setIncomingAt channelID sc' (.inReliable 0) = stored at hget' hstate ⊢
  clear hset
  by_cases hdone : done.length + 1 = count
  · rw [if_pos (by omega), hget']
    refine ⟨_, _, rfl, fun h => absurd hdone (by omega), fun _ => ⟨sc', ?_, hholds.2.2.2.2.2.1,
      hholds.2.2.2.2.2.2.1, hholds.2.2.2.2.2.2.2⟩⟩
    show (enet_peer_dispatch_incoming_reliable_commands host stored
      { channel with incomingReliableCommands := [sc'] } none).peer.dispatchedCommands = _
    rw [enet_peer_dispatch_incoming_reliable_commands_single host stored
      { channel with incomingReliableCommands := [sc'] } sc' rfl hu
      (by rw [← hsc']; show sc.fragmentsRemaining - 1 = 0; omega)
      (by rw [hholds.1]; exact hstart.symm), hstate.2.2, hdisp]
  · rw [if_neg (by omega)]
    exact ⟨host, stored, rfl, fun _ => ⟨rfl, hstate.1.trans hst, by rw [hstate.2.1]; exact hch,
      hstate.2.2.trans hdisp, _, sc', hget', rfl, hu, hinc, hstart, hholds⟩,
      fun h => absurd h hdone⟩

/-- The window test passes for the sequence number that is next in turn. -/
theorem reliableWindowOf_next (inc : Nat) (hinc : inc < 65536) :
    ¬ (reliableWindowOf (u16 (inc + 1)) inc < inc / ENET_PEER_RELIABLE_WINDOW_SIZE ∨
      reliableWindowOf (u16 (inc + 1)) inc
        ≥ inc / ENET_PEER_RELIABLE_WINDOW_SIZE + ENET_PEER_FREE_RELIABLE_WINDOWS - 1) := by
  unfold reliableWindowOf ENET_PEER_RELIABLE_WINDOW_SIZE ENET_PEER_FREE_RELIABLE_WINDOWS
    ENET_PEER_RELIABLE_WINDOWS u16
  dsimp only
  split <;> omega

/-- A `SEND_FRAGMENT` whose record passes the checks of
`enet_protocol_handle_send_fragment`, alone in its datagram: the handler goes on to the
search for the start command. -/
theorem enet_protocol_handle_send_fragment_checked (host : ENetHost) (peer : ENetPeer)
    (command : ENetProtocol) (currentData : List Nat) (mem : Nat) (channel : ENetChannel)
    (f : ENetProtocolSendFragment)
    (hbody : command.body = .sendFragment f)
    (hch : command.channelID < peer.channelCount)
    (hst : peer.state = ENetPeerState.CONNECTED)
    (hget : peer.channels.get? command.channelID = some channel)
    (hlen : f.dataLength < 65536) (hfits : f.dataLength ≤ host.maximumPacketSize)
    (hdata : currentData.length = f.dataLength)
    (hstart : f.startSequenceNumber < 65536)
    (hwin : ¬ (reliableWindowOf f.startSequenceNumber channel.incomingReliableSequenceNumber
          < channel.incomingReliableSequenceNumber / ENET_PEER_RELIABLE_WINDOW_SIZE ∨
        reliableWindowOf f.startSequenceNumber channel.incomingReliableSequenceNumber
          ≥ channel.incomingReliableSequenceNumber / ENET_PEER_RELIABLE_WINDOW_SIZE
            + ENET_PEER_FREE_RELIABLE_WINDOWS - 1))
    (h32 : f.fragmentNumber < 4294967296 ∧ f.fragmentCount < 4294967296 ∧
      f.fragmentOffset < 4294967296 ∧ f.totalLength < 4294967296)
    (hok : ¬ (f.fragmentCount > ENET_PROTOCOL_MAXIMUM_FRAGMENT_COUNT ∨
      f.fragmentNumber ≥ f.fragmentCount ∨ f.totalLength > host.maximumPacketSize ∨
      f.fragmentOffset ≥ f.totalLength ∨ f.dataLength > f.totalLength - f.fragmentOffset)) :
    enet_protocol_handle_send_fragment host peer command currentData mem
      = enet_protocol_handle_send_fragment_assemble host peer command channel currentData []
          mem f.startSequenceNumber f.fragmentNumber f.fragmentCount f.fragmentOffset
          f.totalLength f.dataLength := by
  have hview : command.sendFragmentView = f := by
    unfold ENetProtocol.sendFragmentView; rw [hbody]
  have e16 : ENET_NET_TO_HOST_16 f.dataLength = f.dataLength := u16_of_lt hlen
  have e16' : ENET_NET_TO_HOST_16 f.startSequenceNumber = f.startSequenceNumber :=
    u16_of_lt hstart
  have e1 : ENET_NET_TO_HOST_32 f.fragmentNumber = f.fragmentNumber := u32_of_lt h32.1
  have e2 : ENET_NET_TO_HOST_32 f.fragmentCount = f.fragmentCount := u32_of_lt h32.2.1
  have e3 : ENET_NET_TO_HOST_32 f.fragmentOffset = f.fragmentOffset := u32_of_lt h32.2.2.1
  have e4 : ENET_NET_TO_HOST_32 f.totalLength = f.totalLength := u32_of_lt h32.2.2.2
  unfold enet_protocol_handle_send_fragment
  rw [if_neg (by rw [hst]; simp; omega)]
  dsimp only
  rw [hview, e16, e16', e1, e2, e3, e4, if_neg (by omega), hget]
  dsimp only
  rw [if_neg hwin, if_neg hok, ← hdata, List.take_length, List.drop_length]

/-- The dispatch of a channel whose first incoming command still misses fragments does
nothing. -/
theorem enet_peer_dispatch_incoming_reliable_commands_blocked (host : ENetHost)
    (peer : ENetPeer) (channel : ENetChannel) (startCommand : ENetIncomingCommand)
    (rest : List ENetIncomingCommand) (queuedCommand : Option Nat)
    (hq : channel.incomingReliableCommands = startCommand :: rest)
    (hrem : 0 < startCommand.fragmentsRemaining) :
    enet_peer_dispatch_incoming_reliable_commands host peer channel queuedCommand
      = { host := host, peer := peer, channel := channel } := by
  have hloop : enet_peer_dispatch_incoming_reliable_loop channel.incomingReliableCommands
      channel.incomingReliableSequenceNumber = (0, channel.incomingReliableSequenceNumber) := by
    rw [hq]
    unfold enet_peer_dispatch_incoming_reliable_loop
    rw [if_pos (Or.inl hrem)]
  unfold enet_peer_dispatch_incoming_reliable_commands
  rw [hloop]
  dsimp only
  rw [if_pos rfl]

/-- Variant of the previous lemma for a channel given with its queue. -/
theorem enet_peer_dispatch_incoming_reliable_commands_blocked_with (host : ENetHost)
    (peer : ENetPeer) (channel : ENetChannel) (startCommand : ENetIncomingCommand)
    (rest : List ENetIncomingCommand) (queuedCommand : Option Nat)
    (hrem : 0 < startCommand.fragmentsRemaining) :
    enet_peer_dispatch_incoming_reliable_commands host peer
        { channel with incomingReliableCommands := startCommand :: rest } queuedCommand
      = { host := host, peer := peer,
          channel := { channel with incomingReliableCommands := startCommand :: rest } } :=
  enet_peer_dispatch_incoming_reliable_commands_blocked host peer _ startCommand rest
    queuedCommand rfl hrem

/-- Linking a start command into the empty queue of a channel: it is alone in the queue and
nothing is dispatched. -/
theorem queueIncomingLink_first (host : ENetHost) (peer : ENetPeer) (channel : ENetChannel)
    (command : ENetProtocol) (packet : ENetPacket) (fragments : Option (List Nat))
    (fragmentCount mem : Nat)
    (hrel : queueIncomingIsReliable command = true)
    (hq : channel.incomingReliableCommands = []) (hfc : 0 < fragmentCount) :
    ∃ q : QueueIncomingResult,
      queueIncomingLink host peer channel command packet fragments fragmentCount 0 mem = q ∧
      q.ret = .queued (.inReliable 0) ∧ q.host = host ∧
      q.peer.state = peer.state ∧ q.peer.channelCount = peer.channelCount ∧
      q.peer.dispatchedCommands = peer.dispatchedCommands ∧
      q.peer.channels = peer.channels.set command.channelID
        { channel with
          incomingReliableCommands :=
            [{ reliableSequenceNumber := command.reliableSequenceNumber,
               unreliableSequenceNumber := queueIncomingUnreliableSequenceNumber command &&& 0xFFFF,
               command := command, fragmentCount := fragmentCount,
               fragmentsRemaining := fragmentCount, fragments := fragments,
               packet := { packet with referenceCount := usize (packet.referenceCount + 1) } }] } := by
  refine ⟨_, rfl, ?_⟩
  unfold queueIncomingLink
  rw [if_pos hrel]
  dsimp only
  rw [hq]
  simp only [List.length_nil, Nat.sub_zero, List.take_nil, List.drop_nil, List.nil_append]
  rw [enet_peer_dispatch_incoming_reliable_commands_blocked_with _ _ _ _ _ _ hfc]
  refine ⟨?_, rfl, rfl, rfl, rfl, rfl⟩
  unfold locateInserted
  simp

/-- The first fragment of a message on a peer that expects it: `enet_peer_queue_incoming_command`
creates the start command, alone in the queue of the channel, with no fragment stored. -/
theorem enet_peer_queue_incoming_command_start (data : List Nat)
    (L count start channelID : Nat) (dispatched : List ENetIncomingCommand)
    (host : ENetHost) (peer : ENetPeer) (command : ENetProtocol) (mem : Nat)
    (hg : FragmentGeometry data.length L count)
    (hE : Expecting start channelID peer) (hdisp : peer.dispatchedCommands = dispatched)
    (hwait : peer.totalWaitingData < host.maximumWaitingData) (hmem : 4 ≤ mem)
    (hcmd : command.command &&& ENET_PROTOCOL_COMMAND_MASK
      = ENET_PROTOCOL_COMMAND_SEND_FRAGMENT)
    (hchan : command.channelID = channelID)
    (hrsn : command.reliableSequenceNumber = start) :
    ∃ q : QueueIncomingResult,
      enet_peer_queue_incoming_command host peer command none data.length
        { reliable := true, unsequenced := false, noAllocate := false,
          unreliableFragment := false, sent := false } count mem = some q ∧
      q.ret = .queued (.inReliable 0) ∧ q.host = host ∧
      Assembling data L count start channelID dispatched [] q.peer := by
  obtain ⟨hst, hch, channel, hget, hq, hu, hinc, hstart⟩ := hE
  obtain ⟨g1, g2, g3, g4, g5, g6, g7⟩ := hg
  have hqr : queueIncomingReliableSequenceNumber command = start := by
    unfold queueIncomingReliableSequenceNumber
    rw [hcmd, if_pos (by decide), hrsn]
  have hwin : ¬ queueIncomingWindowRejects channel command := by
    unfold queueIncomingWindowRejects
    rw [hqr, ← hstart]
    exact fun h => reliableWindowOf_next _ hinc h.2
  have hne : start ≠ channel.incomingReliableSequenceNumber := by
    rw [← hstart]; unfold u16; omega
  have hscan : queueIncomingScan channel command = .after 0 := by
    unfold queueIncomingScan queueIncomingIsReliable
    rw [hcmd, hqr, hq, if_pos (by decide), if_neg hne]
    rfl
  have hlt : channelID < peer.channels.length := by
    rcases Nat.lt_or_ge channelID peer.channels.length with h | h
    · exact h
    · rw [List.get?_eq_none.mpr h] at hget; cases hget
  unfold enet_peer_queue_incoming_command
  rw [hchan, hget]
  dsimp only
  rw [if_neg (by rw [hst]; decide), if_neg hwin, hscan]
  dsimp only
  unfold queueIncomingInsert
  rw [if_neg (by omega)]
  have hpc : enet_packet_create none data.length
      { reliable := true, unsequenced := false, noAllocate := false,
        unreliableFragment := false, sent := false } mem
      = (some { referenceCount := 0,
                flags := { reliable := true, unsequenced := false, noAllocate := false,
                           unreliableFragment := false, sent := false },
                data := List.replicate data.length 0, dataLength := data.length }, mem - 1 - 1) := by
    unfold enet_packet_create enet_malloc
    rw [if_neg (by omega)]
    dsimp only
    rw [if_neg (by omega), if_neg (by omega)]
  have hm3 : enet_malloc (mem - 1 - 1) = some (mem - 1 - 1 - 1) := by
    unfold enet_malloc; rw [if_neg (by omega)]
  have hqf : queueIncomingFragments count (mem - 1 - 1 - 1)
      = some (some (List.replicate ((count + 31) / 32) 0), mem - 1 - 1 - 1 - 1) := by
    unfold queueIncomingFragments enet_malloc
    rw [if_pos g3, if_pos g4, if_neg (by omega)]
  rw [hpc]
  dsimp only
  rw [hm3]
  dsimp only
  rw [hqf]
  dsimp only
  have hrel : queueIncomingIsReliable command = true := by
    unfold queueIncomingIsReliable; rw [hcmd]; decide
  obtain ⟨q, hq1, hq2, hq3, hq4, hq5, hq6, hq7⟩ := queueIncomingLink_first host peer channel
    command
    { referenceCount := 0,
      flags := { reliable := true, unsequenced := false, noAllocate := false,
                 unreliableFragment := false, sent := false },
      data := List.replicate data.length 0, dataLength := data.length }
    (some (List.replicate ((count + 31) / 32) 0)) count (mem - 1 - 1 - 1 - 1) hrel hq g3
  rw [hq1]
  refine ⟨q, rfl, hq2, hq3, hq4.trans hst, by rw [hq5]; exact hch, hq6.trans hdisp,
    { channel with
      incomingReliableCommands :=
        [{ reliableSequenceNumber := command.reliableSequenceNumber,
           unreliableSequenceNumber := queueIncomingUnreliableSequenceNumber command &&& 0xFFFF,
           command := command, fragmentCount := count, fragmentsRemaining := count,
           fragments := some (List.replicate ((count + 31) / 32) 0),
           packet :=
             { referenceCount := usize (0 + 1),
               flags := { reliable := true, unsequenced := false, noAllocate := false,
                          unreliableFragment := false, sent := false },
               data := List.replicate data.length 0, dataLength := data.length } }] },
    _, ?_, rfl, hu, hinc, hstart, ?_⟩
  · rw [hq7, hchan, List.get?_eq_getElem?]
    exact List.getElem?_set_self hlt
  · refine ⟨hrsn, hcmd, rfl, rfl, ⟨_, rfl, List.length_replicate _ _, ?_⟩, rfl,
      List.length_replicate _ _, ?_⟩
    · intro n hn
      have : (List.replicate ((count + 31) / 32) 0).getD (n / 32) 0 = 0 := by
        rw [List.getD_eq_getElem?_getD, List.getElem?_replicate]
        split <;> rfl
      rw [this]
      simp
    · intro n hn
      cases hn

/-- The search for the start command finds it when it is alone in the queue. -/
theorem fragmentStartScan_single (start inc D count : Nat) (sc : ENetIncomingCommand)
    (hrsn : sc.reliableSequenceNumber = start)
    (hcmd : sc.command.command &&& ENET_PROTOCOL_COMMAND_MASK
      = ENET_PROTOCOL_COMMAND_SEND_FRAGMENT)
    (hdl : sc.packet.dataLength = D) (hfc : sc.fragmentCount = count) :
    fragmentStartScan start inc D count [sc] = .found 0 := by
  unfold fragmentStartScan
  rw [hrsn, hcmd, hdl, hfc]
  by_cases h : start ≥ inc
  · rw [if_neg (by omega), if_neg (by simp [h]), if_pos (le_refl _), if_neg (lt_irrefl _),
      if_neg (by simp)]
  · rw [if_neg (by simp [h]), if_neg (by simp [h]), if_pos (le_refl _), if_neg (lt_irrefl _),
      if_neg (by simp)]

/-- One fragment of a message arriving at a peer that expects the message or is assembling
it, the fragment not stored before: the handler returns 0; the peer then is assembling with
this fragment stored as well or, when it was the last one missing, has the start command
dispatched with all stored ranges in place. -/
theorem enet_protocol_handle_send_fragment_step (data : List Nat)
    (L count start channelID : Nat) (dispatched : List ENetIncomingCommand) (done : List Nat)
    (host : ENetHost) (peer : ENetPeer) (mem i : Nat) (received : ENetProtocol × List Nat)
    (hg : FragmentGeometry data.length L count)
    (hmax : data.length ≤ host.maximumPacketSize)
    (hrecv : IsFragmentOf data L count start channelID i received)
    (hstate : (done = [] ∧ Expecting start channelID peer ∧
        peer.dispatchedCommands = dispatched ∧
        peer.totalWaitingData < host.maximumWaitingData ∧ 4 ≤ mem) ∨
      Assembling data L count start channelID dispatched done peer)
    (hi : i < count) (hnot : i ∉ done) (hroom : done.length < count) :
    ∃ r : HandleResult,
      enet_protocol_handle_send_fragment host peer received.1 received.2 mem = some r ∧
      r.status = 0 ∧
      (done.length + 1 < count →
        r.host = host ∧ Assembling data L count start channelID dispatched (i :: done) r.peer) ∧
      (done.length + 1 = count →
        ∃ c : ENetIncomingCommand, r.peer.dispatchedCommands = dispatched ++ [c] ∧
          c.packet.dataLength = data.length ∧ c.packet.data.length = data.length ∧
          ∀ n ∈ i :: done, ∀ k, n * L ≤ k → k < n * L + L →
            c.packet.data[k]? = data[k]?) := by
  obtain ⟨hcmd, hchan, hbody, hpay⟩ := hrecv
  obtain ⟨r1, r2, r3, r4⟩ := hg.range_le hi
  have hg' := hg
  obtain ⟨g1, g2, g3, g4, g5, g6, g7⟩ := hg'
  have hcommon : ∃ channel : ENetChannel, peer.state = ENetPeerState.CONNECTED ∧
      channelID < peer.channelCount ∧ peer.channels.get? channelID = some channel ∧
      channel.incomingReliableSequenceNumber < 65536 ∧
      u16 (channel.incomingReliableSequenceNumber + 1) = start ∧
      channel.incomingUnreliableCommands = [] ∧ peer.dispatchedCommands = dispatched ∧
      ((done = [] ∧ channel.incomingReliableCommands = [] ∧
          peer.totalWaitingData < host.maximumWaitingData ∧ 4 ≤ mem) ∨
        ∃ sc, channel.incomingReliableCommands = [sc] ∧
          StartCommandHolds data L count start done sc) := by
    rcases hstate with ⟨hd, ⟨a1, a2, channel, a3, a4, a5, a6, a7⟩, b1, b2, b3⟩ |
      ⟨a1, a2, b1, channel, sc, a3, a4, a5, a6, a7, a8⟩
    · exact ⟨channel, a1, a2, a3, a6, a7, a5, b1, Or.inl ⟨hd, a4, b2, b3⟩⟩
    · exact ⟨channel, a1, a2, a3, a6, a7, a5, b1, Or.inr ⟨sc, a4, a8⟩⟩
  obtain ⟨channel, hst, hch, hget, hinc, hstart, hu, hdisp, hqueue⟩ := hcommon
  have hs16 : start < 65536 := by rw [← hstart]; unfold u16; omega
  unfold ENET_PROTOCOL_MAXIMUM_FRAGMENT_COUNT at g4
  rw [enet_protocol_handle_send_fragment_checked host peer received.1 received.2 mem channel
    _ hbody (by rw [hchan]; exact hch) hst (by rw [hchan]; exact hget) r4 (by dsimp only; omega)
    (by rw [hpay, List.length_take, List.length_drop]; dsimp only; omega) hs16
    (by rw [← hstart]; exact reliableWindowOf_next _ hinc)
    ⟨by dsimp only; omega, by dsimp only; omega, by dsimp only; omega, by dsimp only; omega⟩
    (by unfold ENET_PROTOCOL_MAXIMUM_FRAGMENT_COUNT; dsimp only; omega)]
  unfold enet_protocol_handle_send_fragment_assemble
  dsimp only
  rcases hqueue with ⟨hd, hq, hwait, hmem⟩ | ⟨sc, hq, hholds⟩
  · subst hd
    have hscan : fragmentStartScan start channel.incomingReliableSequenceNumber data.length
        count channel.incomingReliableCommands.reverse = .notFound := by
      rw [hq]; rfl
    rw [hscan]
    dsimp only
    obtain ⟨q, hqeq, hret, hhost, hA⟩ := enet_peer_queue_incoming_command_start data L count
      start channelID dispatched host peer
      { received.1 with reliableSequenceNumber := start } mem hg
      ⟨hst, hch, channel, hget, hq, hu, hinc, hstart⟩ hdisp hwait hmem hcmd hchan rfl
    rw [hqeq]
    dsimp only
    rw [hret]
    dsimp only
    obtain ⟨host', peer', hstore, h1, h2⟩ := enet_protocol_handle_send_fragment_store_step data
      L count start channelID dispatched [] q.host q.peer i hg hA hi hnot hroom
    rw [hchan, hpay, hstore]
    exact ⟨_, rfl, rfl, fun h => ⟨(h1 h).1.trans hhost, (h1 h).2⟩, h2⟩
  · have hscan : fragmentStartScan start channel.incomingReliableSequenceNumber data.length
        count channel.incomingReliableCommands.reverse = .found 0 := by
      rw [hq]
      exact fragmentStartScan_single start _ data.length count sc hholds.1 hholds.2.1
        hholds.2.2.2.2.2.1 hholds.2.2.1
    rw [hscan]
    dsimp only
    obtain ⟨host', peer', hstore, h1, h2⟩ := enet_protocol_handle_send_fragment_store_step data
      L count start channelID dispatched done host peer i hg
      ⟨hst, hch, hdisp, channel, sc, hget, hq, hu, hinc, hstart, hholds⟩ hi hnot hroom
    rw [hchan, hq, hpay]
    rw [show [sc].length - 1 - 0 = 0 from rfl, hstore]
    exact ⟨_, rfl, rfl, h1, h2⟩

/-- Feeding the fragments that are still missing, in any order, to a peer that expects the
message or is assembling it: every call returns 0 and at the end the start command is
dispatched, with the byte ranges of all fragments in place. -/
theorem handleSendFragments_assembles (data : List Nat) (L count start channelID : Nat)
    (dispatched : List ENetIncomingCommand) (fed : Nat → ENetProtocol × List Nat)
    (hg : FragmentGeometry data.length L count)
    (hfed : ∀ i, i < count → IsFragmentOf data L count start channelID i (fed i)) :
    ∀ (todo done : List Nat) (host : ENetHost) (peer : ENetPeer) (mem : Nat),
      data.length ≤ host.maximumPacketSize →
      ((done = [] ∧ Expecting start channelID peer ∧ peer.dispatchedCommands = dispatched ∧
          peer.totalWaitingData < host.maximumWaitingData ∧ 4 ≤ mem) ∨
        Assembling data L count start channelID dispatched done peer) →
      todo ≠ [] → (done ++ todo).Nodup → (∀ i ∈ done ++ todo, i < count) →
      done.length + todo.length = count →
      ∃ r : HandleResult, handleSendFragments host peer mem (todo.map fed) = some r ∧
        r.status = 0 ∧
        ∃ c : ENetIncomingCommand, r.peer.dispatchedCommands = dispatched ++ [c] ∧
          c.packet.dataLength = data.length ∧ c.packet.data.length = data.length ∧
          ∀ n ∈ done ++ todo, ∀ k, n * L ≤ k → k < n * L + L →
            c.packet.data[k]? = data[k]? := by
  intro todo
  induction todo with
  | nil => intro done host peer mem _ _ hne; exact absurd rfl hne
  | cons i rest ih =>
    intro done host peer mem hmax hstate _ hnodup hlt hlen
    have hi : i < count := hlt i (by simp)
    have hnot : i ∉ done := by
      intro hmem
      have := (List.nodup_append.mp hnodup).2.2
      exact this hmem (List.mem_cons_self _ _) 
    have hroom : done.length < count := by simp only [List.length_cons] at hlen; omega
    obtain ⟨r1, hr1, hs1, h1, h2⟩ := enet_protocol_handle_send_fragment_step data L count start
      channelID dispatched done host peer mem i (fed i) hg hmax (hfed i hi) hstate hi hnot hroom
    rw [List.map_cons]
    unfold handleSendFragments
    rw [hr1]
    dsimp only
    rw [if_pos hs1]
    cases rest with
    | nil =>
      have hdone : done.length + 1 = count := by simpa using hlen
      obtain ⟨c, hc1, hc2, hc3, hc4⟩ := h2 hdone
      refine ⟨_, rfl, rfl, c, hc1, hc2, hc3, fun n hn => hc4 n ?_⟩
      rw [List.mem_append, List.mem_singleton] at hn
      rw [List.mem_cons]
      tauto
    | cons j rest' =>
      have hmore : done.length + 1 < count := by simp only [List.length_cons] at hlen; omega
      obtain ⟨hhost, hA⟩ := h1 hmore
      have hperm : ((i :: done) ++ j :: rest').Perm (done ++ i :: j :: rest') :=
        (List.perm_middle).symm
      obtain ⟨r, hr, hs, c, hc1, hc2, hc3, hc4⟩ := ih (i :: done) r1.host r1.peer r1.mem
        (by rw [hhost]; exact hmax) (Or.inr hA) (by simp) (hperm.nodup_iff.mpr hnodup)
        (fun n hn => hlt n (hperm.mem_iff.mp hn))
        (by simp only [List.length_cons] at hlen ⊢; omega)
      exact ⟨r, hr, hs, c, hc1, hc2, hc3, fun n hn => hc4 n (hperm.mem_iff.mpr hn)⟩

/-- The number of fragments `(D + L - 1) / L` cuts `D > 0` bytes into ranges of `L`. -/
theorem fragmentCount_bounds (D L : Nat) (hL : 0 < L) (hD : 0 < D) :
    0 < (D + L - 1) / L ∧ ((D + L - 1) / L - 1) * L < D ∧ D ≤ (D + L - 1) / L * L := by
  have h1 := Nat.div_add_mod (D + L - 1) L
  have h2 := Nat.mod_lt (D + L - 1) hL
  have hpos : 0 < (D + L - 1) / L := Nat.div_pos (by omega) hL
  refine ⟨hpos, ?_, ?_⟩
  · rw [Nat.sub_mul, Nat.one_mul, Nat.mul_comm]
    have : L ≤ L * ((D + L - 1) / L) := Nat.le_mul_of_pos_right L hpos
    omega
  · rw [Nat.mul_comm]; omega

/-- All fragments of a message, each once and in any order, at a peer that expects the
message: every call of the handler returns 0, and exactly one command more is dispatched,
with a packet that holds the bytes of the message. -/
theorem handleSendFragments_reassembles (data : List Nat) (L count start channelID : Nat)
    (fed : Nat → ENetProtocol × List Nat) (order : List Nat)
    (host : ENetHost) (peer : ENetPeer) (mem : Nat)
    (hg : FragmentGeometry data.length L count)
    (hfed : ∀ i, i < count → IsFragmentOf data L count start channelID i (fed i))
    (hperm : order.Perm (List.range count))
    (hmax : data.length ≤ host.maximumPacketSize)
    (hE : Expecting start channelID peer)
    (hwait : peer.totalWaitingData < host.maximumWaitingData) (hmem : 4 ≤ mem) :
    ∃ r : HandleResult, handleSendFragments host peer mem (order.map fed) = some r ∧
      r.status = 0 ∧ Assembled data peer.dispatchedCommands r.peer := by
  have hlen : order.length = count := by rw [hperm.length_eq, List.length_range]
  have hne : order ≠ [] := by
    intro h
    rw [h] at hlen
    exact absurd hlen.symm (Nat.pos_iff_ne_zero.mp hg.2.2.1)
  obtain ⟨r, hr, hs, c, hc1, hc2, hc3, hc4⟩ := handleSendFragments_assembles data L count
    start channelID peer.dispatchedCommands fed hg hfed order [] host peer mem hmax
    (Or.inl ⟨rfl, hE, rfl, hwait, hmem⟩) hne
    (by rw [List.nil_append]; exact hperm.nodup_iff.mpr (List.nodup_range count))
    (fun i hi => by
      rw [List.nil_append] at hi
      exact List.mem_range.mp (hperm.mem_iff.mp hi))
    (by simp [hlen])
  refine ⟨r, hr, hs, c, hc1, hc2, ?_⟩
  apply List.ext_getElem?
  intro k
  by_cases hk : k < data.length
  · have hL := hg.1
    have hn : k / L < count := by
      apply Nat.div_lt_of_lt_mul
      rw [Nat.mul_comm]
      exact lt_of_lt_of_le hk hg.2.2.2.2.2.1
    refine hc4 (k / L) ?_ k (Nat.div_mul_le_self k L) (Nat.lt_div_mul_add hL)
    rw [List.nil_append]
    exact hperm.mem_iff.mpr (List.mem_range.mpr hn)
  · rw [List.getElem?_eq_none (by omega), List.getElem?_eq_none (by omega)]

/-- C4 (amended): fragment round trip.  Let `enet_peer_send` fragment a packet (whose
`data` has `dataLength` bytes) into the `SEND_FRAGMENT` commands `cmds`, and let the received
forms of these commands be fed, each once and in the order given by a permutation `order` of
their indices, to `enet_protocol_handle_send_fragment` on a connected peer whose channel
has both incoming queues empty and expects the start sequence number, whose waiting data is
below the host limit, whose host accepts packets of this length and which can allocate the
packet, its bytes, the command and the bitmap.  Then every call returns 0 and exactly one
incoming command is dispatched; its packet has the original length and bytes. -/
theorem enet_protocol_handle_send_fragment_round_trip (hostA : ENetHost) (peerA : ENetPeer)
    (channelID pid : Nat) (packet : ENetPacket) (memA : Nat) (sent : SendResult)
    (cmds : List ENetOutgoingCommand) (hostB : ENetHost) (peerB : ENetPeer)
    (channelB : ENetChannel) (memB : Nat) (order : List Nat)
    (hst : peerA.state = ENetPeerState.CONNECTED) (hch : channelID < peerA.channelCount)
    (hchan : channelID < peerA.channels.length)
    (hmaxA : packet.dataLength ≤ hostA.maximumPacketSize)
    (hmtu : ENET_PROTOCOL_MINIMUM_MTU ≤ peerA.mtu ∧ peerA.mtu ≤ ENET_PROTOCOL_MAXIMUM_MTU)
    (hD : fragmentCapacity hostA peerA < packet.dataLength)
    (hcount : (packet.dataLength + fragmentCapacity hostA peerA - 1)
      / fragmentCapacity hostA peerA ≤ ENET_PROTOCOL_MAXIMUM_FRAGMENT_COUNT)
    (hmemA : (packet.dataLength + fragmentCapacity hostA peerA - 1)
      / fragmentCapacity hostA peerA ≤ memA)
    (hdata : packet.data.length = packet.dataLength)
    (hsend : enet_peer_send hostA peerA channelID pid packet memA = some sent)
    (hcmds : sent.peer.outgoingCommands = peerA.outgoingCommands ++ cmds)
    (hfragment : ∀ c ∈ cmds, c.command.command &&& ENET_PROTOCOL_COMMAND_MASK
      = ENET_PROTOCOL_COMMAND_SEND_FRAGMENT)
    (hstB : peerB.state = ENetPeerState.CONNECTED) (hchB : channelID < peerB.channelCount)
    (hgetB : peerB.channels.get? channelID = some channelB)
    (hqB : channelB.incomingReliableCommands = [])
    (huB : channelB.incomingUnreliableCommands = [])
    (hincB : channelB.incomingReliableSequenceNumber < 65536)
    (hexpect : ∀ c ∈ cmds, c.command.sendFragmentView.startSequenceNumber
      = u16 (channelB.incomingReliableSequenceNumber + 1))
    (hwait : peerB.totalWaitingData < hostB.maximumWaitingData)
    (hmaxB : packet.dataLength ≤ hostB.maximumPacketSize) (hmemB : 4 ≤ memB)
    (hperm : order.Perm (List.range cmds.length)) :
    ∃ r : HandleResult,
      handleSendFragments hostB peerB memB
        (order.filterMap fun i => (cmds[i]?).map (receivedForm packet)) = some r ∧
      r.status = 0 ∧
      ∃ c : ENetIncomingCommand, r.peer.dispatchedCommands = peerB.dispatchedCommands ++ [c] ∧
        c.packet.dataLength = packet.dataLength ∧ c.packet.data = packet.data := by
  obtain ⟨r, cmds', cn, s, hsend', -, -, hqueue, hlen, hall⟩ :=
    enet_peer_send_fragmented_queue hostA peerA channelID pid packet memA hst hch hchan hmaxA
      hmtu hD hcount hmemA
  rw [hsend] at hsend'
  cases hsend'
  rw [hcmds] at hqueue
  have hsame : cmds = cmds' := List.append_cancel_left hqueue
  subst hsame
  obtain ⟨-, hL1, hL2⟩ := fragmentLength_eq_capacity hostA peerA hmtu
  obtain ⟨b1, b2, b3⟩ := fragmentCount_bounds packet.dataLength (fragmentCapacity hostA peerA)
    (by omega) (by omega)
  rw [← hlen] at b1 b2 b3 hcount
  have hg : FragmentGeometry packet.data.length (fragmentCapacity hostA peerA) cmds.length := by
    rw [hdata]
    refine ⟨by omega, by omega, b1, hcount, b2, b3, ?_⟩
    unfold ENET_PROTOCOL_MAXIMUM_FRAGMENT_COUNT at hcount
    have : cmds.length * fragmentCapacity hostA peerA ≤ 1048576 * 4068 :=
      Nat.mul_le_mul hcount hL2
    omega
  have hfed : ∀ i, i < cmds.length →
      IsFragmentOf packet.data (fragmentCapacity hostA peerA) cmds.length
        (u16 (channelB.incomingReliableSequenceNumber + 1)) channelID i
        (((cmds[i]?).map (receivedForm packet)).getD
          ({ command := 0, channelID := 0, reliableSequenceNumber := 0, body := .unset }, [])) := by
    intro i hi
    have hc : cmds[i]? = some cmds[i] := List.getElem?_eq_getElem hi
    obtain ⟨-, hoff, hflen, -, hcid, hbody⟩ := hall i cmds[i] hc
    have hmem : cmds[i] ∈ cmds := List.getElem_mem hi
    have hs : s = u16 (channelB.incomingReliableSequenceNumber + 1) := by
      have := hexpect cmds[i] hmem
      unfold ENetProtocol.sendFragmentView at this
      rw [hbody] at this
      exact this
    rw [hc, Option.map_some', Option.getD_some]
    refine ⟨hfragment cmds[i] hmem, hcid, ?_, ?_⟩
    · show cmds[i].command.body = _
      rw [hbody, hs, hdata, hlen]
    · show (packet.data.drop cmds[i].fragmentOffset).take cmds[i].fragmentLength = _
      rw [hoff, hflen, hdata]
  have hmap : (order.filterMap fun i => (cmds[i]?).map (receivedForm packet))
      = order.map (fun i => ((cmds[i]?).map (receivedForm packet)).getD
          ({ command := 0, channelID := 0, reliableSequenceNumber := 0, body := .unset }, [])) := by
    rw [← List.filterMap_eq_map]
    apply List.filterMap_congr
    intro i hi
    have hlt : i < cmds.length := List.mem_range.mp (hperm.mem_iff.mp hi)
    simp only [Function.comp, List.getElem?_eq_getElem hlt, Option.map_some', Option.getD_some]
  rw [hmap]
  obtain ⟨r, hr, hs, c, hc1, hc2, hc3⟩ := handleSendFragments_reassembles packet.data
    (fragmentCapacity hostA peerA) cmds.length
    (u16 (channelB.incomingReliableSequenceNumber + 1)) channelID _ order hostB peerB memB hg
    hfed hperm (by rw [hdata]; exact hmaxB)
    ⟨hstB, hchB, channelB, hgetB, hqB, huB, hincB, rfl⟩ hwait hmemB
  exact ⟨r, hr, hs, c, hc1, hc2.trans hdata, hc3⟩

/-- Witness of C4: the three fragments of a packet of 1200 bytes, received in the order
2, 0, 1 by a peer with a fresh channel. -/
theorem enet_protocol_handle_send_fragment_round_trip_witness :
    ∃ r : HandleResult,
      handleSendFragments sampleHost samplePeer 8
        ([2, 0, 1].filterMap fun i =>
          (sampleSent.peer.outgoingCommands[i]?).map (receivedForm (samplePacket 1200)))
        = some r ∧
      r.status = 0 ∧
      ∃ c : ENetIncomingCommand, r.peer.dispatchedCommands = samplePeer.dispatchedCommands ++ [c] ∧
        c.packet.dataLength = (samplePacket 1200).dataLength ∧
        c.packet.data = (samplePacket 1200).data :=
  enet_protocol_handle_send_fragment_round_trip sampleHost samplePeer 0 0 (samplePacket 1200) 8
    sampleSent sampleSent.peer.outgoingCommands sampleHost samplePeer sampleChannel 8 [2, 0, 1]
    rfl (by decide) (by decide) (by decide) (by decide) (by decide) (by decide) (by decide)
    (by simp [samplePacket]) rfl rfl (by decide) rfl (by decide) rfl rfl rfl (by decide)
    (by decide) (by decide) (by decide) (by decide) (by decide)

set_option maxRecDepth 20000 in
/-- Counterexample to C4 as stated: the sample peer sends 1200 bytes in three
`SEND_FRAGMENT` commands with start sequence number 1; the receiving peer is connected and
its channel expects sequence number 1, but it already holds as much waiting data as its host
allows: the first fragment is refused with -1 and nothing is dispatched. -/
theorem handleSendFragments_waiting_data_limit :
    enet_peer_send sampleHost samplePeer 0 0 (samplePacket 1200) 8 = some sampleSent ∧
    sampleSent.status = 0 ∧ sampleSent.peer.outgoingCommands.length = 3 ∧
    (∀ c ∈ sampleSent.peer.outgoingCommands,
      c.command.command &&& ENET_PROTOCOL_COMMAND_MASK = ENET_PROTOCOL_COMMAND_SEND_FRAGMENT ∧
      c.command.sendFragmentView.startSequenceNumber = 1) ∧
    sampleFullPeer.state = ENetPeerState.CONNECTED ∧
    (sampleFullPeer.channels.get? 0).map (fun channel =>
        u16 (channel.incomingReliableSequenceNumber + 1)) = some 1 ∧
    (handleSendFragments sampleHost sampleFullPeer 8
        (sampleSent.peer.outgoingCommands.map (receivedForm (samplePacket 1200)))).map
      (fun r => (r.status, r.peer.dispatchedCommands)) = some (-1, []) :=
  ⟨rfl, rfl, rfl, by decide, rfl, rfl, rfl⟩

/-! ## Disconnecting later -/

/-- C12: `enet_peer_disconnect_later` on a peer that is `CONNECTED` or `DISCONNECT_LATER`
with a command in `outgoingCommands` or `sentReliableCommands` only sets the state to
`DISCONNECT_LATER` and `eventData` to the data (host, queues, packets untouched), and every
`enet_peer_send` on the peer it leaves returns -1 without any change; in every other case
it is `enet_peer_disconnect`. -/
theorem enet_peer_disconnect_later_spec (hdr : ENetHeader)
    (flush : ENetHost × ENetPeer × PacketStore → ENetHost × ENetPeer × PacketStore)
    (host : ENetHost) (peer : ENetPeer) (store : PacketStore) (data mem : Nat) :
    ((peer.state = ENetPeerState.CONNECTED ∨ peer.state = ENetPeerState.DISCONNECT_LATER) →
      (peer.outgoingCommands ≠ [] ∨ peer.sentReliableCommands ≠ []) →
      enet_peer_disconnect_later hdr flush host peer store data mem
        = { host := host,
            peer := { peer with state := ENetPeerState.DISCONNECT_LATER, eventData := data },
            store := store, mem := mem } ∧
      ∀ (sender : ENetHost) (channelID pid : Nat) (packet : ENetPacket) (budget : Nat),
        enet_peer_send sender
            (enet_peer_disconnect_later hdr flush host peer store data mem).peer
            channelID pid packet budget
          = some { status := -1,
                   peer := (enet_peer_disconnect_later hdr flush host peer store data mem).peer,
                   packet := packet, mem := budget }) ∧
    (¬ ((peer.state = ENetPeerState.CONNECTED ∨ peer.state = ENetPeerState.DISCONNECT_LATER) ∧
        (peer.outgoingCommands ≠ [] ∨ peer.sentReliableCommands ≠ [])) →
      enet_peer_disconnect_later hdr flush host peer store data mem
        = enet_peer_disconnect hdr flush host peer store data mem) := by
  refine ⟨fun hst hq => ?_, fun hnot => ?_⟩
  · have hcond : (peer.state = ENetPeerState.CONNECTED ∨
          peer.state = ENetPeerState.DISCONNECT_LATER) ∧
        ¬ (peer.outgoingCommands = [] ∧ peer.sentReliableCommands = []) := by
      refine ⟨hst, fun h => ?_⟩
      rcases hq with h1 | h1
      · exact h1 h.1
      · exact h1 h.2
    have heq : enet_peer_disconnect_later hdr flush host peer store data mem
        = { host := host,
            peer := { peer with state := ENetPeerState.DISCONNECT_LATER, eventData := data },
            store := store, mem := mem } := by
      unfold enet_peer_disconnect_later
      rw [if_pos hcond]
    refine ⟨heq, fun sender channelID pid packet budget => ?_⟩
    rw [heq]
    unfold enet_peer_send
    rw [if_pos (Or.inl (by show ENetPeerState.DISCONNECT_LATER ≠ ENetPeerState.CONNECTED; decide))]
  · unfold enet_peer_disconnect_later
    rw [if_neg]
    intro h
    apply hnot
    refine ⟨h.1, ?_⟩
    by_contra hc
    push_neg at hc
    exact h.2 hc

/-- Witness of C12: the sample peer with one queued command turns to `DISCONNECT_LATER`. -/
theorem enet_peer_disconnect_later_spec_witness :
    enet_peer_disconnect_later sampleHeader id sampleHost sampleThrottledPeer
        sampleThrottledStore 9 4
      = { host := sampleHost,
          peer := { sampleThrottledPeer with
            state := ENetPeerState.DISCONNECT_LATER, eventData := 9 },
          store := sampleThrottledStore, mem := 4 } :=
  ((enet_peer_disconnect_later_spec sampleHeader id sampleHost sampleThrottledPeer
      sampleThrottledStore 9 4).1 (Or.inl rfl) (Or.inl (by decide))).1

/-! ## Dispatch of events -/

/-- The loop of `enet_protocol_dispatch_incoming_commands` returns when every node of the
queue is a slot of the host. -/
theorem enet_protocol_dispatch_incoming_commands_loop_total (hdr : ENetHeader) :
    ∀ (queue : List Nat) (host : ENetHost) (event : ENetEvent) (store : PacketStore),
      (∀ slot ∈ queue, slot < host.peers.length) →
      ∃ r, enet_protocol_dispatch_incoming_commands_loop hdr queue host event store = some r := by
  intro queue
  induction queue with
  | nil =>
    intro host event store _
    exact ⟨_, rfl⟩
  | cons slot rest ih =>
    intro host event store hslots
    have hlt : slot < host.peers.length := hslots slot (List.mem_cons_self _ _)
    have hrest : ∀ (peer : ENetPeer), ∀ s ∈ rest,
        s < ({ host with dispatchQueue := rest,
                         peers := host.peers.set slot peer } : ENetHost).peers.length := by
      intro peer s hs
      show s < (host.peers.set slot peer).length
      rw [List.length_set]
      exact hslots s (List.mem_cons_of_mem _ hs)
    unfold enet_protocol_dispatch_incoming_commands_loop
    rw [List.get?_eq_get hlt]
    dsimp only
    split
    · exact ⟨_, rfl⟩
    split
    · exact ⟨_, rfl⟩
    split
    · split
      · exact ih _ _ _ (hrest _)
      · exact ⟨_, rfl⟩
    · exact ih _ _ _ (hrest _)

/-- The loop of `enet_protocol_dispatch_incoming_commands` returns 0 or 1, and with 0 it
leaves the event as it was. -/
theorem enet_protocol_dispatch_incoming_commands_loop_status (hdr : ENetHeader) :
    ∀ (queue : List Nat) (host : ENetHost) (event : ENetEvent) (store : PacketStore)
      (r : DispatchEventResult),
      enet_protocol_dispatch_incoming_commands_loop hdr queue host event store = some r →
      (r.status = 0 ∧ r.event = event ∧ r.host.dispatchQueue = []) ∨ r.status = 1 := by
  intro queue
  induction queue with
  | nil =>
    intro host event store r h
    unfold enet_protocol_dispatch_incoming_commands_loop at h
    cases h
    exact Or.inl ⟨rfl, rfl, rfl⟩
  | cons slot rest ih =>
    intro host event store r h
    unfold enet_protocol_dispatch_incoming_commands_loop at h
    split at h
    · cases h
    dsimp only at h
    split at h
    · cases h; exact Or.inr rfl
    split at h
    · cases h; exact Or.inr rfl
    split at h
    · split at h
      · exact ih _ _ _ _ h
      · cases h; exact Or.inr rfl
    · exact ih _ _ _ _ h

/-- Changing the state of a peer touches only the two counters of the host and the state. -/
theorem enet_protocol_change_state_keeps (host : ENetHost) (peer : ENetPeer)
    (state : ENetPeerState) :
    (enet_protocol_change_state host peer state).1.dispatchQueue = host.dispatchQueue ∧
    (enet_protocol_change_state host peer state).1.peers = host.peers ∧
    (enet_protocol_change_state host peer state).2 = { peer with state := state } := by
  unfold enet_protocol_change_state enet_peer_on_connect enet_peer_on_disconnect
  dsimp only
  split_ifs <;> exact ⟨rfl, rfl, rfl⟩

/-- What `enet_peer_reset_queues` does to the host and to the fields of the peer that are not
queues. -/
theorem enet_peer_reset_queues_keeps (host : ENetHost) (peer : ENetPeer)
    (store : PacketStore) :
    (enet_peer_reset_queues host peer store).1
      = (if peer.needsDispatch then
          { host with dispatchQueue := host.dispatchQueue.erase peer.incomingPeerID }
         else host) ∧
    (enet_peer_reset_queues host peer store).2.1
      = { peer with needsDispatch := false, acknowledgements := [],
                    sentReliableCommands := [], sentUnreliableCommands := [],
                    outgoingCommands := [], dispatchedCommands := [], channels := [],
                    channelCount := 0 } := by
  unfold enet_peer_reset_queues
  cases h : peer.needsDispatch
  · refine ⟨rfl, ?_⟩
    simp only [Bool.false_eq_true, if_false]
    rw [← h]
  · exact ⟨rfl, rfl⟩

/-- Resetting a peer keeps the slots and the dispatch queue of the host, and leaves the peer
`DISCONNECTED` with empty queues. -/
theorem enet_peer_reset_keeps (hdr : ENetHeader) (host : ENetHost) (peer : ENetPeer)
    (store : PacketStore) :
    (enet_peer_reset hdr host peer store).1 = enet_peer_on_disconnect host peer ∧
    (enet_peer_reset hdr host peer store).2.1.state = ENetPeerState.DISCONNECTED ∧
    (enet_peer_reset hdr host peer store).2.1.incomingBandwidth = 0 := by
  unfold enet_peer_reset
  dsimp only
  refine ⟨?_, ?_, ?_⟩
  · rw [(enet_peer_reset_queues_keeps _ _ _).1]
    rfl
  · rw [(enet_peer_reset_queues_keeps _ _ _).2]
  · rw [(enet_peer_reset_queues_keeps _ _ _).2]

/-- The counters are all that `enet_peer_on_disconnect` changes. -/
theorem enet_peer_on_disconnect_keeps (host : ENetHost) (peer : ENetPeer) :
    (enet_peer_on_disconnect host peer).dispatchQueue = host.dispatchQueue ∧
    (enet_peer_on_disconnect host peer).peers = host.peers := by
  unfold enet_peer_on_disconnect
  split_ifs <;> exact ⟨rfl, rfl⟩

/-! ## Disconnecting -/

/-- Queueing a control command (channel `0xFF`, neither `SEND_UNRELIABLE` nor
`SEND_UNSEQUENCED`) with memory available, in full. -/
theorem enet_peer_queue_outgoing_command_control_eq (peer : ENetPeer) (command : ENetProtocol)
    (mem : Nat) (hch : command.channelID = 0xFF) (hmem : 0 < mem)
    (h1 : command.command &&& ENET_PROTOCOL_COMMAND_MASK
      ≠ ENET_PROTOCOL_COMMAND_SEND_UNRELIABLE)
    (h2 : command.command &&& ENET_PROTOCOL_COMMAND_MASK
      ≠ ENET_PROTOCOL_COMMAND_SEND_UNSEQUENCED) :
    enet_peer_queue_outgoing_command peer command none none 0 0 mem
      = some
        { queued := true,
          peer := { peer with
            outgoingDataTotal := u32 (peer.outgoingDataTotal
              + enet_protocol_command_size command.command + u16 0),
            outgoingReliableSequenceNumber := u16 (peer.outgoingReliableSequenceNumber + 1),
            outgoingCommands := peer.outgoingCommands ++
              [{ reliableSequenceNumber := u16 (peer.outgoingReliableSequenceNumber + 1),
                 unreliableSequenceNumber := 0, sentTime := 0, roundTripTimeout := 0,
                 roundTripTimeoutLimit := 0, fragmentOffset := u32 0, fragmentLength := u16 0,
                 sendAttempts := 0,
                 command := { command with
                   reliableSequenceNumber :=
                     ENET_HOST_TO_NET_16 (u16 (peer.outgoingReliableSequenceNumber + 1)) },
                 packet := none }] },
          packet := none, mem := mem - 1 } := by
  unfold enet_peer_queue_outgoing_command enet_malloc
  rw [if_neg (by omega)]
  dsimp only
  unfold enet_peer_setup_outgoing_command
  dsimp only
  rw [if_pos hch]
  unfold enet_peer_setup_outgoing_command_tail setupCommandRecord
  dsimp only
  rw [if_neg h1, if_neg h2]

/-- The throttle touches `packetThrottle` only. -/
theorem enet_peer_throttle_frame (peer : ENetPeer) (rtt : Nat) :
    (enet_peer_throttle peer rtt).2.frame = peer.frame := by
  unfold enet_peer_throttle
  split_ifs <;> rfl

/-- The round trip time estimator leaves the state, the identity and the queues of the
peer. -/
theorem acknowledgeRoundTrip_frame (time : ENetTime) (host : ENetHost) (peer : ENetPeer)
    (roundTripTime : Nat) :
    (acknowledgeRoundTrip time host peer roundTripTime).frame = peer.frame := by
  have h1 : ∀ p : ENetPeer, (acknowledgeSmooth p roundTripTime).frame = p.frame := by
    intro p
    unfold acknowledgeSmooth
    dsimp only
    split_ifs
    · exact enet_peer_throttle_frame p roundTripTime
    · exact enet_peer_throttle_frame p roundTripTime
  have h2 : ∀ p : ENetPeer, (acknowledgeExtremes p).frame = p.frame := by
    intro p
    unfold acknowledgeExtremes
    dsimp only
    split_ifs <;> rfl
  have h3 : ∀ p : ENetPeer, (acknowledgeEpoch time host p).frame = p.frame := by
    intro p
    unfold acknowledgeEpoch
    split_ifs <;> rfl
  unfold acknowledgeRoundTrip
  dsimp only
  show (acknowledgeEpoch time host (acknowledgeExtremes _)).frame = _
  rw [h3, h2]
  split_ifs
  · exact h1 peer
  · rfl

/-- Removing a sent reliable command leaves the state and the identity of the peer. -/
theorem enet_protocol_remove_sent_reliable_command_frame (peer : ENetPeer)
    (store : PacketStore) (reliableSequenceNumber channelID : Nat) :
    (enet_protocol_remove_sent_reliable_command peer store reliableSequenceNumber
        channelID).peer.state = peer.state ∧
    (enet_protocol_remove_sent_reliable_command peer store reliableSequenceNumber
        channelID).peer.incomingPeerID = peer.incomingPeerID ∧
    (enet_protocol_remove_sent_reliable_command peer store reliableSequenceNumber
        channelID).peer.needsDispatch = peer.needsDispatch ∧
    (enet_protocol_remove_sent_reliable_command peer store reliableSequenceNumber
        channelID).peer.incomingBandwidth = peer.incomingBandwidth ∧
    (enet_protocol_remove_sent_reliable_command peer store reliableSequenceNumber
        channelID).peer.eventData = peer.eventData := by
  unfold enet_protocol_remove_sent_reliable_command
  dsimp only
  repeat' split
  all_goals exact ⟨rfl, rfl, rfl, rfl, rfl⟩

/-- The command number that `enet_protocol_remove_sent_reliable_command` returns for a
command it finds in `sentReliableCommands`. -/
theorem enet_protocol_remove_sent_reliable_command_found (peer : ENetPeer)
    (store : PacketStore) (reliableSequenceNumber channelID k : Nat)
    (oc : ENetOutgoingCommand)
    (hfind : findSentReliable reliableSequenceNumber channelID peer.sentReliableCommands
      = some k)
    (hget : peer.sentReliableCommands.get? k = some oc) :
    (enet_protocol_remove_sent_reliable_command peer store reliableSequenceNumber
        channelID).commandNumber = oc.command.command &&& ENET_PROTOCOL_COMMAND_MASK := by
  unfold enet_protocol_remove_sent_reliable_command
  rw [hfind]
  dsimp only
  simp only [if_true, hget]
  split <;> rfl

/-- Resetting a peer empties its queues. -/
theorem enet_peer_reset_empties (hdr : ENetHeader) (host : ENetHost) (peer : ENetPeer)
    (store : PacketStore) :
    (enet_peer_reset hdr host peer store).2.1.outgoingCommands = [] ∧
    (enet_peer_reset hdr host peer store).2.1.sentReliableCommands = [] ∧
    (enet_peer_reset hdr host peer store).2.1.channels = [] ∧
    (enet_peer_reset hdr host peer store).2.1.reliableDataInTransit = 0 ∧
    (enet_peer_reset hdr host peer store).2.1.incomingPeerID = peer.incomingPeerID := by
  unfold enet_peer_reset
  dsimp only
  rw [(enet_peer_reset_queues_keeps _ _ _).2]
  exact ⟨rfl, rfl, rfl, rfl, rfl⟩

/-- C11: `enet_peer_disconnect` on a peer in `CONNECTED` or `DISCONNECT_LATER`, with memory
for one command, leaves the peer `DISCONNECTING` with all its queues empty but for
`outgoingCommands`, which holds exactly one command: `DISCONNECT` with the `ACKNOWLEDGE` flag
on channel `0xFF` carrying the data; in `DISCONNECTING`, `DISCONNECTED`,
`ACKNOWLEDGING_DISCONNECT` and `ZOMBIE` it changes nothing; and when a peer in
`DISCONNECTING` receives the acknowledgement of a sent `DISCONNECT` command,
`enet_protocol_handle_acknowledge` returns 0 and either fills the event slot with a
`DISCONNECT` event and resets the peer (`DISCONNECTED`, no queues), or, without an event
slot, makes the peer a `ZOMBIE` with `eventData` 0 on the dispatch queue. -/
theorem enet_peer_disconnect_spec (hdr : ENetHeader) (time : ENetTime)
    (flush : ENetHost × ENetPeer × PacketStore → ENetHost × ENetPeer × PacketStore)
    (host : ENetHost) (peer : ENetPeer) (store : PacketStore) (data mem : Nat) :
    ((peer.state = ENetPeerState.CONNECTED ∨ peer.state = ENetPeerState.DISCONNECT_LATER) →
      0 < mem →
      (enet_peer_disconnect hdr flush host peer store data mem).peer.state
        = ENetPeerState.DISCONNECTING ∧
      (enet_peer_disconnect hdr flush host peer store data mem).peer.acknowledgements = [] ∧
      (enet_peer_disconnect hdr flush host peer store data mem).peer.sentReliableCommands
        = [] ∧
      (enet_peer_disconnect hdr flush host peer store data mem).peer.sentUnreliableCommands
        = [] ∧
      (enet_peer_disconnect hdr flush host peer store data mem).peer.dispatchedCommands = [] ∧
      (enet_peer_disconnect hdr flush host peer store data mem).peer.channels = [] ∧
      ∃ oc : ENetOutgoingCommand,
        (enet_peer_disconnect hdr flush host peer store data mem).peer.outgoingCommands
          = [oc] ∧
        oc.command.command
          = ENET_PROTOCOL_COMMAND_DISCONNECT ||| ENET_PROTOCOL_COMMAND_FLAG_ACKNOWLEDGE ∧
        oc.command.channelID = 0xFF ∧
        oc.command.body = .disconnect (ENET_HOST_TO_NET_32 data) ∧
        oc.packet = none ∧ oc.sendAttempts = 0 ∧
        oc.reliableSequenceNumber = u16 (peer.outgoingReliableSequenceNumber + 1)) ∧
    ((peer.state = ENetPeerState.DISCONNECTING ∨ peer.state = ENetPeerState.DISCONNECTED ∨
        peer.state = ENetPeerState.ACKNOWLEDGING_DISCONNECT ∨
        peer.state = ENetPeerState.ZOMBIE) →
      enet_peer_disconnect hdr flush host peer store data mem
        = { host := host, peer := peer, store := store, mem := mem }) ∧
    (∀ (event : Option ENetEvent) (ack : ENetProtocol) (k : Nat) (oc : ENetOutgoingCommand),
      peer.state = ENetPeerState.DISCONNECTING →
      time.ENET_TIME_LESS host.serviceTime (acknowledgeSentTime host ack) = false →
      findSentReliable (ENET_NET_TO_HOST_16 ack.acknowledgeView.1) ack.channelID
        peer.sentReliableCommands = some k →
      peer.sentReliableCommands.get? k = some oc →
      oc.command.command &&& ENET_PROTOCOL_COMMAND_MASK = ENET_PROTOCOL_COMMAND_DISCONNECT →
      (peer.needsDispatch = true → peer.incomingPeerID ∈ host.dispatchQueue) →
      (enet_protocol_handle_acknowledge hdr time flush host event peer ack store mem).status
        = 0 ∧
      (∀ e : ENetEvent, event = some e →
        (enet_protocol_handle_acknowledge hdr time flush host event peer ack store mem).event
          = some { e with type := ENetEventType.DISCONNECT,
                          peer := some peer.incomingPeerID, data := 0 } ∧
        (enet_protocol_handle_acknowledge hdr time flush host event peer ack store mem).peer.state
          = ENetPeerState.DISCONNECTED ∧
        (enet_protocol_handle_acknowledge hdr time flush host event peer ack store
          mem).peer.outgoingCommands = [] ∧
        (enet_protocol_handle_acknowledge hdr time flush host event peer ack store
          mem).peer.sentReliableCommands = [] ∧
        (enet_protocol_handle_acknowledge hdr time flush host event peer ack store
          mem).peer.channels = [] ∧
        ∃ (host1 : ENetHost) (peer1 : ENetPeer) (store1 : PacketStore),
          peer1.incomingPeerID = peer.incomingPeerID ∧
          ((enet_protocol_handle_acknowledge hdr time flush host event peer ack store mem).host,
           (enet_protocol_handle_acknowledge hdr time flush host event peer ack store mem).peer,
           (enet_protocol_handle_acknowledge hdr time flush host event peer ack store mem).store)
            = enet_peer_reset hdr host1 peer1 store1) ∧
      (event = none →
        (enet_protocol_handle_acknowledge hdr time flush host event peer ack store mem).event
          = none ∧
        (enet_protocol_handle_acknowledge hdr time flush host event peer ack store mem).peer.state
          = ENetPeerState.ZOMBIE ∧
        (enet_protocol_handle_acknowledge hdr time flush host event peer ack store
          mem).peer.eventData = 0 ∧
        (enet_protocol_handle_acknowledge hdr time flush host event peer ack store
          mem).peer.needsDispatch = true ∧
        peer.incomingPeerID ∈
          (enet_protocol_handle_acknowledge hdr time flush host event peer ack store
            mem).host.dispatchQueue)) := by
  refine ⟨fun hst hmem => ?_, fun hst => ?_, fun event ack k oc hst htime hfind hget hcmd hlink => ?_⟩
  · -- the queues are emptied, the command is queued, the state changes
    have hnot : ¬ (peer.state = ENetPeerState.DISCONNECTING ∨
        peer.state = ENetPeerState.DISCONNECTED ∨
        peer.state = ENetPeerState.ACKNOWLEDGING_DISCONNECT ∨
        peer.state = ENetPeerState.ZOMBIE) := by
      rcases hst with h | h <;> rw [h] <;> decide
    obtain ⟨hq1, hq2⟩ := enet_peer_reset_queues_keeps host peer store
    have hconn : (enet_peer_reset_queues host peer store).2.1.state = ENetPeerState.CONNECTED ∨
        (enet_peer_reset_queues host peer store).2.1.state
          = ENetPeerState.DISCONNECT_LATER := by
      rw [hq2]; exact hst
    have hqueue := enet_peer_queue_outgoing_command_control_eq
      (enet_peer_reset_queues host peer store).2.1
      { command := ENET_PROTOCOL_COMMAND_DISCONNECT ||| ENET_PROTOCOL_COMMAND_FLAG_ACKNOWLEDGE,
        channelID := 0xFF, reliableSequenceNumber := 0,
        body := .disconnect (ENET_HOST_TO_NET_32 data) } mem rfl hmem
      (by show (ENET_PROTOCOL_COMMAND_DISCONNECT ||| ENET_PROTOCOL_COMMAND_FLAG_ACKNOWLEDGE)
            &&& ENET_PROTOCOL_COMMAND_MASK ≠ ENET_PROTOCOL_COMMAND_SEND_UNRELIABLE
          decide)
      (by show (ENET_PROTOCOL_COMMAND_DISCONNECT ||| ENET_PROTOCOL_COMMAND_FLAG_ACKNOWLEDGE)
            &&& ENET_PROTOCOL_COMMAND_MASK ≠ ENET_PROTOCOL_COMMAND_SEND_UNSEQUENCED
          decide)
    have hres : (enet_peer_disconnect hdr flush host peer store data mem).peer
        = { (enet_peer_reset_queues host peer store).2.1 with
            state := ENetPeerState.DISCONNECTING,
            outgoingDataTotal := u32 ((enet_peer_reset_queues host peer store).2.1.outgoingDataTotal
              + enet_protocol_command_size
                  (ENET_PROTOCOL_COMMAND_DISCONNECT ||| ENET_PROTOCOL_COMMAND_FLAG_ACKNOWLEDGE)
              + u16 0),
            outgoingReliableSequenceNumber :=
              u16 ((enet_peer_reset_queues host peer store).2.1.outgoingReliableSequenceNumber + 1),
            outgoingCommands :=
              (enet_peer_reset_queues host peer store).2.1.outgoingCommands ++
              [{ reliableSequenceNumber :=
                   u16 ((enet_peer_reset_queues host peer store).2.1.outgoingReliableSequenceNumber
                     + 1),
                 unreliableSequenceNumber := 0, sentTime := 0, roundTripTimeout := 0,
                 roundTripTimeoutLimit := 0, fragmentOffset := u32 0, fragmentLength := u16 0,
                 sendAttempts := 0,
                 command :=
                   { command := ENET_PROTOCOL_COMMAND_DISCONNECT |||
                       ENET_PROTOCOL_COMMAND_FLAG_ACKNOWLEDGE,
                     channelID := 0xFF,
                     reliableSequenceNumber := ENET_HOST_TO_NET_16
                       (u16 ((enet_peer_reset_queues host peer store).2.1.outgoingReliableSequenceNumber
                         + 1)),
                     body := .disconnect (ENET_HOST_TO_NET_32 data) },
                 packet := none }] } := by
      unfold enet_peer_disconnect
      rw [if_neg hnot]
      dsimp only
      simp only [hconn, decide_True, if_true]
      rw [hqueue]
    rw [hres, hq2]
    exact ⟨rfl, rfl, rfl, rfl, rfl, rfl, _, rfl, rfl, rfl, rfl, rfl, rfl, rfl⟩
  · unfold enet_peer_disconnect
    rw [if_pos hst]
  · -- the acknowledgement
    have hframe := acknowledgeRoundTrip_frame time host peer
      (max (u32 (time.ENET_TIME_DIFFERENCE host.serviceTime (acknowledgeSentTime host ack))) 1)
    generalize hP : acknowledgeRoundTrip time host peer
      (max (u32 (time.ENET_TIME_DIFFERENCE host.serviceTime (acknowledgeSentTime host ack))) 1)
      = P at hframe
    have hPstate : P.state = peer.state := congrArg (·.1) hframe
    have hPid : P.incomingPeerID = peer.incomingPeerID := congrArg (·.2.1) hframe
    have hPflag : P.needsDispatch = peer.needsDispatch := congrArg (·.2.2.1) hframe
    have hPsent : P.sentReliableCommands = peer.sentReliableCommands :=
      congrArg (·.2.2.2.2.1) hframe
    obtain ⟨hR1, hR2, hR3, -, -⟩ := enet_protocol_remove_sent_reliable_command_frame P store
      (ENET_NET_TO_HOST_16 ack.acknowledgeView.1) ack.channelID
    have hRcmd := enet_protocol_remove_sent_reliable_command_found P store
      (ENET_NET_TO_HOST_16 ack.acknowledgeView.1) ack.channelID k oc
      (by rw [hPsent]; exact hfind) (by rw [hPsent]; exact hget)
    generalize hR : enet_protocol_remove_sent_reliable_command P store
      (ENET_NET_TO_HOST_16 ack.acknowledgeView.1) ack.channelID = R at hR1 hR2 hR3 hRcmd
    have hRstate : R.peer.state = ENetPeerState.DISCONNECTING := by rw [hR1, hPstate, hst]
    have hack : enet_protocol_handle_acknowledge hdr time flush host event peer ack store mem
        = (let (host, peer, event, store) :=
             enet_protocol_notify_disconnect hdr host R.peer event R.store
           { status := 0, host := host, peer := peer, event := event, store := store,
             mem := mem }) := by
      unfold enet_protocol_handle_acknowledge
      rw [if_neg (by rw [hst]; decide)]
      dsimp only
      rw [if_neg (by rw [htime]; decide)]
      rw [hP, hR]
      unfold acknowledgeFinish
      rw [if_neg (by rw [hRstate]; decide), if_pos hRstate, if_neg (by rw [hRcmd, hcmd]; decide)]
    have hnd : ¬ (R.peer.state ≠ ENetPeerState.CONNECTING ∧
        R.peer.state.toNat < ENetPeerState.CONNECTION_SUCCEEDED.toNat) := by
      rw [hRstate]; decide
    rw [hack]
    unfold enet_protocol_notify_disconnect
    rw [if_neg hnd]
    dsimp only
    refine ⟨?_, fun e he => ?_, fun he => ?_⟩
    · cases event <;> rfl
    · subst he
      dsimp only
      obtain ⟨hk1, hk2, -⟩ := enet_peer_reset_keeps hdr
        (if R.peer.state.toNat ≥ ENetPeerState.CONNECTION_PENDING.toNat then
          { host with recalculateBandwidthLimits := 1 } else host) R.peer R.store
      obtain ⟨he1, he2, he3, -⟩ := enet_peer_reset_empties hdr
        (if R.peer.state.toNat ≥ ENetPeerState.CONNECTION_PENDING.toNat then
          { host with recalculateBandwidthLimits := 1 } else host) R.peer R.store
      exact ⟨by rw [hR2, hPid], hk2, he1, he2, he3, _, R.peer, _, by rw [hR2, hPid], rfl⟩
    · subst he
      dsimp only
      have hidle := enet_protocol_dispatch_state_idle
        (if R.peer.state.toNat ≥ ENetPeerState.CONNECTION_PENDING.toNat then
          { host with recalculateBandwidthLimits := 1 } else host)
        { R.peer with eventData := 0 } ENetPeerState.ZOMBIE (by decide)
        (by show ¬ (R.peer.state = ENetPeerState.CONNECTED ∨
              R.peer.state = ENetPeerState.DISCONNECT_LATER)
            rw [hRstate]; decide)
      rw [hidle]
      refine ⟨rfl, rfl, rfl, rfl, ?_⟩
      show peer.incomingPeerID ∈
        (if R.peer.needsDispatch = true then
          (if R.peer.state.toNat ≥ ENetPeerState.CONNECTION_PENDING.toNat then
            { host with recalculateBandwidthLimits := 1 } else host).dispatchQueue
         else
          (if R.peer.state.toNat ≥ ENetPeerState.CONNECTION_PENDING.toNat then
            { host with recalculateBandwidthLimits := 1 } else host).dispatchQueue
            ++ [R.peer.incomingPeerID])
      have hq : (if R.peer.state.toNat ≥ ENetPeerState.CONNECTION_PENDING.toNat then
            { host with recalculateBandwidthLimits := 1 } else host).dispatchQueue
          = host.dispatchQueue := by
        split <;> rfl
      rw [hq]
      by_cases hflag : R.peer.needsDispatch = true
      · rw [if_pos hflag]
        exact hlink (by rw [← hPflag, ← hR3]; exact hflag)
      · rw [if_neg hflag, hR2, hPid]
        exact List.mem_append_right _ (List.mem_singleton_self _)

/-- Witness of C11: the sample peer is disconnected with data 7, its `DISCONNECT` command is
sent, and the acknowledgement of it gives the `DISCONNECT` event and the reset slot. -/
theorem enet_peer_disconnect_spec_witness :
    sampleDisconnecting.peer.state = ENetPeerState.DISCONNECTING ∧
    (enet_protocol_handle_acknowledge sampleHeader sampleTime id sampleDisconnectSent.host
      (some sampleEvent) sampleDisconnectSent.peer sampleDisconnectAck
      sampleDisconnectSent.store sampleDisconnectSent.mem).peer.state
      = ENetPeerState.DISCONNECTED ∧
    (enet_protocol_handle_acknowledge sampleHeader sampleTime id sampleDisconnectSent.host
      (some sampleEvent) sampleDisconnectSent.peer sampleDisconnectAck
      sampleDisconnectSent.store sampleDisconnectSent.mem).event
      = some { sampleEvent with type := ENetEventType.DISCONNECT, peer := some 0 } :=
  ⟨((enet_peer_disconnect_spec sampleHeader sampleTime id sampleHost samplePeer [] 7 4).1
      (Or.inl rfl) (by decide)).1,
   (((enet_peer_disconnect_spec sampleHeader sampleTime id sampleDisconnectSent.host
      sampleDisconnectSent.peer sampleDisconnectSent.store 7 sampleDisconnectSent.mem).2.2
      (some sampleEvent) sampleDisconnectAck 0
      (sampleDisconnectSent.peer.sentReliableCommands.headD (sampleUnreliableCommand 0 0))
      (by decide) (by decide) (by decide) (by decide) (by decide) (by decide)).2.1
      sampleEvent rfl).2.1,
   (((enet_peer_disconnect_spec sampleHeader sampleTime id sampleDisconnectSent.host
      sampleDisconnectSent.peer sampleDisconnectSent.store 7 sampleDisconnectSent.mem).2.2
      (some sampleEvent) sampleDisconnectAck 0
      (sampleDisconnectSent.peer.sentReliableCommands.headD (sampleUnreliableCommand 0 0))
      (by decide) (by decide) (by decide) (by decide) (by decide) (by decide)).2.1
      sampleEvent rfl).1⟩

/-! ## Checksum -/

set_option maxRecDepth 100000 in
/-- Every entry of `crcTable` is the bitwise-computed value for its index. -/
theorem crcTable_eq : crcTable = (List.range 256).map ieeeCrc32TableEntry := by
  decide

/-- The bit step distributes over xor. -/
theorem ieeeCrc32Bit_xor (a b : Nat) :
    ieeeCrc32Bit (a ^^^ b) = ieeeCrc32Bit a ^^^ ieeeCrc32Bit b := by
  unfold ieeeCrc32Bit
  have hx : (a ^^^ b) &&& 1 = (a &&& 1) ^^^ (b &&& 1) := Nat.and_xor_distrib_right
  have hs : (a ^^^ b) >>> 1 = (a >>> 1) ^^^ (b >>> 1) := by
    apply Nat.eq_of_testBit_eq
    intro i
    simp only [Nat.testBit_shiftRight, Nat.testBit_xor]
  have ha : a &&& 1 = 0 ∨ a &&& 1 = 1 := by
    have : a &&& 1 = a % 2 := Nat.and_one_is_mod a
    omega
  have hb : b &&& 1 = 0 ∨ b &&& 1 = 1 := by
    have : b &&& 1 = b % 2 := Nat.and_one_is_mod b
    omega
  rw [hx, hs]
  generalize a >>> 1 = x
  generalize b >>> 1 = y
  rcases ha with ha | ha <;> rcases hb with hb | hb <;> rw [ha, hb]
  · simp
  · have : (0 : Nat) ^^^ 1 = 1 := by decide
    rw [this, if_pos rfl, if_neg (by decide), if_pos rfl, Nat.xor_assoc]
  · have : (1 : Nat) ^^^ 0 = 1 := by decide
    rw [this, if_pos rfl, if_pos rfl, if_neg (by decide)]
    rw [Nat.xor_assoc, Nat.xor_assoc, Nat.xor_comm y]
  · have : (1 : Nat) ^^^ 1 = 0 := by decide
    rw [this, if_neg (by decide), if_pos rfl, if_pos rfl]
    rw [Nat.xor_assoc x 3988292384, ← Nat.xor_assoc 3988292384 y, Nat.xor_comm 3988292384 y,
      Nat.xor_assoc y, Nat.xor_self, Nat.xor_zero]

/-- Any number of bit steps distributes over xor. -/
theorem ieeeCrc32Bit_iterate_xor (n a b : Nat) :
    ieeeCrc32Bit^[n] (a ^^^ b) = ieeeCrc32Bit^[n] a ^^^ ieeeCrc32Bit^[n] b := by
  induction n generalizing a b with
  | zero => rfl
  | succ n ih =>
    rw [Function.iterate_succ_apply, Function.iterate_succ_apply, Function.iterate_succ_apply,
      ieeeCrc32Bit_xor, ih]

/-- Bit steps on a register whose low bits are clear only shift. -/
theorem ieeeCrc32Bit_iterate_shiftLeft (n h : Nat) :
    ieeeCrc32Bit^[n] (h <<< n) = h := by
  induction n generalizing h with
  | zero => rfl
  | succ n ih =>
    rw [Function.iterate_succ_apply]
    have hstep : ieeeCrc32Bit (h <<< (n + 1)) = h <<< n := by
      unfold ieeeCrc32Bit
      rw [Nat.shiftLeft_succ, Nat.and_one_is_mod, Nat.shiftRight_eq_div_pow]
      generalize h <<< n = x
      rw [if_neg (by omega)]
      omega
    rw [hstep, ih]

/-- The table-driven step of `enet_crc32` is the bitwise step for one byte. -/
theorem enet_crc32_step (crc byte : Nat) (hbyte : byte < 256) :
    (crc >>> 8) ^^^ crcTable.getD ((crc &&& 0xFF) ^^^ byte) 0 = ieeeCrc32Byte crc byte := by
  have hlow : (crc &&& 0xFF) ^^^ byte < 256 := by
    have h1 : crc &&& 0xFF < 2 ^ 8 := by
      have : crc &&& 0xFF = crc % 2 ^ 8 := Nat.and_pow_two_sub_one_eq_mod crc 8
      rw [this]
      exact Nat.mod_lt _ (by decide)
    exact Nat.xor_lt_two_pow h1 hbyte
  have htable : crcTable.getD ((crc &&& 0xFF) ^^^ byte) 0
      = ieeeCrc32Bit^[8] ((crc &&& 0xFF) ^^^ byte) := by
    rw [crcTable_eq, List.getD_eq_getElem?_getD, List.getElem?_map,
      List.getElem?_range hlow]
    rfl
  have hsplit : crc ^^^ byte = ((crc >>> 8) <<< 8) ^^^ ((crc &&& 0xFF) ^^^ byte) := by
    apply Nat.eq_of_testBit_eq
    intro i
    have hff : (0xFF : Nat) = 2 ^ 8 - 1 := by decide
    simp only [Nat.testBit_xor, Nat.testBit_shiftLeft, Nat.testBit_shiftRight,
      Nat.testBit_and, hff, Nat.testBit_two_pow_sub_one]
    by_cases hi : i < 8
    · simp [hi, Nat.not_le.mpr hi]
    · have hge : 8 ≤ i := Nat.not_lt.mp hi
      simp [hi, hge, Nat.add_sub_cancel' hge]
  unfold ieeeCrc32Byte
  rw [htable, hsplit, ieeeCrc32Bit_iterate_xor 8 ((crc >>> 8) <<< 8),
    ieeeCrc32Bit_iterate_shiftLeft]

/-- The inner loop of `enet_crc32` folds the bitwise byte step over the buffer. -/
theorem enet_crc32_buffer_eq (data : List Nat) (crc : Nat) (hdata : ∀ byte ∈ data, byte < 256) :
    enet_crc32_buffer crc data = data.foldl ieeeCrc32Byte crc := by
  induction data generalizing crc with
  | nil => rfl
  | cons byte data ih =>
    unfold enet_crc32_buffer
    rw [enet_crc32_step crc byte (hdata byte (List.mem_cons_self _ _)), List.foldl_cons]
    exact ih _ (fun b hb => hdata b (List.mem_cons_of_mem _ hb))

/-- The inner loop of `enet_crc32` over two buffers in a row is the loop over their
concatenation. -/
theorem enet_crc32_buffer_append (front back : List Nat) (crc : Nat) :
    enet_crc32_buffer crc (front ++ back)
      = enet_crc32_buffer (enet_crc32_buffer crc front) back := by
  induction front generalizing crc with
  | nil => rfl
  | cons byte front ih =>
    simp only [List.cons_append, enet_crc32_buffer]
    exact ih _

/-- The two loops of `enet_crc32` are the inner loop over the concatenation of the
buffers. -/
theorem enet_crc32_buffers_join (buffers : List (List Nat)) (crc : Nat) :
    enet_crc32_buffers crc buffers = enet_crc32_buffer crc buffers.flatten := by
  induction buffers generalizing crc with
  | nil => rfl
  | cons buffer buffers ih =>
    unfold enet_crc32_buffers
    rw [List.flatten_cons, enet_crc32_buffer_append]
    exact ih _

/-- C14: every entry of `crcTable` equals the bitwise-computed table value for its index (eight
steps of the reflected polynomial `0xEDB88320`); for buffers of bytes `enet_crc32` is the
IEEE 802.3 CRC-32 (initial value `0xFFFFFFFF`, final complement) of their concatenation, put
in network byte order; and two lists of buffers with the same concatenation have the same
`enet_crc32`. -/
theorem enet_crc32_spec :
    crcTable.length = 256 ∧
    (∀ index, index < 256 → crcTable.get? index = some (ieeeCrc32TableEntry index)) ∧
    (∀ buffers : List (List Nat), (∀ buffer ∈ buffers, ∀ byte ∈ buffer, byte < 256) →
      enet_crc32 buffers = ENET_HOST_TO_NET_32 (ieeeCrc32 buffers.flatten)) ∧
    (∀ buffers1 buffers2 : List (List Nat), buffers1.flatten = buffers2.flatten →
      enet_crc32 buffers1 = enet_crc32 buffers2) := by
  refine ⟨by rw [crcTable_eq, List.length_map, List.length_range], fun index hindex => ?_,
    fun buffers hbytes => ?_, fun buffers1 buffers2 hjoin => ?_⟩
  · rw [crcTable_eq, List.get?_eq_getElem?, List.getElem?_map, List.getElem?_range hindex]
    rfl
  · unfold enet_crc32 ieeeCrc32
    rw [enet_crc32_buffers_join, enet_crc32_buffer_eq, Nat.xor_comm]
    intro byte hbyte
    obtain ⟨buffer, hbuffer, hmem⟩ := List.mem_flatten.mp hbyte
    exact hbytes buffer hbuffer byte hmem
  · unfold enet_crc32
    rw [enet_crc32_buffers_join, enet_crc32_buffers_join, hjoin]

set_option maxRecDepth 100000 in
/-- Witness of C14: the bytes of the text "123456789" in two buffers have the checksum
`0xCBF43926`, the check value of the IEEE 802.3 CRC-32. -/
theorem enet_crc32_spec_witness :
    enet_crc32 [[49, 50, 51], [52, 53, 54, 55, 56, 57]]
      = ENET_HOST_TO_NET_32 (ieeeCrc32 [49, 50, 51, 52, 53, 54, 55, 56, 57]) ∧
    ieeeCrc32 [49, 50, 51, 52, 53, 54, 55, 56, 57] = 0xCBF43926 :=
  ⟨enet_crc32_spec.2.2.1 [[49, 50, 51], [52, 53, 54, 55, 56, 57]] (by decide), by decide⟩

/-! ## Counters of the host -/

/-- Counting after a slot has been overwritten. -/
theorem countP_set_eraseIdx {α : Type} (p : α → Bool) (b : α) :
    ∀ (l : List α) (i : Nat), i < l.length →
      (l.set i b).countP p = (l.eraseIdx i).countP p + (if p b then 1 else 0) := by
  intro l
  induction l with
  | nil => intro i h; simp at h
  | cons a l ih =>
    intro i h
    cases i with
    | zero =>
      simp only [List.set_cons_zero, List.eraseIdx_cons_zero, List.countP_cons]
    | succ i =>
      simp only [List.set_cons_succ, List.eraseIdx_cons_succ, List.countP_cons]
      rw [ih i (by simpa using h)]
      omega

/-- The slots other than one leave room for it in the count. -/
theorem countP_eraseIdx_lt {α : Type} (p : α → Bool) (l : List α) (i : Nat)
    (h : i < l.length) : (l.eraseIdx i).countP p + 1 ≤ l.length := by
  have h1 := List.countP_le_length p (l := l.eraseIdx i)
  rw [List.length_eraseIdx] at h1
  split at h1 <;> omega

/-- The invariant of `connectedPeers` at a slot, with the slot counted apart. -/
theorem connectedPeersAt_iff (slot : Nat) (host : ENetHost) (peer : ENetPeer) :
    ConnectedPeersAt slot host peer ↔
      slot < host.peers.length ∧ host.peers.length < 18446744073709551616 ∧
      host.connectedPeers = (host.peers.eraseIdx slot).countP ENetPeer.connected
        + (if peer.connected then 1 else 0) := by
  unfold ConnectedPeersAt ConnectedPeersInv ENetHost.withPeer
  constructor
  · rintro ⟨h1, h2, h3⟩
    exact ⟨h1, h2, by rw [← countP_set_eraseIdx _ _ _ _ h1]; exact h3⟩
  · rintro ⟨h1, h2, h3⟩
    exact ⟨h1, h2, by show host.connectedPeers = _; rw [countP_set_eraseIdx _ _ _ _ h1]; exact h3⟩

/-- The invariant of `bandwidthLimitedPeers` at a slot, with the slot counted apart. -/
theorem bandwidthLimitedPeersAt_iff (slot : Nat) (host : ENetHost) (peer : ENetPeer) :
    BandwidthLimitedPeersAt slot host peer ↔
      slot < host.peers.length ∧ host.peers.length < 18446744073709551616 ∧
      host.bandwidthLimitedPeers
        = (host.peers.eraseIdx slot).countP ENetPeer.bandwidthLimited
          + (if peer.bandwidthLimited then 1 else 0) := by
  unfold BandwidthLimitedPeersAt BandwidthLimitedPeersInv ENetHost.withPeer
  constructor
  · rintro ⟨h1, h2, h3⟩
    exact ⟨h1, h2, by rw [← countP_set_eraseIdx _ _ _ _ h1]; exact h3⟩
  · rintro ⟨h1, h2, h3⟩
    exact ⟨h1, h2, by
      show host.bandwidthLimitedPeers = _; rw [countP_set_eraseIdx _ _ _ _ h1]; exact h3⟩

/-- What `enet_peer_on_disconnect` does to the host, by the connectedness of the peer. -/
theorem enet_peer_on_disconnect_eq (host : ENetHost) (peer : ENetPeer) :
    (enet_peer_on_disconnect host peer).peers = host.peers ∧
    (enet_peer_on_disconnect host peer).connectedPeers
      = (if peer.connected then usizeSub host.connectedPeers 1 else host.connectedPeers) ∧
    (enet_peer_on_disconnect host peer).bandwidthLimitedPeers
      = (if peer.bandwidthLimited then usizeSub host.bandwidthLimitedPeers 1
         else host.bandwidthLimitedPeers) := by
  unfold enet_peer_on_disconnect
  by_cases h : peer.state = ENetPeerState.CONNECTED ∨ peer.state = ENetPeerState.DISCONNECT_LATER
  · have hc : peer.connected = true := by simp [ENetPeer.connected, h]
    rw [if_pos h, if_pos hc]
    by_cases hb : peer.incomingBandwidth ≠ 0
    · have hl : peer.bandwidthLimited = true := by simp [ENetPeer.bandwidthLimited, hc, hb]
      rw [if_pos hb, if_pos hl]
      exact ⟨rfl, rfl, rfl⟩
    · have hl : ¬ peer.bandwidthLimited = true := by
        simp only [ENetPeer.bandwidthLimited, hc, Bool.true_and, decide_eq_true_eq]
        exact hb
      rw [if_neg hb, if_neg hl]
      exact ⟨rfl, rfl, rfl⟩
  · have hc : ¬ peer.connected = true := by simp [ENetPeer.connected, h]
    have hl : ¬ peer.bandwidthLimited = true := by
      simp only [ENetPeer.bandwidthLimited, Bool.and_eq_true, not_and]
      exact fun hn => absurd hn hc
    rw [if_neg h, if_neg hc, if_neg hl]
    exact ⟨rfl, rfl, rfl⟩

/-- What `enet_peer_on_connect` does to the host, by the connectedness of the peer. -/
theorem enet_peer_on_connect_eq (host : ENetHost) (peer : ENetPeer) :
    (enet_peer_on_connect host peer).peers = host.peers ∧
    (enet_peer_on_connect host peer).connectedPeers
      = (if peer.connected then host.connectedPeers else usize (host.connectedPeers + 1)) ∧
    (enet_peer_on_connect host peer).bandwidthLimitedPeers
      = (if peer.connected = false ∧ peer.incomingBandwidth ≠ 0 then
          usize (host.bandwidthLimitedPeers + 1)
         else host.bandwidthLimitedPeers) := by
  unfold enet_peer_on_connect
  by_cases h : peer.state = ENetPeerState.CONNECTED ∨ peer.state = ENetPeerState.DISCONNECT_LATER
  · have hc : peer.connected = true := by simp [ENetPeer.connected, h]
    have h1 : ¬ (peer.state ≠ ENetPeerState.CONNECTED ∧
        peer.state ≠ ENetPeerState.DISCONNECT_LATER) := by
      intro hn; rcases h with h | h
      · exact hn.1 h
      · exact hn.2 h
    have h2 : ¬ (peer.connected = false ∧ peer.incomingBandwidth ≠ 0) := by
      rw [hc]; exact fun hn => Bool.noConfusion hn.1
    rw [if_neg h1, if_pos hc, if_neg h2]
    exact ⟨rfl, rfl, rfl⟩
  · have hc : peer.connected = false := by simp [ENetPeer.connected, h]
    have hc' : ¬ peer.connected = true := by rw [hc]; exact Bool.noConfusion
    have h1 : peer.state ≠ ENetPeerState.CONNECTED ∧
        peer.state ≠ ENetPeerState.DISCONNECT_LATER :=
      ⟨fun hn => h (Or.inl hn), fun hn => h (Or.inr hn)⟩
    rw [if_pos h1, if_neg hc']
    by_cases hb : peer.incomingBandwidth ≠ 0
    · rw [if_pos hb, if_pos ⟨hc, hb⟩]
      exact ⟨rfl, rfl, rfl⟩
    · rw [if_neg hb, if_neg (fun hn => hb hn.2)]
      exact ⟨rfl, rfl, rfl⟩

/-- Decrement of a positive `size_t`. -/
theorem usizeSub_one (x : Nat) (h : x + 1 < 18446744073709551616) :
    usizeSub (x + 1) 1 = x := by
  unfold usizeSub usize; omega

/-- The invariant of `connectedPeers` at a slot is kept by the steps of which the state
changes are made. -/
theorem connectedPeersAt_invariant (slot : Nat) : CounterInvariant (ConnectedPeersAt slot) := by
  refine ⟨fun host peer peer1 hI h1 => ?_, fun host peer peer1 hI h1 _ => ?_,
    fun host peer peer1 hI h1 _ => ?_, fun host host1 peer hI hp hc _ => ?_⟩
  · rw [connectedPeersAt_iff] at hI ⊢
    obtain ⟨hs, hlen, hcount⟩ := hI
    obtain ⟨e1, e2, -⟩ := enet_peer_on_disconnect_eq host peer
    have hroom := countP_eraseIdx_lt ENetPeer.connected host.peers slot hs
    rw [e1, e2, h1]
    refine ⟨hs, hlen, ?_⟩
    cases hpc : peer.connected
    · rw [hpc] at hcount
      simpa using hcount
    · rw [hpc] at hcount
      simp only [if_true] at hcount ⊢
      rw [hcount, usizeSub_one _ (by omega)]
      simp
  · rw [connectedPeersAt_iff] at hI ⊢
    obtain ⟨hs, hlen, hcount⟩ := hI
    obtain ⟨e1, e2, -⟩ := enet_peer_on_connect_eq host peer
    have hroom := countP_eraseIdx_lt ENetPeer.connected host.peers slot hs
    rw [e1, e2, h1]
    refine ⟨hs, hlen, ?_⟩
    cases hpc : peer.connected
    · rw [hpc] at hcount
      simp only [Bool.false_eq_true, if_false, if_true, Nat.add_zero] at hcount ⊢
      rw [hcount, usize_of_lt (by omega)]
    · rw [hpc] at hcount
      simpa using hcount
  · rw [connectedPeersAt_iff] at hI ⊢
    rw [h1]
    exact hI
  · rw [connectedPeersAt_iff] at hI ⊢
    rw [hp, hc]
    exact hI

/-- The invariant of `bandwidthLimitedPeers` at a slot is kept by the steps of which the
state changes are made. -/
theorem bandwidthLimitedPeersAt_invariant (slot : Nat) :
    CounterInvariant (BandwidthLimitedPeersAt slot) := by
  refine ⟨fun host peer peer1 hI h1 => ?_, fun host peer peer1 hI h1 hb => ?_,
    fun host peer peer1 hI h1 hb => ?_, fun host host1 peer hI hp _ hc => ?_⟩
  · rw [bandwidthLimitedPeersAt_iff] at hI ⊢
    obtain ⟨hs, hlen, hcount⟩ := hI
    obtain ⟨e1, -, e3⟩ := enet_peer_on_disconnect_eq host peer
    have hroom := countP_eraseIdx_lt ENetPeer.bandwidthLimited host.peers slot hs
    have hl1 : peer1.bandwidthLimited = false := by simp [ENetPeer.bandwidthLimited, h1]
    rw [e1, e3, hl1]
    refine ⟨hs, hlen, ?_⟩
    cases hpc : peer.bandwidthLimited
    · rw [hpc] at hcount
      simpa using hcount
    · rw [hpc] at hcount
      simp only [if_true] at hcount ⊢
      rw [hcount, usizeSub_one _ (by omega)]
      simp
  · rw [bandwidthLimitedPeersAt_iff] at hI ⊢
    obtain ⟨hs, hlen, hcount⟩ := hI
    obtain ⟨e1, -, e3⟩ := enet_peer_on_connect_eq host peer
    have hroom := countP_eraseIdx_lt ENetPeer.bandwidthLimited host.peers slot hs
    rw [e1, e3]
    refine ⟨hs, hlen, ?_⟩
    cases hpc : peer.connected
    · have hl : peer.bandwidthLimited = false := by simp [ENetPeer.bandwidthLimited, hpc]
      rw [hl] at hcount
      by_cases hz : peer.incomingBandwidth ≠ 0
      · have hl1 : peer1.bandwidthLimited = true := by
          simp [ENetPeer.bandwidthLimited, h1, hb, hz]
        rw [if_pos ⟨rfl, hz⟩, hl1, hcount]
        simp only [Bool.false_eq_true, if_false, if_true, Nat.add_zero]
        rw [usize_of_lt (by omega)]
      · have hl1 : peer1.bandwidthLimited = false := by
          simp only [ENetPeer.bandwidthLimited, h1, hb, Bool.true_and, decide_eq_false_iff_not]
          exact hz
        rw [if_neg (fun hn => hz hn.2), hl1]
        exact hcount
    · have hl1 : peer1.bandwidthLimited = peer.bandwidthLimited := by
        simp [ENetPeer.bandwidthLimited, h1, hb, hpc]
      rw [if_neg (by simp), hl1]
      exact hcount
  · rw [bandwidthLimitedPeersAt_iff] at hI ⊢
    have hl1 : peer1.bandwidthLimited = peer.bandwidthLimited := by
      unfold ENetPeer.bandwidthLimited
      rw [h1]
      cases hpc : peer.connected
      · rfl
      · rw [hb hpc]
    rw [hl1]
    exact hI
  · rw [bandwidthLimitedPeersAt_iff] at hI ⊢
    rw [hp, hc]
    exact hI

/-- `enet_protocol_change_state` keeps a counter invariant. -/
theorem enet_protocol_change_state_counter {I : ENetHost → ENetPeer → Prop}
    (hI : CounterInvariant I) (host : ENetHost) (peer : ENetPeer) (state : ENetPeerState)
    (h : I host peer) :
    I (enet_protocol_change_state host peer state).1
      (enet_protocol_change_state host peer state).2 := by
  unfold enet_protocol_change_state
  dsimp only
  by_cases hs : state = ENetPeerState.CONNECTED ∨ state = ENetPeerState.DISCONNECT_LATER
  · rw [if_pos hs]
    exact hI.onConnect host peer _ h (by simp [ENetPeer.connected, hs]) rfl
  · rw [if_neg hs]
    exact hI.onDisconnect host peer _ h (by simp [ENetPeer.connected, hs])

/-- Linking a peer on the dispatch queue keeps a counter invariant. -/
theorem linkDispatch_counter {I : ENetHost → ENetPeer → Prop}
    (hI : CounterInvariant I) (host : ENetHost) (peer : ENetPeer) (h : I host peer) :
    I (linkDispatch host peer).1 (linkDispatch host peer).2 := by
  unfold linkDispatch
  split
  · exact hI.hostChange _ _ _ (hI.peerChange _ _ _ h rfl (fun _ => rfl)) rfl rfl rfl
  · exact h

/-- `enet_protocol_dispatch_state` keeps a counter invariant. -/
theorem enet_protocol_dispatch_state_counter {I : ENetHost → ENetPeer → Prop}
    (hI : CounterInvariant I) (host : ENetHost) (peer : ENetPeer) (state : ENetPeerState)
    (h : I host peer) :
    I (enet_protocol_dispatch_state host peer state).1
      (enet_protocol_dispatch_state host peer state).2 := by
  unfold enet_protocol_dispatch_state
  exact linkDispatch_counter hI _ _ (enet_protocol_change_state_counter hI host peer state h)

/-- `enet_peer_reset_queues` keeps a counter invariant. -/
theorem enet_peer_reset_queues_counter {I : ENetHost → ENetPeer → Prop}
    (hI : CounterInvariant I) (host : ENetHost) (peer : ENetPeer) (store : PacketStore)
    (h : I host peer) :
    I (enet_peer_reset_queues host peer store).1 (enet_peer_reset_queues host peer store).2.1 := by
  obtain ⟨h1, h2⟩ := enet_peer_reset_queues_keeps host peer store
  rw [h1, h2]
  refine hI.hostChange host _ _ (hI.peerChange _ _ _ h rfl (fun _ => rfl)) ?_ ?_ ?_ <;>
    split <;> rfl

/-- `enet_peer_reset` keeps a counter invariant. -/
theorem enet_peer_reset_counter {I : ENetHost → ENetPeer → Prop}
    (hI : CounterInvariant I) (hdr : ENetHeader) (host : ENetHost) (peer : ENetPeer)
    (store : PacketStore) (h : I host peer) :
    I (enet_peer_reset hdr host peer store).1 (enet_peer_reset hdr host peer store).2.1 := by
  obtain ⟨h1, h2, -⟩ := enet_peer_reset_keeps hdr host peer store
  rw [h1]
  exact hI.onDisconnect host peer _ h (by simp [ENetPeer.connected, h2])

/-- Queueing an outgoing command leaves the state and the incoming bandwidth of the peer. -/
theorem enet_peer_queue_outgoing_command_state (peer : ENetPeer) (command : ENetProtocol)
    (pid : Option Nat) (packet : Option ENetPacket) (offset length mem : Nat)
    (r : QueueOutgoingResult)
    (h : enet_peer_queue_outgoing_command peer command pid packet offset length mem = some r) :
    r.peer.state = peer.state ∧ r.peer.incomingBandwidth = peer.incomingBandwidth := by
  unfold enet_peer_queue_outgoing_command at h
  split at h
  · cases h; exact ⟨rfl, rfl⟩
  · dsimp only at h
    split at h
    · cases h
    · rename_i peer1 hsetup
      cases h
      unfold enet_peer_setup_outgoing_command enet_peer_setup_outgoing_command_tail at hsetup
      dsimp only at hsetup
      repeat' split at hsetup
      all_goals first
        | (cases hsetup; exact ⟨rfl, rfl⟩)
        | cases hsetup

/-- `enet_peer_disconnect` keeps a counter invariant that `enet_host_flush` keeps. -/
theorem enet_peer_disconnect_counter {I : ENetHost → ENetPeer → Prop}
    (hI : CounterInvariant I) (hdr : ENetHeader)
    (flush : ENetHost × ENetPeer × PacketStore → ENetHost × ENetPeer × PacketStore)
    (hflush : ∀ h p s, I h p → I (flush (h, p, s)).1 (flush (h, p, s)).2.1)
    (host : ENetHost) (peer : ENetPeer) (store : PacketStore) (data mem : Nat)
    (h : I host peer) :
    I (enet_peer_disconnect hdr flush host peer store data mem).host
      (enet_peer_disconnect hdr flush host peer store data mem).peer := by
  unfold enet_peer_disconnect
  split
  · exact h
  · have hq := enet_peer_reset_queues_counter hI host peer store h
    generalize enet_peer_reset_queues host peer store = rq at hq ⊢
    obtain ⟨host1, peer1, store1⟩ := rq
    dsimp only at hq ⊢
    have hpeer2 : ∀ peer2 : ENetPeer, peer2.state = peer1.state →
        peer2.incomingBandwidth = peer1.incomingBandwidth → I host1 peer2 := by
      intro peer2 hs hb
      exact hI.peerChange _ _ _ hq (by simp [ENetPeer.connected, hs]) (fun _ => hb)
    cases hqr : enet_peer_queue_outgoing_command peer1
        { command := ENET_PROTOCOL_COMMAND_DISCONNECT |||
            (if decide (peer1.state = ENetPeerState.CONNECTED ∨
                peer1.state = ENetPeerState.DISCONNECT_LATER) = true then
              ENET_PROTOCOL_COMMAND_FLAG_ACKNOWLEDGE
             else ENET_PROTOCOL_COMMAND_FLAG_UNSEQUENCED),
          channelID := 0xFF, reliableSequenceNumber := 0,
          body := .disconnect (ENET_HOST_TO_NET_32 data) } none none 0 0 mem with
    | none =>
      dsimp only
      split
      · exact hI.onDisconnect _ _ _ hq (by simp [ENetPeer.connected])
      · have hf := hflush host1 peer1 store1 hq
        generalize flush (host1, peer1, store1) = fl at hf ⊢
        obtain ⟨host2, peer2, store2⟩ := fl
        exact enet_peer_reset_counter hI hdr host2 peer2 store2 hf
    | some r =>
      obtain ⟨hs, hb⟩ := enet_peer_queue_outgoing_command_state _ _ _ _ _ _ _ _ hqr
      have hr := hpeer2 r.peer hs hb
      dsimp only
      split
      · exact hI.onDisconnect _ _ _ hr (by simp [ENetPeer.connected])
      · have hf := hflush host1 r.peer store1 hr
        generalize flush (host1, r.peer, store1) = fl at hf ⊢
        obtain ⟨host2, peer2, store2⟩ := fl
        exact enet_peer_reset_counter hI hdr host2 peer2 store2 hf

/-- `enet_peer_disconnect_now` keeps a counter invariant that `enet_host_flush` keeps. -/
theorem enet_peer_disconnect_now_counter {I : ENetHost → ENetPeer → Prop}
    (hI : CounterInvariant I) (hdr : ENetHeader)
    (flush : ENetHost × ENetPeer × PacketStore → ENetHost × ENetPeer × PacketStore)
    (hflush : ∀ h p s, I h p → I (flush (h, p, s)).1 (flush (h, p, s)).2.1)
    (host : ENetHost) (peer : ENetPeer) (store : PacketStore) (data mem : Nat)
    (h : I host peer) :
    I (enet_peer_disconnect_now hdr flush host peer store data mem).host
      (enet_peer_disconnect_now hdr flush host peer store data mem).peer := by
  unfold enet_peer_disconnect_now
  split
  · exact h
  · dsimp only
    split
    · have hq := enet_peer_reset_queues_counter hI host peer store h
      generalize enet_peer_reset_queues host peer store = rq at hq ⊢
      obtain ⟨host1, peer1, store1⟩ := rq
      dsimp only at hq ⊢
      cases hqr : enet_peer_queue_outgoing_command peer1
          { command := ENET_PROTOCOL_COMMAND_DISCONNECT |||
              ENET_PROTOCOL_COMMAND_FLAG_UNSEQUENCED,
            channelID := 0xFF, reliableSequenceNumber := 0,
            body := .disconnect (ENET_HOST_TO_NET_32 data) } none none 0 0 mem with
      | none =>
        dsimp only
        have hf := hflush host1 peer1 store1 hq
        generalize flush (host1, peer1, store1) = fl at hf ⊢
        obtain ⟨host2, peer2, store2⟩ := fl
        exact enet_peer_reset_counter hI hdr host2 peer2 store2 hf
      | some r =>
        obtain ⟨hs, hb⟩ := enet_peer_queue_outgoing_command_state _ _ _ _ _ _ _ _ hqr
        have hr : I host1 r.peer :=
          hI.peerChange _ _ _ hq (by simp [ENetPeer.connected, hs]) (fun _ => hb)
        dsimp only
        have hf := hflush host1 r.peer store1 hr
        generalize flush (host1, r.peer, store1) = fl at hf ⊢
        obtain ⟨host2, peer2, store2⟩ := fl
        exact enet_peer_reset_counter hI hdr host2 peer2 store2 hf
    · exact enet_peer_reset_counter hI hdr host peer store h

/-- `enet_peer_disconnect_later` keeps a counter invariant that `enet_host_flush` keeps. -/
theorem enet_peer_disconnect_later_counter {I : ENetHost → ENetPeer → Prop}
    (hI : CounterInvariant I) (hdr : ENetHeader)
    (flush : ENetHost × ENetPeer × PacketStore → ENetHost × ENetPeer × PacketStore)
    (hflush : ∀ h p s, I h p → I (flush (h, p, s)).1 (flush (h, p, s)).2.1)
    (host : ENetHost) (peer : ENetPeer) (store : PacketStore) (data mem : Nat)
    (h : I host peer) :
    I (enet_peer_disconnect_later hdr flush host peer store data mem).host
      (enet_peer_disconnect_later hdr flush host peer store data mem).peer := by
  unfold enet_peer_disconnect_later
  split
  · rename_i hc
    refine hI.peerChange _ _ _ h ?_ (fun _ => rfl)
    simp [ENetPeer.connected, hc.1]
  · exact enet_peer_disconnect_counter hI hdr flush hflush host peer store data mem h

/-- `enet_protocol_notify_connect` keeps a counter invariant. -/
theorem enet_protocol_notify_connect_counter {I : ENetHost → ENetPeer → Prop}
    (hI : CounterInvariant I) (host : ENetHost) (peer : ENetPeer) (event : Option ENetEvent)
    (h : I host peer) :
    I (enet_protocol_notify_connect host peer event).1
      (enet_protocol_notify_connect host peer event).2.1 := by
  have h1 : I { host with recalculateBandwidthLimits := 1 } peer :=
    hI.hostChange _ _ _ h rfl rfl rfl
  unfold enet_protocol_notify_connect
  cases event with
  | none =>
    exact enet_protocol_dispatch_state_counter hI _ peer _ h1
  | some e =>
    exact enet_protocol_change_state_counter hI _ peer ENetPeerState.CONNECTED h1

/-- `enet_protocol_notify_disconnect` keeps a counter invariant. -/
theorem enet_protocol_notify_disconnect_counter {I : ENetHost → ENetPeer → Prop}
    (hI : CounterInvariant I) (hdr : ENetHeader) (host : ENetHost) (peer : ENetPeer)
    (event : Option ENetEvent) (store : PacketStore) (h : I host peer) :
    I (enet_protocol_notify_disconnect hdr host peer event store).1
      (enet_protocol_notify_disconnect hdr host peer event store).2.1 := by
  have h1 : I (if peer.state.toNat ≥ ENetPeerState.CONNECTION_PENDING.toNat then
      { host with recalculateBandwidthLimits := 1 } else host) peer := by
    split
    · exact hI.hostChange _ _ _ h rfl rfl rfl
    · exact h
  unfold enet_protocol_notify_disconnect
  dsimp only
  split
  · exact enet_peer_reset_counter hI hdr _ peer store h1
  · cases event with
    | none =>
      exact enet_protocol_dispatch_state_counter hI _ { peer with eventData := 0 } _
        (hI.peerChange _ _ _ h1 rfl (fun _ => rfl))
    | some e =>
      exact enet_peer_reset_counter hI hdr _ peer store h1

/-- `enet_protocol_handle_verify_connect` keeps a counter invariant. -/
theorem enet_protocol_handle_verify_connect_counter {I : ENetHost → ENetPeer → Prop}
    (hI : CounterInvariant I) (host : ENetHost) (event : Option ENetEvent) (peer : ENetPeer)
    (command : ENetProtocol) (store : PacketStore) (h : I host peer) :
    I (enet_protocol_handle_verify_connect host event peer command store).host
      (enet_protocol_handle_verify_connect host event peer command store).peer := by
  unfold enet_protocol_handle_verify_connect
  split
  · exact h
  · rename_i hst
    have hst' : peer.state = ENetPeerState.CONNECTING := not_not.mp hst
    have hnc : peer.connected = false := by simp [ENetPeer.connected, hst']
    dsimp only
    split
    · exact enet_protocol_dispatch_state_counter hI host { peer with eventData := 0 } _
        (hI.peerChange _ _ _ h rfl (fun _ => rfl))
    · obtain ⟨r1, -⟩ := enet_protocol_remove_sent_reliable_command_frame peer store 1 0xFF
      obtain ⟨a1, -⟩ := verifyConnectAdopt_keeps
        (enet_protocol_remove_sent_reliable_command peer store 1 0xFF).peer command
      have hadopt : I host (verifyConnectAdopt
          (enet_protocol_remove_sent_reliable_command peer store 1 0xFF).peer command) := by
        refine hI.peerChange _ _ _ h ?_ (fun hc => ?_)
        · simp [ENetPeer.connected, a1, r1, hst']
        · rw [hnc] at hc; cases hc
      exact enet_protocol_notify_connect_counter hI host _ event hadopt

/-- `enet_protocol_handle_disconnect` keeps a counter invariant. -/
theorem enet_protocol_handle_disconnect_counter {I : ENetHost → ENetPeer → Prop}
    (hI : CounterInvariant I) (hdr : ENetHeader) (host : ENetHost) (peer : ENetPeer)
    (command : ENetProtocol) (store : PacketStore) (h : I host peer) :
    I (enet_protocol_handle_disconnect hdr host peer command store).host
      (enet_protocol_handle_disconnect hdr host peer command store).peer := by
  unfold enet_protocol_handle_disconnect
  split
  · exact h
  · have hq := enet_peer_reset_queues_counter hI host peer store h
    generalize enet_peer_reset_queues host peer store = rq at hq ⊢
    obtain ⟨host1, peer1, store1⟩ := rq
    dsimp only at hq ⊢
    have hs : I (handleDisconnectState hdr host1 peer1 command store1).1
        (handleDisconnectState hdr host1 peer1 command store1).2.1 := by
      unfold handleDisconnectState
      split
      · exact enet_protocol_dispatch_state_counter hI host1 peer1 ENetPeerState.ZOMBIE hq
      · split
        · refine enet_peer_reset_counter hI hdr _ peer1 store1 ?_
          split
          · exact hI.hostChange _ _ _ hq rfl rfl rfl
          · exact hq
        · split
          · exact enet_protocol_change_state_counter hI host1 peer1
              ENetPeerState.ACKNOWLEDGING_DISCONNECT hq
          · exact enet_protocol_dispatch_state_counter hI host1 peer1 ENetPeerState.ZOMBIE hq
    generalize handleDisconnectState hdr host1 peer1 command store1 = ds at hs ⊢
    obtain ⟨host2, peer2, store2⟩ := ds
    dsimp only at hs ⊢
    split
    · exact hI.peerChange _ _ _ hs rfl (fun _ => rfl)
    · exact hs

/-- The switch at the end of `enet_protocol_handle_acknowledge` keeps a counter invariant
that `enet_host_flush` keeps. -/
theorem acknowledgeFinish_counter {I : ENetHost → ENetPeer → Prop}
    (hI : CounterInvariant I) (hdr : ENetHeader)
    (flush : ENetHost × ENetPeer × PacketStore → ENetHost × ENetPeer × PacketStore)
    (hflush : ∀ h p s, I h p → I (flush (h, p, s)).1 (flush (h, p, s)).2.1)
    (host : ENetHost) (event : Option ENetEvent) (peer : ENetPeer) (store : PacketStore)
    (mem commandNumber : Nat) (h : I host peer) :
    I (acknowledgeFinish hdr flush host event peer store mem commandNumber).host
      (acknowledgeFinish hdr flush host event peer store mem commandNumber).peer := by
  unfold acknowledgeFinish
  split
  · split
    · exact h
    · exact enet_protocol_notify_connect_counter hI host peer event h
  · split
    · split
      · exact h
      · exact enet_protocol_notify_disconnect_counter hI hdr host peer event store h
    · split
      · split
        · exact enet_peer_disconnect_counter hI hdr flush hflush host peer store _ mem h
        · exact h
      · exact h

/-- `enet_protocol_handle_acknowledge` keeps a counter invariant that `enet_host_flush`
keeps. -/
theorem enet_protocol_handle_acknowledge_counter {I : ENetHost → ENetPeer → Prop}
    (hI : CounterInvariant I) (hdr : ENetHeader) (time : ENetTime)
    (flush : ENetHost × ENetPeer × PacketStore → ENetHost × ENetPeer × PacketStore)
    (hflush : ∀ h p s, I h p → I (flush (h, p, s)).1 (flush (h, p, s)).2.1)
    (host : ENetHost) (event : Option ENetEvent) (peer : ENetPeer) (command : ENetProtocol)
    (store : PacketStore) (mem : Nat) (h : I host peer) :
    I (enet_protocol_handle_acknowledge hdr time flush host event peer command store mem).host
      (enet_protocol_handle_acknowledge hdr time flush host event peer command store
        mem).peer := by
  unfold enet_protocol_handle_acknowledge
  split
  · exact h
  · dsimp only
    split
    · exact h
    · refine acknowledgeFinish_counter hI hdr flush hflush host event _ _ mem _ ?_
      have hframe := acknowledgeRoundTrip_frame time host peer
        (max (u32 (time.ENET_TIME_DIFFERENCE host.serviceTime (acknowledgeSentTime host command)))
          1)
      generalize acknowledgeRoundTrip time host peer
        (max (u32 (time.ENET_TIME_DIFFERENCE host.serviceTime (acknowledgeSentTime host command)))
          1) = P at hframe ⊢
      have hPstate : P.state = peer.state := congrArg (·.1) hframe
      have hPband : P.incomingBandwidth = peer.incomingBandwidth :=
        congrArg (·.2.2.2.1) hframe
      obtain ⟨r1, -, -, r4, -⟩ := enet_protocol_remove_sent_reliable_command_frame P store
        (ENET_NET_TO_HOST_16 command.acknowledgeView.1) command.channelID
      refine hI.peerChange _ _ _ h ?_ (fun _ => ?_)
      · simp [ENetPeer.connected, r1, hPstate]
      · rw [r4, hPband]

/-- Overwriting a slot with the value it holds changes nothing. -/
theorem list_set_of_get? {α : Type} :
    ∀ (l : List α) (i : Nat) (a : α), l.get? i = some a → l.set i a = l := by
  intro l
  induction l with
  | nil => intro i a h; rfl
  | cons b l ih =>
    intro i a h
    cases i with
    | zero =>
      simp only [List.get?_cons_zero, Option.some.injEq] at h
      rw [List.set_cons_zero, h]
    | succ i =>
      simp only [List.get?_cons_succ] at h
      rw [List.set_cons_succ, ih i a h]

/-- The host with a slot overwritten by the value it holds is the host. -/
theorem withPeer_of_get? (host : ENetHost) (slot : Nat) (peer : ENetPeer)
    (h : host.peers.get? slot = some peer) : host.withPeer slot peer = host := by
  unfold ENetHost.withPeer
  rw [list_set_of_get? _ _ _ h]

/-- The slot that the scan of `enet_protocol_handle_connect` returns is the one it started
with or a `DISCONNECTED` slot of the list. -/
theorem handleConnectScan_found (receivedAddress : ENetAddress) (connectID : Nat) :
    ∀ (l : List ENetPeer) (index : Nat) (peer : Option Nat) (duplicatePeers : Nat)
      (i d : Nat),
      handleConnectScan receivedAddress connectID l index peer duplicatePeers
        = .scanned (some i) d →
      peer = some i ∨
        (index ≤ i ∧ ∃ q, l.get? (i - index) = some q ∧ q.state = ENetPeerState.DISCONNECTED) := by
  intro l
  induction l with
  | nil =>
    intro index peer dp i d h
    unfold handleConnectScan at h
    cases h
    exact Or.inl rfl
  | cons c rest ih =>
    intro index peer dp i d h
    unfold handleConnectScan at h
    have hrest : ∀ (p : Option Nat) (dp1 : Nat),
        handleConnectScan receivedAddress connectID rest (index + 1) p dp1
          = .scanned (some i) d →
        p = some i ∨
          (index ≤ i ∧ ∃ q, (c :: rest).get? (i - index) = some q ∧
            q.state = ENetPeerState.DISCONNECTED) := by
      intro p dp1 hp
      rcases ih (index + 1) p dp1 i d hp with h1 | ⟨h1, q, hq, hs⟩
      · exact Or.inl h1
      · refine Or.inr ⟨by omega, q, ?_, hs⟩
        have : i - index = (i - (index + 1)) + 1 := by omega
        rw [this, List.get?_cons_succ]
        exact hq
    split at h
    · rename_i hc
      rcases hrest _ _ h with h1 | h1
      · by_cases hp : peer = none
        · rw [if_pos hp] at h1
          have hi : index = i := Option.some.inj h1
          refine Or.inr ⟨by omega, c, ?_, hc⟩
          rw [← hi, Nat.sub_self]
          rfl
        · rw [if_neg hp] at h1
          exact Or.inl h1
      · exact Or.inr h1
    · split at h
      · split at h
        · cases h
        · exact hrest _ _ h
      · exact hrest _ _ h

/-- Reading a slot of the first slots of a list. -/
theorem get?_of_take_get? {α : Type} (l : List α) (n i : Nat) (a : α)
    (h : (l.take n).get? i = some a) : l.get? i = some a := by
  rw [List.get?_eq_getElem?] at h ⊢
  rw [List.getElem?_take] at h
  split at h
  · exact h
  · cases h

/-- What `enet_protocol_handle_connect` does to the slots: nothing, or one `DISCONNECTED`
slot becomes `ACKNOWLEDGING_CONNECT`. -/
theorem enet_protocol_handle_connect_slot (hdr : ENetHeader) (host : ENetHost)
    (command : ENetProtocol) (mem : Nat) :
    (enet_protocol_handle_connect hdr host command mem).host = host ∨
    ∃ (index : Nat) (p0 p1 : ENetPeer),
      host.peers.get? index = some p0 ∧ p0.state = ENetPeerState.DISCONNECTED ∧
      p1.state = ENetPeerState.ACKNOWLEDGING_CONNECT ∧
      (enet_protocol_handle_connect hdr host command mem).host = host.withPeer index p1 := by
  unfold enet_protocol_handle_connect
  dsimp only
  split
  · exact Or.inl rfl
  · split
    · exact Or.inl rfl
    · exact Or.inl rfl
    · rename_i index duplicatePeers hscan
      split
      · exact Or.inl rfl
      · split
        · exact Or.inl rfl
        · rename_i peer hpeer
          split
          · exact Or.inl rfl
          · rename_i mem1 hmem
            have hfound := handleConnectScan_found _ _ _ _ _ _ _ _ hscan
            rcases hfound with hf | ⟨-, q, hq, hqs⟩
            · cases hf
            · rw [Nat.sub_zero] at hq
              have hq' := get?_of_take_get? _ _ _ _ hq
              rw [hpeer] at hq'
              have hqe : peer = q := Option.some.inj hq'
              subst hqe
              have hacc : (handleConnectAccept hdr host peer command.connectView
                  (handleConnectChannelCount host
                    (ENET_NET_TO_HOST_32 command.connectView.channelCount))).1.state
                  = ENetPeerState.ACKNOWLEDGING_CONNECT := by
                unfold handleConnectAccept
                rfl
              generalize handleConnectAccept hdr host peer command.connectView
                (handleConnectChannelCount host
                  (ENET_NET_TO_HOST_32 command.connectView.channelCount)) = acc at hacc ⊢
              obtain ⟨peer1, verifyCommand⟩ := acc
              dsimp only at hacc ⊢
              cases hqr : enet_peer_queue_outgoing_command peer1 verifyCommand none none 0 0
                  mem1 with
              | none => exact Or.inr ⟨index, peer, peer1, hpeer, hqs, hacc, rfl⟩
              | some r =>
                obtain ⟨hs, -⟩ := enet_peer_queue_outgoing_command_state _ _ _ _ _ _ _ _ hqr
                exact Or.inr ⟨index, peer, r.peer, hpeer, hqs, by rw [hs, hacc], rfl⟩

/-- A slot that is not connected is replaced by a peer that is not connected: the invariant
of `connectedPeers` stays. -/
theorem connectedPeersInv_withPeer (host host1 : ENetHost) (index : Nat) (p0 p1 : ENetPeer)
    (hinv : ConnectedPeersInv host) (hlen : host.peers.length < 18446744073709551616)
    (hpeers : host1.peers = host.peers) (hcount : host1.connectedPeers = host.connectedPeers)
    (hget : host.peers.get? index = some p0)
    (h0 : p0.connected = false) (h1 : p1.connected = false) :
    ConnectedPeersInv (host1.withPeer index p1) := by
  have hindex : index < host.peers.length := by
    rw [List.get?_eq_getElem?] at hget
    exact (List.getElem?_eq_some_iff.mp hget).1
  have hat : ConnectedPeersAt index host p0 :=
    ⟨hindex, hlen, by rw [withPeer_of_get? _ _ _ hget]; exact hinv⟩
  rw [connectedPeersAt_iff] at hat
  have hat1 : ConnectedPeersAt index host1 p1 := by
    rw [connectedPeersAt_iff, hpeers, hcount, h1]
    rw [h0] at hat
    exact hat
  exact hat1.2.2

/-- A slot that is not connected is replaced by a peer that is not connected: the invariant
of `bandwidthLimitedPeers` stays. -/
theorem bandwidthLimitedPeersInv_withPeer (host host1 : ENetHost) (index : Nat)
    (p0 p1 : ENetPeer)
    (hinv : BandwidthLimitedPeersInv host) (hlen : host.peers.length < 18446744073709551616)
    (hpeers : host1.peers = host.peers)
    (hcount : host1.bandwidthLimitedPeers = host.bandwidthLimitedPeers)
    (hget : host.peers.get? index = some p0)
    (h0 : p0.connected = false) (h1 : p1.connected = false) :
    BandwidthLimitedPeersInv (host1.withPeer index p1) := by
  have hindex : index < host.peers.length := by
    rw [List.get?_eq_getElem?] at hget
    exact (List.getElem?_eq_some_iff.mp hget).1
  have hat : BandwidthLimitedPeersAt index host p0 :=
    ⟨hindex, hlen, by rw [withPeer_of_get? _ _ _ hget]; exact hinv⟩
  rw [bandwidthLimitedPeersAt_iff] at hat
  have hl0 : p0.bandwidthLimited = false := by simp [ENetPeer.bandwidthLimited, h0]
  have hl1 : p1.bandwidthLimited = false := by simp [ENetPeer.bandwidthLimited, h1]
  have hat1 : BandwidthLimitedPeersAt index host1 p1 := by
    rw [bandwidthLimitedPeersAt_iff, hpeers, hcount, hl1]
    rw [hl0] at hat
    exact hat
  exact hat1.2.2

/-- What `enet_host_connect` does to the slots: nothing, or one `DISCONNECTED` slot becomes
`CONNECTING`; but for the random seed the host is as before. -/
theorem enet_host_connect_slot (hdr : ENetHeader) (host : ENetHost) (address : ENetAddress)
    (channelCount data mem : Nat) :
    (enet_host_connect hdr host address channelCount data mem).host = host ∨
    ∃ (host1 : ENetHost) (index : Nat) (p0 p1 : ENetPeer),
      host1.peers = host.peers ∧ host1.connectedPeers = host.connectedPeers ∧
      host1.bandwidthLimitedPeers = host.bandwidthLimitedPeers ∧
      host.peers.get? index = some p0 ∧ p0.state = ENetPeerState.DISCONNECTED ∧
      p1.state = ENetPeerState.CONNECTING ∧
      (enet_host_connect hdr host address channelCount data mem).host
        = host1.withPeer index p1 := by
  unfold enet_host_connect
  dsimp only
  split
  · exact Or.inl rfl
  · rename_i index hfind
    split
    · exact Or.inl rfl
    · rename_i currentPeer hpeer
      split
      · exact Or.inl rfl
      · rename_i mem1 hmem
        have hstate : currentPeer.state = ENetPeerState.DISCONNECTED := by
          have h1 := List.findIdx?_of_eq_some hfind
          have h2 : (List.take host.peerCount host.peers)[index]? = some currentPeer := by
            rw [List.getElem?_take]
            split
            · rw [← List.get?_eq_getElem?]; exact hpeer
            · rename_i hlt
              rw [List.getElem?_take, if_neg hlt] at h1
              cases h1
          rw [h2] at h1
          simpa using h1
        have hsetup : (hostConnectSetup hdr
            { host with randomSeed := (enet_host_random host.randomSeed).1 } currentPeer address
            (hostConnectChannelCount channelCount) (enet_host_random host.randomSeed).2
            data).1.state = ENetPeerState.CONNECTING := by
          unfold hostConnectSetup
          rfl
        generalize hostConnectSetup hdr
          { host with randomSeed := (enet_host_random host.randomSeed).1 } currentPeer address
          (hostConnectChannelCount channelCount) (enet_host_random host.randomSeed).2
          data = su at hsetup ⊢
        obtain ⟨peer1, command⟩ := su
        dsimp only at hsetup ⊢
        cases hqr : enet_peer_queue_outgoing_command peer1 command none none 0 0 mem1 with
        | none =>
          exact Or.inr ⟨{ host with randomSeed := (enet_host_random host.randomSeed).1 },
            index, currentPeer, peer1, rfl, rfl, rfl, hpeer, hstate, hsetup, rfl⟩
        | some r =>
          obtain ⟨hs, -⟩ := enet_peer_queue_outgoing_command_state _ _ _ _ _ _ _ _ hqr
          exact Or.inr ⟨{ host with randomSeed := (enet_host_random host.randomSeed).1 },
            index, currentPeer, r.peer, rfl, rfl, rfl, hpeer, hstate, by rw [hs, hsetup], rfl⟩

/-- The loop of `enet_protocol_dispatch_incoming_commands` keeps an invariant of the host
that, for every slot, is a counter invariant of the host and the value of that slot. -/
theorem enet_protocol_dispatch_incoming_commands_loop_counter (hdr : ENetHeader)
    (Inv : ENetHost → Prop) (J : Nat → ENetHost → ENetPeer → Prop)
    (hJ : ∀ slot, CounterInvariant (J slot))
    (hin : ∀ slot host peer, Inv host → host.peers.get? slot = some peer → J slot host peer)
    (hout : ∀ slot host peer, J slot host peer → Inv (host.withPeer slot peer))
    (hhost : ∀ host host1 : ENetHost, Inv host → host1.peers = host.peers →
      host1.connectedPeers = host.connectedPeers →
      host1.bandwidthLimitedPeers = host.bandwidthLimitedPeers → Inv host1) :
    ∀ (queue : List Nat) (host : ENetHost) (event : ENetEvent) (store : PacketStore)
      (r : DispatchEventResult),
      Inv host →
      enet_protocol_dispatch_incoming_commands_loop hdr queue host event store = some r →
      Inv r.host := by
  intro queue
  induction queue with
  | nil =>
    intro host event store r hinv h
    unfold enet_protocol_dispatch_incoming_commands_loop at h
    cases h
    exact hhost host _ hinv rfl rfl rfl
  | cons slot rest ih =>
    intro host event store r hinv h
    unfold enet_protocol_dispatch_incoming_commands_loop at h
    split at h
    · cases h
    rename_i peer hpeer
    have h1 : J slot { host with dispatchQueue := rest } { peer with needsDispatch := false } :=
      (hJ slot).hostChange _ _ _
        ((hJ slot).peerChange _ _ _ (hin slot host peer hinv hpeer) rfl (fun _ => rfl))
        rfl rfl rfl
    dsimp only at h
    split at h
    · have hc := enet_protocol_change_state_counter (hJ slot) _ _ ENetPeerState.CONNECTED h1
      cases h
      exact hout slot _ _ hc
    split at h
    · have hc := enet_peer_reset_counter (hJ slot) hdr
        { host with dispatchQueue := rest, recalculateBandwidthLimits := 1 }
        { peer with needsDispatch := false } store
        ((hJ slot).hostChange _ _ _ h1 rfl rfl rfl)
      cases h
      exact hout slot _ _ hc
    split at h
    · have hrecv : (enet_peer_receive { peer with needsDispatch := false }).2.state
            = peer.state ∧
          (enet_peer_receive { peer with needsDispatch := false }).2.incomingBandwidth
            = peer.incomingBandwidth := by
        unfold enet_peer_receive
        split <;> exact ⟨rfl, rfl⟩
      have h2 : J slot { host with dispatchQueue := rest }
          (enet_peer_receive { peer with needsDispatch := false }).2 :=
        (hJ slot).peerChange _ _ _ h1 (by simp [ENetPeer.connected, hrecv.1])
          (fun _ => hrecv.2)
      generalize enet_peer_receive { peer with needsDispatch := false } = rc at h h2
      obtain ⟨rp, peer2⟩ := rc
      cases rp with
      | none =>
        dsimp only at h
        exact ih _ _ _ _ (hout slot _ _ h2) h
      | some pc =>
        obtain ⟨packet, channelID⟩ := pc
        dsimp only at h h2
        split at h
        · cases h
          exact hout slot _ _ ((hJ slot).hostChange _ _ _
            ((hJ slot).peerChange _ _ _ h2 rfl (fun _ => rfl)) rfl rfl rfl)
        · cases h
          exact hout slot _ _ h2
    · exact ih _ _ _ _ (hout slot _ _ h1) h

/-- The loop of `enet_protocol_check_timeouts` keeps a counter invariant. -/
theorem enet_protocol_check_timeouts_loop_counter {I : ENetHost → ENetPeer → Prop}
    (hI : CounterInvariant I) (hdr : ENetHeader) (time : ENetTime) (host : ENetHost)
    (event : Option ENetEvent) (store : PacketStore) :
    ∀ (rest : List ENetOutgoingCommand) (peer : ENetPeer)
      (kept moved : List ENetOutgoingCommand), I host peer →
      I (enet_protocol_check_timeouts_loop hdr time host event store peer kept moved rest).host
        (enet_protocol_check_timeouts_loop hdr time host event store peer kept moved
          rest).peer := by
  intro rest
  induction rest with
  | nil =>
    intro peer kept moved h
    unfold enet_protocol_check_timeouts_loop
    exact hI.peerChange _ _ _ h rfl (fun _ => rfl)
  | cons outgoingCommand rest ih =>
    intro peer kept moved h
    unfold enet_protocol_check_timeouts_loop
    split
    · exact ih _ _ _ h
    · dsimp only
      have h1 : I host (if peer.earliestTimeout = 0 ∨
            time.ENET_TIME_LESS outgoingCommand.sentTime peer.earliestTimeout = true then
          { peer with earliestTimeout := outgoingCommand.sentTime } else peer) := by
        split
        · exact hI.peerChange _ _ _ h rfl (fun _ => rfl)
        · exact h
      generalize (if peer.earliestTimeout = 0 ∨
            time.ENET_TIME_LESS outgoingCommand.sentTime peer.earliestTimeout = true then
          { peer with earliestTimeout := outgoingCommand.sentTime } else peer) = peer1 at h1 ⊢
      split
      · exact enet_protocol_notify_disconnect_counter hI hdr host _ event store
          (hI.peerChange _ _ _ h1 rfl (fun _ => rfl))
      · apply ih
        have hp : ∀ p : ENetPeer, p.state = peer1.state →
            p.incomingBandwidth = peer1.incomingBandwidth → I host p := by
          intro p hs hb
          exact hI.peerChange _ _ _ h1 (by simp [ENetPeer.connected, hs]) (fun _ => hb)
        apply hp
        · split <;> split <;> rfl
        · split <;> split <;> rfl

/-- The slots that the loop of `enet_host_create` appends are not connected. -/
theorem enet_host_create_peers_counter (hdr : ENetHeader) :
    ∀ (count incomingPeerID : Nat) (host : ENetHost),
      ConnectedPeersInv host → BandwidthLimitedPeersInv host →
      ConnectedPeersInv (enet_host_create_peers hdr count incomingPeerID host) ∧
      BandwidthLimitedPeersInv (enet_host_create_peers hdr count incomingPeerID host) := by
  intro count
  induction count with
  | zero =>
    intro incomingPeerID host h1 h2
    exact ⟨h1, h2⟩
  | succ count ih =>
    intro incomingPeerID host h1 h2
    unfold enet_host_create_peers
    obtain ⟨k1, k2, -⟩ := enet_peer_reset_keeps hdr host (clearedPeer incomingPeerID) []
    obtain ⟨e1, e2, e3⟩ := enet_peer_on_disconnect_eq host (clearedPeer incomingPeerID)
    have hc : (clearedPeer incomingPeerID).connected = false := rfl
    have hl : (clearedPeer incomingPeerID).bandwidthLimited = false := rfl
    rw [hc] at e2
    rw [hl] at e3
    generalize enet_peer_reset hdr host (clearedPeer incomingPeerID) [] = rs at k1 k2 ⊢
    obtain ⟨host1, currentPeer, store1⟩ := rs
    dsimp only at k1 k2 ⊢
    have hnc : currentPeer.connected = false := by simp [ENetPeer.connected, k2]
    have hnl : currentPeer.bandwidthLimited = false := by
      simp [ENetPeer.bandwidthLimited, hnc]
    apply ih
    · unfold ConnectedPeersInv at h1 ⊢
      show host1.connectedPeers = List.countP ENetPeer.connected (host1.peers ++ [currentPeer])
      rw [List.countP_append, k1, e1, e2]
      simp [hnc, h1]
    · unfold BandwidthLimitedPeersInv at h2 ⊢
      show host1.bandwidthLimitedPeers
        = List.countP ENetPeer.bandwidthLimited (host1.peers ++ [currentPeer])
      rw [List.countP_append, k1, e1, e3]
      simp [hnl, h2]

/-- What `enet_protocol_handle_bandwidth_limit` does to the counters and to the fields of
the peer that they depend on. -/
theorem enet_protocol_handle_bandwidth_limit_eq (hdr : ENetHeader) (host : ENetHost)
    (peer : ENetPeer) (command : ENetProtocol) :
    (enet_protocol_handle_bandwidth_limit hdr host peer command).2.1.peers = host.peers ∧
    (enet_protocol_handle_bandwidth_limit hdr host peer command).2.1.connectedPeers
      = host.connectedPeers ∧
    (enet_protocol_handle_bandwidth_limit hdr host peer command).2.2.state = peer.state ∧
    (peer.connected = false →
      enet_protocol_handle_bandwidth_limit hdr host peer command = (-1, host, peer)) ∧
    (peer.connected = true →
      (enet_protocol_handle_bandwidth_limit hdr host peer command).2.2.incomingBandwidth
        = ENET_NET_TO_HOST_32 command.bandwidthLimitView.1 ∧
      (enet_protocol_handle_bandwidth_limit hdr host peer command).2.1.bandwidthLimitedPeers
        = (if ENET_NET_TO_HOST_32 command.bandwidthLimitView.1 ≠ 0 then
            usize ((if peer.incomingBandwidth ≠ 0 then usizeSub host.bandwidthLimitedPeers 1
                    else host.bandwidthLimitedPeers) + 1)
           else (if peer.incomingBandwidth ≠ 0 then usizeSub host.bandwidthLimitedPeers 1
                 else host.bandwidthLimitedPeers))) := by
  unfold enet_protocol_handle_bandwidth_limit
  by_cases hc : peer.state ≠ ENetPeerState.CONNECTED ∧ peer.state ≠ ENetPeerState.DISCONNECT_LATER
  · rw [if_pos hc]
    refine ⟨rfl, rfl, rfl, fun _ => rfl, fun h => ?_⟩
    have : peer.connected = false := by simp [ENetPeer.connected, hc.1, hc.2]
    rw [this] at h
    cases h
  · rw [if_neg hc]
    dsimp only
    have hcon : peer.connected = true := by
      unfold ENetPeer.connected
      rw [decide_eq_true_eq]
      by_contra hn
      exact hc ⟨fun h => hn (Or.inl h), fun h => hn (Or.inr h)⟩
    refine ⟨?_, ?_, rfl, fun h => ?_, fun _ => ⟨rfl, ?_⟩⟩
    · split <;> split <;> rfl
    · split <;> split <;> rfl
    · rw [hcon] at h; cases h
    · split <;> split <;> rfl

/-- `enet_protocol_handle_bandwidth_limit` keeps the invariant of `connectedPeers`. -/
theorem enet_protocol_handle_bandwidth_limit_connected (hdr : ENetHeader) (slot : Nat)
    (host : ENetHost) (peer : ENetPeer) (command : ENetProtocol)
    (h : ConnectedPeersAt slot host peer) :
    ConnectedPeersAt slot (enet_protocol_handle_bandwidth_limit hdr host peer command).2.1
      (enet_protocol_handle_bandwidth_limit hdr host peer command).2.2 := by
  obtain ⟨e1, e2, e3, -, -⟩ := enet_protocol_handle_bandwidth_limit_eq hdr host peer command
  rw [connectedPeersAt_iff] at h ⊢
  rw [e1, e2]
  have : (enet_protocol_handle_bandwidth_limit hdr host peer command).2.2.connected
      = peer.connected := by
    unfold ENetPeer.connected
    rw [e3]
  rw [this]
  exact h

/-- `enet_protocol_handle_bandwidth_limit` keeps the invariant of
`bandwidthLimitedPeers`. -/
theorem enet_protocol_handle_bandwidth_limit_limited (hdr : ENetHeader) (slot : Nat)
    (host : ENetHost) (peer : ENetPeer) (command : ENetProtocol)
    (h : BandwidthLimitedPeersAt slot host peer) :
    BandwidthLimitedPeersAt slot (enet_protocol_handle_bandwidth_limit hdr host peer command).2.1
      (enet_protocol_handle_bandwidth_limit hdr host peer command).2.2 := by
  obtain ⟨e1, -, e3, e4, e5⟩ := enet_protocol_handle_bandwidth_limit_eq hdr host peer command
  cases hcon : peer.connected
  · rw [e4 hcon]
    exact h
  · obtain ⟨e6, e7⟩ := e5 hcon
    rw [bandwidthLimitedPeersAt_iff] at h ⊢
    obtain ⟨hs, hlen, hcount⟩ := h
    have hroom := countP_eraseIdx_lt ENetPeer.bandwidthLimited host.peers slot hs
    have hcon1 : (enet_protocol_handle_bandwidth_limit hdr host peer command).2.2.connected
        = true := by
      unfold ENetPeer.connected at hcon ⊢
      rw [e3]
      exact hcon
    refine ⟨by rw [e1]; exact hs, by rw [e1]; exact hlen, ?_⟩
    rw [e1, e7]
    have hlold : peer.bandwidthLimited = decide (peer.incomingBandwidth ≠ 0) := by
      unfold ENetPeer.bandwidthLimited
      rw [hcon, Bool.true_and]
    have hlnew : (enet_protocol_handle_bandwidth_limit hdr host peer command).2.2.bandwidthLimited
        = decide (ENET_NET_TO_HOST_32 command.bandwidthLimitView.1 ≠ 0) := by
      unfold ENetPeer.bandwidthLimited
      rw [hcon1, e6, Bool.true_and]
    rw [hlnew]
    rw [hlold] at hcount
    generalize List.countP ENetPeer.bandwidthLimited (host.peers.eraseIdx slot) = others
      at hcount hroom ⊢
    have hold : (if peer.incomingBandwidth ≠ 0 then usizeSub host.bandwidthLimitedPeers 1
        else host.bandwidthLimitedPeers) = others := by
      by_cases hz : peer.incomingBandwidth ≠ 0
      · rw [if_pos hz, hcount, decide_eq_true hz, if_pos rfl]
        exact usizeSub_one _ (by omega)
      · rw [if_neg hz, hcount, decide_eq_false hz, if_neg (by decide)]
        rfl
    rw [hold]
    by_cases hn : ENET_NET_TO_HOST_32 command.bandwidthLimitView.1 ≠ 0
    · rw [if_pos hn, usize_of_lt (by omega), decide_eq_true hn, if_pos rfl]
    · rw [if_neg hn, decide_eq_false hn, if_neg (by decide)]
      rfl

/-! ## Sending of queued commands -/

/-- What `emitCommand` keeps. -/
theorem emitCommand_fields (st : CheckOutgoingState) (outgoingCommand : ENetOutgoingCommand)
    (commandSize : Nat) :
    (emitCommand st outgoingCommand commandSize).peer
      = { st.peer with packetsSent := u32 (st.peer.packetsSent + 1) } ∧
    (emitCommand st outgoingCommand commandSize).kept = st.kept ∧
    (emitCommand st outgoingCommand commandSize).dropping = st.dropping := by
  unfold emitCommand
  dsimp only
  exact ⟨rfl, rfl, rfl⟩

/-- What `sendReliableCommand` keeps, and that it reads the host and the peer only. -/
theorem sendReliableCommand_fields (st : CheckOutgoingState)
    (outgoingCommand : ENetOutgoingCommand) (channel : Option ENetChannel)
    (reliableWindow : Nat) :
    (sendReliableCommand st outgoingCommand channel reliableWindow).1.kept = st.kept ∧
    (sendReliableCommand st outgoingCommand channel reliableWindow).1.dropping = st.dropping ∧
    ∀ st1 : CheckOutgoingState, st1.peer = st.peer → st1.host = st.host →
      (sendReliableCommand st1 outgoingCommand channel reliableWindow).1.peer
        = (sendReliableCommand st outgoingCommand channel reliableWindow).1.peer ∧
      (sendReliableCommand st1 outgoingCommand channel reliableWindow).2
        = (sendReliableCommand st outgoingCommand channel reliableWindow).2 := by
  refine ⟨rfl, rfl, fun st1 hp hh => ?_⟩
  unfold sendReliableCommand
  rw [hp, hh]
  exact ⟨rfl, rfl⟩

/-- The body of the loop of `enet_protocol_check_outgoing_commands`, branch by branch. -/
theorem enet_protocol_check_outgoing_commands_loop_cons (hdr : ENetHeader)
    (st : CheckOutgoingState) (c : ENetOutgoingCommand) (rest : List ENetOutgoingCommand) :
    enet_protocol_check_outgoing_commands_loop hdr st (c :: rest)
      = if sameGroup st c then
          match c.packet with
          | none => none
          | some pid =>
            enet_protocol_check_outgoing_commands_loop hdr
              { st with store := st.store.release pid } rest
        else if decide (c.command.command &&& ENET_PROTOCOL_COMMAND_FLAG_ACKNOWLEDGE ≠ 0) ∧
            decide (c.command.channelID < st.peer.channelCount) ∧
            channelFor st.peer c = none then none
        else if decide (c.command.command &&& ENET_PROTOCOL_COMMAND_FLAG_ACKNOWLEDGE ≠ 0) ∧
            channelFor st.peer c ≠ none ∧ (wrapState st c).windowWrap then
          enet_protocol_check_outgoing_commands_loop hdr
            { wrapState st c with kept := st.kept ++ [c] } rest
        else if decide (c.command.command &&& ENET_PROTOCOL_COMMAND_FLAG_ACKNOWLEDGE ≠ 0) ∧
            c.packet ≠ none ∧ (exceededState st c).windowExceeded then
          enet_protocol_check_outgoing_commands_loop hdr
            { exceededState st c with kept := st.kept ++ [c] } rest
        else if datagramFull hdr (readyState st c) c
            (commandSizes.getD (c.command.command &&& ENET_PROTOCOL_COMMAND_MASK) 0) then
          some ({ readyState st c with
                  host := { (readyState st c).host with continueSending := 1 } }, c :: rest)
        else if decide (c.command.command &&& ENET_PROTOCOL_COMMAND_FLAG_ACKNOWLEDGE ≠ 0) then
          enet_protocol_check_outgoing_commands_loop hdr
            (emitCommand
              (sendReliableCommand (readyState st c) c (channelFor st.peer c)
                (u16 (c.reliableSequenceNumber / ENET_PEER_RELIABLE_WINDOW_SIZE))).1
              (sendReliableCommand (readyState st c) c (channelFor st.peer c)
                (u16 (c.reliableSequenceNumber / ENET_PEER_RELIABLE_WINDOW_SIZE))).2
              (commandSizes.getD (c.command.command &&& ENET_PROTOCOL_COMMAND_MASK) 0)) rest
        else if decide (c.packet ≠ none ∧ c.fragmentOffset = 0) ∧
            (throttleState st c).peer.packetThrottleCounter
              > (throttleState st c).peer.packetThrottle then
          match c.packet with
          | none => none
          | some pid =>
            enet_protocol_check_outgoing_commands_loop hdr
              { throttleState st c with
                store := (throttleState st c).store.release pid,
                dropping := some (c.reliableSequenceNumber, c.unreliableSequenceNumber) } rest
        else
          enet_protocol_check_outgoing_commands_loop hdr
            (emitCommand
              (if c.packet ≠ none then
                { throttleState st c with peer := { (throttleState st c).peer with
                    sentUnreliableCommands :=
                      (throttleState st c).peer.sentUnreliableCommands ++ [c] } }
               else throttleState st c) c
              (commandSizes.getD (c.command.command &&& ENET_PROTOCOL_COMMAND_MASK) 0)) rest := by
  rw [enet_protocol_check_outgoing_commands_loop]
  rfl

/-- The locals that the window tests leave alone. -/
theorem readyState_fields (st : CheckOutgoingState) (c : ENetOutgoingCommand) :
    (readyState st c).peer = st.peer ∧ (readyState st c).host = st.host ∧
    (readyState st c).kept = st.kept ∧ (readyState st c).dropping = none := by
  unfold readyState
  split <;> exact ⟨rfl, rfl, rfl, rfl⟩

/-- The throttle counter is all that `throttleState` changes of the peer. -/
theorem throttleState_fields (st : CheckOutgoingState) (c : ENetOutgoingCommand) :
    (throttleState st c).peer.sendFrame = st.peer.sendFrame ∧
    (throttleState st c).kept = st.kept ∧ (throttleState st c).dropping = none := by
  obtain ⟨h1, -, h3, h4⟩ := readyState_fields st c
  unfold throttleState
  split
  · refine ⟨?_, h3, h4⟩
    show ({ (readyState st c).peer with packetThrottleCounter := _ } : ENetPeer).sendFrame = _
    rw [h1]
    rfl
  · exact ⟨by rw [h1], h3, h4⟩

/-- Induction over the loop of `enet_protocol_check_outgoing_commands`: a property `Q` of the
peer, of the commands passed over, of the pair that is being dropped and of the commands
still to come holds when the loop is left, if it holds at the start and each way through the
loop body keeps it. -/
theorem enet_protocol_check_outgoing_commands_loop_induct (hdr : ENetHeader)
    (Q : ENetPeer → List ENetOutgoingCommand → Option (Nat × Nat) →
      List ENetOutgoingCommand → Prop)
    (hpeer : ∀ (p p1 : ENetPeer) k d rest, Q p k d rest → p1.sendFrame = p.sendFrame →
      Q p1 k d rest)
    (hgroup : ∀ (p : ENetPeer) k (c : ENetOutgoingCommand) rest,
      Q p k (some (c.reliableSequenceNumber, c.unreliableSequenceNumber)) (c :: rest) →
      Q p k (some (c.reliableSequenceNumber, c.unreliableSequenceNumber)) rest)
    (hclear : ∀ (p : ENetPeer) k d rest, Q p k d rest → Q p k none rest)
    (hkeep : ∀ (p : ENetPeer) k (c : ENetOutgoingCommand) rest, Q p k none (c :: rest) →
      c.command.command &&& ENET_PROTOCOL_COMMAND_FLAG_ACKNOWLEDGE ≠ 0 →
      Q p (k ++ [c]) none rest)
    (hsend : ∀ (st : CheckOutgoingState) (c : ENetOutgoingCommand) rest,
      Q st.peer st.kept none (c :: rest) →
      c.command.command &&& ENET_PROTOCOL_COMMAND_FLAG_ACKNOWLEDGE ≠ 0 →
      (c.command.channelID < st.peer.channelCount → channelFor st.peer c ≠ none) →
      (c.packet ≠ none → windowExceededTest st.peer c = false) →
      Q (sendReliableCommand st c (channelFor st.peer c)
          (u16 (c.reliableSequenceNumber / ENET_PEER_RELIABLE_WINDOW_SIZE))).1.peer
        st.kept none rest)
    (hdrop : ∀ (p : ENetPeer) k (c : ENetOutgoingCommand) rest, Q p k none (c :: rest) →
      c.command.command &&& ENET_PROTOCOL_COMMAND_FLAG_ACKNOWLEDGE = 0 → c.packet ≠ none →
      Q p k (some (c.reliableSequenceNumber, c.unreliableSequenceNumber)) rest)
    (hpass : ∀ (p : ENetPeer) k (c : ENetOutgoingCommand) rest, Q p k none (c :: rest) →
      c.command.command &&& ENET_PROTOCOL_COMMAND_FLAG_ACKNOWLEDGE = 0 →
      Q p k none rest) :
    ∀ (rest : List ENetOutgoingCommand) (st : CheckOutgoingState)
      (r : CheckOutgoingState × List ENetOutgoingCommand),
      Q st.peer st.kept st.dropping rest →
      enet_protocol_check_outgoing_commands_loop hdr st rest = some r →
      Q r.1.peer r.1.kept r.1.dropping r.2 := by
  intro rest
  induction rest with
  | nil =>
    intro st r hq h
    unfold enet_protocol_check_outgoing_commands_loop at h
    cases h
    exact hclear _ _ _ _ hq
  | cons c rest ih =>
    intro st r hq h
    rw [enet_protocol_check_outgoing_commands_loop_cons] at h
    split at h
    · -- the command belongs to the group that is being dropped
      rename_i hgrp
      split at h
      · cases h
      · rename_i pid hpid
        refine ih _ r ?_ h
        unfold sameGroup at hgrp
        cases hd : st.dropping with
        | none => rw [hd] at hgrp; cases hgrp
        | some d =>
          obtain ⟨d1, d2⟩ := d
          rw [hd] at hgrp hq
          simp only [decide_eq_true_eq] at hgrp
          show Q st.peer st.kept (some (d1, d2)) rest
          rw [← hgrp.1, ← hgrp.2] at hq ⊢
          exact hgroup _ _ _ _ hq
    · have hq0 : Q st.peer st.kept none (c :: rest) := hclear _ _ _ _ hq
      obtain ⟨hr1, hr2, hr3, hr4⟩ := readyState_fields st c
      obtain ⟨ht1, ht2, ht3⟩ := throttleState_fields st c
      split at h
      · cases h
      rename_i hch
      split at h
      · rename_i hw
        refine ih _ r ?_ h
        show Q st.peer (st.kept ++ [c]) none rest
        exact hkeep _ _ _ _ hq0 (of_decide_eq_true hw.1)
      split at h
      · rename_i he
        refine ih _ r ?_ h
        show Q st.peer (st.kept ++ [c]) none rest
        exact hkeep _ _ _ _ hq0 (of_decide_eq_true he.1)
      rename_i he
      split at h
      · cases h
        show Q (readyState st c).peer (readyState st c).kept (readyState st c).dropping (c :: rest)
        rw [hr1, hr3, hr4]
        exact hq0
      split at h
      · rename_i hack
        have hack' : c.command.command &&& ENET_PROTOCOL_COMMAND_FLAG_ACKNOWLEDGE ≠ 0 :=
          of_decide_eq_true hack
        refine ih _ r ?_ h
        obtain ⟨e1, e2, e3⟩ := emitCommand_fields
          (sendReliableCommand (readyState st c) c (channelFor st.peer c)
            (u16 (c.reliableSequenceNumber / ENET_PEER_RELIABLE_WINDOW_SIZE))).1
          (sendReliableCommand (readyState st c) c (channelFor st.peer c)
            (u16 (c.reliableSequenceNumber / ENET_PEER_RELIABLE_WINDOW_SIZE))).2
          (commandSizes.getD (c.command.command &&& ENET_PROTOCOL_COMMAND_MASK) 0)
        obtain ⟨s1, s2, s3⟩ := sendReliableCommand_fields st c (channelFor st.peer c)
          (u16 (c.reliableSequenceNumber / ENET_PEER_RELIABLE_WINDOW_SIZE))
        obtain ⟨s1', s2', -⟩ := sendReliableCommand_fields (readyState st c) c
          (channelFor st.peer c)
          (u16 (c.reliableSequenceNumber / ENET_PEER_RELIABLE_WINDOW_SIZE))
        rw [e1, e2, e3, s1', s2', hr3, hr4, (s3 (readyState st c) hr1 hr2).1]
        refine hpeer _ _ _ _ _ (hsend st c rest hq0 hack' ?_ ?_) rfl
        · intro hin hnone
          exact hch ⟨hack, decide_eq_true hin, hnone⟩
        · intro hpk
          by_contra hx
          apply he
          refine ⟨hack, hpk, ?_⟩
          show (if decide (c.command.command &&& ENET_PROTOCOL_COMMAND_FLAG_ACKNOWLEDGE ≠ 0)
              = true ∧ c.packet ≠ none then
            st.windowExceeded || windowExceededTest st.peer c else st.windowExceeded) = true
          rw [if_pos ⟨hack, hpk⟩]
          have : windowExceededTest st.peer c = true := by
            cases hv : windowExceededTest st.peer c
            · exact absurd hv hx
            · rfl
          rw [this, Bool.or_true]
      rename_i hack
      have hack' : c.command.command &&& ENET_PROTOCOL_COMMAND_FLAG_ACKNOWLEDGE = 0 := by
        by_contra hx
        exact hack (decide_eq_true hx)
      split at h
      · split at h
        · cases h
        · rename_i hthr pid hpid
          refine ih _ r ?_ h
          show Q (throttleState st c).peer (throttleState st c).kept
            (some (c.reliableSequenceNumber, c.unreliableSequenceNumber)) rest
          rw [ht2]
          refine hpeer _ _ _ _ _ (hdrop _ _ _ _ hq0 hack' ?_) ht1
          rw [hpid]
          exact Option.some_ne_none _
      · refine ih _ r ?_ h
        obtain ⟨e1, e2, e3⟩ := emitCommand_fields
          (if c.packet ≠ none then
            { throttleState st c with peer := { (throttleState st c).peer with
                sentUnreliableCommands :=
                  (throttleState st c).peer.sentUnreliableCommands ++ [c] } }
           else throttleState st c) c
          (commandSizes.getD (c.command.command &&& ENET_PROTOCOL_COMMAND_MASK) 0)
        rw [e1, e2, e3]
        have hk : (if c.packet ≠ none then
            ({ throttleState st c with peer := { (throttleState st c).peer with
                sentUnreliableCommands :=
                  (throttleState st c).peer.sentUnreliableCommands ++ [c] } } :
              CheckOutgoingState)
           else throttleState st c).kept = st.kept := by
          split
          · exact ht2
          · exact ht2
        have hd : (if c.packet ≠ none then
            ({ throttleState st c with peer := { (throttleState st c).peer with
                sentUnreliableCommands :=
                  (throttleState st c).peer.sentUnreliableCommands ++ [c] } } :
              CheckOutgoingState)
           else throttleState st c).dropping = none := by
          split
          · exact ht3
          · exact ht3
        have hp : (if c.packet ≠ none then
            ({ throttleState st c with peer := { (throttleState st c).peer with
                sentUnreliableCommands :=
                  (throttleState st c).peer.sentUnreliableCommands ++ [c] } } :
              CheckOutgoingState)
           else throttleState st c).peer.sendFrame = st.peer.sendFrame := by
          split
          · exact ht1
          · exact ht1
        rw [hk, hd]
        exact hpeer _ _ _ _ _ (hpass _ _ _ _ hq0 hack') hp

/-! ## Reliable data in transit -/

/-- The data in transit of two lists in a row. -/
theorem dataInTransit_append (front back : List ENetOutgoingCommand) :
    dataInTransit (front ++ back) = dataInTransit front + dataInTransit back := by
  induction front with
  | nil => simp [dataInTransit]
  | cons c front ih =>
    rw [List.cons_append, dataInTransit, dataInTransit, ih]
    omega

/-- The data in transit of a list without one of its commands. -/
theorem dataInTransit_eraseIdx :
    ∀ (l : List ENetOutgoingCommand) (k : Nat) (oc : ENetOutgoingCommand),
      l.get? k = some oc →
      dataInTransit l
        = dataInTransit (l.eraseIdx k) + (if oc.packet ≠ none then oc.fragmentLength else 0) := by
  intro l
  induction l with
  | nil => intro k oc h; cases h
  | cons c l ih =>
    intro k oc h
    cases k with
    | zero =>
      simp only [List.get?_cons_zero, Option.some.injEq] at h
      rw [List.eraseIdx_cons_zero, dataInTransit, h]
      omega
    | succ k =>
      simp only [List.get?_cons_succ] at h
      rw [List.eraseIdx_cons_succ, dataInTransit, dataInTransit, ih k oc h]
      omega

/-- What `sendReliableCommand` does to the sent queue and to the data in transit. -/
theorem sendReliableCommand_data (st : CheckOutgoingState) (c : ENetOutgoingCommand)
    (channel : Option ENetChannel) (reliableWindow : Nat) :
    (sendReliableCommand st c channel reliableWindow).1.peer.sentReliableCommands
      = st.peer.sentReliableCommands ++ [(sendReliableCommand st c channel reliableWindow).2] ∧
    (sendReliableCommand st c channel reliableWindow).2.fragmentLength = c.fragmentLength ∧
    (sendReliableCommand st c channel reliableWindow).2.packet = c.packet ∧
    (sendReliableCommand st c channel reliableWindow).1.peer.reliableDataInTransit
      = u32 (st.peer.reliableDataInTransit + c.fragmentLength) ∧
    (sendReliableCommand st c channel reliableWindow).1.peer.mtu = st.peer.mtu := by
  unfold sendReliableCommand
  dsimp only
  repeat' split
  all_goals exact ⟨rfl, rfl, rfl, rfl, rfl⟩

/-- The loop of `enet_protocol_check_outgoing_commands` keeps the invariant of the data in
transit, below the wrap of the 32-bit counter. -/
theorem enet_protocol_check_outgoing_commands_loop_data (hdr : ENetHeader)
    (rest : List ENetOutgoingCommand) (st : CheckOutgoingState)
    (r : CheckOutgoingState × List ENetOutgoingCommand)
    (hinv : ReliableDataInv st.peer) (hdata : st.peer.reliableDataInTransit ≤ 4294901760)
    (hmtu : st.peer.mtu ≤ 4294901760) (hsound : FragmentLengthsSound rest)
    (h : enet_protocol_check_outgoing_commands_loop hdr st rest = some r) :
    ReliableDataInv r.1.peer ∧ r.1.peer.reliableDataInTransit ≤ 4294901760 := by
  have hsub : ∀ (c : ENetOutgoingCommand) (l : List ENetOutgoingCommand),
      FragmentLengthsSound (c :: l) → FragmentLengthsSound l :=
    fun c l hs x hx => hs x (List.mem_cons_of_mem _ hx)
  have key := enet_protocol_check_outgoing_commands_loop_induct hdr
    (fun p _ _ l => ReliableDataInv p ∧ p.reliableDataInTransit ≤ 4294901760 ∧
      p.mtu ≤ 4294901760 ∧ FragmentLengthsSound l)
    (fun p p1 k d l hq hf => by
      have h1 : p1.reliableDataInTransit = p.reliableDataInTransit := by
        have := congrArg (fun q : ENetPeer => q.reliableDataInTransit) hf
        exact this
      have h2 : p1.sentReliableCommands = p.sentReliableCommands := by
        have := congrArg (fun q : ENetPeer => q.sentReliableCommands) hf
        exact this
      have h3 : p1.mtu = p.mtu := by
        have := congrArg (fun q : ENetPeer => q.mtu) hf
        exact this
      show ReliableDataInv p1 ∧ p1.reliableDataInTransit ≤ 4294901760 ∧
        p1.mtu ≤ 4294901760 ∧ FragmentLengthsSound l
      unfold ReliableDataInv at hq ⊢
      rw [h1, h2, h3]
      exact hq)
    (fun p k c l hq => ⟨hq.1, hq.2.1, hq.2.2.1, hsub c l hq.2.2.2⟩)
    (fun p k d l hq => hq)
    (fun p k c l hq _ => ⟨hq.1, hq.2.1, hq.2.2.1, hsub c l hq.2.2.2⟩)
    (fun st1 c l hq hack _ hwin => by
      obtain ⟨hi, hd, hm, hs⟩ := hq
      obtain ⟨d1, d2, d3, d4, d5⟩ := sendReliableCommand_data st1 c (channelFor st1.peer c)
        (u16 (c.reliableSequenceNumber / ENET_PEER_RELIABLE_WINDOW_SIZE))
      obtain ⟨hlen, hzero⟩ := hs c (List.mem_cons_self _ _)
      have hno : u32 (st1.peer.reliableDataInTransit + c.fragmentLength)
          = st1.peer.reliableDataInTransit + c.fragmentLength := by
        unfold u32; omega
      refine ⟨?_, ?_, by rw [d5]; exact hm, hsub c l hs⟩
      · unfold ReliableDataInv at hi ⊢
        rw [d1, d4, hno, dataInTransit_append, hi, dataInTransit, dataInTransit, d2, d3]
        by_cases hp : c.packet = none
        · rw [hzero hp]
          simp
        · rw [if_pos hp]
          omega
      · rw [d4, hno]
        by_cases hp : c.packet = none
        · rw [hzero hp]; exact hd
        · have ht := hwin hp
          unfold windowExceededTest at ht
          dsimp only at ht
          rw [decide_eq_false_iff_not, hno] at ht
          have hws : u32 (st1.peer.packetThrottle * st1.peer.windowSize)
              / ENET_PEER_PACKET_THROTTLE_SCALE ≤ 4294901760 := by
            unfold u32 ENET_PEER_PACKET_THROTTLE_SCALE
            omega
          have hmax : max (u32 (st1.peer.packetThrottle * st1.peer.windowSize)
              / ENET_PEER_PACKET_THROTTLE_SCALE) st1.peer.mtu ≤ 4294901760 :=
            max_le hws hm
          omega)
    (fun p k c l hq _ _ => ⟨hq.1, hq.2.1, hq.2.2.1, hsub c l hq.2.2.2⟩)
    (fun p k c l hq _ => ⟨hq.1, hq.2.1, hq.2.2.1, hsub c l hq.2.2.2⟩)
    rest st r ⟨hinv, hdata, hmtu, hsound⟩ h
  exact ⟨key.1, key.2.1⟩

/-- Queueing an outgoing command leaves the sent queue and the data in transit. -/
theorem enet_peer_queue_outgoing_command_data (peer : ENetPeer) (command : ENetProtocol)
    (pid : Option Nat) (packet : Option ENetPacket) (offset length mem : Nat)
    (r : QueueOutgoingResult)
    (h : enet_peer_queue_outgoing_command peer command pid packet offset length mem = some r) :
    r.peer.sentReliableCommands = peer.sentReliableCommands ∧
    r.peer.reliableDataInTransit = peer.reliableDataInTransit := by
  unfold enet_peer_queue_outgoing_command at h
  split at h
  · cases h; exact ⟨rfl, rfl⟩
  · dsimp only at h
    split at h
    · cases h
    · rename_i peer1 hsetup
      cases h
      unfold enet_peer_setup_outgoing_command enet_peer_setup_outgoing_command_tail at hsetup
      dsimp only at hsetup
      repeat' split at hsetup
      all_goals first
        | (cases hsetup; exact ⟨rfl, rfl⟩)
        | cases hsetup

/-- `enet_peer_disconnect` on a peer with nothing in `sentReliableCommands` keeps the
invariant of the data in transit. -/
theorem enet_peer_disconnect_data (hdr : ENetHeader)
    (flush : ENetHost × ENetPeer × PacketStore → ENetHost × ENetPeer × PacketStore)
    (host : ENetHost) (peer : ENetPeer) (store : PacketStore) (data mem : Nat)
    (hinv : ReliableDataInv peer) (hsent : peer.sentReliableCommands = []) :
    ReliableDataInv (enet_peer_disconnect hdr flush host peer store data mem).peer := by
  unfold enet_peer_disconnect
  split
  · exact hinv
  · obtain ⟨-, hq2⟩ := enet_peer_reset_queues_keeps host peer store
    have hq : ReliableDataInv (enet_peer_reset_queues host peer store).2.1 := by
      rw [hq2]
      unfold ReliableDataInv at hinv ⊢
      show peer.reliableDataInTransit = dataInTransit []
      rw [hinv, hsent]
    generalize enet_peer_reset_queues host peer store = rq at hq ⊢
    obtain ⟨host1, peer1, store1⟩ := rq
    dsimp only at hq ⊢
    have hreset : ∀ (h : ENetHost) (p : ENetPeer) (s : PacketStore),
        ReliableDataInv (enet_peer_reset hdr h p s).2.1 := by
      intro h p s
      obtain ⟨-, e2, -, e4, -⟩ := enet_peer_reset_empties hdr h p s
      unfold ReliableDataInv
      rw [e2, e4]
      rfl
    cases hqr : enet_peer_queue_outgoing_command peer1
        { command := ENET_PROTOCOL_COMMAND_DISCONNECT |||
            (if decide (peer1.state = ENetPeerState.CONNECTED ∨
                peer1.state = ENetPeerState.DISCONNECT_LATER) = true then
              ENET_PROTOCOL_COMMAND_FLAG_ACKNOWLEDGE
             else ENET_PROTOCOL_COMMAND_FLAG_UNSEQUENCED),
          channelID := 0xFF, reliableSequenceNumber := 0,
          body := .disconnect (ENET_HOST_TO_NET_32 data) } none none 0 0 mem with
    | none =>
      dsimp only
      split
      · exact hq
      · generalize flush (host1, peer1, store1) = fl
        obtain ⟨host2, peer2, store2⟩ := fl
        exact hreset host2 peer2 store2
    | some r =>
      obtain ⟨hs, hb⟩ := enet_peer_queue_outgoing_command_data _ _ _ _ _ _ _ _ hqr
      dsimp only
      split
      · unfold ReliableDataInv at hq ⊢
        show r.peer.reliableDataInTransit = dataInTransit r.peer.sentReliableCommands
        rw [hs, hb]
        exact hq
      · generalize flush (host1, r.peer, store1) = fl
        obtain ⟨host2, peer2, store2⟩ := fl
        exact hreset host2 peer2 store2

/-- `enet_protocol_check_outgoing_commands` keeps the invariant of the data in transit, below
the wrap of the 32-bit counter. -/
theorem enet_protocol_check_outgoing_commands_data (hdr : ENetHeader)
    (flush : ENetHost × ENetPeer × PacketStore → ENetHost × ENetPeer × PacketStore)
    (host : ENetHost) (peer : ENetPeer) (store : PacketStore) (mem : Nat)
    (r : CheckOutgoingResult)
    (hinv : ReliableDataInv peer) (hdata : peer.reliableDataInTransit ≤ 4294901760)
    (hmtu : peer.mtu ≤ 4294901760) (hsound : FragmentLengthsSound peer.outgoingCommands)
    (h : enet_protocol_check_outgoing_commands hdr flush host peer store mem = some r) :
    ReliableDataInv r.peer := by
  unfold enet_protocol_check_outgoing_commands at h
  dsimp only at h
  split at h
  · cases h
  · rename_i st rest hloop
    have hl := (enet_protocol_check_outgoing_commands_loop_data hdr peer.outgoingCommands _
      (st, rest) hinv hdata hmtu hsound hloop).1
    have hl' : ReliableDataInv { st.peer with outgoingCommands := st.kept ++ rest } := hl
    split at h
    · rename_i hc
      cases h
      exact enet_peer_disconnect_data hdr flush _ _ _ _ _ hl' hc.2.2.1
    · cases h
      exact hl'

/-- What `enet_protocol_remove_sent_reliable_command` does to the sent queue and to the data
in transit: nothing, or one command leaves the queue and the length of its packet data the
counter. -/
theorem enet_protocol_remove_sent_reliable_command_data (peer : ENetPeer)
    (store : PacketStore) (reliableSequenceNumber channelID : Nat) :
    ((enet_protocol_remove_sent_reliable_command peer store reliableSequenceNumber
        channelID).peer.sentReliableCommands = peer.sentReliableCommands ∧
      (enet_protocol_remove_sent_reliable_command peer store reliableSequenceNumber
        channelID).peer.reliableDataInTransit = peer.reliableDataInTransit) ∨
    ∃ (k : Nat) (oc : ENetOutgoingCommand),
      peer.sentReliableCommands.get? k = some oc ∧
      (enet_protocol_remove_sent_reliable_command peer store reliableSequenceNumber
        channelID).peer.sentReliableCommands = peer.sentReliableCommands.eraseIdx k ∧
      (enet_protocol_remove_sent_reliable_command peer store reliableSequenceNumber
        channelID).peer.reliableDataInTransit
        = (if oc.packet ≠ none then
            u32 (peer.reliableDataInTransit + 4294967296 - oc.fragmentLength)
           else peer.reliableDataInTransit) := by
  unfold enet_protocol_remove_sent_reliable_command
  cases hf : findSentReliable reliableSequenceNumber channelID peer.sentReliableCommands with
  | none =>
    left
    cases ho : findOutgoingReliable reliableSequenceNumber channelID peer.outgoingCommands with
    | none =>
      simp only [Option.map]
      exact ⟨trivial, trivial⟩
    | some j =>
      simp only [Option.map, Bool.false_eq_true, if_false]
      repeat' split
      all_goals exact ⟨rfl, rfl⟩
  | some k =>
    simp only [if_true]
    cases hg : peer.sentReliableCommands.get? k with
    | none => exact Or.inl ⟨rfl, rfl⟩
    | some oc =>
      right
      refine ⟨k, oc, hg, ?_⟩
      dsimp only
      cases hp : oc.packet with
      | none =>
        rw [if_neg (show ¬ ((none : Option Nat) ≠ none) from fun h => h rfl)]
        dsimp only
        repeat' split
        all_goals exact ⟨rfl, rfl⟩
      | some pid =>
        rw [if_pos (show (some pid : Option Nat) ≠ none from fun h => Option.noConfusion h)]
        dsimp only
        repeat' split
        all_goals exact ⟨rfl, rfl⟩

/-- `enet_protocol_remove_sent_reliable_command` keeps the invariant of the data in transit. -/
theorem enet_protocol_remove_sent_reliable_command_inv (peer : ENetPeer)
    (store : PacketStore) (reliableSequenceNumber channelID : Nat)
    (hinv : ReliableDataInv peer) (h32 : peer.reliableDataInTransit < 4294967296) :
    ReliableDataInv (enet_protocol_remove_sent_reliable_command peer store
      reliableSequenceNumber channelID).peer := by
  unfold ReliableDataInv at hinv ⊢
  rcases enet_protocol_remove_sent_reliable_command_data peer store reliableSequenceNumber
    channelID with ⟨h1, h2⟩ | ⟨k, oc, hget, h1, h2⟩
  · rw [h1, h2]; exact hinv
  · rw [h1, h2]
    have he := dataInTransit_eraseIdx _ _ _ hget
    by_cases hp : oc.packet ≠ none
    · rw [if_pos hp] at he ⊢
      unfold u32
      omega
    · rw [if_neg hp] at he ⊢
      omega

/-- `enet_protocol_dispatch_state` touches neither the sent queue nor the data in transit. -/
theorem enet_protocol_dispatch_state_data (host : ENetHost) (peer : ENetPeer)
    (state : ENetPeerState) :
    (enet_protocol_dispatch_state host peer state).2.sentReliableCommands
      = peer.sentReliableCommands ∧
    (enet_protocol_dispatch_state host peer state).2.reliableDataInTransit
      = peer.reliableDataInTransit := by
  unfold enet_protocol_dispatch_state
  obtain ⟨-, -, h⟩ := enet_protocol_change_state_keeps host peer state
  generalize enet_protocol_change_state host peer state = r at h
  obtain ⟨host1, peer1⟩ := r
  dsimp only at h ⊢
  subst h
  unfold linkDispatch
  split <;> exact ⟨rfl, rfl⟩

/-- `enet_protocol_notify_disconnect` keeps the invariant of the data in transit. -/
theorem enet_protocol_notify_disconnect_data (hdr : ENetHeader) (host : ENetHost)
    (peer : ENetPeer) (event : Option ENetEvent) (store : PacketStore)
    (hinv : ReliableDataInv peer) :
    ReliableDataInv (enet_protocol_notify_disconnect hdr host peer event store).2.1 := by
  have hreset : ∀ h : ENetHost, ReliableDataInv (enet_peer_reset hdr h peer store).2.1 := by
    intro h
    obtain ⟨-, e2, -, e4, -⟩ := enet_peer_reset_empties hdr h peer store
    unfold ReliableDataInv
    rw [e2, e4]
    rfl
  unfold enet_protocol_notify_disconnect
  dsimp only
  split
  · exact hreset _
  · cases event with
    | none =>
      dsimp only
      obtain ⟨d1, d2⟩ := enet_protocol_dispatch_state_data
        (if peer.state.toNat ≥ ENetPeerState.CONNECTION_PENDING.toNat then
          { host with recalculateBandwidthLimits := 1 } else host)
        { peer with eventData := 0 } ENetPeerState.ZOMBIE
      unfold ReliableDataInv at hinv ⊢
      rw [d1, d2]
      exact hinv
    | some e => exact hreset _

/-- The loop of `enet_protocol_check_timeouts` keeps the invariant of the data in transit:
when the counter is the data of the commands still in `sentReliableCommands`, it is so again
when the loop is left. -/
theorem enet_protocol_check_timeouts_loop_data (hdr : ENetHeader) (time : ENetTime)
    (host : ENetHost) (event : Option ENetEvent) (store : PacketStore) :
    ∀ (rest : List ENetOutgoingCommand) (peer : ENetPeer)
      (kept moved : List ENetOutgoingCommand),
      peer.reliableDataInTransit = dataInTransit (kept ++ rest) →
      peer.reliableDataInTransit < 4294967296 →
      ReliableDataInv
        (enet_protocol_check_timeouts_loop hdr time host event store peer kept moved
          rest).peer := by
  intro rest
  induction rest with
  | nil =>
    intro peer kept moved h h32
    unfold enet_protocol_check_timeouts_loop
    unfold ReliableDataInv
    rw [List.append_nil] at h
    exact h
  | cons outgoingCommand rest ih =>
    intro peer kept moved h h32
    unfold enet_protocol_check_timeouts_loop
    split
    · apply ih
      · rw [List.append_assoc]
        exact h
      · exact h32
    · dsimp only
      have h1 : (if peer.earliestTimeout = 0 ∨
            time.ENET_TIME_LESS outgoingCommand.sentTime peer.earliestTimeout = true then
          { peer with earliestTimeout := outgoingCommand.sentTime }
          else peer).reliableDataInTransit = peer.reliableDataInTransit := by
        split <;> rfl
      generalize (if peer.earliestTimeout = 0 ∨
            time.ENET_TIME_LESS outgoingCommand.sentTime peer.earliestTimeout = true then
          { peer with earliestTimeout := outgoingCommand.sentTime } else peer) = peer1 at h1 ⊢
      rw [← h1] at h h32
      split
      · apply enet_protocol_notify_disconnect_data
        unfold ReliableDataInv
        exact h
      · rw [dataInTransit_append] at h
        apply ih
        · rw [dataInTransit_append]
          have hp : ∀ p : ENetPeer,
              p.reliableDataInTransit
                = (if outgoingCommand.packet ≠ none then
                    u32 (peer1.reliableDataInTransit + 4294967296
                      - outgoingCommand.fragmentLength)
                   else peer1.reliableDataInTransit) →
              p.reliableDataInTransit = dataInTransit kept + dataInTransit rest := by
            intro p hp
            rw [hp]
            simp only [dataInTransit] at h
            by_cases hk : outgoingCommand.packet ≠ none
            · rw [if_pos hk] at h ⊢
              unfold u32
              omega
            · rw [if_neg hk] at h ⊢
              omega
          apply hp
          split <;> split <;> rfl
        · have hp : ∀ p : ENetPeer,
              p.reliableDataInTransit
                = (if outgoingCommand.packet ≠ none then
                    u32 (peer1.reliableDataInTransit + 4294967296
                      - outgoingCommand.fragmentLength)
                   else peer1.reliableDataInTransit) →
              p.reliableDataInTransit < 4294967296 := by
            intro p hp
            rw [hp]
            split
            · unfold u32
              omega
            · exact h32
          apply hp
          split <;> split <;> rfl

/-- `enet_protocol_check_timeouts` keeps the invariant of the data in transit. -/
theorem enet_protocol_check_timeouts_data (hdr : ENetHeader) (time : ENetTime)
    (host : ENetHost) (peer : ENetPeer) (event : Option ENetEvent) (store : PacketStore)
    (hinv : ReliableDataInv peer) (h32 : peer.reliableDataInTransit < 4294967296) :
    ReliableDataInv (enet_protocol_check_timeouts hdr time host peer event store).peer := by
  unfold enet_protocol_check_timeouts
  apply enet_protocol_check_timeouts_loop_data
  · rw [List.nil_append]
    exact hinv
  · exact h32


/-- C19, as stated, fails for `enet_peer_reset_queues`: the sample peer that has sent a
reliable packet of 4 bytes holds one command in `sentReliableCommands` and counts 4 bytes in
transit; `enet_peer_reset_queues`, and `enet_peer_disconnect` which calls it, empty the queue
and leave the counter at 4. -/
theorem enet_peer_reset_queues_stale_reliableDataInTransit :
    ReliableDataInv sampleInTransit.peer ∧
    sampleInTransit.peer.sentReliableCommands.length = 1 ∧
    sampleInTransit.peer.reliableDataInTransit = 4 ∧
    (enet_peer_reset_queues sampleInTransit.host sampleInTransit.peer
      sampleInTransit.store).2.1.sentReliableCommands = [] ∧
    (enet_peer_reset_queues sampleInTransit.host sampleInTransit.peer
      sampleInTransit.store).2.1.reliableDataInTransit = 4 ∧
    ¬ ReliableDataInv (enet_peer_reset_queues sampleInTransit.host sampleInTransit.peer
      sampleInTransit.store).2.1 ∧
    ¬ ReliableDataInv (enet_peer_disconnect sampleHeader id sampleInTransit.host
      sampleInTransit.peer sampleInTransit.store 0 sampleInTransit.mem).peer := by
  unfold ReliableDataInv
  decide

/-- C19 (amended): `reliableDataInTransit` is the sum of `fragmentLength` over the commands
in `sentReliableCommands` that carry a packet, and this is kept by
`enet_protocol_check_outgoing_commands` (for a counter and an MTU that leave room for one
more fragment below 2^32, and a queue whose commands without a packet have fragment length
0), by `enet_protocol_check_timeouts`, and by `enet_protocol_remove_sent_reliable_command`,
and holds after `enet_peer_reset`; `enet_peer_reset_queues` empties the queue and leaves the
counter as it was, so that after it the equation holds exactly when the counter was 0. -/
theorem reliableDataInTransit_invariant (hdr : ENetHeader) (time : ENetTime)
    (flush : ENetHost × ENetPeer × PacketStore → ENetHost × ENetPeer × PacketStore)
    (host : ENetHost) (peer : ENetPeer) (event : Option ENetEvent) (store : PacketStore)
    (mem reliableSequenceNumber channelID : Nat) (r : CheckOutgoingResult)
    (hinv : ReliableDataInv peer) (hdata : peer.reliableDataInTransit ≤ 4294901760)
    (hmtu : peer.mtu ≤ 4294901760) (hsound : FragmentLengthsSound peer.outgoingCommands)
    (hsent : enet_protocol_check_outgoing_commands hdr flush host peer store mem = some r) :
    ReliableDataInv r.peer ∧
    ReliableDataInv (enet_protocol_check_timeouts hdr time host peer event store).peer ∧
    ReliableDataInv (enet_protocol_remove_sent_reliable_command peer store
      reliableSequenceNumber channelID).peer ∧
    ReliableDataInv (enet_peer_reset hdr host peer store).2.1 ∧
    (enet_peer_reset_queues host peer store).2.1.sentReliableCommands = [] ∧
    (enet_peer_reset_queues host peer store).2.1.reliableDataInTransit
      = peer.reliableDataInTransit ∧
    (ReliableDataInv (enet_peer_reset_queues host peer store).2.1 ↔
      peer.reliableDataInTransit = 0) := by
  have h32 : peer.reliableDataInTransit < 4294967296 := by omega
  have hq := (enet_peer_reset_queues_keeps host peer store).2
  refine ⟨enet_protocol_check_outgoing_commands_data hdr flush host peer store mem r hinv
      hdata hmtu hsound hsent,
    enet_protocol_check_timeouts_data hdr time host peer event store hinv h32,
    enet_protocol_remove_sent_reliable_command_inv peer store reliableSequenceNumber
      channelID hinv h32, ?_, ?_, ?_, ?_⟩
  · obtain ⟨-, e2, -, e4, -⟩ := enet_peer_reset_empties hdr host peer store
    unfold ReliableDataInv
    rw [e2, e4]
    rfl
  · rw [hq]
  · rw [hq]
  · unfold ReliableDataInv
    rw [hq]
    exact Iff.rfl

/-- C19 (amended) at the sample peer: when its reliable packet of 4 bytes is sent, and when
the command is then acknowledged or checked for a timeout. -/
theorem reliableDataInTransit_invariant_witness :
    (ReliableDataInv sampleInTransit.peer ∧ sampleInTransit.peer.reliableDataInTransit = 4) ∧
    ReliableDataInv (enet_protocol_check_timeouts sampleHeader sampleTime sampleInTransit.host
      sampleInTransit.peer none sampleInTransit.store).peer ∧
    ReliableDataInv (enet_protocol_remove_sent_reliable_command sampleInTransit.peer
      sampleInTransit.store 1 0).peer ∧
    (enet_protocol_remove_sent_reliable_command sampleInTransit.peer
      sampleInTransit.store 1 0).peer.reliableDataInTransit = 0 :=
  have h1 := reliableDataInTransit_invariant sampleHeader sampleTime id sampleHost
    sampleSmallSent.peer none [(0, sampleSmallSent.packet)] sampleSmallSent.mem 1 0
    sampleInTransit
    (by unfold ReliableDataInv; decide) (by decide) (by decide)
    (by unfold FragmentLengthsSound; decide) (by decide)
  have h2 := reliableDataInTransit_invariant sampleHeader sampleTime id sampleInTransit.host
    sampleInTransit.peer none sampleInTransit.store sampleInTransit.mem 1 0
    { canPing := true, host := sampleInTransit.host, peer := sampleInTransit.peer,
      store := sampleInTransit.store, mem := sampleInTransit.mem }
    (by unfold ReliableDataInv; decide) (by decide) (by decide)
    (by unfold FragmentLengthsSound; decide) (by decide)
  ⟨⟨h1.1, by decide⟩, h2.2.1, h2.2.2.1, by decide⟩

/-! ## The reliable windows count the commands that were sent -/

/-- The sum of the counts over the 16 windows is the count of the commands that were sent. -/
theorem countP_inReliableWindow_sum (channelID : Nat) :
    ∀ (commands : List ENetOutgoingCommand), SequenceNumbersSound commands →
      ((List.range ENET_PEER_RELIABLE_WINDOWS).map fun reliableWindow =>
          commands.countP (inReliableWindow channelID reliableWindow)).sum
        = commands.countP (sentOnChannel channelID) := by
  intro commands
  induction commands with
  | nil =>
    intro _
    simp only [List.countP_nil]
    generalize List.range ENET_PEER_RELIABLE_WINDOWS = ws
    induction ws with
    | nil => rfl
    | cons w ws ihw => simp
  | cons c rest ih =>
    intro h
    have hrest : SequenceNumbersSound rest := fun d hd => h d (List.mem_cons_of_mem _ hd)
    have hc := h c (List.mem_cons_self _ _)
    simp only [List.countP_cons]
    rw [← ih hrest]
    have hone : ((List.range ENET_PEER_RELIABLE_WINDOWS).map fun reliableWindow =>
        if inReliableWindow channelID reliableWindow c = true then 1 else 0).sum
          = if sentOnChannel channelID c = true then 1 else 0 := by
      unfold inReliableWindow sentOnChannel
      by_cases hs : c.command.command &&& ENET_PROTOCOL_COMMAND_FLAG_ACKNOWLEDGE ≠ 0 ∧
          c.command.channelID = channelID ∧ 1 ≤ c.sendAttempts
      · have hw : c.reliableSequenceNumber / ENET_PEER_RELIABLE_WINDOW_SIZE < 16 :=
          Nat.div_lt_of_lt_mul (hc hs.1)
        generalize c.reliableSequenceNumber / ENET_PEER_RELIABLE_WINDOW_SIZE = w at hw
        simp only [hs.1, hs.2.1, hs.2.2, true_and, decide_eq_true_eq, ne_eq, not_false_eq_true,
          decide_True, if_true]
        unfold ENET_PEER_RELIABLE_WINDOWS
        interval_cases w <;> decide
      · have hf : ∀ w, (decide (c.command.command &&& ENET_PROTOCOL_COMMAND_FLAG_ACKNOWLEDGE ≠ 0 ∧
            c.command.channelID = channelID ∧ 1 ≤ c.sendAttempts ∧
            c.reliableSequenceNumber / ENET_PEER_RELIABLE_WINDOW_SIZE = w)) = false := by
          intro w
          rw [decide_eq_false_iff_not]
          intro hh
          exact hs ⟨hh.1, hh.2.1, hh.2.2.1⟩
        simp only [hf, Bool.false_eq_true, if_false]
        rw [decide_eq_false hs]
        simp
    rw [← hone]
    generalize List.range ENET_PEER_RELIABLE_WINDOWS = ws
    induction ws with
    | nil => rfl
    | cons w ws ihw =>
      simp only [List.map_cons, List.sum_cons] at ihw ⊢
      omega

/-- The invariant of the reliable windows gives the equation between the sum of the windows
of a channel and the number of its commands that were sent. -/
theorem reliableWindowsInv_sent (peer : ENetPeer) (h : ReliableWindowsInv peer) :
    ReliableWindowsSent peer := by
  intro channelID channel hc hg
  obtain ⟨-, hseq, hcount⟩ := h
  obtain ⟨-, hw⟩ := hcount channelID channel hc hg
  rw [← countP_inReliableWindow_sum channelID _ hseq]
  unfold reliableWindowsSum
  congr 1
  apply List.map_congr_left
  intro w hmem
  exact hw w (List.mem_range.mp hmem)

/-- Reading a list after one entry was written. -/
theorem getD_set_eq (l : List Nat) (i j a : Nat) :
    (l.set i a).getD j 0 = if i = j ∧ i < l.length then a else l.getD j 0 := by
  simp only [List.getD_eq_getElem?_getD, List.getElem?_set]
  by_cases hij : i = j
  · subst hij
    by_cases hl : i < l.length
    · simp [hl]
    · simp [hl, List.getElem?_eq_none (Nat.le_of_not_lt hl)]
  · simp [hij]

/-- What `sendReliableCommand` does to the sent queue, to the command and to the channels. -/
theorem sendReliableCommand_windows (st : CheckOutgoingState) (c : ENetOutgoingCommand)
    (channel : Option ENetChannel) (reliableWindow : Nat) :
    (sendReliableCommand st c channel reliableWindow).1.peer.sentReliableCommands
      = st.peer.sentReliableCommands ++ [(sendReliableCommand st c channel reliableWindow).2] ∧
    (sendReliableCommand st c channel reliableWindow).2.command = c.command ∧
    (sendReliableCommand st c channel reliableWindow).2.reliableSequenceNumber
      = c.reliableSequenceNumber ∧
    (sendReliableCommand st c channel reliableWindow).2.sendAttempts
      = u16 (c.sendAttempts + 1) ∧
    (sendReliableCommand st c channel reliableWindow).1.peer.channelCount
      = st.peer.channelCount ∧
    (channel = none ∨ ¬ c.sendAttempts < 1 →
      (sendReliableCommand st c channel reliableWindow).1.peer.channels = st.peer.channels) ∧
    (∀ ch, channel = some ch → c.sendAttempts < 1 →
      ∃ ch1 : ENetChannel,
        ch1.reliableWindows = ch.reliableWindows.set reliableWindow
          (u16 (ch.reliableWindows.getD reliableWindow 0 + 1)) ∧
        (sendReliableCommand st c channel reliableWindow).1.peer.channels
          = st.peer.channels.set c.command.channelID ch1) := by
  unfold sendReliableCommand
  cases channel with
  | none =>
    dsimp only
    refine ⟨?_, ?_, ?_, ?_, ?_, ?_, ?_⟩
    iterate 5 (repeat' split) <;> rfl
    · intro _
      repeat' split
      all_goals rfl
    · intro ch hch
      cases hch
  | some ch0 =>
    by_cases hs : c.sendAttempts < 1
    · simp only [if_pos hs]
      refine ⟨?_, ?_, ?_, ?_, ?_, ?_, ?_⟩
      iterate 5 (repeat' split) <;> rfl
      · intro hh
        rcases hh with hh | hh
        · cases hh
        · exact absurd hs hh
      · intro ch hch _
        cases hch
        refine ⟨{ ch0 with
          usedReliableWindows := u16 (ch0.usedReliableWindows ||| (1 <<< reliableWindow)),
          reliableWindows := ch0.reliableWindows.set reliableWindow
            (u16 (ch0.reliableWindows.getD reliableWindow 0 + 1)) }, rfl, ?_⟩
        repeat' split
        all_goals rfl
    · simp only [if_neg hs]
      refine ⟨?_, ?_, ?_, ?_, ?_, ?_, ?_⟩
      iterate 5 (repeat' split) <;> rfl
      · intro _
        repeat' split
        all_goals rfl
      · intro ch _ hh
        exact absurd hh hs

/-- A command without the `ACKNOWLEDGE` flag, or one that was never sent, lies in no reliable
window. -/
theorem inReliableWindow_false (channelID reliableWindow : Nat) (c : ENetOutgoingCommand)
    (h : c.command.command &&& ENET_PROTOCOL_COMMAND_FLAG_ACKNOWLEDGE = 0 ∨ c.sendAttempts < 1 ∨
      c.command.channelID ≠ channelID) :
    inReliableWindow channelID reliableWindow c = false := by
  unfold inReliableWindow
  rw [decide_eq_false_iff_not]
  rintro ⟨h1, h2, h3, -⟩
  rcases h with h | h | h
  · exact h1 h
  · omega
  · exact h h2

/-- The windows count a list as they count any list with the same counts. -/
theorem windowsCount_congr (channels : List ENetChannel) (channelCount : Nat)
    (commands commands1 : List ENetOutgoingCommand)
    (h : WindowsCount channels channelCount commands)
    (hc : ∀ channelID reliableWindow, channelID < channelCount →
      commands1.countP (inReliableWindow channelID reliableWindow)
        = commands.countP (inReliableWindow channelID reliableWindow)) :
    WindowsCount channels channelCount commands1 := by
  intro channelID channel hlt hget
  obtain ⟨h1, h2⟩ := h channelID channel hlt hget
  refine ⟨h1, fun w hw => ?_⟩
  rw [h2 w hw, hc channelID w hlt]

/-- The windows after a reliable command has been sent: the command moves from the outgoing
commands to the end of the sent ones, and when this is its first transmission the window of
its sequence number on its channel is incremented. -/
theorem windowsCount_send (channels channels1 : List ENetChannel) (channelCount : Nat)
    (sent kept rest : List ENetOutgoingCommand) (c c1 : ENetOutgoingCommand)
    (hcommand : c1.command = c.command)
    (hnumber : c1.reliableSequenceNumber = c.reliableSequenceNumber)
    (hattempts : c1.sendAttempts = c.sendAttempts + 1)
    (hack : c.command.command &&& ENET_PROTOCOL_COMMAND_FLAG_ACKNOWLEDGE ≠ 0)
    (hrsn : c.reliableSequenceNumber < 65536)
    (hlen : (sent ++ (kept ++ c :: rest)).length < 65535)
    (hcount : WindowsCount channels channelCount (sent ++ (kept ++ c :: rest)))
    (hsame : ¬ c.command.channelID < channelCount ∨ ¬ c.sendAttempts < 1 →
      channels1 = channels)
    (hset : c.command.channelID < channelCount → c.sendAttempts < 1 →
      ∃ ch0 ch1 : ENetChannel, channels.get? c.command.channelID = some ch0 ∧
        ch1.reliableWindows
          = ch0.reliableWindows.set (c.reliableSequenceNumber / ENET_PEER_RELIABLE_WINDOW_SIZE)
              (u16 (ch0.reliableWindows.getD
                (c.reliableSequenceNumber / ENET_PEER_RELIABLE_WINDOW_SIZE) 0 + 1)) ∧
        channels1 = channels.set c.command.channelID ch1) :
    WindowsCount channels1 channelCount ((sent ++ [c1]) ++ (kept ++ rest)) := by
  have hsplit : ∀ p : ENetOutgoingCommand → Bool,
      ((sent ++ [c1]) ++ (kept ++ rest)).countP p + (if p c = true then 1 else 0)
        = (sent ++ (kept ++ c :: rest)).countP p + (if p c1 = true then 1 else 0) := by
    intro p
    simp only [List.countP_append, List.countP_cons, List.countP_nil]
    omega
  have hw16 : c.reliableSequenceNumber / ENET_PEER_RELIABLE_WINDOW_SIZE < 16 :=
    Nat.div_lt_of_lt_mul hrsn
  by_cases hfirst : c.command.channelID < channelCount ∧ c.sendAttempts < 1
  · obtain ⟨ch0, ch1, hget0, hwin, hch1⟩ := hset hfirst.1 hfirst.2
    subst hch1
    obtain ⟨hlen0, hcount0⟩ := hcount _ ch0 hfirst.1 hget0
    intro channelID channel hlt hget
    by_cases hid : c.command.channelID = channelID
    · subst hid
      have hlt2 : c.command.channelID < channels.length := by
        have := List.get?_eq_some.mp hget0
        exact this.1
      rw [List.get?_eq_getElem?, List.getElem?_set_self hlt2] at hget
      cases hget
      rw [hwin]
      refine ⟨by rw [List.length_set]; exact hlen0, fun w hw => ?_⟩
      rw [getD_set_eq, hcount0 w hw]
      have hc0 : inReliableWindow c.command.channelID w c = false :=
        inReliableWindow_false _ _ _ (Or.inr (Or.inl hfirst.2))
      have hs := hsplit (inReliableWindow c.command.channelID w)
      rw [hc0] at hs
      simp only [Bool.false_eq_true, if_false, Nat.add_zero] at hs
      rw [hs]
      have hbound : (sent ++ (kept ++ c :: rest)).countP
          (inReliableWindow c.command.channelID
            (c.reliableSequenceNumber / ENET_PEER_RELIABLE_WINDOW_SIZE)) < 65535 :=
        Nat.lt_of_le_of_lt (List.countP_le_length _) hlen
      by_cases hwe : c.reliableSequenceNumber / ENET_PEER_RELIABLE_WINDOW_SIZE = w
      · have hc1 : inReliableWindow c.command.channelID w c1 = true := by
          unfold inReliableWindow
          rw [decide_eq_true_iff, hcommand, hnumber, hattempts]
          exact ⟨hack, rfl, by omega, hwe⟩
        rw [hc1]
        have hcond : c.reliableSequenceNumber / ENET_PEER_RELIABLE_WINDOW_SIZE = w ∧
            c.reliableSequenceNumber / ENET_PEER_RELIABLE_WINDOW_SIZE
              < ch0.reliableWindows.length := by
          refine ⟨hwe, ?_⟩
          rw [hlen0]
          exact hw16
        rw [if_pos hcond, hcount0 _ hw16]
        simp only [if_true]
        rw [← hwe]
        unfold u16
        omega
      · have hc1 : inReliableWindow c.command.channelID w c1 = false := by
          unfold inReliableWindow
          rw [decide_eq_false_iff_not, hnumber]
          rintro ⟨-, -, -, h4⟩
          exact hwe h4
        rw [hc1, if_neg (fun hh => hwe hh.1)]
        simp
    · rw [List.get?_eq_getElem?, List.getElem?_set_ne hid, ← List.get?_eq_getElem?] at hget
      obtain ⟨h1, h2⟩ := hcount channelID channel hlt hget
      refine ⟨h1, fun w hw => ?_⟩
      rw [h2 w hw]
      have hs := hsplit (inReliableWindow channelID w)
      rw [inReliableWindow_false channelID w c (Or.inr (Or.inr hid)),
        inReliableWindow_false channelID w c1 (Or.inr (Or.inr (by rw [hcommand]; exact hid)))]
        at hs
      omega
  · have hch : channels1 = channels := by
      apply hsame
      by_cases h1 : c.command.channelID < channelCount
      · exact Or.inr (fun h2 => hfirst ⟨h1, h2⟩)
      · exact Or.inl h1
    subst hch
    apply windowsCount_congr _ _ _ _ hcount
    intro channelID w hlt
    have hs := hsplit (inReliableWindow channelID w)
    have heq : inReliableWindow channelID w c1 = inReliableWindow channelID w c := by
      by_cases hid : c.command.channelID = channelID
      · have hsa : ¬ c.sendAttempts < 1 := fun h2 => hfirst ⟨by rw [hid]; exact hlt, h2⟩
        unfold inReliableWindow
        rw [hcommand, hnumber, hattempts]
        congr 1
        apply propext
        constructor
        · rintro ⟨a1, a2, -, a4⟩
          exact ⟨a1, a2, by omega, a4⟩
        · rintro ⟨a1, a2, -, a4⟩
          exact ⟨a1, a2, by omega, a4⟩
      · rw [inReliableWindow_false channelID w c (Or.inr (Or.inr hid)),
          inReliableWindow_false channelID w c1
            (Or.inr (Or.inr (by rw [hcommand]; exact hid)))]
    rw [heq] at hs
    omega

/-- The loop invariant of the reliable windows when the command at the head of the commands
to come leaves the queue without having counted: a command without the `ACKNOWLEDGE` flag, or
one that was never sent. -/
theorem sendingInv_skip (peer : ENetPeer) (kept rest : List ENetOutgoingCommand)
    (c : ENetOutgoingCommand) (d d1 : Option (Nat × Nat))
    (h : SendingInv peer kept d (c :: rest))
    (hc : c.command.command &&& ENET_PROTOCOL_COMMAND_FLAG_ACKNOWLEDGE = 0 ∨ c.sendAttempts < 1)
    (hd : ∀ pair, d1 = some pair → ∀ e ∈ rest,
      e.command.command &&& ENET_PROTOCOL_COMMAND_FLAG_ACKNOWLEDGE ≠ 0 → 1 ≤ e.sendAttempts →
        (e.reliableSequenceNumber, e.unreliableSequenceNumber) ≠ pair) :
    SendingInv peer kept d1 rest := by
  obtain ⟨h1, h2, h3, h4, -, h6, h7⟩ := h
  refine ⟨h1, ?_, fun e he => h3 e (List.mem_cons_of_mem _ he),
    fun e he => fun ha hs f hf => h4 e (List.mem_cons_of_mem _ he) ha hs f
      (List.mem_cons_of_mem _ hf), hd, ?_, ?_⟩
  · intro e he
    apply h2 e
    simp only [List.mem_append, List.mem_cons] at he ⊢
    tauto
  · simp only [List.length_append, List.length_cons] at h6 ⊢
    omega
  · apply windowsCount_congr _ _ _ _ h7
    intro channelID w _
    simp only [List.countP_append, List.countP_cons]
    rw [inReliableWindow_false channelID w c (by tauto)]
    simp

/-- The command byte is left alone when the sequence fields of a record are written. -/
theorem setupCommandRecord_command (peer : ENetPeer) (oc : ENetOutgoingCommand) :
    (setupCommandRecord peer oc).command = oc.command.command := by
  unfold setupCommandRecord
  dsimp only
  repeat' split
  all_goals rfl

/-- What `enet_peer_setup_outgoing_command` does to the queues and to the channels: one
command that was never sent is appended to `outgoingCommands`, and at most one channel is
written, whose reliable windows stay as they are. -/
theorem enet_peer_setup_outgoing_command_fields (peer p1 : ENetPeer)
    (oc : ENetOutgoingCommand) (h : enet_peer_setup_outgoing_command peer oc = some p1) :
    p1.sentReliableCommands = peer.sentReliableCommands ∧
    p1.channelCount = peer.channelCount ∧
    (∃ c1 : ENetOutgoingCommand, p1.outgoingCommands = peer.outgoingCommands ++ [c1] ∧
      c1.sendAttempts = 0 ∧
      (c1.command.command &&& ENET_PROTOCOL_COMMAND_FLAG_ACKNOWLEDGE ≠ 0 →
        c1.reliableSequenceNumber < 65536)) ∧
    (p1.channels = peer.channels ∨
      ∃ (k : Nat) (ch0 ch1 : ENetChannel), peer.channels.get? k = some ch0 ∧
        ch1.reliableWindows = ch0.reliableWindows ∧ p1.channels = peer.channels.set k ch1) := by
  have hu : ∀ x : Nat, u16 x < 65536 := fun x => Nat.mod_lt _ (by decide)
  unfold enet_peer_setup_outgoing_command at h
  dsimp only at h
  split at h
  · cases h
    unfold enet_peer_setup_outgoing_command_tail
    exact ⟨rfl, rfl, ⟨_, rfl, rfl, fun _ => hu _⟩, Or.inl rfl⟩
  · split at h
    · cases h
    · rename_i ch0 hget
      split at h
      · cases h
        unfold enet_peer_setup_outgoing_command_tail
        refine ⟨rfl, rfl, ⟨_, rfl, rfl, fun _ => hu _⟩, Or.inr ⟨_, ch0, _, hget, ?_, rfl⟩⟩
        rfl
      · rename_i hnack
        split at h
        · cases h
          unfold enet_peer_setup_outgoing_command_tail
          exact ⟨rfl, rfl, ⟨_, rfl, rfl, fun _ => by show (0 : Nat) < 65536; decide⟩, Or.inl rfl⟩
        · cases h
          unfold enet_peer_setup_outgoing_command_tail
          refine ⟨rfl, rfl, ⟨_, rfl, rfl, fun hack => ?_⟩, Or.inr ⟨_, ch0, _, hget, ?_, rfl⟩⟩
          · exfalso
            apply hnack
            have := setupCommandRecord_command peer
              { oc with reliableSequenceNumber := 0 }
            dsimp only at hack
            rw [setupCommandRecord_command] at hack
            exact hack
          · split <;> rfl

/-- Writing a channel without touching its reliable windows keeps the count. -/
theorem windowsCount_set (channels : List ENetChannel) (channelCount k : Nat)
    (commands : List ENetOutgoingCommand) (ch0 ch1 : ENetChannel)
    (h : WindowsCount channels channelCount commands)
    (hget0 : channels.get? k = some ch0) (hwin : ch1.reliableWindows = ch0.reliableWindows) :
    WindowsCount (channels.set k ch1) channelCount commands := by
  intro channelID channel hlt hget
  by_cases hid : k = channelID
  · subst hid
    have hlt2 : k < channels.length := (List.get?_eq_some.mp hget0).1
    rw [List.get?_eq_getElem?, List.getElem?_set_self hlt2] at hget
    cases hget
    rw [hwin]
    exact h k ch0 hlt hget0
  · rw [List.get?_eq_getElem?, List.getElem?_set_ne hid, ← List.get?_eq_getElem?] at hget
    exact h channelID channel hlt hget

/-- A peer without channels and without sent commands satisfies the invariant of the reliable
windows. -/
theorem reliableWindowsInv_of_empty (peer : ENetPeer)
    (hsent : peer.sentReliableCommands = []) (hchannels : peer.channels = [])
    (hseq : SequenceNumbersSound peer.outgoingCommands) : ReliableWindowsInv peer := by
  unfold ReliableWindowsInv
  rw [hsent, hchannels]
  refine ⟨fun c hc => absurd hc (List.not_mem_nil _), hseq, ?_⟩
  intro channelID channel _ hget
  cases hget

/-- The invariant of the reliable windows when a command that was never sent joins
`outgoingCommands`. -/
theorem reliableWindowsInv_queue (peer p1 : ENetPeer) (c1 : ENetOutgoingCommand)
    (h : ReliableWindowsInv peer)
    (hsent : p1.sentReliableCommands = peer.sentReliableCommands)
    (hcount : p1.channelCount = peer.channelCount)
    (hout : p1.outgoingCommands = peer.outgoingCommands ++ [c1])
    (hattempts : c1.sendAttempts = 0)
    (hrsn : c1.command.command &&& ENET_PROTOCOL_COMMAND_FLAG_ACKNOWLEDGE ≠ 0 →
      c1.reliableSequenceNumber < 65536)
    (hch : p1.channels = peer.channels ∨
      ∃ (k : Nat) (ch0 ch1 : ENetChannel), peer.channels.get? k = some ch0 ∧
        ch1.reliableWindows = ch0.reliableWindows ∧ p1.channels = peer.channels.set k ch1) :
    ReliableWindowsInv p1 := by
  obtain ⟨h1, h2, h3⟩ := h
  unfold ReliableWindowsInv
  rw [hsent, hcount, hout]
  refine ⟨h1, ?_, ?_⟩
  · intro e he
    simp only [List.mem_append, List.mem_singleton] at he
    rcases he with he | he | he
    · exact h2 e (List.mem_append_left _ he)
    · exact h2 e (List.mem_append_right _ he)
    · subst he
      exact hrsn
  · have h4 : WindowsCount peer.channels peer.channelCount
        (peer.sentReliableCommands ++ (peer.outgoingCommands ++ [c1])) := by
      apply windowsCount_congr _ _ _ _ h3
      intro channelID w _
      simp only [List.countP_append, List.countP_cons, List.countP_nil]
      rw [inReliableWindow_false channelID w c1 (Or.inr (Or.inl (by omega)))]
      simp
    rcases hch with hch | ⟨k, ch0, ch1, hget, hwin, hch⟩
    · rw [hch]
      exact h4
    · rw [hch]
      exact windowsCount_set _ _ _ _ _ _ h4 hget hwin

/-- `enet_peer_setup_outgoing_command` keeps the invariant of the reliable windows. -/
theorem enet_peer_setup_outgoing_command_windows (peer p1 : ENetPeer)
    (oc : ENetOutgoingCommand) (hinv : ReliableWindowsInv peer)
    (h : enet_peer_setup_outgoing_command peer oc = some p1) : ReliableWindowsInv p1 := by
  obtain ⟨h1, h2, ⟨c1, h3, h4, h5⟩, h6⟩ := enet_peer_setup_outgoing_command_fields peer p1 oc h
  exact reliableWindowsInv_queue peer p1 c1 hinv h1 h2 h3 h4 h5 h6

/-- `enet_peer_queue_outgoing_command` keeps the invariant of the reliable windows. -/
theorem enet_peer_queue_outgoing_command_windows (peer : ENetPeer) (command : ENetProtocol)
    (pid : Option Nat) (packet : Option ENetPacket) (offset length mem : Nat)
    (r : QueueOutgoingResult) (hinv : ReliableWindowsInv peer)
    (h : enet_peer_queue_outgoing_command peer command pid packet offset length mem = some r) :
    ReliableWindowsInv r.peer := by
  unfold enet_peer_queue_outgoing_command at h
  split at h
  · cases h; exact hinv
  · dsimp only at h
    split at h
    · cases h
    · rename_i peer1 hsetup
      cases h
      exact enet_peer_setup_outgoing_command_windows _ _ _ hinv hsetup

/-- A change of fields other than the queues and the channels keeps the invariant of the
reliable windows. -/
theorem reliableWindowsInv_congr (peer p1 : ENetPeer) (h : ReliableWindowsInv peer)
    (hsent : p1.sentReliableCommands = peer.sentReliableCommands)
    (hout : p1.outgoingCommands = peer.outgoingCommands)
    (hchannels : p1.channels = peer.channels) (hcount : p1.channelCount = peer.channelCount) :
    ReliableWindowsInv p1 := by
  unfold ReliableWindowsInv at h ⊢
  rw [hsent, hout, hchannels, hcount]
  exact h

/-- `enet_peer_disconnect` keeps the invariant of the reliable windows. -/
theorem enet_peer_disconnect_windows (hdr : ENetHeader)
    (flush : ENetHost × ENetPeer × PacketStore → ENetHost × ENetPeer × PacketStore)
    (host : ENetHost) (peer : ENetPeer) (store : PacketStore) (data mem : Nat)
    (hinv : ReliableWindowsInv peer) :
    ReliableWindowsInv (enet_peer_disconnect hdr flush host peer store data mem).peer := by
  unfold enet_peer_disconnect
  split
  · exact hinv
  · obtain ⟨-, hq2⟩ := enet_peer_reset_queues_keeps host peer store
    have hq : ReliableWindowsInv (enet_peer_reset_queues host peer store).2.1 := by
      rw [hq2]
      exact reliableWindowsInv_of_empty _ rfl rfl (fun c hc => absurd hc (List.not_mem_nil _))
    generalize enet_peer_reset_queues host peer store = rq at hq ⊢
    obtain ⟨host1, peer1, store1⟩ := rq
    dsimp only at hq ⊢
    have hreset : ∀ (h : ENetHost) (p : ENetPeer) (s : PacketStore),
        ReliableWindowsInv (enet_peer_reset hdr h p s).2.1 := by
      intro h p s
      obtain ⟨e1, e2, e3, -, -⟩ := enet_peer_reset_empties hdr h p s
      apply reliableWindowsInv_of_empty _ e2 e3
      rw [e1]
      exact fun c hc => absurd hc (List.not_mem_nil _)
    cases hqr : enet_peer_queue_outgoing_command peer1
        { command := ENET_PROTOCOL_COMMAND_DISCONNECT |||
            (if decide (peer1.state = ENetPeerState.CONNECTED ∨
                peer1.state = ENetPeerState.DISCONNECT_LATER) = true then
              ENET_PROTOCOL_COMMAND_FLAG_ACKNOWLEDGE
             else ENET_PROTOCOL_COMMAND_FLAG_UNSEQUENCED),
          channelID := 0xFF, reliableSequenceNumber := 0,
          body := .disconnect (ENET_HOST_TO_NET_32 data) } none none 0 0 mem with
    | none =>
      dsimp only
      split
      · exact reliableWindowsInv_congr _ _ hq rfl rfl rfl rfl
      · generalize flush (host1, peer1, store1) = fl
        obtain ⟨host2, peer2, store2⟩ := fl
        exact hreset host2 peer2 store2
    | some r =>
      have hr := enet_peer_queue_outgoing_command_windows _ _ _ _ _ _ _ _ hq hqr
      dsimp only
      split
      · exact reliableWindowsInv_congr _ _ hr rfl rfl rfl rfl
      · generalize flush (host1, r.peer, store1) = fl
        obtain ⟨host2, peer2, store2⟩ := fl
        exact hreset host2 peer2 store2

/-- The loop of `enet_protocol_check_outgoing_commands` keeps the invariant of the reliable
windows. -/
theorem enet_protocol_check_outgoing_commands_loop_windows (hdr : ENetHeader)
    (rest : List ENetOutgoingCommand) (st : CheckOutgoingState)
    (r : CheckOutgoingState × List ENetOutgoingCommand)
    (hinv : SendingInv st.peer st.kept st.dropping rest)
    (h : enet_protocol_check_outgoing_commands_loop hdr st rest = some r) :
    SendingInv r.1.peer r.1.kept r.1.dropping r.2 := by
  refine enet_protocol_check_outgoing_commands_loop_induct hdr SendingInv
    ?_ ?_ ?_ ?_ ?_ ?_ ?_ rest st r hinv h
  · intro p p1 k d l hq hf
    have h1 : p1.sentReliableCommands = p.sentReliableCommands := by
      have := congrArg (fun q : ENetPeer => q.sentReliableCommands) hf
      exact this
    have h2 : p1.channels = p.channels := by
      have := congrArg (fun q : ENetPeer => q.channels) hf
      exact this
    have h3 : p1.channelCount = p.channelCount := by
      have := congrArg (fun q : ENetPeer => q.channelCount) hf
      exact this
    unfold SendingInv at hq ⊢
    rw [h1, h2, h3]
    exact hq
  · intro p k c l hq
    have hc : c.command.command &&& ENET_PROTOCOL_COMMAND_FLAG_ACKNOWLEDGE = 0 ∨
        c.sendAttempts < 1 := by
      by_cases ha : c.command.command &&& ENET_PROTOCOL_COMMAND_FLAG_ACKNOWLEDGE = 0
      · exact Or.inl ha
      · right
        by_contra hs
        exact hq.2.2.2.2.1 _ rfl c (List.mem_cons_self _ _) ha (by omega) rfl
    apply sendingInv_skip p k l c _ _ hq hc
    intro pair hp e he
    exact hq.2.2.2.2.1 pair hp e (List.mem_cons_of_mem _ he)
  · intro p k d l hq
    obtain ⟨h1, h2, h3, h4, -, h6, h7⟩ := hq
    exact ⟨h1, h2, h3, h4, (fun _ hp => nomatch hp), h6, h7⟩
  · intro p k c l hq _
    unfold SendingInv at hq ⊢
    obtain ⟨h1, h2, h3, h4, -, h6, h7⟩ := hq
    rw [List.append_assoc, List.singleton_append]
    exact ⟨h1, h2, fun e he => h3 e (List.mem_cons_of_mem _ he),
      fun e he ha hs f hf => h4 e (List.mem_cons_of_mem _ he) ha hs f
        (List.mem_cons_of_mem _ hf), (fun _ hp => nomatch hp), h6, h7⟩
  · intro st1 c l hq hack hch _
    obtain ⟨h1, h2, h3, h4, -, h6, h7⟩ := hq
    obtain ⟨s1, s2, s3, s4, s5, s6, s7⟩ := sendReliableCommand_windows st1 c
      (channelFor st1.peer c) (u16 (c.reliableSequenceNumber / ENET_PEER_RELIABLE_WINDOW_SIZE))
    have hrsn : c.reliableSequenceNumber < 65536 := by
      apply h2 c _ hack
      simp
    have hsa : c.sendAttempts < 65535 := h3 c (List.mem_cons_self _ _) hack
    have hu : u16 (c.sendAttempts + 1) = c.sendAttempts + 1 := by
      unfold u16; omega
    have hw16 : c.reliableSequenceNumber / ENET_PEER_RELIABLE_WINDOW_SIZE < 16 :=
      Nat.div_lt_of_lt_mul hrsn
    have huw : u16 (c.reliableSequenceNumber / ENET_PEER_RELIABLE_WINDOW_SIZE)
        = c.reliableSequenceNumber / ENET_PEER_RELIABLE_WINDOW_SIZE :=
      u16_of_lt (Nat.lt_of_lt_of_le hw16 (by decide))
    rw [hu] at s4
    rw [huw] at s1 s2 s3 s4 s5 s6 s7 ⊢
    generalize sendReliableCommand st1 c (channelFor st1.peer c)
      (c.reliableSequenceNumber / ENET_PEER_RELIABLE_WINDOW_SIZE) = sr at s1 s2 s3 s4 s5 s6 s7 ⊢
    unfold SendingInv
    rw [s1, s5]
    refine ⟨?_, ?_, fun e he => h3 e (List.mem_cons_of_mem _ he),
      fun e he ha hs f hf => h4 e (List.mem_cons_of_mem _ he) ha hs f
        (List.mem_cons_of_mem _ hf), (fun _ hp => nomatch hp), ?_, ?_⟩
    · intro e he
      simp only [List.mem_append, List.mem_singleton] at he
      rcases he with he | he
      · exact h1 e he
      · subst he
        rw [s2, s4]
        exact ⟨hack, by omega⟩
    · intro e he hae
      simp only [List.mem_append, List.mem_singleton] at he
      rcases he with (he | he) | he | he
      · exact h2 e (by simp [he]) hae
      · subst he
        rw [s3]
        exact hrsn
      · exact h2 e (by simp [he]) hae
      · exact h2 e (by simp [he]) hae
    · simp only [List.length_append, List.length_cons, List.length_nil] at h6 ⊢
      omega
    · apply windowsCount_send st1.peer.channels sr.1.peer.channels st1.peer.channelCount
        st1.peer.sentReliableCommands st1.kept l c sr.2 s2 s3 s4 hack hrsn h6 h7
      · intro hno
        apply s6
        rcases hno with hno | hno
        · left
          unfold channelFor
          rw [if_neg (by simpa using hno)]
        · exact Or.inr hno
      · intro hlt hfirst
        cases hcf : channelFor st1.peer c with
        | none => exact absurd hcf (hch hlt)
        | some ch0 =>
          obtain ⟨ch1, hwin, hset⟩ := s7 ch0 hcf hfirst
          refine ⟨ch0, ch1, ?_, hwin, hset⟩
          unfold channelFor at hcf
          rw [if_pos (by simpa using hlt)] at hcf
          exact hcf
  · intro p k c l hq hnack hpacket
    apply sendingInv_skip p k l c _ _ hq (Or.inl hnack)
    intro pair hp e he hae hse
    cases hp
    intro heq
    exact hq.2.2.2.1 e (List.mem_cons_of_mem _ he) hae hse c (List.mem_cons_self _ _) hnack
      heq.symm
  · intro p k c l hq hnack
    apply sendingInv_skip p k l c _ _ hq (Or.inl hnack)
    intro pair hp
    cases hp

/-- `enet_protocol_check_outgoing_commands` keeps the invariant of the reliable windows, for
queues shorter than the wrap of the 16-bit window counts, send attempts below the wrap of
their 16-bit counter, and no unreliable command that shares its sequence numbers with a
reliable command sent before. -/
theorem enet_protocol_check_outgoing_commands_windows (hdr : ENetHeader)
    (flush : ENetHost × ENetPeer × PacketStore → ENetHost × ENetPeer × PacketStore)
    (host : ENetHost) (peer : ENetPeer) (store : PacketStore) (mem : Nat)
    (r : CheckOutgoingResult)
    (hinv : ReliableWindowsInv peer)
    (hlen : (peer.sentReliableCommands ++ peer.outgoingCommands).length < 65535)
    (hattempts : SendAttemptsSound peer.outgoingCommands)
    (hclash : NoSequenceClash peer.outgoingCommands)
    (h : enet_protocol_check_outgoing_commands hdr flush host peer store mem = some r) :
    ReliableWindowsInv r.peer := by
  unfold enet_protocol_check_outgoing_commands at h
  dsimp only at h
  split at h
  · cases h
  · rename_i st rest hloop
    have hl := enet_protocol_check_outgoing_commands_loop_windows hdr peer.outgoingCommands _
      (st, rest) ⟨hinv.1, hinv.2.1, hattempts, hclash, (fun _ hp => by cases hp), hlen,
        hinv.2.2⟩ hloop
    have hl1 : ReliableWindowsInv { st.peer with outgoingCommands := st.kept ++ rest } :=
      ⟨hl.1, hl.2.1, hl.2.2.2.2.2.2⟩
    split at h
    · cases h
      exact enet_peer_disconnect_windows hdr flush _ _ _ _ _ hl1
    · cases h
      exact hl1

/-- `enet_protocol_dispatch_state` touches neither the queues of outgoing commands nor the
channels. -/
theorem enet_protocol_dispatch_state_windows (host : ENetHost) (peer : ENetPeer)
    (state : ENetPeerState) :
    (enet_protocol_dispatch_state host peer state).2.sentReliableCommands
      = peer.sentReliableCommands ∧
    (enet_protocol_dispatch_state host peer state).2.outgoingCommands
      = peer.outgoingCommands ∧
    (enet_protocol_dispatch_state host peer state).2.channels = peer.channels ∧
    (enet_protocol_dispatch_state host peer state).2.channelCount = peer.channelCount := by
  unfold enet_protocol_dispatch_state
  obtain ⟨-, -, h⟩ := enet_protocol_change_state_keeps host peer state
  generalize enet_protocol_change_state host peer state = r at h
  obtain ⟨host1, peer1⟩ := r
  dsimp only at h ⊢
  subst h
  unfold linkDispatch
  split <;> exact ⟨rfl, rfl, rfl, rfl⟩

/-- `enet_protocol_notify_disconnect` keeps the invariant of the reliable windows. -/
theorem enet_protocol_notify_disconnect_windows (hdr : ENetHeader) (host : ENetHost)
    (peer : ENetPeer) (event : Option ENetEvent) (store : PacketStore)
    (hinv : ReliableWindowsInv peer) :
    ReliableWindowsInv (enet_protocol_notify_disconnect hdr host peer event store).2.1 := by
  have hreset : ∀ h : ENetHost, ReliableWindowsInv (enet_peer_reset hdr h peer store).2.1 := by
    intro h
    obtain ⟨e1, e2, e3, -, -⟩ := enet_peer_reset_empties hdr h peer store
    apply reliableWindowsInv_of_empty _ e2 e3
    rw [e1]
    exact fun c hc => absurd hc (List.not_mem_nil _)
  unfold enet_protocol_notify_disconnect
  dsimp only
  split
  · exact hreset _
  · cases event with
    | none =>
      dsimp only
      obtain ⟨d1, d2, d3, d4⟩ := enet_protocol_dispatch_state_windows
        (if peer.state.toNat ≥ ENetPeerState.CONNECTION_PENDING.toNat then
          { host with recalculateBandwidthLimits := 1 } else host)
        { peer with eventData := 0 } ENetPeerState.ZOMBIE
      exact reliableWindowsInv_congr peer _ hinv d1 d2 d3 d4
    | some e => exact hreset _

/-- The loop of `enet_protocol_check_timeouts` keeps the invariant of the reliable windows:
the commands it moves back to `outgoingCommands` keep their send attempts, and no window is
written. -/
theorem enet_protocol_check_timeouts_loop_windows (hdr : ENetHeader) (time : ENetTime)
    (host : ENetHost) (event : Option ENetEvent) (store : PacketStore) :
    ∀ (rest : List ENetOutgoingCommand) (peer : ENetPeer)
      (kept moved : List ENetOutgoingCommand),
      SentCommandsSound (kept ++ rest) →
      SequenceNumbersSound ((kept ++ rest) ++ (moved ++ peer.outgoingCommands)) →
      WindowsCount peer.channels peer.channelCount
        ((kept ++ rest) ++ (moved ++ peer.outgoingCommands)) →
      ReliableWindowsInv
        (enet_protocol_check_timeouts_loop hdr time host event store peer kept moved
          rest).peer := by
  intro rest
  induction rest with
  | nil =>
    intro peer kept moved h1 h2 h3
    unfold enet_protocol_check_timeouts_loop
    rw [List.append_nil] at h1 h2 h3
    exact ⟨h1, h2, h3⟩
  | cons outgoingCommand rest ih =>
    intro peer kept moved h1 h2 h3
    unfold enet_protocol_check_timeouts_loop
    split
    · have e : kept ++ [outgoingCommand] ++ rest = kept ++ outgoingCommand :: rest := by simp
      apply ih
      · rw [e]
        exact h1
      · rw [e]
        exact h2
      · rw [e]
        exact h3
    · dsimp only
      have e1 : (if peer.earliestTimeout = 0 ∨
            time.ENET_TIME_LESS outgoingCommand.sentTime peer.earliestTimeout = true then
          { peer with earliestTimeout := outgoingCommand.sentTime }
          else peer).outgoingCommands = peer.outgoingCommands := by
        split <;> rfl
      have e2 : (if peer.earliestTimeout = 0 ∨
            time.ENET_TIME_LESS outgoingCommand.sentTime peer.earliestTimeout = true then
          { peer with earliestTimeout := outgoingCommand.sentTime }
          else peer).channels = peer.channels := by
        split <;> rfl
      have e3 : (if peer.earliestTimeout = 0 ∨
            time.ENET_TIME_LESS outgoingCommand.sentTime peer.earliestTimeout = true then
          { peer with earliestTimeout := outgoingCommand.sentTime }
          else peer).channelCount = peer.channelCount := by
        split <;> rfl
      generalize (if peer.earliestTimeout = 0 ∨
            time.ENET_TIME_LESS outgoingCommand.sentTime peer.earliestTimeout = true then
          { peer with earliestTimeout := outgoingCommand.sentTime } else peer) = peer1
        at e1 e2 e3 ⊢
      rw [← e1, ← e2, ← e3] at h3
      rw [← e1] at h2
      split
      · apply enet_protocol_notify_disconnect_windows
        exact ⟨h1, h2, h3⟩
      · have hp : ∀ p : ENetPeer, p.outgoingCommands = peer1.outgoingCommands →
            p.channels = peer1.channels → p.channelCount = peer1.channelCount →
            ReliableWindowsInv
              (enet_protocol_check_timeouts_loop hdr time host event store p kept
                (moved ++ [{ outgoingCommand with
                  roundTripTimeout := u32 (outgoingCommand.roundTripTimeout * 2) }])
                rest).peer := by
          intro p p1 p2 p3
          have hsame : ∀ channelID w,
              inReliableWindow channelID w { outgoingCommand with
                  roundTripTimeout := u32 (outgoingCommand.roundTripTimeout * 2) }
                = inReliableWindow channelID w outgoingCommand := fun _ _ => rfl
          apply ih
          · intro e he
            apply h1 e
            simp only [List.mem_append, List.mem_cons] at he ⊢
            tauto
          · rw [p1]
            intro e he hae
            simp only [List.mem_append, List.mem_cons, List.mem_singleton,
              List.not_mem_nil, or_false] at he
            rcases he with (he | he) | (he | he) | he
            · exact h2 e (by simp [he]) hae
            · exact h2 e (by simp [he]) hae
            · exact h2 e (by simp [he]) hae
            · subst he
              exact h2 outgoingCommand (by simp) hae
            · exact h2 e (by simp [he]) hae
          · rw [p1, p2, p3]
            apply windowsCount_congr _ _ _ _ h3
            intro channelID w _
            simp only [List.countP_append, List.countP_cons, List.countP_nil, hsame]
            omega
        apply hp
        · split <;> split <;> rfl
        · split <;> split <;> rfl
        · split <;> split <;> rfl

/-- `enet_protocol_check_timeouts` keeps the invariant of the reliable windows. -/
theorem enet_protocol_check_timeouts_windows (hdr : ENetHeader) (time : ENetTime)
    (host : ENetHost) (peer : ENetPeer) (event : Option ENetEvent) (store : PacketStore)
    (hinv : ReliableWindowsInv peer) :
    ReliableWindowsInv (enet_protocol_check_timeouts hdr time host peer event store).peer := by
  unfold enet_protocol_check_timeouts
  apply enet_protocol_check_timeouts_loop_windows
  · exact hinv.1
  · exact hinv.2.1
  · exact hinv.2.2

/-- Counting after an entry of the list was erased. -/
theorem countP_eraseIdx_get? {α : Type} (p : α → Bool) :
    ∀ (l : List α) (i : Nat) (a : α), l.get? i = some a →
      (l.eraseIdx i).countP p + (if p a = true then 1 else 0) = l.countP p := by
  intro l
  induction l with
  | nil => intro i a h; cases h
  | cons b l ih =>
    intro i a h
    cases i with
    | zero =>
      simp only [List.get?_cons_zero, Option.some.injEq] at h
      subst h
      simp only [List.eraseIdx_cons_zero, List.countP_cons]
    | succ i =>
      simp only [List.get?_cons_succ] at h
      simp only [List.eraseIdx_cons_succ, List.countP_cons]
      have := ih i a h
      omega

/-- The command that the first loop of `enet_protocol_remove_sent_reliable_command` finds has
the sequence number and the channel looked for. -/
theorem findSentReliable_some (reliableSequenceNumber channelID : Nat) :
    ∀ (l : List ENetOutgoingCommand) (k : Nat),
      findSentReliable reliableSequenceNumber channelID l = some k →
      ∃ oc, l.get? k = some oc ∧ oc.reliableSequenceNumber = reliableSequenceNumber ∧
        oc.command.channelID = channelID := by
  intro l
  induction l with
  | nil => intro k h; cases h
  | cons c l ih =>
    intro k h
    unfold findSentReliable at h
    split at h
    · rename_i hc
      cases h
      exact ⟨c, rfl, hc.1, hc.2⟩
    · cases hf : findSentReliable reliableSequenceNumber channelID l with
      | none => rw [hf] at h; cases h
      | some j =>
        rw [hf] at h
        cases h
        obtain ⟨oc, h1, h2⟩ := ih j hf
        exact ⟨oc, by simpa using h1, h2⟩

/-- The command that the second loop of `enet_protocol_remove_sent_reliable_command` finds
has the `ACKNOWLEDGE` flag, was sent before, and has the sequence number and the channel
looked for. -/
theorem findOutgoingReliable_some (reliableSequenceNumber channelID : Nat) :
    ∀ (l : List ENetOutgoingCommand) (k : Nat),
      findOutgoingReliable reliableSequenceNumber channelID l = some k →
      ∃ oc, l.get? k = some oc ∧
        oc.command.command &&& ENET_PROTOCOL_COMMAND_FLAG_ACKNOWLEDGE ≠ 0 ∧
        1 ≤ oc.sendAttempts ∧ oc.reliableSequenceNumber = reliableSequenceNumber ∧
        oc.command.channelID = channelID := by
  intro l
  induction l with
  | nil => intro k h; cases h
  | cons c l ih =>
    intro k h
    have hrec : ∀ k, (findOutgoingReliable reliableSequenceNumber channelID l).map (· + 1)
        = some k → ∃ oc, (c :: l).get? k = some oc ∧
          oc.command.command &&& ENET_PROTOCOL_COMMAND_FLAG_ACKNOWLEDGE ≠ 0 ∧
          1 ≤ oc.sendAttempts ∧ oc.reliableSequenceNumber = reliableSequenceNumber ∧
          oc.command.channelID = channelID := by
      intro k h
      cases hf : findOutgoingReliable reliableSequenceNumber channelID l with
      | none => rw [hf] at h; cases h
      | some j =>
        rw [hf] at h
        cases h
        obtain ⟨oc, h1, h2⟩ := ih j hf
        exact ⟨oc, by simpa using h1, h2⟩
    unfold findOutgoingReliable at h
    split at h
    · exact hrec k h
    · rename_i hack
      split at h
      · cases h
      · rename_i hsa
        split at h
        · rename_i hc
          cases h
          exact ⟨c, rfl, hack, by omega, hc.1, hc.2⟩
        · exact hrec k h

/-- The reliable windows of a channel after `releaseReliableWindow`. -/
theorem releaseReliableWindow_windows (channel : ENetChannel) (reliableSequenceNumber : Nat) :
    (releaseReliableWindow channel reliableSequenceNumber).reliableWindows
      = if channel.reliableWindows.getD
            (reliableSequenceNumber / ENET_PEER_RELIABLE_WINDOW_SIZE) 0 > 0 then
          channel.reliableWindows.set (reliableSequenceNumber / ENET_PEER_RELIABLE_WINDOW_SIZE)
            (channel.reliableWindows.getD
              (reliableSequenceNumber / ENET_PEER_RELIABLE_WINDOW_SIZE) 0 - 1)
        else channel.reliableWindows := by
  unfold releaseReliableWindow
  dsimp only
  split
  · split <;> rfl
  · rfl

/-- What `enet_protocol_remove_sent_reliable_command` does to the queues and the channels:
nothing, or it takes one command with the sequence number and the channel looked for out of
`sentReliableCommands`, or one that was sent before out of `outgoingCommands`, and releases
the reliable window. -/
theorem enet_protocol_remove_sent_reliable_command_fields (peer : ENetPeer)
    (store : PacketStore) (reliableSequenceNumber channelID : Nat) :
    ((enet_protocol_remove_sent_reliable_command peer store reliableSequenceNumber
        channelID).peer.sentReliableCommands = peer.sentReliableCommands ∧
      (enet_protocol_remove_sent_reliable_command peer store reliableSequenceNumber
        channelID).peer.outgoingCommands = peer.outgoingCommands ∧
      (enet_protocol_remove_sent_reliable_command peer store reliableSequenceNumber
        channelID).peer.channels = peer.channels ∧
      (enet_protocol_remove_sent_reliable_command peer store reliableSequenceNumber
        channelID).peer.channelCount = peer.channelCount) ∨
    (∃ (k : Nat) (oc : ENetOutgoingCommand),
      peer.sentReliableCommands.get? k = some oc ∧
      oc.reliableSequenceNumber = reliableSequenceNumber ∧
      oc.command.channelID = channelID ∧
      (enet_protocol_remove_sent_reliable_command peer store reliableSequenceNumber
        channelID).peer.sentReliableCommands = peer.sentReliableCommands.eraseIdx k ∧
      (enet_protocol_remove_sent_reliable_command peer store reliableSequenceNumber
        channelID).peer.outgoingCommands = peer.outgoingCommands ∧
      (enet_protocol_remove_sent_reliable_command peer store reliableSequenceNumber
        channelID).peer.channels = releasedChannels peer reliableSequenceNumber channelID ∧
      (enet_protocol_remove_sent_reliable_command peer store reliableSequenceNumber
        channelID).peer.channelCount = peer.channelCount) ∨
    (∃ (k : Nat) (oc : ENetOutgoingCommand),
      peer.outgoingCommands.get? k = some oc ∧
      (oc.command.command &&& ENET_PROTOCOL_COMMAND_FLAG_ACKNOWLEDGE ≠ 0 ∧
        1 ≤ oc.sendAttempts) ∧
      oc.reliableSequenceNumber = reliableSequenceNumber ∧
      oc.command.channelID = channelID ∧
      (enet_protocol_remove_sent_reliable_command peer store reliableSequenceNumber
        channelID).peer.sentReliableCommands = peer.sentReliableCommands ∧
      (enet_protocol_remove_sent_reliable_command peer store reliableSequenceNumber
        channelID).peer.outgoingCommands = peer.outgoingCommands.eraseIdx k ∧
      (enet_protocol_remove_sent_reliable_command peer store reliableSequenceNumber
        channelID).peer.channels = releasedChannels peer reliableSequenceNumber channelID ∧
      (enet_protocol_remove_sent_reliable_command peer store reliableSequenceNumber
        channelID).peer.channelCount = peer.channelCount) := by
  unfold enet_protocol_remove_sent_reliable_command releasedChannels
  cases hf : findSentReliable reliableSequenceNumber channelID peer.sentReliableCommands with
  | none =>
    cases ho : findOutgoingReliable reliableSequenceNumber channelID peer.outgoingCommands with
    | none =>
      left
      simp only [Option.map]
      exact ⟨trivial, trivial, trivial, trivial⟩
    | some j =>
      obtain ⟨oc, hget, hack, hsa, hr, hc⟩ := findOutgoingReliable_some _ _ _ _ ho
      right
      right
      refine ⟨j, oc, hget, ⟨hack, hsa⟩, hr, hc, ?_⟩
      simp only [Option.map, Bool.false_eq_true, if_false, hget]
      by_cases hlt : channelID < peer.channelCount
      · simp only [if_pos hlt]
        cases hch : peer.channels.get? channelID with
        | none =>
          dsimp only
          repeat' split
          all_goals exact ⟨rfl, rfl, rfl, rfl⟩
        | some ch0 =>
          dsimp only
          repeat' split
          all_goals exact ⟨rfl, rfl, rfl, rfl⟩
      · simp only [if_neg hlt]
        repeat' split
        all_goals exact ⟨rfl, rfl, rfl, rfl⟩
  | some k =>
    obtain ⟨oc, hget, hr, hc⟩ := findSentReliable_some _ _ _ _ hf
    right
    left
    refine ⟨k, oc, hget, hr, hc, ?_⟩
    simp only [if_true, hget]
    by_cases hlt : channelID < peer.channelCount
    · simp only [if_pos hlt]
      cases hch : peer.channels.get? channelID with
      | none =>
        dsimp only
        repeat' split
        all_goals exact ⟨rfl, rfl, rfl, rfl⟩
      | some ch0 =>
        dsimp only
        repeat' split
        all_goals exact ⟨rfl, rfl, rfl, rfl⟩
    · simp only [if_neg hlt]
      repeat' split
      all_goals exact ⟨rfl, rfl, rfl, rfl⟩

/-- The invariant of the reliable windows when a command that was sent before leaves the
queues and its reliable window is released. -/
theorem reliableWindowsInv_release (peer p1 : ENetPeer) (oc : ENetOutgoingCommand)
    (h : ReliableWindowsInv peer)
    (hack : oc.command.command &&& ENET_PROTOCOL_COMMAND_FLAG_ACKNOWLEDGE ≠ 0)
    (hattempts : 1 ≤ oc.sendAttempts)
    (hmem : oc ∈ peer.sentReliableCommands ++ peer.outgoingCommands)
    (hsent : ∀ e ∈ p1.sentReliableCommands, e ∈ peer.sentReliableCommands)
    (hall : ∀ e ∈ p1.sentReliableCommands ++ p1.outgoingCommands,
      e ∈ peer.sentReliableCommands ++ peer.outgoingCommands)
    (hcountP : ∀ p : ENetOutgoingCommand → Bool,
      (p1.sentReliableCommands ++ p1.outgoingCommands).countP p
          + (if p oc = true then 1 else 0)
        = (peer.sentReliableCommands ++ peer.outgoingCommands).countP p)
    (hchannels : p1.channels
      = releasedChannels peer oc.reliableSequenceNumber oc.command.channelID)
    (hcount : p1.channelCount = peer.channelCount) :
    ReliableWindowsInv p1 := by
  obtain ⟨h1, h2, h3⟩ := h
  have hrsn : oc.reliableSequenceNumber < 65536 := h2 oc hmem hack
  have hw16 : oc.reliableSequenceNumber / ENET_PEER_RELIABLE_WINDOW_SIZE < 16 :=
    Nat.div_lt_of_lt_mul hrsn
  have hother : ∀ channelID w, channelID ≠ oc.command.channelID →
      (p1.sentReliableCommands ++ p1.outgoingCommands).countP (inReliableWindow channelID w)
        = (peer.sentReliableCommands ++ peer.outgoingCommands).countP
            (inReliableWindow channelID w) := by
    intro channelID w hne
    have := hcountP (inReliableWindow channelID w)
    rw [inReliableWindow_false channelID w oc (Or.inr (Or.inr (fun hh => hne hh.symm)))] at this
    simpa using this
  refine ⟨fun e he => h1 e (hsent e he), fun e he => h2 e (hall e he), ?_⟩
  rw [hchannels, hcount]
  unfold releasedChannels
  intro channelID channel hlt hget
  by_cases hin : oc.command.channelID < peer.channelCount
  · rw [if_pos hin] at hget
    cases hch : peer.channels.get? oc.command.channelID with
    | none =>
      rw [hch] at hget
      dsimp only at hget
      have hne : channelID ≠ oc.command.channelID := by
        intro hh
        rw [hh, hch] at hget
        cases hget
      obtain ⟨a1, a2⟩ := h3 channelID channel hlt hget
      exact ⟨a1, fun w hw => by rw [a2 w hw, hother channelID w hne]⟩
    | some ch0 =>
      rw [hch] at hget
      dsimp only at hget
      by_cases hid : oc.command.channelID = channelID
      · subst hid
        have hlt2 : oc.command.channelID < peer.channels.length :=
          (List.get?_eq_some.mp hch).1
        rw [List.get?_eq_getElem?, List.getElem?_set_self hlt2] at hget
        cases hget
        obtain ⟨a1, a2⟩ := h3 _ ch0 hlt hch
        rw [releaseReliableWindow_windows]
        have hin0 : inReliableWindow oc.command.channelID
            (oc.reliableSequenceNumber / ENET_PEER_RELIABLE_WINDOW_SIZE) oc = true := by
          unfold inReliableWindow
          rw [decide_eq_true_iff]
          exact ⟨hack, rfl, hattempts, rfl⟩
        have hc0 := hcountP (inReliableWindow oc.command.channelID
          (oc.reliableSequenceNumber / ENET_PEER_RELIABLE_WINDOW_SIZE))
        rw [hin0] at hc0
        simp only [if_true] at hc0
        have hpos : ch0.reliableWindows.getD
            (oc.reliableSequenceNumber / ENET_PEER_RELIABLE_WINDOW_SIZE) 0 > 0 := by
          rw [a2 _ hw16]
          omega
        rw [if_pos hpos]
        refine ⟨by rw [List.length_set]; exact a1, fun w hw => ?_⟩
        rw [getD_set_eq]
        by_cases hwe : oc.reliableSequenceNumber / ENET_PEER_RELIABLE_WINDOW_SIZE = w
        · have hcond : oc.reliableSequenceNumber / ENET_PEER_RELIABLE_WINDOW_SIZE = w ∧
              oc.reliableSequenceNumber / ENET_PEER_RELIABLE_WINDOW_SIZE
                < ch0.reliableWindows.length := by
            refine ⟨hwe, ?_⟩
            rw [a1]
            exact hw16
          rw [if_pos hcond, a2 _ hw16, ← hwe]
          omega
        · rw [if_neg (fun hh => hwe hh.1), a2 w hw]
          have hcw := hcountP (inReliableWindow oc.command.channelID w)
          have hf : inReliableWindow oc.command.channelID w oc = false := by
            unfold inReliableWindow
            rw [decide_eq_false_iff_not]
            rintro ⟨-, -, -, h4⟩
            exact hwe h4
          rw [hf] at hcw
          simpa using hcw.symm
      · rw [List.get?_eq_getElem?, List.getElem?_set_ne hid, ← List.get?_eq_getElem?] at hget
        obtain ⟨a1, a2⟩ := h3 channelID channel hlt hget
        exact ⟨a1, fun w hw => by
          rw [a2 w hw, hother channelID w (fun hh => hid hh.symm)]⟩
  · rw [if_neg hin] at hget
    have hne : channelID ≠ oc.command.channelID := by
      intro hh
      rw [hh] at hlt
      exact hin hlt
    obtain ⟨a1, a2⟩ := h3 channelID channel hlt hget
    exact ⟨a1, fun w hw => by rw [a2 w hw, hother channelID w hne]⟩

/-- `enet_protocol_remove_sent_reliable_command` keeps the invariant of the reliable
windows. -/
theorem enet_protocol_remove_sent_reliable_command_windows (peer : ENetPeer)
    (store : PacketStore) (reliableSequenceNumber channelID : Nat)
    (hinv : ReliableWindowsInv peer) :
    ReliableWindowsInv (enet_protocol_remove_sent_reliable_command peer store
      reliableSequenceNumber channelID).peer := by
  rcases enet_protocol_remove_sent_reliable_command_fields peer store reliableSequenceNumber
    channelID with ⟨f1, f2, f3, f4⟩ | ⟨k, oc, hget, hr, hc, f1, f2, f3, f4⟩ |
      ⟨k, oc, hget, hs, hr, hc, f1, f2, f3, f4⟩
  · exact reliableWindowsInv_congr peer _ hinv f1 f2 f3 f4
  · have hmem : oc ∈ peer.sentReliableCommands := List.get?_mem hget
    obtain ⟨hack, hsa⟩ := hinv.1 oc hmem
    apply reliableWindowsInv_release peer _ oc hinv hack hsa (List.mem_append_left _ hmem)
    · rw [f1]
      exact fun e he => List.mem_of_mem_eraseIdx he
    · rw [f1, f2]
      intro e he
      rcases List.mem_append.mp he with he | he
      · exact List.mem_append_left _ (List.mem_of_mem_eraseIdx he)
      · exact List.mem_append_right _ he
    · intro p
      rw [f1, f2]
      have := countP_eraseIdx_get? p _ _ _ hget
      simp only [List.countP_append]
      omega
    · rw [f3, hr, hc]
    · exact f4
  · have hmem : oc ∈ peer.outgoingCommands := List.get?_mem hget
    apply reliableWindowsInv_release peer _ oc hinv hs.1 hs.2 (List.mem_append_right _ hmem)
    · rw [f1]
      exact fun e he => he
    · rw [f1, f2]
      intro e he
      rcases List.mem_append.mp he with he | he
      · exact List.mem_append_left _ he
      · exact List.mem_append_right _ (List.mem_of_mem_eraseIdx he)
    · intro p
      rw [f1, f2]
      have := countP_eraseIdx_get? p _ _ _ hget
      simp only [List.countP_append]
      omega
    · rw [f3, hr, hc]
    · exact f4


/-- The windows of a peer with a single channel. -/
theorem windowsCount_one (channel : ENetChannel) (commands : List ENetOutgoingCommand)
    (h : channel.reliableWindows.length = ENET_PEER_RELIABLE_WINDOWS ∧
      ∀ reliableWindow, reliableWindow < ENET_PEER_RELIABLE_WINDOWS →
        channel.reliableWindows.getD reliableWindow 0
          = commands.countP (inReliableWindow 0 reliableWindow)) :
    WindowsCount [channel] 1 commands := by
  intro channelID ch hlt hget
  have h0 : channelID = 0 := by omega
  subst h0
  cases hget
  exact h

/-- C20, as stated, fails for `enet_peer_setup_outgoing_command`: on the connected sample
peer, whose queues are empty and whose reliable windows are all 0, it queues a
`SEND_RELIABLE` command on channel 0 and leaves the windows at 0, so that the sum of the
windows is 0 and the number of commands with the `ACKNOWLEDGE` flag on the channel is 1. -/
theorem enet_peer_setup_outgoing_command_leaves_reliableWindows :
    ReliableWindowsQueued samplePeer ∧
    enet_peer_setup_outgoing_command samplePeer sampleReliableCommand = some sampleQueued ∧
    sampleQueued.channelCount = 1 ∧
    (sampleQueued.channels.get? 0).map reliableWindowsSum = some 0 ∧
    (sampleQueued.sentReliableCommands ++ sampleQueued.outgoingCommands).countP
      (reliableOnChannel 0) = 1 ∧
    ¬ ReliableWindowsQueued sampleQueued := by
  refine ⟨?_, by decide, by decide, by decide, by decide, ?_⟩
  · intro channelID channel hlt hget
    have h0 : channelID = 0 := by
      have : samplePeer.channelCount = 1 := rfl
      omega
    subst h0
    have hg : samplePeer.channels.get? 0 = some sampleChannel := rfl
    rw [hg] at hget
    cases hget
    decide
  · intro h
    have hg : sampleQueued.channels.get? 0
        = some (sampleQueued.channels.getD 0 sampleChannel) := by decide
    have := h 0 _ (by decide) hg
    revert this
    decide

/-- C20 (amended): window by window, `reliableWindows[w]` of a channel is the number of
commands in `sentReliableCommands` or `outgoingCommands` that have the `ACKNOWLEDGE` flag,
are on the channel, have been sent at least once and have their reliable sequence number in
window `w`; so the sum over `w` is the number of the commands with the flag on the channel
that have been sent at least once.  This invariant is kept by
`enet_peer_setup_outgoing_command`, by `enet_protocol_check_outgoing_commands` (for queues
that hold fewer than 65535 commands, send attempts below 65535, and no command without the
flag that shares its sequence numbers with a command with the flag that was sent before),
by `enet_protocol_check_timeouts` and by `enet_protocol_remove_sent_reliable_command`. -/
theorem reliableWindows_invariant (hdr : ENetHeader) (time : ENetTime)
    (flush : ENetHost × ENetPeer × PacketStore → ENetHost × ENetPeer × PacketStore)
    (host : ENetHost) (peer : ENetPeer) (event : Option ENetEvent) (store : PacketStore)
    (mem reliableSequenceNumber channelID : Nat) (outgoingCommand : ENetOutgoingCommand)
    (queued : ENetPeer) (r : CheckOutgoingResult)
    (hinv : ReliableWindowsInv peer)
    (hlen : (peer.sentReliableCommands ++ peer.outgoingCommands).length < 65535)
    (hattempts : SendAttemptsSound peer.outgoingCommands)
    (hclash : NoSequenceClash peer.outgoingCommands)
    (hsetup : enet_peer_setup_outgoing_command peer outgoingCommand = some queued)
    (hsent : enet_protocol_check_outgoing_commands hdr flush host peer store mem = some r) :
    ReliableWindowsSent peer ∧
    (ReliableWindowsInv queued ∧ ReliableWindowsSent queued) ∧
    (ReliableWindowsInv r.peer ∧ ReliableWindowsSent r.peer) ∧
    (ReliableWindowsInv (enet_protocol_check_timeouts hdr time host peer event store).peer ∧
      ReliableWindowsSent (enet_protocol_check_timeouts hdr time host peer event store).peer) ∧
    (ReliableWindowsInv (enet_protocol_remove_sent_reliable_command peer store
        reliableSequenceNumber channelID).peer ∧
      ReliableWindowsSent (enet_protocol_remove_sent_reliable_command peer store
        reliableSequenceNumber channelID).peer) := by
  have h1 := enet_peer_setup_outgoing_command_windows peer queued outgoingCommand hinv hsetup
  have h2 := enet_protocol_check_outgoing_commands_windows hdr flush host peer store mem r
    hinv hlen hattempts hclash hsent
  have h3 := enet_protocol_check_timeouts_windows hdr time host peer event store hinv
  have h4 := enet_protocol_remove_sent_reliable_command_windows peer store
    reliableSequenceNumber channelID hinv
  exact ⟨reliableWindowsInv_sent _ hinv, ⟨h1, reliableWindowsInv_sent _ h1⟩,
    ⟨h2, reliableWindowsInv_sent _ h2⟩, ⟨h3, reliableWindowsInv_sent _ h3⟩,
    ⟨h4, reliableWindowsInv_sent _ h4⟩⟩

/-- C20 (amended) at the sample peer with one reliable packet queued: sending the command
makes window 0 of channel 0 count 1, and the acknowledgement of the command takes the count
back to 0. -/
theorem reliableWindows_invariant_witness :
    (ReliableWindowsInv sampleInTransit.peer ∧
      (sampleInTransit.peer.channels.get? 0).map reliableWindowsSum = some 1) ∧
    (ReliableWindowsInv (enet_protocol_remove_sent_reliable_command sampleInTransit.peer
        sampleInTransit.store 1 0).peer ∧
      ((enet_protocol_remove_sent_reliable_command sampleInTransit.peer
        sampleInTransit.store 1 0).peer.channels.get? 0).map reliableWindowsSum = some 0) :=
  have h1 := reliableWindows_invariant sampleHeader sampleTime id sampleHost
    sampleSmallSent.peer none [(0, sampleSmallSent.packet)] sampleSmallSent.mem 1 0
    sampleReliableCommand
    ((enet_peer_setup_outgoing_command sampleSmallSent.peer sampleReliableCommand).getD
      samplePeer)
    sampleInTransit
    ⟨by unfold SentCommandsSound; decide, by unfold SequenceNumbersSound; decide,
      windowsCount_one _ _ (by decide)⟩
    (by decide) (by unfold SendAttemptsSound; decide) (by unfold NoSequenceClash; decide)
    (by decide) (by decide)
  have h2 := reliableWindows_invariant sampleHeader sampleTime id sampleInTransit.host
    sampleInTransit.peer none sampleInTransit.store sampleInTransit.mem 1 0
    sampleReliableCommand
    ((enet_peer_setup_outgoing_command sampleInTransit.peer sampleReliableCommand).getD
      samplePeer)
    { canPing := true, host := sampleInTransit.host, peer := sampleInTransit.peer,
      store := sampleInTransit.store, mem := sampleInTransit.mem }
    h1.2.2.1.1
    (by decide) (by unfold SendAttemptsSound; decide) (by unfold NoSequenceClash; decide)
    (by decide) (by decide)
  ⟨⟨h1.2.2.1.1, by decide⟩, h2.2.2.2.2.1, by decide⟩

/-- C16, as stated, fails for a datagram whose first command has the command number 0: the
datagram is accepted for the connected sample peer before the commands are parsed, so when
the loop stops at the command the `incomingDataTotal` of the peer has grown from 0 to the 6
bytes of the datagram. -/
theorem enet_protocol_handle_incoming_commands_counts_refused :
    (sampleHost.peers.map fun peer => peer.incomingDataTotal) = [0] ∧
    (enet_protocol_handle_incoming_commands sampleHeader sampleTime id sampleReceive sampleHost
      (some sampleEvent) sampleBadDatagram [] 8).map
        (fun r => (r.status, r.host.peers.map fun peer => peer.incomingDataTotal))
      = some (0, [6]) := by
  decide

/-- The five handlers of send commands refuse a command for a peer that is not connected, for
a channel that the peer does not have, and with a data length above `maximumPacketSize` or
above the number of bytes that follow the record; nothing but `currentData` is written. -/
theorem handleSendCommand_refused (st : IncomingState) (slot : Nat) (peer : ENetPeer)
    (commandNumber : Nat) (command : ENetProtocol) (hpeer : st.peer = some (slot, peer))
    (hsend : IsSendCommand commandNumber)
    (hbody : (commandNumber = ENET_PROTOCOL_COMMAND_SEND_FRAGMENT ∨
        commandNumber = ENET_PROTOCOL_COMMAND_SEND_UNRELIABLE_FRAGMENT) →
      command.sendFragmentView.dataLength = command.dataLengthView)
    (h : NotConnected peer ∨ command.channelID ≥ peer.channelCount ∨
      ENET_NET_TO_HOST_16 command.dataLengthView > st.host.maximumPacketSize ∨
      ENET_NET_TO_HOST_16 command.dataLengthView > st.currentData.length) :
    ∃ cd, handleSendCommand st slot peer commandNumber command
      = some (-1, { st with currentData := cd }) := by
  obtain ⟨host, p, event, store, mem, currentData⟩ := st
  dsimp only at hpeer h ⊢
  subst hpeer
  have hfrag : (commandNumber = ENET_PROTOCOL_COMMAND_SEND_FRAGMENT ∨
      commandNumber = ENET_PROTOCOL_COMMAND_SEND_UNRELIABLE_FRAGMENT) →
      (NotConnected peer ∨ command.channelID ≥ peer.channelCount ∨
        ENET_NET_TO_HOST_16 command.sendFragmentView.dataLength > host.maximumPacketSize ∨
        ENET_NET_TO_HOST_16 command.sendFragmentView.dataLength > currentData.length) := by
    intro hc
    rw [hbody hc]
    exact h
  have key : ∀ (dataLength : Nat) (rest : Option HandleResult),
      (NotConnected peer ∨ command.channelID ≥ peer.channelCount ∨
        dataLength > host.maximumPacketSize ∨ dataLength > currentData.length) →
      ∃ cd, Option.map
        (IncomingState.handled
          (⟨host, some (slot, peer), event, store, mem, currentData⟩ : IncomingState) slot)
        (if command.channelID ≥ peer.channelCount ∨
            (peer.state ≠ ENetPeerState.CONNECTED ∧
              peer.state ≠ ENetPeerState.DISCONNECT_LATER) then
          some { status := -1, host := host, peer := peer, currentData := currentData,
                 mem := mem }
        else if dataLength > host.maximumPacketSize ∨ dataLength > currentData.length then
          some { status := -1, host := host, peer := peer,
                 currentData := currentData.drop dataLength, mem := mem }
        else rest)
        = some (-1, (⟨host, some (slot, peer), event, store, mem, cd⟩ : IncomingState)) := by
    intro dataLength rest hd
    by_cases hfirst : command.channelID ≥ peer.channelCount ∨
        (peer.state ≠ ENetPeerState.CONNECTED ∧ peer.state ≠ ENetPeerState.DISCONNECT_LATER)
    · exact ⟨currentData, by rw [if_pos hfirst]; rfl⟩
    · have hlen : dataLength > host.maximumPacketSize ∨ dataLength > currentData.length := by
        rcases hd with hd | hd | hd | hd
        · exact absurd (Or.inr hd) hfirst
        · exact absurd (Or.inl hd) hfirst
        · exact Or.inl hd
        · exact Or.inr hd
      exact ⟨currentData.drop dataLength, by rw [if_neg hfirst, if_pos hlen]; rfl⟩
  unfold handleSendCommand
  split
  · unfold enet_protocol_handle_send_reliable
    exact key _ _ h
  · split
    · unfold enet_protocol_handle_send_unreliable
      exact key _ _ h
    · split
      · unfold enet_protocol_handle_send_unsequenced
        exact key _ _ h
      · split
        · rename_i hc
          unfold enet_protocol_handle_send_fragment
          exact key _ _ (hfrag (Or.inl hc))
        · rename_i h1 h2 h3 h4
          have hc : commandNumber = ENET_PROTOCOL_COMMAND_SEND_UNRELIABLE_FRAGMENT := by
            rcases hsend with h | h | h | h | h
            · exact absurd h h1
            · exact absurd h h2
            · exact absurd h h3
            · exact absurd h h4
            · exact h
          unfold enet_protocol_handle_send_unreliable_fragment
          exact key _ _ (hfrag (Or.inr hc))

/-- The handlers refuse a `CONNECT` for a peer, a `PING`, `BANDWIDTH_LIMIT`,
`THROTTLE_CONFIGURE` or send command for a peer that is not connected, and a send command
for a channel that the peer does not have or with a data length above `maximumPacketSize`
or above the number of bytes that follow the record; nothing but `currentData` is
written. -/
theorem handleCommand_refused (hdr : ENetHeader) (time : ENetTime)
    (flush : ENetHost × ENetPeer × PacketStore → ENetHost × ENetPeer × PacketStore)
    (st : IncomingState) (slot : Nat) (peer : ENetPeer) (commandNumber : Nat)
    (command : ENetProtocol) (hpeer : st.peer = some (slot, peer))
    (hbody : (commandNumber = ENET_PROTOCOL_COMMAND_SEND_FRAGMENT ∨
        commandNumber = ENET_PROTOCOL_COMMAND_SEND_UNRELIABLE_FRAGMENT) →
      command.sendFragmentView.dataLength = command.dataLengthView)
    (h : commandNumber = ENET_PROTOCOL_COMMAND_CONNECT ∨
      ((commandNumber = ENET_PROTOCOL_COMMAND_PING ∨
          commandNumber = ENET_PROTOCOL_COMMAND_BANDWIDTH_LIMIT ∨
          commandNumber = ENET_PROTOCOL_COMMAND_THROTTLE_CONFIGURE ∨
          IsSendCommand commandNumber) ∧ NotConnected peer) ∨
      (IsSendCommand commandNumber ∧
        (command.channelID ≥ peer.channelCount ∨
          ENET_NET_TO_HOST_16 command.dataLengthView > st.host.maximumPacketSize ∨
          ENET_NET_TO_HOST_16 command.dataLengthView > st.currentData.length))) :
    ∃ cd, handleCommand hdr time flush st slot peer commandNumber command
      = some (-1, { st with currentData := cd }) := by
  have hsendCase : IsSendCommand commandNumber →
      (NotConnected peer ∨ command.channelID ≥ peer.channelCount ∨
        ENET_NET_TO_HOST_16 command.dataLengthView > st.host.maximumPacketSize ∨
        ENET_NET_TO_HOST_16 command.dataLengthView > st.currentData.length) →
      ∃ cd, handleCommand hdr time flush st slot peer commandNumber command
        = some (-1, { st with currentData := cd }) := by
    intro hsend hr
    have hs := handleSendCommand_refused st slot peer commandNumber command hpeer hsend hbody hr
    unfold handleCommand
    rcases hsend with hc | hc | hc | hc | hc
    · subst hc
      rw [if_neg (show ¬ ENET_PROTOCOL_COMMAND_SEND_RELIABLE = ENET_PROTOCOL_COMMAND_ACKNOWLEDGE by decide), if_neg (show ¬ ENET_PROTOCOL_COMMAND_SEND_RELIABLE = ENET_PROTOCOL_COMMAND_VERIFY_CONNECT by decide), if_neg (show ¬ ENET_PROTOCOL_COMMAND_SEND_RELIABLE = ENET_PROTOCOL_COMMAND_DISCONNECT by decide), if_neg (show ¬ ENET_PROTOCOL_COMMAND_SEND_RELIABLE = ENET_PROTOCOL_COMMAND_PING by decide), if_neg (show ¬ ENET_PROTOCOL_COMMAND_SEND_RELIABLE = ENET_PROTOCOL_COMMAND_BANDWIDTH_LIMIT by decide), if_neg (show ¬ ENET_PROTOCOL_COMMAND_SEND_RELIABLE = ENET_PROTOCOL_COMMAND_THROTTLE_CONFIGURE by decide),
        if_pos (show ENET_PROTOCOL_COMMAND_SEND_RELIABLE = ENET_PROTOCOL_COMMAND_SEND_RELIABLE ∨ ENET_PROTOCOL_COMMAND_SEND_RELIABLE = ENET_PROTOCOL_COMMAND_SEND_UNRELIABLE ∨ ENET_PROTOCOL_COMMAND_SEND_RELIABLE = ENET_PROTOCOL_COMMAND_SEND_UNSEQUENCED ∨ ENET_PROTOCOL_COMMAND_SEND_RELIABLE = ENET_PROTOCOL_COMMAND_SEND_FRAGMENT ∨ ENET_PROTOCOL_COMMAND_SEND_RELIABLE = ENET_PROTOCOL_COMMAND_SEND_UNRELIABLE_FRAGMENT by decide)]
      exact hs
    · subst hc
      rw [if_neg (show ¬ ENET_PROTOCOL_COMMAND_SEND_UNRELIABLE = ENET_PROTOCOL_COMMAND_ACKNOWLEDGE by decide), if_neg (show ¬ ENET_PROTOCOL_COMMAND_SEND_UNRELIABLE = ENET_PROTOCOL_COMMAND_VERIFY_CONNECT by decide), if_neg (show ¬ ENET_PROTOCOL_COMMAND_SEND_UNRELIABLE = ENET_PROTOCOL_COMMAND_DISCONNECT by decide), if_neg (show ¬ ENET_PROTOCOL_COMMAND_SEND_UNRELIABLE = ENET_PROTOCOL_COMMAND_PING by decide), if_neg (show ¬ ENET_PROTOCOL_COMMAND_SEND_UNRELIABLE = ENET_PROTOCOL_COMMAND_BANDWIDTH_LIMIT by decide), if_neg (show ¬ ENET_PROTOCOL_COMMAND_SEND_UNRELIABLE = ENET_PROTOCOL_COMMAND_THROTTLE_CONFIGURE by decide),
        if_pos (show ENET_PROTOCOL_COMMAND_SEND_UNRELIABLE = ENET_PROTOCOL_COMMAND_SEND_RELIABLE ∨ ENET_PROTOCOL_COMMAND_SEND_UNRELIABLE = ENET_PROTOCOL_COMMAND_SEND_UNRELIABLE ∨ ENET_PROTOCOL_COMMAND_SEND_UNRELIABLE = ENET_PROTOCOL_COMMAND_SEND_UNSEQUENCED ∨ ENET_PROTOCOL_COMMAND_SEND_UNRELIABLE = ENET_PROTOCOL_COMMAND_SEND_FRAGMENT ∨ ENET_PROTOCOL_COMMAND_SEND_UNRELIABLE = ENET_PROTOCOL_COMMAND_SEND_UNRELIABLE_FRAGMENT by decide)]
      exact hs
    · subst hc
      rw [if_neg (show ¬ ENET_PROTOCOL_COMMAND_SEND_UNSEQUENCED = ENET_PROTOCOL_COMMAND_ACKNOWLEDGE by decide), if_neg (show ¬ ENET_PROTOCOL_COMMAND_SEND_UNSEQUENCED = ENET_PROTOCOL_COMMAND_VERIFY_CONNECT by decide), if_neg (show ¬ ENET_PROTOCOL_COMMAND_SEND_UNSEQUENCED = ENET_PROTOCOL_COMMAND_DISCONNECT by decide), if_neg (show ¬ ENET_PROTOCOL_COMMAND_SEND_UNSEQUENCED = ENET_PROTOCOL_COMMAND_PING by decide), if_neg (show ¬ ENET_PROTOCOL_COMMAND_SEND_UNSEQUENCED = ENET_PROTOCOL_COMMAND_BANDWIDTH_LIMIT by decide), if_neg (show ¬ ENET_PROTOCOL_COMMAND_SEND_UNSEQUENCED = ENET_PROTOCOL_COMMAND_THROTTLE_CONFIGURE by decide),
        if_pos (show ENET_PROTOCOL_COMMAND_SEND_UNSEQUENCED = ENET_PROTOCOL_COMMAND_SEND_RELIABLE ∨ ENET_PROTOCOL_COMMAND_SEND_UNSEQUENCED = ENET_PROTOCOL_COMMAND_SEND_UNRELIABLE ∨ ENET_PROTOCOL_COMMAND_SEND_UNSEQUENCED = ENET_PROTOCOL_COMMAND_SEND_UNSEQUENCED ∨ ENET_PROTOCOL_COMMAND_SEND_UNSEQUENCED = ENET_PROTOCOL_COMMAND_SEND_FRAGMENT ∨ ENET_PROTOCOL_COMMAND_SEND_UNSEQUENCED = ENET_PROTOCOL_COMMAND_SEND_UNRELIABLE_FRAGMENT by decide)]
      exact hs
    · subst hc
      rw [if_neg (show ¬ ENET_PROTOCOL_COMMAND_SEND_FRAGMENT = ENET_PROTOCOL_COMMAND_ACKNOWLEDGE by decide), if_neg (show ¬ ENET_PROTOCOL_COMMAND_SEND_FRAGMENT = ENET_PROTOCOL_COMMAND_VERIFY_CONNECT by decide), if_neg (show ¬ ENET_PROTOCOL_COMMAND_SEND_FRAGMENT = ENET_PROTOCOL_COMMAND_DISCONNECT by decide), if_neg (show ¬ ENET_PROTOCOL_COMMAND_SEND_FRAGMENT = ENET_PROTOCOL_COMMAND_PING by decide), if_neg (show ¬ ENET_PROTOCOL_COMMAND_SEND_FRAGMENT = ENET_PROTOCOL_COMMAND_BANDWIDTH_LIMIT by decide), if_neg (show ¬ ENET_PROTOCOL_COMMAND_SEND_FRAGMENT = ENET_PROTOCOL_COMMAND_THROTTLE_CONFIGURE by decide),
        if_pos (show ENET_PROTOCOL_COMMAND_SEND_FRAGMENT = ENET_PROTOCOL_COMMAND_SEND_RELIABLE ∨ ENET_PROTOCOL_COMMAND_SEND_FRAGMENT = ENET_PROTOCOL_COMMAND_SEND_UNRELIABLE ∨ ENET_PROTOCOL_COMMAND_SEND_FRAGMENT = ENET_PROTOCOL_COMMAND_SEND_UNSEQUENCED ∨ ENET_PROTOCOL_COMMAND_SEND_FRAGMENT = ENET_PROTOCOL_COMMAND_SEND_FRAGMENT ∨ ENET_PROTOCOL_COMMAND_SEND_FRAGMENT = ENET_PROTOCOL_COMMAND_SEND_UNRELIABLE_FRAGMENT by decide)]
      exact hs
    · subst hc
      rw [if_neg (show ¬ ENET_PROTOCOL_COMMAND_SEND_UNRELIABLE_FRAGMENT = ENET_PROTOCOL_COMMAND_ACKNOWLEDGE by decide), if_neg (show ¬ ENET_PROTOCOL_COMMAND_SEND_UNRELIABLE_FRAGMENT = ENET_PROTOCOL_COMMAND_VERIFY_CONNECT by decide), if_neg (show ¬ ENET_PROTOCOL_COMMAND_SEND_UNRELIABLE_FRAGMENT = ENET_PROTOCOL_COMMAND_DISCONNECT by decide), if_neg (show ¬ ENET_PROTOCOL_COMMAND_SEND_UNRELIABLE_FRAGMENT = ENET_PROTOCOL_COMMAND_PING by decide), if_neg (show ¬ ENET_PROTOCOL_COMMAND_SEND_UNRELIABLE_FRAGMENT = ENET_PROTOCOL_COMMAND_BANDWIDTH_LIMIT by decide), if_neg (show ¬ ENET_PROTOCOL_COMMAND_SEND_UNRELIABLE_FRAGMENT = ENET_PROTOCOL_COMMAND_THROTTLE_CONFIGURE by decide),
        if_pos (show ENET_PROTOCOL_COMMAND_SEND_UNRELIABLE_FRAGMENT = ENET_PROTOCOL_COMMAND_SEND_RELIABLE ∨ ENET_PROTOCOL_COMMAND_SEND_UNRELIABLE_FRAGMENT = ENET_PROTOCOL_COMMAND_SEND_UNRELIABLE ∨ ENET_PROTOCOL_COMMAND_SEND_UNRELIABLE_FRAGMENT = ENET_PROTOCOL_COMMAND_SEND_UNSEQUENCED ∨ ENET_PROTOCOL_COMMAND_SEND_UNRELIABLE_FRAGMENT = ENET_PROTOCOL_COMMAND_SEND_FRAGMENT ∨ ENET_PROTOCOL_COMMAND_SEND_UNRELIABLE_FRAGMENT = ENET_PROTOCOL_COMMAND_SEND_UNRELIABLE_FRAGMENT by decide)]
      exact hs
  obtain ⟨host, p, event, store, mem, currentData⟩ := st
  dsimp only at hpeer h hsendCase ⊢
  subst hpeer
  rcases h with hc | ⟨hc, hnc⟩ | ⟨hc, hr⟩
  · subst hc
    refine ⟨currentData, ?_⟩
    unfold handleCommand
    rw [if_neg (show ¬ ENET_PROTOCOL_COMMAND_CONNECT = ENET_PROTOCOL_COMMAND_ACKNOWLEDGE by decide), if_neg (show ¬ ENET_PROTOCOL_COMMAND_CONNECT = ENET_PROTOCOL_COMMAND_VERIFY_CONNECT by decide), if_neg (show ¬ ENET_PROTOCOL_COMMAND_CONNECT = ENET_PROTOCOL_COMMAND_DISCONNECT by decide), if_neg (show ¬ ENET_PROTOCOL_COMMAND_CONNECT = ENET_PROTOCOL_COMMAND_PING by decide), if_neg (show ¬ ENET_PROTOCOL_COMMAND_CONNECT = ENET_PROTOCOL_COMMAND_BANDWIDTH_LIMIT by decide), if_neg (show ¬ ENET_PROTOCOL_COMMAND_CONNECT = ENET_PROTOCOL_COMMAND_THROTTLE_CONFIGURE by decide),
      if_neg (show ¬ (ENET_PROTOCOL_COMMAND_CONNECT = ENET_PROTOCOL_COMMAND_SEND_RELIABLE ∨ ENET_PROTOCOL_COMMAND_CONNECT = ENET_PROTOCOL_COMMAND_SEND_UNRELIABLE ∨ ENET_PROTOCOL_COMMAND_CONNECT = ENET_PROTOCOL_COMMAND_SEND_UNSEQUENCED ∨ ENET_PROTOCOL_COMMAND_CONNECT = ENET_PROTOCOL_COMMAND_SEND_FRAGMENT ∨ ENET_PROTOCOL_COMMAND_CONNECT = ENET_PROTOCOL_COMMAND_SEND_UNRELIABLE_FRAGMENT) by decide)]
  · have hnc' : peer.state ≠ ENetPeerState.CONNECTED ∧
        peer.state ≠ ENetPeerState.DISCONNECT_LATER := hnc
    rcases hc with hc | hc | hc | hc
    · subst hc
      refine ⟨currentData, ?_⟩
      unfold handleCommand enet_protocol_handle_ping
      rw [if_neg (show ¬ ENET_PROTOCOL_COMMAND_PING = ENET_PROTOCOL_COMMAND_ACKNOWLEDGE by decide), if_neg (show ¬ ENET_PROTOCOL_COMMAND_PING = ENET_PROTOCOL_COMMAND_VERIFY_CONNECT by decide), if_neg (show ¬ ENET_PROTOCOL_COMMAND_PING = ENET_PROTOCOL_COMMAND_DISCONNECT by decide),
        if_pos rfl, if_pos hnc']
    · subst hc
      refine ⟨currentData, ?_⟩
      unfold handleCommand enet_protocol_handle_bandwidth_limit
      rw [if_neg (show ¬ ENET_PROTOCOL_COMMAND_BANDWIDTH_LIMIT = ENET_PROTOCOL_COMMAND_ACKNOWLEDGE by decide), if_neg (show ¬ ENET_PROTOCOL_COMMAND_BANDWIDTH_LIMIT = ENET_PROTOCOL_COMMAND_VERIFY_CONNECT by decide), if_neg (show ¬ ENET_PROTOCOL_COMMAND_BANDWIDTH_LIMIT = ENET_PROTOCOL_COMMAND_DISCONNECT by decide), if_neg (show ¬ ENET_PROTOCOL_COMMAND_BANDWIDTH_LIMIT = ENET_PROTOCOL_COMMAND_PING by decide),
        if_pos rfl]
      dsimp only
      rw [if_pos hnc']
    · subst hc
      refine ⟨currentData, ?_⟩
      unfold handleCommand enet_protocol_handle_throttle_configure
      rw [if_neg (show ¬ ENET_PROTOCOL_COMMAND_THROTTLE_CONFIGURE = ENET_PROTOCOL_COMMAND_ACKNOWLEDGE by decide), if_neg (show ¬ ENET_PROTOCOL_COMMAND_THROTTLE_CONFIGURE = ENET_PROTOCOL_COMMAND_VERIFY_CONNECT by decide), if_neg (show ¬ ENET_PROTOCOL_COMMAND_THROTTLE_CONFIGURE = ENET_PROTOCOL_COMMAND_DISCONNECT by decide), if_neg (show ¬ ENET_PROTOCOL_COMMAND_THROTTLE_CONFIGURE = ENET_PROTOCOL_COMMAND_PING by decide), if_neg (show ¬ ENET_PROTOCOL_COMMAND_THROTTLE_CONFIGURE = ENET_PROTOCOL_COMMAND_BANDWIDTH_LIMIT by decide),
        if_pos rfl]
      dsimp only
      rw [if_pos hnc']
    · exact hsendCase hc (Or.inl hnc)
  · exact hsendCase hc (Or.inr hr)

/-- The record of the two fragment commands is read as a fragment record. -/
theorem decodeBody_fragment (commandNumber : Nat) (bytes : List Nat)
    (h : commandNumber = ENET_PROTOCOL_COMMAND_SEND_FRAGMENT ∨
      commandNumber = ENET_PROTOCOL_COMMAND_SEND_UNRELIABLE_FRAGMENT) :
    decodeBody commandNumber bytes = .sendFragment (decodeSendFragment bytes) := by
  rcases h with h | h <;> subst h <;> rfl

/-- One turn of the loop of `enet_protocol_handle_incoming_commands` on a command that is
refused: the loop is left, and nothing but `currentData` has been written. -/
theorem handleIncomingCommand_refused (hdr : ENetHeader) (time : ENetTime)
    (flush : ENetHost × ENetPeer × PacketStore → ENetHost × ENetPeer × PacketStore)
    (flags sentTime : Nat) (st : IncomingState) (slot : Nat) (p : ENetPeer)
    (host : ENetHost) (peer : ENetPeer) (hpeer : st.peer = some (slot, p))
    (hstate : p.state = peer.state) (hchannels : p.channelCount = peer.channelCount)
    (hmax : st.host.maximumPacketSize = host.maximumPacketSize)
    (h : FirstCommandRefused host peer st.currentData) :
    ∃ cd, handleIncomingCommand hdr time flush flags sentTime st
      = some (false, { st with currentData := cd }) := by
  obtain ⟨-, h⟩ := h
  obtain ⟨shost, speer, sevent, sstore, smem, data⟩ := st
  dsimp only at hpeer hmax h
  subst hpeer
  generalize hst : (⟨shost, some (slot, p), sevent, sstore, smem, data⟩ : IncomingState) = st
  have hdata : st.currentData = data := by rw [← hst]
  have hshost : st.host = shost := by rw [← hst]
  have hpeer : st.peer = some (slot, p) := by rw [← hst]
  rw [← hdata] at h
  rw [← hshost] at hmax
  have hself : ({ st with currentData := st.currentData } : IncomingState) = st := by
    rw [← hst]
  clear hdata hshost
  unfold handleIncomingCommand
  dsimp only
  by_cases h1 : st.currentData.length < sizeof_ENetProtocolCommandHeader
  · rw [if_pos h1]
    exact ⟨st.currentData, by rw [hself]⟩
  · rw [if_neg h1]
    by_cases h2 : byteAt st.currentData 0 &&& ENET_PROTOCOL_COMMAND_MASK
        ≥ ENET_PROTOCOL_COMMAND_COUNT
    · rw [if_pos h2]
      exact ⟨st.currentData, by rw [hself]⟩
    · rw [if_neg h2]
      by_cases h3 : commandSizes.getD (byteAt st.currentData 0 &&& ENET_PROTOCOL_COMMAND_MASK) 0
          = 0 ∨ st.currentData.length
            < commandSizes.getD (byteAt st.currentData 0 &&& ENET_PROTOCOL_COMMAND_MASK) 0
      · rw [if_pos h3]
        exact ⟨st.currentData, by rw [hself]⟩
      · rw [if_neg h3]
        have hrest : byteAt st.currentData 0 &&& ENET_PROTOCOL_COMMAND_MASK
              = ENET_PROTOCOL_COMMAND_CONNECT ∨
            ((byteAt st.currentData 0 &&& ENET_PROTOCOL_COMMAND_MASK
                  = ENET_PROTOCOL_COMMAND_PING ∨
                byteAt st.currentData 0 &&& ENET_PROTOCOL_COMMAND_MASK
                  = ENET_PROTOCOL_COMMAND_BANDWIDTH_LIMIT ∨
                byteAt st.currentData 0 &&& ENET_PROTOCOL_COMMAND_MASK
                  = ENET_PROTOCOL_COMMAND_THROTTLE_CONFIGURE ∨
                IsSendCommand (byteAt st.currentData 0 &&& ENET_PROTOCOL_COMMAND_MASK)) ∧
              NotConnected p) ∨
            (IsSendCommand (byteAt st.currentData 0 &&& ENET_PROTOCOL_COMMAND_MASK) ∧
              ((decodeCommand st.currentData).channelID ≥ p.channelCount ∨
                ENET_NET_TO_HOST_16 (decodeCommand st.currentData).dataLengthView
                  > st.host.maximumPacketSize ∨
                ENET_NET_TO_HOST_16 (decodeCommand st.currentData).dataLengthView
                  > (st.currentData.drop (commandSizes.getD
                      (byteAt st.currentData 0 &&& ENET_PROTOCOL_COMMAND_MASK) 0)).length)) := by
          rw [List.length_drop, hchannels, hmax]
          unfold NotConnected at h ⊢
          rw [hstate]
          rcases h with h | h | h | h | h | h | h
          · exact absurd h h1
          · exact absurd h h2
          · exact absurd (Or.inl h) h3
          · exact absurd (Or.inr h) h3
          · exact Or.inl h
          · exact Or.inr (Or.inl h)
          · exact Or.inr (Or.inr h)
        have hbody : (byteAt st.currentData 0 &&& ENET_PROTOCOL_COMMAND_MASK
              = ENET_PROTOCOL_COMMAND_SEND_FRAGMENT ∨
            byteAt st.currentData 0 &&& ENET_PROTOCOL_COMMAND_MASK
              = ENET_PROTOCOL_COMMAND_SEND_UNRELIABLE_FRAGMENT) →
            (decodeCommand st.currentData).sendFragmentView.dataLength
              = (decodeCommand st.currentData).dataLengthView := by
          intro hc
          unfold decodeCommand ENetProtocol.sendFragmentView ENetProtocol.dataLengthView
          dsimp only
          rw [decodeBody_fragment _ _ hc]
        obtain ⟨cd, hcd⟩ := handleCommand_refused hdr time flush
          { st with currentData := st.currentData.drop (commandSizes.getD
            (byteAt st.currentData 0 &&& ENET_PROTOCOL_COMMAND_MASK) 0) }
          slot p (byteAt st.currentData 0 &&& ENET_PROTOCOL_COMMAND_MASK)
          (decodeCommand st.currentData) hpeer hbody hrest
        subst hst
        dsimp only at hcd ⊢
        rw [hcd]
        dsimp only
        unfold acknowledgeIncomingCommand
        rw [if_pos (by decide)]
        exact ⟨cd, rfl⟩

/-- The loop of `enet_protocol_handle_incoming_commands` on a datagram whose first command is
refused: it is left at once, and nothing but `currentData` has been written. -/
theorem enet_protocol_handle_incoming_commands_loop_refused (hdr : ENetHeader)
    (time : ENetTime)
    (flush : ENetHost × ENetPeer × PacketStore → ENetHost × ENetPeer × PacketStore)
    (flags sentTime fuel : Nat) (st : IncomingState) (slot : Nat) (p : ENetPeer)
    (host : ENetHost) (peer : ENetPeer) (hfuel : 0 < fuel)
    (hpeer : st.peer = some (slot, p))
    (hstate : p.state = peer.state) (hchannels : p.channelCount = peer.channelCount)
    (hmax : st.host.maximumPacketSize = host.maximumPacketSize)
    (h : FirstCommandRefused host peer st.currentData) :
    ∃ cd, enet_protocol_handle_incoming_commands_loop hdr time flush flags sentTime
      fuel st = some { st with currentData := cd } := by
  obtain ⟨cd, hcd⟩ := handleIncomingCommand_refused hdr time flush flags sentTime st slot p
    host peer hpeer hstate hchannels hmax h
  cases fuel with
  | zero => omega
  | succ fuel =>
    unfold enet_protocol_handle_incoming_commands_loop
    rw [if_neg h.1, hcd]
    exact ⟨cd, rfl⟩

/-- For a datagram that passes the tests of its header,
`enet_protocol_handle_incoming_commands` goes on to the decompression with the peer the
datagram is addressed to. -/
theorem enet_protocol_handle_incoming_commands_of_peer (hdr : ENetHeader) (time : ENetTime)
    (flush : ENetHost × ENetPeer × PacketStore → ENetHost × ENetPeer × PacketStore)
    (env : ENetReceive) (host : ENetHost) (event : Option ENetEvent)
    (receivedData : List Nat) (store : PacketStore) (mem : Nat)
    (peer : Option (Nat × ENetPeer)) (h : IncomingPeer env host receivedData peer) :
    enet_protocol_handle_incoming_commands hdr time flush env host event receivedData store mem
      = incomingAccepted hdr time flush env host event receivedData store mem
          (headerFlags receivedData) peer := by
  obtain ⟨hlen, h⟩ := h
  unfold enet_protocol_handle_incoming_commands
  dsimp only
  rw [if_neg (Nat.not_lt.mpr hlen)]
  rcases h with ⟨hid, hp⟩ | ⟨hid, hlt, p, hget, hrej, hp⟩
  · subst hp
    rw [if_pos hid]
  · subst hp
    rw [if_neg hid, if_neg (Nat.not_le.mpr hlt), hget]
    dsimp only
    rw [hrej]
    rfl

/-- A datagram that is refused before its commands are read changes nothing. -/
theorem enet_protocol_handle_incoming_commands_dropped (hdr : ENetHeader) (time : ENetTime)
    (flush : ENetHost × ENetPeer × PacketStore → ENetHost × ENetPeer × PacketStore)
    (env : ENetReceive) (host : ENetHost) (event : Option ENetEvent)
    (receivedData : List Nat) (store : PacketStore) (mem : Nat)
    (h : IncomingDropped env host receivedData) :
    enet_protocol_handle_incoming_commands hdr time flush env host event receivedData store mem
      = some { status := 0, host := host, event := event, store := store, mem := mem } := by
  rcases h with h | ⟨hlen, hid, h⟩ | ⟨peer, hpeer, h⟩
  · unfold enet_protocol_handle_incoming_commands
    dsimp only
    rw [if_pos h]
  · unfold enet_protocol_handle_incoming_commands
    dsimp only
    rw [if_neg (Nat.not_lt.mpr hlen), if_neg hid]
    rcases h with h | ⟨p, hget, hrej⟩
    · rw [if_pos h]
    · by_cases hge : headerPeerID receivedData ≥ host.peerCount
      · rw [if_pos hge]
      · rw [if_neg hge, hget]
        dsimp only
        rw [hrej]
        rfl
  · rw [enet_protocol_handle_incoming_commands_of_peer hdr time flush env host event
      receivedData store mem peer hpeer]
    unfold incomingAccepted
    dsimp only
    rcases h with h | ⟨data, hdec, hsum, hsize, hbad⟩
    · rw [h]
    · rw [hdec]
      dsimp only
      rw [if_neg (fun hh => Nat.not_lt.mpr hsize hh.2), if_pos ⟨hsum, by rw [hbad]; simp⟩]

/-- A datagram for a peer whose first command is refused changes nothing but the address and
the `incomingDataTotal` of the peer. -/
theorem enet_protocol_handle_incoming_commands_first (hdr : ENetHeader) (time : ENetTime)
    (flush : ENetHost × ENetPeer × PacketStore → ENetHost × ENetPeer × PacketStore)
    (env : ENetReceive) (host : ENetHost) (event : Option ENetEvent)
    (receivedData : List Nat) (store : PacketStore) (mem : Nat)
    (slot : Nat) (peer : ENetPeer) (data : List Nat)
    (hpeer : IncomingPeer env host receivedData (some (slot, peer)))
    (hdec : incomingDecompress env receivedData (headerFlags receivedData)
      (incomingHeaderSize host (headerFlags receivedData)) = some (some data))
    (hsum : host.checksum = true →
      incomingHeaderSize host (headerFlags receivedData) ≤ data.length ∧
      incomingChecksumMatches env data (incomingHeaderSize host (headerFlags receivedData))
        peer.connectID = true)
    (h : FirstCommandRefused host peer
      (data.drop (incomingHeaderSize host (headerFlags receivedData)))) :
    enet_protocol_handle_incoming_commands hdr time flush env host event receivedData store mem
      = some { status := incomingStatus event,
               host := { host with
                 peers := host.peers.set slot (peer.received host data.length) },
               event := event, store := store, mem := mem } := by
  rw [enet_protocol_handle_incoming_commands_of_peer hdr time flush env host event
    receivedData store mem _ hpeer]
  unfold incomingAccepted
  dsimp only
  rw [hdec]
  dsimp only
  rw [if_neg (fun hh => Nat.not_lt.mpr (hsum hh.1).1 hh.2),
    if_neg (fun hh => hh.2 (hsum hh.1).2)]
  have hfuel : 0 < data.length := by
    rcases Nat.eq_zero_or_pos data.length with h0 | h0
    · exfalso
      apply h.1
      rw [List.length_eq_zero.mp h0]
      exact List.drop_nil
    · exact h0
  obtain ⟨cd, hcd⟩ := enet_protocol_handle_incoming_commands_loop_refused hdr time flush
    (headerFlags receivedData) (ENET_NET_TO_HOST_16 (be16 receivedData offsetof_sentTime))
    data.length
    { host := host, peer := some (slot, peer.received host data.length), event := event,
      store := store, mem := mem,
      currentData := data.drop (incomingHeaderSize host (headerFlags receivedData)) }
    slot (peer.received host data.length) host peer hfuel rfl rfl rfl rfl h
  have hcd2 := hcd
  unfold ENetPeer.received at hcd2
  dsimp only [Option.map] at hcd2 ⊢
  rw [hcd2]
  rfl

/-- A datagram for no peer whose first command is refused changes nothing. -/
theorem enet_protocol_handle_incoming_commands_first_noPeer (hdr : ENetHeader)
    (time : ENetTime)
    (flush : ENetHost × ENetPeer × PacketStore → ENetHost × ENetPeer × PacketStore)
    (env : ENetReceive) (host : ENetHost) (event : Option ENetEvent)
    (receivedData : List Nat) (store : PacketStore) (mem : Nat) (data : List Nat)
    (hpeer : IncomingPeer env host receivedData none)
    (hdec : incomingDecompress env receivedData (headerFlags receivedData)
      (incomingHeaderSize host (headerFlags receivedData)) = some (some data))
    (hsum : host.checksum = true →
      incomingHeaderSize host (headerFlags receivedData) ≤ data.length ∧
      incomingChecksumMatches env data (incomingHeaderSize host (headerFlags receivedData))
        0 = true)
    (h : FirstCommandRefusedNoPeer
      (data.drop (incomingHeaderSize host (headerFlags receivedData)))) :
    enet_protocol_handle_incoming_commands hdr time flush env host event receivedData store mem
      = some { status := incomingStatus event, host := host, event := event, store := store,
               mem := mem } := by
  rw [enet_protocol_handle_incoming_commands_of_peer hdr time flush env host event
    receivedData store mem _ hpeer]
  unfold incomingAccepted
  dsimp only
  rw [hdec]
  dsimp only
  rw [if_neg (fun hh => Nat.not_lt.mpr (hsum hh.1).1 hh.2),
    if_neg (fun hh => hh.2 (hsum hh.1).2)]
  obtain ⟨hne, h⟩ := h
  have hfuel : 0 < data.length := by
    rcases Nat.eq_zero_or_pos data.length with h0 | h0
    · exfalso
      apply hne
      rw [List.length_eq_zero.mp h0]
      exact List.drop_nil
    · exact h0
  obtain ⟨n, hn⟩ : ∃ n, data.length = n + 1 := ⟨data.length - 1, by omega⟩
  rw [hn]
  generalize data.drop (incomingHeaderSize host (headerFlags receivedData)) = cd at hne h
  unfold enet_protocol_handle_incoming_commands_loop
  dsimp only [Option.map]
  rw [if_neg hne]
  unfold handleIncomingCommand
  dsimp only
  by_cases h1 : cd.length < sizeof_ENetProtocolCommandHeader
  · rw [if_pos h1]
    rfl
  · rw [if_neg h1]
    by_cases h2 : byteAt cd 0 &&& ENET_PROTOCOL_COMMAND_MASK ≥ ENET_PROTOCOL_COMMAND_COUNT
    · rw [if_pos h2]
      rfl
    · rw [if_neg h2]
      by_cases h3 : commandSizes.getD (byteAt cd 0 &&& ENET_PROTOCOL_COMMAND_MASK) 0 = 0 ∨
          cd.length < commandSizes.getD (byteAt cd 0 &&& ENET_PROTOCOL_COMMAND_MASK) 0
      · rw [if_pos h3]
        rfl
      · rw [if_neg h3]
        have h4 : byteAt cd 0 &&& ENET_PROTOCOL_COMMAND_MASK ≠ ENET_PROTOCOL_COMMAND_CONNECT := by
          rcases h with h | h | h | h | h
          · exact absurd h h1
          · exact absurd h h2
          · exact absurd (Or.inl h) h3
          · exact absurd (Or.inr h) h3
          · exact h
        rw [if_pos h4]
        rfl

/-- C16 (amended): a datagram that `enet_protocol_handle_incoming_commands` refuses before it
reads a command (shorter than the peer id, peer id out of range, not taken by the peer in the
slot, not decompressed, wrong checksum) changes nothing; a datagram whose first command is
refused (command header or record beyond the end, command number 0 or above 12, a send
command with a data length above the remainder of the datagram or above
`maximumPacketSize` or for a channel the peer does not have, a `CONNECT` for a peer, or a
`PING`, `BANDWIDTH_LIMIT`, `THROTTLE_CONFIGURE` or send command for a peer that is not
connected) ends the parsing and changes nothing but the address of the peer it is addressed
to, which becomes the source address of the datagram, and its `incomingDataTotal`, which
grows by the length of the datagram; addressed to no peer it changes nothing. -/
theorem enet_protocol_handle_incoming_commands_refused (hdr : ENetHeader) (time : ENetTime)
    (flush : ENetHost × ENetPeer × PacketStore → ENetHost × ENetPeer × PacketStore)
    (env : ENetReceive) (host : ENetHost) (event : Option ENetEvent)
    (receivedData : List Nat) (store : PacketStore) (mem : Nat) :
    (IncomingDropped env host receivedData →
      enet_protocol_handle_incoming_commands hdr time flush env host event receivedData store
          mem
        = some { status := 0, host := host, event := event, store := store, mem := mem }) ∧
    (∀ (slot : Nat) (peer : ENetPeer) (data : List Nat),
      IncomingPeer env host receivedData (some (slot, peer)) →
      incomingDecompress env receivedData (headerFlags receivedData)
        (incomingHeaderSize host (headerFlags receivedData)) = some (some data) →
      (host.checksum = true →
        incomingHeaderSize host (headerFlags receivedData) ≤ data.length ∧
        incomingChecksumMatches env data (incomingHeaderSize host (headerFlags receivedData))
          peer.connectID = true) →
      FirstCommandRefused host peer
        (data.drop (incomingHeaderSize host (headerFlags receivedData))) →
      enet_protocol_handle_incoming_commands hdr time flush env host event receivedData store
          mem
        = some { status := incomingStatus event,
                 host := { host with
                   peers := host.peers.set slot (peer.received host data.length) },
                 event := event, store := store, mem := mem }) ∧
    (∀ (data : List Nat),
      IncomingPeer env host receivedData none →
      incomingDecompress env receivedData (headerFlags receivedData)
        (incomingHeaderSize host (headerFlags receivedData)) = some (some data) →
      (host.checksum = true →
        incomingHeaderSize host (headerFlags receivedData) ≤ data.length ∧
        incomingChecksumMatches env data (incomingHeaderSize host (headerFlags receivedData))
          0 = true) →
      FirstCommandRefusedNoPeer
        (data.drop (incomingHeaderSize host (headerFlags receivedData))) →
      enet_protocol_handle_incoming_commands hdr time flush env host event receivedData store
          mem
        = some { status := incomingStatus event, host := host, event := event,
                 store := store, mem := mem }) :=
  ⟨enet_protocol_handle_incoming_commands_dropped hdr time flush env host event receivedData
      store mem,
    fun slot peer data => enet_protocol_handle_incoming_commands_first hdr time flush env host
      event receivedData store mem slot peer data,
    fun data => enet_protocol_handle_incoming_commands_first_noPeer hdr time flush env host
      event receivedData store mem data⟩

/-- C16 (amended) at the sample host: a datagram of one byte changes nothing, and a datagram
of 10 bytes for the connected sample peer whose `SEND_RELIABLE` command announces 9 bytes
of data and carries 2 leaves the peer as it was but for `incomingDataTotal`, now 10. -/
theorem enet_protocol_handle_incoming_commands_refused_witness :
    enet_protocol_handle_incoming_commands sampleHeader sampleTime id sampleReceive sampleHost
        (some sampleEvent) [16] [] 8
      = some { status := 0, host := sampleHost, event := some sampleEvent, store := [],
               mem := 8 } ∧
    enet_protocol_handle_incoming_commands sampleHeader sampleTime id sampleReceive sampleHost
        (some sampleEvent) sampleShortDatagram [] 8
      = some { status := 0,
               host := { sampleHost with
                 peers := [{ samplePeer with incomingDataTotal := 10 }] },
               event := some sampleEvent, store := [], mem := 8 } :=
  ⟨(enet_protocol_handle_incoming_commands_refused sampleHeader sampleTime id sampleReceive
      sampleHost (some sampleEvent) [16] [] 8).1 (Or.inl (by decide)),
    (enet_protocol_handle_incoming_commands_refused sampleHeader sampleTime id sampleReceive
      sampleHost (some sampleEvent) sampleShortDatagram [] 8).2.1 0 samplePeer
      sampleShortDatagram
      ⟨by decide, Or.inr ⟨by decide, by decide, samplePeer, by decide, by decide, by decide⟩⟩
      (by decide) (fun h => absurd h (by decide))
      (by unfold FirstCommandRefused IsSendCommand NotConnected; decide)⟩

/-! ## Range coder -/

/-- When the main loop of `enet_range_coder_compress` ends normally, none of the buffers
that it entered after the first was empty. -/
theorem compressLoop_ok (outLimit : Nat) :
    ∀ (fuel : Nat) (inData : List Nat) (inBuffers : List (List Nat)) (st st1 : RangeEncoder),
      compressLoop outLimit fuel inData inBuffers st = Except.ok st1 → [] ∉ inBuffers := by
  intro fuel
  induction fuel with
  | zero => intro inData inBuffers st st1 h; simp [compressLoop] at h
  | succ fuel ih =>
    intro inData inBuffers st st1 h
    unfold compressLoop at h
    cases inData with
    | cons value inData1 =>
      simp only [bind, Except.bind] at h
      cases hv : compressValue outLimit value st with
      | error e => rw [hv] at h; simp at h
      | ok st2 => rw [hv] at h; exact ih _ _ _ _ h
    | nil =>
      cases inBuffers with
      | nil => simp
      | cons b rest =>
        cases b with
        | nil => simp at h
        | cons value inData1 =>
          simp only [bind, Except.bind] at h
          cases hv : compressValue outLimit value st with
          | error e => rw [hv] at h; simp at h
          | ok st2 =>
            rw [hv] at h
            have := ih _ _ _ _ h
            simp [this]

/-- For every table, whenever one of the buffers after the first is empty,
`enet_range_coder_compress` returns no size other than 0: it stops at the output limit
before it enters the empty buffer, or it reads beyond that buffer. -/
theorem enet_range_coder_compress_of_empty_buffer (rangeCoder : Option (List ENetSymbol))
    (inData : List Nat) (inBuffers : List (List Nat)) (inLimit outLimit n : Nat)
    (outData : List Nat) (hempty : [] ∈ inBuffers)
    (h : enet_range_coder_compress rangeCoder (inData :: inBuffers) inLimit outLimit
      = Except.ok (n, outData)) : n = 0 := by
  unfold enet_range_coder_compress at h
  cases rangeCoder with
  | none => simp at h; exact h.1.symm
  | some symbols =>
    simp only at h
    by_cases hl : inLimit = 0
    · rw [if_pos hl] at h; simp at h; exact h.1.symm
    · rw [if_neg hl] at h
      simp only [bind, Except.bind] at h
      cases hc : ENET_CONTEXT_CREATE symbols 0 ENET_CONTEXT_ESCAPE_MINIMUM
          ENET_CONTEXT_SYMBOL_MINIMUM with
      | error e =>
        rw [hc] at h
        cases e <;> simp at h
        exact h.1.symm
      | ok created =>
        obtain ⟨symbols1, nextSymbol1, root⟩ := created
        rw [hc] at h
        simp only at h
        generalize hst :
          (⟨symbols1, nextSymbol1, root, 0, 0, 0, 4294967295, []⟩ : RangeEncoder) = st0 at h
        cases hloop : compressLoop outLimit ((inData :: inBuffers).flatten.length + 1) inData
            inBuffers st0 with
        | error e =>
          rw [hloop] at h
          cases e <;> simp at h
          exact h.1.symm
        | ok st1 => exact absurd hempty (compressLoop_ok outLimit _ _ _ _ _ hloop)

/-- C15 (code defect): twelve zero bytes in one buffer are compressed to six bytes, and
`enet_range_coder_decompress` gives the twelve bytes back from them; the same bytes followed
by an empty buffer make `enet_range_coder_compress` read the byte beyond the empty buffer
(undefined behaviour), because the loop moves to the next buffer only once before it reads
`* inData`. -/
theorem enet_range_coder_compress_reads_beyond_empty_buffer :
    enet_range_coder_compress (some sampleSymbols) [sampleRun] 12 12
      = Except.ok (6, sampleRunCompressed) ∧
    enet_range_coder_decompress (some sampleSymbols) sampleRunCompressed 12
      = Except.ok (12, sampleRun) ∧
    enet_range_coder_compress (some sampleSymbols) [sampleRun, []] 12 12
      = Except.error RangeCoderExit.readBeyondInput := by
  refine ⟨?_, ?_, ?_⟩ <;> decide!

/-! ## Throttle update -/

/-- C26 (counterexample): with `lastRoundTripTime = 10 <= lastRoundTripTimeVariance = 20` a
measured round trip time of 5 (at most `lastRoundTripTime`) sets `packetThrottle` to the
limit 32 and not to `min (5 + 2) 32 = 7`, and a measured round trip time of 1000 (above
`lastRoundTripTime + 2 * lastRoundTripTimeVariance = 50`) sets it to 32 as well and not to
`5 - 2 = 3`. -/
theorem enet_peer_throttle_low_round_trip_time :
    5 ≤ sampleJitterPeer.lastRoundTripTime ∧
    (enet_peer_throttle sampleJitterPeer 5).2.packetThrottle = 32 ∧
    min (sampleJitterPeer.packetThrottle + sampleJitterPeer.packetThrottleAcceleration)
      sampleJitterPeer.packetThrottleLimit = 7 ∧
    1000 > sampleJitterPeer.lastRoundTripTime + 2 * sampleJitterPeer.lastRoundTripTimeVariance ∧
    (enet_peer_throttle sampleJitterPeer 1000).2.packetThrottle = 32 ∧
    sampleJitterPeer.packetThrottle - sampleJitterPeer.packetThrottleDeceleration = 3 := by
  decide

/-- C26 (amended): for every peer whose fields are 32-bit values and every measured round
trip time `m`, `enet_peer_throttle` changes `packetThrottle` only, and: if
`lastRoundTripTime <= lastRoundTripTimeVariance` the throttle becomes `packetThrottleLimit`
and 0 is returned; otherwise, if `m <= lastRoundTripTime`, it becomes
`min (packetThrottle + packetThrottleAcceleration) packetThrottleLimit` (the sum taken in 32
bits) and 1 is returned; otherwise, if `m > lastRoundTripTime + 2 *
lastRoundTripTimeVariance` (taken in 32 bits), it becomes `packetThrottle -
packetThrottleDeceleration` floored at 0 and -1 is returned; otherwise it is unchanged and 0
is returned. -/
theorem enet_peer_throttle_spec (peer : ENetPeer) (m : Nat) :
    (enet_peer_throttle peer m).2.frame = peer.frame ∧
    (peer.lastRoundTripTime ≤ peer.lastRoundTripTimeVariance →
      enet_peer_throttle peer m
        = (0, { peer with packetThrottle := peer.packetThrottleLimit })) ∧
    (peer.lastRoundTripTimeVariance < peer.lastRoundTripTime →
      (m ≤ peer.lastRoundTripTime →
        enet_peer_throttle peer m
          = (1, { peer with
                  packetThrottle := (min
                    ((peer.packetThrottle + peer.packetThrottleAcceleration) % 4294967296)
                    peer.packetThrottleLimit) })) ∧
      (peer.lastRoundTripTime < m →
        (peer.lastRoundTripTime + 2 * peer.lastRoundTripTimeVariance) % 4294967296 < m →
        enet_peer_throttle peer m
          = (-1, { peer with
                   packetThrottle :=
                     (peer.packetThrottle - peer.packetThrottleDeceleration) })) ∧
      (peer.lastRoundTripTime < m →
        m ≤ (peer.lastRoundTripTime + 2 * peer.lastRoundTripTimeVariance) % 4294967296 →
        enet_peer_throttle peer m = (0, peer))) := by
  have hsum : u32 (peer.lastRoundTripTime + u32 (2 * peer.lastRoundTripTimeVariance))
      = (peer.lastRoundTripTime + 2 * peer.lastRoundTripTimeVariance) % 4294967296 := by
    unfold u32; omega
  refine ⟨enet_peer_throttle_frame peer m, fun h => ?_, fun h => ⟨fun hm => ?_, fun hm hb => ?_,
    fun hm hb => ?_⟩⟩
  · unfold enet_peer_throttle
    rw [if_pos h]
  · unfold enet_peer_throttle
    rw [if_neg (by omega), if_pos hm]
    dsimp only
    by_cases hc : u32 (peer.packetThrottle + peer.packetThrottleAcceleration)
        > peer.packetThrottleLimit
    · rw [if_pos hc]
      unfold u32 at hc
      rw [Nat.min_eq_right (by omega)]
    · rw [if_neg hc]
      unfold u32 at hc ⊢
      rw [Nat.min_eq_left (by omega)]
  · unfold enet_peer_throttle
    rw [if_neg (by omega), if_neg (by omega), hsum, if_pos hb]
    by_cases hc : peer.packetThrottle > peer.packetThrottleDeceleration
    · rw [if_pos hc]
    · rw [if_neg hc]
      have : peer.packetThrottle - peer.packetThrottleDeceleration = 0 := by omega
      rw [this]
  · unfold enet_peer_throttle
    rw [if_neg (by omega), if_neg (by omega), hsum, if_neg (by omega)]

/-- Witness of C26 (amended): the sample peer after a reset (`lastRoundTripTime = 500`,
variance 0, throttle 32 of 32) with a measured round trip time of 600 is slowed down to
30. -/
theorem enet_peer_throttle_spec_witness :
    samplePeer.lastRoundTripTimeVariance < samplePeer.lastRoundTripTime ∧
    samplePeer.lastRoundTripTime < 600 ∧
    (samplePeer.lastRoundTripTime + 2 * samplePeer.lastRoundTripTimeVariance) % 4294967296
      < 600 ∧
    enet_peer_throttle samplePeer 600
      = (-1, { samplePeer with
               packetThrottle :=
                 (samplePeer.packetThrottle - samplePeer.packetThrottleDeceleration) }) :=
  ⟨by decide, by decide, by decide,
   ((enet_peer_throttle_spec samplePeer 600).2.2 (by decide)).2.1 (by decide) (by decide)⟩

/-! ## Round trip time -/

/-- The bit `0x8000` of a number is set when its low 16 bits are at least 32768. -/
theorem and_bit15 (x : Nat) : x &&& 0x8000 = if x % 65536 ≥ 32768 then 32768 else 0 := by
  have h := Nat.and_two_pow x 15
  norm_num at h
  rw [h, Nat.testBit_to_div_mod]
  split_ifs with h1
  · have : x / 2 ^ 15 % 2 = 1 := by omega
    rw [this]; rfl
  · have : ¬ x / 2 ^ 15 % 2 = 1 := by omega
    rw [decide_eq_false this]; rfl

/-- The mask `0xFFFF0000` clears the low 16 bits of a 32-bit number. -/
theorem and_high16 (s : Nat) (hs : s < 4294967296) :
    s &&& 0xFFFF0000 = 65536 * (s / 65536) := by
  apply Nat.eq_of_testBit_eq
  intro i
  have e1 : (0xFFFF0000 : Nat) = 2 ^ 16 * (2 ^ 16 - 1) := by norm_num
  have e2 : (65536 : Nat) = 2 ^ 16 := by norm_num
  rw [Nat.testBit_and, e1, e2, Nat.testBit_mul_pow_two, Nat.testBit_mul_pow_two,
    Nat.testBit_two_pow_sub_one, ← Nat.shiftRight_eq_div_pow, Nat.testBit_shiftRight]
  by_cases h16 : i ≥ 16
  · have e3 : 16 + (i - 16) = i := by omega
    rw [e3]
    by_cases h32 : i - 16 < 16
    · simp [h16, h32]
    · have h2 : (2 : Nat) ^ 32 ≤ 2 ^ i := Nat.pow_le_pow_right (by norm_num) (by omega)
      have : s.testBit i = false := Nat.testBit_lt_two_pow (by omega)
      simp [this]
  · simp [h16]

/-- Sixteen low bits or-ed under a multiple of 65536 add to it. -/
theorem or_low16 (a b : Nat) (hb : b < 65536) : b ||| 65536 * a = 65536 * a + b := by
  have := @Nat.mul_add_lt_is_or 16 b (by norm_num; exact hb) a
  norm_num at this
  rw [Nat.lor_comm, this]

/-- The value that `enet_protocol_handle_acknowledge` rebuilds from the low 16 bits of a send
time that lies less than 32768 ms before the service time is that send time. -/
theorem acknowledgeSentTime_eq (host : ENetHost) (command : ENetProtocol) (t : Nat)
    (hs : host.serviceTime < 4294967296) (ht : t < 4294967296)
    (hview : command.acknowledgeView.2 = t % 65536)
    (hd : (host.serviceTime + 4294967296 - t) % 4294967296 < 32768) :
    acknowledgeSentTime host command = t := by
  unfold acknowledgeSentTime
  dsimp only
  rw [hview]
  have h16 : ENET_NET_TO_HOST_16 (t % 65536) = t % 65536 := by
    unfold ENET_NET_TO_HOST_16 u16; omega
  rw [h16, and_high16 _ hs, or_low16 _ _ (by omega), and_bit15, and_bit15]
  have e : (65536 * (host.serviceTime / 65536) + t % 65536) % 65536 = t % 65536 := by omega
  rw [e]
  unfold u32
  split_ifs <;> omega

/-- C28: for every 32-bit service time `s` (the `serviceTime` of the host) and every 32-bit
send time `t` with `0 <= s - t < 32768` modulo 2^32, the value that
`enet_protocol_handle_acknowledge` rebuilds from the low 16 bits of `t`, which the
`ACKNOWLEDGE` command echoes, and the high 16 bits of `s` is `t`; and with time macros for
which `s` is not less than `t` and their difference is `s - t` modulo 2^32, a peer that is
neither `DISCONNECTED` nor `ZOMBIE` gets its estimator updated with the measured round trip
time `max (s - t) 1`. -/
theorem enet_protocol_handle_acknowledge_sent_time (hdr : ENetHeader) (time : ENetTime)
    (flush : ENetHost × ENetPeer × PacketStore → ENetHost × ENetPeer × PacketStore)
    (host : ENetHost) (event : Option ENetEvent) (peer : ENetPeer) (command : ENetProtocol)
    (store : PacketStore) (mem t : Nat)
    (hs : host.serviceTime < 4294967296) (ht : t < 4294967296)
    (hview : command.acknowledgeView.2 = t % 65536)
    (hd : (host.serviceTime + 4294967296 - t) % 4294967296 < 32768)
    (hless : time.ENET_TIME_LESS host.serviceTime t = false)
    (hdiff : time.ENET_TIME_DIFFERENCE host.serviceTime t
      = (host.serviceTime + 4294967296 - t) % 4294967296)
    (hstate : peer.state ≠ ENetPeerState.DISCONNECTED ∧ peer.state ≠ ENetPeerState.ZOMBIE) :
    acknowledgeSentTime host command = t ∧
    enet_protocol_handle_acknowledge hdr time flush host event peer command store mem
      = acknowledgeFinish hdr flush host event
          (enet_protocol_remove_sent_reliable_command
            (acknowledgeRoundTrip time host peer
              (max ((host.serviceTime + 4294967296 - t) % 4294967296) 1))
            store (ENET_NET_TO_HOST_16 command.acknowledgeView.1) command.channelID).peer
          (enet_protocol_remove_sent_reliable_command
            (acknowledgeRoundTrip time host peer
              (max ((host.serviceTime + 4294967296 - t) % 4294967296) 1))
            store (ENET_NET_TO_HOST_16 command.acknowledgeView.1) command.channelID).store
          mem
          (enet_protocol_remove_sent_reliable_command
            (acknowledgeRoundTrip time host peer
              (max ((host.serviceTime + 4294967296 - t) % 4294967296) 1))
            store (ENET_NET_TO_HOST_16 command.acknowledgeView.1)
            command.channelID).commandNumber := by
  have heq := acknowledgeSentTime_eq host command t hs ht hview hd
  refine ⟨heq, ?_⟩
  unfold enet_protocol_handle_acknowledge
  rw [if_neg (by rw [not_or]; exact hstate)]
  dsimp only
  rw [heq, hless, hdiff]
  have hu : u32 ((host.serviceTime + 4294967296 - t) % 4294967296)
      = (host.serviceTime + 4294967296 - t) % 4294967296 := by
    unfold u32; omega
  rw [hu]
  rfl

/-- Witness of C28: service time 65546 and send time 65530 (16 ms earlier, in the previous
block of 65536 ms), with the usual time macros, on the connected sample peer. -/
theorem enet_protocol_handle_acknowledge_sent_time_witness :
    acknowledgeSentTime { sampleHost with serviceTime := 65546 } (sampleAcknowledge 65530)
      = 65530 ∧
    (max ((65546 + 4294967296 - 65530) % 4294967296) 1 = 16) :=
  ⟨(enet_protocol_handle_acknowledge_sent_time sampleHeader sampleTime id
      { sampleHost with serviceTime := 65546 } none samplePeer (sampleAcknowledge 65530) [] 0
      65530 (by decide) (by decide) (by decide) (by decide) (by decide) (by decide)
      (by decide)).1,
   by decide⟩

/-- Removing a sent reliable command leaves the estimator of the peer. -/
theorem enet_protocol_remove_sent_reliable_command_round_trip (peer : ENetPeer)
    (store : PacketStore) (reliableSequenceNumber channelID : Nat) :
    (enet_protocol_remove_sent_reliable_command peer store reliableSequenceNumber
        channelID).peer.roundTripTime = peer.roundTripTime ∧
    (enet_protocol_remove_sent_reliable_command peer store reliableSequenceNumber
        channelID).peer.roundTripTimeVariance = peer.roundTripTimeVariance := by
  unfold enet_protocol_remove_sent_reliable_command
  dsimp only
  repeat' split
  all_goals exact ⟨rfl, rfl⟩

/-- The smoothing step on `roundTripTime` and `roundTripTimeVariance`, without wrap. -/
theorem acknowledgeSmooth_estimator (peer : ENetPeer) (m : Nat) (hm : m < 4294967296)
    (hrtt : peer.roundTripTime < 4294967296) (hvar : peer.roundTripTimeVariance < 4294967296) :
    (acknowledgeSmooth peer m).roundTripTimeVariance
      = peer.roundTripTimeVariance - peer.roundTripTimeVariance / 4
        + (if m ≥ peer.roundTripTime then m - peer.roundTripTime
           else peer.roundTripTime - m) / 4 ∧
    (acknowledgeSmooth peer m).roundTripTime
      = (if m ≥ peer.roundTripTime then peer.roundTripTime + (m - peer.roundTripTime) / 8
         else peer.roundTripTime - (peer.roundTripTime - m) / 8) := by
  have ht : (enet_peer_throttle peer m).2.roundTripTime = peer.roundTripTime ∧
      (enet_peer_throttle peer m).2.roundTripTimeVariance = peer.roundTripTimeVariance := by
    unfold enet_peer_throttle
    split_ifs <;> exact ⟨rfl, rfl⟩
  unfold acknowledgeSmooth
  dsimp only
  rw [ht.1, ht.2]
  by_cases h : m ≥ peer.roundTripTime
  · rw [if_pos h, if_pos h, if_pos h]
    dsimp only
    unfold u32
    constructor <;> omega
  · rw [if_neg h, if_neg h, if_neg h]
    dsimp only
    unfold u32
    constructor
    · omega
    · rfl

/-- The update of the estimator in `enet_protocol_handle_acknowledge`: the two tests for the
extremes and the start of a throttle interval leave `roundTripTime` and
`roundTripTimeVariance`. -/
theorem acknowledgeRoundTrip_estimator (time : ENetTime) (host : ENetHost) (peer : ENetPeer)
    (m : Nat) :
    (acknowledgeRoundTrip time host peer m).roundTripTime
      = (if peer.lastReceiveTime > 0 then (acknowledgeSmooth peer m).roundTripTime else m) ∧
    (acknowledgeRoundTrip time host peer m).roundTripTimeVariance
      = (if peer.lastReceiveTime > 0 then (acknowledgeSmooth peer m).roundTripTimeVariance
         else u32 (m + 1) / 2) := by
  have h2 : ∀ p : ENetPeer, (acknowledgeExtremes p).roundTripTime = p.roundTripTime ∧
      (acknowledgeExtremes p).roundTripTimeVariance = p.roundTripTimeVariance := by
    intro p
    unfold acknowledgeExtremes
    dsimp only
    split_ifs <;> exact ⟨rfl, rfl⟩
  have h3 : ∀ p : ENetPeer, (acknowledgeEpoch time host p).roundTripTime = p.roundTripTime ∧
      (acknowledgeEpoch time host p).roundTripTimeVariance = p.roundTripTimeVariance := by
    intro p
    unfold acknowledgeEpoch
    split_ifs <;> exact ⟨rfl, rfl⟩
  unfold acknowledgeRoundTrip
  dsimp only
  constructor
  · show (acknowledgeEpoch time host (acknowledgeExtremes _)).roundTripTime = _
    rw [(h3 _).1, (h2 _).1]
    split_ifs <;> rfl
  · show (acknowledgeEpoch time host (acknowledgeExtremes _)).roundTripTimeVariance = _
    rw [(h3 _).2, (h2 _).2]
    split_ifs <;> rfl

/-! ## The window of incoming commands -/

/-- A discarded command leaves host, peer and budget. -/
theorem queueIncomingDiscard_discarded (host : ENetHost) (peer : ENetPeer)
    (fragmentCount mem : Nat) :
    QueueIncomingDiscarded host peer mem (some (queueIncomingDiscard host peer fragmentCount mem)) := by
  unfold queueIncomingDiscard
  split_ifs
  · exact ⟨_, rfl, rfl, rfl, rfl, Or.inl rfl⟩
  · exact ⟨_, rfl, rfl, rfl, rfl, Or.inr rfl⟩

/-- The window that the code computes is the window of the specification, for 16-bit
sequence numbers. -/
theorem reliableWindowOf_eq (seq cur : Nat) (hseq : seq < 65536) :
    reliableWindowOf seq cur = incomingWindow seq cur := by
  unfold reliableWindowOf incomingWindow ENET_PEER_RELIABLE_WINDOW_SIZE
    ENET_PEER_RELIABLE_WINDOWS u16
  dsimp only
  split_ifs <;> omega

/-- The window test of `enet_peer_queue_incoming_command` in the words of the
specification. -/
theorem queueIncomingWindowRejects_iff (channel : ENetChannel) (command : ENetProtocol)
    (hkind : IsSequencedSend command) (hseq : command.reliableSequenceNumber < 65536) :
    queueIncomingWindowRejects channel command ↔
      (incomingWindow command.reliableSequenceNumber channel.incomingReliableSequenceNumber
          < currentWindow channel ∨
        incomingWindow command.reliableSequenceNumber channel.incomingReliableSequenceNumber
          > currentWindow channel + ENET_PEER_FREE_RELIABLE_WINDOWS - 2) := by
  have hne : command.command &&& ENET_PROTOCOL_COMMAND_MASK
      ≠ ENET_PROTOCOL_COMMAND_SEND_UNSEQUENCED := by
    rcases hkind with h | h | h | h <;> rw [h] <;> decide
  unfold queueIncomingWindowRejects queueIncomingReliableSequenceNumber
  rw [if_pos hne, reliableWindowOf_eq _ _ hseq]
  unfold currentWindow ENET_PEER_FREE_RELIABLE_WINDOWS ENET_PEER_RELIABLE_WINDOW_SIZE
  constructor
  · rintro ⟨_, h⟩
    omega
  · intro h
    exact ⟨hne, by omega⟩

/-- C22: for every host, peer, channel state and every `SEND_RELIABLE`, `SEND_UNRELIABLE`,
`SEND_FRAGMENT` or `SEND_UNRELIABLE_FRAGMENT` command with a 16-bit sequence number, let `w`
be the reliable window of the command and `c` the current window of its channel.  If
`w < c` or `w > c + FREE_RELIABLE_WINDOWS - 2`, `enet_peer_queue_incoming_command` returns
with host and peer (all queues) unchanged.  If `c <= w <= c + FREE_RELIABLE_WINDOWS - 2`
the window test does not reject the command: unless the peer is in `DISCONNECT_LATER`, the
function goes on to the search for the insertion point and, when that search does not
discard the command, to its insertion. -/
theorem enet_peer_queue_incoming_command_window (host : ENetHost) (peer : ENetPeer)
    (command : ENetProtocol) (data : Option (List Nat)) (dataLength : Nat)
    (flags : ENetPacketFlags) (fragmentCount mem : Nat) (channel : ENetChannel)
    (hch : peer.channels.get? command.channelID = some channel)
    (hkind : IsSequencedSend command) (hseq : command.reliableSequenceNumber < 65536) :
    ((incomingWindow command.reliableSequenceNumber channel.incomingReliableSequenceNumber
          < currentWindow channel ∨
        incomingWindow command.reliableSequenceNumber channel.incomingReliableSequenceNumber
          > currentWindow channel + ENET_PEER_FREE_RELIABLE_WINDOWS - 2) →
      QueueIncomingDiscarded host peer mem
        (enet_peer_queue_incoming_command host peer command data dataLength flags
          fragmentCount mem)) ∧
    (currentWindow channel
        ≤ incomingWindow command.reliableSequenceNumber channel.incomingReliableSequenceNumber →
      incomingWindow command.reliableSequenceNumber channel.incomingReliableSequenceNumber
        ≤ currentWindow channel + ENET_PEER_FREE_RELIABLE_WINDOWS - 2 →
      ¬ queueIncomingWindowRejects channel command ∧
      (peer.state ≠ ENetPeerState.DISCONNECT_LATER →
        ∀ skipped, queueIncomingScan channel command = InsertScan.after skipped →
          enet_peer_queue_incoming_command host peer command data dataLength flags
              fragmentCount mem
            = some (queueIncomingInsert host peer channel command data dataLength flags
                fragmentCount skipped mem))) := by
  have hiff := queueIncomingWindowRejects_iff channel command hkind hseq
  constructor
  · intro hout
    unfold enet_peer_queue_incoming_command
    rw [hch]
    dsimp only
    by_cases hst : peer.state = ENetPeerState.DISCONNECT_LATER
    · rw [if_pos hst]
      exact queueIncomingDiscard_discarded _ _ _ _
    · rw [if_neg hst, if_pos (hiff.2 hout)]
      exact queueIncomingDiscard_discarded _ _ _ _
  · intro h1 h2
    have hnot : ¬ queueIncomingWindowRejects channel command := by
      rw [hiff]
      omega
    refine ⟨hnot, fun hst skipped hscan => ?_⟩
    unfold enet_peer_queue_incoming_command
    rw [hch]
    dsimp only
    rw [if_neg hst, if_neg hnot, hscan]

/-- Witness of C22: on the sample peer, whose channel expects sequence number 1 in window 0,
a `SEND_RELIABLE` command with sequence number 28672 (window 7) is discarded and one with
sequence number 2 (window 0) is inserted. -/
theorem enet_peer_queue_incoming_command_window_witness :
    QueueIncomingDiscarded sampleHost samplePeer 4
      (enet_peer_queue_incoming_command sampleHost samplePeer (sampleSendReliable 28672)
        (some [1, 2, 3, 4]) 4
        { reliable := true, unsequenced := false, noAllocate := false,
          unreliableFragment := false, sent := false } 0 4) ∧
    enet_peer_queue_incoming_command sampleHost samplePeer (sampleSendReliable 2)
        (some [1, 2, 3, 4]) 4
        { reliable := true, unsequenced := false, noAllocate := false,
          unreliableFragment := false, sent := false } 0 4
      = some (queueIncomingInsert sampleHost samplePeer sampleChannel (sampleSendReliable 2)
          (some [1, 2, 3, 4]) 4
          { reliable := true, unsequenced := false, noAllocate := false,
            unreliableFragment := false, sent := false } 0 0 4) :=
  ⟨(enet_peer_queue_incoming_command_window sampleHost samplePeer (sampleSendReliable 28672)
      (some [1, 2, 3, 4]) 4 _ 0 4 sampleChannel (by decide) (by decide) (by decide)).1
      (by decide),
   ((enet_peer_queue_incoming_command_window sampleHost samplePeer (sampleSendReliable 2)
      (some [1, 2, 3, 4]) 4 _ 0 4 sampleChannel (by decide) (by decide) (by decide)).2
      (by decide) (by decide)).2 (by decide) 0 (by decide)⟩

/-- A sequence number behind the current one lies outside the accepted windows. -/
theorem incomingWindow_of_behind (seq cur : Nat) (hseq : seq < 65536) (hcur : cur < 65536)
    (h : SequenceBehind seq cur) :
    incomingWindow seq cur > cur / ENET_PEER_RELIABLE_WINDOW_SIZE
      + ENET_PEER_FREE_RELIABLE_WINDOWS - 2 := by
  unfold SequenceBehind at h
  unfold incomingWindow ENET_PEER_RELIABLE_WINDOW_SIZE ENET_PEER_FREE_RELIABLE_WINDOWS
    ENET_PEER_RELIABLE_WINDOWS
  split_ifs <;> omega

/-- C24: for every host, peer and channel state, `enet_peer_queue_incoming_command` discards
a `SEND_UNRELIABLE` command (host and peer, and so every queue, stay as they are) in each of
these cases: its reliable window lies outside the accepted windows `c .. c +
FREE_RELIABLE_WINDOWS - 2`; its reliable sequence number is behind the current one of the
channel (up to 32768 steps back in the 16-bit sequence space, which puts it outside the
accepted windows); its reliable sequence number equals `incomingReliableSequenceNumber` and
its unreliable sequence number is at most `incomingUnreliableSequenceNumber`. -/
theorem enet_peer_queue_incoming_command_late_unreliable (host : ENetHost) (peer : ENetPeer)
    (command : ENetProtocol) (data : Option (List Nat)) (dataLength : Nat)
    (flags : ENetPacketFlags) (fragmentCount mem : Nat) (channel : ENetChannel)
    (unreliableSequenceNumber payloadLength : Nat)
    (hch : peer.channels.get? command.channelID = some channel)
    (hkind : command.command &&& ENET_PROTOCOL_COMMAND_MASK
      = ENET_PROTOCOL_COMMAND_SEND_UNRELIABLE)
    (hbody : command.body = .sendUnreliable unreliableSequenceNumber payloadLength)
    (hseq : command.reliableSequenceNumber < 65536)
    (husn : unreliableSequenceNumber < 65536)
    (hcur : channel.incomingReliableSequenceNumber < 65536) :
    ((incomingWindow command.reliableSequenceNumber channel.incomingReliableSequenceNumber
          < currentWindow channel ∨
        incomingWindow command.reliableSequenceNumber channel.incomingReliableSequenceNumber
          > currentWindow channel + ENET_PEER_FREE_RELIABLE_WINDOWS - 2) →
      QueueIncomingDiscarded host peer mem
        (enet_peer_queue_incoming_command host peer command data dataLength flags
          fragmentCount mem)) ∧
    (SequenceBehind command.reliableSequenceNumber channel.incomingReliableSequenceNumber →
      QueueIncomingDiscarded host peer mem
        (enet_peer_queue_incoming_command host peer command data dataLength flags
          fragmentCount mem)) ∧
    (command.reliableSequenceNumber = channel.incomingReliableSequenceNumber →
      unreliableSequenceNumber ≤ channel.incomingUnreliableSequenceNumber →
      QueueIncomingDiscarded host peer mem
        (enet_peer_queue_incoming_command host peer command data dataLength flags
          fragmentCount mem)) := by
  have hsend : IsSequencedSend command := Or.inr (Or.inl hkind)
  have hwin := (enet_peer_queue_incoming_command_window host peer command data dataLength flags
    fragmentCount mem channel hch hsend hseq).1
  refine ⟨hwin, fun hb => hwin (Or.inr (incomingWindow_of_behind _ _ hseq hcur hb)),
    fun he hu => ?_⟩
  unfold enet_peer_queue_incoming_command
  rw [hch]
  dsimp only
  by_cases hst : peer.state = ENetPeerState.DISCONNECT_LATER
  · rw [if_pos hst]
    exact queueIncomingDiscard_discarded _ _ _ _
  · rw [if_neg hst]
    by_cases hrej : queueIncomingWindowRejects channel command
    · rw [if_pos hrej]
      exact queueIncomingDiscard_discarded _ _ _ _
    · rw [if_neg hrej]
      have hscan : queueIncomingScan channel command = InsertScan.discard := by
        unfold queueIncomingScan queueIncomingIsReliable queueIncomingReliableSequenceNumber
          queueIncomingUnreliableSequenceNumber ENetProtocol.unreliableSequenceNumberView
        rw [hkind, hbody]
        have h16 : ENET_NET_TO_HOST_16 unreliableSequenceNumber = unreliableSequenceNumber := by
          unfold ENET_NET_TO_HOST_16 u16; omega
        simp only [h16]
        rw [if_neg (by decide), if_pos (Or.inl trivial)]
        have e1 : (if ENET_PROTOCOL_COMMAND_SEND_UNRELIABLE
            ≠ ENET_PROTOCOL_COMMAND_SEND_UNSEQUENCED then command.reliableSequenceNumber
            else 0) = command.reliableSequenceNumber := if_pos (by decide)
        have e2 : (if True ∨ ENET_PROTOCOL_COMMAND_SEND_UNRELIABLE
            = ENET_PROTOCOL_COMMAND_SEND_UNRELIABLE_FRAGMENT then unreliableSequenceNumber
            else 0) = unreliableSequenceNumber := if_pos (Or.inl trivial)
        rw [e1, e2, if_pos ⟨he, hu⟩]
      rw [hscan]
      exact queueIncomingDiscard_discarded _ _ _ _

/-- Witness of C24: the channel of `sampleAdvancedPeer` stands at reliable sequence number 5
and unreliable sequence number 3; a `SEND_UNRELIABLE` command with the numbers (5, 3) is a
late one, and one with the reliable number 4 is behind. -/
theorem enet_peer_queue_incoming_command_late_unreliable_witness :
    QueueIncomingDiscarded sampleHost sampleAdvancedPeer 4
      (enet_peer_queue_incoming_command sampleHost sampleAdvancedPeer
        (sampleSendUnreliable 5 3) (some [1, 2, 3, 4]) 4
        { reliable := false, unsequenced := false, noAllocate := false,
          unreliableFragment := false, sent := false } 0 4) ∧
    QueueIncomingDiscarded sampleHost sampleAdvancedPeer 4
      (enet_peer_queue_incoming_command sampleHost sampleAdvancedPeer
        (sampleSendUnreliable 4 9) (some [1, 2, 3, 4]) 4
        { reliable := false, unsequenced := false, noAllocate := false,
          unreliableFragment := false, sent := false } 0 4) :=
  ⟨(enet_peer_queue_incoming_command_late_unreliable sampleHost sampleAdvancedPeer
      (sampleSendUnreliable 5 3) (some [1, 2, 3, 4]) 4 _ 0 4
      { sampleChannel with incomingReliableSequenceNumber := 5,
                           incomingUnreliableSequenceNumber := 3 } 3 4
      (by decide) (by decide) rfl (by decide) (by decide) (by decide)).2.2 (by decide)
      (by decide),
   (enet_peer_queue_incoming_command_late_unreliable sampleHost sampleAdvancedPeer
      (sampleSendUnreliable 4 9) (some [1, 2, 3, 4]) 4 _ 0 4
      { sampleChannel with incomingReliableSequenceNumber := 5,
                           incomingUnreliableSequenceNumber := 3 } 9 4
      (by decide) (by decide) rfl (by decide) (by decide) (by decide)).2.1 (by decide)⟩

/-! ## Acknowledgements of commands outside the window -/

/-- C23, as stated, fails for a duplicate: the channel of `sampleAdvancedPeer` stands at
reliable sequence number 5, so a `SEND_RELIABLE` command with the `ACKNOWLEDGE` flag and the
sequence number 3 has the reliable window 16, outside the accepted windows 0 to 6, and is
discarded by `enet_peer_queue_incoming_command`; yet `enet_peer_queue_acknowledgement`
queues its acknowledgement, and so does the processing of the datagram that carries the
command. -/
theorem enet_peer_queue_acknowledgement_duplicate :
    incomingWindow 3 5 = 16 ∧
    currentWindow { sampleChannel with incomingReliableSequenceNumber := 5,
                                       incomingUnreliableSequenceNumber := 3 } = 0 ∧
    QueueIncomingDiscarded sampleAdvancedHost sampleAdvancedPeer 8
      (enet_peer_queue_incoming_command sampleAdvancedHost sampleAdvancedPeer
        (sampleSendReliable 3) (some [1, 2, 3, 4]) 4
        { reliable := true, unsequenced := false, noAllocate := false,
          unreliableFragment := false, sent := false } 0 8) ∧
    (enet_peer_queue_acknowledgement sampleAdvancedPeer (sampleSendReliable 3) 100 8).map
        (fun r => r.1.acknowledgements)
      = some [{ sentTime := 100, command := sampleSendReliable 3 }] ∧
    (enet_protocol_handle_incoming_commands sampleHeader sampleTime id sampleReceive
        sampleAdvancedHost (some sampleEvent) sampleDuplicateDatagram [] 8).map
        (fun r => (r.status, r.host.peers.map fun peer => peer.acknowledgements))
      = some (0, [[{ sentTime := 100, command := sampleSendReliable 3 }]]) ∧
    (enet_protocol_handle_incoming_commands sampleHeader sampleTime id sampleReceive
        sampleAdvancedHost (some sampleEvent) sampleDuplicateDatagram [] 8).map
        (fun r => r.host.peers.map fun peer => (peer.channels, peer.dispatchedCommands))
      = some [(sampleAdvancedPeer.channels, [])] := by
  refine ⟨by decide, by decide, ?_, by decide, by decide, by decide⟩
  exact ⟨_, rfl, rfl, rfl, rfl, Or.inr rfl⟩

/-- C23 (amended): for every peer and every command with a 16-bit sequence number on a valid
channel, let `w` be the reliable window of the command and `c` the current window of the
channel.  If `w` is `c + FREE_RELIABLE_WINDOWS - 1` or `c + FREE_RELIABLE_WINDOWS`,
`enet_peer_queue_acknowledgement` returns NULL and leaves the peer, so
`peer.acknowledgements`, unchanged.  For every other window, when the allocation succeeds,
it appends the acknowledgement to `peer.acknowledgements`: this holds for the accepted
windows and also for the windows above `c + FREE_RELIABLE_WINDOWS` (up to `c + 16`), whose
commands `enet_peer_queue_incoming_command` discards; the duplicates of commands received
before are among them. -/
theorem enet_peer_queue_acknowledgement_window (peer : ENetPeer) (command : ENetProtocol)
    (sentTime mem : Nat) (channel : ENetChannel)
    (hcc : command.channelID < peer.channelCount)
    (hch : peer.channels.get? command.channelID = some channel)
    (hseq : command.reliableSequenceNumber < 65536) :
    (currentWindow channel + ENET_PEER_FREE_RELIABLE_WINDOWS - 1
        ≤ incomingWindow command.reliableSequenceNumber channel.incomingReliableSequenceNumber →
      incomingWindow command.reliableSequenceNumber channel.incomingReliableSequenceNumber
        ≤ currentWindow channel + ENET_PEER_FREE_RELIABLE_WINDOWS →
      enet_peer_queue_acknowledgement peer command sentTime mem = some (peer, mem)) ∧
    ((incomingWindow command.reliableSequenceNumber channel.incomingReliableSequenceNumber
          < currentWindow channel + ENET_PEER_FREE_RELIABLE_WINDOWS - 1 ∨
        currentWindow channel + ENET_PEER_FREE_RELIABLE_WINDOWS
          < incomingWindow command.reliableSequenceNumber
              channel.incomingReliableSequenceNumber) →
      0 < mem →
      enet_peer_queue_acknowledgement peer command sentTime mem
        = some ({ peer with
            outgoingDataTotal := u32 (peer.outgoingDataTotal
              + commandSizes.getD ENET_PROTOCOL_COMMAND_ACKNOWLEDGE 0),
            acknowledgements := peer.acknowledgements
              ++ [{ sentTime := sentTime, command := command }] }, mem - 1)) ∧
    (currentWindow channel + ENET_PEER_FREE_RELIABLE_WINDOWS
        < incomingWindow command.reliableSequenceNumber channel.incomingReliableSequenceNumber →
      ∀ (host : ENetHost) (data : Option (List Nat)) (dataLength : Nat)
        (flags : ENetPacketFlags) (fragmentCount budget : Nat), IsSequencedSend command →
        QueueIncomingDiscarded host peer budget
          (enet_peer_queue_incoming_command host peer command data dataLength flags
            fragmentCount budget)) := by
  have hw := reliableWindowOf_eq command.reliableSequenceNumber
    channel.incomingReliableSequenceNumber hseq
  refine ⟨fun h1 h2 => ?_, fun h hmem => ?_, fun h host data dataLength flags
    fragmentCount budget hkind => ?_⟩
  · unfold enet_peer_queue_acknowledgement
    dsimp only
    rw [if_pos hcc, hch]
    dsimp only
    rw [hw]
    unfold currentWindow at h1 h2
    rw [if_pos ⟨h1, h2⟩]
  · unfold enet_peer_queue_acknowledgement
    dsimp only
    rw [if_pos hcc, hch]
    dsimp only
    rw [hw]
    unfold currentWindow at h
    rw [if_neg (by omega)]
    unfold enet_malloc
    rw [if_neg (by omega)]
  · exact (enet_peer_queue_incoming_command_window host peer command data dataLength flags
      fragmentCount budget channel hch hkind hseq).1
      (Or.inr (by unfold ENET_PEER_FREE_RELIABLE_WINDOWS at h ⊢; omega))

/-- Witness of C23 (amended): on `sampleAdvancedPeer`, whose channel stands in window 0, a
command with the sequence number 28672 (window 7) gets no acknowledgement, and the
duplicate with the sequence number 3 (window 16) gets one. -/
theorem enet_peer_queue_acknowledgement_window_witness :
    enet_peer_queue_acknowledgement sampleAdvancedPeer (sampleSendReliable 28672) 100 8
      = some (sampleAdvancedPeer, 8) ∧
    enet_peer_queue_acknowledgement sampleAdvancedPeer (sampleSendReliable 3) 100 8
      = some ({ sampleAdvancedPeer with
          outgoingDataTotal := u32 (sampleAdvancedPeer.outgoingDataTotal
            + commandSizes.getD ENET_PROTOCOL_COMMAND_ACKNOWLEDGE 0),
          acknowledgements := sampleAdvancedPeer.acknowledgements
            ++ [{ sentTime := 100, command := sampleSendReliable 3 }] }, 8 - 1) :=
  ⟨(enet_peer_queue_acknowledgement_window sampleAdvancedPeer (sampleSendReliable 28672) 100 8
      { sampleChannel with incomingReliableSequenceNumber := 5,
                           incomingUnreliableSequenceNumber := 3 }
      (by decide) (by decide) (by decide)).1 (by decide) (by decide),
   (enet_peer_queue_acknowledgement_window sampleAdvancedPeer (sampleSendReliable 3) 100 8
      { sampleChannel with incomingReliableSequenceNumber := 5,
                           incomingUnreliableSequenceNumber := 3 }
      (by decide) (by decide) (by decide)).2.1 (by decide) (by decide)⟩

/-! ## Timeouts -/

/-- The body of the loop of `enet_protocol_check_timeouts`, branch by branch. -/
theorem enet_protocol_check_timeouts_loop_cons (hdr : ENetHeader) (time : ENetTime)
    (host : ENetHost) (event : Option ENetEvent) (store : PacketStore) (peer : ENetPeer)
    (kept moved : List ENetOutgoingCommand) (c : ENetOutgoingCommand)
    (rest : List ENetOutgoingCommand) :
    enet_protocol_check_timeouts_loop hdr time host event store peer kept moved (c :: rest)
      = if timedOut time host c = false then
          enet_protocol_check_timeouts_loop hdr time host event store peer (kept ++ [c]) moved
            rest
        else if timeoutExceeded time host (timeoutEarliest time peer c) c then
          { status := 1,
            host := (enet_protocol_notify_disconnect hdr host
              { timeoutEarliest time peer c with
                sentReliableCommands := kept ++ c :: rest,
                outgoingCommands := moved ++ (timeoutEarliest time peer c).outgoingCommands }
              event store).1,
            peer := (enet_protocol_notify_disconnect hdr host
              { timeoutEarliest time peer c with
                sentReliableCommands := kept ++ c :: rest,
                outgoingCommands := moved ++ (timeoutEarliest time peer c).outgoingCommands }
              event store).2.1,
            event := (enet_protocol_notify_disconnect hdr host
              { timeoutEarliest time peer c with
                sentReliableCommands := kept ++ c :: rest,
                outgoingCommands := moved ++ (timeoutEarliest time peer c).outgoingCommands }
              event store).2.2.1,
            store := (enet_protocol_notify_disconnect hdr host
              { timeoutEarliest time peer c with
                sentReliableCommands := kept ++ c :: rest,
                outgoingCommands := moved ++ (timeoutEarliest time peer c).outgoingCommands }
              event store).2.2.2 }
        else
          enet_protocol_check_timeouts_loop hdr time host event store
            (timeoutLost (timeoutEarliest time peer c) c kept rest) kept
            (moved ++ [retransmitted c]) rest := by
  rw [enet_protocol_check_timeouts_loop]
  unfold timedOut
  by_cases h : u32 (time.ENET_TIME_DIFFERENCE host.serviceTime c.sentTime) < c.roundTripTimeout
  · rw [if_pos h, if_pos (decide_eq_false (by omega))]
  · have hd : ¬ (decide (u32 (time.ENET_TIME_DIFFERENCE host.serviceTime c.sentTime)
        ≥ c.roundTripTimeout) = false) := by
      rw [decide_eq_true (by omega)]
      exact Bool.noConfusion
    rw [if_neg h, if_neg hd]
    rfl

/-- What `enet_protocol_check_timeouts` has done when its loop ends with the status 0, for
the commands `rest` that the loop had still to visit. -/
theorem enet_protocol_check_timeouts_loop_moves (hdr : ENetHeader) (time : ENetTime)
    (host : ENetHost) (event : Option ENetEvent) (store : PacketStore) :
    ∀ (rest : List ENetOutgoingCommand) (peer : ENetPeer)
      (kept moved : List ENetOutgoingCommand),
      (enet_protocol_check_timeouts_loop hdr time host event store peer kept moved
        rest).status = 0 →
      peer.packetsLost < 4294967296 → peer.reliableDataInTransit < 4294967296 →
      dataInTransit (rest.filter (timedOut time host)) ≤ peer.reliableDataInTransit →
      (enet_protocol_check_timeouts_loop hdr time host event store peer kept moved
          rest).host = host ∧
      (enet_protocol_check_timeouts_loop hdr time host event store peer kept moved
          rest).peer.sentReliableCommands
        = kept ++ rest.filter (fun c => !timedOut time host c) ∧
      (enet_protocol_check_timeouts_loop hdr time host event store peer kept moved
          rest).peer.outgoingCommands
        = moved ++ (rest.filter (timedOut time host)).map retransmitted
            ++ peer.outgoingCommands ∧
      (enet_protocol_check_timeouts_loop hdr time host event store peer kept moved
          rest).peer.packetsLost
        = (peer.packetsLost + (rest.filter (timedOut time host)).length) % 4294967296 ∧
      (enet_protocol_check_timeouts_loop hdr time host event store peer kept moved
          rest).peer.reliableDataInTransit
        = peer.reliableDataInTransit - dataInTransit (rest.filter (timedOut time host)) := by
  intro rest
  induction rest with
  | nil =>
    intro peer kept moved _ hl _ _
    unfold enet_protocol_check_timeouts_loop
    refine ⟨rfl, ?_, ?_, ?_, ?_⟩
    · simp
    · simp
    · simp only [List.filter_nil, List.length_nil, Nat.add_zero]
      exact (Nat.mod_eq_of_lt hl).symm
    · simp [dataInTransit]
  | cons c rest ih =>
    intro peer kept moved h0 hl hd hsum
    rw [enet_protocol_check_timeouts_loop_cons] at h0 ⊢
    by_cases ht : timedOut time host c = false
    · rw [if_pos ht] at h0 ⊢
      have hf : (c :: rest).filter (timedOut time host) = rest.filter (timedOut time host) := by
        rw [List.filter_cons, ht]; rfl
      have hg : (c :: rest).filter (fun c => !timedOut time host c)
          = c :: rest.filter (fun c => !timedOut time host c) := by
        rw [List.filter_cons, ht]; rfl
      rw [hf] at hsum ⊢
      rw [hg]
      obtain ⟨h1, h2, h3, h4, h5⟩ := ih peer (kept ++ [c]) moved h0 hl hd hsum
      refine ⟨h1, ?_, h3, h4, h5⟩
      rw [h2, List.append_assoc]
      rfl
    · rw [if_neg ht] at h0 ⊢
      have ht1 : timedOut time host c = true := by
        cases hb : timedOut time host c
        · exact absurd hb ht
        · rfl
      by_cases hx : timeoutExceeded time host (timeoutEarliest time peer c) c
      · rw [if_pos hx] at h0
        cases h0
      · rw [if_neg hx] at h0 ⊢
        have hf : (c :: rest).filter (timedOut time host)
            = c :: rest.filter (timedOut time host) := by
          rw [List.filter_cons, ht1]; rfl
        have hg : (c :: rest).filter (fun c => !timedOut time host c)
            = rest.filter (fun c => !timedOut time host c) := by
          rw [List.filter_cons, ht1]; rfl
        rw [hf] at hsum ⊢
        rw [hg]
        have he : (timeoutEarliest time peer c).outgoingCommands = peer.outgoingCommands ∧
            (timeoutEarliest time peer c).packetsLost = peer.packetsLost ∧
            (timeoutEarliest time peer c).reliableDataInTransit
              = peer.reliableDataInTransit := by
          unfold timeoutEarliest
          split <;> exact ⟨rfl, rfl, rfl⟩
        have hlost : (timeoutLost (timeoutEarliest time peer c) c kept rest).outgoingCommands
              = peer.outgoingCommands ∧
            (timeoutLost (timeoutEarliest time peer c) c kept rest).packetsLost
              = u32 (peer.packetsLost + 1) ∧
            (timeoutLost (timeoutEarliest time peer c) c kept rest).reliableDataInTransit
              = (if c.packet ≠ none then
                  u32 (peer.reliableDataInTransit + 4294967296 - c.fragmentLength)
                 else peer.reliableDataInTransit) := by
          rw [← he.1, ← he.2.1, ← he.2.2]
          generalize timeoutEarliest time peer c = p
          unfold timeoutLost
          dsimp only
          refine ⟨?_, ?_, ?_⟩
          · split <;> split <;> rfl
          · split <;> split <;> rfl
          · split <;> split <;> rfl
        simp only [dataInTransit] at hsum
        have hd1 : (timeoutLost (timeoutEarliest time peer c) c kept rest).reliableDataInTransit
            = peer.reliableDataInTransit
              - (if c.packet ≠ none then c.fragmentLength else 0) := by
          rw [hlost.2.2]
          by_cases hk : c.packet ≠ none
          · rw [if_pos hk] at hsum ⊢
            rw [if_pos hk]
            unfold u32
            omega
          · rw [if_neg hk] at hsum ⊢
            rw [if_neg hk]
            rfl
        obtain ⟨h1, h2, h3, h4, h5⟩ := ih
          (timeoutLost (timeoutEarliest time peer c) c kept rest) kept
          (moved ++ [retransmitted c]) h0
          (by rw [hlost.2.1]; unfold u32; omega)
          (by rw [hd1]; omega)
          (by rw [hd1]; omega)
        refine ⟨h1, h2, ?_, ?_, ?_⟩
        · rw [h3, hlost.1]
          simp
        · rw [h4, hlost.2.1]
          unfold u32
          simp only [List.length_cons]
          omega
        · rw [h5, hd1]
          simp only [dataInTransit]
          omega

/-- C30: when `enet_protocol_check_timeouts` returns 0, the commands of
`sentReliableCommands` whose age `ENET_TIME_DIFFERENCE (serviceTime, sentTime)` is at least
their `roundTripTimeout` have left that list, which keeps the other commands in their order;
`outgoingCommands` starts with the commands that have left, in their order and each with its
`roundTripTimeout` doubled (in 32 bits), followed by the commands that were there before;
`packetsLost` has grown by the number of commands moved (in 32 bits) and
`reliableDataInTransit` has shrunk by the sum of `fragmentLength` of the moved commands that
carry a packet.  The counters are 32-bit values and `reliableDataInTransit` is at least the
data of the commands that have timed out (it is the data of all sent commands by the
invariant of the data in transit). -/
theorem enet_protocol_check_timeouts_moves (hdr : ENetHeader) (time : ENetTime)
    (host : ENetHost) (peer : ENetPeer) (event : Option ENetEvent) (store : PacketStore)
    (h0 : (enet_protocol_check_timeouts hdr time host peer event store).status = 0)
    (hl : peer.packetsLost < 4294967296) (hd : peer.reliableDataInTransit < 4294967296)
    (hsum : dataInTransit (peer.sentReliableCommands.filter (timedOut time host))
      ≤ peer.reliableDataInTransit) :
    (enet_protocol_check_timeouts hdr time host peer event store).host = host ∧
    (enet_protocol_check_timeouts hdr time host peer event store).peer.sentReliableCommands
      = peer.sentReliableCommands.filter (fun c => !timedOut time host c) ∧
    (enet_protocol_check_timeouts hdr time host peer event store).peer.outgoingCommands
      = (peer.sentReliableCommands.filter (timedOut time host)).map retransmitted
          ++ peer.outgoingCommands ∧
    (enet_protocol_check_timeouts hdr time host peer event store).peer.packetsLost
      = (peer.packetsLost + (peer.sentReliableCommands.filter (timedOut time host)).length)
          % 4294967296 ∧
    (enet_protocol_check_timeouts hdr time host peer event store).peer.reliableDataInTransit
      = peer.reliableDataInTransit
          - dataInTransit (peer.sentReliableCommands.filter (timedOut time host)) := by
  unfold enet_protocol_check_timeouts at h0 ⊢
  obtain ⟨h1, h2, h3, h4, h5⟩ := enet_protocol_check_timeouts_loop_moves hdr time host event
    store peer.sentReliableCommands peer [] [] h0 hl hd hsum
  refine ⟨h1, ?_, ?_, h4, h5⟩
  · rw [h2]; rfl
  · rw [h3]; rfl

/-- Witness of C30: the reliable command of `sampleWaiting`, sent at time 1000 with a
timeout of 500, has timed out at the service time 1600; it is put in front of the waiting
`PING` with a timeout of 1000, `packetsLost` becomes 1 and `reliableDataInTransit` 0. -/
theorem enet_protocol_check_timeouts_moves_witness :
    (enet_protocol_check_timeouts sampleHeader sampleTime
        { sampleInTransit.host with serviceTime := 1600 } sampleWaiting none
        sampleInTransit.store).peer.sentReliableCommands = [] ∧
    (enet_protocol_check_timeouts sampleHeader sampleTime
        { sampleInTransit.host with serviceTime := 1600 } sampleWaiting none
        sampleInTransit.store).peer.outgoingCommands
      = sampleWaiting.sentReliableCommands.map retransmitted
          ++ sampleWaiting.outgoingCommands ∧
    ((enet_protocol_check_timeouts sampleHeader sampleTime
        { sampleInTransit.host with serviceTime := 1600 } sampleWaiting none
        sampleInTransit.store).peer.outgoingCommands.map fun c => c.roundTripTimeout)
      = [1000, 0] ∧
    (enet_protocol_check_timeouts sampleHeader sampleTime
        { sampleInTransit.host with serviceTime := 1600 } sampleWaiting none
        sampleInTransit.store).peer.packetsLost = 1 ∧
    (enet_protocol_check_timeouts sampleHeader sampleTime
        { sampleInTransit.host with serviceTime := 1600 } sampleWaiting none
        sampleInTransit.store).peer.reliableDataInTransit = 0 := by
  have h := enet_protocol_check_timeouts_moves sampleHeader sampleTime
    { sampleInTransit.host with serviceTime := 1600 } sampleWaiting none sampleInTransit.store
    (by decide) (by decide) (by decide) (by decide)
  refine ⟨?_, ?_, by decide, ?_, ?_⟩
  · rw [h.2.1]; decide
  · rw [h.2.2.1]; decide
  · rw [h.2.2.2.1]; decide
  · rw [h.2.2.2.2]; decide

/-! ## Timeout of a command at its first transmission -/

/-- What `sendReliableCommand` appends to `sentReliableCommands`, and the fields of the peer
that it leaves. -/
theorem sendReliableCommand_transmitted (st : CheckOutgoingState) (c : ENetOutgoingCommand)
    (channel : Option ENetChannel) (reliableWindow : Nat) :
    (sendReliableCommand st c channel reliableWindow).1.peer.sentReliableCommands
      = st.peer.sentReliableCommands
        ++ [transmitted st.peer.roundTripTime st.peer.roundTripTimeVariance st.peer.timeoutLimit
              st.host.serviceTime c] ∧
    (sendReliableCommand st c channel reliableWindow).1.peer.roundTripTime
      = st.peer.roundTripTime ∧
    (sendReliableCommand st c channel reliableWindow).1.peer.roundTripTimeVariance
      = st.peer.roundTripTimeVariance ∧
    (sendReliableCommand st c channel reliableWindow).1.peer.timeoutLimit
      = st.peer.timeoutLimit ∧
    (sendReliableCommand st c channel reliableWindow).1.peer.state = st.peer.state := by
  unfold sendReliableCommand transmitted u16 u32
  dsimp only
  by_cases h0 : c.roundTripTimeout = 0
  · rw [if_pos h0, if_pos h0, if_pos h0]
    repeat' split
    all_goals exact ⟨rfl, rfl, rfl, rfl, rfl⟩
  · rw [if_neg h0, if_neg h0, if_neg h0]
    repeat' split
    all_goals exact ⟨rfl, rfl, rfl, rfl, rfl⟩

/-- The loop of `enet_protocol_check_outgoing_commands` appends to `sentReliableCommands`
only commands with the `ACKNOWLEDGE` flag of the commands it visits, as `transmitted` leaves
them, and keeps the estimator, the timeout limit and the state of the peer. -/
theorem enet_protocol_check_outgoing_commands_loop_transmitted (hdr : ENetHeader)
    (peer : ENetPeer) (rest : List ENetOutgoingCommand) (st : CheckOutgoingState)
    (r : CheckOutgoingState × List ENetOutgoingCommand)
    (hst : st.peer = peer)
    (h : enet_protocol_check_outgoing_commands_loop hdr st rest = some r) :
    r.1.peer.state = peer.state ∧
    TransmittedFrom peer peer.sentReliableCommands rest r.1.peer.sentReliableCommands := by
  have key := enet_protocol_check_outgoing_commands_loop_induct hdr
    (fun p _ _ l => p.roundTripTime = peer.roundTripTime ∧
      p.roundTripTimeVariance = peer.roundTripTimeVariance ∧
      p.timeoutLimit = peer.timeoutLimit ∧ p.state = peer.state ∧
      (∀ c ∈ l, c ∈ rest) ∧
      TransmittedFrom peer peer.sentReliableCommands rest p.sentReliableCommands)
    (fun p p1 k d l hq hf => by
      have h1 : p1.roundTripTime = p.roundTripTime := by
        have := congrArg (fun q : ENetPeer => q.roundTripTime) hf
        exact this
      have h2 : p1.roundTripTimeVariance = p.roundTripTimeVariance := by
        have := congrArg (fun q : ENetPeer => q.roundTripTimeVariance) hf
        exact this
      have h3 : p1.timeoutLimit = p.timeoutLimit := by
        have := congrArg (fun q : ENetPeer => q.timeoutLimit) hf
        exact this
      have h4 : p1.state = p.state := by
        have := congrArg (fun q : ENetPeer => q.state) hf
        exact this
      have h5 : p1.sentReliableCommands = p.sentReliableCommands := by
        have := congrArg (fun q : ENetPeer => q.sentReliableCommands) hf
        exact this
      show p1.roundTripTime = _ ∧ p1.roundTripTimeVariance = _ ∧ p1.timeoutLimit = _ ∧
        p1.state = _ ∧ _ ∧ TransmittedFrom peer _ rest p1.sentReliableCommands
      rw [h1, h2, h3, h4, h5]
      exact hq)
    (fun p k c l hq => ⟨hq.1, hq.2.1, hq.2.2.1, hq.2.2.2.1,
      fun x hx => hq.2.2.2.2.1 x (List.mem_cons_of_mem _ hx), hq.2.2.2.2.2⟩)
    (fun p k d l hq => hq)
    (fun p k c l hq _ => ⟨hq.1, hq.2.1, hq.2.2.1, hq.2.2.2.1,
      fun x hx => hq.2.2.2.2.1 x (List.mem_cons_of_mem _ hx), hq.2.2.2.2.2⟩)
    (fun st1 c l hq hack _ _ => by
      obtain ⟨q1, q2, q3, q4, q5, sentNow, q6, q7⟩ := hq
      obtain ⟨s1, s2, s3, s4, s5⟩ := sendReliableCommand_transmitted st1 c (channelFor st1.peer c)
        (u16 (c.reliableSequenceNumber / ENET_PEER_RELIABLE_WINDOW_SIZE))
      refine ⟨s2.trans q1, s3.trans q2, s4.trans q3, s5.trans q4,
        fun x hx => q5 x (List.mem_cons_of_mem _ hx), ?_⟩
      refine ⟨sentNow ++ [transmitted st1.peer.roundTripTime st1.peer.roundTripTimeVariance
        st1.peer.timeoutLimit st1.host.serviceTime c], ?_, ?_⟩
      · rw [s1, q6, List.append_assoc]
      · intro c1 hc1
        rcases List.mem_append.1 hc1 with hm | hm
        · exact q7 c1 hm
        · rw [List.mem_singleton] at hm
          refine ⟨c, q5 c (List.mem_cons_self _ _), hack, ?_⟩
          rw [hm, q1, q2, q3]
          rfl)
    (fun p k c l hq _ _ => ⟨hq.1, hq.2.1, hq.2.2.1, hq.2.2.2.1,
      fun x hx => hq.2.2.2.2.1 x (List.mem_cons_of_mem _ hx), hq.2.2.2.2.2⟩)
    (fun p k c l hq _ => ⟨hq.1, hq.2.1, hq.2.2.1, hq.2.2.2.1,
      fun x hx => hq.2.2.2.2.1 x (List.mem_cons_of_mem _ hx), hq.2.2.2.2.2⟩)
    rest st r
    (by
      rw [hst]
      exact ⟨rfl, rfl, rfl, rfl, fun _ hx => hx, [], (List.append_nil _).symm,
        (fun _ hp => nomatch hp)⟩)
    h
  exact ⟨key.2.2.2.1, key.2.2.2.2.2⟩

/-- `enet_peer_disconnect` on a peer with nothing in `sentReliableCommands` leaves nothing
there. -/
theorem enet_peer_disconnect_sent (hdr : ENetHeader)
    (flush : ENetHost × ENetPeer × PacketStore → ENetHost × ENetPeer × PacketStore)
    (host : ENetHost) (peer : ENetPeer) (store : PacketStore) (data mem : Nat)
    (hsent : peer.sentReliableCommands = []) :
    (enet_peer_disconnect hdr flush host peer store data mem).peer.sentReliableCommands
      = [] := by
  unfold enet_peer_disconnect
  split
  · exact hsent
  · obtain ⟨-, hq2⟩ := enet_peer_reset_queues_keeps host peer store
    have hq : (enet_peer_reset_queues host peer store).2.1.sentReliableCommands = [] := by
      rw [hq2]
    generalize enet_peer_reset_queues host peer store = rq at hq ⊢
    obtain ⟨host1, peer1, store1⟩ := rq
    dsimp only at hq ⊢
    have hreset : ∀ (h : ENetHost) (p : ENetPeer) (s : PacketStore),
        (enet_peer_reset hdr h p s).2.1.sentReliableCommands = [] :=
      fun h p s => (enet_peer_reset_empties hdr h p s).2.1
    cases hqr : enet_peer_queue_outgoing_command peer1
        { command := ENET_PROTOCOL_COMMAND_DISCONNECT |||
            (if decide (peer1.state = ENetPeerState.CONNECTED ∨
                peer1.state = ENetPeerState.DISCONNECT_LATER) = true then
              ENET_PROTOCOL_COMMAND_FLAG_ACKNOWLEDGE
             else ENET_PROTOCOL_COMMAND_FLAG_UNSEQUENCED),
          channelID := 0xFF, reliableSequenceNumber := 0,
          body := .disconnect (ENET_HOST_TO_NET_32 data) } none none 0 0 mem with
    | none =>
      dsimp only
      split
      · exact hq
      · generalize flush (host1, peer1, store1) = fl
        obtain ⟨host2, peer2, store2⟩ := fl
        exact hreset host2 peer2 store2
    | some r =>
      obtain ⟨hs, -⟩ := enet_peer_queue_outgoing_command_data _ _ _ _ _ _ _ _ hqr
      dsimp only
      split
      · show r.peer.sentReliableCommands = []
        rw [hs]
        exact hq
      · generalize flush (host1, r.peer, store1) = fl
        obtain ⟨host2, peer2, store2⟩ := fl
        exact hreset host2 peer2 store2

/-- C29: for every run of `enet_protocol_check_outgoing_commands`, `sentReliableCommands`
afterwards is the list before followed by
commands that the run has transmitted; each of them comes from a command of
`outgoingCommands` with the `ACKNOWLEDGE` flag and differs from it in `sendAttempts`,
`sentTime` and, when its `roundTripTimeout` was 0 (first transmission), in `roundTripTimeout
= peer.roundTripTime + 4 * peer.roundTripTimeVariance` and `roundTripTimeoutLimit =
peer.timeoutLimit * roundTripTimeout` (32-bit arithmetic); when its `roundTripTimeout` was
not 0 (retransmission) both values are as before. -/
theorem enet_protocol_check_outgoing_commands_timeouts (hdr : ENetHeader)
    (flush : ENetHost × ENetPeer × PacketStore → ENetHost × ENetPeer × PacketStore)
    (host : ENetHost) (peer : ENetPeer) (store : PacketStore) (mem : Nat)
    (r : CheckOutgoingResult)
    (h : enet_protocol_check_outgoing_commands hdr flush host peer store mem = some r) :
    TransmittedFrom peer peer.sentReliableCommands peer.outgoingCommands
      r.peer.sentReliableCommands := by
  unfold enet_protocol_check_outgoing_commands at h
  dsimp only at h
  split at h
  · cases h
  · rename_i st rest hloop
    obtain ⟨hs, ht⟩ := enet_protocol_check_outgoing_commands_loop_transmitted hdr peer
      peer.outgoingCommands _ (st, rest) rfl hloop
    split at h
    · rename_i hc
      cases h
      obtain ⟨sentNow, hnow, -⟩ := ht
      have he : st.peer.sentReliableCommands = [] := hc.2.2.1
      rw [he] at hnow
      have hp : peer.sentReliableCommands = [] := (List.append_eq_nil.1 hnow.symm).1
      refine ⟨[], ?_, (fun _ hx => nomatch hx)⟩
      rw [hp]
      exact enet_peer_disconnect_sent hdr flush _ _ _ _ _ he
    · cases h
      exact ht

/-- Witness of C29: the sample peer (`roundTripTime = 500`, variance 0, `timeoutLimit = 32`)
sends its queued reliable command for the first time: the timeout becomes 500 and the limit
16000. -/
theorem enet_protocol_check_outgoing_commands_timeouts_witness :
    TransmittedFrom sampleSmallSent.peer sampleSmallSent.peer.sentReliableCommands
      sampleSmallSent.peer.outgoingCommands sampleInTransit.peer.sentReliableCommands ∧
    (sampleSmallSent.peer.outgoingCommands.map fun c =>
      (c.roundTripTimeout, c.roundTripTimeoutLimit)) = [(0, 0)] ∧
    (sampleInTransit.peer.sentReliableCommands.map fun c =>
      (c.roundTripTimeout, c.roundTripTimeoutLimit)) = [(500, 16000)] :=
  ⟨enet_protocol_check_outgoing_commands_timeouts sampleHeader id sampleHost
      sampleSmallSent.peer [(0, sampleSmallSent.packet)] sampleSmallSent.mem sampleInTransit
      (by decide),
   by decide, by decide⟩

/-! ## The dispatch queue and the `NEEDS_DISPATCH` flag -/

/-- The linking block keeps a peer linked exactly when flagged, and at most once. -/
theorem linkDispatch_linked (host : ENetHost) (peer : ENetPeer)
    (h : DispatchLinked host peer) :
    DispatchLinked (linkDispatch host peer).1 (linkDispatch host peer).2 := by
  unfold linkDispatch
  cases hf : peer.needsDispatch
  · obtain ⟨hiff, -⟩ := h
    have hnot : peer.incomingPeerID ∉ host.dispatchQueue := by
      intro hm
      have := hiff.mp hm
      rw [hf] at this
      cases this
    simp only [Bool.not_false, if_true]
    refine ⟨⟨fun _ => rfl, fun _ => ?_⟩, ?_⟩
    · exact List.mem_append_right _ (List.mem_singleton_self _)
    · show (host.dispatchQueue ++ [peer.incomingPeerID]).count peer.incomingPeerID ≤ 1
      rw [List.count_append, List.count_eq_zero_of_not_mem hnot]
      simp
  · simp only [Bool.not_true, Bool.false_eq_true, if_false]
    exact h

/-- The function `enet_protocol_dispatch_state` keeps a peer linked exactly when flagged, and
at most once. -/
theorem enet_protocol_dispatch_state_linked (host : ENetHost) (peer : ENetPeer)
    (state : ENetPeerState) (h : DispatchLinked host peer) :
    DispatchLinked (enet_protocol_dispatch_state host peer state).1
      (enet_protocol_dispatch_state host peer state).2 := by
  unfold enet_protocol_dispatch_state
  apply linkDispatch_linked
  have hq : (enet_protocol_change_state host peer state).1.dispatchQueue
      = host.dispatchQueue := by
    unfold enet_protocol_change_state
    dsimp only
    split_ifs
    · unfold enet_peer_on_connect
      split_ifs <;> rfl
    · exact (enet_peer_on_disconnect_keeps host peer).1
  show DispatchLinked (enet_protocol_change_state host peer state).1
    { peer with state := state }
  unfold DispatchLinked at h ⊢
  rw [hq]
  exact h

/-- Called directly, `enet_peer_reset_queues` keeps a peer linked exactly when flagged, and
at most once: it takes a flagged peer off the queue. -/
theorem enet_peer_reset_queues_linked (host : ENetHost) (peer : ENetPeer)
    (store : PacketStore) (h : DispatchLinked host peer) :
    DispatchLinked (enet_peer_reset_queues host peer store).1
      (enet_peer_reset_queues host peer store).2.1 := by
  rw [(enet_peer_reset_queues_keeps host peer store).1,
    (enet_peer_reset_queues_keeps host peer store).2]
  obtain ⟨hiff, hc⟩ := h
  cases hf : peer.needsDispatch
  · simp only [Bool.false_eq_true, if_false]
    refine ⟨⟨fun hm => ?_, fun hm => by cases hm⟩, hc⟩
    have := hiff.mp hm
    rw [hf] at this
    exact this
  · simp only [if_true]
    have h0 : (host.dispatchQueue.erase peer.incomingPeerID).count peer.incomingPeerID = 0 := by
      rw [List.count_erase_self]
      omega
    refine ⟨⟨fun hm => ?_, fun hm => by cases hm⟩, ?_⟩
    · exact absurd hm (List.count_eq_zero.mp h0)
    · show (host.dispatchQueue.erase peer.incomingPeerID).count peer.incomingPeerID ≤ 1
      omega

/-- C21: the invariant "linked on `host.dispatchQueue` exactly when `NEEDS_DISPATCH` is set,
and at most once" is not kept by `enet_peer_reset` on a peer whose flag is set.  The function
assigns `peer -> flags = 0` before it calls `enet_peer_reset_queues`, whose test of the flag
then fails: for every peer the dispatch queue is left as it was and the flag is clear.  On
the sample peer, which is linked with its flag set, the invariant holds before
`enet_peer_reset` and fails after it (the slot is still on the queue, the flag is clear),
also when the reset comes from `enet_protocol_notify_disconnect` with an event; the same
peer given to `enet_peer_reset_queues` directly is taken off the queue; and a following
`enet_protocol_dispatch_state` executes its insertion on the node that is still linked, the
slot then standing twice in the list of the model. -/
theorem enet_peer_reset_leaves_flagged_peer_linked :
    (∀ (hdr : ENetHeader) (host : ENetHost) (peer : ENetPeer) (store : PacketStore),
      (enet_peer_reset hdr host peer store).1.dispatchQueue = host.dispatchQueue ∧
      (enet_peer_reset hdr host peer store).2.1.needsDispatch = false) ∧
    sampleReceivingHost.peers = [sampleReceivingPeer] ∧
    DispatchLinked sampleReceivingHost sampleReceivingPeer ∧
    (enet_peer_reset sampleHeader sampleReceivingHost sampleReceivingPeer []).1.dispatchQueue
      = [0] ∧
    (enet_peer_reset sampleHeader sampleReceivingHost sampleReceivingPeer []).2.1.incomingPeerID
      = 0 ∧
    (enet_peer_reset sampleHeader sampleReceivingHost sampleReceivingPeer []).2.1.needsDispatch
      = false ∧
    ¬ DispatchLinked
        (enet_peer_reset sampleHeader sampleReceivingHost sampleReceivingPeer []).1
        (enet_peer_reset sampleHeader sampleReceivingHost sampleReceivingPeer []).2.1 ∧
    ¬ DispatchLinked
        (enet_protocol_notify_disconnect sampleHeader sampleReceivingHost sampleReceivingPeer
          (some sampleEvent) []).1
        (enet_protocol_notify_disconnect sampleHeader sampleReceivingHost sampleReceivingPeer
          (some sampleEvent) []).2.1 ∧
    (enet_peer_reset_queues sampleReceivingHost sampleReceivingPeer []).1.dispatchQueue = [] ∧
    DispatchLinked
        (enet_peer_reset_queues sampleReceivingHost sampleReceivingPeer []).1
        (enet_peer_reset_queues sampleReceivingHost sampleReceivingPeer []).2.1 ∧
    (enet_protocol_dispatch_state
        (enet_peer_reset sampleHeader sampleReceivingHost sampleReceivingPeer []).1
        (enet_peer_reset sampleHeader sampleReceivingHost sampleReceivingPeer []).2.1
        ENetPeerState.CONNECTION_SUCCEEDED).1.dispatchQueue = [0, 0] := by
  refine ⟨?_, rfl, by decide, by decide, by decide, by decide, by decide, by decide,
    by decide, by decide, by decide⟩
  intro hdr host peer store
  refine ⟨?_, ?_⟩
  · rw [(enet_peer_reset_keeps hdr host peer store).1]
    exact (enet_peer_on_disconnect_keeps host peer).1
  · unfold enet_peer_reset
    dsimp only
    rw [(enet_peer_reset_queues_keeps _ _ _).2]

/-! ## The order of the incoming reliable queue -/

/-- A search that ends behind `k` nodes after a `continue` ended behind `k - 1` nodes. -/
theorem InsertScan.skip_eq_after (s : InsertScan) (k : Nat) (h : s.skip = .after k) :
    ∃ j, s = .after j ∧ k = j + 1 := by
  cases s with
  | discard => cases h
  | after j =>
    refine ⟨j, rfl, ?_⟩
    have h2 : InsertScan.after (j + 1) = InsertScan.after k := h
    injection h2 with h3
    exact h3.symm

/-- A queue in strictly increasing order holds no sequence number twice. -/
theorem reliableIncreasing_of_pairwise {inc : Nat} {cmds : List ENetIncomingCommand}
    (hlt : cmds.Pairwise (fun a b =>
      windowKey inc a.reliableSequenceNumber < windowKey inc b.reliableSequenceNumber)) :
    ReliableIncreasing inc cmds := by
  refine ⟨hlt, ?_⟩
  unfold List.Nodup
  rw [List.pairwise_map]
  refine hlt.imp ?_
  intro a b hab heq
  rw [heq] at hab
  omega

/-- Disjoint sequence ranges give the strict order of the sequence numbers. -/
theorem ReliableRanges.increasing {inc : Nat} {cmds : List ENetIncomingCommand}
    (h : ReliableRanges inc cmds) : ReliableIncreasing inc cmds := by
  obtain ⟨-, hp⟩ := h
  refine reliableIncreasing_of_pairwise (hp.imp ?_)
  intro a b hab
  unfold rangeBefore at hab
  omega

/-- On an ordered queue the backwards search stops between the nodes that are before and
the nodes that are behind the new sequence number. -/
theorem reliableInsertScan_after (rsn inc : Nat) (hrsn : rsn < 65536) :
    ∀ (rev : List ENetIncomingCommand) (k : Nat),
      (∀ c ∈ rev, c.reliableSequenceNumber < 65536) →
      rev.Pairwise (fun a b =>
        windowKey inc b.reliableSequenceNumber ≤ windowKey inc a.reliableSequenceNumber) →
      reliableInsertScan rsn inc rev = .after k →
      k ≤ rev.length ∧
      (∀ c ∈ rev.take k, windowKey inc rsn < windowKey inc c.reliableSequenceNumber) ∧
      (∀ c ∈ rev.drop k, windowKey inc c.reliableSequenceNumber < windowKey inc rsn) := by
  intro rev
  induction rev with
  | nil =>
    intro k _ _ h
    unfold reliableInsertScan at h
    injection h with h
    subst h
    exact ⟨Nat.le_refl _, by simp, by simp⟩
  | cons ic before ih =>
    intro k hb hp h
    rw [List.pairwise_cons] at hp
    obtain ⟨hhead, htail⟩ := hp
    have hb' : ∀ c ∈ before, c.reliableSequenceNumber < 65536 :=
      fun c hc => hb c (List.mem_cons_of_mem _ hc)
    have hicb := hb ic (List.mem_cons_self _ _)
    unfold reliableInsertScan at h
    have hskip : windowKey inc rsn < windowKey inc ic.reliableSequenceNumber →
        (reliableInsertScan rsn inc before).skip = .after k →
        k ≤ (ic :: before).length ∧
        (∀ c ∈ (ic :: before).take k,
          windowKey inc rsn < windowKey inc c.reliableSequenceNumber) ∧
        (∀ c ∈ (ic :: before).drop k,
          windowKey inc c.reliableSequenceNumber < windowKey inc rsn) := by
      intro hk hs
      obtain ⟨j, hj, rfl⟩ := InsertScan.skip_eq_after _ _ hs
      obtain ⟨i1, i2, i3⟩ := ih j hb' htail hj
      refine ⟨by simp only [List.length_cons]; omega, ?_, ?_⟩
      · intro c hc
        rw [List.take_succ_cons] at hc
        rcases List.mem_cons.mp hc with h | h
        · rw [h]; exact hk
        · exact i2 c h
      · intro c hc
        rw [List.drop_succ_cons] at hc
        exact i3 c hc
    have hstop : windowKey inc ic.reliableSequenceNumber < windowKey inc rsn →
        InsertScan.after 0 = .after k →
        k ≤ (ic :: before).length ∧
        (∀ c ∈ (ic :: before).take k,
          windowKey inc rsn < windowKey inc c.reliableSequenceNumber) ∧
        (∀ c ∈ (ic :: before).drop k,
          windowKey inc c.reliableSequenceNumber < windowKey inc rsn) := by
      intro hk hs
      injection hs with hs
      subst hs
      refine ⟨Nat.zero_le _, by simp, ?_⟩
      intro c hc
      rw [List.drop_zero] at hc
      rcases List.mem_cons.mp hc with h | h
      · rw [h]; exact hk
      · exact Nat.lt_of_le_of_lt (hhead c h) hk
    by_cases h1 : rsn ≥ inc ∧ ic.reliableSequenceNumber < inc
    · rw [if_pos h1] at h
      exact hskip (by unfold windowKey; split <;> split <;> omega) h
    · rw [if_neg h1] at h
      by_cases h2 : ¬ rsn ≥ inc ∧ ic.reliableSequenceNumber ≥ inc
      · rw [if_pos h2] at h
        exact hstop (by unfold windowKey; split <;> split <;> omega) h
      · rw [if_neg h2] at h
        by_cases h3 : ic.reliableSequenceNumber ≤ rsn
        · rw [if_pos h3] at h
          by_cases h4 : ic.reliableSequenceNumber < rsn
          · rw [if_pos h4] at h
            exact hstop (by unfold windowKey; split <;> split <;> omega) h
          · rw [if_neg h4] at h
            cases h
        · rw [if_neg h3] at h
          exact hskip (by unfold windowKey; split <;> split <;> omega) h

/-- Linking a command behind the node that the backwards search stopped at keeps the
sequence ranges in order, when the numbers of the new command and of every queued command
do not overlap. -/
theorem reliableRanges_insert (inc : Nat) (queue : List ENetIncomingCommand)
    (incomingCommand : ENetIncomingCommand) (k : Nat)
    (hseq : incomingCommand.reliableSequenceNumber < 65536)
    (hr : ReliableRanges inc queue)
    (hnew : ∀ c ∈ queue,
      c.reliableSequenceNumber = incomingCommand.reliableSequenceNumber ∨
      rangeBefore inc c.reliableSequenceNumber c.fragmentCount
        incomingCommand.reliableSequenceNumber ∨
      rangeBefore inc incomingCommand.reliableSequenceNumber incomingCommand.fragmentCount
        c.reliableSequenceNumber)
    (hscan : reliableInsertScan incomingCommand.reliableSequenceNumber inc queue.reverse
      = .after k) :
    ReliableRanges inc
      (queue.take (queue.length - k) ++ incomingCommand :: queue.drop (queue.length - k)) := by
  obtain ⟨hb, hp⟩ := hr
  have hle : queue.Pairwise (fun a b =>
      windowKey inc a.reliableSequenceNumber ≤ windowKey inc b.reliableSequenceNumber) := by
    refine hp.imp ?_
    intro a b hab
    unfold rangeBefore at hab
    omega
  obtain ⟨-, s2, s3⟩ := reliableInsertScan_after _ inc hseq queue.reverse k
    (fun c hc => hb c (List.mem_reverse.mp hc)) (List.pairwise_reverse.mpr hle) hscan
  have hbefore : ∀ c ∈ queue.take (queue.length - k),
      windowKey inc c.reliableSequenceNumber
        < windowKey inc incomingCommand.reliableSequenceNumber := by
    intro c hc
    apply s3
    rw [List.drop_reverse]
    exact List.mem_reverse.mpr hc
  have hafter : ∀ c ∈ queue.drop (queue.length - k),
      windowKey inc incomingCommand.reliableSequenceNumber
        < windowKey inc c.reliableSequenceNumber := by
    intro c hc
    apply s2
    rw [List.take_reverse]
    exact List.mem_reverse.mpr hc
  have hsplit : (queue.take (queue.length - k) ++ queue.drop (queue.length - k)).Pairwise
      (fun a b => rangeBefore inc a.reliableSequenceNumber a.fragmentCount
        b.reliableSequenceNumber) := by
    rw [List.take_append_drop]
    exact hp
  rw [List.pairwise_append] at hsplit
  obtain ⟨p1, p2, p3⟩ := hsplit
  refine ⟨?_, ?_⟩
  · intro c hc
    rcases List.mem_append.mp hc with h | h
    · exact hb c (List.mem_of_mem_take h)
    · rcases List.mem_cons.mp h with h | h
      · rw [h]; exact hseq
      · exact hb c (List.mem_of_mem_drop h)
  · rw [List.pairwise_append, List.pairwise_cons]
    refine ⟨p1, ⟨?_, p2⟩, ?_⟩
    · intro b hb2
      have hk := hafter b hb2
      rcases hnew b (List.mem_of_mem_drop hb2) with h | h | h
      · rw [h] at hk; omega
      · unfold rangeBefore at h; omega
      · exact h
    · intro a ha b hb2
      rcases List.mem_cons.mp hb2 with h | h
      · rw [h]
        have hk := hbefore a ha
        rcases hnew a (List.mem_of_mem_take ha) with h2 | h2 | h2
        · rw [h2] at hk; omega
        · exact h2
        · unfold rangeBefore at h2; omega
      · exact p3 a ha b h

/-- The search and the insertion alone: linking a command behind the node that the backwards
search stopped at keeps every queue of 16-bit numbers strictly increasing relative to the
current number of the channel, as it is before the dispatch. -/
theorem reliableIncreasing_insert (inc : Nat) (queue : List ENetIncomingCommand)
    (incomingCommand : ENetIncomingCommand) (k : Nat)
    (hseq : incomingCommand.reliableSequenceNumber < 65536)
    (hb : ∀ c ∈ queue, c.reliableSequenceNumber < 65536)
    (hr : ReliableIncreasing inc queue)
    (hscan : reliableInsertScan incomingCommand.reliableSequenceNumber inc queue.reverse
      = .after k) :
    ReliableIncreasing inc
      (queue.take (queue.length - k) ++ incomingCommand :: queue.drop (queue.length - k)) := by
  obtain ⟨hp, -⟩ := hr
  have hle : queue.Pairwise (fun a b =>
      windowKey inc a.reliableSequenceNumber ≤ windowKey inc b.reliableSequenceNumber) :=
    hp.imp (fun hab => Nat.le_of_lt hab)
  obtain ⟨-, s2, s3⟩ := reliableInsertScan_after _ inc hseq queue.reverse k
    (fun c hc => hb c (List.mem_reverse.mp hc)) (List.pairwise_reverse.mpr hle) hscan
  have hsplit : (queue.take (queue.length - k) ++ queue.drop (queue.length - k)).Pairwise
      (fun a b => windowKey inc a.reliableSequenceNumber
        < windowKey inc b.reliableSequenceNumber) := by
    rw [List.take_append_drop]
    exact hp
  rw [List.pairwise_append] at hsplit
  obtain ⟨p1, p2, p3⟩ := hsplit
  apply reliableIncreasing_of_pairwise
  rw [List.pairwise_append, List.pairwise_cons]
  refine ⟨p1, ⟨?_, p2⟩, ?_⟩
  · intro b hb2
    apply s2
    rw [List.take_reverse]
    exact List.mem_reverse.mpr hb2
  · intro a ha b hb2
    rcases List.mem_cons.mp hb2 with h | h
    · rw [h]
      apply s3
      rw [List.drop_reverse]
      exact List.mem_reverse.mpr ha
    · exact p3 a ha b h

/-- When the head of the queue is dispatched, the positions of the commands behind its
sequence range, relative to the new current number, are the old ones, all less 65536 when
the current number wrapped. -/
theorem windowKey_advance (seq head fragmentCount a : Nat) (hseq : seq < 65536)
    (ha : a < 65536) (hhead : head = u16 (seq + 1))
    (hbefore : rangeBefore seq head fragmentCount a) :
    windowKey (if fragmentCount > 0 then u16 (head + (fragmentCount - 1)) else head) a
        + (if seq + 1 + (fragmentCount - 1) ≥ 65536 then 65536 else 0)
      = windowKey seq a := by
  unfold rangeBefore windowKey at hbefore
  unfold windowKey
  unfold u16 at hhead ⊢
  subst hhead
  split_ifs at hbefore ⊢ <;> omega

/-- The loop of the reliable dispatch leaves a 16-bit current number and keeps the sequence
ranges of the commands that stay queued in order, relative to the new current number. -/
theorem enet_peer_dispatch_incoming_reliable_loop_ranges :
    ∀ (cmds : List ENetIncomingCommand) (seq : Nat), seq < 65536 →
      ReliableRanges seq cmds →
      (enet_peer_dispatch_incoming_reliable_loop cmds seq).2 < 65536 ∧
      ReliableRanges (enet_peer_dispatch_incoming_reliable_loop cmds seq).2
        (cmds.drop (enet_peer_dispatch_incoming_reliable_loop cmds seq).1) := by
  intro cmds
  induction cmds with
  | nil =>
    intro seq hseq hr
    exact ⟨hseq, hr⟩
  | cons c rest ih =>
    intro seq hseq hr
    unfold enet_peer_dispatch_incoming_reliable_loop
    by_cases hstop : c.fragmentsRemaining > 0 ∨
        c.reliableSequenceNumber ≠ u16 (seq + 1)
    · rw [if_pos hstop]
      exact ⟨hseq, hr⟩
    · rw [if_neg hstop]
      dsimp only
      have hhead : c.reliableSequenceNumber = u16 (seq + 1) := by
        by_contra hne
        exact hstop (Or.inr hne)
      obtain ⟨hb, hp⟩ := hr
      rw [List.pairwise_cons] at hp
      obtain ⟨hfirst, hrest⟩ := hp
      have hcb := hb c (List.mem_cons_self _ _)
      have hb' : ∀ a ∈ rest, a.reliableSequenceNumber < 65536 :=
        fun a h => hb a (List.mem_cons_of_mem _ h)
      have hnext : (if c.fragmentCount > 0
          then u16 (c.reliableSequenceNumber + (c.fragmentCount - 1))
          else c.reliableSequenceNumber) < 65536 := by
        split
        · unfold u16; omega
        · exact hcb
      have hr1 : ReliableRanges (if c.fragmentCount > 0
          then u16 (c.reliableSequenceNumber + (c.fragmentCount - 1))
          else c.reliableSequenceNumber) rest := by
        refine ⟨hb', ?_⟩
        refine hrest.imp_of_mem ?_
        intro a b ha hb2 hab
        have ka := windowKey_advance seq c.reliableSequenceNumber c.fragmentCount
          a.reliableSequenceNumber hseq (hb' a ha) hhead (hfirst a ha)
        have kb := windowKey_advance seq c.reliableSequenceNumber c.fragmentCount
          b.reliableSequenceNumber hseq (hb' b hb2) hhead (hfirst b hb2)
        unfold rangeBefore at hab ⊢
        omega
      obtain ⟨i1, i2⟩ := ih _ hnext hr1
      exact ⟨i1, i2⟩

/-- The dispatch link leaves the channel array of the peer. -/
theorem linkDispatch_channels (host : ENetHost) (peer : ENetPeer) :
    (linkDispatch host peer).2.channels = peer.channels := by
  unfold linkDispatch; split <;> rfl

/-- Moving the pending nodes to `dispatchedCommands` leaves the channel array of the peer. -/
theorem UnreliableDispatchState.movePending_channels (st : UnreliableDispatchState) :
    st.movePending.peer.channels = st.peer.channels := by
  unfold UnreliableDispatchState.movePending
  exact linkDispatch_channels _ _

/-- The loop of the unreliable dispatch leaves the channel array of the peer. -/
theorem enet_peer_dispatch_incoming_unreliable_loop_channels (seq : Nat) :
    ∀ (rest : List (Nat × ENetIncomingCommand)) (st : UnreliableDispatchState),
      (enet_peer_dispatch_incoming_unreliable_loop seq st rest).1.peer.channels
        = st.peer.channels := by
  intro rest
  induction rest with
  | nil => intro st; rfl
  | cons node rest ih =>
    intro st
    obtain ⟨i, c⟩ := node
    unfold enet_peer_dispatch_incoming_unreliable_loop
    dsimp only
    split_ifs
    all_goals
      first
      | rfl
      | (rw [ih]
         try exact st.movePending_channels)

/-- The unreliable dispatch leaves the channel array of the peer. -/
theorem enet_peer_dispatch_incoming_unreliable_commands_channels (host : ENetHost)
    (peer : ENetPeer) (channel : ENetChannel) (queuedCommand : Option Nat) :
    (enet_peer_dispatch_incoming_unreliable_commands host peer channel
        queuedCommand).peer.channels = peer.channels := by
  have hloop := enet_peer_dispatch_incoming_unreliable_loop_channels
    channel.incomingReliableSequenceNumber channel.incomingUnreliableCommands.enum
    { host := host, peer := peer,
      incomingUnreliableSequenceNumber := channel.incomingUnreliableSequenceNumber,
      kept := [], pending := [], dropped := 0, moved := [] }
  unfold enet_peer_dispatch_incoming_unreliable_commands
    enet_peer_dispatch_incoming_unreliable_nodes
  dsimp only
  generalize enet_peer_dispatch_incoming_unreliable_loop _ _ _ = lr at hloop
  obtain ⟨st, rest⟩ := lr
  dsimp only at hloop ⊢
  by_cases hp : st.pending ≠ []
  · rw [if_pos hp]
    show st.movePending.peer.channels = peer.channels
    rw [st.movePending_channels]
    exact hloop
  · rw [if_neg hp]
    exact hloop

/-- The reliable dispatch leaves on the channel the queue without the nodes that its loop
passed and the sequence number that its loop reached, and leaves the channel array of the
peer. -/
theorem enet_peer_dispatch_incoming_reliable_commands_channel (host : ENetHost)
    (peer : ENetPeer) (channel : ENetChannel) (queuedCommand : Option Nat) :
    (enet_peer_dispatch_incoming_reliable_commands host peer channel
        queuedCommand).channel.incomingReliableCommands
      = channel.incomingReliableCommands.drop
          (enet_peer_dispatch_incoming_reliable_loop channel.incomingReliableCommands
            channel.incomingReliableSequenceNumber).1 ∧
    (enet_peer_dispatch_incoming_reliable_commands host peer channel
        queuedCommand).channel.incomingReliableSequenceNumber
      = (enet_peer_dispatch_incoming_reliable_loop channel.incomingReliableCommands
            channel.incomingReliableSequenceNumber).2 ∧
    (enet_peer_dispatch_incoming_reliable_commands host peer channel
        queuedCommand).peer.channels = peer.channels := by
  unfold enet_peer_dispatch_incoming_reliable_commands
  generalize enet_peer_dispatch_incoming_reliable_loop channel.incomingReliableCommands
    channel.incomingReliableSequenceNumber = lr
  obtain ⟨k, seq⟩ := lr
  dsimp only
  by_cases hk : k = 0
  · subst hk
    rw [if_pos rfl]
    exact ⟨rfl, rfl, rfl⟩
  · rw [if_neg hk]
    by_cases hu : channel.incomingUnreliableCommands ≠ []
    · rw [if_pos hu]
      refine ⟨rfl, rfl, ?_⟩
      rw [enet_peer_dispatch_incoming_unreliable_commands_channels]
      exact linkDispatch_channels _ _
    · rw [if_neg hu]
      exact ⟨rfl, rfl, linkDispatch_channels _ _⟩

/-- The tail of `enet_peer_queue_incoming_command` for a reliable command whose sequence
numbers overlap with those of no queued command: the channel is left with a 16-bit current
number and with the sequence ranges of its queue in order. -/
theorem queueIncomingLink_ranges (host : ENetHost) (peer : ENetPeer) (channel : ENetChannel)
    (command : ENetProtocol) (packet : ENetPacket) (fragments : Option (List Nat))
    (fragmentCount skipped mem : Nat)
    (hrel : queueIncomingIsReliable command = true)
    (hlt : command.channelID < peer.channels.length)
    (hcur : channel.incomingReliableSequenceNumber < 65536)
    (hseq : command.reliableSequenceNumber < 65536)
    (hr : ReliableRanges channel.incomingReliableSequenceNumber
      channel.incomingReliableCommands)
    (hnew : ∀ c ∈ channel.incomingReliableCommands,
      c.reliableSequenceNumber = command.reliableSequenceNumber ∨
      rangeBefore channel.incomingReliableSequenceNumber c.reliableSequenceNumber
        c.fragmentCount command.reliableSequenceNumber ∨
      rangeBefore channel.incomingReliableSequenceNumber command.reliableSequenceNumber
        fragmentCount c.reliableSequenceNumber)
    (hscan : reliableInsertScan command.reliableSequenceNumber
      channel.incomingReliableSequenceNumber channel.incomingReliableCommands.reverse
        = .after skipped) :
    ∃ channel1,
      (queueIncomingLink host peer channel command packet fragments fragmentCount skipped
        mem).peer.channels.get? command.channelID = some channel1 ∧
      channel1.incomingReliableSequenceNumber < 65536 ∧
      ReliableRanges channel1.incomingReliableSequenceNumber
        channel1.incomingReliableCommands := by
  have hins := reliableRanges_insert channel.incomingReliableSequenceNumber
    channel.incomingReliableCommands
    { reliableSequenceNumber := command.reliableSequenceNumber,
      unreliableSequenceNumber := queueIncomingUnreliableSequenceNumber command &&& 0xFFFF,
      command := command, fragmentCount := fragmentCount,
      fragmentsRemaining := fragmentCount, fragments := fragments,
      packet := { packet with referenceCount := usize (packet.referenceCount + 1) } }
    skipped hseq hr hnew hscan
  obtain ⟨l1, l2⟩ := enet_peer_dispatch_incoming_reliable_loop_ranges _ _ hcur hins
  unfold queueIncomingLink
  rw [if_pos hrel]
  dsimp only
  apply Exists.intro
  refine ⟨?_, ?_, ?_⟩
  · rw [List.get?_eq_getElem?]
    exact List.getElem?_set_self (by
      rw [(enet_peer_dispatch_incoming_reliable_commands_channel _ _ _ _).2.2]
      exact hlt)
  · rw [(enet_peer_dispatch_incoming_reliable_commands_channel _ _ _ _).2.1]
    exact l1
  · rw [(enet_peer_dispatch_incoming_reliable_commands_channel _ _ _ _).1,
      (enet_peer_dispatch_incoming_reliable_commands_channel _ _ _ _).2.1]
    exact l2

/-- The part of `enet_peer_queue_incoming_command` behind the search, for a reliable command
whose sequence numbers overlap with those of no queued command: whether the command is
linked or an allocation fails, the channel is left with a 16-bit current number and with the
sequence ranges of its queue in order. -/
theorem queueIncomingInsert_ranges (host : ENetHost) (peer : ENetPeer) (channel : ENetChannel)
    (command : ENetProtocol) (data : Option (List Nat)) (dataLength : Nat)
    (flags : ENetPacketFlags) (fragmentCount skipped mem : Nat)
    (hchan : peer.channels.get? command.channelID = some channel)
    (hrel : queueIncomingIsReliable command = true)
    (hcur : channel.incomingReliableSequenceNumber < 65536)
    (hseq : command.reliableSequenceNumber < 65536)
    (hr : ReliableRanges channel.incomingReliableSequenceNumber
      channel.incomingReliableCommands)
    (hnew : ∀ c ∈ channel.incomingReliableCommands,
      c.reliableSequenceNumber = command.reliableSequenceNumber ∨
      rangeBefore channel.incomingReliableSequenceNumber c.reliableSequenceNumber
        c.fragmentCount command.reliableSequenceNumber ∨
      rangeBefore channel.incomingReliableSequenceNumber command.reliableSequenceNumber
        fragmentCount c.reliableSequenceNumber)
    (hscan : reliableInsertScan command.reliableSequenceNumber
      channel.incomingReliableSequenceNumber channel.incomingReliableCommands.reverse
        = .after skipped) :
    ∃ channel1,
      (queueIncomingInsert host peer channel command data dataLength flags fragmentCount
        skipped mem).peer.channels.get? command.channelID = some channel1 ∧
      channel1.incomingReliableSequenceNumber < 65536 ∧
      ReliableRanges channel1.incomingReliableSequenceNumber
        channel1.incomingReliableCommands := by
  have hlt : command.channelID < peer.channels.length := by
    rcases Nat.lt_or_ge command.channelID peer.channels.length with h | h
    · exact h
    · rw [List.get?_eq_none.mpr h] at hchan
      cases hchan
  have hsame : ∃ channel1, peer.channels.get? command.channelID = some channel1 ∧
      channel1.incomingReliableSequenceNumber < 65536 ∧
      ReliableRanges channel1.incomingReliableSequenceNumber
        channel1.incomingReliableCommands := ⟨channel, hchan, hcur, hr⟩
  unfold queueIncomingInsert
  split
  · exact hsame
  · split
    · exact hsame
    · split
      · exact hsame
      · split
        · exact hsame
        · exact queueIncomingLink_ranges host peer channel command _ _ fragmentCount skipped _
            hrel hlt hcur hseq hr hnew hscan

/-- C25 (amended): on a channel with a 16-bit current number whose queue
`incomingReliableCommands` holds 16-bit sequence numbers with the sequence ranges in order
(the numbers of every entry, one for each fragment of a fragmented command, lie before the
number of every later entry, relative to `incomingReliableSequenceNumber`),
`enet_peer_queue_incoming_command` given a `SEND_RELIABLE` or `SEND_FRAGMENT` command whose
numbers overlap with those of no queued command (a command whose number is already queued is
allowed) returns and leaves the channel with a 16-bit current number, the sequence ranges in
order, and so the queue strictly increasing relative to the new current number with no
number twice, whether the command was queued, dispatched, discarded or refused. -/
theorem enet_peer_queue_incoming_command_ordered (host : ENetHost) (peer : ENetPeer)
    (command : ENetProtocol) (data : Option (List Nat)) (dataLength : Nat)
    (flags : ENetPacketFlags) (fragmentCount mem : Nat) (channel : ENetChannel)
    (hchan : peer.channels.get? command.channelID = some channel)
    (hrel : queueIncomingIsReliable command = true)
    (hcur : channel.incomingReliableSequenceNumber < 65536)
    (hseq : command.reliableSequenceNumber < 65536)
    (hr : ReliableRanges channel.incomingReliableSequenceNumber
      channel.incomingReliableCommands)
    (hnew : ∀ c ∈ channel.incomingReliableCommands,
      c.reliableSequenceNumber = command.reliableSequenceNumber ∨
      rangeBefore channel.incomingReliableSequenceNumber c.reliableSequenceNumber
        c.fragmentCount command.reliableSequenceNumber ∨
      rangeBefore channel.incomingReliableSequenceNumber command.reliableSequenceNumber
        fragmentCount c.reliableSequenceNumber) :
    ∃ q channel1,
      enet_peer_queue_incoming_command host peer command data dataLength flags fragmentCount
        mem = some q ∧
      q.peer.channels.get? command.channelID = some channel1 ∧
      channel1.incomingReliableSequenceNumber < 65536 ∧
      ReliableRanges channel1.incomingReliableSequenceNumber
        channel1.incomingReliableCommands ∧
      ReliableIncreasing channel1.incomingReliableSequenceNumber
        channel1.incomingReliableCommands := by
  have hdiscard : ∃ q channel1,
      some (queueIncomingDiscard host peer fragmentCount mem) = some q ∧
      q.peer.channels.get? command.channelID = some channel1 ∧
      channel1.incomingReliableSequenceNumber < 65536 ∧
      ReliableRanges channel1.incomingReliableSequenceNumber
        channel1.incomingReliableCommands ∧
      ReliableIncreasing channel1.incomingReliableSequenceNumber
        channel1.incomingReliableCommands := by
    refine ⟨_, channel, rfl, ?_, hcur, hr, hr.increasing⟩
    unfold queueIncomingDiscard
    split <;> exact hchan
  have hmask : command.command &&& ENET_PROTOCOL_COMMAND_MASK
      ≠ ENET_PROTOCOL_COMMAND_SEND_UNSEQUENCED := by
    unfold queueIncomingIsReliable at hrel
    rcases of_decide_eq_true hrel with h | h
    · rw [h]; decide
    · rw [h]; decide
  have hrsn : queueIncomingReliableSequenceNumber command = command.reliableSequenceNumber := by
    unfold queueIncomingReliableSequenceNumber
    rw [if_pos hmask]
  unfold enet_peer_queue_incoming_command
  rw [hchan]
  dsimp only
  split
  · exact hdiscard
  split
  · exact hdiscard
  have hscan : queueIncomingScan channel command
      = (if command.reliableSequenceNumber = channel.incomingReliableSequenceNumber then
          InsertScan.discard
         else reliableInsertScan command.reliableSequenceNumber
          channel.incomingReliableSequenceNumber channel.incomingReliableCommands.reverse) := by
    unfold queueIncomingScan
    rw [if_pos hrel, hrsn]
  rw [hscan]
  by_cases hneq : command.reliableSequenceNumber = channel.incomingReliableSequenceNumber
  · rw [if_pos hneq]
    exact hdiscard
  · rw [if_neg hneq]
    cases hs : reliableInsertScan command.reliableSequenceNumber
        channel.incomingReliableSequenceNumber channel.incomingReliableCommands.reverse with
    | discard => exact hdiscard
    | after skipped =>
      obtain ⟨channel1, h1, h2, h3⟩ := queueIncomingInsert_ranges host peer channel command
        data dataLength flags fragmentCount skipped mem hchan hrel hcur hseq hr hnew hs
      exact ⟨_, channel1, rfl, h1, h2, h3, h3.increasing⟩

/-- Witness of C25 (amended): the command numbered 1 arrives on a channel at number 0 that
holds a complete fragmented command with the numbers 2 to 4 and a command numbered 6; the
commands 1 and 2 are dispatched, the channel is at number 4 and holds the command 6. -/
theorem enet_peer_queue_incoming_command_ordered_witness :
    (∃ q channel1,
      enet_peer_queue_incoming_command sampleHost sampleDisjointPeer (sampleSendReliable 1)
        (some [1, 2, 3, 4]) 4
        { reliable := true, unsequenced := false, noAllocate := false,
          unreliableFragment := false, sent := false } 0 8 = some q ∧
      q.peer.channels.get? (sampleSendReliable 1).channelID = some channel1 ∧
      channel1.incomingReliableSequenceNumber < 65536 ∧
      ReliableRanges channel1.incomingReliableSequenceNumber
        channel1.incomingReliableCommands ∧
      ReliableIncreasing channel1.incomingReliableSequenceNumber
        channel1.incomingReliableCommands) ∧
    (enet_peer_queue_incoming_command sampleHost sampleDisjointPeer (sampleSendReliable 1)
        (some [1, 2, 3, 4]) 4
        { reliable := true, unsequenced := false, noAllocate := false,
          unreliableFragment := false, sent := false } 0 8).map
      (fun q => q.peer.channels.map (fun c =>
        (c.incomingReliableSequenceNumber,
         c.incomingReliableCommands.map (fun ic => ic.reliableSequenceNumber))))
      = some [(4, [6])] :=
  ⟨enet_peer_queue_incoming_command_ordered sampleHost sampleDisjointPeer
    (sampleSendReliable 1) (some [1, 2, 3, 4]) 4
    { reliable := true, unsequenced := false, noAllocate := false,
      unreliableFragment := false, sent := false } 0 8
    { sampleChannel with incomingReliableCommands := sampleDisjointQueue }
    rfl (by decide) (by decide) (by decide) (by decide) (by decide), by decide⟩

set_option maxRecDepth 20000 in
/-- Counterexample to C25 as stated.  The sample peer, its channel at number 0, receives a
packet in 3 `SEND_FRAGMENT` commands numbered 2 to 4, then a `SEND_RELIABLE` command
numbered 3 and one numbered 6: every handler returns 0 and the queue holds the complete
fragmented command numbered 2, the command 3 and the command 6, in strictly increasing
order.  The `SEND_RELIABLE` command numbered 1 is then accepted and linked in front, and the
dispatch that ends `enet_peer_queue_incoming_command` delivers the commands 1 and 2 and
moves the current number to 4, past the queued number 3: relative to the new current number
the queue holds 3 (wrapped, at 65539) before 6 and is not in increasing order. -/
theorem enet_peer_queue_incoming_command_overlap :
    sampleOverlapReceived.map (fun r => r.status) = some 0 ∧
    sampleOverlapReceived.map (fun r => r.host) = some sampleHost ∧
    sampleOverlapReceived.map (fun r => r.peer) = some sampleOverlapPeer ∧
    sampleOverlapPeer.channels.map (fun c =>
        (c.incomingReliableSequenceNumber,
         c.incomingReliableCommands.map (fun ic =>
          (ic.reliableSequenceNumber, ic.fragmentCount, ic.fragmentsRemaining))))
      = [(0, [(2, 3, 0), (3, 0, 0), (6, 0, 0)])] ∧
    sampleOverlapPeer.channels.map (fun c =>
        decide (ReliableIncreasing c.incomingReliableSequenceNumber
          c.incomingReliableCommands))
      = [true] ∧
    (enet_peer_queue_incoming_command sampleHost sampleOverlapPeer (sampleSendReliable 1)
        (some [1, 2, 3, 4]) 4
        { reliable := true, unsequenced := false, noAllocate := false,
          unreliableFragment := false, sent := false } 0 8).map (fun q => q.ret)
      = some (.queued (.inDispatched 0)) ∧
    (enet_peer_queue_incoming_command sampleHost sampleOverlapPeer (sampleSendReliable 1)
        (some [1, 2, 3, 4]) 4
        { reliable := true, unsequenced := false, noAllocate := false,
          unreliableFragment := false, sent := false } 0 8).map
      (fun q => q.peer.dispatchedCommands.map (fun ic => ic.reliableSequenceNumber))
      = some [1, 2] ∧
    (enet_peer_queue_incoming_command sampleHost sampleOverlapPeer (sampleSendReliable 1)
        (some [1, 2, 3, 4]) 4
        { reliable := true, unsequenced := false, noAllocate := false,
          unreliableFragment := false, sent := false } 0 8).map
      (fun q => q.peer.channels.map (fun c =>
        (c.incomingReliableSequenceNumber,
         c.incomingReliableCommands.map (fun ic => ic.reliableSequenceNumber))))
      = some [(4, [3, 6])] ∧
    (enet_peer_queue_incoming_command sampleHost sampleOverlapPeer (sampleSendReliable 1)
        (some [1, 2, 3, 4]) 4
        { reliable := true, unsequenced := false, noAllocate := false,
          unreliableFragment := false, sent := false } 0 8).map
      (fun q => q.peer.channels.map (fun c =>
        decide (ReliableIncreasing c.incomingReliableSequenceNumber
          c.incomingReliableCommands)))
      = some [false] ∧
    windowKey 4 3 = 65539 ∧ windowKey 4 6 = 6 := by
  refine ⟨by decide, by decide, by decide, by decide, by decide, by decide, by decide,
    by decide, by decide, by decide, by decide⟩

/-! ## The parameters of an accepted connection -/

/-- The mask of the session id keeps the two low bits. -/
theorem and_sessionMask (x : Nat) : x &&& sessionMask = x % 4 :=
  Nat.and_pow_two_sub_one_eq_mod x 2

/-- The session id chosen by `enet_protocol_handle_connect` is one of 0..3 and is not the id
to avoid, whatever the command carries. -/
theorem nextSessionID_fresh (carried fallback avoid : Nat) :
    nextSessionID carried fallback avoid < 4 ∧ nextSessionID carried fallback avoid ≠ avoid := by
  unfold nextSessionID
  dsimp only
  rw [and_sessionMask, and_sessionMask]
  unfold u8
  split_ifs <;> omega

/-- What `handleConnectAccept` writes into the slot and into the `VERIFY_CONNECT`. -/
theorem handleConnectAccept_parameters (hdr : ENetHeader) (host : ENetHost) (peer : ENetPeer)
    (connect : ENetProtocolConnect) (channelCount : Nat) :
    (handleConnectAccept hdr host peer connect channelCount).1.mtu
      = clampMtu (ENET_NET_TO_HOST_32 connect.mtu) ∧
    4096 ≤ (handleConnectAccept hdr host peer connect channelCount).1.windowSize ∧
    (handleConnectAccept hdr host peer connect channelCount).1.windowSize ≤ 65536 ∧
    (handleConnectAccept hdr host peer connect channelCount).1.channelCount = channelCount ∧
    (handleConnectAccept hdr host peer connect channelCount).1.outgoingSessionID
      = nextSessionID connect.incomingSessionID peer.outgoingSessionID
          peer.outgoingSessionID ∧
    (handleConnectAccept hdr host peer connect channelCount).1.incomingSessionID
      = nextSessionID connect.outgoingSessionID peer.incomingSessionID
          peer.incomingSessionID ∧
    (handleConnectAccept hdr host peer connect channelCount).1.outgoingCommands
      = peer.outgoingCommands ∧
    (handleConnectAccept hdr host peer connect channelCount).2.channelID = 0xFF ∧
    (handleConnectAccept hdr host peer connect channelCount).2.command
      = ENET_PROTOCOL_COMMAND_VERIFY_CONNECT ||| ENET_PROTOCOL_COMMAND_FLAG_ACKNOWLEDGE ∧
    4096 ≤ ENET_NET_TO_HOST_32
      (handleConnectAccept hdr host peer connect channelCount).2.connectView.windowSize ∧
    ENET_NET_TO_HOST_32
      (handleConnectAccept hdr host peer connect channelCount).2.connectView.windowSize
        ≤ 65536 ∧
    (4096 ≤ ENET_NET_TO_HOST_32 connect.windowSize →
      ENET_NET_TO_HOST_32
        (handleConnectAccept hdr host peer connect channelCount).2.connectView.windowSize
          ≤ ENET_NET_TO_HOST_32 connect.windowSize) := by
  unfold handleConnectAccept
  dsimp only
  unfold ENetProtocol.connectView
  dsimp only
  unfold ENET_PROTOCOL_MINIMUM_WINDOW_SIZE ENET_PROTOCOL_MAXIMUM_WINDOW_SIZE
    ENET_NET_TO_HOST_32 ENET_HOST_TO_NET_32 u32
  refine ⟨rfl, ?_, ?_, rfl, rfl, rfl, rfl, rfl, rfl, ?_, ?_, ?_⟩
  · split_ifs <;> omega
  · split_ifs <;> omega
  · split_ifs <;> omega
  · split_ifs <;> omega
  · intro h
    split_ifs <;> omega

/-- The view `command -> connect` depends on the record of the command only. -/
theorem connectView_of_body (a b : ENetProtocol) (h : a.body = b.body) :
    a.connectView = b.connectView := by
  unfold ENetProtocol.connectView
  rw [h]

/-- Queueing a control command (channel `0xFF`, neither `SEND_UNRELIABLE` nor
`SEND_UNSEQUENCED`) returns; the parameters of the connection are untouched, and the command
is appended with its record as given unless the allocation fails. -/
theorem enet_peer_queue_outgoing_command_parameters (peer : ENetPeer) (command : ENetProtocol)
    (mem : Nat) (hch : command.channelID = 0xFF)
    (h1 : command.command &&& ENET_PROTOCOL_COMMAND_MASK
      ≠ ENET_PROTOCOL_COMMAND_SEND_UNRELIABLE)
    (h2 : command.command &&& ENET_PROTOCOL_COMMAND_MASK
      ≠ ENET_PROTOCOL_COMMAND_SEND_UNSEQUENCED) :
    ∃ r : QueueOutgoingResult,
      enet_peer_queue_outgoing_command peer command none none 0 0 mem = some r ∧
      r.peer.mtu = peer.mtu ∧ r.peer.windowSize = peer.windowSize ∧
      r.peer.channelCount = peer.channelCount ∧
      r.peer.outgoingSessionID = peer.outgoingSessionID ∧
      r.peer.incomingSessionID = peer.incomingSessionID ∧
      (mem = 0 ∧ r.peer.outgoingCommands = peer.outgoingCommands ∨
        0 < mem ∧ ∃ oc : ENetOutgoingCommand,
          r.peer.outgoingCommands = peer.outgoingCommands ++ [oc] ∧
          oc.command.body = command.body ∧ oc.command.command = command.command) := by
  unfold enet_peer_queue_outgoing_command enet_malloc
  by_cases hm : mem = 0
  · rw [if_pos hm]
    exact ⟨_, rfl, rfl, rfl, rfl, rfl, rfl, Or.inl ⟨hm, rfl⟩⟩
  · rw [if_neg hm]
    dsimp only
    unfold enet_peer_setup_outgoing_command
    dsimp only
    rw [if_pos hch]
    refine ⟨_, rfl, rfl, rfl, rfl, rfl, rfl, Or.inr ⟨by omega, _, rfl, ?_, ?_⟩⟩
    · unfold setupCommandRecord
      dsimp only
      rw [if_neg h1, if_neg h2]
    · unfold setupCommandRecord
      dsimp only
      rw [if_neg h1, if_neg h2]

/-- The slot that `enet_protocol_handle_connect` returns: the channel count of the command is
in [1, 255], the slot was a slot of the host, and it holds what `handleConnectAccept` made of
it, with the `VERIFY_CONNECT` at the end of its queue unless the allocation of the command
failed. -/
theorem enet_protocol_handle_connect_accepted (hdr : ENetHeader) (host : ENetHost)
    (command : ENetProtocol) (mem j : Nat)
    (hpeer : (enet_protocol_handle_connect hdr host command mem).peer = some j) :
    ∃ (slot Q : ENetPeer),
      host.peers.get? j = some slot ∧
      (enet_protocol_handle_connect hdr host command mem).host.peers.get? j = some Q ∧
      1 ≤ ENET_NET_TO_HOST_32 command.connectView.channelCount ∧
      ENET_NET_TO_HOST_32 command.connectView.channelCount ≤ 255 ∧
      Q.mtu = (handleConnectAccept hdr host slot command.connectView
        (handleConnectChannelCount host
          (ENET_NET_TO_HOST_32 command.connectView.channelCount))).1.mtu ∧
      Q.windowSize = (handleConnectAccept hdr host slot command.connectView
        (handleConnectChannelCount host
          (ENET_NET_TO_HOST_32 command.connectView.channelCount))).1.windowSize ∧
      Q.channelCount = (handleConnectAccept hdr host slot command.connectView
        (handleConnectChannelCount host
          (ENET_NET_TO_HOST_32 command.connectView.channelCount))).1.channelCount ∧
      Q.outgoingSessionID = (handleConnectAccept hdr host slot command.connectView
        (handleConnectChannelCount host
          (ENET_NET_TO_HOST_32 command.connectView.channelCount))).1.outgoingSessionID ∧
      Q.incomingSessionID = (handleConnectAccept hdr host slot command.connectView
        (handleConnectChannelCount host
          (ENET_NET_TO_HOST_32 command.connectView.channelCount))).1.incomingSessionID ∧
      (mem < 2 ∧ Q.outgoingCommands = slot.outgoingCommands ∨
        2 ≤ mem ∧ ∃ oc : ENetOutgoingCommand,
          Q.outgoingCommands = slot.outgoingCommands ++ [oc] ∧
          oc.command.command
            = ENET_PROTOCOL_COMMAND_VERIFY_CONNECT ||| ENET_PROTOCOL_COMMAND_FLAG_ACKNOWLEDGE ∧
          oc.command.connectView = (handleConnectAccept hdr host slot command.connectView
            (handleConnectChannelCount host
              (ENET_NET_TO_HOST_32 command.connectView.channelCount))).2.connectView) := by
  unfold enet_protocol_handle_connect at hpeer ⊢
  dsimp only at hpeer ⊢
  by_cases hrange : ENET_NET_TO_HOST_32 command.connectView.channelCount
      < ENET_PROTOCOL_MINIMUM_CHANNEL_COUNT ∨
    ENET_NET_TO_HOST_32 command.connectView.channelCount > ENET_PROTOCOL_MAXIMUM_CHANNEL_COUNT
  · rw [if_pos hrange] at hpeer
    cases hpeer
  rw [if_neg hrange] at hpeer ⊢
  unfold ENET_PROTOCOL_MINIMUM_CHANNEL_COUNT ENET_PROTOCOL_MAXIMUM_CHANNEL_COUNT at hrange
  generalize handleConnectScan host.receivedAddress command.connectView.connectID
    (host.peers.take host.peerCount) 0 none 0 = scan at hpeer ⊢
  rcases scan with _ | ⟨_ | index, duplicatePeers⟩
  · cases hpeer
  · cases hpeer
  dsimp only at hpeer ⊢
  by_cases hdup : duplicatePeers ≥ host.duplicatePeers
  · rw [if_pos hdup] at hpeer
    cases hpeer
  rw [if_neg hdup] at hpeer ⊢
  cases hslot : host.peers.get? index with
  | none =>
    rw [hslot] at hpeer
    cases hpeer
  | some slot =>
  rw [hslot] at hpeer
  dsimp only at hpeer ⊢
  have hlt : index < host.peers.length := by
    rcases Nat.lt_or_ge index host.peers.length with h | h
    · exact h
    · rw [List.get?_eq_none.mpr h] at hslot; cases hslot
  cases hm : enet_malloc mem with
  | none =>
    rw [hm] at hpeer
    cases hpeer
  | some mem1 =>
    rw [hm] at hpeer
    dsimp only at hpeer ⊢
    have hidx : index = j := Option.some.inj hpeer
    subst hidx
    have hmem1 : 0 < mem ∧ mem1 = mem - 1 := by
      unfold enet_malloc at hm
      split at hm
      · cases hm
      · exact ⟨by omega, (Option.some.inj hm).symm⟩
    obtain ⟨a1, a2, a3, a4, a5, a6, a7, a8, a9, -⟩ := handleConnectAccept_parameters hdr host
      slot command.connectView
      (handleConnectChannelCount host (ENET_NET_TO_HOST_32 command.connectView.channelCount))
    obtain ⟨r, hr, q1, q2, q3, q4, q5, q6⟩ := enet_peer_queue_outgoing_command_parameters
      (handleConnectAccept hdr host slot command.connectView
        (handleConnectChannelCount host
          (ENET_NET_TO_HOST_32 command.connectView.channelCount))).1
      (handleConnectAccept hdr host slot command.connectView
        (handleConnectChannelCount host
          (ENET_NET_TO_HOST_32 command.connectView.channelCount))).2
      mem1 a8 (by rw [a9]; decide) (by rw [a9]; decide)
    rw [hr]
    dsimp only
    refine ⟨slot, r.peer, hslot, ?_, by omega, by omega, q1, q2, q3, q4, q5, ?_⟩
    · rw [List.get?_eq_getElem?]
      exact List.getElem?_set_self hlt
    · rcases q6 with ⟨h0, hq⟩ | ⟨h0, oc, hq, hb, hc⟩
      · exact Or.inl ⟨by omega, by rw [hq, a7]⟩
      · exact Or.inr ⟨by omega, oc, by rw [hq, a7], by rw [hc, a9],
          connectView_of_body _ _ hb⟩

/-- C36: the slot that `enet_protocol_handle_connect` returns on a host whose channel limit
is at least 1 has its `mtu` in [576, 4096], its `windowSize` in [4096, 65536] and its
`channelCount` in [1, 255] and not above the channel limit of the host; unless the
allocation of the command failed (less than 2 units of memory), the `VERIFY_CONNECT` queued
last carries a `windowSize` in [4096, 65536] that does not exceed the window the `CONNECT`
declares when that is at least 4096. -/
theorem enet_protocol_handle_connect_clamps (hdr : ENetHeader) (host : ENetHost)
    (command : ENetProtocol) (mem j : Nat) (hlimit : 1 ≤ host.channelLimit)
    (hpeer : (enet_protocol_handle_connect hdr host command mem).peer = some j) :
    ∃ (slot Q : ENetPeer),
      host.peers.get? j = some slot ∧
      (enet_protocol_handle_connect hdr host command mem).host.peers.get? j = some Q ∧
      ENET_PROTOCOL_MINIMUM_MTU ≤ Q.mtu ∧ Q.mtu ≤ ENET_PROTOCOL_MAXIMUM_MTU ∧
      ENET_PROTOCOL_MINIMUM_WINDOW_SIZE ≤ Q.windowSize ∧
      Q.windowSize ≤ ENET_PROTOCOL_MAXIMUM_WINDOW_SIZE ∧
      1 ≤ Q.channelCount ∧ Q.channelCount ≤ min 255 host.channelLimit ∧
      (mem < 2 ∧ Q.outgoingCommands = slot.outgoingCommands ∨
        2 ≤ mem ∧ ∃ oc : ENetOutgoingCommand,
          Q.outgoingCommands = slot.outgoingCommands ++ [oc] ∧
          oc.command.command
            = ENET_PROTOCOL_COMMAND_VERIFY_CONNECT ||| ENET_PROTOCOL_COMMAND_FLAG_ACKNOWLEDGE ∧
          ENET_PROTOCOL_MINIMUM_WINDOW_SIZE
            ≤ ENET_NET_TO_HOST_32 oc.command.connectView.windowSize ∧
          ENET_NET_TO_HOST_32 oc.command.connectView.windowSize
            ≤ ENET_PROTOCOL_MAXIMUM_WINDOW_SIZE ∧
          (ENET_PROTOCOL_MINIMUM_WINDOW_SIZE
              ≤ ENET_NET_TO_HOST_32 command.connectView.windowSize →
            ENET_NET_TO_HOST_32 oc.command.connectView.windowSize
              ≤ ENET_NET_TO_HOST_32 command.connectView.windowSize)) := by
  obtain ⟨slot, Q, h1, h2, h3, h4, h5, h6, h7, -, -, h10⟩ :=
    enet_protocol_handle_connect_accepted hdr host command mem j hpeer
  obtain ⟨a1, a2, a3, a4, -, -, -, -, -, a10, a11, a12⟩ := handleConnectAccept_parameters hdr
    host slot command.connectView
    (handleConnectChannelCount host (ENET_NET_TO_HOST_32 command.connectView.channelCount))
  refine ⟨slot, Q, h1, h2, ?_, ?_, ?_, ?_, ?_, ?_, ?_⟩
  · rw [h5, a1]
    unfold clampMtu ENET_PROTOCOL_MINIMUM_MTU ENET_PROTOCOL_MAXIMUM_MTU
    split_ifs <;> omega
  · rw [h5, a1]
    unfold clampMtu ENET_PROTOCOL_MINIMUM_MTU ENET_PROTOCOL_MAXIMUM_MTU
    split_ifs <;> omega
  · rw [h6]; exact a2
  · rw [h6]; exact a3
  · rw [h7, a4]
    unfold handleConnectChannelCount
    split_ifs <;> omega
  · rw [h7, a4]
    unfold handleConnectChannelCount
    split_ifs <;> omega
  · rcases h10 with ⟨hm, hq⟩ | ⟨hm, oc, hq, hc, hv⟩
    · exact Or.inl ⟨hm, hq⟩
    · refine Or.inr ⟨hm, oc, hq, hc, ?_, ?_, ?_⟩
      · rw [hv]; exact a10
      · rw [hv]; exact a11
      · rw [hv]; exact a12

/-- Witness of C36: the `CONNECT` for 2 channels with MTU 1400 and window 65536 is accepted
in the free slot of the idle sample host. -/
theorem enet_protocol_handle_connect_clamps_witness :
    ∃ (slot Q : ENetPeer),
      sampleIdleHost.peers.get? 0 = some slot ∧
      (enet_protocol_handle_connect sampleHeader sampleIdleHost (sampleConnect 2 77)
        4).host.peers.get? 0 = some Q ∧
      ENET_PROTOCOL_MINIMUM_MTU ≤ Q.mtu ∧ Q.mtu ≤ ENET_PROTOCOL_MAXIMUM_MTU ∧
      ENET_PROTOCOL_MINIMUM_WINDOW_SIZE ≤ Q.windowSize ∧
      Q.windowSize ≤ ENET_PROTOCOL_MAXIMUM_WINDOW_SIZE ∧
      1 ≤ Q.channelCount ∧ Q.channelCount ≤ min 255 sampleIdleHost.channelLimit ∧
      ((4 : Nat) < 2 ∧ Q.outgoingCommands = slot.outgoingCommands ∨
        2 ≤ (4 : Nat) ∧ ∃ oc : ENetOutgoingCommand,
          Q.outgoingCommands = slot.outgoingCommands ++ [oc] ∧
          oc.command.command
            = ENET_PROTOCOL_COMMAND_VERIFY_CONNECT ||| ENET_PROTOCOL_COMMAND_FLAG_ACKNOWLEDGE ∧
          ENET_PROTOCOL_MINIMUM_WINDOW_SIZE
            ≤ ENET_NET_TO_HOST_32 oc.command.connectView.windowSize ∧
          ENET_NET_TO_HOST_32 oc.command.connectView.windowSize
            ≤ ENET_PROTOCOL_MAXIMUM_WINDOW_SIZE ∧
          (ENET_PROTOCOL_MINIMUM_WINDOW_SIZE
              ≤ ENET_NET_TO_HOST_32 (sampleConnect 2 77).connectView.windowSize →
            ENET_NET_TO_HOST_32 oc.command.connectView.windowSize
              ≤ ENET_NET_TO_HOST_32 (sampleConnect 2 77).connectView.windowSize)) :=
  enet_protocol_handle_connect_clamps sampleHeader sampleIdleHost (sampleConnect 2 77) 4 0
    (by decide) (by decide)

/-- C40: for the slot that `enet_protocol_handle_connect` returns, the new
`outgoingSessionID` and the new `incomingSessionID` are each one of 0..3, and each differs
from the id of the same name that the slot held before, whatever ids the `CONNECT` carries
(`0xFF` included) and whatever the slot held. -/
theorem enet_protocol_handle_connect_session (hdr : ENetHeader) (host : ENetHost)
    (command : ENetProtocol) (mem j : Nat)
    (hpeer : (enet_protocol_handle_connect hdr host command mem).peer = some j) :
    ∃ (slot Q : ENetPeer),
      host.peers.get? j = some slot ∧
      (enet_protocol_handle_connect hdr host command mem).host.peers.get? j = some Q ∧
      Q.outgoingSessionID < 4 ∧ Q.incomingSessionID < 4 ∧
      Q.outgoingSessionID ≠ slot.outgoingSessionID ∧
      Q.incomingSessionID ≠ slot.incomingSessionID := by
  obtain ⟨slot, Q, h1, h2, -, -, -, -, -, h8, h9, -⟩ :=
    enet_protocol_handle_connect_accepted hdr host command mem j hpeer
  obtain ⟨-, -, -, -, a5, a6, -⟩ := handleConnectAccept_parameters hdr
    host slot command.connectView
    (handleConnectChannelCount host (ENET_NET_TO_HOST_32 command.connectView.channelCount))
  refine ⟨slot, Q, h1, h2, ?_, ?_, ?_, ?_⟩
  · rw [h8, a5]; exact (nextSessionID_fresh _ _ _).1
  · rw [h9, a6]; exact (nextSessionID_fresh _ _ _).1
  · rw [h8, a5]; exact (nextSessionID_fresh _ _ _).2
  · rw [h9, a6]; exact (nextSessionID_fresh _ _ _).2

/-- Witness of C40: the `CONNECT` that carries `0xFF` for both ids is accepted in the free
slot of the idle sample host, whose ids are 1: the new ids are 2. -/
theorem enet_protocol_handle_connect_session_witness :
    (∃ (slot Q : ENetPeer),
      sampleIdleHost.peers.get? 0 = some slot ∧
      (enet_protocol_handle_connect sampleHeader sampleIdleHost (sampleConnect 2 77)
        4).host.peers.get? 0 = some Q ∧
      Q.outgoingSessionID < 4 ∧ Q.incomingSessionID < 4 ∧
      Q.outgoingSessionID ≠ slot.outgoingSessionID ∧
      Q.incomingSessionID ≠ slot.incomingSessionID) ∧
    sampleIdleHost.peers.map (fun p => (p.outgoingSessionID, p.incomingSessionID)) = [(1, 1)] ∧
    (enet_protocol_handle_connect sampleHeader sampleIdleHost (sampleConnect 2 77)
      4).host.peers.map (fun p => (p.outgoingSessionID, p.incomingSessionID)) = [(2, 2)] :=
  ⟨enet_protocol_handle_connect_session sampleHeader sampleIdleHost (sampleConnect 2 77) 4 0
    (by decide), by decide, by decide⟩

/-! ## A `DISCONNECT` from the remote host -/

/-- The peer and the dispatch queue after `enet_protocol_dispatch_state`: the peer is in
the new state and flagged, and it has been linked at the end of the queue when it was not
flagged. -/
theorem enet_protocol_dispatch_state_links (host : ENetHost) (peer : ENetPeer)
    (state : ENetPeerState) :
    (enet_protocol_dispatch_state host peer state).2
      = { peer with state := state, needsDispatch := true } ∧
    (enet_protocol_dispatch_state host peer state).1.dispatchQueue
      = (if peer.needsDispatch then host.dispatchQueue
         else host.dispatchQueue ++ [peer.incomingPeerID]) := by
  unfold enet_protocol_dispatch_state
  obtain ⟨h1, -, h⟩ := enet_protocol_change_state_keeps host peer state
  generalize enet_protocol_change_state host peer state = r at h h1
  obtain ⟨host1, peer1⟩ := r
  dsimp only at h h1 ⊢
  subst h
  unfold linkDispatch
  dsimp only
  cases peer
  rename_i needsDispatch _ _ _ _ _
  cases needsDispatch
  · exact ⟨rfl, by rw [← h1]; rfl⟩
  · exact ⟨rfl, by rw [← h1]; rfl⟩

/-- After a handler has unlinked a peer that is linked exactly when flagged and at most once,
the node of the peer is not on the dispatch queue. -/
theorem not_mem_unlinked (host : ENetHost) (peer : ENetPeer) (h : DispatchLinked host peer) :
    peer.incomingPeerID ∉ unlinked host peer := by
  obtain ⟨hiff, hc⟩ := h
  unfold unlinked
  cases hf : peer.needsDispatch
  · simp only [Bool.false_eq_true, if_false]
    intro hm
    have := hiff.mp hm
    rw [hf] at this
    cases this
  · simp only [if_true]
    have h0 : (host.dispatchQueue.erase peer.incomingPeerID).count peer.incomingPeerID = 0 := by
      rw [List.count_erase_self]
      omega
    exact List.count_eq_zero.mp h0

/-- The peer that `enet_peer_reset_queues` leaves is in the state it was in. -/
theorem enet_peer_reset_queues_state (host : ENetHost) (peer : ENetPeer)
    (store : PacketStore) :
    (enet_peer_reset_queues host peer store).2.1.state = peer.state ∧
    (enet_peer_reset_queues host peer store).2.1.needsDispatch = false ∧
    (enet_peer_reset_queues host peer store).2.1.incomingPeerID = peer.incomingPeerID ∧
    (enet_peer_reset_queues host peer store).1.dispatchQueue = unlinked host peer := by
  rw [(enet_peer_reset_queues_keeps host peer store).2,
    (enet_peer_reset_queues_keeps host peer store).1]
  refine ⟨rfl, rfl, rfl, ?_⟩
  unfold unlinked
  split_ifs <;> rfl

/-- Outside the three states in which it returns at once, `enet_protocol_handle_disconnect`
is the state change applied to the peer with its queues reset, followed by the assignment of
the event data. -/
theorem enet_protocol_handle_disconnect_eq (hdr : ENetHeader) (host : ENetHost)
    (peer : ENetPeer) (command : ENetProtocol) (store : PacketStore)
    (h : ¬ (peer.state = ENetPeerState.DISCONNECTED ∨ peer.state = ENetPeerState.ZOMBIE ∨
      peer.state = ENetPeerState.ACKNOWLEDGING_DISCONNECT)) :
    enet_protocol_handle_disconnect hdr host peer command store
      = { status := 0,
          host := (handleDisconnectState hdr (enet_peer_reset_queues host peer store).1
            (enet_peer_reset_queues host peer store).2.1 command
            (enet_peer_reset_queues host peer store).2.2).1,
          peer :=
            if (handleDisconnectState hdr (enet_peer_reset_queues host peer store).1
                (enet_peer_reset_queues host peer store).2.1 command
                (enet_peer_reset_queues host peer store).2.2).2.1.state
                ≠ ENetPeerState.DISCONNECTED then
              { (handleDisconnectState hdr (enet_peer_reset_queues host peer store).1
                  (enet_peer_reset_queues host peer store).2.1 command
                  (enet_peer_reset_queues host peer store).2.2).2.1 with
                eventData := ENET_NET_TO_HOST_32 command.disconnectView }
            else
              (handleDisconnectState hdr (enet_peer_reset_queues host peer store).1
                (enet_peer_reset_queues host peer store).2.1 command
                (enet_peer_reset_queues host peer store).2.2).2.1,
          store := (handleDisconnectState hdr (enet_peer_reset_queues host peer store).1
            (enet_peer_reset_queues host peer store).2.1 command
            (enet_peer_reset_queues host peer store).2.2).2.2 } := by
  unfold enet_protocol_handle_disconnect
  rw [if_neg h]

/-- A peer that `enet_protocol_handle_disconnect` moves to `ZOMBIE`: its queues are empty,
it carries the data of the command, and its node is linked at the end of the dispatch
queue, once. -/
theorem enet_protocol_handle_disconnect_zombie (hdr : ENetHeader) (host : ENetHost)
    (peer : ENetPeer) (command : ENetProtocol) (store : PacketStore)
    (h : ¬ (peer.state = ENetPeerState.DISCONNECTED ∨ peer.state = ENetPeerState.ZOMBIE ∨
      peer.state = ENetPeerState.ACKNOWLEDGING_DISCONNECT))
    (hz : handleDisconnectState hdr (enet_peer_reset_queues host peer store).1
        (enet_peer_reset_queues host peer store).2.1 command
        (enet_peer_reset_queues host peer store).2.2
      = ((enet_protocol_dispatch_state (enet_peer_reset_queues host peer store).1
            (enet_peer_reset_queues host peer store).2.1 ENetPeerState.ZOMBIE).1,
         (enet_protocol_dispatch_state (enet_peer_reset_queues host peer store).1
            (enet_peer_reset_queues host peer store).2.1 ENetPeerState.ZOMBIE).2,
         (enet_peer_reset_queues host peer store).2.2)) :
    (enet_protocol_handle_disconnect hdr host peer command store).peer
      = disconnectedBy peer ENetPeerState.ZOMBIE true
          (ENET_NET_TO_HOST_32 command.disconnectView) ∧
    (enet_protocol_handle_disconnect hdr host peer command store).host.dispatchQueue
      = unlinked host peer ++ [peer.incomingPeerID] := by
  rw [enet_protocol_handle_disconnect_eq hdr host peer command store h, hz]
  obtain ⟨hp, hq⟩ := enet_protocol_dispatch_state_links
    (enet_peer_reset_queues host peer store).1 (enet_peer_reset_queues host peer store).2.1
    ENetPeerState.ZOMBIE
  obtain ⟨-, hflag, hid, hqueue⟩ := enet_peer_reset_queues_state host peer store
  dsimp only
  rw [hq, hp, hflag, hid, hqueue]
  refine ⟨?_, ?_⟩
  · rw [if_pos (by dsimp only; decide)]
    rw [(enet_peer_reset_queues_keeps host peer store).2]
    rfl
  · simp

/-- C37: `enet_protocol_handle_disconnect` returns 0.  On a peer in `DISCONNECTED`, `ZOMBIE`
or `ACKNOWLEDGING_DISCONNECT` it changes nothing.  On a peer in `CONNECTED` or
`DISCONNECT_LATER` it empties the queues of the peer and, when the command carries the
`ACKNOWLEDGE` flag, leaves it in `ACKNOWLEDGING_DISCONNECT` with its dispatch flag clear and
its node taken off the dispatch queue (not on the queue when the peer was linked exactly when
flagged, at most once); without the flag it leaves it in `ZOMBIE`, flagged and with its node
at the end of the dispatch queue.  On a peer in `CONNECTING`, `CONNECTION_SUCCEEDED` or
`DISCONNECTING` it leaves it in `ZOMBIE` in the same way.  In the two remaining states,
`ACKNOWLEDGING_CONNECT` and `CONNECTION_PENDING`, the result is that of `enet_peer_reset` on
the peer with its queues reset, and the peer is `DISCONNECTED`.  In every case where the peer
is left in a state other than `DISCONNECTED` by the handler, `eventData` is the data of the
command. -/
theorem enet_protocol_handle_disconnect_states (hdr : ENetHeader) (host : ENetHost)
    (peer : ENetPeer) (command : ENetProtocol) (store : PacketStore) :
    (enet_protocol_handle_disconnect hdr host peer command store).status = 0 ∧
    ((peer.state = ENetPeerState.DISCONNECTED ∨ peer.state = ENetPeerState.ZOMBIE ∨
        peer.state = ENetPeerState.ACKNOWLEDGING_DISCONNECT) →
      enet_protocol_handle_disconnect hdr host peer command store
        = { status := 0, host := host, peer := peer, store := store }) ∧
    ((peer.state = ENetPeerState.CONNECTED ∨ peer.state = ENetPeerState.DISCONNECT_LATER) →
      command.command &&& ENET_PROTOCOL_COMMAND_FLAG_ACKNOWLEDGE ≠ 0 →
      (enet_protocol_handle_disconnect hdr host peer command store).peer
        = disconnectedBy peer ENetPeerState.ACKNOWLEDGING_DISCONNECT false
            (ENET_NET_TO_HOST_32 command.disconnectView) ∧
      (enet_protocol_handle_disconnect hdr host peer command store).host.dispatchQueue
        = unlinked host peer ∧
      (DispatchLinked host peer →
        peer.incomingPeerID ∉
          (enet_protocol_handle_disconnect hdr host peer command store).host.dispatchQueue)) ∧
    ((peer.state = ENetPeerState.CONNECTED ∨ peer.state = ENetPeerState.DISCONNECT_LATER) →
      command.command &&& ENET_PROTOCOL_COMMAND_FLAG_ACKNOWLEDGE = 0 →
      (enet_protocol_handle_disconnect hdr host peer command store).peer
        = disconnectedBy peer ENetPeerState.ZOMBIE true
            (ENET_NET_TO_HOST_32 command.disconnectView) ∧
      (enet_protocol_handle_disconnect hdr host peer command store).host.dispatchQueue
        = unlinked host peer ++ [peer.incomingPeerID]) ∧
    ((peer.state = ENetPeerState.CONNECTING ∨
        peer.state = ENetPeerState.CONNECTION_SUCCEEDED ∨
        peer.state = ENetPeerState.DISCONNECTING) →
      (enet_protocol_handle_disconnect hdr host peer command store).peer
        = disconnectedBy peer ENetPeerState.ZOMBIE true
            (ENET_NET_TO_HOST_32 command.disconnectView) ∧
      (enet_protocol_handle_disconnect hdr host peer command store).host.dispatchQueue
        = unlinked host peer ++ [peer.incomingPeerID]) ∧
    ((peer.state = ENetPeerState.ACKNOWLEDGING_CONNECT ∨
        peer.state = ENetPeerState.CONNECTION_PENDING) →
      ((enet_protocol_handle_disconnect hdr host peer command store).host,
       (enet_protocol_handle_disconnect hdr host peer command store).peer,
       (enet_protocol_handle_disconnect hdr host peer command store).store)
        = enet_peer_reset hdr
            (if peer.state = ENetPeerState.CONNECTION_PENDING then
              { (enet_peer_reset_queues host peer store).1 with recalculateBandwidthLimits := 1 }
             else (enet_peer_reset_queues host peer store).1)
            (enet_peer_reset_queues host peer store).2.1
            (enet_peer_reset_queues host peer store).2.2 ∧
      (enet_protocol_handle_disconnect hdr host peer command store).peer.state
        = ENetPeerState.DISCONNECTED ∧
      (enet_protocol_handle_disconnect hdr host peer command store).peer.eventData = 0) := by
  obtain ⟨hstate, hflag, hid, hqueue⟩ := enet_peer_reset_queues_state host peer store
  refine ⟨?_, ?_, ?_, ?_, ?_, ?_⟩
  · unfold enet_protocol_handle_disconnect
    split_ifs <;> rfl
  · intro h
    unfold enet_protocol_handle_disconnect
    rw [if_pos h]
  · intro hs hack
    have hidle : ¬ (peer.state = ENetPeerState.DISCONNECTED ∨
        peer.state = ENetPeerState.ZOMBIE ∨
        peer.state = ENetPeerState.ACKNOWLEDGING_DISCONNECT) := by
      rcases hs with hs | hs <;> rw [hs] <;> decide
    have hz : handleDisconnectState hdr (enet_peer_reset_queues host peer store).1
        (enet_peer_reset_queues host peer store).2.1 command
        (enet_peer_reset_queues host peer store).2.2
      = ((enet_protocol_change_state (enet_peer_reset_queues host peer store).1
            (enet_peer_reset_queues host peer store).2.1
            ENetPeerState.ACKNOWLEDGING_DISCONNECT).1,
         (enet_protocol_change_state (enet_peer_reset_queues host peer store).1
            (enet_peer_reset_queues host peer store).2.1
            ENetPeerState.ACKNOWLEDGING_DISCONNECT).2,
         (enet_peer_reset_queues host peer store).2.2) := by
      unfold handleDisconnectState
      rw [hstate]
      rw [if_neg (by rcases hs with hs | hs <;> rw [hs] <;> decide),
        if_neg (by rcases hs with hs | hs <;> rw [hs] <;> decide), if_pos hack]
    obtain ⟨hq, -, hp⟩ := enet_protocol_change_state_keeps
      (enet_peer_reset_queues host peer store).1 (enet_peer_reset_queues host peer store).2.1
      ENetPeerState.ACKNOWLEDGING_DISCONNECT
    have hpeer : (enet_protocol_handle_disconnect hdr host peer command store).host.dispatchQueue
        = unlinked host peer := by
      rw [enet_protocol_handle_disconnect_eq hdr host peer command store hidle, hz]
      dsimp only
      rw [hq, hqueue]
    refine ⟨?_, hpeer, ?_⟩
    · rw [enet_protocol_handle_disconnect_eq hdr host peer command store hidle, hz]
      dsimp only
      rw [hp, if_pos (by dsimp only; decide),
        (enet_peer_reset_queues_keeps host peer store).2]
      rfl
    · intro hl
      rw [hpeer]
      exact not_mem_unlinked host peer hl
  · intro hs hack
    have hidle : ¬ (peer.state = ENetPeerState.DISCONNECTED ∨
        peer.state = ENetPeerState.ZOMBIE ∨
        peer.state = ENetPeerState.ACKNOWLEDGING_DISCONNECT) := by
      rcases hs with hs | hs <;> rw [hs] <;> decide
    apply enet_protocol_handle_disconnect_zombie hdr host peer command store hidle
    unfold handleDisconnectState
    rw [hstate]
    rw [if_neg (by rcases hs with hs | hs <;> rw [hs] <;> decide),
      if_neg (by rcases hs with hs | hs <;> rw [hs] <;> decide),
      if_neg (by rw [hack]; decide)]
  · intro hs
    have hidle : ¬ (peer.state = ENetPeerState.DISCONNECTED ∨
        peer.state = ENetPeerState.ZOMBIE ∨
        peer.state = ENetPeerState.ACKNOWLEDGING_DISCONNECT) := by
      rcases hs with hs | hs | hs <;> rw [hs] <;> decide
    apply enet_protocol_handle_disconnect_zombie hdr host peer command store hidle
    unfold handleDisconnectState
    rw [hstate]
    rw [if_pos (by rcases hs with hs | hs | hs <;> rw [hs] <;> decide)]
  · intro hs
    have hidle : ¬ (peer.state = ENetPeerState.DISCONNECTED ∨
        peer.state = ENetPeerState.ZOMBIE ∨
        peer.state = ENetPeerState.ACKNOWLEDGING_DISCONNECT) := by
      rcases hs with hs | hs <;> rw [hs] <;> decide
    have hz : handleDisconnectState hdr (enet_peer_reset_queues host peer store).1
        (enet_peer_reset_queues host peer store).2.1 command
        (enet_peer_reset_queues host peer store).2.2
      = enet_peer_reset hdr
            (if peer.state = ENetPeerState.CONNECTION_PENDING then
              { (enet_peer_reset_queues host peer store).1 with recalculateBandwidthLimits := 1 }
             else (enet_peer_reset_queues host peer store).1)
            (enet_peer_reset_queues host peer store).2.1
            (enet_peer_reset_queues host peer store).2.2 := by
      unfold handleDisconnectState
      rw [hstate]
      rw [if_neg (by rcases hs with hs | hs <;> rw [hs] <;> decide),
        if_pos (by rcases hs with hs | hs <;> rw [hs] <;> decide)]
    have hd := (enet_peer_reset_keeps hdr
            (if peer.state = ENetPeerState.CONNECTION_PENDING then
              { (enet_peer_reset_queues host peer store).1 with recalculateBandwidthLimits := 1 }
             else (enet_peer_reset_queues host peer store).1)
            (enet_peer_reset_queues host peer store).2.1
            (enet_peer_reset_queues host peer store).2.2).2.1
    have he : (enet_peer_reset hdr
            (if peer.state = ENetPeerState.CONNECTION_PENDING then
              { (enet_peer_reset_queues host peer store).1 with recalculateBandwidthLimits := 1 }
             else (enet_peer_reset_queues host peer store).1)
            (enet_peer_reset_queues host peer store).2.1
            (enet_peer_reset_queues host peer store).2.2).2.1.eventData = 0 := by
      unfold enet_peer_reset
      dsimp only
      rw [(enet_peer_reset_queues_keeps _ _ _).2]
    rw [enet_protocol_handle_disconnect_eq hdr host peer command store hidle, hz]
    generalize enet_peer_reset hdr _ _ _ = R at hd he ⊢
    rw [if_neg (by rw [hd]; decide)]
    exact ⟨rfl, hd, he⟩

/-- C37 at a sample: a `CONNECTED` peer that is linked on the dispatch queue receives a
`DISCONNECT` with the `ACKNOWLEDGE` flag and the data 7. -/
theorem enet_protocol_handle_disconnect_states_witness :
    sampleReceivingPeer.state = ENetPeerState.CONNECTED ∧
    sampleDisconnect.command &&& ENET_PROTOCOL_COMMAND_FLAG_ACKNOWLEDGE ≠ 0 ∧
    DispatchLinked sampleReceivingHost sampleReceivingPeer ∧
    (enet_protocol_handle_disconnect sampleHeader sampleReceivingHost sampleReceivingPeer
        sampleDisconnect []).peer
      = disconnectedBy sampleReceivingPeer ENetPeerState.ACKNOWLEDGING_DISCONNECT false 7 ∧
    (enet_protocol_handle_disconnect sampleHeader sampleReceivingHost sampleReceivingPeer
        sampleDisconnect []).host.dispatchQueue = [] ∧
    sampleReceivingPeer.incomingPeerID ∉
      (enet_protocol_handle_disconnect sampleHeader sampleReceivingHost sampleReceivingPeer
        sampleDisconnect []).host.dispatchQueue :=
  ⟨by decide, by decide, by decide,
    ((enet_protocol_handle_disconnect_states sampleHeader sampleReceivingHost
      sampleReceivingPeer sampleDisconnect []).2.2.1 (Or.inl (by decide)) (by decide)).1,
    by decide,
    ((enet_protocol_handle_disconnect_states sampleHeader sampleReceivingHost
      sampleReceivingPeer sampleDisconnect []).2.2.1 (Or.inl (by decide))
      (by decide)).2.2 (by decide)⟩

/-! ## Giving a peer up -/

/-- The test of the code that gives the peer up is the condition `GivesUp`, for an expired
command. -/
theorem timeoutExceeded_iff (time : ENetTime) (host : ENetHost) (peer : ENetPeer)
    (c : ENetOutgoingCommand) (hc : timedOut time host c = true) :
    timeoutExceeded time host (timeoutEarliest time peer c) c = true
      ↔ GivesUp time host peer peer.earliestTimeout c := by
  have he : (timeoutEarliest time peer c).earliestTimeout
      = earliestUpdated time peer.earliestTimeout c := by
    unfold timeoutEarliest earliestUpdated
    split_ifs <;> rfl
  have hmax : (timeoutEarliest time peer c).timeoutMaximum = peer.timeoutMaximum := by
    unfold timeoutEarliest
    split_ifs <;> rfl
  have hmin : (timeoutEarliest time peer c).timeoutMinimum = peer.timeoutMinimum := by
    unfold timeoutEarliest
    split_ifs <;> rfl
  unfold timeoutExceeded GivesUp
  rw [he, hmax, hmin, decide_eq_true_iff]
  exact ⟨fun h => ⟨hc, h⟩, fun h => h.2⟩

/-- The fields of the peer that the loop of `enet_protocol_check_timeouts` keeps when it
counts a command as lost. -/
theorem timeoutLost_keeps (time : ENetTime) (peer : ENetPeer) (c : ENetOutgoingCommand)
    (kept rest : List ENetOutgoingCommand) :
    (timeoutLost (timeoutEarliest time peer c) c kept rest).state = peer.state ∧
    (timeoutLost (timeoutEarliest time peer c) c kept rest).incomingPeerID
      = peer.incomingPeerID ∧
    (timeoutLost (timeoutEarliest time peer c) c kept rest).needsDispatch
      = peer.needsDispatch ∧
    (timeoutLost (timeoutEarliest time peer c) c kept rest).timeoutMaximum
      = peer.timeoutMaximum ∧
    (timeoutLost (timeoutEarliest time peer c) c kept rest).timeoutMinimum
      = peer.timeoutMinimum ∧
    (timeoutLost (timeoutEarliest time peer c) c kept rest).earliestTimeout
      = earliestUpdated time peer.earliestTimeout c := by
  unfold timeoutLost timeoutEarliest earliestUpdated
  dsimp only
  split_ifs <;> (split <;> exact ⟨rfl, rfl, rfl, rfl, rfl, rfl⟩)

/-- The condition `GivesUp` reads only the two timeout bounds of the peer. -/
theorem GivesUp.congr {time : ENetTime} {host : ENetHost} {p q : ENetPeer} {e : Nat}
    {c : ENetOutgoingCommand} (hmax : p.timeoutMaximum = q.timeoutMaximum)
    (hmin : p.timeoutMinimum = q.timeoutMinimum) :
    GivesUp time host p e c ↔ GivesUp time host q e c := by
  unfold GivesUp
  rw [hmax, hmin]

/-- The commands passed by the loop, with one more command in front that is passed. -/
theorem PassedBy.cons {time : ENetTime} {host : ENetHost} {peer : ENetPeer} {e : Nat}
    {c : ENetOutgoingCommand} {before : List ENetOutgoingCommand}
    (hc : ¬ GivesUp time host peer e c)
    (h : PassedBy time host peer
      (if timedOut time host c then earliestUpdated time e c else e) before) :
    PassedBy time host peer e (c :: before) := by
  intro pre d post hsplit
  cases pre with
  | nil =>
    simp only [List.nil_append, List.cons.injEq] at hsplit
    rw [← hsplit.1]
    exact hc
  | cons x pre =>
    simp only [List.cons_append, List.cons.injEq] at hsplit
    rw [← hsplit.1]
    exact h pre d post hsplit.2

/-- What the loop of `enet_protocol_check_timeouts` returns for the commands `rest` that it
has still to visit. -/
theorem enet_protocol_check_timeouts_loop_gives_up (hdr : ENetHeader) (time : ENetTime)
    (host : ENetHost) (event : Option ENetEvent) (store : PacketStore) (peer0 : ENetPeer) :
    ∀ (rest : List ENetOutgoingCommand) (peer : ENetPeer)
      (kept moved : List ENetOutgoingCommand),
      peer.state = peer0.state → peer.incomingPeerID = peer0.incomingPeerID →
      peer.needsDispatch = peer0.needsDispatch →
      peer.timeoutMaximum = peer0.timeoutMaximum →
      peer.timeoutMinimum = peer0.timeoutMinimum →
      ((enet_protocol_check_timeouts_loop hdr time host event store peer kept moved
          rest).status = 0 ∨
        (enet_protocol_check_timeouts_loop hdr time host event store peer kept moved
          rest).status = 1) ∧
      ((enet_protocol_check_timeouts_loop hdr time host event store peer kept moved
          rest).status = 1 →
        ∃ (pre : List ENetOutgoingCommand) (c : ENetOutgoingCommand)
          (post : List ENetOutgoingCommand) (p : ENetPeer),
          rest = pre ++ c :: post ∧
          PassedBy time host peer0 peer.earliestTimeout pre ∧
          GivesUp time host peer0 (earliestReached time host peer.earliestTimeout pre) c ∧
          p.state = peer0.state ∧ p.incomingPeerID = peer0.incomingPeerID ∧
          p.needsDispatch = peer0.needsDispatch ∧
          ((enet_protocol_check_timeouts_loop hdr time host event store peer kept moved
              rest).host,
           (enet_protocol_check_timeouts_loop hdr time host event store peer kept moved
              rest).peer,
           (enet_protocol_check_timeouts_loop hdr time host event store peer kept moved
              rest).event,
           (enet_protocol_check_timeouts_loop hdr time host event store peer kept moved
              rest).store)
            = enet_protocol_notify_disconnect hdr host p event store) ∧
      ((∃ (pre : List ENetOutgoingCommand) (c : ENetOutgoingCommand)
          (post : List ENetOutgoingCommand),
          rest = pre ++ c :: post ∧
          GivesUp time host peer0 (earliestReached time host peer.earliestTimeout pre) c) →
        (enet_protocol_check_timeouts_loop hdr time host event store peer kept moved
          rest).status = 1) := by
  intro rest
  induction rest with
  | nil =>
    intro peer kept moved _ _ _ _ _
    unfold enet_protocol_check_timeouts_loop
    refine ⟨Or.inl rfl, ?_, ?_⟩
    · intro h
      have h0 : (0 : Int) = 1 := h
      exact absurd h0 (by decide)
    · rintro ⟨pre, c, post, hsplit, -⟩
      cases pre <;> cases hsplit
  | cons c rest ih =>
    intro peer kept moved hstate hid hflag hmax hmin
    rw [enet_protocol_check_timeouts_loop_cons]
    by_cases hc : timedOut time host c = false
    · rw [if_pos hc]
      obtain ⟨h01, h1, hex⟩ := ih peer (kept ++ [c]) moved hstate hid hflag hmax hmin
      have hnot : ¬ GivesUp time host peer0 peer.earliestTimeout c := by
        intro hg
        rw [hg.1] at hc
        cases hc
      refine ⟨h01, fun hs => ?_, ?_⟩
      · obtain ⟨pre, d, post, p, hsplit, hpass, hg, hp⟩ := h1 hs
        refine ⟨c :: pre, d, post, p, by rw [hsplit]; rfl, ?_, ?_, hp⟩
        · apply PassedBy.cons hnot
          rw [hc]
          exact hpass
        · unfold earliestReached
          rw [hc]
          exact hg
      · rintro ⟨pre, d, post, hsplit, hg⟩
        apply hex
        cases pre with
        | nil =>
          simp only [List.nil_append, List.cons.injEq] at hsplit
          rw [← hsplit.1] at hg
          exact absurd hg hnot
        | cons x pre =>
          simp only [List.cons_append, List.cons.injEq] at hsplit
          rw [← hsplit.1] at hg
          unfold earliestReached at hg
          rw [hc] at hg
          exact ⟨pre, d, post, hsplit.2, hg⟩
    · have hc1 : timedOut time host c = true := by
        cases h : timedOut time host c
        · exact absurd h hc
        · rfl
      rw [if_neg hc]
      have hiff := timeoutExceeded_iff time host peer c hc1
      have hcongr : GivesUp time host peer peer.earliestTimeout c
          ↔ GivesUp time host peer0 peer.earliestTimeout c := GivesUp.congr hmax hmin
      by_cases hx : timeoutExceeded time host (timeoutEarliest time peer c) c = true
      · rw [if_pos hx]
        have hg := hcongr.mp (hiff.mp hx)
        refine ⟨Or.inr rfl, fun _ => ?_, fun _ => rfl⟩
        refine ⟨[], c, rest, _, rfl, ?_, hg, ?_, ?_, ?_, rfl⟩
        · intro pre d post hsplit
          cases pre <;> cases hsplit
        · show (timeoutEarliest time peer c).state = peer0.state
          unfold timeoutEarliest
          split_ifs <;> exact hstate
        · show (timeoutEarliest time peer c).incomingPeerID = peer0.incomingPeerID
          unfold timeoutEarliest
          split_ifs <;> exact hid
        · show (timeoutEarliest time peer c).needsDispatch = peer0.needsDispatch
          unfold timeoutEarliest
          split_ifs <;> exact hflag
      · rw [if_neg hx]
        have hnot : ¬ GivesUp time host peer0 peer.earliestTimeout c :=
          fun hg => hx (hiff.mpr (hcongr.mpr hg))
        obtain ⟨ks, ki, kf, kmax, kmin, ke⟩ := timeoutLost_keeps time peer c kept rest
        obtain ⟨h01, h1, hex⟩ := ih (timeoutLost (timeoutEarliest time peer c) c kept rest)
          kept (moved ++ [retransmitted c]) (ks.trans hstate) (ki.trans hid)
          (kf.trans hflag) (kmax.trans hmax) (kmin.trans hmin)
        rw [ke] at h1 hex
        refine ⟨h01, fun hs => ?_, ?_⟩
        · obtain ⟨pre, d, post, p, hsplit, hpass, hg, hp⟩ := h1 hs
          refine ⟨c :: pre, d, post, p, by rw [hsplit]; rfl, ?_, ?_, hp⟩
          · apply PassedBy.cons hnot
            rw [hc1]
            exact hpass
          · unfold earliestReached
            rw [hc1]
            exact hg
        · rintro ⟨pre, d, post, hsplit, hg⟩
          apply hex
          cases pre with
          | nil =>
            simp only [List.nil_append, List.cons.injEq] at hsplit
            rw [← hsplit.1] at hg
            exact absurd hg hnot
          | cons x pre =>
            simp only [List.cons_append, List.cons.injEq] at hsplit
            rw [← hsplit.1] at hg
            unfold earliestReached at hg
            rw [hc1] at hg
            exact ⟨pre, d, post, hsplit.2, hg⟩

/-- The three ways in which `enet_protocol_notify_disconnect` leaves a peer: reset, reset
and reported in a `DISCONNECT` event, or `ZOMBIE` on the dispatch queue. -/
theorem enet_protocol_notify_disconnect_outcome (hdr : ENetHeader) (host : ENetHost)
    (p : ENetPeer) (event : Option ENetEvent) (store : PacketStore) :
    ((p.state ≠ ENetPeerState.CONNECTING ∧
        p.state.toNat < ENetPeerState.CONNECTION_SUCCEEDED.toNat) →
      ((enet_protocol_notify_disconnect hdr host p event store).1,
       (enet_protocol_notify_disconnect hdr host p event store).2.1,
       (enet_protocol_notify_disconnect hdr host p event store).2.2.2)
        = enet_peer_reset hdr (notifiedHost host p) p store ∧
      (enet_protocol_notify_disconnect hdr host p event store).2.1.state
        = ENetPeerState.DISCONNECTED ∧
      (enet_protocol_notify_disconnect hdr host p event store).2.2.1 = event) ∧
    (¬ (p.state ≠ ENetPeerState.CONNECTING ∧
        p.state.toNat < ENetPeerState.CONNECTION_SUCCEEDED.toNat) →
      ∀ e : ENetEvent, event = some e →
      ((enet_protocol_notify_disconnect hdr host p event store).1,
       (enet_protocol_notify_disconnect hdr host p event store).2.1,
       (enet_protocol_notify_disconnect hdr host p event store).2.2.2)
        = enet_peer_reset hdr (notifiedHost host p) p store ∧
      (enet_protocol_notify_disconnect hdr host p event store).2.1.state
        = ENetPeerState.DISCONNECTED ∧
      (enet_protocol_notify_disconnect hdr host p event store).2.2.1
        = some { e with type := ENetEventType.DISCONNECT,
                        peer := some p.incomingPeerID, data := 0 }) ∧
    (¬ (p.state ≠ ENetPeerState.CONNECTING ∧
        p.state.toNat < ENetPeerState.CONNECTION_SUCCEEDED.toNat) →
      event = none →
      (enet_protocol_notify_disconnect hdr host p event store).2.1.state
        = ENetPeerState.ZOMBIE ∧
      (enet_protocol_notify_disconnect hdr host p event store).2.1.needsDispatch = true ∧
      (enet_protocol_notify_disconnect hdr host p event store).2.1.eventData = 0 ∧
      (enet_protocol_notify_disconnect hdr host p event store).1.dispatchQueue
        = (if p.needsDispatch then host.dispatchQueue
           else host.dispatchQueue ++ [p.incomingPeerID]) ∧
      ((p.needsDispatch = true → p.incomingPeerID ∈ host.dispatchQueue) →
        p.incomingPeerID
          ∈ (enet_protocol_notify_disconnect hdr host p event store).1.dispatchQueue) ∧
      (enet_protocol_notify_disconnect hdr host p event store).2.2.1 = none) := by
  refine ⟨fun h => ?_, fun h e he => ?_, fun h he => ?_⟩
  · unfold enet_protocol_notify_disconnect
    dsimp only
    rw [if_pos h]
    exact ⟨rfl, (enet_peer_reset_keeps hdr _ p store).2.1, rfl⟩
  · subst he
    unfold enet_protocol_notify_disconnect
    dsimp only
    rw [if_neg h]
    exact ⟨rfl, (enet_peer_reset_keeps hdr _ p store).2.1, rfl⟩
  · subst he
    unfold enet_protocol_notify_disconnect
    dsimp only
    rw [if_neg h]
    obtain ⟨hp, hq⟩ := enet_protocol_dispatch_state_links (notifiedHost host p)
      { p with eventData := 0 } ENetPeerState.ZOMBIE
    unfold notifiedHost at hp hq
    rw [hp]
    have hqueue : (if p.state.toNat ≥ ENetPeerState.CONNECTION_PENDING.toNat then
          { host with recalculateBandwidthLimits := 1 } else host).dispatchQueue
        = host.dispatchQueue := by
      split_ifs <;> rfl
    rw [hqueue] at hq
    refine ⟨rfl, rfl, rfl, hq, ?_, rfl⟩
    intro hl
    rw [hq]
    dsimp only
    cases hf : p.needsDispatch
    · simp
    · simp only [if_true]
      exact hl hf

/-- C31: `enet_protocol_check_timeouts` returns 0 or 1, and it returns 1 exactly when the
loop reaches (having given up at no command before) an expired command for which
`earliestTimeout`, updated with the `sentTime` of the command, is not zero and either its age
`ENET_TIME_DIFFERENCE (serviceTime, earliestTimeout)` is at least `timeoutMaximum`, or the
`roundTripTimeout` of the command is at least its `roundTripTimeoutLimit` and the age is at
least `timeoutMinimum`.  When it returns 1 the result is that of
`enet_protocol_notify_disconnect` on the peer in the state and slot it was in: the peer is
reset (state `DISCONNECTED`) when it was in `DISCONNECTED`, `ACKNOWLEDGING_CONNECT` or
`CONNECTION_PENDING`; otherwise with an event to fill it is reset and the event is a
`DISCONNECT` for the slot with data 0; otherwise it is `ZOMBIE`, flagged, with `eventData` 0
and its node on the dispatch queue (a peer that was flagged is taken to be linked
already). -/
theorem enet_protocol_check_timeouts_gives_up (hdr : ENetHeader) (time : ENetTime)
    (host : ENetHost) (peer : ENetPeer) (event : Option ENetEvent) (store : PacketStore) :
    ((enet_protocol_check_timeouts hdr time host peer event store).status = 0 ∨
      (enet_protocol_check_timeouts hdr time host peer event store).status = 1) ∧
    ((enet_protocol_check_timeouts hdr time host peer event store).status = 1 ↔
      ∃ (pre : List ENetOutgoingCommand) (c : ENetOutgoingCommand)
        (post : List ENetOutgoingCommand),
        peer.sentReliableCommands = pre ++ c :: post ∧
        PassedBy time host peer peer.earliestTimeout pre ∧
        GivesUp time host peer (earliestReached time host peer.earliestTimeout pre) c) ∧
    ((enet_protocol_check_timeouts hdr time host peer event store).status = 1 →
      ∃ p : ENetPeer,
        p.state = peer.state ∧ p.incomingPeerID = peer.incomingPeerID ∧
        ((enet_protocol_check_timeouts hdr time host peer event store).host,
         (enet_protocol_check_timeouts hdr time host peer event store).peer,
         (enet_protocol_check_timeouts hdr time host peer event store).event,
         (enet_protocol_check_timeouts hdr time host peer event store).store)
          = enet_protocol_notify_disconnect hdr host p event store ∧
        ((peer.state ≠ ENetPeerState.CONNECTING ∧
            peer.state.toNat < ENetPeerState.CONNECTION_SUCCEEDED.toNat) →
          ((enet_protocol_check_timeouts hdr time host peer event store).host,
           (enet_protocol_check_timeouts hdr time host peer event store).peer,
           (enet_protocol_check_timeouts hdr time host peer event store).store)
            = enet_peer_reset hdr (notifiedHost host peer) p store ∧
          (enet_protocol_check_timeouts hdr time host peer event store).peer.state
            = ENetPeerState.DISCONNECTED ∧
          (enet_protocol_check_timeouts hdr time host peer event store).event = event) ∧
        (¬ (peer.state ≠ ENetPeerState.CONNECTING ∧
            peer.state.toNat < ENetPeerState.CONNECTION_SUCCEEDED.toNat) →
          ∀ e : ENetEvent, event = some e →
          ((enet_protocol_check_timeouts hdr time host peer event store).host,
           (enet_protocol_check_timeouts hdr time host peer event store).peer,
           (enet_protocol_check_timeouts hdr time host peer event store).store)
            = enet_peer_reset hdr (notifiedHost host peer) p store ∧
          (enet_protocol_check_timeouts hdr time host peer event store).peer.state
            = ENetPeerState.DISCONNECTED ∧
          (enet_protocol_check_timeouts hdr time host peer event store).event
            = some { e with type := ENetEventType.DISCONNECT,
                            peer := some peer.incomingPeerID, data := 0 }) ∧
        (¬ (peer.state ≠ ENetPeerState.CONNECTING ∧
            peer.state.toNat < ENetPeerState.CONNECTION_SUCCEEDED.toNat) →
          event = none →
          (enet_protocol_check_timeouts hdr time host peer event store).peer.state
            = ENetPeerState.ZOMBIE ∧
          (enet_protocol_check_timeouts hdr time host peer event store).peer.needsDispatch = true ∧
          (enet_protocol_check_timeouts hdr time host peer event store).peer.eventData = 0 ∧
          (enet_protocol_check_timeouts hdr time host peer event store).host.dispatchQueue
            = (if peer.needsDispatch then host.dispatchQueue
               else host.dispatchQueue ++ [peer.incomingPeerID]) ∧
          ((peer.needsDispatch = true → peer.incomingPeerID ∈ host.dispatchQueue) →
            peer.incomingPeerID
              ∈ (enet_protocol_check_timeouts hdr time host peer event store).host.dispatchQueue) ∧
          (enet_protocol_check_timeouts hdr time host peer event store).event = none)) := by
  unfold enet_protocol_check_timeouts
  obtain ⟨h01, h1, hex⟩ := enet_protocol_check_timeouts_loop_gives_up hdr time host event
    store peer peer.sentReliableCommands peer [] [] rfl rfl rfl rfl rfl
  refine ⟨h01, ⟨fun hs => ?_, ?_⟩, fun hs => ?_⟩
  · obtain ⟨pre, c, post, p, hsplit, hpass, hg, -⟩ := h1 hs
    exact ⟨pre, c, post, hsplit, hpass, hg⟩
  · rintro ⟨pre, c, post, hsplit, -, hg⟩
    exact hex ⟨pre, c, post, hsplit, hg⟩
  · obtain ⟨pre, c, post, p, -, -, -, hstate, hid, hflag, hp⟩ := h1 hs
    obtain ⟨o1, o2, o3⟩ := enet_protocol_notify_disconnect_outcome hdr host p event store
    have hn : notifiedHost host p = notifiedHost host peer := by
      unfold notifiedHost
      rw [hstate]
    rw [hstate, hn] at o1
    rw [hstate, hn, hid] at o2
    rw [hstate, hid, hflag] at o3
    have e1 := congrArg (fun x => x.1) hp
    have e2 := congrArg (fun x => x.2.1) hp
    have e3 := congrArg (fun x => x.2.2.1) hp
    have e4 := congrArg (fun x => x.2.2.2) hp
    dsimp only at e1 e2 e3 e4
    refine ⟨p, hstate, hid, hp, ?_, ?_, ?_⟩
    · intro h
      rw [e1, e2, e3, e4]
      exact o1 h
    · intro h e he
      rw [e1, e2, e3, e4]
      exact o2 h e he
    · intro h he
      rw [e1, e2, e3]
      exact o3 h he

/-- C31 at a sample: the command sent at time 5000 has expired at the service time 40000,
and the age 35000 of the earliest timeout has reached the maximum of 30000; the peer, with no
event to fill, ends up `ZOMBIE` on the dispatch queue. -/
theorem enet_protocol_check_timeouts_gives_up_witness :
    (enet_protocol_check_timeouts sampleHeader sampleTime sampleLateHost sampleExpiredPeer none []).status = 1 ∧
    (enet_protocol_check_timeouts sampleHeader sampleTime sampleLateHost sampleExpiredPeer none []).peer.state = ENetPeerState.ZOMBIE ∧
    (enet_protocol_check_timeouts sampleHeader sampleTime sampleLateHost sampleExpiredPeer none []).peer.needsDispatch = true ∧
    (enet_protocol_check_timeouts sampleHeader sampleTime sampleLateHost sampleExpiredPeer none []).host.dispatchQueue = [0] ∧
    sampleExpiredPeer.incomingPeerID ∈ (enet_protocol_check_timeouts sampleHeader sampleTime sampleLateHost sampleExpiredPeer none []).host.dispatchQueue :=
  have hs : (enet_protocol_check_timeouts sampleHeader sampleTime sampleLateHost sampleExpiredPeer none []).status = 1 := by decide
  have h := (enet_protocol_check_timeouts_gives_up sampleHeader sampleTime sampleLateHost
    sampleExpiredPeer none []).2.2 hs
  ⟨hs, by decide, by decide, by decide,
    h.elim fun _ hp => (hp.2.2.2.2.2 (by decide) rfl).2.2.2.2.1 (by decide)⟩

/-! ## The window tests of `enet_protocol_check_outgoing_commands` -/

/-- Induction over the loop of `enet_protocol_check_outgoing_commands` on the whole of its
locals: a property `Q` holds of the locals with which the loop is left if it holds at the
start and each way through the loop body keeps it, under the tests that lead that way. -/
theorem enet_protocol_check_outgoing_commands_loop_steps (hdr : ENetHeader)
    (Q : CheckOutgoingState → Prop)
    (hclear : ∀ st : CheckOutgoingState, Q st → Q { st with dropping := none })
    (hgroup : ∀ (st : CheckOutgoingState) (pid : Nat), Q st →
      Q { st with store := st.store.release pid })
    (hwrap : ∀ (st : CheckOutgoingState) (c : ENetOutgoingCommand), Q st →
      c.command.command &&& ENET_PROTOCOL_COMMAND_FLAG_ACKNOWLEDGE ≠ 0 →
      channelFor st.peer c ≠ none → (wrapState st c).windowWrap = true →
      Q { wrapState st c with kept := st.kept ++ [c] })
    (hexceeded : ∀ (st : CheckOutgoingState) (c : ENetOutgoingCommand), Q st →
      c.command.command &&& ENET_PROTOCOL_COMMAND_FLAG_ACKNOWLEDGE ≠ 0 →
      c.packet ≠ none → (exceededState st c).windowExceeded = true →
      Q { exceededState st c with kept := st.kept ++ [c] })
    (hfull : ∀ (st : CheckOutgoingState) (c : ENetOutgoingCommand), Q st →
      Q { readyState st c with
          host := { (readyState st c).host with continueSending := 1 } })
    (hsend : ∀ (st : CheckOutgoingState) (c : ENetOutgoingCommand), Q st →
      c.command.command &&& ENET_PROTOCOL_COMMAND_FLAG_ACKNOWLEDGE ≠ 0 →
      (c.command.channelID < st.peer.channelCount → channelFor st.peer c ≠ none) →
      (channelFor st.peer c ≠ none → (wrapState st c).windowWrap = false) →
      (c.packet ≠ none → (exceededState st c).windowExceeded = false) →
      Q (emitCommand
          (sendReliableCommand (readyState st c) c (channelFor st.peer c)
            (u16 (c.reliableSequenceNumber / ENET_PEER_RELIABLE_WINDOW_SIZE))).1
          (sendReliableCommand (readyState st c) c (channelFor st.peer c)
            (u16 (c.reliableSequenceNumber / ENET_PEER_RELIABLE_WINDOW_SIZE))).2
          (commandSizes.getD (c.command.command &&& ENET_PROTOCOL_COMMAND_MASK) 0)))
    (hdrop : ∀ (st : CheckOutgoingState) (c : ENetOutgoingCommand) (pid : Nat), Q st →
      c.command.command &&& ENET_PROTOCOL_COMMAND_FLAG_ACKNOWLEDGE = 0 →
      Q { throttleState st c with
          store := (throttleState st c).store.release pid,
          dropping := some (c.reliableSequenceNumber, c.unreliableSequenceNumber) })
    (hpass : ∀ (st : CheckOutgoingState) (c : ENetOutgoingCommand), Q st →
      c.command.command &&& ENET_PROTOCOL_COMMAND_FLAG_ACKNOWLEDGE = 0 →
      Q (emitCommand
          (if c.packet ≠ none then
            { throttleState st c with peer := { (throttleState st c).peer with
                sentUnreliableCommands :=
                  (throttleState st c).peer.sentUnreliableCommands ++ [c] } }
           else throttleState st c) c
          (commandSizes.getD (c.command.command &&& ENET_PROTOCOL_COMMAND_MASK) 0))) :
    ∀ (rest : List ENetOutgoingCommand) (st : CheckOutgoingState)
      (r : CheckOutgoingState × List ENetOutgoingCommand),
      Q st → enet_protocol_check_outgoing_commands_loop hdr st rest = some r → Q r.1 := by
  intro rest
  induction rest with
  | nil =>
    intro st r hq h
    unfold enet_protocol_check_outgoing_commands_loop at h
    cases h
    exact hclear _ hq
  | cons c rest ih =>
    intro st r hq h
    rw [enet_protocol_check_outgoing_commands_loop_cons] at h
    split at h
    · split at h
      · cases h
      · exact ih _ r (hgroup _ _ hq) h
    · split at h
      · cases h
      rename_i hch
      split at h
      · rename_i hw
        exact ih _ r (hwrap st c hq (of_decide_eq_true hw.1) hw.2.1 hw.2.2) h
      rename_i hw
      split at h
      · rename_i he
        exact ih _ r (hexceeded st c hq (of_decide_eq_true he.1) he.2.1 he.2.2) h
      rename_i he
      split at h
      · cases h
        exact hfull st c hq
      split at h
      · rename_i hack
        refine ih _ r (hsend st c hq (of_decide_eq_true hack) ?_ ?_ ?_) h
        · intro hin hnone
          exact hch ⟨hack, decide_eq_true hin, hnone⟩
        · intro hsome
          cases hv : (wrapState st c).windowWrap
          · rfl
          · exact absurd ⟨hack, hsome, hv⟩ hw
        · intro hpk
          cases hv : (exceededState st c).windowExceeded
          · rfl
          · exact absurd ⟨hack, hpk, hv⟩ he
      rename_i hack
      have hack0 : c.command.command &&& ENET_PROTOCOL_COMMAND_FLAG_ACKNOWLEDGE = 0 := by
        by_contra hx
        exact hack (decide_eq_true hx)
      split at h
      · split at h
        · cases h
        · exact ih _ r (hdrop st c _ hq hack0) h
      · exact ih _ r (hpass st c hq hack0) h

/-- The mask that `enet_protocol_check_outgoing_commands` applies to `usedReliableWindows`
selects the windows `reliableWindow`, ..., `reliableWindow + 9` modulo 16. -/
theorem usedReliableWindows_mask (used w : Nat) (hused : used < 65536) (hw : w < 16) :
    used &&& ((((1 <<< (ENET_PEER_FREE_RELIABLE_WINDOWS + 2)) - 1) <<< w) |||
        (((1 <<< (ENET_PEER_FREE_RELIABLE_WINDOWS + 2)) - 1) >>>
          (ENET_PEER_RELIABLE_WINDOWS - w))) ≠ 0
      ↔ ∃ i, i < ENET_PEER_FREE_RELIABLE_WINDOWS + 2 ∧
          used.testBit ((w + i) % ENET_PEER_RELIABLE_WINDOWS) = true := by
  unfold ENET_PEER_FREE_RELIABLE_WINDOWS ENET_PEER_RELIABLE_WINDOWS
  have hm : (1 <<< (8 + 2)) - 1 = 2 ^ 10 - 1 := by decide
  rw [hm]
  have hbit : ∀ j, (used &&& (((2 ^ 10 - 1) <<< w) ||| ((2 ^ 10 - 1) >>> (16 - w)))).testBit j
      = (used.testBit j && ((decide (j ≥ w) && decide (j - w < 10)) ||
          decide (16 - w + j < 10))) := by
    intro j
    rw [Nat.testBit_and, Nat.testBit_or, Nat.testBit_shiftLeft, Nat.testBit_shiftRight,
      Nat.testBit_two_pow_sub_one, Nat.testBit_two_pow_sub_one]
  have hhigh : ∀ j, 16 ≤ j → used.testBit j = false := by
    intro j hj
    apply Nat.testBit_lt_two_pow
    calc used < 2 ^ 16 := hused
      _ ≤ 2 ^ j := Nat.pow_le_pow_right (by decide) hj
  constructor
  · intro h
    obtain ⟨j, hj⟩ := Nat.ne_zero_implies_bit_true h
    rw [hbit] at hj
    simp only [Bool.and_eq_true, Bool.or_eq_true, decide_eq_true_eq] at hj
    obtain ⟨hu, hr⟩ := hj
    have hj16 : j < 16 := by
      by_contra hc
      rw [hhigh j (by omega)] at hu
      cases hu
    rcases hr with ⟨h1, h2⟩ | h1
    · refine ⟨j - w, by omega, ?_⟩
      have : (w + (j - w)) % 16 = j := by omega
      rw [this]
      exact hu
    · refine ⟨16 - w + j, by omega, ?_⟩
      have : (w + (16 - w + j)) % 16 = j := by omega
      rw [this]
      exact hu
  · rintro ⟨i, hi, hu⟩ h0
    have hz := congrArg (fun x => x.testBit ((w + i) % 16)) h0
    dsimp only at hz
    rw [hbit, hu, Nat.zero_testBit] at hz
    simp only [Bool.true_and, Bool.or_eq_false_iff, Bool.and_eq_false_iff,
      decide_eq_false_iff_not] at hz
    omega

/-- The test of the code that sets `windowWrap` is the condition `WindowBlocked`, for a
command that has not been sent and starts a reliable window. -/
theorem windowWrapTest_iff (c : ENetOutgoingCommand) (channel : ENetChannel)
    (hnew : c.sendAttempts < 1)
    (hfirst : c.reliableSequenceNumber % ENET_PEER_RELIABLE_WINDOW_SIZE = 0)
    (hrsn : c.reliableSequenceNumber < 65536) (hused : channel.usedReliableWindows < 65536) :
    windowWrapTest false c channel
        (u16 (c.reliableSequenceNumber / ENET_PEER_RELIABLE_WINDOW_SIZE)) = true
      ↔ WindowBlocked channel (c.reliableSequenceNumber / ENET_PEER_RELIABLE_WINDOW_SIZE) := by
  have hw : c.reliableSequenceNumber / ENET_PEER_RELIABLE_WINDOW_SIZE < 16 := by
    unfold ENET_PEER_RELIABLE_WINDOW_SIZE
    omega
  have hu : u16 (c.reliableSequenceNumber / ENET_PEER_RELIABLE_WINDOW_SIZE)
      = c.reliableSequenceNumber / ENET_PEER_RELIABLE_WINDOW_SIZE := by
    unfold u16 ENET_PEER_RELIABLE_WINDOW_SIZE
    omega
  unfold windowWrapTest WindowBlocked WindowInUse
  rw [hu, decide_eq_true_iff, usedReliableWindows_mask _ _ hused hw]
  exact ⟨fun h => h.2.2.2, fun h => ⟨rfl, hnew, hfirst, h⟩⟩

/-- What the test of the reliable window leaves of the locals. -/
theorem wrapState_fields (st : CheckOutgoingState) (c : ENetOutgoingCommand) :
    (wrapState st c).peer = st.peer ∧ (wrapState st c).host = st.host ∧
    (wrapState st c).kept = st.kept ∧
    (wrapState st c).windowExceeded = st.windowExceeded ∧
    (st.windowWrap = true → (wrapState st c).windowWrap = true) := by
  refine ⟨rfl, rfl, rfl, rfl, fun h => ?_⟩
  unfold wrapState
  dsimp only
  split
  · rw [h, Bool.true_or]
  · exact h

/-- The two flags after the window tests. -/
theorem readyState_flags (st : CheckOutgoingState) (c : ENetOutgoingCommand) :
    (exceededState st c).peer = st.peer ∧
    (exceededState st c).windowWrap = (wrapState st c).windowWrap ∧
    (readyState st c).windowWrap = (wrapState st c).windowWrap ∧
    (readyState st c).windowExceeded = (exceededState st c).windowExceeded ∧
    (throttleState st c).windowWrap = (wrapState st c).windowWrap ∧
    (throttleState st c).windowExceeded = (exceededState st c).windowExceeded := by
  have h1 : (readyState st c).windowWrap = (wrapState st c).windowWrap ∧
      (readyState st c).windowExceeded = (exceededState st c).windowExceeded := by
    unfold readyState
    split <;> exact ⟨rfl, rfl⟩
  refine ⟨rfl, rfl, h1.1, h1.2, ?_, ?_⟩
  · unfold throttleState
    split
    · exact h1.1
    · exact h1.1
  · unfold throttleState
    split
    · exact h1.2
    · exact h1.2

/-- What the sending of a reliable command does to the fields of the peer that the window
tests read, and to `sentReliableCommands`. -/
theorem sendReliableCommand_window (st : CheckOutgoingState) (c : ENetOutgoingCommand)
    (channel : Option ENetChannel) (reliableWindow : Nat) :
    (sendReliableCommand st c channel reliableWindow).1.windowWrap = st.windowWrap ∧
    (sendReliableCommand st c channel reliableWindow).1.windowExceeded = st.windowExceeded ∧
    (sendReliableCommand st c channel reliableWindow).1.peer.channelCount
      = st.peer.channelCount ∧
    (sendReliableCommand st c channel reliableWindow).1.peer.packetThrottle
      = st.peer.packetThrottle ∧
    (sendReliableCommand st c channel reliableWindow).1.peer.windowSize
      = st.peer.windowSize ∧
    (sendReliableCommand st c channel reliableWindow).1.peer.mtu = st.peer.mtu ∧
    (sendReliableCommand st c channel reliableWindow).1.peer.reliableDataInTransit
      = u32 (st.peer.reliableDataInTransit + c.fragmentLength) ∧
    ∃ x : ENetOutgoingCommand,
      (sendReliableCommand st c channel reliableWindow).1.peer.sentReliableCommands
        = st.peer.sentReliableCommands ++ [x] ∧
      x.command = c.command ∧ x.packet = c.packet ∧ x.fragmentLength = c.fragmentLength ∧
      x.reliableSequenceNumber = c.reliableSequenceNumber := by
  refine ⟨rfl, rfl, ?_⟩
  unfold sendReliableCommand
  dsimp only
  by_cases h0 : c.roundTripTimeout = 0
  · rw [if_pos h0]
    repeat' split
    all_goals exact ⟨rfl, rfl, rfl, rfl, rfl, _, rfl, rfl, rfl, rfl, rfl⟩
  · rw [if_neg h0]
    repeat' split
    all_goals exact ⟨rfl, rfl, rfl, rfl, rfl, _, rfl, rfl, rfl, rfl, rfl⟩

/-- The fields of the peer that the window tests read, after the throttle counter has been
advanced. -/
theorem throttleState_window (st : CheckOutgoingState) (c : ENetOutgoingCommand) :
    (throttleState st c).peer.channelCount = st.peer.channelCount ∧
    (throttleState st c).peer.packetThrottle = st.peer.packetThrottle ∧
    (throttleState st c).peer.windowSize = st.peer.windowSize ∧
    (throttleState st c).peer.mtu = st.peer.mtu ∧
    (throttleState st c).peer.reliableDataInTransit = st.peer.reliableDataInTransit ∧
    (throttleState st c).peer.sentReliableCommands = st.peer.sentReliableCommands := by
  have hf := (throttleState_fields st c).1
  have h1 := congrArg (fun q : ENetPeer => q.channelCount) hf
  have h2 := congrArg (fun q : ENetPeer => q.packetThrottle) hf
  have h3 := congrArg (fun q : ENetPeer => q.windowSize) hf
  have h4 := congrArg (fun q : ENetPeer => q.mtu) hf
  have h5 := congrArg (fun q : ENetPeer => q.reliableDataInTransit) hf
  have h6 := congrArg (fun q : ENetPeer => q.sentReliableCommands) hf
  exact ⟨h1, h2, h3, h4, h5, h6⟩

/-- Once `windowWrap` is set it stays set to the end of the loop, and every command that the
loop puts into `sentReliableCommands` from then on is on no channel of the peer. -/
theorem enet_protocol_check_outgoing_commands_loop_wrapped (hdr : ENetHeader)
    (rest : List ENetOutgoingCommand) (st : CheckOutgoingState)
    (r : CheckOutgoingState × List ENetOutgoingCommand) (hwrap : st.windowWrap = true)
    (h : enet_protocol_check_outgoing_commands_loop hdr st rest = some r) :
    r.1.windowWrap = true ∧
    ∃ new : List ENetOutgoingCommand,
      r.1.peer.sentReliableCommands = st.peer.sentReliableCommands ++ new ∧
      ∀ x ∈ new, st.peer.channelCount ≤ x.command.channelID := by
  have key := enet_protocol_check_outgoing_commands_loop_steps hdr
    (fun s => s.windowWrap = true ∧ s.peer.channelCount = st.peer.channelCount ∧
      ∃ new : List ENetOutgoingCommand,
        s.peer.sentReliableCommands = st.peer.sentReliableCommands ++ new ∧
        ∀ x ∈ new, st.peer.channelCount ≤ x.command.channelID)
    (fun s hq => hq) (fun s pid hq => hq)
    (fun s c hq _ _ hw => ⟨hw, hq.2⟩)
    (fun s c hq _ _ _ => ⟨(wrapState_fields s c).2.2.2.2 hq.1, hq.2⟩)
    (fun s c hq => ?_) (fun s c hq hack hin hfree _ => ?_) (fun s c pid hq _ => ?_)
    (fun s c hq _ => ?_) rest st r ⟨hwrap, rfl, [], by simp, by simp⟩ h
  · exact ⟨key.1, key.2.2⟩
  · obtain ⟨hp, -, -, -⟩ := readyState_fields s c
    refine ⟨?_, ?_⟩
    · show (readyState s c).windowWrap = true
      rw [(readyState_flags s c).2.2.1]
      exact (wrapState_fields s c).2.2.2.2 hq.1
    · show (readyState s c).peer.channelCount = _ ∧ ∃ new, (readyState s c).peer.sentReliableCommands = _ ∧ _
      rw [hp]
      exact hq.2
  · obtain ⟨hp, -, -, -⟩ := readyState_fields s c
    obtain ⟨w1, -, w3, -, -, -, -, x, hx, hxc, -⟩ := sendReliableCommand_window (readyState s c)
      c (channelFor s.peer c) (u16 (c.reliableSequenceNumber / ENET_PEER_RELIABLE_WINDOW_SIZE))
    have hnone : channelFor s.peer c = none := by
      by_contra hsome
      have := hfree hsome
      rw [(wrapState_fields s c).2.2.2.2 hq.1] at this
      cases this
    have hout : s.peer.channelCount ≤ c.command.channelID := by
      by_contra hlt
      exact hin (by omega) hnone
    obtain ⟨hcount, new, hnew, hall⟩ := hq.2
    refine ⟨?_, ?_, new ++ [x], ?_, ?_⟩
    · show (sendReliableCommand (readyState s c) c (channelFor s.peer c)
        (u16 (c.reliableSequenceNumber / ENET_PEER_RELIABLE_WINDOW_SIZE))).1.windowWrap = true
      rw [w1, (readyState_flags s c).2.2.1]
      exact (wrapState_fields s c).2.2.2.2 hq.1
    · show (sendReliableCommand (readyState s c) c (channelFor s.peer c)
        (u16 (c.reliableSequenceNumber / ENET_PEER_RELIABLE_WINDOW_SIZE))).1.peer.channelCount = _
      rw [w3, hp]
      exact hcount
    · show (sendReliableCommand (readyState s c) c (channelFor s.peer c)
        (u16 (c.reliableSequenceNumber / ENET_PEER_RELIABLE_WINDOW_SIZE))).1.peer.sentReliableCommands = _
      rw [hx, hp, hnew, List.append_assoc]
    · intro y hy
      rcases List.mem_append.mp hy with hy | hy
      · exact hall y hy
      · rw [List.mem_singleton.mp hy, hxc, ← hcount]
        exact hout
  · obtain ⟨t1, -, -, -, -, t6⟩ := throttleState_window s c
    refine ⟨?_, ?_⟩
    · show (throttleState s c).windowWrap = true
      rw [(readyState_flags s c).2.2.2.2.1]
      exact (wrapState_fields s c).2.2.2.2 hq.1
    · show (throttleState s c).peer.channelCount = _ ∧ ∃ new, (throttleState s c).peer.sentReliableCommands = _ ∧ _
      rw [t1, t6]
      exact hq.2
  · obtain ⟨t1, -, -, -, -, t6⟩ := throttleState_window s c
    have hflag : (throttleState s c).windowWrap = true := by
      rw [(readyState_flags s c).2.2.2.2.1]
      exact (wrapState_fields s c).2.2.2.2 hq.1
    by_cases hpk : c.packet ≠ none
    · rw [if_pos hpk]
      refine ⟨hflag, ?_⟩
      show (throttleState s c).peer.channelCount = _ ∧ ∃ new, (throttleState s c).peer.sentReliableCommands = _ ∧ _
      rw [t1, t6]
      exact hq.2
    · rw [if_neg hpk]
      refine ⟨hflag, ?_⟩
      show (throttleState s c).peer.channelCount = _ ∧ ∃ new, (throttleState s c).peer.sentReliableCommands = _ ∧ _
      rw [t1, t6]
      exact hq.2

/-- The loop of `enet_protocol_check_outgoing_commands` only adds to the commands that it
has passed over. -/
theorem enet_protocol_check_outgoing_commands_loop_kept (hdr : ENetHeader)
    (rest : List ENetOutgoingCommand) (st : CheckOutgoingState)
    (r : CheckOutgoingState × List ENetOutgoingCommand)
    (h : enet_protocol_check_outgoing_commands_loop hdr st rest = some r) :
    ∃ kept : List ENetOutgoingCommand, r.1.kept = st.kept ++ kept := by
  refine enet_protocol_check_outgoing_commands_loop_steps hdr
    (fun s => ∃ kept : List ENetOutgoingCommand, s.kept = st.kept ++ kept)
    (fun s hq => hq) (fun s pid hq => hq)
    (fun s c hq _ _ _ => ?_) (fun s c hq _ _ _ => ?_)
    (fun s c hq => ?_) (fun s c hq _ _ _ _ => ?_) (fun s c pid hq _ => ?_)
    (fun s c hq _ => ?_) rest st r ⟨[], by simp⟩ h
  · obtain ⟨k, hk⟩ := hq
    exact ⟨k ++ [c], by
      show s.kept ++ [c] = st.kept ++ (k ++ [c])
      rw [hk, List.append_assoc]⟩
  · obtain ⟨k, hk⟩ := hq
    exact ⟨k ++ [c], by
      show s.kept ++ [c] = st.kept ++ (k ++ [c])
      rw [hk, List.append_assoc]⟩
  · obtain ⟨k, hk⟩ := hq
    exact ⟨k, by
      show (readyState s c).kept = st.kept ++ k
      rw [(readyState_fields s c).2.2.1, hk]⟩
  · obtain ⟨k, hk⟩ := hq
    refine ⟨k, ?_⟩
    rw [(emitCommand_fields _ _ _).2.1, (sendReliableCommand_fields _ _ _ _).1,
      (readyState_fields s c).2.2.1, hk]
  · obtain ⟨k, hk⟩ := hq
    exact ⟨k, by
      show (throttleState s c).kept = st.kept ++ k
      rw [(throttleState_fields s c).2.1, hk]⟩
  · obtain ⟨k, hk⟩ := hq
    refine ⟨k, ?_⟩
    rw [(emitCommand_fields _ _ _).2.1]
    split_ifs
    · show (throttleState s c).kept = st.kept ++ k
      rw [(throttleState_fields s c).2.1, hk]
    · rw [(throttleState_fields s c).2.1, hk]

/-- C33, counterexample: on `sampleWrapChannel` the reliable window 0, the one before the
window 1, is not fully acknowledged (`reliableWindows [0] = 1`) and none of the windows 1 to
10 is in use; the queued command with the sequence number 4096, the first of the window 1
and not yet sent, is sent all the same: it leaves `outgoingCommands` for
`sentReliableCommands`, and the window 1 is marked and counted. -/
theorem enet_protocol_check_outgoing_commands_sends_over_open_window :
    sampleWrapChannel.reliableWindows.getD ((1 + 15) % 16) 0 = 1 ∧
    ¬ WindowInUse sampleWrapChannel 1 ∧
    sampleWrapPeer.outgoingCommands = [sampleWrapCommand] ∧
    (sampleWrapCommand.reliableSequenceNumber, sampleWrapCommand.sendAttempts,
      sampleWrapCommand.command.channelID) = (4096, 0, 0) ∧
    (enet_protocol_check_outgoing_commands sampleHeader id sampleHost sampleWrapPeer
        [(0, samplePacket 4)] 4).map
      (fun r => (r.peer.sentReliableCommands.map (fun c => c.reliableSequenceNumber),
        r.peer.outgoingCommands,
        r.peer.channels.map (fun ch => (ch.usedReliableWindows, ch.reliableWindows))))
      = some ([4096], [], [(3, 1 :: 1 :: List.replicate 14 0)]) := by
  refine ⟨by decide, by decide, rfl, by decide, by decide⟩

/-- C33, amended: when the loop of `enet_protocol_check_outgoing_commands`, with
`windowWrap` clear, reaches a reliable command on a channel of the peer that has not been
sent and whose reliable sequence number is a multiple of 4096, the command is held back
exactly when the reliable window before its own holds 4096 commands in flight or more, or
one of the windows `window`, ..., `window + ENET_PEER_FREE_RELIABLE_WINDOWS + 1` (modulo 16)
is marked in `usedReliableWindows`.  When it is held back it stays in `outgoingCommands`,
`windowWrap` is set, and to the end of the call no command on a channel of the peer is put
into `sentReliableCommands`; otherwise `windowWrap` stays clear and the command goes on to
the other tests. -/
theorem enet_protocol_check_outgoing_commands_window_wrap (hdr : ENetHeader)
    (st : CheckOutgoingState) (c : ENetOutgoingCommand) (rest : List ENetOutgoingCommand)
    (channel : ENetChannel) (hgroup : sameGroup st c = false)
    (hack : c.command.command &&& ENET_PROTOCOL_COMMAND_FLAG_ACKNOWLEDGE ≠ 0)
    (hchannel : channelFor st.peer c = some channel) (hnew : c.sendAttempts < 1)
    (hfirst : c.reliableSequenceNumber % ENET_PEER_RELIABLE_WINDOW_SIZE = 0)
    (hrsn : c.reliableSequenceNumber < 65536) (hused : channel.usedReliableWindows < 65536)
    (hwrap : st.windowWrap = false) :
    ((wrapState st c).windowWrap = true ↔ WindowBlocked channel (c.reliableSequenceNumber / ENET_PEER_RELIABLE_WINDOW_SIZE)) ∧
    (WindowBlocked channel (c.reliableSequenceNumber / ENET_PEER_RELIABLE_WINDOW_SIZE) →
      enet_protocol_check_outgoing_commands_loop hdr st (c :: rest)
        = enet_protocol_check_outgoing_commands_loop hdr
            { wrapState st c with kept := st.kept ++ [c] } rest ∧
      (wrapState st c).peer = st.peer ∧
      ∀ r : CheckOutgoingState × List ENetOutgoingCommand,
        enet_protocol_check_outgoing_commands_loop hdr st (c :: rest) = some r →
        r.1.windowWrap = true ∧
        (∃ kept : List ENetOutgoingCommand, r.1.kept = st.kept ++ c :: kept) ∧
        ∃ new : List ENetOutgoingCommand,
          r.1.peer.sentReliableCommands = st.peer.sentReliableCommands ++ new ∧
          ∀ x ∈ new, st.peer.channelCount ≤ x.command.channelID) ∧
    (¬ WindowBlocked channel (c.reliableSequenceNumber / ENET_PEER_RELIABLE_WINDOW_SIZE) →
      ¬ (decide (c.command.command &&& ENET_PROTOCOL_COMMAND_FLAG_ACKNOWLEDGE ≠ 0) ∧
          channelFor st.peer c ≠ none ∧ (wrapState st c).windowWrap)) := by
  have hiff : (wrapState st c).windowWrap = true ↔ WindowBlocked channel (c.reliableSequenceNumber / ENET_PEER_RELIABLE_WINDOW_SIZE) := by
    rw [← windowWrapTest_iff c channel hnew hfirst hrsn hused]
    unfold wrapState
    dsimp only
    rw [hchannel, decide_eq_true hack, hwrap]
    dsimp only
    rw [Bool.false_or]
  have hin : c.command.channelID < st.peer.channelCount := by
    by_contra hout
    unfold channelFor at hchannel
    rw [if_neg (by rw [decide_eq_true_iff]; exact hout)] at hchannel
    cases hchannel
  refine ⟨hiff, fun hb => ?_, fun hb hx => hb (hiff.mp hx.2.2)⟩
  have heq : enet_protocol_check_outgoing_commands_loop hdr st (c :: rest)
      = enet_protocol_check_outgoing_commands_loop hdr
          { wrapState st c with kept := st.kept ++ [c] } rest := by
    rw [enet_protocol_check_outgoing_commands_loop_cons, hgroup]
    rw [if_neg (by decide), if_neg (by rw [hchannel]; simp),
      if_pos ⟨decide_eq_true hack, by rw [hchannel]; simp, hiff.mpr hb⟩]
  refine ⟨heq, rfl, fun r hr => ?_⟩
  rw [heq] at hr
  obtain ⟨h1, h2⟩ := enet_protocol_check_outgoing_commands_loop_wrapped hdr rest
    { wrapState st c with kept := st.kept ++ [c] } r (hiff.mpr hb) hr
  obtain ⟨kept, hk⟩ := enet_protocol_check_outgoing_commands_loop_kept hdr rest
    { wrapState st c with kept := st.kept ++ [c] } r hr
  refine ⟨h1, ⟨kept, ?_⟩, h2⟩
  rw [hk]
  show (st.kept ++ [c]) ++ kept = st.kept ++ c :: kept
  rw [List.append_assoc]
  rfl

/-- C33 at a sample: with all 4096 commands of the window 0 in flight, the first command of
the window 1 is held back: it is the one command passed over, `windowWrap` is set and
nothing is put into `sentReliableCommands`. -/
theorem enet_protocol_check_outgoing_commands_window_wrap_witness :
    WindowBlocked sampleBlockedChannel (4096 / ENET_PEER_RELIABLE_WINDOW_SIZE) ∧
    (wrapState sampleBlockedStart sampleWrapCommand).windowWrap = true ∧
    enet_protocol_check_outgoing_commands_loop sampleHeader sampleBlockedStart
        [sampleWrapCommand]
      = enet_protocol_check_outgoing_commands_loop sampleHeader
          { wrapState sampleBlockedStart sampleWrapCommand with
            kept := [] ++ [sampleWrapCommand] } [] ∧
    (enet_protocol_check_outgoing_commands_loop sampleHeader sampleBlockedStart
        [sampleWrapCommand]).map
      (fun r => (r.1.windowWrap, r.1.kept, r.1.peer.sentReliableCommands))
      = some (true, [sampleWrapCommand], []) :=
  have h := enet_protocol_check_outgoing_commands_window_wrap sampleHeader sampleBlockedStart
    sampleWrapCommand [] sampleBlockedChannel (by decide) (by decide) (by decide) (by decide)
    (by decide) (by decide) (by decide) (by decide)
  ⟨by decide, h.1.mpr (by decide), (h.2.1 (by decide)).1, by decide⟩

/-! ## The congestion window -/

/-- Sending one more command keeps the commands sent within the window when the command
fits at the moment it is sent. -/
theorem WithinWindow.append {limit : Nat} (x : ENetOutgoingCommand) :
    ∀ (new : List ENetOutgoingCommand) (inTransit : Nat),
      WithinWindow limit inTransit new →
      (x.packet ≠ none → u32 (transitAfter inTransit new + x.fragmentLength) ≤ limit) →
      WithinWindow limit inTransit (new ++ [x]) ∧
      transitAfter inTransit (new ++ [x]) = u32 (transitAfter inTransit new + x.fragmentLength) := by
  intro new
  induction new with
  | nil =>
    intro n _ hx
    exact ⟨⟨hx, trivial⟩, rfl⟩
  | cons y new ih =>
    intro n hw hx
    obtain ⟨h1, h2⟩ := ih (u32 (n + y.fragmentLength)) hw.2 hx
    exact ⟨⟨hw.1, h1⟩, h2⟩

/-- The test of the code that sets `windowExceeded`, in terms of the congestion window. -/
theorem windowExceededTest_iff (peer : ENetPeer) (c : ENetOutgoingCommand) :
    windowExceededTest peer c = true
      ↔ congestionWindow peer < u32 (peer.reliableDataInTransit + c.fragmentLength) := by
  unfold windowExceededTest congestionWindow
  dsimp only
  rw [decide_eq_true_iff]

/-- The flag `windowExceeded` after the test of the data in transit. -/
theorem exceededState_windowExceeded (st : CheckOutgoingState) (c : ENetOutgoingCommand) :
    (st.windowExceeded = true → (exceededState st c).windowExceeded = true) ∧
    (c.command.command &&& ENET_PROTOCOL_COMMAND_FLAG_ACKNOWLEDGE ≠ 0 → c.packet ≠ none →
      (exceededState st c).windowExceeded
        = (st.windowExceeded || windowExceededTest st.peer c)) := by
  refine ⟨fun h => ?_, fun hack hpk => ?_⟩
  · show (if _ then st.windowExceeded || windowExceededTest st.peer c
      else st.windowExceeded) = true
    split_ifs
    · rw [h, Bool.true_or]
    · exact h
  · show (if _ then st.windowExceeded || windowExceededTest st.peer c
      else st.windowExceeded) = _
    rw [if_pos ⟨decide_eq_true hack, hpk⟩]

/-- Every command with a packet that the loop of `enet_protocol_check_outgoing_commands`
puts into `sentReliableCommands` fits into the congestion window at the moment it is sent. -/
theorem enet_protocol_check_outgoing_commands_loop_within (hdr : ENetHeader)
    (rest : List ENetOutgoingCommand) (st : CheckOutgoingState)
    (r : CheckOutgoingState × List ENetOutgoingCommand)
    (h : enet_protocol_check_outgoing_commands_loop hdr st rest = some r) :
    ∃ new : List ENetOutgoingCommand,
      r.1.peer.sentReliableCommands = st.peer.sentReliableCommands ++ new ∧
      r.1.peer.reliableDataInTransit = transitAfter st.peer.reliableDataInTransit new ∧
      WithinWindow (congestionWindow st.peer) st.peer.reliableDataInTransit new := by
  have key := enet_protocol_check_outgoing_commands_loop_steps hdr
    (fun s => congestionWindow s.peer = congestionWindow st.peer ∧
      ∃ new : List ENetOutgoingCommand,
        s.peer.sentReliableCommands = st.peer.sentReliableCommands ++ new ∧
        s.peer.reliableDataInTransit = transitAfter st.peer.reliableDataInTransit new ∧
        WithinWindow (congestionWindow st.peer) st.peer.reliableDataInTransit new)
    (fun s hq => hq) (fun s pid hq => hq)
    (fun s c hq _ _ _ => hq) (fun s c hq _ _ _ => hq)
    (fun s c hq => ?_) (fun s c hq hack _ _ hfit => ?_) (fun s c pid hq _ => ?_)
    (fun s c hq _ => ?_) rest st r ⟨rfl, [], by simp, rfl, trivial⟩ h
  · exact key.2
  · obtain ⟨hp, -, -, -⟩ := readyState_fields s c
    show congestionWindow (readyState s c).peer = _ ∧ ∃ new,
      (readyState s c).peer.sentReliableCommands = _ ∧
      (readyState s c).peer.reliableDataInTransit = _ ∧ _
    rw [hp]
    exact hq
  · obtain ⟨hp, -, -, -⟩ := readyState_fields s c
    obtain ⟨-, -, -, w4, w5, w6, w7, x, hx, -, hxp, hxl, -⟩ := sendReliableCommand_window
      (readyState s c) c (channelFor s.peer c)
      (u16 (c.reliableSequenceNumber / ENET_PEER_RELIABLE_WINDOW_SIZE))
    obtain ⟨hwin, new, hnew, htransit, hwithin⟩ := hq
    have hfits : x.packet ≠ none →
        u32 (transitAfter st.peer.reliableDataInTransit new + x.fragmentLength)
          ≤ congestionWindow st.peer := by
      intro hpk
      rw [hxp] at hpk
      have hf := hfit hpk
      rw [(exceededState_windowExceeded s c).2 hack hpk] at hf
      have ht : windowExceededTest s.peer c = false := by
        cases hv : windowExceededTest s.peer c
        · rfl
        · rw [hv, Bool.or_true] at hf
          cases hf
      have hn : ¬ congestionWindow s.peer < u32 (s.peer.reliableDataInTransit + c.fragmentLength) := by
        intro hlt
        rw [(windowExceededTest_iff s.peer c).mpr hlt] at ht
        cases ht
      rw [hxl, ← htransit, ← hwin]
      omega
    obtain ⟨a1, a2⟩ := WithinWindow.append x new st.peer.reliableDataInTransit hwithin hfits
    refine ⟨?_, new ++ [x], ?_, ?_, a1⟩
    · show congestionWindow (sendReliableCommand (readyState s c) c (channelFor s.peer c)
        (u16 (c.reliableSequenceNumber / ENET_PEER_RELIABLE_WINDOW_SIZE))).1.peer = _
      unfold congestionWindow
      rw [w4, w5, w6, hp]
      exact hwin
    · show (sendReliableCommand (readyState s c) c (channelFor s.peer c)
        (u16 (c.reliableSequenceNumber / ENET_PEER_RELIABLE_WINDOW_SIZE))).1.peer.sentReliableCommands = _
      rw [hx, hp, hnew, List.append_assoc]
    · show (sendReliableCommand (readyState s c) c (channelFor s.peer c)
        (u16 (c.reliableSequenceNumber / ENET_PEER_RELIABLE_WINDOW_SIZE))).1.peer.reliableDataInTransit = _
      rw [w7, hp, a2, htransit, hxl]
  · obtain ⟨-, t2, t3, t4, t5, t6⟩ := throttleState_window s c
    show congestionWindow (throttleState s c).peer = _ ∧ ∃ new,
      (throttleState s c).peer.sentReliableCommands = _ ∧
      (throttleState s c).peer.reliableDataInTransit = _ ∧ _
    unfold congestionWindow
    rw [t2, t3, t4, t5, t6]
    exact hq
  · obtain ⟨-, t2, t3, t4, t5, t6⟩ := throttleState_window s c
    have hc : congestionWindow (throttleState s c).peer = congestionWindow s.peer := by
      unfold congestionWindow
      rw [t2, t3, t4]
    by_cases hpk : c.packet ≠ none
    · rw [if_pos hpk]
      show congestionWindow (throttleState s c).peer = _ ∧ ∃ new,
        (throttleState s c).peer.sentReliableCommands = _ ∧
        (throttleState s c).peer.reliableDataInTransit = _ ∧ _
      rw [hc, t5, t6]
      exact hq
    · rw [if_neg hpk]
      show congestionWindow (throttleState s c).peer = _ ∧ ∃ new,
        (throttleState s c).peer.sentReliableCommands = _ ∧
        (throttleState s c).peer.reliableDataInTransit = _ ∧ _
      rw [hc, t5, t6]
      exact hq

/-- Once `windowExceeded` is set it stays set to the end of the loop, and no command that the
loop puts into `sentReliableCommands` from then on carries a packet. -/
theorem enet_protocol_check_outgoing_commands_loop_exceeded (hdr : ENetHeader)
    (rest : List ENetOutgoingCommand) (st : CheckOutgoingState)
    (r : CheckOutgoingState × List ENetOutgoingCommand) (hflag : st.windowExceeded = true)
    (h : enet_protocol_check_outgoing_commands_loop hdr st rest = some r) :
    r.1.windowExceeded = true ∧
    ∃ new : List ENetOutgoingCommand,
      r.1.peer.sentReliableCommands = st.peer.sentReliableCommands ++ new ∧
      ∀ x ∈ new, x.packet = none := by
  have hkeep : ∀ (s : CheckOutgoingState) (c : ENetOutgoingCommand),
      s.windowExceeded = true → (exceededState s c).windowExceeded = true :=
    fun s c => (exceededState_windowExceeded s c).1
  refine enet_protocol_check_outgoing_commands_loop_steps hdr
    (fun s => s.windowExceeded = true ∧
      ∃ new : List ENetOutgoingCommand,
        s.peer.sentReliableCommands = st.peer.sentReliableCommands ++ new ∧
        ∀ x ∈ new, x.packet = none)
    (fun s hq => hq) (fun s pid hq => hq)
    (fun s c hq _ _ _ => hq) (fun s c hq _ _ he => ⟨he, hq.2⟩)
    (fun s c hq => ?_) (fun s c hq hack _ _ hfit => ?_) (fun s c pid hq _ => ?_)
    (fun s c hq _ => ?_) rest st r ⟨hflag, [], by simp, by simp⟩ h
  · obtain ⟨hp, -, -, -⟩ := readyState_fields s c
    refine ⟨?_, ?_⟩
    · show (readyState s c).windowExceeded = true
      rw [(readyState_flags s c).2.2.2.1]
      exact hkeep s c hq.1
    · show ∃ new, (readyState s c).peer.sentReliableCommands = _ ∧ _
      rw [hp]
      exact hq.2
  · obtain ⟨hp, -, -, -⟩ := readyState_fields s c
    obtain ⟨-, w2, -, -, -, -, -, x, hx, -, hxp, -⟩ := sendReliableCommand_window
      (readyState s c) c (channelFor s.peer c)
      (u16 (c.reliableSequenceNumber / ENET_PEER_RELIABLE_WINDOW_SIZE))
    have hnone : c.packet = none := by
      by_contra hpk
      have := hfit hpk
      rw [hkeep s c hq.1] at this
      cases this
    obtain ⟨new, hnew, hall⟩ := hq.2
    refine ⟨?_, new ++ [x], ?_, ?_⟩
    · show (sendReliableCommand (readyState s c) c (channelFor s.peer c)
        (u16 (c.reliableSequenceNumber / ENET_PEER_RELIABLE_WINDOW_SIZE))).1.windowExceeded = true
      rw [w2, (readyState_flags s c).2.2.2.1]
      exact hkeep s c hq.1
    · show (sendReliableCommand (readyState s c) c (channelFor s.peer c)
        (u16 (c.reliableSequenceNumber / ENET_PEER_RELIABLE_WINDOW_SIZE))).1.peer.sentReliableCommands = _
      rw [hx, hp, hnew, List.append_assoc]
    · intro y hy
      rcases List.mem_append.mp hy with hy | hy
      · exact hall y hy
      · rw [List.mem_singleton.mp hy, hxp]
        exact hnone
  · obtain ⟨-, -, -, -, -, t6⟩ := throttleState_window s c
    refine ⟨?_, ?_⟩
    · show (throttleState s c).windowExceeded = true
      rw [(readyState_flags s c).2.2.2.2.2]
      exact hkeep s c hq.1
    · show ∃ new, (throttleState s c).peer.sentReliableCommands = _ ∧ _
      rw [t6]
      exact hq.2
  · obtain ⟨-, -, -, -, -, t6⟩ := throttleState_window s c
    have hf : (throttleState s c).windowExceeded = true := by
      rw [(readyState_flags s c).2.2.2.2.2]
      exact hkeep s c hq.1
    by_cases hpk : c.packet ≠ none
    · rw [if_pos hpk]
      refine ⟨hf, ?_⟩
      show ∃ new, (throttleState s c).peer.sentReliableCommands = _ ∧ _
      rw [t6]
      exact hq.2
    · rw [if_neg hpk]
      refine ⟨hf, ?_⟩
      show ∃ new, (throttleState s c).peer.sentReliableCommands = _ ∧ _
      rw [t6]
      exact hq.2

/-- C32: in the loop of `enet_protocol_check_outgoing_commands`, every command with a packet
that is put into `sentReliableCommands` satisfied, at the moment it was sent,
`reliableDataInTransit + fragmentLength <= max (windowSize * packetThrottle /
ENET_PEER_PACKET_THROTTLE_SCALE, mtu)`, sum and product in 32 bits as the code computes them
(`WithinWindow`).  When the loop reaches a reliable command with a packet that has passed the
test of the reliable window and violates the bound, the command stays in `outgoingCommands`,
`windowExceeded` is set, and to the end of the call no command with a packet is put into
`sentReliableCommands`.  Commands without a packet are still sent: with the window of the
sample peer full, the `PING` queued between two `SEND_RELIABLE` commands is sent and the two
are kept. -/
theorem enet_protocol_check_outgoing_commands_congestion (hdr : ENetHeader) :
    (∀ (st : CheckOutgoingState) (rest : List ENetOutgoingCommand)
      (r : CheckOutgoingState × List ENetOutgoingCommand),
      enet_protocol_check_outgoing_commands_loop hdr st rest = some r →
      ∃ new : List ENetOutgoingCommand,
        r.1.peer.sentReliableCommands = st.peer.sentReliableCommands ++ new ∧
        WithinWindow (congestionWindow st.peer) st.peer.reliableDataInTransit new) ∧
    (∀ (st : CheckOutgoingState) (c : ENetOutgoingCommand) (rest : List ENetOutgoingCommand),
      sameGroup st c = false →
      c.command.command &&& ENET_PROTOCOL_COMMAND_FLAG_ACKNOWLEDGE ≠ 0 →
      c.packet ≠ none →
      (c.command.channelID < st.peer.channelCount → channelFor st.peer c ≠ none) →
      (channelFor st.peer c ≠ none → (wrapState st c).windowWrap = false) →
      congestionWindow st.peer < u32 (st.peer.reliableDataInTransit + c.fragmentLength) →
      enet_protocol_check_outgoing_commands_loop hdr st (c :: rest)
        = enet_protocol_check_outgoing_commands_loop hdr
            { exceededState st c with kept := st.kept ++ [c] } rest ∧
      (exceededState st c).windowExceeded = true ∧
      (exceededState st c).peer = st.peer ∧
      ∀ r : CheckOutgoingState × List ENetOutgoingCommand,
        enet_protocol_check_outgoing_commands_loop hdr st (c :: rest) = some r →
        r.1.windowExceeded = true ∧
        (∃ kept : List ENetOutgoingCommand, r.1.kept = st.kept ++ c :: kept) ∧
        ∃ new : List ENetOutgoingCommand,
          r.1.peer.sentReliableCommands = st.peer.sentReliableCommands ++ new ∧
          ∀ x ∈ new, x.packet = none) ∧
    (enet_protocol_check_outgoing_commands sampleHeader id sampleHost sampleCongestedPeer
        [(0, samplePacket 4)] 4).map
      (fun r => (r.peer.outgoingCommands.map (fun c => c.reliableSequenceNumber),
        r.peer.sentReliableCommands.map (fun c => (c.command.command, c.packet))))
      = some ([1, 2], [(ENET_PROTOCOL_COMMAND_PING ||| ENET_PROTOCOL_COMMAND_FLAG_ACKNOWLEDGE,
          none)]) := by
  refine ⟨fun st rest r h => ?_, fun st c rest hgroup hack hpk hin hfree hover => ?_,
    by decide⟩
  · obtain ⟨new, h1, -, h3⟩ := enet_protocol_check_outgoing_commands_loop_within hdr rest st r h
    exact ⟨new, h1, h3⟩
  · have hflag : (exceededState st c).windowExceeded = true := by
      rw [(exceededState_windowExceeded st c).2 hack hpk,
        (windowExceededTest_iff st.peer c).mpr hover, Bool.or_true]
    have heq : enet_protocol_check_outgoing_commands_loop hdr st (c :: rest)
        = enet_protocol_check_outgoing_commands_loop hdr
            { exceededState st c with kept := st.kept ++ [c] } rest := by
      rw [enet_protocol_check_outgoing_commands_loop_cons, hgroup]
      rw [if_neg (by decide),
        if_neg (fun hx => hin (of_decide_eq_true hx.2.1) hx.2.2),
        if_neg (fun hx => by
          have := hfree hx.2.1
          rw [hx.2.2] at this
          cases this),
        if_pos ⟨decide_eq_true hack, hpk, hflag⟩]
    refine ⟨heq, hflag, rfl, fun r hr => ?_⟩
    rw [heq] at hr
    obtain ⟨h1, h2⟩ := enet_protocol_check_outgoing_commands_loop_exceeded hdr rest
      { exceededState st c with kept := st.kept ++ [c] } r hflag hr
    obtain ⟨kept, hk⟩ := enet_protocol_check_outgoing_commands_loop_kept hdr rest
      { exceededState st c with kept := st.kept ++ [c] } r hr
    refine ⟨h1, ⟨kept, ?_⟩, h2⟩
    rw [hk]
    show (st.kept ++ [c]) ++ kept = st.kept ++ c :: kept
    rw [List.append_assoc]
    rfl

/-- C32 at a sample: with 65536 bytes in transit at a window of 65536 bytes, the first
`SEND_RELIABLE` command of `sampleCongestedPeer` violates the bound; it is kept and
`windowExceeded` is set. -/
theorem enet_protocol_check_outgoing_commands_congestion_witness :
    congestionWindow sampleCongestedStart.peer = 65536 ∧
    u32 (sampleCongestedStart.peer.reliableDataInTransit + sampleCongestedCommand.fragmentLength)
      = 65540 ∧
    (exceededState sampleCongestedStart sampleCongestedCommand).windowExceeded = true ∧
    enet_protocol_check_outgoing_commands_loop sampleHeader sampleCongestedStart
        (sampleCongestedCommand :: [samplePingCommand])
      = enet_protocol_check_outgoing_commands_loop sampleHeader
          { exceededState sampleCongestedStart sampleCongestedCommand with
            kept := sampleCongestedStart.kept ++ [sampleCongestedCommand] }
          [samplePingCommand] :=
  have h := (enet_protocol_check_outgoing_commands_congestion sampleHeader).2.1
    sampleCongestedStart sampleCongestedCommand [samplePingCommand] (by decide) (by decide)
    (by decide) (by decide) (by decide) (by decide)
  ⟨by decide, by decide, h.2.1, h.1⟩

/-! ## The unsequenced window -/

/-- The dispatch link leaves everything outside the incoming frame. -/
theorem linkDispatch_frame (host : ENetHost) (peer : ENetPeer) :
    (linkDispatch host peer).1.incomingFrame = host.incomingFrame ∧
    (linkDispatch host peer).2.incomingFrame = peer.incomingFrame := by
  unfold linkDispatch
  split <;> exact ⟨rfl, rfl⟩

/-- Moving the pending nodes to `dispatchedCommands` leaves everything outside the incoming
frame. -/
theorem UnreliableDispatchState.movePending_frame (st : UnreliableDispatchState) :
    st.movePending.host.incomingFrame = st.host.incomingFrame ∧
    st.movePending.peer.incomingFrame = st.peer.incomingFrame := by
  unfold UnreliableDispatchState.movePending
  exact linkDispatch_frame _ _

/-- The loop of the unreliable dispatch leaves everything outside the incoming frame. -/
theorem enet_peer_dispatch_incoming_unreliable_loop_frame (seq : Nat) :
    ∀ (rest : List (Nat × ENetIncomingCommand)) (st : UnreliableDispatchState),
      (enet_peer_dispatch_incoming_unreliable_loop seq st rest).1.host.incomingFrame
        = st.host.incomingFrame ∧
      (enet_peer_dispatch_incoming_unreliable_loop seq st rest).1.peer.incomingFrame
        = st.peer.incomingFrame := by
  intro rest
  induction rest with
  | nil => intro st; exact ⟨rfl, rfl⟩
  | cons node rest ih =>
    intro st
    obtain ⟨i, c⟩ := node
    unfold enet_peer_dispatch_incoming_unreliable_loop
    dsimp only
    split_ifs
    all_goals
      first
      | exact ⟨rfl, rfl⟩
      | exact ih _
      | (refine ⟨(ih _).1.trans ?_, (ih _).2.trans ?_⟩
         · exact st.movePending_frame.1
         · exact st.movePending_frame.2)

/-- The unreliable dispatch leaves everything outside the incoming frame. -/
theorem enet_peer_dispatch_incoming_unreliable_commands_frame (host : ENetHost)
    (peer : ENetPeer) (channel : ENetChannel) (queuedCommand : Option Nat) :
    (enet_peer_dispatch_incoming_unreliable_commands host peer channel
        queuedCommand).host.incomingFrame = host.incomingFrame ∧
    (enet_peer_dispatch_incoming_unreliable_commands host peer channel
        queuedCommand).peer.incomingFrame = peer.incomingFrame := by
  have hloop := enet_peer_dispatch_incoming_unreliable_loop_frame
    channel.incomingReliableSequenceNumber channel.incomingUnreliableCommands.enum
    { host := host, peer := peer,
      incomingUnreliableSequenceNumber := channel.incomingUnreliableSequenceNumber,
      kept := [], pending := [], dropped := 0, moved := [] }
  unfold enet_peer_dispatch_incoming_unreliable_commands
    enet_peer_dispatch_incoming_unreliable_nodes
  dsimp only
  generalize enet_peer_dispatch_incoming_unreliable_loop _ _ _ = lr at hloop
  obtain ⟨st, rest⟩ := lr
  dsimp only at hloop ⊢
  by_cases hp : st.pending ≠ []
  · rw [if_pos hp]
    exact ⟨st.movePending_frame.1.trans hloop.1, st.movePending_frame.2.trans hloop.2⟩
  · rw [if_neg hp]
    exact hloop

/-- The tail of `enet_peer_queue_incoming_command` for a command that goes to the unreliable
queue: it returns the queued command and leaves everything outside the incoming frame. -/
theorem queueIncomingLink_frame (host : ENetHost) (peer : ENetPeer) (channel : ENetChannel)
    (command : ENetProtocol) (packet : ENetPacket) (fragments : Option (List Nat))
    (fragmentCount skipped mem : Nat) (hrel : queueIncomingIsReliable command = false) :
    (queueIncomingLink host peer channel command packet fragments fragmentCount skipped
        mem).host.incomingFrame = host.incomingFrame ∧
    (queueIncomingLink host peer channel command packet fragments fragmentCount skipped
        mem).peer.incomingFrame = peer.incomingFrame ∧
    (queueIncomingLink host peer channel command packet fragments fragmentCount skipped
        mem).ret ≠ .null := by
  unfold queueIncomingLink
  dsimp only
  rw [hrel]
  simp only [Bool.false_eq_true, if_false]
  refine ⟨?_, ?_, ?_⟩
  · exact (enet_peer_dispatch_incoming_unreliable_commands_frame _ _ _ _).1
  · exact (enet_peer_dispatch_incoming_unreliable_commands_frame _ _ _ _).2
  · intro h
    cases h

/-- The function `enet_peer_queue_incoming_command`, for a command that goes to the
unreliable queue, leaves everything outside the incoming frame, and leaves host and peer as
they are when it returns NULL. -/
theorem enet_peer_queue_incoming_command_frame (host : ENetHost) (peer : ENetPeer)
    (command : ENetProtocol) (data : Option (List Nat)) (dataLength : Nat)
    (flags : ENetPacketFlags) (fragmentCount mem : Nat) (q : QueueIncomingResult)
    (hrel : queueIncomingIsReliable command = false)
    (h : enet_peer_queue_incoming_command host peer command data dataLength flags
      fragmentCount mem = some q) :
    q.host.incomingFrame = host.incomingFrame ∧ q.peer.incomingFrame = peer.incomingFrame ∧
    (q.ret = .null → q.host = host ∧ q.peer = peer) := by
  have hdiscard : ∀ q : QueueIncomingResult, q = queueIncomingDiscard host peer fragmentCount mem →
      q.host.incomingFrame = host.incomingFrame ∧ q.peer.incomingFrame = peer.incomingFrame ∧
      (q.ret = .null → q.host = host ∧ q.peer = peer) := by
    intro q hq
    subst hq
    unfold queueIncomingDiscard
    split <;> exact ⟨rfl, rfl, fun _ => ⟨rfl, rfl⟩⟩
  unfold enet_peer_queue_incoming_command at h
  cases hch : peer.channels.get? command.channelID with
  | none => rw [hch] at h; cases h
  | some channel =>
    rw [hch] at h
    dsimp only at h
    split_ifs at h
    · exact hdiscard q (Option.some.inj h).symm
    · exact hdiscard q (Option.some.inj h).symm
    · split at h
      · exact hdiscard q (Option.some.inj h).symm
      · rename_i skipped _
        have hq := (Option.some.inj h).symm
        subst hq
        unfold queueIncomingInsert
        by_cases hw : peer.totalWaitingData ≥ host.maximumWaitingData
        · rw [if_pos hw]
          exact ⟨rfl, rfl, fun _ => ⟨rfl, rfl⟩⟩
        · rw [if_neg hw]
          rcases enet_packet_create data dataLength flags mem with ⟨_ | packet, mem1⟩
          · exact ⟨rfl, rfl, fun _ => ⟨rfl, rfl⟩⟩
          · dsimp only
            cases enet_malloc mem1 with
            | none => exact ⟨rfl, rfl, fun _ => ⟨rfl, rfl⟩⟩
            | some mem2 =>
              dsimp only
              cases queueIncomingFragments fragmentCount mem2 with
              | none => exact ⟨rfl, rfl, fun _ => ⟨rfl, rfl⟩⟩
              | some fm =>
                obtain ⟨fragments, mem3⟩ := fm
                obtain ⟨l1, l2, l3⟩ := queueIncomingLink_frame host peer channel command
                  packet fragments fragmentCount skipped mem3 hrel
                exact ⟨l1, l2, fun hn => absurd hn l3⟩

/-- The group of a command is a 16-bit number. -/
theorem unsequencedGroupOf_lt (command : ENetProtocol) : unsequencedGroupOf command < 65536 := by
  unfold unsequencedGroupOf ENET_NET_TO_HOST_16 u16
  omega

/-- A command that `enet_protocol_handle_send_unsequenced` does not reject at once, whose
group is `ENET_PEER_FREE_UNSEQUENCED_WINDOWS * ENET_PEER_UNSEQUENCED_WINDOW_SIZE` or more
ahead of `incomingUnsequencedGroup`: the handler returns 0 and leaves host and peer. -/
theorem enet_protocol_handle_send_unsequenced_ahead (host : ENetHost) (peer : ENetPeer)
    (command : ENetProtocol) (currentData : List Nat) (mem : Nat)
    (hacc : ¬ (command.channelID ≥ peer.channelCount ∨
      (peer.state ≠ ENetPeerState.CONNECTED ∧ peer.state ≠ ENetPeerState.DISCONNECT_LATER)))
    (hlen : ¬ (ENET_NET_TO_HOST_16 command.dataLengthView > host.maximumPacketSize ∨
      ENET_NET_TO_HOST_16 command.dataLengthView > currentData.length))
    (hfar : (if unsequencedGroupOf command < peer.incomingUnsequencedGroup then
          u32 (unsequencedGroupOf command + 0x10000)
        else unsequencedGroupOf command)
      ≥ u32 (peer.incomingUnsequencedGroup
          + ENET_PEER_FREE_UNSEQUENCED_WINDOWS * ENET_PEER_UNSEQUENCED_WINDOW_SIZE)) :
    enet_protocol_handle_send_unsequenced host peer command currentData mem
      = some { status := 0, host := host, peer := peer,
               currentData := currentData.drop (ENET_NET_TO_HOST_16 command.dataLengthView),
               mem := mem } := by
  unfold enet_protocol_handle_send_unsequenced
  rw [if_neg hacc]
  dsimp only
  rw [if_neg hlen]
  unfold unsequencedGroupOf at hfar
  rw [if_pos hfar]

/-- A command that `enet_protocol_handle_send_unsequenced` does not reject at once, whose
group lies in the current window of the peer and has its bit set: the handler returns 0 and
leaves host and peer. -/
theorem enet_protocol_handle_send_unsequenced_seen (host : ENetHost) (peer : ENetPeer)
    (command : ENetProtocol) (currentData : List Nat) (mem : Nat)
    (hacc : ¬ (command.channelID ≥ peer.channelCount ∨
      (peer.state ≠ ENetPeerState.CONNECTED ∧ peer.state ≠ ENetPeerState.DISCONNECT_LATER)))
    (hlen : ¬ (ENET_NET_TO_HOST_16 command.dataLengthView > host.maximumPacketSize ∨
      ENET_NET_TO_HOST_16 command.dataLengthView > currentData.length))
    (hgroup : peer.incomingUnsequencedGroup
      = unsequencedGroupOf command
        - unsequencedGroupOf command % ENET_PEER_UNSEQUENCED_WINDOW_SIZE)
    (hseen : UnsequencedSeen peer command) :
    enet_protocol_handle_send_unsequenced host peer command currentData mem
      = some { status := 0, host := host, peer := peer,
               currentData := currentData.drop (ENET_NET_TO_HOST_16 command.dataLengthView),
               mem := mem } := by
  have hG := unsequencedGroupOf_lt command
  unfold enet_protocol_handle_send_unsequenced
  rw [if_neg hacc]
  dsimp only
  rw [if_neg hlen]
  unfold UnsequencedSeen at hseen
  unfold unsequencedGroupOf at hgroup hseen hG
  generalize ENET_NET_TO_HOST_16 command.unreliableSequenceNumberView = g at hgroup hseen hG ⊢
  have hnot : ¬ g < peer.incomingUnsequencedGroup := by
    rw [hgroup]
    omega
  rw [if_neg hnot]
  have hnear : ¬ g ≥ u32 (peer.incomingUnsequencedGroup
      + ENET_PEER_FREE_UNSEQUENCED_WINDOWS * ENET_PEER_UNSEQUENCED_WINDOW_SIZE) := by
    rw [hgroup]
    unfold u32 ENET_PEER_FREE_UNSEQUENCED_WINDOWS ENET_PEER_UNSEQUENCED_WINDOW_SIZE
    omega
  rw [if_neg hnear]
  have hand : g &&& 0xFFFF = g :=
    (Nat.and_pow_two_sub_one_eq_mod g 16).trans (Nat.mod_eq_of_lt hG)
  rw [hand]
  unfold handleSendUnsequencedQueue
  dsimp only
  have hsame : u32 (g + 4294967296 - g % ENET_PEER_UNSEQUENCED_WINDOW_SIZE)
      = peer.incomingUnsequencedGroup := by
    rw [hgroup]
    unfold u32 ENET_PEER_UNSEQUENCED_WINDOW_SIZE
    omega
  have hbit : peer.unsequencedWindow.getD (g % ENET_PEER_UNSEQUENCED_WINDOW_SIZE / 32) 0
      &&& (1 <<< (g % ENET_PEER_UNSEQUENCED_WINDOW_SIZE % 32)) ≠ 0 := by
    intro h0
    rw [(bit_test_iff _ _).mp h0] at hseen
    cases hseen
  rw [if_pos ⟨by rw [hsame]; simp, hbit⟩]

/-- The bit that `enet_protocol_handle_send_unsequenced` sets in a word of the window reads
as set afterwards. -/
theorem unsequencedWindow_set_testBit (window : List Nat) (i k : Nat) (hi : i < window.length)
    (hk : k < 32) :
    ((window.set i (u32 (window.getD i 0 ||| (1 <<< k)))).getD i 0).testBit k = true := by
  rw [List.getD_eq_getElem?_getD, List.getElem?_set_self hi]
  show (u32 (window.getD i 0 ||| (1 <<< k))).testBit k = true
  unfold u32
  rw [show (4294967296 : Nat) = 2 ^ 32 from rfl, Nat.testBit_mod_two_pow, bit_set_testBit]
  simp [hk]

/-- The group that `enet_protocol_handle_send_unsequenced` works with after
`unsequencedGroup &= 0xFFFF` is the group of the command. -/
theorem unsequencedGroup_masked (g base : Nat) (hg : g < 65536) :
    (if g < base then u32 (g + 0x10000) else g) &&& 0xFFFF = g := by
  rw [show (0xFFFF : Nat) = 2 ^ 16 - 1 from rfl, Nat.and_pow_two_sub_one_eq_mod]
  unfold u32
  split_ifs <;> omega

/-- What a call of `enet_protocol_handle_send_unsequenced` with a `SEND_UNSEQUENCED` command
leaves: it returns 0 or -1; when it returns 0 the command was not rejected at once and either
the group was too far ahead and nothing changed, or the window of the peer is afterwards at
the group and the bit of the group is set; when it returns -1 no incoming queue has
changed. -/
theorem enet_protocol_handle_send_unsequenced_first (host : ENetHost) (peer : ENetPeer)
    (command : ENetProtocol) (currentData : List Nat) (mem : Nat) (r1 : HandleResult)
    (hmask : command.command &&& ENET_PROTOCOL_COMMAND_MASK
      = ENET_PROTOCOL_COMMAND_SEND_UNSEQUENCED)
    (hwin : peer.unsequencedWindow.length = 32)
    (h1 : enet_protocol_handle_send_unsequenced host peer command currentData mem = some r1) :
    (r1.status = 0 ∨ r1.status = -1) ∧
    r1.host.incomingFrame = host.incomingFrame ∧
    r1.peer.channelCount = peer.channelCount ∧ r1.peer.state = peer.state ∧
    r1.peer.unsequencedWindow.length = 32 ∧
    (r1.status = 0 →
      ¬ (command.channelID ≥ peer.channelCount ∨
        (peer.state ≠ ENetPeerState.CONNECTED ∧
          peer.state ≠ ENetPeerState.DISCONNECT_LATER)) ∧
      ¬ ENET_NET_TO_HOST_16 command.dataLengthView > host.maximumPacketSize ∧
      ((r1.host = host ∧ r1.peer = peer ∧ r1.mem = mem ∧
          (if unsequencedGroupOf command < peer.incomingUnsequencedGroup then
              u32 (unsequencedGroupOf command + 0x10000)
            else unsequencedGroupOf command)
            ≥ u32 (peer.incomingUnsequencedGroup
                + ENET_PEER_FREE_UNSEQUENCED_WINDOWS * ENET_PEER_UNSEQUENCED_WINDOW_SIZE)) ∨
        (r1.peer.incomingUnsequencedGroup
            = unsequencedGroupOf command
              - unsequencedGroupOf command % ENET_PEER_UNSEQUENCED_WINDOW_SIZE ∧
          UnsequencedSeen r1.peer command))) ∧
    (r1.status ≠ 0 →
      r1.host = host ∧ r1.peer.channels = peer.channels ∧
      r1.peer.dispatchedCommands = peer.dispatchedCommands ∧
      r1.peer.totalWaitingData = peer.totalWaitingData) := by
  have hG := unsequencedGroupOf_lt command
  have hrel : queueIncomingIsReliable command = false := by
    unfold queueIncomingIsReliable
    rw [hmask]
    decide
  unfold enet_protocol_handle_send_unsequenced at h1
  by_cases hacc : command.channelID ≥ peer.channelCount ∨
      (peer.state ≠ ENetPeerState.CONNECTED ∧ peer.state ≠ ENetPeerState.DISCONNECT_LATER)
  · rw [if_pos hacc] at h1
    cases h1
    exact ⟨Or.inr rfl, rfl, rfl, rfl, hwin, fun h => absurd (show (-1 : Int) = 0 from h) (by decide),
      fun _ => ⟨rfl, rfl, rfl, rfl⟩⟩
  rw [if_neg hacc] at h1
  dsimp only at h1
  by_cases hlen : ENET_NET_TO_HOST_16 command.dataLengthView > host.maximumPacketSize ∨
      ENET_NET_TO_HOST_16 command.dataLengthView > currentData.length
  · rw [if_pos hlen] at h1
    cases h1
    exact ⟨Or.inr rfl, rfl, rfl, rfl, hwin, fun h => absurd (show (-1 : Int) = 0 from h) (by decide),
      fun _ => ⟨rfl, rfl, rfl, rfl⟩⟩
  rw [if_neg hlen] at h1
  have hsize : ¬ ENET_NET_TO_HOST_16 command.dataLengthView > host.maximumPacketSize :=
    fun h => hlen (Or.inl h)
  unfold UnsequencedSeen unsequencedGroupOf
  unfold unsequencedGroupOf at hG
  generalize ENET_NET_TO_HOST_16 command.unreliableSequenceNumberView = g at h1 hG ⊢
  by_cases hfar : (if g < peer.incomingUnsequencedGroup then u32 (g + 0x10000) else g)
      ≥ u32 (peer.incomingUnsequencedGroup
          + ENET_PEER_FREE_UNSEQUENCED_WINDOWS * ENET_PEER_UNSEQUENCED_WINDOW_SIZE)
  · rw [if_pos hfar] at h1
    cases h1
    exact ⟨Or.inl rfl, rfl, rfl, rfl, hwin,
      fun _ => ⟨hacc, hsize, Or.inl ⟨rfl, rfl, rfl, hfar⟩⟩, fun h => absurd rfl h⟩
  rw [if_neg hfar, unsequencedGroup_masked g _ hG] at h1
  unfold handleSendUnsequencedQueue at h1
  dsimp only at h1
  have hidx : g % ENET_PEER_UNSEQUENCED_WINDOW_SIZE / 32 < 32 := by
    unfold ENET_PEER_UNSEQUENCED_WINDOW_SIZE
    omega
  have hu : u32 (g + 4294967296 - g % ENET_PEER_UNSEQUENCED_WINDOW_SIZE)
      = g - g % ENET_PEER_UNSEQUENCED_WINDOW_SIZE := by
    unfold u32 ENET_PEER_UNSEQUENCED_WINDOW_SIZE
    omega
  rw [hu] at h1
  by_cases hdup : ¬ (decide (g - g % ENET_PEER_UNSEQUENCED_WINDOW_SIZE
        ≠ peer.incomingUnsequencedGroup) = true) ∧
      peer.unsequencedWindow.getD (g % ENET_PEER_UNSEQUENCED_WINDOW_SIZE / 32) 0
        &&& (1 <<< (g % ENET_PEER_UNSEQUENCED_WINDOW_SIZE % 32)) ≠ 0
  · rw [if_pos hdup] at h1
    cases h1
    refine ⟨Or.inl rfl, rfl, rfl, rfl, hwin,
      fun _ => ⟨hacc, hsize, Or.inr ⟨?_, ?_⟩⟩, fun h => absurd rfl h⟩
    · have := hdup.1
      simp only [decide_eq_true_eq, ne_eq, not_not] at this
      exact this.symm
    · show (peer.unsequencedWindow.getD _ 0).testBit _ = true
      cases hb : (peer.unsequencedWindow.getD
          (g % ENET_PEER_UNSEQUENCED_WINDOW_SIZE / 32) 0).testBit
          (g % ENET_PEER_UNSEQUENCED_WINDOW_SIZE % 32)
      · exact absurd ((bit_test_iff _ _).mpr hb) hdup.2
      · rfl
  rw [if_neg hdup] at h1
  generalize hp1 : (if decide (g - g % ENET_PEER_UNSEQUENCED_WINDOW_SIZE
        ≠ peer.incomingUnsequencedGroup) = true then
      { peer with
        incomingUnsequencedGroup := u16 (g - g % ENET_PEER_UNSEQUENCED_WINDOW_SIZE),
        unsequencedWindow := List.replicate peer.unsequencedWindow.length 0 }
    else peer) = peer1 at h1
  have hp : peer1.incomingFrame.channelCount = peer.channelCount ∧
      peer1.state = peer.state ∧ peer1.unsequencedWindow.length = 32 ∧
      peer1.incomingUnsequencedGroup = g - g % ENET_PEER_UNSEQUENCED_WINDOW_SIZE ∧
      peer1.channels = peer.channels ∧ peer1.dispatchedCommands = peer.dispatchedCommands ∧
      peer1.totalWaitingData = peer.totalWaitingData := by
    rw [← hp1]
    split_ifs with hm
    · refine ⟨rfl, rfl, ?_, ?_, rfl, rfl, rfl⟩
      · show (List.replicate peer.unsequencedWindow.length 0).length = 32
        rw [List.length_replicate, hwin]
      · show u16 (g - g % ENET_PEER_UNSEQUENCED_WINDOW_SIZE) = _
        unfold u16
        omega
    · refine ⟨rfl, rfl, hwin, ?_, rfl, rfl, rfl⟩
      simp only [decide_eq_true_eq, ne_eq, not_not] at hm
      exact hm.symm
  obtain ⟨p1, p2, p3, p4, p5, p6, p7⟩ := hp
  cases hq : enet_peer_queue_incoming_command host peer1 command
      (some (List.take (ENET_NET_TO_HOST_16 command.dataLengthView) currentData))
      (ENET_NET_TO_HOST_16 command.dataLengthView)
      { reliable := false, unsequenced := true, noAllocate := false,
        unreliableFragment := false, sent := false } 0 mem with
  | none => rw [hq] at h1; cases h1
  | some q =>
    rw [hq] at h1
    dsimp only at h1
    obtain ⟨f1, f2, f3⟩ := enet_peer_queue_incoming_command_frame host peer1 command _ _ _ _ _
      q hrel hq
    have g1 : q.peer.channelCount = peer1.channelCount := by
      have := congrArg (fun x : ENetPeer => x.channelCount) f2
      exact this
    have g2 : q.peer.state = peer1.state := by
      have := congrArg (fun x : ENetPeer => x.state) f2
      exact this
    have g3 : q.peer.unsequencedWindow = peer1.unsequencedWindow := by
      have := congrArg (fun x : ENetPeer => x.unsequencedWindow) f2
      exact this
    have g4 : q.peer.incomingUnsequencedGroup = peer1.incomingUnsequencedGroup := by
      have := congrArg (fun x : ENetPeer => x.incomingUnsequencedGroup) f2
      exact this
    have hdone : ∀ r : HandleResult,
        r = { status := 0, host := q.host,
              peer := { q.peer with
                unsequencedWindow := q.peer.unsequencedWindow.set
                  (g % ENET_PEER_UNSEQUENCED_WINDOW_SIZE / 32)
                  (u32 (q.peer.unsequencedWindow.getD
                      (g % ENET_PEER_UNSEQUENCED_WINDOW_SIZE / 32) 0
                    ||| (1 <<< (g % ENET_PEER_UNSEQUENCED_WINDOW_SIZE % 32)))) },
              currentData := List.drop (ENET_NET_TO_HOST_16 command.dataLengthView)
                currentData,
              mem := q.mem } →
        (r.status = 0 ∨ r.status = -1) ∧
        r.host.incomingFrame = host.incomingFrame ∧
        r.peer.channelCount = peer.channelCount ∧ r.peer.state = peer.state ∧
        r.peer.unsequencedWindow.length = 32 ∧
        (r.status = 0 →
          ¬ (command.channelID ≥ peer.channelCount ∨
            (peer.state ≠ ENetPeerState.CONNECTED ∧
              peer.state ≠ ENetPeerState.DISCONNECT_LATER)) ∧
          ¬ ENET_NET_TO_HOST_16 command.dataLengthView > host.maximumPacketSize ∧
          ((r.host = host ∧ r.peer = peer ∧ r.mem = mem ∧
              (if g < peer.incomingUnsequencedGroup then u32 (g + 0x10000) else g)
                ≥ u32 (peer.incomingUnsequencedGroup
                    + ENET_PEER_FREE_UNSEQUENCED_WINDOWS
                      * ENET_PEER_UNSEQUENCED_WINDOW_SIZE)) ∨
            (r.peer.incomingUnsequencedGroup
                = g - g % ENET_PEER_UNSEQUENCED_WINDOW_SIZE ∧
              (r.peer.unsequencedWindow.getD
                  (g % ENET_PEER_UNSEQUENCED_WINDOW_SIZE / 32) 0).testBit
                (g % ENET_PEER_UNSEQUENCED_WINDOW_SIZE % 32) = true))) ∧
        (r.status ≠ 0 →
          r.host = host ∧ r.peer.channels = peer.channels ∧
          r.peer.dispatchedCommands = peer.dispatchedCommands ∧
          r.peer.totalWaitingData = peer.totalWaitingData) := by
      intro r hr
      subst hr
      refine ⟨Or.inl rfl, f1, g1.trans p1, g2.trans p2, ?_,
        fun _ => ⟨hacc, hsize, Or.inr ⟨g4.trans p4, ?_⟩⟩, fun h => absurd rfl h⟩
      · show (q.peer.unsequencedWindow.set _ _).length = 32
        rw [List.length_set, g3, p3]
      · show ((q.peer.unsequencedWindow.set _ _).getD _ 0).testBit _ = true
        apply unsequencedWindow_set_testBit
        · rw [g3, p3]
          exact hidx
        · omega
    cases hret : q.ret with
    | null =>
      rw [hret] at h1
      cases h1
      obtain ⟨e1, e2⟩ := f3 hret
      refine ⟨Or.inr rfl, f1, g1.trans p1, g2.trans p2, by rw [g3, p3],
        fun h => absurd (show (-1 : Int) = 0 from h) (by decide), fun _ => ⟨e1, ?_, ?_, ?_⟩⟩
      · show q.peer.channels = _
        rw [e2, p5]
      · show q.peer.dispatchedCommands = _
        rw [e2, p6]
      · show q.peer.totalWaitingData = _
        rw [e2, p7]
    | dummyCommand =>
      rw [hret] at h1
      exact hdone r1 (Option.some.inj h1).symm
    | queued location =>
      rw [hret] at h1
      exact hdone r1 (Option.some.inj h1).symm

/-- C34, counterexample: the sample peer holds as much waiting data as the host allows, so
the queueing of the `SEND_UNSEQUENCED` command with group 5 fails and the handler returns -1;
handling the same command again returns -1 again, not 0. -/
theorem enet_protocol_handle_send_unsequenced_repeats_failure :
    sampleFullPeer.state = ENetPeerState.CONNECTED ∧
    (sampleSendUnsequenced 5).command &&& ENET_PROTOCOL_COMMAND_MASK
      = ENET_PROTOCOL_COMMAND_SEND_UNSEQUENCED ∧
    (enet_protocol_handle_send_unsequenced sampleHost sampleFullPeer (sampleSendUnsequenced 5)
        [1, 2, 3, 4] 8).map (fun r => r.status) = some (-1) ∧
    ((enet_protocol_handle_send_unsequenced sampleHost sampleFullPeer (sampleSendUnsequenced 5)
        [1, 2, 3, 4] 8).bind fun r =>
      (enet_protocol_handle_send_unsequenced r.host r.peer (sampleSendUnsequenced 5)
        [1, 2, 3, 4] r.mem).map (fun r => r.status)) = some (-1) := by
  refine ⟨rfl, by decide, by decide, by decide⟩

/-- C34, amended: a call of `enet_protocol_handle_send_unsequenced` with a `SEND_UNSEQUENCED`
command returns 0 or -1.  When it returns 0, handling the same command again directly
afterwards (with the bytes of its own datagram) returns 0 and changes neither the host nor
the peer, so the two calls queue no more than the first.  When it returns -1 the first call
has queued nothing: the host, the channels and `dispatchedCommands` of the peer are as
before.  A command that is not rejected at once and whose group is
`ENET_PEER_FREE_UNSEQUENCED_WINDOWS * ENET_PEER_UNSEQUENCED_WINDOW_SIZE = 32768` or more
ahead of `incomingUnsequencedGroup` modulo 65536 is dropped: the handler returns 0 and
leaves host and peer, the window included. -/
theorem enet_protocol_handle_send_unsequenced_twice (host : ENetHost) (peer : ENetPeer)
    (command : ENetProtocol) (currentData currentData2 : List Nat) (mem : Nat)
    (r1 : HandleResult)
    (hmask : command.command &&& ENET_PROTOCOL_COMMAND_MASK
      = ENET_PROTOCOL_COMMAND_SEND_UNSEQUENCED)
    (hwin : peer.unsequencedWindow.length = 32)
    (hlen2 : ENET_NET_TO_HOST_16 command.dataLengthView ≤ currentData2.length)
    (h1 : enet_protocol_handle_send_unsequenced host peer command currentData mem = some r1) :
    (r1.status = 0 ∨ r1.status = -1) ∧
    (r1.status = 0 →
      enet_protocol_handle_send_unsequenced r1.host r1.peer command currentData2 r1.mem
        = some { status := 0, host := r1.host, peer := r1.peer,
                 currentData :=
                   currentData2.drop (ENET_NET_TO_HOST_16 command.dataLengthView),
                 mem := r1.mem }) ∧
    (r1.status = -1 →
      r1.host = host ∧ r1.peer.channels = peer.channels ∧
      r1.peer.dispatchedCommands = peer.dispatchedCommands) ∧
    (¬ (command.channelID ≥ peer.channelCount ∨
        (peer.state ≠ ENetPeerState.CONNECTED ∧
          peer.state ≠ ENetPeerState.DISCONNECT_LATER)) →
      ¬ (ENET_NET_TO_HOST_16 command.dataLengthView > host.maximumPacketSize ∨
        ENET_NET_TO_HOST_16 command.dataLengthView > currentData.length) →
      peer.incomingUnsequencedGroup < 65536 →
      (unsequencedGroupOf command + 65536 - peer.incomingUnsequencedGroup) % 65536
        ≥ ENET_PEER_FREE_UNSEQUENCED_WINDOWS * ENET_PEER_UNSEQUENCED_WINDOW_SIZE →
      r1 = { status := 0, host := host, peer := peer,
             currentData := currentData.drop (ENET_NET_TO_HOST_16 command.dataLengthView),
             mem := mem }) := by
  obtain ⟨f1, f2, f3, f4, f5, f6, f7⟩ := enet_protocol_handle_send_unsequenced_first host peer
    command currentData mem r1 hmask hwin h1
  refine ⟨f1, fun hs => ?_, fun hs => ?_, fun hacc hlen hbase hfar => ?_⟩
  · obtain ⟨hacc, hsize, hcase⟩ := f6 hs
    have hmax : r1.host.maximumPacketSize = host.maximumPacketSize := by
      have := congrArg (fun x : ENetHost => x.maximumPacketSize) f2
      exact this
    have hacc2 : ¬ (command.channelID ≥ r1.peer.channelCount ∨
        (r1.peer.state ≠ ENetPeerState.CONNECTED ∧
          r1.peer.state ≠ ENetPeerState.DISCONNECT_LATER)) := by
      rw [f3, f4]
      exact hacc
    have hlen2a : ¬ (ENET_NET_TO_HOST_16 command.dataLengthView > r1.host.maximumPacketSize ∨
        ENET_NET_TO_HOST_16 command.dataLengthView > currentData2.length) := by
      rw [hmax]
      intro h
      rcases h with h | h
      · exact hsize h
      · omega
    rcases hcase with ⟨e1, e2, -, hfar⟩ | ⟨hgroup, hseen⟩
    · rw [← e2] at hfar
      exact enet_protocol_handle_send_unsequenced_ahead r1.host r1.peer command currentData2
        r1.mem hacc2 hlen2a hfar
    · exact enet_protocol_handle_send_unsequenced_seen r1.host r1.peer command currentData2
        r1.mem hacc2 hlen2a hgroup hseen
  · obtain ⟨e1, e2, e3, -⟩ := f7 (by rw [hs]; decide)
    exact ⟨e1, e2, e3⟩
  · have hG := unsequencedGroupOf_lt command
    have hcode : (if unsequencedGroupOf command < peer.incomingUnsequencedGroup then
          u32 (unsequencedGroupOf command + 0x10000)
        else unsequencedGroupOf command)
        ≥ u32 (peer.incomingUnsequencedGroup
            + ENET_PEER_FREE_UNSEQUENCED_WINDOWS * ENET_PEER_UNSEQUENCED_WINDOW_SIZE) := by
      unfold ENET_PEER_FREE_UNSEQUENCED_WINDOWS ENET_PEER_UNSEQUENCED_WINDOW_SIZE at hfar ⊢
      unfold u32
      split_ifs <;> omega
    have := enet_protocol_handle_send_unsequenced_ahead host peer command currentData mem
      hacc hlen hcode
    rw [this] at h1
    exact (Option.some.inj h1).symm

/-- C34 at a sample: the sample peer handles the `SEND_UNSEQUENCED` command with group 5; the
call returns 0 and leaves the packet in `dispatchedCommands`, and the same command handled
again returns 0 and changes nothing. -/
theorem enet_protocol_handle_send_unsequenced_twice_witness :
    enet_protocol_handle_send_unsequenced sampleHost samplePeer (sampleSendUnsequenced 5) [1, 2, 3, 4] 8
      = some sampleUnsequencedHandled ∧
    sampleUnsequencedHandled.status = 0 ∧
    sampleUnsequencedHandled.peer.dispatchedCommands.length = 1 ∧
    enet_protocol_handle_send_unsequenced sampleUnsequencedHandled.host sampleUnsequencedHandled.peer
        (sampleSendUnsequenced 5) [5, 6, 7, 8] sampleUnsequencedHandled.mem
      = some { status := 0, host := sampleUnsequencedHandled.host,
               peer := sampleUnsequencedHandled.peer,
               currentData :=
                 [5, 6, 7, 8].drop
                   (ENET_NET_TO_HOST_16 (sampleSendUnsequenced 5).dataLengthView),
               mem := sampleUnsequencedHandled.mem } :=
  ⟨by decide, by decide, by decide,
    (enet_protocol_handle_send_unsequenced_twice sampleHost samplePeer
      (sampleSendUnsequenced 5) [1, 2, 3, 4] [5, 6, 7, 8] 8 sampleUnsequencedHandled
      (by decide) (by decide) (by decide) (by decide)).2.1 (by decide)⟩

/-! ## The echo of the acknowledgements -/

/-- A state change leaves the scratch arrays of the host. -/
theorem enet_protocol_change_state_scratch (host : ENetHost) (peer : ENetPeer)
    (state : ENetPeerState) :
    (enet_protocol_change_state host peer state).1.commands = host.commands ∧
    (enet_protocol_change_state host peer state).1.buffers = host.buffers ∧
    (enet_protocol_change_state host peer state).1.packetSize = host.packetSize ∧
    (enet_protocol_change_state host peer state).1.continueSending
      = host.continueSending := by
  unfold enet_protocol_change_state enet_peer_on_connect enet_peer_on_disconnect
  dsimp only
  split_ifs <;> exact ⟨rfl, rfl, rfl, rfl⟩

/-- The dispatch link leaves the scratch arrays of the host. -/
theorem linkDispatch_scratch (host : ENetHost) (peer : ENetPeer) :
    (linkDispatch host peer).1.commands = host.commands ∧
    (linkDispatch host peer).1.buffers = host.buffers ∧
    (linkDispatch host peer).1.packetSize = host.packetSize ∧
    (linkDispatch host peer).1.continueSending = host.continueSending := by
  unfold linkDispatch
  split <;> exact ⟨rfl, rfl, rfl, rfl⟩

/-- A state change with the dispatch link leaves the `mtu` of the peer and the scratch
arrays of the host. -/
theorem enet_protocol_dispatch_state_scratch (host : ENetHost) (peer : ENetPeer)
    (state : ENetPeerState) :
    (enet_protocol_dispatch_state host peer state).2.mtu = peer.mtu ∧
    (enet_protocol_dispatch_state host peer state).1.commands = host.commands ∧
    (enet_protocol_dispatch_state host peer state).1.buffers = host.buffers ∧
    (enet_protocol_dispatch_state host peer state).1.packetSize = host.packetSize ∧
    (enet_protocol_dispatch_state host peer state).1.continueSending
      = host.continueSending := by
  have hp := (enet_protocol_dispatch_state_links host peer state).1
  refine ⟨by rw [hp], ?_⟩
  obtain ⟨c1, c2, c3, c4⟩ := enet_protocol_change_state_scratch host peer state
  unfold enet_protocol_dispatch_state
  generalize enet_protocol_change_state host peer state = r at c1 c2 c3 c4 ⊢
  obtain ⟨host1, peer1⟩ := r
  obtain ⟨l1, l2, l3, l4⟩ := linkDispatch_scratch host1 peer1
  exact ⟨l1.trans c1, l2.trans c2, l3.trans c3, l4.trans c4⟩

/-- The host and the peer after `enet_protocol_send_acknowledgements` has emitted the
command of one record, before the record is removed. -/
theorem acknowledged_scratch (host : ENetHost) (peer : ENetPeer) (command : Nat)
    (a : ENetAcknowledgement) :
    (if a.command.command &&& ENET_PROTOCOL_COMMAND_MASK = ENET_PROTOCOL_COMMAND_DISCONNECT then
        enet_protocol_dispatch_state
          { host with
              buffers := host.buffers
                ++ [ENetBuffer.command command
                      (commandSizes.getD ENET_PROTOCOL_COMMAND_ACKNOWLEDGE 0)],
              packetSize :=
                usize (host.packetSize + commandSizes.getD ENET_PROTOCOL_COMMAND_ACKNOWLEDGE 0),
              commands := host.commands ++ [acknowledgeCommand a] } peer ENetPeerState.ZOMBIE
      else
        ({ host with
              buffers := host.buffers
                ++ [ENetBuffer.command command
                      (commandSizes.getD ENET_PROTOCOL_COMMAND_ACKNOWLEDGE 0)],
              packetSize :=
                usize (host.packetSize + commandSizes.getD ENET_PROTOCOL_COMMAND_ACKNOWLEDGE 0),
              commands := host.commands ++ [acknowledgeCommand a] }, peer)).1.commands = host.commands ++ [acknowledgeCommand a] ∧
    (if a.command.command &&& ENET_PROTOCOL_COMMAND_MASK = ENET_PROTOCOL_COMMAND_DISCONNECT then
        enet_protocol_dispatch_state
          { host with
              buffers := host.buffers
                ++ [ENetBuffer.command command
                      (commandSizes.getD ENET_PROTOCOL_COMMAND_ACKNOWLEDGE 0)],
              packetSize :=
                usize (host.packetSize + commandSizes.getD ENET_PROTOCOL_COMMAND_ACKNOWLEDGE 0),
              commands := host.commands ++ [acknowledgeCommand a] } peer ENetPeerState.ZOMBIE
      else
        ({ host with
              buffers := host.buffers
                ++ [ENetBuffer.command command
                      (commandSizes.getD ENET_PROTOCOL_COMMAND_ACKNOWLEDGE 0)],
              packetSize :=
                usize (host.packetSize + commandSizes.getD ENET_PROTOCOL_COMMAND_ACKNOWLEDGE 0),
              commands := host.commands ++ [acknowledgeCommand a] }, peer)).1.buffers
      = host.buffers ++ [ENetBuffer.command command
          (commandSizes.getD ENET_PROTOCOL_COMMAND_ACKNOWLEDGE 0)] := by
  split_ifs
  · exact ⟨(enet_protocol_dispatch_state_scratch _ _ _).2.1,
      (enet_protocol_dispatch_state_scratch _ _ _).2.2.1⟩
  · exact ⟨rfl, rfl⟩

/-- The body of the loop of `enet_protocol_send_acknowledgements`. -/
theorem enet_protocol_send_acknowledgements_loop_cons (hdr : ENetHeader) (host : ENetHost)
    (peer : ENetPeer) (command buffer : Nat) (a : ENetAcknowledgement)
    (rest : List ENetAcknowledgement) :
    enet_protocol_send_acknowledgements_loop hdr host peer command buffer (a :: rest)
      = if command ≥ hdr.ENET_PROTOCOL_MAXIMUM_PACKET_COMMANDS ∨
            buffer ≥ hdr.ENET_BUFFER_MAXIMUM ∨
            usizeSub peer.mtu host.packetSize
              < commandSizes.getD ENET_PROTOCOL_COMMAND_ACKNOWLEDGE 0 then
          ({ host with continueSending := 1 }, peer, command, buffer)
        else
          enet_protocol_send_acknowledgements_loop hdr
            (if a.command.command &&& ENET_PROTOCOL_COMMAND_MASK
                = ENET_PROTOCOL_COMMAND_DISCONNECT then
              enet_protocol_dispatch_state
                { host with
              buffers := host.buffers
                ++ [ENetBuffer.command command
                      (commandSizes.getD ENET_PROTOCOL_COMMAND_ACKNOWLEDGE 0)],
              packetSize :=
                usize (host.packetSize + commandSizes.getD ENET_PROTOCOL_COMMAND_ACKNOWLEDGE 0),
              commands := host.commands ++ [acknowledgeCommand a] } peer ENetPeerState.ZOMBIE
            else
              ({ host with
              buffers := host.buffers
                ++ [ENetBuffer.command command
                      (commandSizes.getD ENET_PROTOCOL_COMMAND_ACKNOWLEDGE 0)],
              packetSize :=
                usize (host.packetSize + commandSizes.getD ENET_PROTOCOL_COMMAND_ACKNOWLEDGE 0),
              commands := host.commands ++ [acknowledgeCommand a] }, peer)).1
            { (if a.command.command &&& ENET_PROTOCOL_COMMAND_MASK
                  = ENET_PROTOCOL_COMMAND_DISCONNECT then
                enet_protocol_dispatch_state
                  { host with
              buffers := host.buffers
                ++ [ENetBuffer.command command
                      (commandSizes.getD ENET_PROTOCOL_COMMAND_ACKNOWLEDGE 0)],
              packetSize :=
                usize (host.packetSize + commandSizes.getD ENET_PROTOCOL_COMMAND_ACKNOWLEDGE 0),
              commands := host.commands ++ [acknowledgeCommand a] } peer ENetPeerState.ZOMBIE
              else
                ({ host with
              buffers := host.buffers
                ++ [ENetBuffer.command command
                      (commandSizes.getD ENET_PROTOCOL_COMMAND_ACKNOWLEDGE 0)],
              packetSize :=
                usize (host.packetSize + commandSizes.getD ENET_PROTOCOL_COMMAND_ACKNOWLEDGE 0),
              commands := host.commands ++ [acknowledgeCommand a] }, peer)).2 with acknowledgements := rest }
            (command + 1) (buffer + 1) rest := by
  rw [enet_protocol_send_acknowledgements_loop]
  rfl

/-- What the loop of `enet_protocol_send_acknowledgements` has done when it is left: it has
emitted the `ACKNOWLEDGE` commands of the first `k` records, in their order, and removed
these records; it has stopped before the end only with `continueSending` set, and not before
the first record when there was room for a command. -/
theorem enet_protocol_send_acknowledgements_loop_echo (hdr : ENetHeader) :
    ∀ (acks : List ENetAcknowledgement) (host : ENetHost) (peer : ENetPeer)
      (command buffer : Nat), peer.acknowledgements = acks →
      ∃ k, k ≤ acks.length ∧
        (enet_protocol_send_acknowledgements_loop hdr host peer command buffer acks).1.commands
          = host.commands ++ (acks.take k).map acknowledgeCommand ∧
        (enet_protocol_send_acknowledgements_loop hdr host peer command buffer acks).1.buffers
          = host.buffers ++ (List.range k).map
              (fun i => ENetBuffer.command (command + i)
                (commandSizes.getD ENET_PROTOCOL_COMMAND_ACKNOWLEDGE 0)) ∧
        (enet_protocol_send_acknowledgements_loop hdr host peer command buffer acks).2.1.acknowledgements = acks.drop k ∧
        (enet_protocol_send_acknowledgements_loop hdr host peer command buffer acks).2.2.1 = command + k ∧
        (enet_protocol_send_acknowledgements_loop hdr host peer command buffer acks).2.2.2 = buffer + k ∧
        (k < acks.length →
          (enet_protocol_send_acknowledgements_loop hdr host peer command buffer acks).1.continueSending = 1) ∧
        (acks ≠ [] → command < hdr.ENET_PROTOCOL_MAXIMUM_PACKET_COMMANDS →
          buffer < hdr.ENET_BUFFER_MAXIMUM →
          commandSizes.getD ENET_PROTOCOL_COMMAND_ACKNOWLEDGE 0
            ≤ usizeSub peer.mtu host.packetSize → 1 ≤ k) := by
  intro acks
  induction acks with
  | nil =>
    intro host peer command buffer hp
    refine ⟨0, Nat.le_refl _, ?_, ?_, hp, rfl, rfl, fun h => absurd h (Nat.lt_irrefl _),
      fun h => absurd rfl h⟩
    · show host.commands = host.commands ++ []
      rw [List.append_nil]
    · show host.buffers = host.buffers ++ []
      rw [List.append_nil]
  | cons a rest ih =>
    intro host peer command buffer hp
    rw [enet_protocol_send_acknowledgements_loop_cons]
    by_cases hfull : command ≥ hdr.ENET_PROTOCOL_MAXIMUM_PACKET_COMMANDS ∨
        buffer ≥ hdr.ENET_BUFFER_MAXIMUM ∨
        usizeSub peer.mtu host.packetSize
          < commandSizes.getD ENET_PROTOCOL_COMMAND_ACKNOWLEDGE 0
    · rw [if_pos hfull]
      refine ⟨0, Nat.zero_le _, ?_, ?_, hp, rfl, rfl, fun _ => rfl, fun _ h1 h2 h3 => ?_⟩
      · show host.commands = host.commands ++ []
        rw [List.append_nil]
      · show host.buffers = host.buffers ++ []
        rw [List.append_nil]
      · rcases hfull with h | h | h <;> omega
    · rw [if_neg hfull]
      obtain ⟨d1, d2⟩ := acknowledged_scratch host peer command a
      generalize (if a.command.command &&& ENET_PROTOCOL_COMMAND_MASK
          = ENET_PROTOCOL_COMMAND_DISCONNECT then
            enet_protocol_dispatch_state
              { host with
              buffers := host.buffers
                ++ [ENetBuffer.command command
                      (commandSizes.getD ENET_PROTOCOL_COMMAND_ACKNOWLEDGE 0)],
              packetSize :=
                usize (host.packetSize + commandSizes.getD ENET_PROTOCOL_COMMAND_ACKNOWLEDGE 0),
              commands := host.commands ++ [acknowledgeCommand a] } peer ENetPeerState.ZOMBIE
          else
            ({ host with
              buffers := host.buffers
                ++ [ENetBuffer.command command
                      (commandSizes.getD ENET_PROTOCOL_COMMAND_ACKNOWLEDGE 0)],
              packetSize :=
                usize (host.packetSize + commandSizes.getD ENET_PROTOCOL_COMMAND_ACKNOWLEDGE 0),
              commands := host.commands ++ [acknowledgeCommand a] }, peer)) = hp2 at d1 d2 ⊢
      obtain ⟨host2, peer2⟩ := hp2
      dsimp only at d1 d2 ⊢
      obtain ⟨k, hk, e1, e2, e3, e4, e5, e6, -⟩ := ih host2
        { peer2 with acknowledgements := rest } (command + 1) (buffer + 1) rfl
      refine ⟨k + 1, Nat.succ_le_succ hk, ?_, ?_, e3, by rw [e4]; omega, by rw [e5]; omega,
        fun h => e6 (Nat.lt_of_succ_lt_succ h), fun _ _ _ _ => Nat.succ_le_succ (Nat.zero_le _)⟩
      · rw [e1, d1, List.append_assoc]
        rfl
      · rw [e2, d2, List.append_assoc, List.range_succ_eq_map, List.map_cons, List.map_map]
        show _ ++ (_ :: _) = _ ++ (_ :: _)
        congr 2
        apply List.map_congr_left
        intro i _
        show ENetBuffer.command (command + 1 + i) _ = ENetBuffer.command (command + (i + 1)) _
        rw [Nat.add_assoc, Nat.add_comm 1 i]

/-- C35: `enet_peer_queue_acknowledgement` leaves `peer -> acknowledgements` as it is or
appends one record that holds the command and the sent time it was given.
`enet_protocol_send_acknowledgements` emits, for the first `k` records of
`peer -> acknowledgements` and in their order, the command `acknowledgeCommand` of the
record, which is an `ACKNOWLEDGE` on the channel of the acknowledged command with its
reliable sequence number `r` as `receivedReliableSequenceNumber` and the sent time `t` of
the record as `receivedSentTime` (both truncated to 16 bits, that is `r` and `t` themselves
for 16-bit values); it removes exactly these `k` records and advances `commandCount` and
`bufferCount` by `k`.  It stops before the last record only with `continueSending` set, and
it emits at least the first record when there is room for one command. -/
theorem enet_protocol_send_acknowledgements_echo (hdr : ENetHeader) (host : ENetHost)
    (peer : ENetPeer) :
    (∀ (command : ENetProtocol) (sentTime mem : Nat) (queued : ENetPeer × Nat),
      enet_peer_queue_acknowledgement peer command sentTime mem = some queued →
      queued.1.acknowledgements = peer.acknowledgements ∨
      queued.1.acknowledgements
        = peer.acknowledgements ++ [{ sentTime := sentTime, command := command }]) ∧
    (∀ a : ENetAcknowledgement,
      (acknowledgeCommand a).command = ENET_PROTOCOL_COMMAND_ACKNOWLEDGE ∧
      (acknowledgeCommand a).channelID = a.command.channelID ∧
      (acknowledgeCommand a).acknowledgeView
        = (ENET_HOST_TO_NET_16 a.command.reliableSequenceNumber,
           ENET_HOST_TO_NET_16 a.sentTime) ∧
      (a.command.reliableSequenceNumber < 65536 → a.sentTime < 65536 →
        (acknowledgeCommand a).acknowledgeView
          = (a.command.reliableSequenceNumber, a.sentTime))) ∧
    ∃ k, k ≤ peer.acknowledgements.length ∧
      (enet_protocol_send_acknowledgements hdr host peer).1.commands
        = host.commands.take host.commandCount
          ++ (peer.acknowledgements.take k).map acknowledgeCommand ∧
      (enet_protocol_send_acknowledgements hdr host peer).2.acknowledgements
        = peer.acknowledgements.drop k ∧
      (enet_protocol_send_acknowledgements hdr host peer).1.commandCount = host.commandCount + k ∧
      (enet_protocol_send_acknowledgements hdr host peer).1.bufferCount = host.bufferCount + k ∧
      (k < peer.acknowledgements.length →
        (enet_protocol_send_acknowledgements hdr host peer).1.continueSending = 1) ∧
      (peer.acknowledgements ≠ [] →
        host.commandCount < hdr.ENET_PROTOCOL_MAXIMUM_PACKET_COMMANDS →
        host.bufferCount < hdr.ENET_BUFFER_MAXIMUM →
        commandSizes.getD ENET_PROTOCOL_COMMAND_ACKNOWLEDGE 0
          ≤ usizeSub peer.mtu host.packetSize → 1 ≤ k) := by
  refine ⟨fun command sentTime mem queued hq => ?_, fun a => ⟨rfl, rfl, rfl, fun hr ht => ?_⟩,
    ?_⟩
  · unfold enet_peer_queue_acknowledgement at hq
    dsimp only at hq
    have hqueue : ∀ q : ENetPeer × Nat,
        (match enet_malloc mem with
          | none => some (peer, 0)
          | some mem =>
            some ({ peer with
                outgoingDataTotal := u32 (peer.outgoingDataTotal
                  + commandSizes.getD ENET_PROTOCOL_COMMAND_ACKNOWLEDGE 0),
                acknowledgements := peer.acknowledgements
                  ++ [{ sentTime := sentTime, command := command }] }, mem)) = some q →
        q.1.acknowledgements = peer.acknowledgements ∨
        q.1.acknowledgements
          = peer.acknowledgements ++ [{ sentTime := sentTime, command := command }] := by
      intro q h
      cases hm : enet_malloc mem with
      | none =>
        rw [hm] at h
        cases h
        exact Or.inl rfl
      | some mem1 =>
        rw [hm] at h
        cases h
        exact Or.inr rfl
    split_ifs at hq
    · split at hq
      · cases hq
      · split_ifs at hq
        · cases hq
          exact Or.inl rfl
        · exact hqueue queued hq
    · exact hqueue queued hq
  · show (ENET_HOST_TO_NET_16 a.command.reliableSequenceNumber, ENET_HOST_TO_NET_16 a.sentTime)
      = _
    unfold ENET_HOST_TO_NET_16 u16
    rw [Nat.mod_eq_of_lt hr, Nat.mod_eq_of_lt ht]
  · obtain ⟨k, hk, e1, -, e3, e4, e5, e6, e7⟩ :=
      enet_protocol_send_acknowledgements_loop_echo hdr peer.acknowledgements
        { host with
          commands := host.commands.take host.commandCount,
          buffers := host.buffers.take host.bufferCount } peer host.commandCount
        host.bufferCount rfl
    exact ⟨k, hk, e1, e3, e4, e5, e6, e7⟩

/-- C35 at a sample: the two records queued for the sequence numbers 1 and 2 on channel 0
with the sent times 700 and 705 are echoed in this order and removed. -/
theorem enet_protocol_send_acknowledgements_echo_witness :
    enet_peer_queue_acknowledgement samplePeer (sampleSendReliable 1) 700 4
      = some ({ samplePeer with
          outgoingDataTotal := 8,
          acknowledgements := [{ sentTime := 700, command := sampleSendReliable 1 }] }, 3) ∧
    ([{ sentTime := 700, command := sampleSendReliable 1 }]
        = samplePeer.acknowledgements ∨
      [{ sentTime := 700, command := sampleSendReliable 1 }]
        = samplePeer.acknowledgements
          ++ [{ sentTime := 700, command := sampleSendReliable 1 }]) ∧
    sampleAcknowledgingPeer.acknowledgements
      = [{ sentTime := 700, command := sampleSendReliable 1 },
         { sentTime := 705, command := sampleSendReliable 2 }] ∧
    (enet_protocol_send_acknowledgements sampleHeader sampleHost sampleAcknowledgingPeer).1.commands.map
        (fun c => (c.command, c.channelID, c.acknowledgeView))
      = [(ENET_PROTOCOL_COMMAND_ACKNOWLEDGE, 0, 1, 700),
         (ENET_PROTOCOL_COMMAND_ACKNOWLEDGE, 0, 2, 705)] ∧
    (enet_protocol_send_acknowledgements sampleHeader sampleHost sampleAcknowledgingPeer).2.acknowledgements = [] :=
  ⟨by decide,
    (enet_protocol_send_acknowledgements_echo sampleHeader sampleHost samplePeer).1
      (sampleSendReliable 1) 700 4
      ({ samplePeer with
          outgoingDataTotal := 8,
          acknowledgements := [{ sentTime := 700, command := sampleSendReliable 1 }] }, 3)
      (by decide),
    by decide, by decide, by decide⟩

/-! ## The waiting data -/

/-- C38: the invariant `totalWaitingData = sum of the packet dataLength over the incoming
commands held` is not kept by the drop of unreliable commands nor by
`enet_peer_reset_queues`.  On the sample peer an unreliable command for the reliable sequence
number 1 is queued (4 bytes), then the reliable command 2 (4 bytes), then the reliable
command 1 (4 bytes); the invariant holds after the first two calls.  The third call of
`enet_peer_queue_incoming_command` dispatches the two reliable commands and, through
`enet_peer_dispatch_incoming_unreliable_commands` and `enet_peer_remove_incoming_commands`,
drops the unreliable command, which is behind the reliable sequence number by then:
`totalWaitingData` is 12 while the peer holds 8 bytes, and after `enet_peer_receive` has
returned both packets it is 4 while the peer holds nothing.  On the peer of
`sampleReceivingHost`, where the invariant holds, `enet_peer_receive` keeps it (it subtracts
the length of the packet it returns), and `enet_peer_reset_queues` breaks it; for every peer
`enet_peer_reset_queues` leaves `totalWaitingData` as it was and no incoming command. -/
theorem enet_peer_remove_incoming_commands_leaves_waiting_data :
    WaitingDataInvariant samplePeer ∧
    (sampleEarlyUnreliable.map fun q => waitingSummary q.peer) = some (4, 4, 0, 0, 1) ∧
    (sampleEarlyReliable.map fun q => waitingSummary q.peer) = some (8, 8, 0, 1, 1) ∧
    (sampleLateReliable.map fun q => waitingSummary q.peer) = some (12, 8, 2, 0, 0) ∧
    (sampleLateReliable.map fun q => decide (WaitingDataInvariant q.peer)) = some false ∧
    (sampleLateReliable.map fun q =>
      waitingSummary (enet_peer_receive (enet_peer_receive q.peer).2).2)
      = some (4, 0, 0, 0, 0) ∧
    WaitingDataInvariant sampleReceivingPeer ∧
    WaitingDataInvariant (enet_peer_receive sampleReceivingPeer).2 ∧
    waitingSummary (enet_peer_reset_queues sampleReceivingHost sampleReceivingPeer []).2.1
      = (4, 0, 0, 0, 0) ∧
    ¬ WaitingDataInvariant
        (enet_peer_reset_queues sampleReceivingHost sampleReceivingPeer []).2.1 ∧
    (∀ (host : ENetHost) (peer : ENetPeer) (store : PacketStore),
      (enet_peer_reset_queues host peer store).2.1.totalWaitingData = peer.totalWaitingData ∧
      waitingData (enet_peer_reset_queues host peer store).2.1 = 0) := by
  refine ⟨by decide, by decide, by decide, by decide, by decide, by decide, by decide,
    by decide, by decide, by decide, fun host peer store => ?_⟩
  rw [(enet_peer_reset_queues_keeps host peer store).2]
  exact ⟨rfl, rfl⟩

/-! ## The bandwidth throttle -/

/-- The division of `throttleOf` is never by zero: it is executed only when `dataTotal` is
above `bandwidth`. -/
theorem throttleOf_ok (dataTotal bandwidth : Nat) :
    ∃ throttle, throttleOf dataTotal bandwidth = .ok throttle := by
  unfold throttleOf checkedDiv
  by_cases h : dataTotal ≤ bandwidth
  · rw [if_pos h]
    exact ⟨_, rfl⟩
  · rw [if_neg h, if_neg (by omega)]
    exact ⟨_, rfl⟩

/-- A peer marked at `timeCurrent` does not count as unmarked. -/
theorem unmarkedOutgoing_cons_marked (timeCurrent : Nat) (peer : ENetPeer)
    (peers : List ENetPeer) (h : peer.outgoingBandwidthThrottleEpoch = timeCurrent) :
    unmarkedOutgoing timeCurrent (peer :: peers) = unmarkedOutgoing timeCurrent peers := by
  unfold unmarkedOutgoing
  rw [List.countP_cons, if_neg (by simp [h])]
  rfl

/-- A peer not marked at `timeCurrent` counts as unmarked. -/
theorem unmarkedOutgoing_cons_unmarked (timeCurrent : Nat) (peer : ENetPeer)
    (peers : List ENetPeer) (h : peer.outgoingBandwidthThrottleEpoch ≠ timeCurrent) :
    unmarkedOutgoing timeCurrent (peer :: peers)
      = unmarkedOutgoing timeCurrent peers + 1 := by
  unfold unmarkedOutgoing
  rw [List.countP_cons, if_pos (by simp [h])]

/-- A peer marked at `timeCurrent` does not count as unmarked. -/
theorem unmarkedIncoming_cons_marked (timeCurrent : Nat) (peer : ENetPeer)
    (peers : List ENetPeer) (h : peer.incomingBandwidthThrottleEpoch = timeCurrent) :
    unmarkedIncoming timeCurrent (peer :: peers) = unmarkedIncoming timeCurrent peers := by
  unfold unmarkedIncoming
  rw [List.countP_cons, if_neg (by simp [h])]
  rfl

/-- A peer not marked at `timeCurrent` counts as unmarked. -/
theorem unmarkedIncoming_cons_unmarked (timeCurrent : Nat) (peer : ENetPeer)
    (peers : List ENetPeer) (h : peer.incomingBandwidthThrottleEpoch ≠ timeCurrent) :
    unmarkedIncoming timeCurrent (peer :: peers)
      = unmarkedIncoming timeCurrent peers + 1 := by
  unfold unmarkedIncoming
  rw [List.countP_cons, if_pos (by simp [h])]

/-- The number of unmarked peers with one more peer in front. -/
theorem unmarkedOutgoing_cons_le (timeCurrent : Nat) (peer : ENetPeer)
    (peers : List ENetPeer) :
    unmarkedOutgoing timeCurrent (peer :: peers)
      = unmarkedOutgoing timeCurrent peers
        + (if peer.outgoingBandwidthThrottleEpoch ≠ timeCurrent then 1 else 0) := by
  by_cases h : peer.outgoingBandwidthThrottleEpoch = timeCurrent
  · rw [unmarkedOutgoing_cons_marked _ _ _ h, if_neg (by simp [h]), Nat.add_zero]
  · rw [unmarkedOutgoing_cons_unmarked _ _ _ h, if_pos h]

/-- The number of unmarked peers with one more peer in front. -/
theorem unmarkedIncoming_cons_le (timeCurrent : Nat) (peer : ENetPeer)
    (peers : List ENetPeer) :
    unmarkedIncoming timeCurrent (peer :: peers)
      = unmarkedIncoming timeCurrent peers
        + (if peer.incomingBandwidthThrottleEpoch ≠ timeCurrent then 1 else 0) := by
  by_cases h : peer.incomingBandwidthThrottleEpoch = timeCurrent
  · rw [unmarkedIncoming_cons_marked _ _ _ h, if_neg (by simp [h]), Nat.add_zero]
  · rw [unmarkedIncoming_cons_unmarked _ _ _ h, if_pos h]

/-- The `for` loop inside the first `while` loop never divides by zero: a peer whose
`outgoingDataTotal` is zero has the share zero and is passed over.  The loop marks a peer
whenever it sets `needsAdjustment`. -/
theorem throttleLimitPeers_ok (timeCurrent elapsedTime throttle : Nat) :
    ∀ (peers : List ENetPeer) (locals : ThrottleLocals),
      ∃ r, throttleLimitPeers timeCurrent elapsedTime throttle peers locals = .ok r ∧
        r.1.length = peers.length ∧
        (r.2.needsAdjustment = locals.needsAdjustment ∧
            unmarkedOutgoing timeCurrent r.1 ≤ unmarkedOutgoing timeCurrent peers ∨
          r.2.needsAdjustment = 1 ∧
            unmarkedOutgoing timeCurrent r.1 < unmarkedOutgoing timeCurrent peers) := by
  intro peers
  induction peers with
  | nil =>
    intro locals
    exact ⟨_, rfl, rfl, Or.inl ⟨rfl, Nat.le_refl _⟩⟩
  | cons peer rest ih =>
    intro locals
    have hskip : ∀ l : ThrottleLocals,
        ∃ r, (match throttleLimitPeers timeCurrent elapsedTime throttle rest l with
            | .error e => .error e
            | .ok (peers, locals) => .ok (peer :: peers, locals)) = Except.ok r ∧
          r.1.length = (peer :: rest).length ∧
          (r.2.needsAdjustment = l.needsAdjustment ∧
              unmarkedOutgoing timeCurrent r.1
                ≤ unmarkedOutgoing timeCurrent (peer :: rest) ∨
            r.2.needsAdjustment = 1 ∧
              unmarkedOutgoing timeCurrent r.1
                < unmarkedOutgoing timeCurrent (peer :: rest)) := by
      intro l
      obtain ⟨r, hr, hl, hcase⟩ := ih l
      rw [hr]
      obtain ⟨ps, l1⟩ := r
      dsimp only at hl hcase
      refine ⟨_, rfl, Nat.succ_inj.mpr hl, ?_⟩
      show _ ∧ unmarkedOutgoing timeCurrent (peer :: ps) ≤ _ ∨
        _ ∧ unmarkedOutgoing timeCurrent (peer :: ps) < _
      rw [unmarkedOutgoing_cons_le timeCurrent peer ps,
        unmarkedOutgoing_cons_le timeCurrent peer rest]
      rcases hcase with ⟨h1, h2⟩ | ⟨h1, h2⟩
      · exact Or.inl ⟨h1, by omega⟩
      · exact Or.inr ⟨h1, by omega⟩
    rw [throttleLimitPeers]
    by_cases h1 : (peer.state ≠ ENetPeerState.CONNECTED ∧
          peer.state ≠ ENetPeerState.DISCONNECT_LATER) ∨
        peer.incomingBandwidth = 0 ∨ peer.outgoingBandwidthThrottleEpoch = timeCurrent
    · rw [if_pos h1]
      exact hskip locals
    · rw [if_neg h1]
      dsimp only
      by_cases h2 : u32 (throttle * peer.outgoingDataTotal) / ENET_PEER_PACKET_THROTTLE_SCALE
          ≤ u32 (peer.incomingBandwidth * elapsedTime) / 1000
      · rw [if_pos h2]
        exact hskip locals
      · rw [if_neg h2]
        have hne : peer.outgoingDataTotal ≠ 0 := by
          intro h0
          apply h2
          rw [h0, Nat.mul_zero]
          unfold u32 ENET_PEER_PACKET_THROTTLE_SCALE
          omega
        unfold checkedDiv
        rw [if_neg hne]
        dsimp only
        have hmark : peer.outgoingBandwidthThrottleEpoch ≠ timeCurrent :=
          fun h => h1 (Or.inr (Or.inr h))
        obtain ⟨r, hr, hl, hcase⟩ := ih
          { peersRemaining := u32 (locals.peersRemaining + 4294967296 - 1),
            dataTotal := u32 (locals.dataTotal + 4294967296
              - u32 (peer.incomingBandwidth * elapsedTime) / 1000),
            bandwidth := u32 (locals.bandwidth + 4294967296
              - u32 (peer.incomingBandwidth * elapsedTime) / 1000),
            needsAdjustment := 1 }
        rw [hr]
        obtain ⟨ps, l1⟩ := r
        dsimp only at hl hcase
        refine ⟨_, rfl, Nat.succ_inj.mpr hl, Or.inr ⟨?_, ?_⟩⟩
        · rcases hcase with ⟨h, -⟩ | ⟨h, -⟩ <;> exact h
        · have hle : unmarkedOutgoing timeCurrent ps ≤ unmarkedOutgoing timeCurrent rest := by
            rcases hcase with ⟨-, h⟩ | ⟨-, h⟩ <;> omega
          show unmarkedOutgoing timeCurrent (_ :: ps) < _
          rw [unmarkedOutgoing_cons_marked timeCurrent _ ps rfl,
            unmarkedOutgoing_cons_unmarked timeCurrent peer rest hmark]
          omega

/-- The first `while` loop ends, without a division by zero, within one iteration more than
there are peers it has not marked. -/
theorem throttleLimitLoop_ok (timeCurrent elapsedTime : Nat) :
    ∀ (fuel : Nat) (peers : List ENetPeer) (locals : ThrottleLocals),
      unmarkedOutgoing timeCurrent peers < fuel ∨ locals.needsAdjustment = 0 →
      ∃ r, throttleLimitLoop timeCurrent elapsedTime fuel peers locals = .ok r ∧
        r.1.length = peers.length := by
  intro fuel
  induction fuel with
  | zero =>
    intro peers locals h
    have h0 : locals.needsAdjustment = 0 := by
      rcases h with h | h
      · exact absurd h (Nat.not_lt_zero _)
      · exact h
    unfold throttleLimitLoop
    rw [if_neg (fun hc => hc.2 h0)]
    exact ⟨_, rfl, rfl⟩
  | succ fuel ih =>
    intro peers locals h
    unfold throttleLimitLoop
    by_cases hc : locals.peersRemaining > 0 ∧ locals.needsAdjustment ≠ 0
    · rw [if_pos hc]
      have hfuel : unmarkedOutgoing timeCurrent peers < fuel + 1 := by
        rcases h with h | h
        · exact h
        · exact absurd h hc.2
      obtain ⟨throttle, ht⟩ := throttleOf_ok locals.dataTotal locals.bandwidth
      rw [ht]
      dsimp only
      obtain ⟨r, hr, hl, hcase⟩ := throttleLimitPeers_ok timeCurrent elapsedTime throttle peers
        { locals with needsAdjustment := 0 }
      rw [hr]
      obtain ⟨ps, l1⟩ := r
      dsimp only at hl hcase ⊢
      obtain ⟨r2, hr2, hl2⟩ := ih ps l1 (by
        rcases hcase with ⟨h1, -⟩ | ⟨-, h2⟩
        · exact Or.inr h1
        · exact Or.inl (by omega))
      exact ⟨r2, hr2, hl2.trans hl⟩
    · rw [if_neg hc]
      exact ⟨_, rfl, rfl⟩

/-- The `for` loop inside the second `while` loop marks a peer whenever it sets
`needsAdjustment`. -/
theorem bandwidthLimitPeers_marks (timeCurrent bandwidthLimit : Nat) :
    ∀ (peers : List ENetPeer) (locals : ThrottleLocals),
      (bandwidthLimitPeers timeCurrent bandwidthLimit peers locals).1.length = peers.length ∧
      ((bandwidthLimitPeers timeCurrent bandwidthLimit peers locals).2.needsAdjustment
            = locals.needsAdjustment ∧
          unmarkedIncoming timeCurrent
              (bandwidthLimitPeers timeCurrent bandwidthLimit peers locals).1
            ≤ unmarkedIncoming timeCurrent peers ∨
        (bandwidthLimitPeers timeCurrent bandwidthLimit peers locals).2.needsAdjustment = 1 ∧
          unmarkedIncoming timeCurrent
              (bandwidthLimitPeers timeCurrent bandwidthLimit peers locals).1
            < unmarkedIncoming timeCurrent peers) := by
  intro peers
  induction peers with
  | nil =>
    intro locals
    exact ⟨rfl, Or.inl ⟨rfl, Nat.le_refl _⟩⟩
  | cons peer rest ih =>
    intro locals
    have hskip : ∀ l : ThrottleLocals,
        (peer :: (bandwidthLimitPeers timeCurrent bandwidthLimit rest l).1).length
          = (peer :: rest).length ∧
        ((bandwidthLimitPeers timeCurrent bandwidthLimit rest l).2.needsAdjustment
              = l.needsAdjustment ∧
            unmarkedIncoming timeCurrent
                (peer :: (bandwidthLimitPeers timeCurrent bandwidthLimit rest l).1)
              ≤ unmarkedIncoming timeCurrent (peer :: rest) ∨
          (bandwidthLimitPeers timeCurrent bandwidthLimit rest l).2.needsAdjustment = 1 ∧
            unmarkedIncoming timeCurrent
                (peer :: (bandwidthLimitPeers timeCurrent bandwidthLimit rest l).1)
              < unmarkedIncoming timeCurrent (peer :: rest)) := by
      intro l
      obtain ⟨hl, hcase⟩ := ih l
      refine ⟨Nat.succ_inj.mpr hl, ?_⟩
      rw [unmarkedIncoming_cons_le timeCurrent peer _,
        unmarkedIncoming_cons_le timeCurrent peer rest]
      rcases hcase with ⟨h1, h2⟩ | ⟨h1, h2⟩
      · exact Or.inl ⟨h1, by omega⟩
      · exact Or.inr ⟨h1, by omega⟩
    rw [bandwidthLimitPeers]
    by_cases h1 : (peer.state ≠ ENetPeerState.CONNECTED ∧
          peer.state ≠ ENetPeerState.DISCONNECT_LATER) ∨
        peer.incomingBandwidthThrottleEpoch = timeCurrent
    · rw [if_pos h1]
      exact hskip locals
    · rw [if_neg h1]
      by_cases h2 : peer.outgoingBandwidth > 0 ∧ peer.outgoingBandwidth ≥ bandwidthLimit
      · rw [if_pos h2]
        exact hskip locals
      · rw [if_neg h2]
        have hmark : peer.incomingBandwidthThrottleEpoch ≠ timeCurrent :=
          fun h => h1 (Or.inr h)
        obtain ⟨hl, hcase⟩ := ih
          { locals with
            peersRemaining := u32 (locals.peersRemaining + 4294967296 - 1),
            bandwidth := u32 (locals.bandwidth + 4294967296 - peer.outgoingBandwidth),
            needsAdjustment := 1 }
        refine ⟨Nat.succ_inj.mpr hl, Or.inr ⟨?_, ?_⟩⟩
        · rcases hcase with ⟨h, -⟩ | ⟨h, -⟩ <;> exact h
        · have hle : unmarkedIncoming timeCurrent
              (bandwidthLimitPeers timeCurrent bandwidthLimit rest
                { locals with
                  peersRemaining := u32 (locals.peersRemaining + 4294967296 - 1),
                  bandwidth := u32 (locals.bandwidth + 4294967296 - peer.outgoingBandwidth),
                  needsAdjustment := 1 }).1
              ≤ unmarkedIncoming timeCurrent rest := by
            rcases hcase with ⟨-, h⟩ | ⟨-, h⟩ <;> omega
          show unmarkedIncoming timeCurrent (_ :: _) < _
          rw [unmarkedIncoming_cons_marked timeCurrent _ _ rfl,
            unmarkedIncoming_cons_unmarked timeCurrent peer rest hmark]
          omega

/-- The second `while` loop ends, without a division by zero, within one iteration more than
there are peers it has not marked: `bandwidth / peersRemaining` is evaluated only after the
test `peersRemaining > 0`. -/
theorem bandwidthLimitLoop_ok (timeCurrent : Nat) :
    ∀ (fuel : Nat) (peers : List ENetPeer) (locals : ThrottleLocals) (bandwidthLimit : Nat),
      unmarkedIncoming timeCurrent peers < fuel ∨ locals.needsAdjustment = 0 →
      ∃ r, bandwidthLimitLoop timeCurrent fuel peers locals bandwidthLimit = .ok r ∧
        r.1.length = peers.length := by
  intro fuel
  induction fuel with
  | zero =>
    intro peers locals bandwidthLimit h
    have h0 : locals.needsAdjustment = 0 := by
      rcases h with h | h
      · exact absurd h (Nat.not_lt_zero _)
      · exact h
    unfold bandwidthLimitLoop
    rw [if_neg (fun hc => hc.2 h0)]
    exact ⟨_, rfl, rfl⟩
  | succ fuel ih =>
    intro peers locals bandwidthLimit h
    unfold bandwidthLimitLoop
    by_cases hc : locals.peersRemaining > 0 ∧ locals.needsAdjustment ≠ 0
    · rw [if_pos hc]
      have hfuel : unmarkedIncoming timeCurrent peers < fuel + 1 := by
        rcases h with h | h
        · exact h
        · exact absurd h hc.2
      unfold checkedDiv
      rw [if_neg (by omega)]
      dsimp only
      obtain ⟨hl, hcase⟩ := bandwidthLimitPeers_marks timeCurrent
        (locals.bandwidth / locals.peersRemaining) peers { locals with needsAdjustment := 0 }
      obtain ⟨r2, hr2, hl2⟩ := ih
        (bandwidthLimitPeers timeCurrent (locals.bandwidth / locals.peersRemaining) peers
          { locals with needsAdjustment := 0 }).1
        (bandwidthLimitPeers timeCurrent (locals.bandwidth / locals.peersRemaining) peers
          { locals with needsAdjustment := 0 }).2
        (locals.bandwidth / locals.peersRemaining) (by
        rcases hcase with ⟨h1, -⟩ | ⟨-, h2⟩
        · exact Or.inr h1
        · exact Or.inl (by omega))
      exact ⟨r2, hr2, hl2.trans hl⟩
    · rw [if_neg hc]
      exact ⟨_, rfl, rfl⟩

/-- The number of unmarked peers is at most the number of peers. -/
theorem unmarked_le_length (timeCurrent : Nat) (peers : List ENetPeer) :
    unmarkedOutgoing timeCurrent peers ≤ peers.length ∧
    unmarkedIncoming timeCurrent peers ≤ peers.length :=
  ⟨List.countP_le_length _, List.countP_le_length _⟩

/-- The queueing of the `BANDWIDTH_LIMIT` commands has no undefined behaviour: the commands
are on no channel. -/
theorem bandwidthLimitCommands_ok (host : ENetHost) (timeCurrent bandwidthLimit : Nat) :
    ∀ (peers : List ENetPeer) (mem : Nat),
      ∃ r, bandwidthLimitCommands host timeCurrent bandwidthLimit peers mem = some r := by
  intro peers
  induction peers with
  | nil => intro mem; exact ⟨_, rfl⟩
  | cons peer rest ih =>
    intro mem
    rw [bandwidthLimitCommands]
    by_cases hs : peer.state ≠ ENetPeerState.CONNECTED ∧
        peer.state ≠ ENetPeerState.DISCONNECT_LATER
    · rw [if_pos hs]
      obtain ⟨r, hr⟩ := ih mem
      rw [hr]
      exact ⟨_, rfl⟩
    · rw [if_neg hs]
      dsimp only
      have hq : ∀ command : ENetProtocol, command.channelID = 0xFF →
          command.command = ENET_PROTOCOL_COMMAND_BANDWIDTH_LIMIT
            ||| ENET_PROTOCOL_COMMAND_FLAG_ACKNOWLEDGE →
          ∃ q, enet_peer_queue_outgoing_command peer command none none 0 0 mem = some q := by
        intro command hch hcmd
        by_cases hm : mem = 0
        · unfold enet_peer_queue_outgoing_command enet_malloc
          rw [if_pos hm]
          exact ⟨_, rfl⟩
        · obtain ⟨q, -, hq, -⟩ := enet_peer_queue_outgoing_command_control peer command mem
            hch (by omega) (by rw [hcmd]; decide) (by rw [hcmd]; decide)
          exact ⟨q, hq⟩
      obtain ⟨q, hq⟩ := hq
        { command := ENET_PROTOCOL_COMMAND_BANDWIDTH_LIMIT ||| ENET_PROTOCOL_COMMAND_FLAG_ACKNOWLEDGE,
          channelID := 0xFF, reliableSequenceNumber := 0,
          body := .bandwidthLimit
            (if peer.incomingBandwidthThrottleEpoch = timeCurrent then
              ENET_HOST_TO_NET_32 peer.outgoingBandwidth
             else ENET_HOST_TO_NET_32 bandwidthLimit)
            (ENET_HOST_TO_NET_32 host.outgoingBandwidth) } rfl rfl
      rw [hq]
      dsimp only
      obtain ⟨r, hr⟩ := ih q.mem
      rw [hr]
      exact ⟨_, rfl⟩

/-- The block that recalculates the bandwidth limits ends without a division by zero. -/
theorem bandwidthLimitRecalculate_ok (timeCurrent : Nat) (host : ENetHost)
    (peers : List ENetPeer) (mem : Nat) :
    ∃ r, bandwidthLimitRecalculate timeCurrent host peers mem = .ok r := by
  unfold bandwidthLimitRecalculate
  by_cases hr : host.recalculateBandwidthLimits ≠ 0
  · rw [if_pos hr]
    dsimp only
    by_cases hb : host.incomingBandwidth = 0
    · rw [if_pos hb]
      dsimp only
      obtain ⟨r, hr⟩ := bandwidthLimitCommands_ok
        { host with recalculateBandwidthLimits := 0 } timeCurrent 0 peers mem
      rw [hr]
      exact ⟨_, rfl⟩
    · rw [if_neg hb]
      obtain ⟨r, hr, -⟩ := bandwidthLimitLoop_ok timeCurrent (peers.length + 1) peers
        { peersRemaining := u32 host.connectedPeers, dataTotal := 0,
          bandwidth := host.incomingBandwidth, needsAdjustment := 1 } 0
        (Or.inl (Nat.lt_succ_of_le (unmarked_le_length timeCurrent peers).2))
      rw [hr]
      dsimp only
      obtain ⟨r2, hr2⟩ := bandwidthLimitCommands_ok
        { host with recalculateBandwidthLimits := 0 } timeCurrent r.2 r.1 mem
      rw [hr2]
      exact ⟨_, rfl⟩
  · rw [if_neg hr]
    exact ⟨_, rfl⟩

/-- C39: `enet_host_bandwidth_throttle` never divides by zero.  In the model every division
by a variable is a `checkedDiv`, which ends the function with `divisionByZero` on a zero
divisor, and the two `while` loops have fuel for one iteration more than there are peers;
for every time, host and allocation budget the function returns a result, so no divisor is
zero and the loops end.  The three divisions are guarded as the claim says:
`(bandwidth * ENET_PEER_PACKET_THROTTLE_SCALE) / dataTotal` is evaluated only when
`dataTotal > bandwidth`, `(peerBandwidth * ENET_PEER_PACKET_THROTTLE_SCALE) /
peer -> outgoingDataTotal` only when the share `(throttle * outgoingDataTotal) / SCALE` of
the peer is above `peerBandwidth`, which a zero `outgoingDataTotal` cannot give, and
`bandwidth / peersRemaining` only after the test `peersRemaining > 0`.  On the sample host,
which sends 4000 bytes per second to a peer that takes 1000 and was sent 8000 bytes in two
seconds, the peer gets the limit 2000 * 32 / 8000 = 8 and one `BANDWIDTH_LIMIT` command. -/
theorem enet_host_bandwidth_throttle_divides (timeCurrent : Nat) (host : ENetHost)
    (mem : Nat) :
    (∃ r, enet_host_bandwidth_throttle timeCurrent host mem = .ok r) ∧
    (∀ dataTotal bandwidth : Nat, ∃ throttle,
      throttleOf dataTotal bandwidth = .ok throttle) ∧
    (∀ (elapsedTime throttle : Nat) (peers : List ENetPeer) (locals : ThrottleLocals),
      ∃ r, throttleLimitPeers timeCurrent elapsedTime throttle peers locals = .ok r) ∧
    (∀ (peers : List ENetPeer) (locals : ThrottleLocals) (bandwidthLimit : Nat),
      ∃ r, bandwidthLimitLoop timeCurrent (peers.length + 1) peers locals bandwidthLimit
        = .ok r) ∧
    (enet_host_bandwidth_throttle 2000 sampleThrottlingHost 4).toOption.map
        (fun r => r.1.peers.map fun peer =>
          (peer.packetThrottleLimit, peer.packetThrottle, peer.outgoingCommands.length))
      = some [(8, 8, 1)] := by
  refine ⟨?_, throttleOf_ok, fun elapsedTime throttle peers locals => ?_,
    fun peers locals bandwidthLimit => ?_, by decide⟩
  · unfold enet_host_bandwidth_throttle
    dsimp only
    by_cases he : u32 (timeCurrent + 4294967296 - host.bandwidthThrottleEpoch)
        < ENET_HOST_BANDWIDTH_THROTTLE_INTERVAL
    · rw [if_pos he]
      exact ⟨_, rfl⟩
    rw [if_neg he]
    by_cases hp : u32 host.connectedPeers = 0
    · rw [if_pos hp]
      exact ⟨_, rfl⟩
    rw [if_neg hp]
    generalize (if host.outgoingBandwidth ≠ 0 then
        ({ peersRemaining := u32 host.connectedPeers,
           dataTotal := throttleDataTotal (List.take host.peerCount host.peers) 0,
           bandwidth := u32 (host.outgoingBandwidth
             * u32 (timeCurrent + 4294967296 - host.bandwidthThrottleEpoch)) / 1000,
           needsAdjustment := if host.bandwidthLimitedPeers > 0 then 1 else 0 } :
          ThrottleLocals)
      else
        { peersRemaining := u32 host.connectedPeers, dataTotal := 4294967295,
          bandwidth := 4294967295,
          needsAdjustment := if host.bandwidthLimitedPeers > 0 then 1 else 0 }) = locals
    obtain ⟨r, hr, -⟩ := throttleLimitLoop_ok timeCurrent
      (u32 (timeCurrent + 4294967296 - host.bandwidthThrottleEpoch))
      ((List.take host.peerCount host.peers).length + 1) (List.take host.peerCount host.peers)
      locals (Or.inl (Nat.lt_succ_of_le (unmarked_le_length timeCurrent _).1))
    rw [hr]
    obtain ⟨ps, l1⟩ := r
    dsimp only
    have hrem : ∃ ps2, (if l1.peersRemaining > 0 then
          match throttleOf l1.dataTotal l1.bandwidth with
          | .error e => .error e
          | .ok throttle => .ok (throttleRemainingPeers timeCurrent throttle ps)
        else (.ok ps : Except ThrottleExit (List ENetPeer))) = .ok ps2 := by
      by_cases hpr : l1.peersRemaining > 0
      · rw [if_pos hpr]
        obtain ⟨t, ht⟩ := throttleOf_ok l1.dataTotal l1.bandwidth
        rw [ht]
        exact ⟨_, rfl⟩
      · rw [if_neg hpr]
        exact ⟨_, rfl⟩
    obtain ⟨ps2, hps2⟩ := hrem
    rw [hps2]
    dsimp only
    obtain ⟨r3, hr3⟩ := bandwidthLimitRecalculate_ok timeCurrent
      { host with bandwidthThrottleEpoch := timeCurrent } ps2 mem
    rw [hr3]
    exact ⟨_, rfl⟩
  · obtain ⟨r, hr, -⟩ := throttleLimitPeers_ok timeCurrent elapsedTime throttle peers locals
    exact ⟨r, hr⟩
  · obtain ⟨r, hr, -⟩ := bandwidthLimitLoop_ok timeCurrent (peers.length + 1) peers locals
      bandwidthLimit (Or.inl (Nat.lt_succ_of_le (unmarked_le_length timeCurrent peers).2))
    exact ⟨r, hr⟩

/-! ## The estimator in every state of the peer -/

/-- Linking a peer on the dispatch queue leaves its estimator. -/
theorem linkDispatch_round_trip (host : ENetHost) (peer : ENetPeer) :
    (linkDispatch host peer).2.roundTripTime = peer.roundTripTime ∧
    (linkDispatch host peer).2.roundTripTimeVariance = peer.roundTripTimeVariance := by
  unfold linkDispatch
  split <;> exact ⟨rfl, rfl⟩

/-- `enet_protocol_dispatch_state` leaves the estimator of the peer. -/
theorem enet_protocol_dispatch_state_round_trip (host : ENetHost) (peer : ENetPeer)
    (state : ENetPeerState) :
    (enet_protocol_dispatch_state host peer state).2.roundTripTime = peer.roundTripTime ∧
    (enet_protocol_dispatch_state host peer state).2.roundTripTimeVariance
      = peer.roundTripTimeVariance := by
  unfold enet_protocol_dispatch_state
  have h := (enet_protocol_change_state_keeps host peer state).2.2
  have hl := linkDispatch_round_trip (enet_protocol_change_state host peer state).1
    (enet_protocol_change_state host peer state).2
  rw [h] at hl
  exact hl

/-- `enet_protocol_notify_connect` leaves the estimator of the peer. -/
theorem enet_protocol_notify_connect_round_trip (host : ENetHost) (peer : ENetPeer)
    (event : Option ENetEvent) :
    (enet_protocol_notify_connect host peer event).2.1.roundTripTime = peer.roundTripTime ∧
    (enet_protocol_notify_connect host peer event).2.1.roundTripTimeVariance
      = peer.roundTripTimeVariance := by
  unfold enet_protocol_notify_connect
  cases event with
  | none => exact enet_protocol_dispatch_state_round_trip _ peer _
  | some e =>
    have h := (enet_protocol_change_state_keeps { host with recalculateBandwidthLimits := 1 }
      peer ENetPeerState.CONNECTED).2.2
    dsimp only
    show (enet_protocol_change_state _ _ _).2.roundTripTime = _ ∧
      (enet_protocol_change_state _ _ _).2.roundTripTimeVariance = _
    rw [h]
    exact ⟨rfl, rfl⟩

/-- `enet_peer_reset` puts the estimator back to its defaults. -/
theorem enet_peer_reset_round_trip (hdr : ENetHeader) (host : ENetHost) (peer : ENetPeer)
    (store : PacketStore) :
    (enet_peer_reset hdr host peer store).2.1.roundTripTime
      = hdr.ENET_PEER_DEFAULT_ROUND_TRIP_TIME ∧
    (enet_peer_reset hdr host peer store).2.1.roundTripTimeVariance = 0 := by
  unfold enet_peer_reset
  dsimp only
  rw [(enet_peer_reset_queues_keeps _ _ _).2]
  exact ⟨rfl, rfl⟩

/-- Queueing an outgoing command leaves the estimator of the peer. -/
theorem enet_peer_queue_outgoing_command_round_trip (peer : ENetPeer) (command : ENetProtocol)
    (pid : Option Nat) (packet : Option ENetPacket) (offset length mem : Nat)
    (r : QueueOutgoingResult)
    (h : enet_peer_queue_outgoing_command peer command pid packet offset length mem = some r) :
    r.peer.roundTripTime = peer.roundTripTime ∧
    r.peer.roundTripTimeVariance = peer.roundTripTimeVariance := by
  unfold enet_peer_queue_outgoing_command at h
  split at h
  · cases h; exact ⟨rfl, rfl⟩
  · dsimp only at h
    split at h
    · cases h
    · rename_i peer1 hsetup
      cases h
      unfold enet_peer_setup_outgoing_command enet_peer_setup_outgoing_command_tail at hsetup
      dsimp only at hsetup
      repeat' split at hsetup
      all_goals first
        | (cases hsetup; exact ⟨rfl, rfl⟩)
        | cases hsetup

/-- `enet_peer_disconnect` on a peer in `DISCONNECT_LATER` leaves its estimator. -/
theorem enet_peer_disconnect_round_trip (hdr : ENetHeader)
    (flush : ENetHost × ENetPeer × PacketStore → ENetHost × ENetPeer × PacketStore)
    (host : ENetHost) (peer : ENetPeer) (store : PacketStore) (data mem : Nat)
    (hst : peer.state = ENetPeerState.DISCONNECT_LATER) :
    (enet_peer_disconnect hdr flush host peer store data mem).peer.roundTripTime
      = peer.roundTripTime ∧
    (enet_peer_disconnect hdr flush host peer store data mem).peer.roundTripTimeVariance
      = peer.roundTripTimeVariance := by
  unfold enet_peer_disconnect
  rw [if_neg (by rw [hst]; decide)]
  obtain ⟨-, hq⟩ := enet_peer_reset_queues_keeps host peer store
  generalize enet_peer_reset_queues host peer store = rq at hq ⊢
  obtain ⟨host1, peer1, store1⟩ := rq
  dsimp only at hq ⊢
  have hs1 : peer1.state = ENetPeerState.DISCONNECT_LATER := by rw [hq]; exact hst
  have hr1 : peer1.roundTripTime = peer.roundTripTime := by rw [hq]
  have hv1 : peer1.roundTripTimeVariance = peer.roundTripTimeVariance := by rw [hq]
  have hc : decide (peer1.state = ENetPeerState.CONNECTED ∨
      peer1.state = ENetPeerState.DISCONNECT_LATER) = true := by rw [hs1]; decide
  rw [hc]
  cases hqr : enet_peer_queue_outgoing_command peer1
      { command := ENET_PROTOCOL_COMMAND_DISCONNECT |||
          (if true = true then ENET_PROTOCOL_COMMAND_FLAG_ACKNOWLEDGE
           else ENET_PROTOCOL_COMMAND_FLAG_UNSEQUENCED),
        channelID := 0xFF, reliableSequenceNumber := 0,
        body := .disconnect (ENET_HOST_TO_NET_32 data) } none none 0 0 mem with
  | none =>
    dsimp only
    rw [if_pos rfl]
    exact ⟨hr1, hv1⟩
  | some r =>
    obtain ⟨h1, h2⟩ := enet_peer_queue_outgoing_command_round_trip _ _ _ _ _ _ _ _ hqr
    dsimp only
    rw [if_pos rfl]
    exact ⟨h1.trans hr1, h2.trans hv1⟩

/-- The switch that ends `enet_protocol_handle_acknowledge`: the estimator is left as it is,
except that the acknowledgement of the `DISCONNECT` command of a peer in `DISCONNECTING`,
handled with an event slot, resets the peer; in `DISCONNECTING` the status is 0 exactly for
that acknowledgement. -/
theorem acknowledgeFinish_round_trip (hdr : ENetHeader)
    (flush : ENetHost × ENetPeer × PacketStore → ENetHost × ENetPeer × PacketStore)
    (host : ENetHost) (event : Option ENetEvent) (peer : ENetPeer) (store : PacketStore)
    (mem commandNumber : Nat) :
    (peer.state = ENetPeerState.DISCONNECTING →
      ((acknowledgeFinish hdr flush host event peer store mem commandNumber).status = 0 ↔
        commandNumber = ENET_PROTOCOL_COMMAND_DISCONNECT)) ∧
    (peer.state = ENetPeerState.DISCONNECTING → event ≠ none →
      commandNumber = ENET_PROTOCOL_COMMAND_DISCONNECT →
      (acknowledgeFinish hdr flush host event peer store mem commandNumber).peer.state
        = ENetPeerState.DISCONNECTED ∧
      (acknowledgeFinish hdr flush host event peer store mem commandNumber).peer.roundTripTime
        = hdr.ENET_PEER_DEFAULT_ROUND_TRIP_TIME ∧
      (acknowledgeFinish hdr flush host event peer store mem
        commandNumber).peer.roundTripTimeVariance = 0) ∧
    (¬ (peer.state = ENetPeerState.DISCONNECTING ∧ event ≠ none ∧
        commandNumber = ENET_PROTOCOL_COMMAND_DISCONNECT) →
      (acknowledgeFinish hdr flush host event peer store mem commandNumber).peer.roundTripTime
        = peer.roundTripTime ∧
      (acknowledgeFinish hdr flush host event peer store mem
        commandNumber).peer.roundTripTimeVariance = peer.roundTripTimeVariance) := by
  unfold acknowledgeFinish
  by_cases h1 : peer.state = ENetPeerState.ACKNOWLEDGING_CONNECT
  · rw [if_pos h1]
    refine ⟨fun h => (by rw [h1] at h; cases h), fun h => (by rw [h1] at h; cases h),
      fun _ => ?_⟩
    split
    · exact ⟨rfl, rfl⟩
    · exact enet_protocol_notify_connect_round_trip host peer event
  rw [if_neg h1]
  by_cases h2 : peer.state = ENetPeerState.DISCONNECTING
  · rw [if_pos h2]
    by_cases hc : commandNumber = ENET_PROTOCOL_COMMAND_DISCONNECT
    · rw [if_neg (not_not.mpr hc)]
      refine ⟨fun _ => ⟨fun _ => hc, fun _ => rfl⟩, fun _ he _ => ?_, fun hn => ?_⟩
      · cases event with
        | none => exact absurd rfl he
        | some e =>
          unfold enet_protocol_notify_disconnect
          rw [if_neg (by rw [h2]; decide)]
          exact ⟨(enet_peer_reset_keeps hdr _ peer store).2.1,
            enet_peer_reset_round_trip hdr _ peer store⟩
      · cases event with
        | some e => exact absurd ⟨h2, by simp, hc⟩ hn
        | none =>
          unfold enet_protocol_notify_disconnect
          rw [if_neg (by rw [h2]; decide)]
          exact enet_protocol_dispatch_state_round_trip _ { peer with eventData := 0 } _
    · rw [if_pos hc]
      refine ⟨fun _ => ⟨fun h => ?_, fun h => absurd h hc⟩, fun _ _ h => absurd h hc,
        fun _ => ⟨rfl, rfl⟩⟩
      have h0 : (-1 : Int) = 0 := h
      exact absurd h0 (by decide)
  rw [if_neg h2]
  refine ⟨fun h => absurd h h2, fun h => absurd h h2, fun _ => ?_⟩
  by_cases h3 : peer.state = ENetPeerState.DISCONNECT_LATER
  · rw [if_pos h3]
    split
    · exact enet_peer_disconnect_round_trip hdr flush host peer store _ mem h3
    · exact ⟨rfl, rfl⟩
  · rw [if_neg h3]
    exact ⟨rfl, rfl⟩

/-- Counterexample to C27 as stated.  The sample peer has received before (at time 900) and
holds the estimate 500 with variance 40; it is in `DISCONNECTING` and gets, with an event
slot, the acknowledgement of its `DISCONNECT` command, sent at time 400, at the service time
1000.  The measured round trip time is 600, for which the update of the claim gives the
estimate 512 and the variance 55; the handler returns 0 with a `DISCONNECT` event and the
peer reset, its estimate back at the default 500 and its variance at 0.  A peer in
`DISCONNECTED` is returned as it is, without any update. -/
theorem enet_protocol_handle_acknowledge_resets_estimator :
    sampleDisconnectingPeer.lastReceiveTime = 900 ∧
    sampleDisconnectingPeer.roundTripTime = 500 ∧
    sampleDisconnectingPeer.roundTripTimeVariance = 40 ∧
    max (u32 (sampleTime.ENET_TIME_DIFFERENCE sampleHost.serviceTime
      (acknowledgeSentTime sampleHost (sampleAcknowledgeControl 400)))) 1 = 600 ∧
    40 - 40 / 4 + (600 - 500) / 4 = 55 ∧ 500 + (600 - 500) / 8 = 512 ∧
    (enet_protocol_handle_acknowledge sampleHeader sampleTime id sampleHost (some sampleEvent)
        sampleDisconnectingPeer (sampleAcknowledgeControl 400) [] 0).status = 0 ∧
    (enet_protocol_handle_acknowledge sampleHeader sampleTime id sampleHost (some sampleEvent)
        sampleDisconnectingPeer (sampleAcknowledgeControl 400) [] 0).event.map (fun e => e.type)
      = some ENetEventType.DISCONNECT ∧
    (enet_protocol_handle_acknowledge sampleHeader sampleTime id sampleHost (some sampleEvent)
        sampleDisconnectingPeer (sampleAcknowledgeControl 400) [] 0).peer.state
      = ENetPeerState.DISCONNECTED ∧
    (enet_protocol_handle_acknowledge sampleHeader sampleTime id sampleHost (some sampleEvent)
        sampleDisconnectingPeer (sampleAcknowledgeControl 400) [] 0).peer.roundTripTime = 500 ∧
    (enet_protocol_handle_acknowledge sampleHeader sampleTime id sampleHost (some sampleEvent)
        sampleDisconnectingPeer (sampleAcknowledgeControl 400) [] 0).peer.roundTripTimeVariance
      = 0 ∧
    (enet_protocol_handle_acknowledge sampleHeader sampleTime id sampleHost (some sampleEvent)
        { sampleMeasuredPeer with state := ENetPeerState.DISCONNECTED }
        (sampleAcknowledge 400) [] 0).peer
      = { sampleMeasuredPeer with state := ENetPeerState.DISCONNECTED } := by
  refine ⟨by decide, by decide, by decide, by decide, by decide, by decide, by decide,
    by decide, by decide, by decide, by decide, by decide⟩

/-- C27 (amended): let `m` be the round trip time that `enet_protocol_handle_acknowledge`
measures for an `ACKNOWLEDGE` command (the difference of the service time and the rebuilt
send time, at least 1), on a peer with 32-bit estimator fields.  A peer in `DISCONNECTED` or
`ZOMBIE` is returned as it is.  In every other state the peer that the handler leaves has the
estimator updated with `m` (`EstimatorUpdated`: the smoothing for a peer that has received
before, `m` and `(m + 1) / 2` on the first sample, without underflow), whatever the status
returned, with one exception: when the peer is in `DISCONNECTING`, an event slot is given and
the handler returns 0, which it does there exactly when the acknowledged command is the
`DISCONNECT` of the peer, the peer is reset: it is `DISCONNECTED`, its `roundTripTime` is the
default and its `roundTripTimeVariance` is 0. -/
theorem enet_protocol_handle_acknowledge_estimator (hdr : ENetHeader) (time : ENetTime)
    (flush : ENetHost × ENetPeer × PacketStore → ENetHost × ENetPeer × PacketStore)
    (host : ENetHost) (event : Option ENetEvent) (peer : ENetPeer) (command : ENetProtocol)
    (store : PacketStore) (mem m : Nat)
    (hless : time.ENET_TIME_LESS host.serviceTime (acknowledgeSentTime host command) = false)
    (hm : m = max (u32 (time.ENET_TIME_DIFFERENCE host.serviceTime
      (acknowledgeSentTime host command))) 1)
    (hrtt : peer.roundTripTime < 4294967296) (hvar : peer.roundTripTimeVariance < 4294967296) :
    1 ≤ m ∧
    ((peer.state = ENetPeerState.DISCONNECTED ∨ peer.state = ENetPeerState.ZOMBIE) →
      enet_protocol_handle_acknowledge hdr time flush host event peer command store mem
        = { status := 0, host := host, peer := peer, event := event, store := store,
            mem := mem }) ∧
    (peer.state ≠ ENetPeerState.DISCONNECTED → peer.state ≠ ENetPeerState.ZOMBIE →
      (¬ (peer.state = ENetPeerState.DISCONNECTING ∧ event ≠ none ∧
          (enet_protocol_handle_acknowledge hdr time flush host event peer command store
            mem).status = 0) →
        EstimatorUpdated peer m
          (enet_protocol_handle_acknowledge hdr time flush host event peer command store
            mem).peer) ∧
      (peer.state = ENetPeerState.DISCONNECTING →
        ((enet_protocol_handle_acknowledge hdr time flush host event peer command store
            mem).status = 0 ↔
          (enet_protocol_remove_sent_reliable_command
              (acknowledgeRoundTrip time host peer m) store
              (ENET_NET_TO_HOST_16 command.acknowledgeView.1) command.channelID).commandNumber
            = ENET_PROTOCOL_COMMAND_DISCONNECT)) ∧
      (peer.state = ENetPeerState.DISCONNECTING → event ≠ none →
        (enet_protocol_handle_acknowledge hdr time flush host event peer command store
          mem).status = 0 →
        (enet_protocol_handle_acknowledge hdr time flush host event peer command store
          mem).peer.state = ENetPeerState.DISCONNECTED ∧
        (enet_protocol_handle_acknowledge hdr time flush host event peer command store
          mem).peer.roundTripTime = hdr.ENET_PEER_DEFAULT_ROUND_TRIP_TIME ∧
        (enet_protocol_handle_acknowledge hdr time flush host event peer command store
          mem).peer.roundTripTimeVariance = 0)) := by
  have hm32 : m < 4294967296 := by
    rw [hm]; unfold u32; omega
  refine ⟨by rw [hm]; omega, fun hs => ?_, fun hs1 hs2 => ?_⟩
  · unfold enet_protocol_handle_acknowledge
    rw [if_pos hs]
  have heq : enet_protocol_handle_acknowledge hdr time flush host event peer command store mem
      = acknowledgeFinish hdr flush host event
          (enet_protocol_remove_sent_reliable_command (acknowledgeRoundTrip time host peer m)
            store (ENET_NET_TO_HOST_16 command.acknowledgeView.1) command.channelID).peer
          (enet_protocol_remove_sent_reliable_command (acknowledgeRoundTrip time host peer m)
            store (ENET_NET_TO_HOST_16 command.acknowledgeView.1) command.channelID).store
          mem
          (enet_protocol_remove_sent_reliable_command (acknowledgeRoundTrip time host peer m)
            store (ENET_NET_TO_HOST_16 command.acknowledgeView.1)
            command.channelID).commandNumber := by
    unfold enet_protocol_handle_acknowledge
    rw [if_neg (by rw [not_or]; exact ⟨hs1, hs2⟩)]
    dsimp only
    rw [hless, ← hm]
    rfl
  have hst := (enet_protocol_remove_sent_reliable_command_frame
    (acknowledgeRoundTrip time host peer m) store
    (ENET_NET_TO_HOST_16 command.acknowledgeView.1) command.channelID).1
  have hfr : (acknowledgeRoundTrip time host peer m).state = peer.state :=
    congrArg (fun f => f.1) (acknowledgeRoundTrip_frame time host peer m)
  have hrm := enet_protocol_remove_sent_reliable_command_round_trip
    (acknowledgeRoundTrip time host peer m) store
    (ENET_NET_TO_HOST_16 command.acknowledgeView.1) command.channelID
  rw [heq]
  generalize enet_protocol_remove_sent_reliable_command
    (acknowledgeRoundTrip time host peer m) store
    (ENET_NET_TO_HOST_16 command.acknowledgeView.1) command.channelID = removed at hst hrm ⊢
  have hstate : removed.peer.state = peer.state := hst.trans hfr
  obtain ⟨f1, f2, f3⟩ := acknowledgeFinish_round_trip hdr flush host event removed.peer
    removed.store mem removed.commandNumber
  rw [hstate] at f1 f2 f3
  have hest := acknowledgeRoundTrip_estimator time host peer m
  refine ⟨fun hn => ?_, f1, fun hd he h0 => f2 hd he ((f1 hd).mp h0)⟩
  have hkeep := f3 (fun ⟨a, b, c⟩ => hn ⟨a, b, (f1 a).mpr c⟩)
  unfold EstimatorUpdated
  refine ⟨fun hrecv => ?_, fun hrecv hmax => ?_⟩
  · have hsm := acknowledgeSmooth_estimator peer m hm32 hrtt hvar
    rw [hkeep.1, hkeep.2, hrm.1, hrm.2, hest.1, hest.2, if_pos hrecv, if_pos hrecv]
    refine ⟨hsm.1, hsm.2, by omega, by omega, ?_, ?_⟩
    · split_ifs <;> omega
    · split_ifs <;> omega
  · rw [hkeep.1, hkeep.2, hrm.1, hrm.2, hest.1, hest.2, if_neg (by omega), if_neg (by omega)]
    refine ⟨rfl, ?_⟩
    unfold u32
    rw [Nat.mod_eq_of_lt (by omega)]

/-- Witness of C27: the sample peer, connected, which has received before and has a smoothed
round trip time of 500 with variance 40, gets the acknowledgement of a command sent at time
400 when the service time is 1000: `m = 600`, the variance becomes `40 - 10 + 100 / 4 = 55`
and the round trip time `500 + 100 / 8 = 512`. -/
theorem enet_protocol_handle_acknowledge_estimator_witness :
    (enet_protocol_handle_acknowledge sampleHeader sampleTime id sampleHost none
        sampleMeasuredPeer (sampleAcknowledge 400) [] 0).peer.roundTripTimeVariance = 55 ∧
    (enet_protocol_handle_acknowledge sampleHeader sampleTime id sampleHost none
        sampleMeasuredPeer (sampleAcknowledge 400) [] 0).peer.roundTripTime = 512 := by
  have h := ((enet_protocol_handle_acknowledge_estimator sampleHeader sampleTime id sampleHost
    none sampleMeasuredPeer (sampleAcknowledge 400) [] 0 600 (by decide) (by decide)
    (by decide) (by decide)).2.2 (by decide) (by decide)).1 (by decide)
  obtain ⟨h1, h2, -⟩ := h.1 (by decide)
  exact ⟨by rw [h1]; decide, by rw [h2]; decide⟩

/-! ## The event of a call, over the whole dispatch queue -/

/-- The loop of `enet_protocol_dispatch_incoming_commands` does not read the field
`dispatchQueue` of the host it is given: the nodes still linked are its first argument. -/
theorem enet_protocol_dispatch_incoming_commands_loop_queue (hdr : ENetHeader)
    (queue dispatchQueue : List Nat) (host : ENetHost) (event : ENetEvent)
    (store : PacketStore) :
    enet_protocol_dispatch_incoming_commands_loop hdr queue
        { host with dispatchQueue := dispatchQueue } event store
      = enet_protocol_dispatch_incoming_commands_loop hdr queue host event store := by
  cases queue with
  | nil => rfl
  | cons slot rest =>
    unfold enet_protocol_dispatch_incoming_commands_loop
    rfl

/-- Clearing the flag keeps a peer silent. -/
theorem silent_unflag (peer : ENetPeer) :
    ({ peer with needsDispatch := false } : ENetPeer).silent = peer.silent := rfl

/-- The slots that are not named keep their peer. -/
theorem unflagged_get?_of_not_mem :
    ∀ (passed : List Nat) (peers : List ENetPeer) (slot : Nat), slot ∉ passed →
      (unflagged peers passed).get? slot = peers.get? slot := by
  intro passed
  induction passed with
  | nil => intro peers slot _; rfl
  | cons s passed ih =>
    intro peers slot hn
    have hne : s ≠ slot := fun h => hn (by rw [h]; exact List.mem_cons_self _ _)
    have hn' : slot ∉ passed := fun h => hn (List.mem_cons_of_mem _ h)
    unfold unflagged
    rw [ih _ slot hn']
    cases hp : peers.get? s with
    | none => rfl
    | some p =>
      dsimp only
      rw [List.get?_eq_getElem?, List.get?_eq_getElem?, List.getElem?_set_ne hne]

/-- Clearing flags keeps the number of slots. -/
theorem unflagged_length :
    ∀ (passed : List Nat) (peers : List ENetPeer),
      (unflagged peers passed).length = peers.length := by
  intro passed
  induction passed with
  | nil => intro peers; rfl
  | cons s passed ih =>
    intro peers
    unfold unflagged
    rw [ih]
    cases peers.get? s with
    | none => rfl
    | some p => exact List.length_set _ _ _

/-- A slot that holds a silent peer holds a silent peer after the flag of any slot has been
cleared. -/
theorem silent_of_set (peers : List ENetPeer) (s : Nat) (p : ENetPeer)
    (hp : peers.get? s = some p) (slot : Nat) :
    (∃ q, peers.get? slot = some q ∧ q.silent = true) ↔
    (∃ q, (peers.set s { p with needsDispatch := false }).get? slot = some q ∧
      q.silent = true) := by
  simp only [List.get?_eq_getElem?] at hp ⊢
  by_cases hs : s = slot
  · subst hs
    have hlt : s < peers.length := by
      by_contra hge
      rw [List.getElem?_eq_none (by omega)] at hp
      cases hp
    rw [List.getElem?_set_self hlt, hp]
    constructor
    · rintro ⟨q, hq, hsil⟩
      cases hq
      exact ⟨_, rfl, hsil⟩
    · rintro ⟨q, hq, hsil⟩
      cases hq
      exact ⟨_, rfl, hsil⟩
  · rw [List.getElem?_set_ne hs]

/-- The loop of `enet_protocol_dispatch_incoming_commands` passes the silent peers at the
front of the queue: it unlinks each, clears its flag and goes on with the next node. -/
theorem enet_protocol_dispatch_incoming_commands_loop_passes (hdr : ENetHeader)
    (tail : List Nat) (event : ENetEvent) (store : PacketStore) :
    ∀ (passed : List Nat) (host : ENetHost),
      (∀ s ∈ passed, ∃ p, host.peers.get? s = some p ∧ p.silent = true) →
      enet_protocol_dispatch_incoming_commands_loop hdr (passed ++ tail) host event store
        = enet_protocol_dispatch_incoming_commands_loop hdr tail
            { host with dispatchQueue := tail, peers := unflagged host.peers passed }
            event store := by
  intro passed
  induction passed with
  | nil =>
    intro host _
    exact (enet_protocol_dispatch_incoming_commands_loop_queue hdr tail tail host event
      store).symm
  | cons s passed ih =>
    intro host hsil
    obtain ⟨p, hp, hps⟩ := hsil s (List.mem_cons_self _ _)
    have hps' := hps
    unfold ENetPeer.silent at hps'
    rw [decide_eq_true_eq] at hps'
    obtain ⟨s1, s2, s3, s4⟩ := hps'
    have hnext : ∀ t ∈ passed, ∃ q,
        ({ host with dispatchQueue := passed ++ tail,
                     peers := host.peers.set s { p with needsDispatch := false } }
          : ENetHost).peers.get? t = some q ∧ q.silent = true := by
      intro t ht
      exact (silent_of_set host.peers s p hp t).mp (hsil t (List.mem_cons_of_mem _ ht))
    have hgoal : enet_protocol_dispatch_incoming_commands_loop hdr (s :: passed ++ tail) host
        event store
        = enet_protocol_dispatch_incoming_commands_loop hdr (passed ++ tail)
            { host with dispatchQueue := passed ++ tail,
                        peers := host.peers.set s { p with needsDispatch := false } }
            event store := by
      show enet_protocol_dispatch_incoming_commands_loop hdr (s :: (passed ++ tail)) host
        event store = _
      rw [enet_protocol_dispatch_incoming_commands_loop, hp]
      dsimp only
      rw [if_neg (by rw [not_or]; exact ⟨s1, s2⟩), if_neg s3]
      by_cases hc : p.state = ENetPeerState.CONNECTED
      · rw [if_pos hc]
        unfold enet_peer_receive
        dsimp only
        rw [s4 hc]
      · rw [if_neg hc]
    have hu : unflagged host.peers (s :: passed)
        = unflagged (host.peers.set s { p with needsDispatch := false }) passed := by
      rw [unflagged, hp]
    rw [hgoal, ih _ hnext, hu]

/-- The event that the loop of `enet_protocol_dispatch_incoming_commands` makes of the peer
at the head of the queue. -/
theorem enet_protocol_dispatch_incoming_commands_loop_head (hdr : ENetHeader)
    (host : ENetHost) (event : ENetEvent) (store : PacketStore) (slot : Nat)
    (rest : List Nat) (peer : ENetPeer) (r : DispatchEventResult)
    (hpeer : host.peers.get? slot = some peer)
    (hr : enet_protocol_dispatch_incoming_commands_loop hdr (slot :: rest) host event store
      = some r) :
    ((peer.state = ENetPeerState.CONNECTION_PENDING ∨
        peer.state = ENetPeerState.CONNECTION_SUCCEEDED) →
      r.status = 1 ∧
      r.event = { event with type := ENetEventType.CONNECT,
                             peer := some peer.incomingPeerID, data := peer.eventData } ∧
      r.host.peers = host.peers.set slot
        { peer with needsDispatch := false, state := ENetPeerState.CONNECTED } ∧
      r.host.dispatchQueue = rest ∧ r.store = store) ∧
    (peer.state = ENetPeerState.ZOMBIE →
      r.status = 1 ∧
      r.event = { event with type := ENetEventType.DISCONNECT,
                             peer := some peer.incomingPeerID, data := peer.eventData } ∧
      r.host.peers = host.peers.set slot
        (enet_peer_reset hdr
          { host with dispatchQueue := rest, recalculateBandwidthLimits := 1 }
          { peer with needsDispatch := false } store).2.1 ∧
      (enet_peer_reset hdr
          { host with dispatchQueue := rest, recalculateBandwidthLimits := 1 }
          { peer with needsDispatch := false } store).2.1.state
        = ENetPeerState.DISCONNECTED ∧
      r.host.dispatchQueue = rest) ∧
    (peer.state = ENetPeerState.CONNECTED →
      ∀ incomingCommand more, peer.dispatchedCommands = incomingCommand :: more →
      r.status = 1 ∧
      r.event = { event with
        type := ENetEventType.RECEIVE, peer := some peer.incomingPeerID,
        channelID := incomingCommand.command.channelID,
        packet := some { incomingCommand.packet with
          referenceCount := usizeSub incomingCommand.packet.referenceCount 1 } } ∧
      r.host.peers = host.peers.set slot
        { peer with
          needsDispatch := decide (more ≠ []), dispatchedCommands := more,
          totalWaitingData :=
            usizeSub peer.totalWaitingData incomingCommand.packet.dataLength } ∧
      r.host.dispatchQueue = (if more ≠ [] then rest ++ [slot] else rest) ∧
      r.store = store) := by
  unfold enet_protocol_dispatch_incoming_commands_loop at hr
  rw [hpeer] at hr
  dsimp only at hr
  refine ⟨fun hst => ?_, fun hst => ?_, fun hst incomingCommand more hd => ?_⟩
  · rw [if_pos hst] at hr
    cases hr
    obtain ⟨hk1, hk2, hk3⟩ := enet_protocol_change_state_keeps
      { host with dispatchQueue := rest } { peer with needsDispatch := false }
      ENetPeerState.CONNECTED
    refine ⟨rfl, ?_, ?_, hk1, rfl⟩
    · show ({ event with type := ENetEventType.CONNECT,
                         peer := some (enet_protocol_change_state _ _ _).2.incomingPeerID,
                         data := (enet_protocol_change_state _ _ _).2.eventData } : ENetEvent) = _
      rw [hk3]
    · show List.set (enet_protocol_change_state _ _ _).1.peers slot
        (enet_protocol_change_state _ _ _).2 = _
      rw [hk2, hk3]
  · have h1 : ¬ (peer.state = ENetPeerState.CONNECTION_PENDING ∨
        peer.state = ENetPeerState.CONNECTION_SUCCEEDED) := by
      rw [hst]; decide
    rw [if_neg h1, if_pos hst] at hr
    cases hr
    obtain ⟨hk1, hk3, -⟩ := enet_peer_reset_keeps hdr
      { host with dispatchQueue := rest, recalculateBandwidthLimits := 1 }
      { peer with needsDispatch := false } store
    obtain ⟨hd1, hd2⟩ := enet_peer_on_disconnect_keeps
      { host with dispatchQueue := rest, recalculateBandwidthLimits := 1 }
      { peer with needsDispatch := false }
    refine ⟨rfl, rfl, ?_, hk3, ?_⟩
    · show List.set (enet_peer_reset _ _ _ _).1.peers slot _ = _
      rw [hk1, hd2]
    · show (enet_peer_reset _ _ _ _).1.dispatchQueue = _
      rw [hk1, hd1]
  · have h1 : ¬ (peer.state = ENetPeerState.CONNECTION_PENDING ∨
        peer.state = ENetPeerState.CONNECTION_SUCCEEDED) := by
      rw [hst]; decide
    have h2 : ¬ peer.state = ENetPeerState.ZOMBIE := by
      rw [hst]; decide
    rw [if_neg h1, if_neg h2, if_pos hst] at hr
    unfold enet_peer_receive at hr
    dsimp only at hr
    rw [hd] at hr
    dsimp only at hr
    by_cases hmore : more = []
    · subst hmore
      simp only [ne_eq, not_true_eq_false, if_false] at hr
      cases hr
      refine ⟨rfl, rfl, ?_, ?_, rfl⟩
      · simp
      · simp
    · rw [if_pos hmore] at hr
      cases hr
      refine ⟨rfl, rfl, ?_, ?_, rfl⟩
      · simp [hmore]
      · simp [hmore]

/-- When the loop of `enet_protocol_dispatch_incoming_commands` returns 0, every node of the
queue held a silent peer. -/
theorem enet_protocol_dispatch_incoming_commands_loop_silent (hdr : ENetHeader) :
    ∀ (queue : List Nat) (host : ENetHost) (event : ENetEvent) (store : PacketStore)
      (r : DispatchEventResult),
      enet_protocol_dispatch_incoming_commands_loop hdr queue host event store = some r →
      r.status = 0 →
      ∀ slot ∈ queue, ∃ peer, host.peers.get? slot = some peer ∧ peer.silent = true := by
  intro queue
  induction queue with
  | nil => intro host event store r _ _ slot hs; cases hs
  | cons s rest ih =>
    intro host event store r h h0
    have hone : ∀ r' : DispatchEventResult, r'.status = 1 → some r' = some r → False := by
      intro r' h1 he
      cases he
      rw [h1] at h0
      exact absurd h0 (by decide)
    unfold enet_protocol_dispatch_incoming_commands_loop at h
    cases hp : host.peers.get? s with
    | none => rw [hp] at h; cases h
    | some p =>
      rw [hp] at h
      dsimp only at h
      by_cases c1 : p.state = ENetPeerState.CONNECTION_PENDING ∨
          p.state = ENetPeerState.CONNECTION_SUCCEEDED
      · rw [if_pos c1] at h
        exact (hone _ rfl h).elim
      rw [if_neg c1] at h
      by_cases c2 : p.state = ENetPeerState.ZOMBIE
      · rw [if_pos c2] at h
        exact (hone _ rfl h).elim
      rw [if_neg c2] at h
      rw [not_or] at c1
      have hrest : enet_protocol_dispatch_incoming_commands_loop hdr rest
            { host with dispatchQueue := rest,
                        peers := host.peers.set s { p with needsDispatch := false } }
            event store = some r ∧ p.silent = true := by
        by_cases c3 : p.state = ENetPeerState.CONNECTED
        · rw [if_pos c3] at h
          unfold enet_peer_receive at h
          dsimp only at h
          cases hd : p.dispatchedCommands with
          | nil =>
            rw [hd] at h
            refine ⟨h, ?_⟩
            unfold ENetPeer.silent
            rw [decide_eq_true_eq]
            exact ⟨c1.1, c1.2, c2, fun _ => hd⟩
          | cons ic more =>
            rw [hd] at h
            dsimp only at h
            split at h <;> exact (hone _ rfl h).elim
        · rw [if_neg c3] at h
          refine ⟨h, ?_⟩
          unfold ENetPeer.silent
          rw [decide_eq_true_eq]
          exact ⟨c1.1, c1.2, c2, fun hc => absurd hc c3⟩
      intro slot hslot
      rcases List.mem_cons.mp hslot with he | hm
      · rw [he]; exact ⟨p, hp, hrest.2⟩
      · exact (silent_of_set host.peers s p hp slot).mpr (ih _ _ _ _ hrest.1 h0 slot hm)

/-- C13: `enet_protocol_dispatch_incoming_commands` (and `enet_host_check_events` in front of
it) on a host whose dispatch queue names slots of the host returns; with an empty queue it
returns 0 and host, event and packets are as before.  It returns 0 or 1.  It returns 0
exactly when every peer on the queue is silent (in none of `CONNECTION_PENDING`,
`CONNECTION_SUCCEEDED`, `ZOMBIE`, and without a dispatched command when `CONNECTED`); the
queue is then empty, the flags of the peers that were on it are cleared and nothing else of
the slots, the event and the packets has changed.  Otherwise the event is that of the first
peer on the queue that is not silent, whatever silent peers `passed` stand before it (they
are unlinked and their flags cleared) and whatever peers `rest` stand behind it (they stay
on the queue, untouched): in `CONNECTION_PENDING` or `CONNECTION_SUCCEEDED` it gives 1 with a
`CONNECT` event and the slot `CONNECTED`, in `ZOMBIE` it gives 1 with a `DISCONNECT` event
and the slot reset (`DISCONNECTED`), and `CONNECTED` with dispatched commands it gives 1 with
a `RECEIVE` event carrying the head packet and its channel, the slot being put back at the
end of the queue exactly when more dispatched commands remain. -/
theorem enet_protocol_dispatch_incoming_commands_spec (hdr : ENetHeader) (host : ENetHost)
    (event : ENetEvent) (store : PacketStore)
    (hslots : ∀ slot ∈ host.dispatchQueue, slot < host.peers.length) :
    ∃ r, enet_protocol_dispatch_incoming_commands hdr host event store = some r ∧
      enet_host_check_events hdr host (some event) store
        = (enet_protocol_dispatch_incoming_commands hdr host
            { event with type := ENetEventType.NONE, peer := none, packet := none } store).map
            (fun r => (r.status, r.host, some r.event, r.store)) ∧
      (host.dispatchQueue = [] →
        r.status = 0 ∧ r.host = host ∧ r.event = event ∧ r.store = store) ∧
      (r.status = 0 ∨ r.status = 1) ∧
      (r.status = 0 ↔
        ∀ slot ∈ host.dispatchQueue, ∃ peer,
          host.peers.get? slot = some peer ∧ peer.silent = true) ∧
      (r.status = 0 →
        r.event = event ∧ r.store = store ∧ r.host.dispatchQueue = [] ∧
        r.host.peers = unflagged host.peers host.dispatchQueue) ∧
      (∀ passed slot rest peer, host.dispatchQueue = passed ++ slot :: rest →
        (∀ s ∈ passed, ∃ p, host.peers.get? s = some p ∧ p.silent = true) →
        host.peers.get? slot = some peer →
        ((peer.state = ENetPeerState.CONNECTION_PENDING ∨
            peer.state = ENetPeerState.CONNECTION_SUCCEEDED) →
          r.status = 1 ∧
          r.event = { event with type := ENetEventType.CONNECT,
                                 peer := some peer.incomingPeerID, data := peer.eventData } ∧
          r.host.peers = (unflagged host.peers passed).set slot
            { peer with needsDispatch := false, state := ENetPeerState.CONNECTED } ∧
          r.host.dispatchQueue = rest ∧ r.store = store) ∧
        (peer.state = ENetPeerState.ZOMBIE →
          r.status = 1 ∧
          r.event = { event with type := ENetEventType.DISCONNECT,
                                 peer := some peer.incomingPeerID, data := peer.eventData } ∧
          r.host.peers = (unflagged host.peers passed).set slot
            (enet_peer_reset hdr
              { host with dispatchQueue := rest, peers := unflagged host.peers passed,
                          recalculateBandwidthLimits := 1 }
              { peer with needsDispatch := false } store).2.1 ∧
          (enet_peer_reset hdr
              { host with dispatchQueue := rest, peers := unflagged host.peers passed,
                          recalculateBandwidthLimits := 1 }
              { peer with needsDispatch := false } store).2.1.state
            = ENetPeerState.DISCONNECTED ∧
          r.host.dispatchQueue = rest) ∧
        (peer.state = ENetPeerState.CONNECTED →
          ∀ incomingCommand more, peer.dispatchedCommands = incomingCommand :: more →
          r.status = 1 ∧
          r.event = { event with
            type := ENetEventType.RECEIVE, peer := some peer.incomingPeerID,
            channelID := incomingCommand.command.channelID,
            packet := some { incomingCommand.packet with
              referenceCount := usizeSub incomingCommand.packet.referenceCount 1 } } ∧
          r.host.peers = (unflagged host.peers passed).set slot
            { peer with
              needsDispatch := decide (more ≠ []), dispatchedCommands := more,
              totalWaitingData :=
                usizeSub peer.totalWaitingData incomingCommand.packet.dataLength } ∧
          r.host.dispatchQueue = (if more ≠ [] then rest ++ [slot] else rest) ∧
          r.store = store)) := by
  obtain ⟨r, hr⟩ :=
    enet_protocol_dispatch_incoming_commands_loop_total hdr host.dispatchQueue host event store
      hslots
  have hr0 : enet_protocol_dispatch_incoming_commands hdr host event store = some r := hr
  have hall : (∀ slot ∈ host.dispatchQueue, ∃ peer,
      host.peers.get? slot = some peer ∧ peer.silent = true) →
      r.status = 0 ∧ r.event = event ∧ r.store = store ∧ r.host.dispatchQueue = [] ∧
        r.host.peers = unflagged host.peers host.dispatchQueue := by
    intro hsil
    have hp := enet_protocol_dispatch_incoming_commands_loop_passes hdr [] event store
      host.dispatchQueue host hsil
    rw [List.append_nil, hr] at hp
    unfold enet_protocol_dispatch_incoming_commands_loop at hp
    cases hp
    exact ⟨rfl, rfl, rfl, rfl, rfl⟩
  have hsilent := enet_protocol_dispatch_incoming_commands_loop_silent hdr _ _ _ _ _ hr
  refine ⟨r, hr0, rfl, ?_, ?_, ⟨hsilent, fun h => (hall h).1⟩,
    fun h0 => (hall (hsilent h0)).2, ?_⟩
  · intro hq
    rw [hq] at hr
    unfold enet_protocol_dispatch_incoming_commands_loop at hr
    cases hr
    refine ⟨rfl, ?_, rfl, rfl⟩
    show ({ host with dispatchQueue := [] } : ENetHost) = host
    rw [← hq]
  · rcases enet_protocol_dispatch_incoming_commands_loop_status hdr _ _ _ _ _ hr with h | h
    · exact Or.inl h.1
    · exact Or.inr h
  · intro passed slot rest peer hq hsil hpeer
    rw [hq, enet_protocol_dispatch_incoming_commands_loop_passes hdr (slot :: rest) event store
      passed host hsil] at hr
    by_cases hmem : slot ∈ passed
    · obtain ⟨p, hp, hps⟩ := hsil slot hmem
      rw [hpeer] at hp
      cases hp
      unfold ENetPeer.silent at hps
      rw [decide_eq_true_eq] at hps
      obtain ⟨s1, s2, s3, s4⟩ := hps
      refine ⟨fun hst => ?_, fun hst => absurd hst s3, fun hst ic more hd => ?_⟩
      · rcases hst with h | h
        · exact absurd h s1
        · exact absurd h s2
      · rw [s4 hst] at hd
        cases hd
    · have hpeer1 : ({ host with dispatchQueue := slot :: rest,
                                 peers := unflagged host.peers passed } : ENetHost).peers.get?
          slot = some peer := by
        show (unflagged host.peers passed).get? slot = some peer
        rw [unflagged_get?_of_not_mem passed host.peers slot hmem]
        exact hpeer
      exact enet_protocol_dispatch_incoming_commands_loop_head hdr _ event store slot rest
        peer r hpeer1 hr

/-- Witness of C13: on the sample host with two peers on the dispatch queue, a silent one in
front of a peer in `CONNECTION_PENDING`, the call passes the first and hands out the
`CONNECT` event of the second. -/
theorem enet_protocol_dispatch_incoming_commands_spec_witness :
    ∃ r, enet_protocol_dispatch_incoming_commands sampleHeader sampleQueuedHost
        sampleEvent [] = some r ∧ r.status = 1 ∧
      r.event.type = ENetEventType.CONNECT ∧ r.event.peer = some 1 ∧
      r.host.dispatchQueue = [] ∧
      r.host.peers.map (fun p => (p.state, p.needsDispatch))
        = [(ENetPeerState.CONNECTED, false), (ENetPeerState.CONNECTED, false)] := by
  obtain ⟨r, h, -, -, -, -, -, hc⟩ :=
    enet_protocol_dispatch_incoming_commands_spec sampleHeader sampleQueuedHost
      sampleEvent [] (by decide)
  obtain ⟨h1, h2, h3, h4, -⟩ :=
    (hc [0] 1 [] _ rfl (by decide) rfl).1 (Or.inl rfl)
  exact ⟨r, h, h1, by rw [h2], by rw [h2], h4, by rw [h3]; decide⟩

/-! ## `enet_host_flush` keeps the counters of the host -/

/-- A counter invariant holds of a host and a peer that have the state, the incoming
bandwidth, the slots and the counters of a host and a peer of which it holds. -/
theorem CounterInvariant.transfer {I : ENetHost → ENetPeer → Prop} (hI : CounterInvariant I)
    (host host1 : ENetHost) (peer peer1 : ENetPeer) (h : I host peer)
    (hs : peer1.state = peer.state) (hb : peer1.incomingBandwidth = peer.incomingBandwidth)
    (hp : host1.peers = host.peers) (hc : host1.connectedPeers = host.connectedPeers)
    (hl : host1.bandwidthLimitedPeers = host.bandwidthLimitedPeers) : I host1 peer1 :=
  hI.hostChange _ _ _
    (hI.peerChange _ _ _ h (by simp [ENetPeer.connected, hs]) (fun _ => hb)) hp hc hl

/-- A counter invariant follows the locals of `enet_protocol_check_outgoing_commands` as long
as what the counters are made of stays. -/
theorem CounterInvariant.counters {I : ENetHost → ENetPeer → Prop} (hI : CounterInvariant I)
    (st st1 : CheckOutgoingState) (h : I st.host st.peer) (hc : st1.counters = st.counters) :
    I st1.host st1.peer := by
  unfold CheckOutgoingState.counters at hc
  simp only [Prod.mk.injEq] at hc
  exact hI.transfer _ _ _ _ h hc.1 hc.2.1 hc.2.2.1 hc.2.2.2.1 hc.2.2.2.2

/-- The window tests leave what the counters are made of. -/
theorem readyState_counters (st : CheckOutgoingState) (c : ENetOutgoingCommand) :
    (readyState st c).counters = st.counters := by
  unfold readyState
  split <;> rfl

/-- The throttle counter leaves what the counters are made of. -/
theorem throttleState_counters (st : CheckOutgoingState) (c : ENetOutgoingCommand) :
    (throttleState st c).counters = st.counters := by
  unfold throttleState
  split
  · exact readyState_counters st c
  · exact readyState_counters st c

/-- Sending a reliable command leaves what the counters are made of. -/
theorem sendReliableCommand_counters (st : CheckOutgoingState) (c : ENetOutgoingCommand)
    (channel : Option ENetChannel) (reliableWindow : Nat) :
    (sendReliableCommand st c channel reliableWindow).1.counters = st.counters := by
  unfold sendReliableCommand CheckOutgoingState.counters
  dsimp only
  cases channel with
  | none => dsimp only; split <;> rfl
  | some channel => dsimp only; split <;> split <;> rfl

/-- Putting a command into the datagram leaves what the counters are made of. -/
theorem emitCommand_counters (st : CheckOutgoingState) (c : ENetOutgoingCommand)
    (commandSize : Nat) : (emitCommand st c commandSize).counters = st.counters := by
  unfold emitCommand CheckOutgoingState.counters
  dsimp only
  cases c.packet <;> rfl

/-- The loop of `enet_protocol_check_outgoing_commands` keeps a counter invariant. -/
theorem enet_protocol_check_outgoing_commands_loop_counter {I : ENetHost → ENetPeer → Prop}
    (hI : CounterInvariant I) (hdr : ENetHeader) (rest : List ENetOutgoingCommand)
    (st : CheckOutgoingState) (r : CheckOutgoingState × List ENetOutgoingCommand)
    (h : I st.host st.peer)
    (hr : enet_protocol_check_outgoing_commands_loop hdr st rest = some r) :
    I r.1.host r.1.peer := by
  refine enet_protocol_check_outgoing_commands_loop_steps hdr (fun s => I s.host s.peer)
    (fun s hs => hs) (fun s _ hs => hs) (fun s c hs _ _ _ => hs) (fun s c hs _ _ _ => hs)
    (fun s c hs => ?_) (fun s c hs _ _ _ _ => ?_) (fun s c pid hs _ => ?_)
    (fun s c hs _ => ?_) rest st r h hr
  · have h1 := hI.counters s _ hs (readyState_counters s c)
    exact hI.hostChange _ _ _ h1 rfl rfl rfl
  · exact hI.counters s _ hs
      ((emitCommand_counters _ _ _).trans
        ((sendReliableCommand_counters _ _ _ _).trans (readyState_counters s c)))
  · exact hI.counters s _ hs (throttleState_counters s c)
  · refine hI.counters s _ hs ((emitCommand_counters _ _ _).trans ?_)
    split
    · exact throttleState_counters s c
    · exact throttleState_counters s c

/-- `enet_protocol_check_outgoing_commands` keeps a counter invariant that `enet_host_flush`
keeps. -/
theorem enet_protocol_check_outgoing_commands_counter {I : ENetHost → ENetPeer → Prop}
    (hI : CounterInvariant I) (hdr : ENetHeader)
    (flush : ENetHost × ENetPeer × PacketStore → ENetHost × ENetPeer × PacketStore)
    (hflush : ∀ h p s, I h p → I (flush (h, p, s)).1 (flush (h, p, s)).2.1)
    (host : ENetHost) (peer : ENetPeer) (store : PacketStore) (mem : Nat)
    (r : CheckOutgoingResult) (h : I host peer)
    (hr : enet_protocol_check_outgoing_commands hdr flush host peer store mem = some r) :
    I r.host r.peer := by
  unfold enet_protocol_check_outgoing_commands at hr
  dsimp only at hr
  split at hr
  · cases hr
  · rename_i st rest hloop
    have hst := enet_protocol_check_outgoing_commands_loop_counter hI hdr _ _ _
      (show I ({ host := { host with commands := host.commands.take host.commandCount,
                                     buffers := host.buffers.take host.bufferCount },
                 peer := peer, store := store, kept := [], command := host.commandCount,
                 buffer := host.bufferCount, windowExceeded := false, windowWrap := false,
                 canPing := true, dropping := none } : CheckOutgoingState).host peer from
        hI.hostChange _ _ _ h rfl rfl rfl) hloop
    have h2 : I { st.host with commandCount := st.command, bufferCount := st.buffer }
        { st.peer with outgoingCommands := st.kept ++ rest } :=
      hI.hostChange _ _ _ (hI.peerChange _ _ _ hst rfl (fun _ => rfl)) rfl rfl rfl
    split at hr
    · cases hr
      exact enet_peer_disconnect_counter hI hdr flush hflush _ _ _ _ _ h2
    · cases hr
      exact h2

/-- The loop of `enet_protocol_send_acknowledgements` keeps a counter invariant. -/
theorem enet_protocol_send_acknowledgements_loop_counter {I : ENetHost → ENetPeer → Prop}
    (hI : CounterInvariant I) (hdr : ENetHeader) :
    ∀ (rest : List ENetAcknowledgement) (host : ENetHost) (peer : ENetPeer)
      (command buffer : Nat), I host peer →
      I (enet_protocol_send_acknowledgements_loop hdr host peer command buffer rest).1
        (enet_protocol_send_acknowledgements_loop hdr host peer command buffer rest).2.1 := by
  intro rest
  induction rest with
  | nil => intro host peer command buffer h; exact h
  | cons a rest ih =>
    intro host peer command buffer h
    unfold enet_protocol_send_acknowledgements_loop
    split
    · exact hI.hostChange _ _ _ h rfl rfl rfl
    · dsimp only
      have h1 : I { host with
          buffers := host.buffers
            ++ [ENetBuffer.command command
                  (commandSizes.getD ENET_PROTOCOL_COMMAND_ACKNOWLEDGE 0)],
          packetSize :=
            usize (host.packetSize + commandSizes.getD ENET_PROTOCOL_COMMAND_ACKNOWLEDGE 0),
          commands := host.commands ++
            [{ command := ENET_PROTOCOL_COMMAND_ACKNOWLEDGE,
               channelID := a.command.channelID,
               reliableSequenceNumber := ENET_HOST_TO_NET_16 a.command.reliableSequenceNumber,
               body := .acknowledge (ENET_HOST_TO_NET_16 a.command.reliableSequenceNumber)
                 (ENET_HOST_TO_NET_16 a.sentTime) }] } peer :=
        hI.hostChange _ _ _ h rfl rfl rfl
      split
      · have h2 := enet_protocol_dispatch_state_counter hI _ peer ENetPeerState.ZOMBIE h1
        generalize enet_protocol_dispatch_state _ peer ENetPeerState.ZOMBIE = ds at h2 ⊢
        obtain ⟨host2, peer2⟩ := ds
        exact ih _ _ _ _ (hI.peerChange _ _ _ h2 rfl (fun _ => rfl))
      · exact ih _ _ _ _ (hI.peerChange _ _ _ h1 rfl (fun _ => rfl))

/-- `enet_protocol_send_acknowledgements` keeps a counter invariant. -/
theorem enet_protocol_send_acknowledgements_counter {I : ENetHost → ENetPeer → Prop}
    (hI : CounterInvariant I) (hdr : ENetHeader) (host : ENetHost) (peer : ENetPeer)
    (h : I host peer) :
    I (enet_protocol_send_acknowledgements hdr host peer).1
      (enet_protocol_send_acknowledgements hdr host peer).2 := by
  unfold enet_protocol_send_acknowledgements
  dsimp only
  have h1 := enet_protocol_send_acknowledgements_loop_counter hI hdr peer.acknowledgements
    { host with commands := host.commands.take host.commandCount,
                buffers := host.buffers.take host.bufferCount } peer host.commandCount
    host.bufferCount (hI.hostChange _ _ _ h rfl rfl rfl)
  generalize enet_protocol_send_acknowledgements_loop hdr _ peer host.commandCount
    host.bufferCount peer.acknowledgements = res at h1 ⊢
  obtain ⟨host1, peer1, command1, buffer1⟩ := res
  exact hI.hostChange _ _ _ h1 rfl rfl rfl

/-- The head of the body of the sending loop keeps a counter invariant. -/
theorem sendOutgoingAcknowledgements_counter {I : ENetHost → ENetPeer → Prop}
    (hI : CounterInvariant I) (hdr : ENetHeader) (host : ENetHost) (peer : ENetPeer)
    (h : I host peer) :
    I (sendOutgoingAcknowledgements hdr host peer).1
      (sendOutgoingAcknowledgements hdr host peer).2 := by
  unfold sendOutgoingAcknowledgements
  dsimp only
  split
  · exact enet_protocol_send_acknowledgements_counter hI hdr _ peer
      (hI.hostChange _ _ _ h rfl rfl rfl)
  · exact hI.hostChange _ _ _ h rfl rfl rfl

/-- The test of the timeouts in the sending loop keeps a counter invariant. -/
theorem sendOutgoingTimeouts_counter {I : ENetHost → ENetPeer → Prop}
    (hI : CounterInvariant I) (hdr : ENetHeader) (time : ENetTime) (env : ENetSendEnvironment)
    (checkForTimeouts : Int) (host : ENetHost) (peer : ENetPeer) (event : Option ENetEvent)
    (store : PacketStore) (h : I host peer) :
    I (sendOutgoingTimeouts hdr time env checkForTimeouts host peer event store).host
      (sendOutgoingTimeouts hdr time env checkForTimeouts host peer event store).peer := by
  unfold sendOutgoingTimeouts
  split
  · exact enet_protocol_check_timeouts_loop_counter hI hdr time host event store _ peer [] [] h
  · exact h

/-- `enet_peer_ping` leaves the state and the incoming bandwidth of the peer. -/
theorem enet_peer_ping_state (peer : ENetPeer) (mem : Nat) :
    (enet_peer_ping peer mem).1.state = peer.state ∧
    (enet_peer_ping peer mem).1.incomingBandwidth = peer.incomingBandwidth := by
  unfold enet_peer_ping
  split
  · exact ⟨rfl, rfl⟩
  · dsimp only
    split
    · rename_i r hq
      exact enet_peer_queue_outgoing_command_state _ _ _ _ _ _ _ _ hq
    · exact ⟨rfl, rfl⟩

/-- The sending of the queued commands and of a ping keeps a counter invariant that
`enet_host_flush` keeps. -/
theorem sendOutgoingCommands_counter {I : ENetHost → ENetPeer → Prop}
    (hI : CounterInvariant I) (hdr : ENetHeader) (time : ENetTime)
    (flush : ENetHost × ENetPeer × PacketStore → ENetHost × ENetPeer × PacketStore)
    (hflush : ∀ h p s, I h p → I (flush (h, p, s)).1 (flush (h, p, s)).2.1)
    (host : ENetHost) (peer : ENetPeer) (store : PacketStore) (mem : Nat)
    (r : CheckOutgoingResult) (h : I host peer)
    (hr : sendOutgoingCommands hdr time flush host peer store mem = some r) :
    I r.host r.peer := by
  unfold sendOutgoingCommands at hr
  dsimp only at hr
  have hfirst : ∀ r1 : CheckOutgoingResult,
      (if peer.outgoingCommands = [] then
        some { canPing := true, host := host, peer := peer, store := store, mem := mem }
       else enet_protocol_check_outgoing_commands hdr flush host peer store mem) = some r1 →
      I r1.host r1.peer := by
    intro r1 h1
    split at h1
    · cases h1; exact h
    · exact enet_protocol_check_outgoing_commands_counter hI hdr flush hflush _ _ _ _ _ h h1
  split at hr
  · cases hr
  · rename_i r1 h1
    have hr1 := hfirst r1 h1
    split at hr
    · have hp := enet_peer_ping_state r1.peer r1.mem
      generalize enet_peer_ping r1.peer r1.mem = pg at hp hr
      obtain ⟨peer2, mem2⟩ := pg
      dsimp only at hp hr
      exact enet_protocol_check_outgoing_commands_counter hI hdr flush hflush _ _ _ _ _
        (hI.peerChange _ _ _ hr1 (by simp [ENetPeer.connected, hp.1]) (fun _ => hp.2)) hr
    · cases hr
      exact hr1

/-- The packet loss statistics leave the state and the incoming bandwidth of the peer. -/
theorem sendOutgoingPacketLoss_state (time : ENetTime) (env : ENetSendEnvironment)
    (host : ENetHost) (peer : ENetPeer) :
    (sendOutgoingPacketLoss time env host peer).state = peer.state ∧
    (sendOutgoingPacketLoss time env host peer).incomingBandwidth = peer.incomingBandwidth := by
  unfold sendOutgoingPacketLoss
  split
  · exact ⟨rfl, rfl⟩
  · split <;> exact ⟨rfl, rfl⟩

/-- The header of the datagram leaves the slots and the counters of the host. -/
theorem sendOutgoingHeader_keeps (env : ENetSendEnvironment) (host : ENetHost)
    (peer : ENetPeer) (datagrams : Nat) :
    (sendOutgoingHeader env host peer datagrams).peers = host.peers ∧
    (sendOutgoingHeader env host peer datagrams).connectedPeers = host.connectedPeers ∧
    (sendOutgoingHeader env host peer datagrams).bandwidthLimitedPeers
      = host.bandwidthLimitedPeers := by
  unfold sendOutgoingHeader
  dsimp only
  split_ifs <;> exact ⟨rfl, rfl, rfl⟩

/-- `enet_protocol_remove_sent_unreliable_commands` keeps a counter invariant that
`enet_host_flush` keeps. -/
theorem enet_protocol_remove_sent_unreliable_commands_counter
    {I : ENetHost → ENetPeer → Prop} (hI : CounterInvariant I) (hdr : ENetHeader)
    (flush : ENetHost × ENetPeer × PacketStore → ENetHost × ENetPeer × PacketStore)
    (hflush : ∀ h p s, I h p → I (flush (h, p, s)).1 (flush (h, p, s)).2.1)
    (host : ENetHost) (peer : ENetPeer) (store : PacketStore) (mem : Nat) (h : I host peer) :
    I (enet_protocol_remove_sent_unreliable_commands hdr flush host peer store mem).host
      (enet_protocol_remove_sent_unreliable_commands hdr flush host peer store mem).peer := by
  unfold enet_protocol_remove_sent_unreliable_commands
  split
  · exact h
  · dsimp only
    have h1 : I host { peer with sentUnreliableCommands := [] } :=
      hI.peerChange _ _ _ h rfl (fun _ => rfl)
    split
    · exact enet_peer_disconnect_counter hI hdr flush hflush _ _ _ _ _ h1
    · exact h1

/-- The end of the body of the sending loop keeps a counter invariant that
`enet_host_flush` keeps. -/
theorem sendOutgoingDatagram_counter {I : ENetHost → ENetPeer → Prop}
    (hI : CounterInvariant I) (hdr : ENetHeader) (env : ENetSendEnvironment)
    (flush : ENetHost × ENetPeer × PacketStore → ENetHost × ENetPeer × PacketStore)
    (hflush : ∀ h p s, I h p → I (flush (h, p, s)).1 (flush (h, p, s)).2.1)
    (st : SendOutgoingState) (peer : ENetPeer) (h : I st.host peer) :
    I (sendOutgoingDatagram hdr env flush st peer).2.1.host
      (sendOutgoingDatagram hdr env flush st peer).2.2 := by
  unfold sendOutgoingDatagram
  dsimp only
  have h1 := enet_protocol_remove_sent_unreliable_commands_counter hI hdr flush hflush st.host
    { peer with lastSendTime := st.host.serviceTime } st.store st.mem
    (hI.peerChange _ _ _ h rfl (fun _ => rfl))
  split
  · exact h1
  · exact hI.hostChange _ _ _ h1 rfl rfl rfl

/-- The body of the sending loop keeps a counter invariant that `enet_host_flush` keeps. -/
theorem sendOutgoingPeer_counter {I : ENetHost → ENetPeer → Prop}
    (hI : CounterInvariant I) (hdr : ENetHeader) (time : ENetTime) (env : ENetSendEnvironment)
    (flush : ENetHost × ENetPeer × PacketStore → ENetHost × ENetPeer × PacketStore)
    (hflush : ∀ h p s, I h p → I (flush (h, p, s)).1 (flush (h, p, s)).2.1)
    (checkForTimeouts : Int) (st : SendOutgoingState) (peer : ENetPeer) (h : I st.host peer) :
    I (sendOutgoingPeer hdr time env flush checkForTimeouts st peer).2.1.host
      (sendOutgoingPeer hdr time env flush checkForTimeouts st peer).2.2 := by
  unfold sendOutgoingPeer
  split
  · exact h
  · have ha := sendOutgoingAcknowledgements_counter hI hdr st.host peer h
    generalize sendOutgoingAcknowledgements hdr st.host peer = ack at ha ⊢
    obtain ⟨host1, peer1⟩ := ack
    dsimp only at ha ⊢
    have ht := sendOutgoingTimeouts_counter hI hdr time env checkForTimeouts host1 peer1
      st.event st.store ha
    generalize sendOutgoingTimeouts hdr time env checkForTimeouts host1 peer1 st.event
      st.store = t at ht ⊢
    split
    · split
      · split
        · exact ht
        · exact ht
      · exact ht
    · split
      · exact ht
      · rename_i c hc
        have hcc := sendOutgoingCommands_counter hI hdr time flush hflush _ _ _ _ _ ht hc
        split
        · exact hcc
        · have hl := sendOutgoingPacketLoss_state time env c.host c.peer
          obtain ⟨k1, k2, k3⟩ := sendOutgoingHeader_keeps env c.host
            (sendOutgoingPacketLoss time env c.host c.peer) st.datagrams
          exact sendOutgoingDatagram_counter hI hdr env flush hflush _ _
            (hI.transfer _ _ _ _ hcc hl.1 hl.2 k1 k2 k3)

/-- One pass of the sending loop over the slots keeps an invariant of the host that is a
counter invariant at every slot. -/
theorem sendOutgoingPass_counter (hdr : ENetHeader) (time : ENetTime)
    (env : ENetSendEnvironment)
    (flush : ENetHost × ENetPeer × PacketStore → ENetHost × ENetPeer × PacketStore)
    (checkForTimeouts : Int)
    (Inv : ENetHost → Prop) (J : Nat → ENetHost → ENetPeer → Prop)
    (hJ : ∀ slot, CounterInvariant (J slot))
    (hflush : ∀ slot h p s, J slot h p → J slot (flush (h, p, s)).1 (flush (h, p, s)).2.1)
    (hin : ∀ slot host peer, Inv host → host.peers.get? slot = some peer → J slot host peer)
    (hout : ∀ slot host peer, J slot host peer → Inv (host.withPeer slot peer)) :
    ∀ (count index : Nat) (st : SendOutgoingState), Inv st.host →
      Inv (sendOutgoingPass hdr time env flush checkForTimeouts count index st).2.host := by
  intro count
  induction count with
  | zero => intro index st h; exact h
  | succ count ih =>
    intro index st h
    unfold sendOutgoingPass
    split
    · exact h
    · rename_i currentPeer hget
      have hp := sendOutgoingPeer_counter (hJ index) hdr time env flush (hflush index)
        checkForTimeouts st currentPeer (hin index st.host currentPeer h hget)
      generalize sendOutgoingPeer hdr time env flush checkForTimeouts st currentPeer = res
        at hp ⊢
      obtain ⟨step, st1, peer1⟩ := res
      dsimp only at hp ⊢
      have h1 : Inv ({ st1 with
          host := { st1.host with peers := st1.host.peers.set index peer1 } }
            : SendOutgoingState).host := hout index _ _ hp
      cases step with
      | next => exact ih _ _ h1
      | returned status => exact h1
      | undefined => exact h1

/-- The `while` loop of the sending keeps an invariant of the host that is a counter
invariant at every slot. -/
theorem sendOutgoingLoop_counter (hdr : ENetHeader) (time : ENetTime)
    (env : ENetSendEnvironment)
    (flush : ENetHost × ENetPeer × PacketStore → ENetHost × ENetPeer × PacketStore)
    (checkForTimeouts : Int)
    (Inv : ENetHost → Prop) (J : Nat → ENetHost → ENetPeer → Prop)
    (hJ : ∀ slot, CounterInvariant (J slot))
    (hflush : ∀ slot h p s, J slot h p → J slot (flush (h, p, s)).1 (flush (h, p, s)).2.1)
    (hin : ∀ slot host peer, Inv host → host.peers.get? slot = some peer → J slot host peer)
    (hout : ∀ slot host peer, J slot host peer → Inv (host.withPeer slot peer))
    (hhost : ∀ host host1 : ENetHost, Inv host → host1.peers = host.peers →
      host1.connectedPeers = host.connectedPeers →
      host1.bandwidthLimitedPeers = host.bandwidthLimitedPeers → Inv host1) :
    ∀ (fuel : Nat) (st : SendOutgoingState), Inv st.host →
      Inv (sendOutgoingLoop hdr time env flush checkForTimeouts fuel st).2.host := by
  intro fuel
  induction fuel with
  | zero =>
    intro st h
    unfold sendOutgoingLoop
    split <;> exact h
  | succ fuel ih =>
    intro st h
    unfold sendOutgoingLoop
    split
    · exact h
    · have hp := sendOutgoingPass_counter hdr time env flush checkForTimeouts Inv J hJ hflush
        hin hout st.host.peerCount 0
        { st with host := { st.host with continueSending := 0 } }
        (hhost _ _ h rfl rfl rfl)
      generalize sendOutgoingPass hdr time env flush checkForTimeouts st.host.peerCount 0
        { st with host := { st.host with continueSending := 0 } } = res at hp ⊢
      obtain ⟨step, st1⟩ := res
      cases step with
      | next => exact ih _ hp
      | returned status => exact hp
      | undefined => exact hp

/-- `enet_protocol_send_outgoing_commands` keeps an invariant of the host that is a counter
invariant at every slot: it holds of the host with which the function ends, however it
ends. -/
theorem enet_protocol_send_outgoing_commands_counter (hdr : ENetHeader) (time : ENetTime)
    (env : ENetSendEnvironment)
    (flush : ENetHost × ENetPeer × PacketStore → ENetHost × ENetPeer × PacketStore)
    (Inv : ENetHost → Prop) (J : Nat → ENetHost → ENetPeer → Prop)
    (hJ : ∀ slot, CounterInvariant (J slot))
    (hflush : ∀ slot h p s, J slot h p → J slot (flush (h, p, s)).1 (flush (h, p, s)).2.1)
    (hin : ∀ slot host peer, Inv host → host.peers.get? slot = some peer → J slot host peer)
    (hout : ∀ slot host peer, J slot host peer → Inv (host.withPeer slot peer))
    (hhost : ∀ host host1 : ENetHost, Inv host → host1.peers = host.peers →
      host1.connectedPeers = host.connectedPeers →
      host1.bandwidthLimitedPeers = host.bandwidthLimitedPeers → Inv host1)
    (fuel : Nat) (host : ENetHost) (event : Option ENetEvent) (checkForTimeouts : Int)
    (store : PacketStore) (mem : Nat) (h : Inv host) :
    Inv (enet_protocol_send_outgoing_commands hdr time env flush fuel host event
      checkForTimeouts store mem).2.host := by
  unfold enet_protocol_send_outgoing_commands
  exact sendOutgoingLoop_counter hdr time env flush checkForTimeouts Inv J hJ hflush hin hout
    hhost fuel _ (hhost _ _ h rfl rfl rfl)

/-! ## The calls of `enet_peer_disconnect` inside the sending do not reach `enet_host_flush` -/

/-- For a peer in `DISCONNECT_LATER`, `enet_peer_disconnect` does not call
`enet_host_flush`: its result is the same whatever stands for it. -/
theorem enet_peer_disconnect_flush (hdr : ENetHeader)
    (flush1 flush2 : ENetHost × ENetPeer × PacketStore → ENetHost × ENetPeer × PacketStore)
    (host : ENetHost) (peer : ENetPeer) (store : PacketStore) (data mem : Nat)
    (hstate : peer.state = ENetPeerState.DISCONNECT_LATER) :
    enet_peer_disconnect hdr flush1 host peer store data mem
      = enet_peer_disconnect hdr flush2 host peer store data mem := by
  unfold enet_peer_disconnect
  split
  · rfl
  · have hq := (enet_peer_reset_queues_keeps host peer store).2
    generalize enet_peer_reset_queues host peer store = rq at hq ⊢
    obtain ⟨host1, peer1, store1⟩ := rq
    dsimp only at hq ⊢
    have hs1 : peer1.state = ENetPeerState.DISCONNECT_LATER := by rw [hq]; exact hstate
    have hc : decide (peer1.state = ENetPeerState.CONNECTED ∨
        peer1.state = ENetPeerState.DISCONNECT_LATER) = true :=
      decide_eq_true (Or.inr hs1)
    rw [hc]
    rfl

/-- The result of `enet_protocol_check_outgoing_commands` is the same whatever stands for
`enet_host_flush`. -/
theorem enet_protocol_check_outgoing_commands_flush (hdr : ENetHeader)
    (flush1 flush2 : ENetHost × ENetPeer × PacketStore → ENetHost × ENetPeer × PacketStore)
    (host : ENetHost) (peer : ENetPeer) (store : PacketStore) (mem : Nat) :
    enet_protocol_check_outgoing_commands hdr flush1 host peer store mem
      = enet_protocol_check_outgoing_commands hdr flush2 host peer store mem := by
  unfold enet_protocol_check_outgoing_commands
  dsimp only
  split
  · rfl
  · rename_i st rest hloop
    split
    · rename_i hc
      rw [enet_peer_disconnect_flush hdr flush1 flush2
        { st.host with commandCount := st.command, bufferCount := st.buffer }
        { st.peer with outgoingCommands := st.kept ++ rest } st.store st.peer.eventData mem
        hc.1]
    · rfl

/-- The result of `enet_protocol_remove_sent_unreliable_commands` is the same whatever
stands for `enet_host_flush`. -/
theorem enet_protocol_remove_sent_unreliable_commands_flush (hdr : ENetHeader)
    (flush1 flush2 : ENetHost × ENetPeer × PacketStore → ENetHost × ENetPeer × PacketStore)
    (host : ENetHost) (peer : ENetPeer) (store : PacketStore) (mem : Nat) :
    enet_protocol_remove_sent_unreliable_commands hdr flush1 host peer store mem
      = enet_protocol_remove_sent_unreliable_commands hdr flush2 host peer store mem := by
  unfold enet_protocol_remove_sent_unreliable_commands
  split
  · rfl
  · dsimp only
    split
    · rename_i hc
      exact enet_peer_disconnect_flush hdr flush1 flush2 _ _ _ _ _ hc.1
    · rfl

/-- The body of the sending loop is the same whatever stands for `enet_host_flush`. -/
theorem sendOutgoingPeer_flush (hdr : ENetHeader) (time : ENetTime)
    (env : ENetSendEnvironment)
    (flush1 flush2 : ENetHost × ENetPeer × PacketStore → ENetHost × ENetPeer × PacketStore)
    (checkForTimeouts : Int) (st : SendOutgoingState) (peer : ENetPeer) :
    sendOutgoingPeer hdr time env flush1 checkForTimeouts st peer
      = sendOutgoingPeer hdr time env flush2 checkForTimeouts st peer := by
  have hc : ∀ host peer store mem, sendOutgoingCommands hdr time flush1 host peer store mem
      = sendOutgoingCommands hdr time flush2 host peer store mem := by
    intro host peer store mem
    unfold sendOutgoingCommands
    simp only [enet_protocol_check_outgoing_commands_flush hdr flush1 flush2]
  have hd : ∀ st peer, sendOutgoingDatagram hdr env flush1 st peer
      = sendOutgoingDatagram hdr env flush2 st peer := by
    intro st peer
    unfold sendOutgoingDatagram
    simp only [enet_protocol_remove_sent_unreliable_commands_flush hdr flush1 flush2]
  unfold sendOutgoingPeer
  simp only [hc, hd]

/-- One pass of the sending loop is the same whatever stands for `enet_host_flush`. -/
theorem sendOutgoingPass_flush (hdr : ENetHeader) (time : ENetTime)
    (env : ENetSendEnvironment)
    (flush1 flush2 : ENetHost × ENetPeer × PacketStore → ENetHost × ENetPeer × PacketStore)
    (checkForTimeouts : Int) :
    ∀ (count index : Nat) (st : SendOutgoingState),
      sendOutgoingPass hdr time env flush1 checkForTimeouts count index st
        = sendOutgoingPass hdr time env flush2 checkForTimeouts count index st := by
  intro count
  induction count with
  | zero => intro index st; rfl
  | succ count ih =>
    intro index st
    unfold sendOutgoingPass
    simp only [sendOutgoingPeer_flush hdr time env flush1 flush2, ih]

/-- The sending inside `enet_host_flush` does not call `enet_host_flush` again:
`enet_protocol_send_outgoing_commands` is the same whatever stands for it. -/
theorem enet_protocol_send_outgoing_commands_flush (hdr : ENetHeader) (time : ENetTime)
    (env : ENetSendEnvironment)
    (flush1 flush2 : ENetHost × ENetPeer × PacketStore → ENetHost × ENetPeer × PacketStore)
    (fuel : Nat) (host : ENetHost) (event : Option ENetEvent) (checkForTimeouts : Int)
    (store : PacketStore) (mem : Nat) :
    enet_protocol_send_outgoing_commands hdr time env flush1 fuel host event checkForTimeouts
        store mem
      = enet_protocol_send_outgoing_commands hdr time env flush2 fuel host event
          checkForTimeouts store mem := by
  have hloop : ∀ (fuel : Nat) (st : SendOutgoingState),
      sendOutgoingLoop hdr time env flush1 checkForTimeouts fuel st
        = sendOutgoingLoop hdr time env flush2 checkForTimeouts fuel st := by
    intro fuel
    induction fuel with
    | zero => intro st; rfl
    | succ fuel ih =>
      intro st
      unfold sendOutgoingLoop
      simp only [sendOutgoingPass_flush hdr time env flush1 flush2, ih]
  unfold enet_protocol_send_outgoing_commands
  exact hloop fuel _

/-! ## The two counters under `enet_host_flush` -/

/-- A counter invariant stays one with the number of slots of the host fixed. -/
theorem CounterInvariant.withLength {I : ENetHost → ENetPeer → Prop} (hI : CounterInvariant I)
    (n : Nat) : CounterInvariant (fun host peer => I host peer ∧ host.peers.length = n) := by
  refine ⟨fun host peer peer1 h h1 => ⟨hI.onDisconnect _ _ _ h.1 h1, ?_⟩,
    fun host peer peer1 h h1 h2 => ⟨hI.onConnect _ _ _ h.1 h1 h2, ?_⟩,
    fun host peer peer1 h h1 h2 => ⟨hI.peerChange _ _ _ h.1 h1 h2, h.2⟩,
    fun host host1 peer h hp hc hb => ⟨hI.hostChange _ _ _ h.1 hp hc hb, by rw [hp]; exact h.2⟩⟩
  · rw [(enet_peer_on_disconnect_eq host peer).1]; exact h.2
  · rw [(enet_peer_on_connect_eq host peer).1]; exact h.2

/-- `enet_host_flush` keeps a counter of the host: a property `C` of the host that depends
on the slots and the two counters only, and whose form at a slot (`J`) is a counter
invariant, holds at slot `slot` after the call when it held before. -/
theorem enet_host_flush_counter (C : ENetHost → Prop) (J : Nat → ENetHost → ENetPeer → Prop)
    (hJ : ∀ slot, CounterInvariant (J slot))
    (hiff : ∀ slot host peer, J slot host peer ↔
      (slot < host.peers.length ∧ host.peers.length < 18446744073709551616 ∧
        C (host.withPeer slot peer)))
    (hC : ∀ host host1 : ENetHost, C host → host1.peers = host.peers →
      host1.connectedPeers = host.connectedPeers →
      host1.bandwidthLimitedPeers = host.bandwidthLimitedPeers → C host1)
    (hdr : ENetHeader) (time : ENetTime) (env : ENetSendEnvironment) (fuel mem slot : Nat)
    (host : ENetHost) (peer : ENetPeer) (store : PacketStore) (h : J slot host peer) :
    J slot (enet_host_flush hdr time env fuel mem slot (host, peer, store)).1
      (enet_host_flush hdr time env fuel mem slot (host, peer, store)).2.1 := by
  obtain ⟨hslot, hlen, hc⟩ := (hiff slot host peer).1 h
  have hsend := enet_protocol_send_outgoing_commands_counter hdr time env (fun state => state)
    (fun x => C x ∧ x.peers.length = host.peers.length)
    (fun slot1 x p => J slot1 x p ∧ x.peers.length = host.peers.length)
    (fun slot1 => (hJ slot1).withLength host.peers.length)
    (fun slot1 x p s hx => hx)
    (fun slot1 x p hx hget => by
      have hindex : slot1 < x.peers.length := by
        rw [List.get?_eq_getElem?] at hget
        exact (List.getElem?_eq_some_iff.mp hget).1
      exact ⟨(hiff slot1 x p).2 ⟨hindex, by rw [hx.2]; exact hlen,
        by rw [withPeer_of_get? _ _ _ hget]; exact hx.1⟩, hx.2⟩)
    (fun slot1 x p hx => by
      refine ⟨((hiff slot1 x p).1 hx.1).2.2, ?_⟩
      show (x.peers.set slot1 p).length = host.peers.length
      rw [List.length_set]
      exact hx.2)
    (fun x x1 hx hp hcp hbl => ⟨hC x x1 hx.1 hp hcp hbl, by rw [hp]; exact hx.2⟩)
    fuel { host with peers := host.peers.set slot peer, serviceTime := env.enet_time_get }
    none 0 store mem
    ⟨hC (host.withPeer slot peer) _ hc rfl rfl rfl, by
      show (host.peers.set slot peer).length = host.peers.length
      rw [List.length_set]⟩
  unfold enet_host_flush
  dsimp only
  generalize enet_protocol_send_outgoing_commands hdr time env (fun state => state) fuel
    { host with peers := host.peers.set slot peer, serviceTime := env.enet_time_get }
    none 0 store mem = r at hsend ⊢
  have hslot1 : slot < r.2.host.peers.length := by rw [hsend.2]; exact hslot
  have hget : r.2.host.peers.get? slot = some (r.2.host.peers.getD slot peer) := by
    rw [List.get?_eq_getElem?, List.getD_eq_getElem?_getD, List.getElem?_eq_getElem hslot1]
    rfl
  exact (hiff slot _ _).2 ⟨hslot1, by rw [hsend.2]; exact hlen,
    by rw [withPeer_of_get? _ _ _ hget]; exact hsend.1⟩

/-- A property of the host that depends on the slots and the counter of connected peers
only follows them. -/
theorem connectedPeersInv_of_eq (host host1 : ENetHost) (h : ConnectedPeersInv host)
    (hp : host1.peers = host.peers) (hc : host1.connectedPeers = host.connectedPeers) :
    ConnectedPeersInv host1 := by
  unfold ConnectedPeersInv at h ⊢
  rw [hp, hc]
  exact h

/-- A property of the host that depends on the slots and the counter of bandwidth limited
peers only follows them. -/
theorem bandwidthLimitedPeersInv_of_eq (host host1 : ENetHost)
    (h : BandwidthLimitedPeersInv host) (hp : host1.peers = host.peers)
    (hb : host1.bandwidthLimitedPeers = host.bandwidthLimitedPeers) :
    BandwidthLimitedPeersInv host1 := by
  unfold BandwidthLimitedPeersInv at h ⊢
  rw [hp, hb]
  exact h

/-- `enet_host_flush` keeps the invariant of `connectedPeers` at the slot of the caller. -/
theorem enet_host_flush_connected (hdr : ENetHeader) (time : ENetTime)
    (env : ENetSendEnvironment) (fuel mem slot : Nat) (host : ENetHost) (peer : ENetPeer)
    (store : PacketStore) (h : ConnectedPeersAt slot host peer) :
    ConnectedPeersAt slot (enet_host_flush hdr time env fuel mem slot (host, peer, store)).1
      (enet_host_flush hdr time env fuel mem slot (host, peer, store)).2.1 :=
  enet_host_flush_counter ConnectedPeersInv ConnectedPeersAt connectedPeersAt_invariant
    (fun _ _ _ => Iff.rfl) (fun x x1 hx hp hc _ => connectedPeersInv_of_eq x x1 hx hp hc)
    hdr time env fuel mem slot host peer store h

/-- `enet_host_flush` keeps the invariant of `bandwidthLimitedPeers` at the slot of the
caller. -/
theorem enet_host_flush_bandwidthLimited (hdr : ENetHeader) (time : ENetTime)
    (env : ENetSendEnvironment) (fuel mem slot : Nat) (host : ENetHost) (peer : ENetPeer)
    (store : PacketStore) (h : BandwidthLimitedPeersAt slot host peer) :
    BandwidthLimitedPeersAt slot
      (enet_host_flush hdr time env fuel mem slot (host, peer, store)).1
      (enet_host_flush hdr time env fuel mem slot (host, peer, store)).2.1 :=
  enet_host_flush_counter BandwidthLimitedPeersInv BandwidthLimitedPeersAt
    bandwidthLimitedPeersAt_invariant
    (fun _ _ _ => Iff.rfl) (fun x x1 hx hp _ hb => bandwidthLimitedPeersInv_of_eq x x1 hx hp hb)
    hdr time env fuel mem slot host peer store h

/-! ## The two counters of the host -/

/-- C17: `host.connectedPeers` is the number of slots in `CONNECTED` or `DISCONNECT_LATER`
(`ConnectedPeersInv`): the host that `enet_host_create` returns has the property, and it is
kept, for the host and the value of a slot (`ConnectedPeersAt`: the host with the peer
written to its slot has it), by `enet_host_flush`, `enet_protocol_change_state`,
`enet_protocol_dispatch_state`, `enet_peer_reset`, `enet_peer_disconnect`,
`enet_peer_disconnect_later`, `enet_peer_disconnect_now`, the `VERIFY_CONNECT`, `DISCONNECT`,
`ACKNOWLEDGE` and `BANDWIDTH_LIMIT` handlers and `enet_protocol_check_timeouts`, and for the
whole host by `enet_protocol_send_outgoing_commands`, `enet_protocol_handle_connect`,
`enet_host_connect` and `enet_protocol_dispatch_incoming_commands`.  The functions that call
`enet_host_flush` are taken with `enet_host_flush` itself, for every socket, clock,
compressor, allocation budget and number of passes of its sending loop. -/
theorem connectedPeers_invariant (hdr : ENetHeader) (time : ENetTime)
    (env : ENetSendEnvironment) (fuel budget slot : Nat) :
    (∀ (setup : ENetHostSetup) (peerCount channelLimit incomingBandwidth outgoingBandwidth
        mem : Nat) (host : ENetHost),
      (enet_host_create hdr setup peerCount channelLimit incomingBandwidth outgoingBandwidth
        mem).1 = some host → ConnectedPeersInv host) ∧
    (∀ (host : ENetHost) (peer : ENetPeer), ConnectedPeersAt slot host peer →
      (∀ store : PacketStore,
        ConnectedPeersAt slot (enet_host_flush hdr time env fuel budget slot (host, peer, store)).1
          (enet_host_flush hdr time env fuel budget slot (host, peer, store)).2.1) ∧
      (∀ state : ENetPeerState,
        ConnectedPeersAt slot (enet_protocol_change_state host peer state).1
          (enet_protocol_change_state host peer state).2) ∧
      (∀ state : ENetPeerState,
        ConnectedPeersAt slot (enet_protocol_dispatch_state host peer state).1
          (enet_protocol_dispatch_state host peer state).2) ∧
      (∀ store : PacketStore,
        ConnectedPeersAt slot (enet_peer_reset hdr host peer store).1
          (enet_peer_reset hdr host peer store).2.1) ∧
      (∀ (store : PacketStore) (data mem : Nat),
        ConnectedPeersAt slot
          (enet_peer_disconnect hdr (enet_host_flush hdr time env fuel budget slot) host peer store data
            mem).host
          (enet_peer_disconnect hdr (enet_host_flush hdr time env fuel budget slot) host peer store data
            mem).peer) ∧
      (∀ (store : PacketStore) (data mem : Nat),
        ConnectedPeersAt slot
          (enet_peer_disconnect_later hdr (enet_host_flush hdr time env fuel budget slot) host peer store data
            mem).host
          (enet_peer_disconnect_later hdr (enet_host_flush hdr time env fuel budget slot) host peer store data
            mem).peer) ∧
      (∀ (store : PacketStore) (data mem : Nat),
        ConnectedPeersAt slot
          (enet_peer_disconnect_now hdr (enet_host_flush hdr time env fuel budget slot) host peer store data
            mem).host
          (enet_peer_disconnect_now hdr (enet_host_flush hdr time env fuel budget slot) host peer store data
            mem).peer) ∧
      (∀ (event : Option ENetEvent) (command : ENetProtocol) (store : PacketStore),
        ConnectedPeersAt slot
          (enet_protocol_handle_verify_connect host event peer command store).host
          (enet_protocol_handle_verify_connect host event peer command store).peer) ∧
      (∀ (command : ENetProtocol) (store : PacketStore),
        ConnectedPeersAt slot (enet_protocol_handle_disconnect hdr host peer command store).host
          (enet_protocol_handle_disconnect hdr host peer command store).peer) ∧
      (∀ (event : Option ENetEvent) (command : ENetProtocol) (store : PacketStore)
          (mem : Nat),
        ConnectedPeersAt slot
          (enet_protocol_handle_acknowledge hdr time
            (enet_host_flush hdr time env fuel budget slot) host event peer command store mem).host
          (enet_protocol_handle_acknowledge hdr time
            (enet_host_flush hdr time env fuel budget slot) host event peer command store mem).peer) ∧
      (∀ command : ENetProtocol,
        ConnectedPeersAt slot (enet_protocol_handle_bandwidth_limit hdr host peer command).2.1
          (enet_protocol_handle_bandwidth_limit hdr host peer command).2.2) ∧
      (∀ (event : Option ENetEvent) (store : PacketStore),
        ConnectedPeersAt slot (enet_protocol_check_timeouts hdr time host peer event store).host
          (enet_protocol_check_timeouts hdr time host peer event store).peer)) ∧
    (∀ host : ENetHost, ConnectedPeersInv host → host.peers.length < 18446744073709551616 →
      (∀ (flush : ENetHost × ENetPeer × PacketStore → ENetHost × ENetPeer × PacketStore)
          (passes : Nat) (event : Option ENetEvent) (checkForTimeouts : Int)
          (store : PacketStore) (mem : Nat),
        ConnectedPeersInv (enet_protocol_send_outgoing_commands hdr time env flush passes host event
          checkForTimeouts store mem).2.host) ∧
      (∀ (command : ENetProtocol) (mem : Nat),
        ConnectedPeersInv (enet_protocol_handle_connect hdr host command mem).host) ∧
      (∀ (address : ENetAddress) (channelCount data mem : Nat),
        ConnectedPeersInv (enet_host_connect hdr host address channelCount data mem).host) ∧
      (∀ (event : ENetEvent) (store : PacketStore) (r : DispatchEventResult),
        enet_protocol_dispatch_incoming_commands hdr host event store = some r →
        ConnectedPeersInv r.host)) := by
  have hI := connectedPeersAt_invariant slot
  have hflush : ∀ h p s, ConnectedPeersAt slot h p →
      ConnectedPeersAt slot (enet_host_flush hdr time env fuel budget slot (h, p, s)).1
        (enet_host_flush hdr time env fuel budget slot (h, p, s)).2.1 :=
    fun h p s hi => enet_host_flush_connected hdr time env fuel budget slot h p s hi
  refine ⟨?_, fun host peer h => ⟨fun store => hflush host peer store h, ?_, ?_, ?_, ?_, ?_,
    ?_, ?_, ?_, ?_, ?_, ?_⟩, fun host hinv hlen => ⟨?_, ?_, ?_, ?_⟩⟩
  · intro setup peerCount channelLimit incomingBandwidth outgoingBandwidth mem host hcreate
    unfold enet_host_create at hcreate
    split at hcreate
    · cases hcreate
    split at hcreate
    · cases hcreate
    split at hcreate
    · cases hcreate
    split at hcreate
    · cases hcreate
    dsimp only at hcreate
    have hhost := Option.some.inj hcreate
    rw [← hhost]
    exact (enet_host_create_peers_counter hdr peerCount 0 _
      (by unfold ConnectedPeersInv; rfl) (by unfold BandwidthLimitedPeersInv; rfl)).1
  · exact fun state => enet_protocol_change_state_counter hI host peer state h
  · exact fun state => enet_protocol_dispatch_state_counter hI host peer state h
  · exact fun store => enet_peer_reset_counter hI hdr host peer store h
  · exact fun store data mem =>
      enet_peer_disconnect_counter hI hdr _ hflush host peer store data mem h
  · exact fun store data mem =>
      enet_peer_disconnect_later_counter hI hdr _ hflush host peer store data mem h
  · exact fun store data mem =>
      enet_peer_disconnect_now_counter hI hdr _ hflush host peer store data mem h
  · exact fun event command store =>
      enet_protocol_handle_verify_connect_counter hI host event peer command store h
  · exact fun command store =>
      enet_protocol_handle_disconnect_counter hI hdr host peer command store h
  · exact fun event command store mem =>
      enet_protocol_handle_acknowledge_counter hI hdr time _ hflush host event peer
        command store mem h
  · exact fun command => enet_protocol_handle_bandwidth_limit_connected hdr slot host peer command h
  · exact fun event store =>
      enet_protocol_check_timeouts_loop_counter hI hdr time host event store _ peer [] [] h
  · intro flush passes event checkForTimeouts store mem
    rw [enet_protocol_send_outgoing_commands_flush hdr time env flush (fun state => state)]
    exact (enet_protocol_send_outgoing_commands_counter hdr time env (fun state => state)
      (fun h => ConnectedPeersInv h ∧ h.peers.length < 18446744073709551616)
      ConnectedPeersAt connectedPeersAt_invariant
      (fun _ _ _ _ hi => hi)
      (fun slot1 host1 peer1 hi hget => by
        have hindex : slot1 < host1.peers.length := by
          rw [List.get?_eq_getElem?] at hget
          exact (List.getElem?_eq_some_iff.mp hget).1
        exact ⟨hindex, hi.2, by rw [withPeer_of_get? _ _ _ hget]; exact hi.1⟩)
      (fun slot1 host1 peer1 hat => by
        refine ⟨hat.2.2, ?_⟩
        show (host1.peers.set slot1 peer1).length < 18446744073709551616
        rw [List.length_set]
        exact hat.2.1)
      (fun host1 host2 hi hp hc hb => by
        refine ⟨?_, by rw [hp]; exact hi.2⟩
        have h1 := hi.1
        unfold ConnectedPeersInv at h1 ⊢
        rw [hp, hc]
        exact h1)
      passes host event checkForTimeouts store mem ⟨hinv, hlen⟩).1
  · intro command mem
    rcases enet_protocol_handle_connect_slot hdr host command mem with he | ⟨index, p0, p1,
      hget, h0, h1, he⟩
    · rw [he]; exact hinv
    · rw [he]
      exact connectedPeersInv_withPeer host host index p0 p1 hinv hlen rfl rfl hget
        (by simp [ENetPeer.connected, h0]) (by simp [ENetPeer.connected, h1])
  · intro address channelCount data mem
    rcases enet_host_connect_slot hdr host address channelCount data mem with he | ⟨host1,
      index, p0, p1, hp, hc, hb, hget, h0, h1, he⟩
    · rw [he]; exact hinv
    · rw [he]
      exact connectedPeersInv_withPeer host host1 index p0 p1 hinv hlen hp hc hget
        (by simp [ENetPeer.connected, h0]) (by simp [ENetPeer.connected, h1])
  · intro event store r hr
    have hloop := enet_protocol_dispatch_incoming_commands_loop_counter hdr
      (fun h => ConnectedPeersInv h ∧ h.peers.length < 18446744073709551616)
      ConnectedPeersAt connectedPeersAt_invariant
      (fun slot1 host1 peer1 hi hget => by
        have hindex : slot1 < host1.peers.length := by
          rw [List.get?_eq_getElem?] at hget
          exact (List.getElem?_eq_some_iff.mp hget).1
        exact ⟨hindex, hi.2, by rw [withPeer_of_get? _ _ _ hget]; exact hi.1⟩)
      (fun slot1 host1 peer1 hat => by
        refine ⟨hat.2.2, ?_⟩
        show (host1.peers.set slot1 peer1).length < 18446744073709551616
        rw [List.length_set]
        exact hat.2.1)
      (fun host1 host2 hi hp hc hb => by
        refine ⟨?_, by rw [hp]; exact hi.2⟩
        have h1 := hi.1
        unfold ConnectedPeersInv at h1 ⊢
        rw [hp, hc]
        exact h1)
      host.dispatchQueue host event store r ⟨hinv, hlen⟩ hr
    exact hloop.1

/-- C18: `host.bandwidthLimitedPeers` is the number of slots in `CONNECTED` or
`DISCONNECT_LATER` with a non-zero `incomingBandwidth` (`BandwidthLimitedPeersInv`): the host
that `enet_host_create` returns has the property, and it is kept, for the host and the value
of a slot (`BandwidthLimitedPeersAt`), by `enet_protocol_handle_bandwidth_limit`,
`enet_protocol_handle_verify_connect`, `enet_peer_reset` and the other functions that change
the state of a peer (`enet_protocol_change_state`, `enet_protocol_dispatch_state`, the three
disconnects, the `DISCONNECT` and `ACKNOWLEDGE` handlers, `enet_protocol_check_timeouts`), by
`enet_host_flush`, and for the whole host by `enet_protocol_send_outgoing_commands`,
`enet_protocol_handle_connect`, `enet_host_connect` and
`enet_protocol_dispatch_incoming_commands`.  The functions that call `enet_host_flush` are
taken with `enet_host_flush` itself, for every socket, clock, compressor, allocation budget
and number of passes of its sending loop. -/
theorem bandwidthLimitedPeers_invariant (hdr : ENetHeader) (time : ENetTime)
    (env : ENetSendEnvironment) (fuel budget slot : Nat) :
    (∀ (setup : ENetHostSetup) (peerCount channelLimit incomingBandwidth outgoingBandwidth
        mem : Nat) (host : ENetHost),
      (enet_host_create hdr setup peerCount channelLimit incomingBandwidth outgoingBandwidth
        mem).1 = some host → BandwidthLimitedPeersInv host) ∧
    (∀ (host : ENetHost) (peer : ENetPeer), BandwidthLimitedPeersAt slot host peer →
      (∀ store : PacketStore,
        BandwidthLimitedPeersAt slot (enet_host_flush hdr time env fuel budget slot (host, peer, store)).1
          (enet_host_flush hdr time env fuel budget slot (host, peer, store)).2.1) ∧
      (∀ state : ENetPeerState,
        BandwidthLimitedPeersAt slot (enet_protocol_change_state host peer state).1
          (enet_protocol_change_state host peer state).2) ∧
      (∀ state : ENetPeerState,
        BandwidthLimitedPeersAt slot (enet_protocol_dispatch_state host peer state).1
          (enet_protocol_dispatch_state host peer state).2) ∧
      (∀ store : PacketStore,
        BandwidthLimitedPeersAt slot (enet_peer_reset hdr host peer store).1
          (enet_peer_reset hdr host peer store).2.1) ∧
      (∀ (store : PacketStore) (data mem : Nat),
        BandwidthLimitedPeersAt slot
          (enet_peer_disconnect hdr (enet_host_flush hdr time env fuel budget slot) host peer store data
            mem).host
          (enet_peer_disconnect hdr (enet_host_flush hdr time env fuel budget slot) host peer store data
            mem).peer) ∧
      (∀ (store : PacketStore) (data mem : Nat),
        BandwidthLimitedPeersAt slot
          (enet_peer_disconnect_later hdr (enet_host_flush hdr time env fuel budget slot) host peer store data
            mem).host
          (enet_peer_disconnect_later hdr (enet_host_flush hdr time env fuel budget slot) host peer store data
            mem).peer) ∧
      (∀ (store : PacketStore) (data mem : Nat),
        BandwidthLimitedPeersAt slot
          (enet_peer_disconnect_now hdr (enet_host_flush hdr time env fuel budget slot) host peer store data
            mem).host
          (enet_peer_disconnect_now hdr (enet_host_flush hdr time env fuel budget slot) host peer store data
            mem).peer) ∧
      (∀ (event : Option ENetEvent) (command : ENetProtocol) (store : PacketStore),
        BandwidthLimitedPeersAt slot
          (enet_protocol_handle_verify_connect host event peer command store).host
          (enet_protocol_handle_verify_connect host event peer command store).peer) ∧
      (∀ (command : ENetProtocol) (store : PacketStore),
        BandwidthLimitedPeersAt slot (enet_protocol_handle_disconnect hdr host peer command store).host
          (enet_protocol_handle_disconnect hdr host peer command store).peer) ∧
      (∀ (event : Option ENetEvent) (command : ENetProtocol) (store : PacketStore)
          (mem : Nat),
        BandwidthLimitedPeersAt slot
          (enet_protocol_handle_acknowledge hdr time
            (enet_host_flush hdr time env fuel budget slot) host event peer command store mem).host
          (enet_protocol_handle_acknowledge hdr time
            (enet_host_flush hdr time env fuel budget slot) host event peer command store mem).peer) ∧
      (∀ command : ENetProtocol,
        BandwidthLimitedPeersAt slot (enet_protocol_handle_bandwidth_limit hdr host peer command).2.1
          (enet_protocol_handle_bandwidth_limit hdr host peer command).2.2) ∧
      (∀ (event : Option ENetEvent) (store : PacketStore),
        BandwidthLimitedPeersAt slot (enet_protocol_check_timeouts hdr time host peer event store).host
          (enet_protocol_check_timeouts hdr time host peer event store).peer)) ∧
    (∀ host : ENetHost, BandwidthLimitedPeersInv host → host.peers.length < 18446744073709551616 →
      (∀ (flush : ENetHost × ENetPeer × PacketStore → ENetHost × ENetPeer × PacketStore)
          (passes : Nat) (event : Option ENetEvent) (checkForTimeouts : Int)
          (store : PacketStore) (mem : Nat),
        BandwidthLimitedPeersInv (enet_protocol_send_outgoing_commands hdr time env flush passes host event
          checkForTimeouts store mem).2.host) ∧
      (∀ (command : ENetProtocol) (mem : Nat),
        BandwidthLimitedPeersInv (enet_protocol_handle_connect hdr host command mem).host) ∧
      (∀ (address : ENetAddress) (channelCount data mem : Nat),
        BandwidthLimitedPeersInv (enet_host_connect hdr host address channelCount data mem).host) ∧
      (∀ (event : ENetEvent) (store : PacketStore) (r : DispatchEventResult),
        enet_protocol_dispatch_incoming_commands hdr host event store = some r →
        BandwidthLimitedPeersInv r.host)) := by
  have hI := bandwidthLimitedPeersAt_invariant slot
  have hflush : ∀ h p s, BandwidthLimitedPeersAt slot h p →
      BandwidthLimitedPeersAt slot (enet_host_flush hdr time env fuel budget slot (h, p, s)).1
        (enet_host_flush hdr time env fuel budget slot (h, p, s)).2.1 :=
    fun h p s hi => enet_host_flush_bandwidthLimited hdr time env fuel budget slot h p s hi
  refine ⟨?_, fun host peer h => ⟨fun store => hflush host peer store h, ?_, ?_, ?_, ?_, ?_,
    ?_, ?_, ?_, ?_, ?_, ?_⟩, fun host hinv hlen => ⟨?_, ?_, ?_, ?_⟩⟩
  · intro setup peerCount channelLimit incomingBandwidth outgoingBandwidth mem host hcreate
    unfold enet_host_create at hcreate
    split at hcreate
    · cases hcreate
    split at hcreate
    · cases hcreate
    split at hcreate
    · cases hcreate
    split at hcreate
    · cases hcreate
    dsimp only at hcreate
    have hhost := Option.some.inj hcreate
    rw [← hhost]
    exact (enet_host_create_peers_counter hdr peerCount 0 _
      (by unfold ConnectedPeersInv; rfl) (by unfold BandwidthLimitedPeersInv; rfl)).2
  · exact fun state => enet_protocol_change_state_counter hI host peer state h
  · exact fun state => enet_protocol_dispatch_state_counter hI host peer state h
  · exact fun store => enet_peer_reset_counter hI hdr host peer store h
  · exact fun store data mem =>
      enet_peer_disconnect_counter hI hdr _ hflush host peer store data mem h
  · exact fun store data mem =>
      enet_peer_disconnect_later_counter hI hdr _ hflush host peer store data mem h
  · exact fun store data mem =>
      enet_peer_disconnect_now_counter hI hdr _ hflush host peer store data mem h
  · exact fun event command store =>
      enet_protocol_handle_verify_connect_counter hI host event peer command store h
  · exact fun command store =>
      enet_protocol_handle_disconnect_counter hI hdr host peer command store h
  · exact fun event command store mem =>
      enet_protocol_handle_acknowledge_counter hI hdr time _ hflush host event peer
        command store mem h
  · exact fun command => enet_protocol_handle_bandwidth_limit_limited hdr slot host peer command h
  · exact fun event store =>
      enet_protocol_check_timeouts_loop_counter hI hdr time host event store _ peer [] [] h
  · intro flush passes event checkForTimeouts store mem
    rw [enet_protocol_send_outgoing_commands_flush hdr time env flush (fun state => state)]
    exact (enet_protocol_send_outgoing_commands_counter hdr time env (fun state => state)
      (fun h => BandwidthLimitedPeersInv h ∧ h.peers.length < 18446744073709551616)
      BandwidthLimitedPeersAt bandwidthLimitedPeersAt_invariant
      (fun _ _ _ _ hi => hi)
      (fun slot1 host1 peer1 hi hget => by
        have hindex : slot1 < host1.peers.length := by
          rw [List.get?_eq_getElem?] at hget
          exact (List.getElem?_eq_some_iff.mp hget).1
        exact ⟨hindex, hi.2, by rw [withPeer_of_get? _ _ _ hget]; exact hi.1⟩)
      (fun slot1 host1 peer1 hat => by
        refine ⟨hat.2.2, ?_⟩
        show (host1.peers.set slot1 peer1).length < 18446744073709551616
        rw [List.length_set]
        exact hat.2.1)
      (fun host1 host2 hi hp hc hb => by
        refine ⟨?_, by rw [hp]; exact hi.2⟩
        have h1 := hi.1
        unfold BandwidthLimitedPeersInv at h1 ⊢
        rw [hp, hb]
        exact h1)
      passes host event checkForTimeouts store mem ⟨hinv, hlen⟩).1
  · intro command mem
    rcases enet_protocol_handle_connect_slot hdr host command mem with he | ⟨index, p0, p1,
      hget, h0, h1, he⟩
    · rw [he]; exact hinv
    · rw [he]
      exact bandwidthLimitedPeersInv_withPeer host host index p0 p1 hinv hlen rfl rfl hget
        (by simp [ENetPeer.connected, h0]) (by simp [ENetPeer.connected, h1])
  · intro address channelCount data mem
    rcases enet_host_connect_slot hdr host address channelCount data mem with he | ⟨host1,
      index, p0, p1, hp, hc, hb, hget, h0, h1, he⟩
    · rw [he]; exact hinv
    · rw [he]
      exact bandwidthLimitedPeersInv_withPeer host host1 index p0 p1 hinv hlen hp hb hget
        (by simp [ENetPeer.connected, h0]) (by simp [ENetPeer.connected, h1])
  · intro event store r hr
    have hloop := enet_protocol_dispatch_incoming_commands_loop_counter hdr
      (fun h => BandwidthLimitedPeersInv h ∧ h.peers.length < 18446744073709551616)
      BandwidthLimitedPeersAt bandwidthLimitedPeersAt_invariant
      (fun slot1 host1 peer1 hi hget => by
        have hindex : slot1 < host1.peers.length := by
          rw [List.get?_eq_getElem?] at hget
          exact (List.getElem?_eq_some_iff.mp hget).1
        exact ⟨hindex, hi.2, by rw [withPeer_of_get? _ _ _ hget]; exact hi.1⟩)
      (fun slot1 host1 peer1 hat => by
        refine ⟨hat.2.2, ?_⟩
        show (host1.peers.set slot1 peer1).length < 18446744073709551616
        rw [List.length_set]
        exact hat.2.1)
      (fun host1 host2 hi hp hc hb => by
        refine ⟨?_, by rw [hp]; exact hi.2⟩
        have h1 := hi.1
        unfold BandwidthLimitedPeersInv at h1 ⊢
        rw [hp, hb]
        exact h1)
      host.dispatchQueue host event store r ⟨hinv, hlen⟩ hr
    exact hloop.1

/-- Witness of C17: the sample host counts its one connected peer; after
`enet_peer_disconnect_now` of that peer, which sends the `DISCONNECT` command through
`enet_host_flush` in one datagram, it counts none. -/
theorem connectedPeers_invariant_witness :
    ConnectedPeersAt 0 sampleHost samplePeer ∧
    ConnectedPeersAt 0 sampleDisconnectedNow.host sampleDisconnectedNow.peer ∧
    sampleDisconnectedNow.host.connectedPeers = 0 ∧
    sampleDisconnectedNow.host.totalSentPackets = 1 ∧
    sampleDisconnectedNow.peer.state = ENetPeerState.DISCONNECTED :=
  ⟨⟨by decide, by decide, by unfold ConnectedPeersInv; decide⟩,
   (((connectedPeers_invariant sampleHeader sampleTime sampleSendEnvironment 2 4 0).2.1
      sampleHost samplePeer
      ⟨by decide, by decide, by unfold ConnectedPeersInv; decide⟩).2.2.2.2.2.2.1 [] 7 4),
   by decide, by decide, by decide⟩

/-- Witness of C18: a host that counts its one bandwidth limited peer counts none after
`enet_peer_disconnect_now` of that peer, which sends the `DISCONNECT` command through
`enet_host_flush` in one datagram. -/
theorem bandwidthLimitedPeers_invariant_witness :
    BandwidthLimitedPeersAt 0 sampleLimitedHost sampleLimitedPeer ∧
    BandwidthLimitedPeersAt 0 sampleLimitedDisconnectedNow.host
      sampleLimitedDisconnectedNow.peer ∧
    sampleLimitedDisconnectedNow.host.bandwidthLimitedPeers = 0 ∧
    sampleLimitedDisconnectedNow.host.totalSentPackets = 1 ∧
    sampleLimitedDisconnectedNow.peer.state = ENetPeerState.DISCONNECTED :=
  ⟨⟨by decide, by decide, by unfold BandwidthLimitedPeersInv; decide⟩,
   (((bandwidthLimitedPeers_invariant sampleHeader sampleTime sampleSendEnvironment 2 4 0).2.1
      sampleLimitedHost sampleLimitedPeer
      ⟨by decide, by decide, by unfold BandwidthLimitedPeersInv; decide⟩).2.2.2.2.2.2.1 [] 7 4),
   by decide, by decide, by decide⟩

/-! ## A duplicate behind the current number of a channel -/

/-- The search for the insertion point of the command numbered one above the current number
of `sampleStaleChannel` passes the two queued commands, which are behind the current
number. -/
theorem sampleStale_scan (c : Nat) (h1 : 6 ≤ c) :
    queueIncomingScan (sampleStaleChannel c) (sampleSendReliable (c + 1)) = .after 2 := by
  have hcmd : (sampleSendReliable (c + 1)).command = 134 := rfl
  have hrsn : queueIncomingReliableSequenceNumber (sampleSendReliable (c + 1)) = c + 1 := by
    unfold queueIncomingReliableSequenceNumber
    rw [hcmd, if_pos (by decide)]
    rfl
  have hrel : queueIncomingIsReliable (sampleSendReliable (c + 1)) = true := by
    unfold queueIncomingIsReliable
    rw [hcmd]
    decide
  unfold queueIncomingScan
  rw [hrel, hrsn, if_pos rfl]
  have hcur : (sampleStaleChannel c).incomingReliableSequenceNumber = c := rfl
  have hq : (sampleStaleChannel c).incomingReliableCommands.reverse
      = [sampleStaleEntry 2, sampleStaleEntry 5] := rfl
  rw [hcur, hq, if_neg (by omega)]
  have h2 : (sampleStaleEntry 2).reliableSequenceNumber = 2 := rfl
  have h5 : (sampleStaleEntry 5).reliableSequenceNumber = 5 := rfl
  unfold reliableInsertScan
  rw [h2, if_pos (by omega)]
  unfold reliableInsertScan
  rw [h5, if_pos (by omega)]
  rfl

/-- The command numbered one above the current number of `sampleStaleChannel` is inside the
window. -/
theorem sampleStale_window (c : Nat) (h2 : c < 65535) :
    ¬ queueIncomingWindowRejects (sampleStaleChannel c) (sampleSendReliable (c + 1)) := by
  have hcmd : (sampleSendReliable (c + 1)).command = 134 := rfl
  have hrsn : queueIncomingReliableSequenceNumber (sampleSendReliable (c + 1)) = c + 1 := by
    unfold queueIncomingReliableSequenceNumber
    rw [hcmd, if_pos (by decide)]
    rfl
  have hcur : (sampleStaleChannel c).incomingReliableSequenceNumber = c := rfl
  unfold queueIncomingWindowRejects
  rw [hrsn, hcur, hcmd]
  unfold reliableWindowOf ENET_PEER_RELIABLE_WINDOW_SIZE ENET_PEER_FREE_RELIABLE_WINDOWS
  dsimp only
  rw [if_neg (by omega)]
  intro h
  omega


/-- The dispatch loop of `sampleStaleChannel` with the next command linked in front passes
that command and stops at the command numbered 5. -/
theorem sampleStale_loop (c : Nat) (h1 : 6 ≤ c) (h2 : c < 65535) :
    enet_peer_dispatch_incoming_reliable_loop
      [sampleStaleEntry (c + 1), sampleStaleEntry 5, sampleStaleEntry 2] c = (1, c + 1) := by
  have hn : (sampleStaleEntry (c + 1)).reliableSequenceNumber = c + 1 := rfl
  have hr : (sampleStaleEntry (c + 1)).fragmentsRemaining = 0 := rfl
  have hf : (sampleStaleEntry (c + 1)).fragmentCount = 0 := rfl
  have h5 : (sampleStaleEntry 5).reliableSequenceNumber = 5 := rfl
  unfold enet_peer_dispatch_incoming_reliable_loop
  rw [hn, hr, hf, if_neg (by unfold u16; omega)]
  dsimp only
  rw [if_neg (by omega)]
  unfold enet_peer_dispatch_incoming_reliable_loop
  rw [h5, if_pos (Or.inr (by unfold u16; omega))]

/-- Linking a reliable command in front of the queue of a channel when the dispatch loop
passes exactly that command: it is moved to the dispatched queue of the peer, which is on
the dispatch queue already, and the channel is left with its queue and the new number. -/
theorem queueIncomingLink_front (host : ENetHost) (peer : ENetPeer) (channel : ENetChannel)
    (command : ENetProtocol) (packet : ENetPacket) (fragments : Option (List Nat))
    (fragmentCount skipped mem seq : Nat)
    (hrel : queueIncomingIsReliable command = true)
    (hskip : channel.incomingReliableCommands.length = skipped)
    (hu : channel.incomingUnreliableCommands = [])
    (hflag : peer.needsDispatch = true)
    (hloop : enet_peer_dispatch_incoming_reliable_loop
      ({ reliableSequenceNumber := command.reliableSequenceNumber,
         unreliableSequenceNumber := queueIncomingUnreliableSequenceNumber command &&& 0xFFFF,
         command := command, fragmentCount := fragmentCount,
         fragmentsRemaining := fragmentCount, fragments := fragments,
         packet := { packet with referenceCount := usize (packet.referenceCount + 1) } }
        :: channel.incomingReliableCommands)
      channel.incomingReliableSequenceNumber = (1, seq)) :
    queueIncomingLink host peer channel command packet fragments fragmentCount skipped mem
      = { ret := .queued (.inDispatched peer.dispatchedCommands.length), host := host,
          peer := { peer with
            totalWaitingData := usize (peer.totalWaitingData + packet.dataLength),
            dispatchedCommands := peer.dispatchedCommands ++
              [{ reliableSequenceNumber := command.reliableSequenceNumber,
                 unreliableSequenceNumber :=
                   queueIncomingUnreliableSequenceNumber command &&& 0xFFFF,
                 command := command, fragmentCount := fragmentCount,
                 fragmentsRemaining := fragmentCount, fragments := fragments,
                 packet := { packet with
                   referenceCount := usize (packet.referenceCount + 1) } }],
            channels := peer.channels.set command.channelID
              { channel with incomingReliableSequenceNumber := seq,
                             incomingUnreliableSequenceNumber := 0 } },
          mem := mem } := by
  unfold queueIncomingLink
  rw [if_pos hrel]
  dsimp only
  rw [hskip, Nat.sub_self, List.take_zero, List.drop_zero, List.nil_append]
  unfold enet_peer_dispatch_incoming_reliable_commands
  dsimp only
  rw [hloop]
  dsimp only
  rw [if_neg (by decide), if_neg (by rw [hu]; exact fun h => h rfl)]
  unfold linkDispatch
  rw [hflag]
  dsimp only
  rw [if_neg (by decide)]
  unfold locateInserted
  dsimp only
  rw [if_pos (by simp)]
  simp

/-- Linking the next command into `sampleStaleChannel`: it is delivered and the channel moves
to its number, the two queued commands staying. -/
theorem sampleStale_link (c : Nat) (h1 : 6 ≤ c) (h2 : c < 65535) :
    queueIncomingLink sampleStaleHost (sampleStalePeer c) (sampleStaleChannel c)
        (sampleSendReliable (c + 1))
        { referenceCount := 0,
          flags := { reliable := true, unsequenced := false, noAllocate := false,
                     unreliableFragment := false, sent := false },
          data := [1, 2, 3, 4], dataLength := 4 } none 0 2 5
      = { ret := .queued (.inDispatched 0), host := sampleStaleHost,
          peer := { sampleStalePeer (c + 1) with
            dispatchedCommands := [sampleStaleEntry (c + 1)], totalWaitingData := 12 },
          mem := 5 } := by
  have hrel : queueIncomingIsReliable (sampleSendReliable (c + 1)) = true := by
    unfold queueIncomingIsReliable
    rw [show (sampleSendReliable (c + 1)).command = 134 from rfl]
    decide
  have husn : queueIncomingUnreliableSequenceNumber (sampleSendReliable (c + 1)) = 0 := by
    unfold queueIncomingUnreliableSequenceNumber
    rw [show (sampleSendReliable (c + 1)).command = 134 from rfl, if_neg (by decide)]
  rw [queueIncomingLink_front sampleStaleHost (sampleStalePeer c) (sampleStaleChannel c)
    (sampleSendReliable (c + 1))
    { referenceCount := 0,
      flags := { reliable := true, unsequenced := false, noAllocate := false,
                 unreliableFragment := false, sent := false },
      data := [1, 2, 3, 4], dataLength := 4 } none 0 2 5 (c + 1) hrel rfl rfl rfl
    (by rw [husn]; exact sampleStale_loop c h1 h2), husn]
  rfl

/-- The handler of `SEND_RELIABLE` on `sampleStalePeer` for the next number, from 7 to
65535: it returns 0, delivers the command and moves the channel to its number, the two
queued commands staying. -/
theorem sampleStale_step (c : Nat) (h1 : 6 ≤ c) (h2 : c < 65535) :
    enet_protocol_handle_send_reliable sampleStaleHost (sampleStalePeer c)
        (sampleSendReliable (c + 1)) [1, 2, 3, 4] 8
      = some { status := 0, host := sampleStaleHost,
               peer := { sampleStalePeer (c + 1) with
                 dispatchedCommands := [sampleStaleEntry (c + 1)], totalWaitingData := 12 },
               currentData := [], mem := 5 } := by
  have hq : enet_peer_queue_incoming_command sampleStaleHost (sampleStalePeer c)
      (sampleSendReliable (c + 1)) (some [1, 2, 3, 4]) 4
      { reliable := true, unsequenced := false, noAllocate := false,
        unreliableFragment := false, sent := false } 0 8
      = some (queueIncomingLink sampleStaleHost (sampleStalePeer c) (sampleStaleChannel c)
        (sampleSendReliable (c + 1))
        { referenceCount := 0,
          flags := { reliable := true, unsequenced := false, noAllocate := false,
                     unreliableFragment := false, sent := false },
          data := [1, 2, 3, 4], dataLength := 4 } none 0 2 5) := by
    unfold enet_peer_queue_incoming_command
    rw [show (sampleStalePeer c).channels.get? (sampleSendReliable (c + 1)).channelID
      = some (sampleStaleChannel c) from rfl]
    dsimp only
    rw [if_neg (by
        rw [show (sampleStalePeer c).state = ENetPeerState.CONNECTED from rfl]; decide),
      if_neg (sampleStale_window c h2), sampleStale_scan c h1]
    rfl
  change (match enet_peer_queue_incoming_command sampleStaleHost (sampleStalePeer c)
      (sampleSendReliable (c + 1)) (some [1, 2, 3, 4]) 4
      { reliable := true, unsequenced := false, noAllocate := false,
        unreliableFragment := false, sent := false } 0 8 with
    | none => none
    | some q => some (handleSendQueued q [])) = _
  rw [hq, sampleStale_link c h1 h2]
  rfl

/-- Feeding commands in order to `sampleStalePeer` moves its channel forward, one number per
command, the two queued commands staying. -/
theorem handleSendReliableInOrder_stale :
    ∀ (count c : Nat), 6 ≤ c → c + count ≤ 65535 →
      handleSendReliableInOrder count sampleStaleHost (sampleStalePeer c)
        = some (sampleStaleHost, sampleStalePeer (c + count)) := by
  intro count
  induction count with
  | zero => intro c _ _; rfl
  | succ count ih =>
    intro c h1 h2
    unfold handleSendReliableInOrder
    rw [show (sampleStalePeer c).channels.get? 0 = some (sampleStaleChannel c) from rfl]
    dsimp only
    rw [show (sampleStaleChannel c).incomingReliableSequenceNumber = c from rfl,
      sampleStale_step c h1 (by omega)]
    dsimp only
    rw [if_pos rfl]
    have hreceive : (enet_peer_receive
        { sampleStalePeer (c + 1) with
          dispatchedCommands := [sampleStaleEntry (c + 1)], totalWaitingData := 12 }).2
        = sampleStalePeer (c + 1) := by
      have hsub : usizeSub 12 4 = 8 := by decide
      unfold enet_peer_receive
      dsimp only
      rw [show usizeSub 12 (sampleStaleEntry (c + 1)).packet.dataLength = 8 from hsub]
      rfl
    rw [hreceive, ih (c + 1) (by omega) (by omega), show c + 1 + count = c + (count + 1) from by omega]

set_option maxRecDepth 20000 in
/-- Counterexample to C6 as stated.  The sample peer, its channel at number 0, receives two
of three fragments numbered 1 to 3, a `SEND_RELIABLE` command numbered 2, the third
fragment, a `SEND_RELIABLE` command numbered 5 and three fragments numbered 4 to 6; every
handler returns 0, and with the two packets taken by `enet_peer_receive` the channel is at
number 6 with the commands 5 and 2 left in its queue, behind the current number.  40954
`SEND_RELIABLE` commands in order, each delivered and taken, move the channel to number
40960 with the same queue.  A second `SEND_RELIABLE` command numbered 5 is now inside the
window (5 counts as wrapped), the backwards search stops at the queued command 2 before it
reaches the queued command 5, and the command is queued behind it: the handler returns 0 and
the queue holds the number 5 twice. -/
theorem enet_peer_queue_incoming_command_queues_duplicate :
    sampleStaleReceived.map (fun r => r.status) = some 0 ∧
    sampleStaleStart = some (sampleStaleHost, sampleStalePeer 6) ∧
    handleSendReliableInOrder 40954 sampleStaleHost (sampleStalePeer 6)
      = some (sampleStaleHost, sampleStalePeer 40960) ∧
    (sampleStalePeer 40960).channels.map (fun c =>
        (c.incomingReliableSequenceNumber,
         c.incomingReliableCommands.map (fun ic => ic.reliableSequenceNumber)))
      = [(40960, [5, 2])] ∧
    (enet_peer_queue_incoming_command sampleStaleHost (sampleStalePeer 40960)
        (sampleSendReliable 5) (some [1, 2, 3, 4]) 4
        { reliable := true, unsequenced := false, noAllocate := false,
          unreliableFragment := false, sent := false } 0 8).map (fun q => q.ret)
      = some (.queued (.inReliable 2)) ∧
    (enet_peer_queue_incoming_command sampleStaleHost (sampleStalePeer 40960)
        (sampleSendReliable 5) (some [1, 2, 3, 4]) 4
        { reliable := true, unsequenced := false, noAllocate := false,
          unreliableFragment := false, sent := false } 0 8).map
      (fun q => q.peer.channels.map (fun c =>
        (c.incomingReliableSequenceNumber,
         c.incomingReliableCommands.map (fun ic => ic.reliableSequenceNumber))))
      = some [(40960, [5, 2, 5])] ∧
    (enet_protocol_handle_send_reliable sampleStaleHost (sampleStalePeer 40960)
        (sampleSendReliable 5) [1, 2, 3, 4] 8).map (fun r => r.status) = some 0 :=
  ⟨by decide, by decide, handleSendReliableInOrder_stale 40954 6 (by decide) (by decide),
    by decide, by decide, by decide, by decide⟩

/-! ## The fuel of the sending loop -/

/-- A run of the sending loop that does not end for lack of fuel is the same with more
fuel: status and state at the exit do not depend on the fuel once it suffices. -/
theorem sendOutgoingLoop_fuel (hdr : ENetHeader) (time : ENetTime) (env : ENetSendEnvironment)
    (flush : ENetHost × ENetPeer × PacketStore → ENetHost × ENetPeer × PacketStore)
    (checkForTimeouts : Int) (more : Nat) :
    ∀ (fuel : Nat) (st : SendOutgoingState),
      (sendOutgoingLoop hdr time env flush checkForTimeouts fuel st).1 ≠ SendExit.outOfFuel →
      sendOutgoingLoop hdr time env flush checkForTimeouts (fuel + more) st
        = sendOutgoingLoop hdr time env flush checkForTimeouts fuel st := by
  intro fuel
  induction fuel with
  | zero =>
    intro st h
    unfold sendOutgoingLoop at h
    by_cases hc : st.host.continueSending = 0
    · cases more with
      | zero => rfl
      | succ more =>
        rw [show 0 + (more + 1) = more + 1 from by omega]
        unfold sendOutgoingLoop
        rw [if_pos hc, if_pos hc]
    · rw [if_neg hc] at h
      exact absurd rfl h
  | succ fuel ih =>
    intro st h
    rw [show fuel + 1 + more = (fuel + more) + 1 from by omega]
    unfold sendOutgoingLoop at h ⊢
    by_cases hc : st.host.continueSending = 0
    · rw [if_pos hc, if_pos hc]
    · rw [if_neg hc] at h
      rw [if_neg hc, if_neg hc]
      generalize sendOutgoingPass hdr time env flush checkForTimeouts st.host.peerCount 0
        { st with host := { st.host with continueSending := 0 } } = res at h ⊢
      obtain ⟨step, st1⟩ := res
      cases step with
      | next => exact ih st1 h
      | returned status => rfl
      | undefined => rfl

/-- A call of `enet_protocol_send_outgoing_commands` that does not end for lack of fuel is
the same with more fuel. -/
theorem enet_protocol_send_outgoing_commands_fuel (hdr : ENetHeader) (time : ENetTime)
    (env : ENetSendEnvironment)
    (flush : ENetHost × ENetPeer × PacketStore → ENetHost × ENetPeer × PacketStore)
    (fuel more : Nat) (host : ENetHost) (event : Option ENetEvent) (checkForTimeouts : Int)
    (store : PacketStore) (mem : Nat)
    (h : (enet_protocol_send_outgoing_commands hdr time env flush fuel host event
      checkForTimeouts store mem).1 ≠ SendExit.outOfFuel) :
    enet_protocol_send_outgoing_commands hdr time env flush (fuel + more) host event
        checkForTimeouts store mem
      = enet_protocol_send_outgoing_commands hdr time env flush fuel host event
          checkForTimeouts store mem := by
  unfold enet_protocol_send_outgoing_commands at h ⊢
  exact sendOutgoingLoop_fuel hdr time env flush checkForTimeouts more fuel _ h

/-- The sending of the sample host with the `DISCONNECT` command of its peer queued returns
0 after two passes over the slots: one that sends the datagram and one that finds nothing
left to send. -/
theorem enet_protocol_send_outgoing_commands_sample_returns :
    (enet_protocol_send_outgoing_commands sampleHeader sampleTime sampleSendEnvironment
      (fun state => state) 2
      { sampleHost with peers := [sampleDisconnecting.peer] } none 0 [] 4).1
      = SendExit.returned 0 := by
  decide

end ENet
